import Mathlib

set_option linter.unusedTactic false
set_option linter.unreachableTactic false
set_option linter.unusedVariables false

/-! # zipdump: a verification development

A shallow embedding of `src/zipdump.cpp` (the ZIP structure dumper of win32cmdx)
and theorems about it.

* The input `FILE* fin` is a `Stream`: the bytes of the file, the cursor and the
  end-of-file indicator.  `getc`, `fseek`, `ftell` and `feof` act on it as the C
  library does on a file opened with mode "rb".
* The output `FILE* fout` is the list of `Line`s written to it, one constructor
  per kind of line the program prints.
* A C function that reads `fin` and writes `fout` is a `Dump α`: it takes the
  stream and returns its value, the lines it wrote and the stream it leaves.
* A reference parameter (`uint16& val`) is passed in and returned.
-/

namespace ZipDump

/-! ## The byte source -/

/-- One byte of the input file. -/
abbrev Byte := Fin 256

/-- The input file `fin`: its bytes, the cursor and the end-of-file indicator.
The cursor may stand beyond the last byte (after a forward `fseek`). -/
structure Stream where
  data : List Byte
  pos : Nat
  eof : Bool
deriving DecidableEq

/-- The bytes from the cursor to the end of the file. -/
def Stream.rest (s : Stream) : List Byte := s.data.drop s.pos

/-- The stream with the cursor moved `n` bytes forward by reading. -/
def Stream.adv (s : Stream) (n : Nat) : Stream := { s with pos := s.pos + n }

/-- The stream after a successful forward `fseek` of `n` bytes: the cursor
moves and the end-of-file indicator is cleared. -/
def Stream.skip (s : Stream) (n : Nat) : Stream := { s with pos := s.pos + n, eof := false }

/-! ## The output sink -/

/-- How a field value is rendered: `%u`, `0x%0NX`, or both. -/
inductive Shown
  | dec
  | hex
  | dechex
deriving DecidableEq

/-- One line (or text run) written to `fout`. -/
inductive Line
  /-- The line of `Print_section`: `[name]` or `[name #n]`, with the offset when shown. -/
  | sect (name : String) (n : Option Int) (offset : Option Nat)
  /-- The line of `Print_u`, `Print_x`, `Print_ux` for a field of `bytes` bytes. -/
  | field (label : String) (bytes : Nat) (value : Nat) (shown : Shown)
  /-- The line of `Print_note`. -/
  | note (text : String)
  /-- The line of `Printf_note`: format string and arguments. -/
  | notef (fmt : String) (args : List Nat)
  /-- The note of `Print_filetime` for a 64-bit FILETIME value. -/
  | filetime (quad : Nat)
  /-- The note of `Print_date_and_time` for a DOS time and date. -/
  | dosDateTime (time : Nat) (date : Nat)
  /-- The note of `Print_UTC` for a 32-bit time value. -/
  | utc (time : Nat)
  /-- The first line of `Print_extra`: `[-name]`. -/
  | extra (name : String)
  /-- The characters written by `Dump_string`, before its final newline. -/
  | text (chars : List Nat)
  /-- A row of `Dump_bytes`: the running offset and the bytes of the row. -/
  | hexrow (offset : Nat) (row : List Nat)
  /-- The omit mark of `Dump_bytes`. -/
  | omitMark
  /-- The line of `SkipUnknownData`: `!! Skip unknown data N bytes`. -/
  | skipUnknown (size : Nat)
  /-- The summary line of `Dump_if_fulldump` when the bytes are skipped. -/
  | skipNote (caption : String) (length : Nat)
  /-- A fixed line written by `fputs`. -/
  | puts (text : String)
deriving DecidableEq

/-! ## Functions that read `fin` and write `fout` -/

/-- The result of running a function: its value, the lines it wrote to `fout`
and the stream `fin` as it leaves it. -/
structure Res (α : Type) where
  val : α
  out : List Line
  fin : Stream

/-- A function of the program that reads `fin` and writes `fout`. -/
def Dump (α : Type) : Type := Stream → Res α

/-- Return a value, reading and writing nothing. -/
def Dump.ret {α : Type} (a : α) : Dump α := fun s => ⟨a, [], s⟩

/-- Run `m`, then `k` on its value and on the stream it leaves; the lines of `m`
come before those of `k`. -/
def Dump.andThen {α β : Type} (m : Dump α) (k : α → Dump β) : Dump β := fun s =>
  ⟨(k (m s).val (m s).fin).val, (m s).out ++ (k (m s).val (m s).fin).out,
    (k (m s).val (m s).fin).fin⟩

instance : Monad Dump where
  pure := Dump.ret
  bind := Dump.andThen

/-- The result `r` with the lines `o` written before its own. -/
def Res.after {α : Type} (o : List Line) (r : Res α) : Res α := ⟨r.val, o ++ r.out, r.fin⟩

/-- Write lines to `fout`. -/
def say (ls : List Line) : Dump Unit := fun s => ⟨(), ls, s⟩

/-- C `getc(fin)`: the byte at the cursor, or `none` for `EOF`, which sets the
end-of-file indicator. -/
def getc : Dump (Option Nat) := fun s =>
  match s.data[s.pos]? with
  | some b => ⟨some b.val, [], { s with pos := s.pos + 1 }⟩
  | none => ⟨none, [], { s with eof := true }⟩

/-- C `_fseeki64(fin, off, SEEK_CUR)`: moves the cursor and clears the
end-of-file indicator; a seek to before the start of the file fails and
changes nothing. -/
def fseek (off : Int) : Dump Unit := fun s =>
  if 0 ≤ (s.pos : Int) + off then
    ⟨(), [], { s with pos := ((s.pos : Int) + off).toNat, eof := false }⟩
  else ⟨(), [], s⟩

/-- C `_ftelli64(fin)`. -/
def ftell : Dump Nat := fun s => ⟨s.pos, [], s⟩

/-- C `feof(fin)`. -/
def feof : Dump Bool := fun s => ⟨s.eof, [], s⟩

/-! ## Little endian read -/

/-- `Read8`: `fread` of one byte into `val`; `val` is untouched when no byte is left. -/
def Read8 (val : Nat) : Dump (Bool × Nat) := do
  match (← getc) with
  | some b => pure (true, b)
  | none => pure (false, val)

/-- `Read16`: the locals `lo`, `hi` are uninitialised in the source and are
only used after both reads succeeded. -/
def Read16 (val : Nat) : Dump (Bool × Nat) := do
  let (ok1, lo) ← Read8 0
  if ok1 then
    let (ok2, hi) ← Read8 0
    if ok2 then pure (true, ((hi <<< 8) + lo) % 2 ^ 16) else pure (false, val)
  else pure (false, val)

/-- `Read32`. -/
def Read32 (val : Nat) : Dump (Bool × Nat) := do
  let (ok1, lo) ← Read16 0
  if ok1 then
    let (ok2, hi) ← Read16 0
    if ok2 then pure (true, ((hi <<< 16) + lo) % 2 ^ 32) else pure (false, val)
  else pure (false, val)

/-- `Read64`. -/
def Read64 (val : Nat) : Dump (Bool × Nat) := do
  let (ok1, lo) ← Read32 0
  if ok1 then
    let (ok2, hi) ← Read32 0
    if ok2 then pure (true, ((hi <<< 32) + lo) % 2 ^ 64) else pure (false, val)
  else pure (false, val)

/-- The little-endian value of a byte sequence: `sum b_i * 256 ^ i`. -/
def le : List Byte → Nat
  | [] => 0
  | b :: t => b.val + 256 * le t

/-- The stream with the end-of-file indicator replaced. -/
def Stream.withEof (s : Stream) (e : Bool) : Stream := { s with eof := e }

/-- The stream after a read ran into the end of the file: every remaining byte
is consumed and the end-of-file indicator is set. -/
def Stream.hitEof (s : Stream) : Stream :=
  { s with pos := s.pos + s.rest.length, eof := true }


/-! ## Option settings -/

/-- The option settings of the program (`-f`, `-q`, `-o`), and the value the
uninitialised local `flags` of `Dump_extra_ExtendedTimestamp` happens to hold. -/
structure Config where
  gIsFullDump : Bool
  gQuiet : Bool
  gOmitSameHexDumpLine : Bool
  uninit_flags : Nat

/-- The type `size_t` of the Win32 build is 32 bits wide. -/
def SIZE_T : Nat := 2 ^ 32

/-! ## Print a field -/

/-- `Print_u` for a field of `bytes` bytes. -/
def Print_u (label : String) (bytes a : Nat) : List Line := [Line.field label bytes a Shown.dec]

/-- `Print_x` for a field of `bytes` bytes. -/
def Print_x (label : String) (bytes a : Nat) : List Line := [Line.field label bytes a Shown.hex]

/-- `Print_ux` for a field of `bytes` bytes. -/
def Print_ux (label : String) (bytes a : Nat) : List Line :=
  [Line.field label bytes a Shown.dechex]

/-- `Print_uFF`, defined in the source for `uint16` and `uint32`. -/
def Print_uFF (label : String) (bytes a : Nat) : List Line :=
  if bytes = 2 then
    if a ≠ 0xffff then Print_u label bytes a else Print_x label bytes a
  else
    if a ≠ 0xffffffff then Print_u label bytes a else Print_x label bytes a

/-- `Print_note`. -/
def Print_note (note : String) : List Line := [Line.note note]

/-- `Printf_note` with its format string and arguments. -/
def Printf_note (fmt : String) (args : List Nat) : List Line := [Line.notef fmt args]

/-- `Print_section`; `n < 0` stands for the default argument `-1`.  The offset
comes from `_ftelli64` and is never negative, so it is shown unless quiet. -/
def Print_section (cfg : Config) (name : String) (offset : Nat) (n : Int) : List Line :=
  [Line.sect name (if n < 0 then none else some n) (if !cfg.gQuiet then some offset else none)]

/-- `Print_header`. -/
def Print_header (cfg : Config) (name : String) (signature : Nat) (offset : Nat) (n : Int) :
    List Line :=
  Print_section cfg name offset n ++ Print_x "header signature" 4 signature

/-- `Print_extra`. -/
def Print_extra (name : String) (id length : Nat) : List Line :=
  [Line.extra name] ++ Print_x "extra tag" 2 id ++ Print_ux "extra size" 2 length

/-- The display policy named in a `DUMPn` call (`Print_##format`). -/
inductive Fmt
  | u
  | x
  | ux
  | uFF
deriving DecidableEq

/-- The call `Print_##format(fout, prompt, var)` of the `DUMPn` helpers. -/
def Print_fmt (format : Fmt) (label : String) (bytes a : Nat) : List Line :=
  match format with
  | Fmt.u => Print_u label bytes a
  | Fmt.x => Print_x label bytes a
  | Fmt.ux => Print_ux label bytes a
  | Fmt.uFF => Print_uFF label bytes a

/-! ## Dump a field -/

/-- `DUMP1(prompt, var, format)`. -/
def DUMP1 (label : String) (var : Nat) (format : Fmt) : Dump Nat := do
  let (ok, var) ← Read8 var
  if ok then say (Print_fmt format label 1 var)
  pure var

/-- `DUMP2(prompt, var, format)`. -/
def DUMP2 (label : String) (var : Nat) (format : Fmt) : Dump Nat := do
  let (ok, var) ← Read16 var
  if ok then say (Print_fmt format label 2 var)
  pure var

/-- `DUMP4(prompt, var, format)`. -/
def DUMP4 (label : String) (var : Nat) (format : Fmt) : Dump Nat := do
  let (ok, var) ← Read32 var
  if ok then say (Print_fmt format label 4 var)
  pure var

/-- `DUMP8(prompt, var, format)`. -/
def DUMP8 (label : String) (var : Nat) (format : Fmt) : Dump Nat := do
  let (ok, var) ← Read64 var
  if ok then say (Print_fmt format label 8 var)
  pure var

/-- `DUMP2x(prompt, var, format, detail)`: `detail` is printed unless quiet. -/
def DUMP2x (cfg : Config) (label : String) (var : Nat) (format : Fmt)
    (detail : Nat → List Line) : Dump Nat := do
  let (ok, var) ← Read16 var
  if ok then
    say (Print_fmt format label 2 var)
    if !cfg.gQuiet then say (detail var)
  pure var

/-- `DUMP4x(prompt, var, format, detail)`. -/
def DUMP4x (cfg : Config) (label : String) (var : Nat) (format : Fmt)
    (detail : Nat → List Line) : Dump Nat := do
  let (ok, var) ← Read32 var
  if ok then
    say (Print_fmt format label 4 var)
    if !cfg.gQuiet then say (detail var)
  pure var

/-- `DUMP8x(prompt, var, format, detail)`. -/
def DUMP8x (cfg : Config) (label : String) (var : Nat) (format : Fmt)
    (detail : Nat → List Line) : Dump Nat := do
  let (ok, var) ← Read64 var
  if ok then
    say (Print_fmt format label 8 var)
    if !cfg.gQuiet then say (detail var)
  pure var

/-! ## Dump of the ZIP field contents -/

/-- `Print_UTC`: the rendering through `strftime` is left to the line. -/
def Print_UTC (time : Nat) : List Line := [Line.utc time]

/-- `Print_filetime`: the rendering through the Windows API is left to the line. -/
def Print_filetime (quad : Nat) : List Line := [Line.filetime quad]

/-- `Print_date_and_time`. -/
def Print_date_and_time (mod_time mod_date : Nat) : List Line :=
  [Line.dosDateTime mod_time mod_date]

/-- `Print_internal_file_attributes`. -/
def Print_internal_file_attributes (attr : Nat) : List Line :=
  (if attr &&& 1 ≠ 0 then Print_note "text file" else []) ++
  (if attr &&& 2 ≠ 0 then Print_note "????" else [])

/-- `Print_external_file_attributes` prints nothing. -/
def Print_external_file_attributes (_attr : Nat) : List Line := []

/-- `Print_general_purpose_bit_flag`. -/
def Print_general_purpose_bit_flag (flags method : Nat) : List Line :=
  (if flags &&& 0x0001 ≠ 0 then Print_note "Bit 0: encrypted" else []) ++
  (if method = 6 then
    (if flags &&& 0x0002 ≠ 0 then Print_note "Bit 1: Method6: 8K sliding dictionary" else []) ++
    (if flags &&& 0x0004 ≠ 0 then Print_note "Bit 2: Method6: 3 Shannon-Fano trees" else [])
  else if method = 8 ∨ method = 9 then
    (if (flags >>> 1) &&& 3 = 1 then
      Print_note "Bit 1-2: Method8/9: Maximum (-exx/-ex) compression" else []) ++
    (if (flags >>> 1) &&& 3 = 2 then
      Print_note "Bit 1-2: Method8/9: Fast (-ef) compression" else []) ++
    (if (flags >>> 1) &&& 3 = 3 then
      Print_note "Bit 1-2: Method8/9: Super Fast (-es) compression" else [])
  else if method = 14 then
    (if flags &&& 0x0002 ≠ 0 then
      Print_note "Bit 1: Method14: end-of-stream marker used to mark the end of the compressed data stream"
      else [])
  else []) ++
  (if flags &&& 0x0008 ≠ 0 then
    Print_note "Bit 3: crc-32, compressed size and uncompressed size are set to zero" else []) ++
  (if flags &&& 0x0010 ≠ 0 then
    Print_note "Bit 4: Reserved for use with method 8, for enhanced deflating" else []) ++
  (if flags &&& 0x0020 ≠ 0 then
    Print_note "Bit 5: compressed patched data.  (Note: Requires PKZIP version 2.70 or greater)"
    else []) ++
  (if flags &&& 0x0040 ≠ 0 then Print_note "Bit 6: Strong encryption." else []) ++
  (if flags &&& 0x0080 ≠ 0 then Print_note "Bit 7: Currently unused." else []) ++
  (if flags &&& 0x0100 ≠ 0 then Print_note "Bit 8: Currently unused." else []) ++
  (if flags &&& 0x0200 ≠ 0 then Print_note "Bit 9: Currently unused." else []) ++
  (if flags &&& 0x0400 ≠ 0 then Print_note "Bit 10: Currently unused." else []) ++
  (if flags &&& 0x0800 ≠ 0 then
    Print_note "Bit 11: Language encoding flag (EFS). the filename and comment fields for this file must be encoded using UTF-8."
    else []) ++
  (if flags &&& 0x1000 ≠ 0 then
    Print_note "Bit 12: Reserved by PKWARE for enhanced compression." else []) ++
  (if flags &&& 0x2000 ≠ 0 then
    Print_note "Bit 13: Used when encrypting the Central Directory to indicate selected data values in the Local Header are masked to hide their actual values."
    else []) ++
  (if flags &&& 0x4000 ≠ 0 then Print_note "Bit 14: Reserved by PKWARE." else []) ++
  (if flags &&& 0x8000 ≠ 0 then Print_note "Bit 15: Reserved by PKWARE." else [])

/-- The note of `Print_version` for the host system in the upper byte. -/
def os_type_note (os_type : Nat) : List Line :=
  if os_type = 0 then Print_note "0 - MS-DOS and OS/2 (FAT / VFAT / FAT32 file systems)"
  else if os_type = 1 then Print_note "1 - Amiga"
  else if os_type = 2 then Print_note "2 - OpenVMS"
  else if os_type = 3 then Print_note "3 - UNIX"
  else if os_type = 4 then Print_note "4 - VM/CMS"
  else if os_type = 5 then Print_note "5 - Atari ST"
  else if os_type = 6 then Print_note "6 - OS/2 H.P.F.S."
  else if os_type = 7 then Print_note "7 - Macintosh"
  else if os_type = 8 then Print_note "8 - Z-System"
  else if os_type = 9 then Print_note "9 - CP/M"
  else if os_type = 10 then Print_note "10 - Windows NTFS or TOPS-20(by Info-ZIP)"
  else if os_type = 11 then Print_note "11 - MVS (OS/390 - Z/OS) or NTFS(by Info-ZIP)"
  else if os_type = 12 then Print_note "12 - VSE or SMS/QDOS(by Info-ZIP)"
  else if os_type = 13 then Print_note "13 - Acorn Risc"
  else if os_type = 14 then Print_note "14 - VFAT"
  else if os_type = 15 then Print_note "15 - alternate MVS"
  else if os_type = 16 then Print_note "16 - BeOS"
  else if os_type = 17 then Print_note "17 - Tandem"
  else if os_type = 18 then Print_note "18 - OS/400"
  else if os_type = 19 then Print_note "19 - OS/X (Darwin)"
  else if os_type = 30 then Print_note "30 - AtheOS/Syllable(by Info-ZIP)"
  else Printf_note "%u - unused" [os_type]

/-- `Print_version`. -/
def Print_version (ver : Nat) : List Line :=
  os_type_note ((ver >>> 8) &&& 0xff) ++
  Printf_note "ver %u.%u" [(ver &&& 0xff) / 10, (ver &&& 0xff) % 10]

/-! ## Generic dump -/

/-- C `iscntrl` in the "C" locale. -/
def iscntrl (c : Nat) : Bool := c < 32 || c = 127

/-- What `Dump_string` writes for one character: a control code is made
visible as `^` and the character `c + '@'`. -/
def visible (c : Nat) : List Nat := if iscntrl c then [94, c + 64] else [c]

/-- The loop of `Dump_string`: `while (length-- && (c = getc(fin)) != EOF)`;
the value is the run of characters written. -/
def Dump_string_loop : Nat → Dump (List Nat)
  | 0 => pure []
  | length + 1 => do
    match (← getc) with
    | none => pure []
    | some c =>
      let t ← Dump_string_loop length
      pure (visible c ++ t)

/-- `Dump_string`. -/
def Dump_string (length : Nat) : Dump Unit := do
  let chars ← Dump_string_loop length
  say [Line.text chars]

/-- The loop of `Dump_bytes`.  The row in progress `current` holds the `i`
bytes read since the last full row, so `i` is its length; `prev` is the last
full row.  The value is the final `(offset, current)`. -/
def Dump_bytes_loop (cfg : Config) : Nat → Nat → Nat → List Nat → List Nat → Dump (Nat × List Nat)
  | 0, offset, _, _, current => pure (offset, current)
  | length + 1, offset, omit_lines, prev, current => do
    match (← getc) with
    | none => pure (offset, current)
    | some c =>
      if (current ++ [c]).length ≥ 16 then
        if cfg.gOmitSameHexDumpLine && decide (offset + 1 > 16) && decide (prev = current ++ [c]) then
          if omit_lines + 1 = 1 then say [Line.omitMark]
          Dump_bytes_loop cfg length (offset + 1) (omit_lines + 1) (current ++ [c]) []
        else
          say [Line.hexrow (offset + 1 - 16) (current ++ [c])]
          Dump_bytes_loop cfg length (offset + 1) 0 (current ++ [c]) []
      else
        Dump_bytes_loop cfg length (offset + 1) omit_lines prev (current ++ [c])

/-- `Dump_bytes`. -/
def Dump_bytes (cfg : Config) (length : Nat) : Dump Unit := do
  let (offset, current) ← Dump_bytes_loop cfg length 0 0 [] []
  if current.length ≠ 0 then say [Line.hexrow (offset - current.length) current]

/-- `Dump_if_fulldump`.  The `uint64` length is a 32-bit value at every call,
so its conversion to the `__int64` offset of `_fseeki64` keeps the value. -/
def Dump_if_fulldump (cfg : Config) (caption : String) (length : Nat) : Dump Unit := do
  if cfg.gIsFullDump then
    Dump_bytes cfg length
  else
    fseek (length : Int)
    if !cfg.gQuiet then say [Line.skipNote caption length]

/-! ## Skipping unknown data -/

/-- `SkipUnknownData`.  The `uint64` size is a 32-bit value or a count of bytes
read from the file at every call, so its conversion to the `__int64` offset
of `_fseeki64` keeps the value. -/
def SkipUnknownData (cfg : Config) (skipsize : Nat) : Dump Unit := do
  say [Line.skipUnknown skipsize]
  if cfg.gIsFullDump then
    Dump_bytes cfg skipsize
  else
    fseek (skipsize : Int)

/-- The scan loop of `SkipToNextPK`: `while ((c = getc(fin)) != EOF)`, with
the locals `prev` and `skipsize`; the value is the final `skipsize`.  Each turn
reads one byte, so `fuel` beyond the number of bytes left is never used up. -/
def SkipToNextPK_loop : Nat → Nat → Int → Dump Int
  | 0, _, skipsize => pure skipsize
  | fuel + 1, prev, skipsize => do
    match (← getc) with
    | none => pure skipsize
    | some c =>
      if prev = 80 ∧ c = 75 then
        fseek (-2)
        pure (skipsize - 1)
      else
        SkipToNextPK_loop fuel c (skipsize + 1)

/-- `SkipToNextPK`. -/
def SkipToNextPK (cfg : Config) : Dump Bool := do
  let skipsize ← (fun s => SkipToNextPK_loop (s.rest.length + 1) 0 0 s)
  if skipsize > 0 then
    fseek (-skipsize)
    SkipUnknownData cfg skipsize.toNat
  let e ← feof
  pure (!e)

/-! ## Dump of the extra fields -/

/-- `Dump_extra_Zip64_Extended_Info`. -/
def Dump_extra_Zip64_Extended_Info (cfg : Config) (length : Nat) : Dump Unit := do
  let _ ← DUMP8 "Original Size" 0 Fmt.ux
  let _ ← DUMP8 "Compressed Size" 0 Fmt.ux
  let _ ← DUMP8 "Relative Header Offset" 0 Fmt.ux
  let _ ← DUMP4 "Disk Start Number" 0 Fmt.u
  if length > 28 then
    SkipUnknownData cfg (length - 28)

/-- `Dump_extra_OS2_Extended_Attributes`. -/
def Dump_extra_OS2_Extended_Attributes (cfg : Config) (length : Nat) : Dump Unit := do
  let _ ← DUMP4 "uncompressed EA data size" 0 Fmt.ux
  if length ≤ 4 then pure ()
  else
    let _ ← DUMP2 "compression type" 0 Fmt.u
    let _ ← DUMP4 "CRC" 0 Fmt.x
    if length > 10 then
      say [Line.puts "compressed EA data:"]
      Dump_if_fulldump cfg "compressed EA data" (length - 10)

/-- The loop of `Dump_extra_NTFS`: `while (Read16(fin, tag) && Read16(fin, size))`
with the local `extra_offset`, which is the value.  Each turn reads four bytes,
so `fuel` beyond the number of bytes left is never used up. -/
def Dump_extra_NTFS_loop (cfg : Config) : Nat → Nat → Dump Nat
  | 0, extra_offset => pure extra_offset
  | fuel + 1, extra_offset => do
    let (ok1, tag) ← Read16 0
    if ok1 then
      let (ok2, size) ← Read16 0
      if ok2 then
        let tag_offset ←
          if tag = 1 then do
            say (Print_extra "NTFS file time" tag size)
            let _ ← DUMP8x cfg "last mod time" 0 Fmt.x Print_filetime
            let _ ← DUMP8x cfg "last access time" 0 Fmt.x Print_filetime
            let _ ← DUMP8x cfg "last creation time" 0 Fmt.x Print_filetime
            pure 24
          else do
            say (Print_extra "!! Unknown NTFS Extra Field" tag size)
            Dump_bytes cfg size
            pure size
        if size > tag_offset then
          SkipUnknownData cfg (size - tag_offset)
        Dump_extra_NTFS_loop cfg fuel ((extra_offset + size) % SIZE_T)
      else pure extra_offset
    else pure extra_offset

/-- `Dump_extra_NTFS`. -/
def Dump_extra_NTFS (cfg : Config) (length : Nat) : Dump Unit := do
  let _ ← DUMP4 "reserved" 0 Fmt.x
  let extra_offset ← (fun s => Dump_extra_NTFS_loop cfg (s.rest.length + 1) 4 s)
  if length > extra_offset then
    SkipUnknownData cfg (length - extra_offset)

/-- `Dump_extra_WindowsNT_SD`. -/
def Dump_extra_WindowsNT_SD (cfg : Config) (length : Nat) : Dump Unit := do
  let _ ← DUMP4 "uncompressed SD data size" 0 Fmt.ux
  if length ≤ 4 then pure ()
  else
    let _ ← DUMP1 "version" 0 Fmt.u
    let _ ← DUMP2 "compression type" 0 Fmt.u
    let _ ← DUMP4 "crc" 0 Fmt.x
    if length > 11 then
      say [Line.puts "compressed SD data:"]
      Dump_if_fulldump cfg "compressed SD data" (length - 11)

/-- `Dump_extra_ExtendedTimestamp`.  The local `flags` is not initialised in
the source and keeps its value when the read of it fails. -/
def Dump_extra_ExtendedTimestamp (cfg : Config) (length : Nat) : Dump Unit := do
  let flags ← DUMP1 "Flags" (cfg.uninit_flags % 256) Fmt.x
  let offset := 1
  let offset ←
    if flags &&& 1 ≠ 0 ∧ length > offset then do
      let _ ← DUMP4x cfg "last mod time" 0 Fmt.x Print_UTC
      pure (offset + 4)
    else pure offset
  let offset ←
    if flags &&& 2 ≠ 0 ∧ length > offset then do
      let _ ← DUMP4x cfg "last access time" 0 Fmt.x Print_UTC
      pure (offset + 4)
    else pure offset
  let offset ←
    if flags &&& 4 ≠ 0 ∧ length > offset then do
      let _ ← DUMP4x cfg "last create time" 0 Fmt.x Print_UTC
      pure (offset + 4)
    else pure offset
  if length > offset then
    SkipUnknownData cfg (length - offset)

/-- `Dump_extra_UnicodeComment`. -/
def Dump_extra_UnicodeComment (cfg : Config) (length : Nat) : Dump Unit := do
  let _ ← DUMP1 "version" 0 Fmt.u
  let _ ← DUMP4 "crc" 0 Fmt.x
  if length > 5 then
    say [Line.puts "entry comment encoded UTF-8:"]
    Dump_bytes cfg (length - 5)

/-- `Dump_extra_UnicodePath`. -/
def Dump_extra_UnicodePath (cfg : Config) (length : Nat) : Dump Unit := do
  let _ ← DUMP1 "version" 0 Fmt.u
  let _ ← DUMP4 "crc" 0 Fmt.x
  if length > 5 then
    say [Line.puts "file name encoded UTF-8:"]
    Dump_bytes cfg (length - 5)

/-- The `switch (id)` of `Dump_extra_field`. -/
def Dump_extra_chunk (cfg : Config) (id size : Nat) : Dump Unit :=
  if id = 0x0001 then do
    say (Print_extra "Zip64 Extended Information Extra Field" id size)
    Dump_extra_Zip64_Extended_Info cfg size
  else if id = 0x0009 then do
    say (Print_extra "OS/2 Extended Attributes Extra Field" id size)
    Dump_extra_OS2_Extended_Attributes cfg size
  else if id = 0x000a then do
    say (Print_extra "NTFS Extra Field" id size)
    Dump_extra_NTFS cfg size
  else if id = 0x4453 then do
    say (Print_extra "Windows NT Security Descriptor Extra Field" id size)
    Dump_extra_WindowsNT_SD cfg size
  else if id = 0x5455 then do
    say (Print_extra "Extended Timestamp Extra Field" id size)
    Dump_extra_ExtendedTimestamp cfg size
  else if id = 0x6375 then do
    say (Print_extra "Info-ZIP Unicode Comment Extra Field" id size)
    Dump_extra_UnicodeComment cfg size
  else if id = 0x7075 then do
    say (Print_extra "Info-ZIP Unicode Path Extra Field" id size)
    Dump_extra_UnicodePath cfg size
  else do
    say (Print_extra "!! Unknown Extra Field" id size)
    Dump_bytes cfg size

/-- The loop of `Dump_extra_field`:
`while (offset < length && Read16(fin, id) && Read16(fin, size))`.  Each turn
reads four bytes, so `fuel` beyond the number of bytes left is never used up. -/
def Dump_extra_field_loop (cfg : Config) (length : Nat) : Nat → Nat → Dump Unit
  | 0, _ => pure ()
  | fuel + 1, offset => do
    if offset < length then
      let (ok1, id) ← Read16 0
      if ok1 then
        let (ok2, size) ← Read16 0
        if ok2 then
          Dump_extra_chunk cfg id size
          Dump_extra_field_loop cfg length fuel ((offset + (size + 4)) % SIZE_T)

/-- `Dump_extra_field`. -/
def Dump_extra_field (cfg : Config) (length : Nat) : Dump Unit :=
  fun s => Dump_extra_field_loop cfg length (s.rest.length + 1) 0 s

/-! ## Dump of the ZIP records -/

/-- `Dump_Data_descriptor`. -/
def Dump_Data_descriptor : Dump Unit := do
  let _ ← DUMP4 "crc-32" 0 Fmt.x
  let _ ← DUMP4 "compressed size" 0 Fmt.ux
  let _ ← DUMP4 "uncompressed size" 0 Fmt.ux
  pure ()

/-- The two tails of `Dump_Local_file`: the file name and the extra field,
each dumped when its length is not zero. -/
def Dump_Local_file_tails (cfg : Config) (n : Int)
    (file_name_length extra_field_length : Nat) : Dump Unit := do
  if file_name_length ≠ 0 then
    say (Print_section cfg "Local file name" (← ftell) n)
    Dump_string file_name_length
  if extra_field_length ≠ 0 then
    say (Print_section cfg "Local extra field" (← ftell) n)
    Dump_extra_field cfg extra_field_length

/-- The last part of `Dump_Local_file`, "B. File data": nothing when the
compressed size is `0xFFFFFFFF`, otherwise the file data and the data
descriptor. -/
def Dump_Local_file_data (cfg : Config) (n : Int) (flags compressed_size : Nat) : Dump Unit := do
  if compressed_size = 0xFFFFFFFF then pure ()
  else
    if compressed_size ≠ 0 then
      say (Print_section cfg "File data" (← ftell) n)
      Dump_if_fulldump cfg "file data" compressed_size
    if flags &&& 0x0008 ≠ 0 then
      say (Print_section cfg "Data descriptor" (← ftell) n)
      Dump_Data_descriptor

/-- `Dump_Local_file`: the fixed fields, the two tails, then the file data
and the data descriptor. -/
def Dump_Local_file (cfg : Config) (n : Int) : Dump Unit := do
  let _ ← DUMP2x cfg "version needed to extract" 0 Fmt.x Print_version
  let flags ← DUMP2 "general purpose bit flag" 0 Fmt.x
  let _ ← DUMP2x cfg "compression method" 0 Fmt.x
    (fun method => Print_general_purpose_bit_flag flags method)
  let mod_time ← DUMP2 "last mod file time" 0 Fmt.x
  let _ ← DUMP2x cfg "last mod file date" 0 Fmt.x
    (fun mod_date => Print_date_and_time mod_time mod_date)
  let _ ← DUMP4 "crc-32" 0 Fmt.x
  let compressed_size ← DUMP4 "compressed size" 0 Fmt.ux
  let _ ← DUMP4 "uncompressed size" 0 Fmt.ux
  let file_name_length ← DUMP2 "file name length" 0 Fmt.ux
  let extra_field_length ← DUMP2 "extra field length" 0 Fmt.ux
  Dump_Local_file_tails cfg n file_name_length extra_field_length
  Dump_Local_file_data cfg n flags compressed_size

/-- `Dump_Archive_extra_data_record`. -/
def Dump_Archive_extra_data_record (cfg : Config) : Dump Unit := do
  let extra_field_length ← DUMP4 "extra field length" 0 Fmt.ux
  if extra_field_length ≠ 0 then
    say (Print_section cfg "extra field data" (← ftell) (-1))
    Dump_extra_field cfg extra_field_length

/-- The three tails of `Dump_Central_directory_file_header`: the file name, the
extra field and the file comment, each dumped when its length is not zero. -/
def Dump_Central_directory_tails (cfg : Config) (n : Int)
    (file_name_length extra_field_length file_comment_length : Nat) : Dump Unit := do
  if file_name_length ≠ 0 then
    say (Print_section cfg "file name" (← ftell) n)
    Dump_string file_name_length
  if extra_field_length ≠ 0 then
    say (Print_section cfg "extra field" (← ftell) n)
    Dump_extra_field cfg extra_field_length
  if file_comment_length ≠ 0 then
    say (Print_section cfg "file comment" (← ftell) n)
    Dump_string file_comment_length

/-- `Dump_Central_directory_file_header`: the fixed fields, then the three tails. -/
def Dump_Central_directory_file_header (cfg : Config) (n : Int) : Dump Unit := do
  let _ ← DUMP2x cfg "version made by" 0 Fmt.x Print_version
  let _ ← DUMP2x cfg "version needed to extract" 0 Fmt.x Print_version
  let flags ← DUMP2 "general purpose bit flag" 0 Fmt.x
  let _ ← DUMP2x cfg "compression method" 0 Fmt.x
    (fun method => Print_general_purpose_bit_flag flags method)
  let mod_time ← DUMP2 "last mod file time" 0 Fmt.x
  let _ ← DUMP2x cfg "last mod file date" 0 Fmt.x
    (fun mod_date => Print_date_and_time mod_time mod_date)
  let _ ← DUMP4 "crc-32" 0 Fmt.x
  let _ ← DUMP4 "compressed size" 0 Fmt.ux
  let _ ← DUMP4 "uncompressed size" 0 Fmt.ux
  let file_name_length ← DUMP2 "file name length" 0 Fmt.ux
  let extra_field_length ← DUMP2 "extra field length" 0 Fmt.ux
  let file_comment_length ← DUMP2 "file comment length" 0 Fmt.ux
  let _ ← DUMP2 "disk number start" 0 Fmt.uFF
  let _ ← DUMP2x cfg "internal file attributes" 0 Fmt.x Print_internal_file_attributes
  let _ ← DUMP4x cfg "external file attributes" 0 Fmt.x Print_external_file_attributes
  let _ ← DUMP4 "relative offset of local header" 0 Fmt.ux
  Dump_Central_directory_tails cfg n file_name_length extra_field_length file_comment_length

/-- `Dump_Central_directory_digital_signature`. -/
def Dump_Central_directory_digital_signature (cfg : Config) : Dump Unit := do
  let size ← DUMP2 "size of data" 0 Fmt.ux
  if size ≠ 0 then
    say (Print_section cfg "signature data" (← ftell) (-1))
    Dump_bytes cfg size

/-- `Dump_Zip64_end_of_central_directory_record`; the length of the data
sector is computed in `uint64`. -/
def Dump_Zip64_end_of_central_directory_record (cfg : Config) : Dump Unit := do
  let size ← DUMP8 "size of this record" 0 Fmt.ux
  let _ ← DUMP2x cfg "version made by" 0 Fmt.x Print_version
  let _ ← DUMP2x cfg "version needed to extract" 0 Fmt.x Print_version
  let _ ← DUMP4 "number of this disk" 0 Fmt.u
  let _ ← DUMP4 "disk of starting directory" 0 Fmt.u
  let _ ← DUMP8 "directory-entries on this disk" 0 Fmt.u
  let _ ← DUMP8 "directory-entries in all disks" 0 Fmt.u
  let _ ← DUMP8 "size of the directory" 0 Fmt.ux
  let _ ← DUMP8 "offset of starting directory" 0 Fmt.ux
  say (Print_section cfg "zip64 extensible data sector" (← ftell) (-1))
  Dump_bytes cfg ((size + 2 ^ 64 - 44) % 2 ^ 64)

/-- `Dump_Zip64_end_of_central_directory_locator`. -/
def Dump_Zip64_end_of_central_directory_locator : Dump Unit := do
  let _ ← DUMP4 "disk of starting directory" 0 Fmt.u
  let _ ← DUMP8 "relative offset of zip64 record" 0 Fmt.ux
  let _ ← DUMP4 "total number of disks" 0 Fmt.u
  pure ()

/-- `Dump_End_of_central_directory_record`. -/
def Dump_End_of_central_directory_record (cfg : Config) : Dump Unit := do
  let _ ← DUMP2 "number of this disk" 0 Fmt.uFF
  let _ ← DUMP2 "disk of starting directory" 0 Fmt.uFF
  let _ ← DUMP2 "directory-entries on this disk" 0 Fmt.uFF
  let _ ← DUMP2 "directory-entries in all disks" 0 Fmt.uFF
  let _ ← DUMP4 "size of the directory" 0 Fmt.ux
  let _ ← DUMP4 "offset of starting directory" 0 Fmt.ux
  let zipfile_comment_length ← DUMP2 ".ZIP file comment length" 0 Fmt.ux
  if zipfile_comment_length ≠ 0 then
    say (Print_section cfg ".ZIP file comment" (← ftell) (-1))
    Dump_string zipfile_comment_length

/-! ## The walker -/

/-- The locals of `ZipDumpFile`.  The two counters are `int` in the source; each
goes up at most once per four bytes read, so they stay below `2 ^ 31` for
every file shorter than `2 ^ 33` bytes, and they are modelled without overflow. -/
structure Walker where
  signature : Nat
  file_count : Int
  dir_count : Int
deriving DecidableEq

/-- The `switch (signature)` of `ZipDumpFile`, with the counters it leaves. -/
def ZipDumpFile_switch (cfg : Config) (signature offset : Nat) (file_count dir_count : Int) :
    Dump Walker :=
  if signature = 0x04034b50 then do
    say (Print_header cfg "Local file header" signature offset (file_count + 1))
    Dump_Local_file cfg (file_count + 1)
    pure ⟨signature, file_count + 1, dir_count⟩
  else if signature = 0x08074b50 then do
    say (Print_header cfg "Data descriptor header" signature offset file_count)
    Dump_Data_descriptor
    pure ⟨signature, file_count, dir_count⟩
  else if signature = 0x08064b50 then do
    say (Print_header cfg "Archive extra data record" signature offset (-1))
    Dump_Archive_extra_data_record cfg
    pure ⟨signature, file_count, dir_count⟩
  else if signature = 0x02014b50 then do
    say (Print_header cfg "Central file header" signature offset (dir_count + 1))
    Dump_Central_directory_file_header cfg (dir_count + 1)
    pure ⟨signature, file_count, dir_count + 1⟩
  else if signature = 0x05054b50 then do
    say (Print_header cfg "Digital signature" signature offset (-1))
    Dump_Central_directory_digital_signature cfg
    pure ⟨signature, file_count, dir_count⟩
  else if signature = 0x06064b50 then do
    say (Print_header cfg "Zip64 end of central directory record" signature offset (-1))
    Dump_Zip64_end_of_central_directory_record cfg
    pure ⟨signature, file_count, dir_count⟩
  else if signature = 0x07064b50 then do
    say (Print_header cfg "Zip64 end of central directory locator" signature offset (-1))
    Dump_Zip64_end_of_central_directory_locator
    pure ⟨signature, file_count, dir_count⟩
  else if signature = 0x06054b50 then do
    say (Print_header cfg "End of central directory record" signature offset (-1))
    Dump_End_of_central_directory_record cfg
    pure ⟨signature, file_count, dir_count⟩
  else do
    say (Print_header cfg "!! Unknown record" signature offset (-1))
    pure ⟨signature, file_count, dir_count⟩

/-- The body of the `while (SkipToNextPK(fin, fout))` loop of `ZipDumpFile`,
with the locals it leaves (`continue` when the signature cannot be read). -/
def ZipDumpFile_body (cfg : Config) (w : Walker) : Dump Walker := do
  let offset ← ftell
  let (ok, signature) ← Read32 w.signature
  if ok then
    ZipDumpFile_switch cfg signature offset w.file_count w.dir_count
  else pure ⟨signature, w.file_count, w.dir_count⟩

/-- One turn of the `while (SkipToNextPK(fin, fout))` loop of `ZipDumpFile`:
`none` when `SkipToNextPK` returns false and the loop ends, otherwise the
locals after the body. -/
def ZipDumpFile_turn (cfg : Config) (w : Walker) : Dump (Option Walker) := do
  if (← SkipToNextPK cfg) then
    let w1 ← ZipDumpFile_body cfg w
    pure (some w1)
  else pure none

/-- The loop of `ZipDumpFile`, for at most `fuel` turns.  The value tells
whether the loop ended (by `SkipToNextPK` returning false) within them. -/
def ZipDumpFile_loop (cfg : Config) : Nat → Walker → Dump Bool
  | 0, _ => pure false
  | fuel + 1, w => do
    match (← ZipDumpFile_turn cfg w) with
    | none => pure true
    | some w1 => ZipDumpFile_loop cfg fuel w1

/-- `ZipDumpFile`.  A turn that does not end the loop leaves the cursor at the
end of the file or at least four bytes further, so the loop ends within as
many turns as the file has bytes, plus one. -/
def ZipDumpFile (cfg : Config) : Dump Bool :=
  fun s => ZipDumpFile_loop cfg (s.data.length + 1) ⟨0, 0, 0⟩ s

/-! ## Reading the output -/

/-- Whether a line is the section line with the given name. -/
def Line.isSect (name : String) : Line → Bool
  | Line.sect nm _ _ => nm == name
  | _ => false

/-- Whether a line is neither a section line nor a text tail: a field, a note,
a row, or a line about skipped data. -/
def Line.plain : Line → Bool
  | Line.sect _ _ _ => false
  | Line.text _ => false
  | _ => true

/-- Whether a line is an interpretive note. -/
def Line.isNote : Line → Bool
  | Line.note _ => true
  | Line.notef _ _ => true
  | Line.filetime _ => true
  | Line.dosDateTime _ _ => true
  | Line.utc _ => true
  | _ => false

/-- Whether a line reports skipped unknown data. -/
def Line.isSkipUnknown : Line → Bool
  | Line.skipUnknown _ => true
  | _ => false

/-- Whether a line is a row or an omit mark of `Dump_bytes`. -/
def Line.isRow : Line → Bool
  | Line.hexrow _ _ => true
  | Line.omitMark => true
  | _ => false

/-- The characters `Dump_string` writes for a run of bytes. -/
def visibleText : List Byte → List Nat
  | [] => []
  | b :: t => visible b.val ++ visibleText t

/-- An adjacent pair `P`, `K` starts at index `k` of the bytes `l`. -/
def PKat (l : List Byte) (k : Nat) : Prop := l[k]? = some 80 ∧ l[k + 1]? = some 75

instance (l : List Byte) (k : Nat) : Decidable (PKat l k) := by
  unfold PKat; infer_instance

/-- The first adjacent pair `P`, `K` of the bytes `l` starts at index `k`. -/
def firstPK (l : List Byte) (k : Nat) : Prop := PKat l k ∧ ∀ j < k, ¬ PKat l j

instance (l : List Byte) (k : Nat) : Decidable (firstPK l k) := by
  unfold firstPK; infer_instance

/-- The bytes `l` hold no adjacent pair `P`, `K`. -/
def noPK (l : List Byte) : Prop := ∀ j < l.length, ¬ PKat l j

instance (l : List Byte) : Decidable (noPK l) := by
  unfold noPK; infer_instance

/-- Every line the function writes, from whatever stream, satisfies `P`. -/
def OutAll {α : Type} (P : Line → Prop) (m : Dump α) : Prop := ∀ s, ∀ l ∈ (m s).out, P l

/-- The function leaves the bytes of the file as they are and never moves the
cursor backwards, from whatever stream. -/
def Keeps {α : Type} (m : Dump α) : Prop :=
  ∀ s, (m s).fin.data = s.data ∧ s.pos ≤ (m s).fin.pos

/-- The section names of the output, in order. -/
def sections (out : List Line) : List String :=
  out.filterMap (fun l => match l with
    | Line.sect nm _ _ => some nm
    | _ => none)

/-- The text tails of the output, in order. -/
def texts (out : List Line) : List (List Nat) :=
  out.filterMap (fun l => match l with
    | Line.text cs => some cs
    | _ => none)

/-- The field lines of the output, in order: label, width in bytes and value. -/
def fields (out : List Line) : List (String × Nat × Nat) :=
  out.filterMap (fun l => match l with
    | Line.field lb w v _ => some (lb, w, v)
    | _ => none)

/-- The lengths of the unknown-data reports of the output, in order. -/
def skips (out : List Line) : List Nat :=
  out.filterMap (fun l => match l with
    | Line.skipUnknown n => some n
    | _ => none)

/-- The line with the offset it shows, if it shows one, `d` bytes further. -/
def Line.shift (d : Nat) : Line → Line
  | Line.sect name n (some offset) => Line.sect name n (some (offset + d))
  | l => l

/-- The stream `s1` has the same bytes left as `s2` and the same end-of-file
indicator, with its cursor `d` bytes further. -/
def Ahead (d : Nat) (s1 s2 : Stream) : Prop :=
  s1.rest = s2.rest ∧ s1.eof = s2.eof ∧ s1.pos = s2.pos + d

/-- From streams of which the first is `d` bytes ahead of the second, `m1` and
`m2` return the same value, write the same lines but for the offsets shown,
which are `d` bytes further in those of `m1`, and leave streams of which the
first is again `d` bytes ahead. -/
def Sim (d : Nat) {α : Type} (m1 m2 : Dump α) : Prop :=
  ∀ s1 s2, Ahead d s1 s2 →
    (m1 s1).val = (m2 s2).val ∧ (m1 s1).out = (m2 s2).out.map (Line.shift d) ∧
      Ahead d (m1 s1).fin (m2 s2).fin

/-- The eight signatures `ZipDumpFile` knows. -/
def knownSignature (signature : Nat) : Prop :=
  signature = 0x04034b50 ∨ signature = 0x08074b50 ∨ signature = 0x08064b50 ∨
  signature = 0x02014b50 ∨ signature = 0x05054b50 ∨ signature = 0x06064b50 ∨
  signature = 0x07064b50 ∨ signature = 0x06054b50

instance (signature : Nat) : Decidable (knownSignature signature) := by
  unfold knownSignature; infer_instance

/-- The value of the `w`-byte little-endian field at offset `off` of the bytes `z`. -/
def fieldAt (z : List Byte) (off w : Nat) : Nat := le ((z.drop off).take w)

/-- The offset at which the central directory header of a one-entry archive
starts: after the 30 bytes of the local file header, the name and the data. -/
def cdhAt (z : List Byte) : Nat := 30 + fieldAt z 26 2 + fieldAt z 18 4

/-- The offset at which the end of central directory record of a one-entry
archive starts: after the 46 bytes of the central directory header, its name
and its comment. -/
def eocdAt (z : List Byte) : Nat :=
  cdhAt z + 46 + fieldAt z (cdhAt z + 28) 2 + fieldAt z (cdhAt z + 32) 2

/-- The bytes `z` are laid out as a minimal archive: a local file header at
offset 0 with bit 3 of the flags clear, no extra field and a compressed size
that is neither zero nor `0xFFFFFFFF`; its name and data; directly after them
a central directory header with no extra field, its name and its comment;
directly after them the end of central directory record and its comment, with
which the file ends.  The values of the other fields are free. -/
def minimalZip (z : List Byte) : Prop :=
  z.take 4 = [80, 75, 3, 4] ∧
  fieldAt z 6 2 &&& 8 = 0 ∧
  fieldAt z 18 4 ≠ 0 ∧ fieldAt z 18 4 ≠ 0xFFFFFFFF ∧
  fieldAt z 28 2 = 0 ∧
  (z.drop (cdhAt z)).take 4 = [80, 75, 1, 2] ∧
  fieldAt z (cdhAt z + 30) 2 = 0 ∧
  (z.drop (eocdAt z)).take 4 = [80, 75, 5, 6] ∧
  z.length = eocdAt z + 22 + fieldAt z (eocdAt z + 20) 2

instance (z : List Byte) : Decidable (minimalZip z) := by
  unfold minimalZip; infer_instance

/-- The bytes `S` with the bytes `J` inserted at position `p`. -/
def insertAt (S : List Byte) (p : Nat) (J : List Byte) : List Byte :=
  S.take p ++ J ++ S.drop p

/-! ## The rows of a hex dump -/

/-- The loop of `Dump_bytes` over the bytes it reads, given as a list: the
lines written and the locals `offset` and `current` at the end of the loop. -/
def rowsLoop (elide : Bool) : List Nat → Nat → Nat → List Nat → List Nat → List Line × Nat × List Nat
  | [], offset, _, _, current => ([], offset, current)
  | c :: bs, offset, omit_lines, prev, current =>
    if (current ++ [c]).length ≥ 16 then
      if elide && decide (offset + 1 > 16) && decide (prev = current ++ [c]) then
        ((if omit_lines + 1 = 1 then [Line.omitMark] else []) ++
            (rowsLoop elide bs (offset + 1) (omit_lines + 1) (current ++ [c]) []).1,
          (rowsLoop elide bs (offset + 1) (omit_lines + 1) (current ++ [c]) []).2)
      else
        (Line.hexrow (offset + 1 - 16) (current ++ [c]) ::
            (rowsLoop elide bs (offset + 1) 0 (current ++ [c]) []).1,
          (rowsLoop elide bs (offset + 1) 0 (current ++ [c]) []).2)
    else rowsLoop elide bs (offset + 1) omit_lines prev (current ++ [c])

/-- Row number `r`, counted from 0, of a byte range: its bytes `16 r` to
`16 r + 15`, fewer in the last row. -/
def rowAt (bytes : List Nat) (r : Nat) : List Nat := (bytes.drop (16 * r)).take 16

/-- The number of rows of a range of `n` bytes: `n / 16` rounded up. -/
def rowCount (n : Nat) : Nat := (n + 15) / 16

/-- Row `r` is a full row of 16 bytes that is byte-identical to the row
immediately before it. -/
def repeatsRow (bytes : List Nat) (r : Nat) : Bool :=
  decide (1 ≤ r) && decide ((rowAt bytes r).length = 16) && decide (rowAt bytes r = rowAt bytes (r - 1))

/-- The lines a hex dump is expected to show for row `r`: the row in full with
its offset `16 r`; with the omit option on, nothing for a row that repeats the
row before it, but for the elision marker at the first row of a run of
repeats. -/
def expectedRow (elide : Bool) (bytes : List Nat) (r : Nat) : List Line :=
  if elide && repeatsRow bytes r then
    if repeatsRow bytes (r - 1) then [] else [Line.omitMark]
  else [Line.hexrow (16 * r) (rowAt bytes r)]

/-- The lines a hex dump of `bytes` is expected to show: those of its rows, in
order. -/
def expectedRows (elide : Bool) (bytes : List Nat) : List Line :=
  (List.range (rowCount bytes.length)).flatMap (expectedRow elide bytes)

/-- The byte values a line of the hex dump shows in its hex column. -/
def Line.rowBytes : Line → List Nat
  | Line.hexrow _ row => row
  | _ => []

/-- The end of `Dump_bytes`: the row left in `current`, if any, given the
locals `offset` and `current` at the end of the loop. -/
def lastRow (r : Nat × List Nat) : List Line :=
  if r.2.length ≠ 0 then [Line.hexrow (r.1 - r.2.length) r.2] else []

/-- No two adjacent lines are both omit marks. -/
def noTwoMarks (out : List Line) : Prop :=
  List.Chain' (fun a b => ¬ (a = Line.omitMark ∧ b = Line.omitMark)) out

/-! ## The chunks of an extra field -/

/-- The tags `Dump_extra_field` has a decoder for; a chunk of any other tag is
dumped raw. -/
def knownTag (id : Nat) : Bool :=
  id == 0x0001 || id == 0x0009 || id == 0x000a || id == 0x4453 || id == 0x5455 ||
    id == 0x6375 || id == 0x7075

/-- The bytes the chunks with the tags and sizes `cs` take in all, each with
its header of 4 bytes. -/
def chunksLength (cs : List (Nat × Nat)) : Nat := (cs.map (fun c => 4 + c.2)).sum

/-- Chunks with the tags and sizes `cs` lie one after the other from the
cursor, and the decoder of each consumes exactly the size its header
declares. -/
def chunksAt (cfg : Config) : List (Nat × Nat) → Stream → Prop
  | [], _ => True
  | c :: cs, s =>
    4 ≤ s.rest.length ∧ le (s.rest.take 2) = c.1 ∧ le ((s.rest.drop 2).take 2) = c.2 ∧
    (Dump_extra_chunk cfg c.1 c.2 (s.adv 4)).fin.pos = s.pos + 4 + c.2 ∧
    chunksAt cfg cs (Dump_extra_chunk cfg c.1 c.2 (s.adv 4)).fin

/-- Whole chunks of unknown tag, with the tags and sizes `cs`, lie one after
the other at the head of `bytes`. -/
def unknownChunks : List (Nat × Nat) → List Byte → Prop
  | [], _ => True
  | c :: cs, bytes =>
    4 + c.2 ≤ bytes.length ∧ le (bytes.take 2) = c.1 ∧ le ((bytes.drop 2).take 2) = c.2 ∧
    knownTag c.1 = false ∧ unknownChunks cs (bytes.drop (4 + c.2))

/-- The chunks with the tags and sizes `cs` decoded one by one in stream
order, each once: the header of four bytes is read, then the decoder of the
tag is run. -/
def decodeChunks (cfg : Config) : List (Nat × Nat) → Dump Unit
  | [] => pure ()
  | c :: cs => do
    let _ ← Read16 0
    let _ ← Read16 0
    Dump_extra_chunk cfg c.1 c.2
    decodeChunks cfg cs

instance chunksAt.dec (cfg : Config) : ∀ (cs : List (Nat × Nat)) (s : Stream),
    Decidable (chunksAt cfg cs s)
  | [], _ => isTrue trivial
  | c :: cs, s =>
    have := chunksAt.dec cfg cs (Dump_extra_chunk cfg c.1 c.2 (s.adv 4)).fin
    inferInstanceAs (Decidable (4 ≤ s.rest.length ∧ le (s.rest.take 2) = c.1 ∧
      le ((s.rest.drop 2).take 2) = c.2 ∧
      (Dump_extra_chunk cfg c.1 c.2 (s.adv 4)).fin.pos = s.pos + 4 + c.2 ∧
      chunksAt cfg cs (Dump_extra_chunk cfg c.1 c.2 (s.adv 4)).fin))

instance unknownChunks.dec : ∀ (cs : List (Nat × Nat)) (bytes : List Byte),
    Decidable (unknownChunks cs bytes)
  | [], _ => isTrue trivial
  | c :: cs, bytes =>
    have := unknownChunks.dec cs (bytes.drop (4 + c.2))
    inferInstanceAs (Decidable (4 + c.2 ≤ bytes.length ∧ le (bytes.take 2) = c.1 ∧
      le ((bytes.drop 2).take 2) = c.2 ∧ knownTag c.1 = false ∧
      unknownChunks cs (bytes.drop (4 + c.2))))

/-- The number of bits set among the bits 0, 1 and 2 of the flags `f`, the
population count of `f & 7`. -/
def timeBits (f : Nat) : Nat :=
  (if f &&& 1 ≠ 0 then 1 else 0) + (if f &&& 2 ≠ 0 then 1 else 0) +
    (if f &&& 4 ≠ 0 then 1 else 0)

/-! ## How a field is shown -/

/-- The field lines of the output, in order, each with the way its value is
shown: label, width in bytes, value, and decimal, hex or both. -/
def shownFields (out : List Line) : List (String × Nat × Nat × Shown) :=
  out.filterMap (fun l => match l with
    | Line.field lb w v sh => some (lb, w, v, sh)
    | _ => none)

/-! ## What `fprintf` shows of a field -/

/-- The arguments that follow the prompt in a call of `fprintf`, as the 32-bit
words of the argument area of the Win32 build: a value of up to 32 bits takes
one word and a 64-bit value two, the low word first. -/
def argWords (bytes a : Nat) : List Nat :=
  if bytes = 8 then [a % 2 ^ 32, a / 2 ^ 32 % 2 ^ 32] else [a % 2 ^ 32]

/-- The numbers the conversions of a format show, given the sizes of the
conversions in words and the words of the argument area: a conversion of size
1 (`%u`, `%0nX`) takes the next word, one of size 2 (`%I64u`, `%016I64X`) the
next two, the low word first. -/
def readArgs : List Nat → List Nat → List Nat
  | 1 :: cs, w :: ws => w :: readArgs cs ws
  | 2 :: cs, lo :: hi :: ws => (lo + 2 ^ 32 * hi) :: readArgs cs ws
  | _, _ => []

/-- The sizes of the conversions in the formats of the overloads for a field
of `bytes` bytes: `Print_u` has `"%u"`, for 8 bytes `"%I64u"`; `Print_x` has
`"0x%02X"`, `"0x%04X"`, `"0x%08X"`, for 8 bytes `"0x%016I64X"`; `Print_ux` has
`"%u(0x%02X)"`, `"%u(0x%04X)"`, `"%u(0x%08X)"`, for 8 bytes
`"%u(0x%016I64X)"`. -/
def convSizes (bytes : Nat) : Shown → List Nat
  | Shown.dec => if bytes = 8 then [2] else [1]
  | Shown.hex => if bytes = 8 then [2] else [1]
  | Shown.dechex => if bytes = 8 then [1, 2] else [1, 1]

/-- The numbers a field line shows, in order: `Print_u` and `Print_x` pass
the value once, `Print_ux` passes it twice. -/
def Line.shownNumbers : Line → List Nat
  | Line.field _ bytes a Shown.dechex =>
    readArgs (convSizes bytes Shown.dechex) (argWords bytes a ++ argWords bytes a)
  | Line.field _ bytes a sh => readArgs (convSizes bytes sh) (argWords bytes a)
  | _ => []

/-! ## Sequence labels -/

/-- The names of the section lines the record decoders write: tails, payloads,
the data descriptor and the data sector. -/
def tailNames : List String :=
  ["Local file name", "Local extra field", "File data", "Data descriptor", "extra field data",
   "file name", "extra field", "file comment", "signature data",
   "zip64 extensible data sector", ".ZIP file comment"]

/-- The sequence labels of the section lines with the given name, in order
(`none` for a section line without a label). -/
def labels (name : String) (out : List Line) : List (Option Int) :=
  out.filterMap (fun l => match l with
    | Line.sect nm n _ => if nm = name then some n else none
    | _ => none)

/-! ## The quiet option -/

/-- What the quiet option leaves of a line: nothing of an interpretive note or
of the summary of skipped data, a section line without its offset, and every
other line as it is. -/
def Line.quiet : Line → Option Line
  | Line.sect nm n _ => some (Line.sect nm n none)
  | Line.note _ => none
  | Line.notef _ _ => none
  | Line.filetime _ => none
  | Line.dosDateTime _ _ => none
  | Line.utc _ => none
  | Line.skipNote _ _ => none
  | l => some l

/-- What the quiet option leaves of an output. -/
def quieted (out : List Line) : List Line := out.filterMap Line.quiet

/-- The offset a line carries: that of a section line, when shown. -/
def Line.offset : Line → Option Nat
  | Line.sect _ _ o => o
  | _ => none

/-- The two functions return the same value and leave the same stream from
every stream, and the first writes what the quiet option leaves of the lines
of the second. -/
def QSim {α : Type} (m1 m2 : Dump α) : Prop :=
  ∀ s, (m1 s).val = (m2 s).val ∧ (m1 s).fin = (m2 s).fin ∧ (m1 s).out = quieted (m2 s).out

/-! ## Records that are cut short -/

/-- The record kinds of the `switch` of `ZipDumpFile`. -/
inductive RecordKind
  | localFile
  | dataDescriptor
  | archiveExtra
  | centralHeader
  | digitalSignature
  | zip64End
  | zip64Locator
  | endOfCentral
deriving DecidableEq

/-- The decoder the `switch` runs for a record kind, with the sequence label `n`. -/
def RecordKind.decoder (cfg : Config) (n : Int) : RecordKind → Dump Unit
  | RecordKind.localFile => Dump_Local_file cfg n
  | RecordKind.dataDescriptor => Dump_Data_descriptor
  | RecordKind.archiveExtra => Dump_Archive_extra_data_record cfg
  | RecordKind.centralHeader => Dump_Central_directory_file_header cfg n
  | RecordKind.digitalSignature => Dump_Central_directory_digital_signature cfg
  | RecordKind.zip64End => Dump_Zip64_end_of_central_directory_record cfg
  | RecordKind.zip64Locator => Dump_Zip64_end_of_central_directory_locator
  | RecordKind.endOfCentral => Dump_End_of_central_directory_record cfg

/-- The fixed-field block of a record kind: the labels and the widths in bytes
of the `DUMPn` calls of its decoder, in order. -/
def RecordKind.block : RecordKind → List (String × Nat)
  | RecordKind.localFile =>
    [("version needed to extract", 2), ("general purpose bit flag", 2),
     ("compression method", 2), ("last mod file time", 2), ("last mod file date", 2),
     ("crc-32", 4), ("compressed size", 4), ("uncompressed size", 4),
     ("file name length", 2), ("extra field length", 2)]
  | RecordKind.dataDescriptor =>
    [("crc-32", 4), ("compressed size", 4), ("uncompressed size", 4)]
  | RecordKind.archiveExtra => [("extra field length", 4)]
  | RecordKind.centralHeader =>
    [("version made by", 2), ("version needed to extract", 2), ("general purpose bit flag", 2),
     ("compression method", 2), ("last mod file time", 2), ("last mod file date", 2),
     ("crc-32", 4), ("compressed size", 4), ("uncompressed size", 4),
     ("file name length", 2), ("extra field length", 2), ("file comment length", 2),
     ("disk number start", 2), ("internal file attributes", 2),
     ("external file attributes", 4), ("relative offset of local header", 4)]
  | RecordKind.digitalSignature => [("size of data", 2)]
  | RecordKind.zip64End =>
    [("size of this record", 8), ("version made by", 2), ("version needed to extract", 2),
     ("number of this disk", 4), ("disk of starting directory", 4),
     ("directory-entries on this disk", 8), ("directory-entries in all disks", 8),
     ("size of the directory", 8), ("offset of starting directory", 8)]
  | RecordKind.zip64Locator =>
    [("disk of starting directory", 4), ("relative offset of zip64 record", 8),
     ("total number of disks", 4)]
  | RecordKind.endOfCentral =>
    [("number of this disk", 2), ("disk of starting directory", 2),
     ("directory-entries on this disk", 2), ("directory-entries in all disks", 2),
     ("size of the directory", 4), ("offset of starting directory", 4),
     (".ZIP file comment length", 2)]

/-- The number of bytes of a block of fields. -/
def blockSize : List (String × Nat) → Nat
  | [] => 0
  | (_, w) :: t => w + blockSize t

/-- The fields of a block that lie whole within the bytes, up to the first one
that does not: label, width and little-endian value. -/
def wholeFields : List (String × Nat) → List Byte → List (String × Nat × Nat)
  | [], _ => []
  | (lb, w) :: t, bytes =>
    if w ≤ bytes.length then (lb, w, le (bytes.take w)) :: wholeFields t (bytes.drop w) else []

/-- Whether a line shows nothing read from the file: a section line, the
summary of skipped data, or an empty run of characters. -/
def Line.hollow : Line → Bool
  | Line.sect _ _ _ => true
  | Line.skipNote _ _ => true
  | Line.text cs => cs.isEmpty
  | _ => false

/-- Whether a line shows something of a tail or of a payload: a row or an
omit mark of a hex dump, a run of characters that is not empty, the header of
an extra field, a report of unknown data or a fixed line of an extra field. -/
def Line.tailContent : Line → Bool
  | Line.hexrow _ _ => true
  | Line.omitMark => true
  | Line.text cs => !cs.isEmpty
  | Line.extra _ => true
  | Line.skipUnknown _ => true
  | Line.puts _ => true
  | _ => false

/-- Run from the end of the file, the function writes hollow lines only and
stays at the end of the file. -/
def Dry {α : Type} (m : Dump α) : Prop :=
  ∀ s, s.rest = [] → (∀ l ∈ (m s).out, l.hollow = true) ∧ (m s).fin.rest = []

/-- Run from a stream that ends within the block `b`, the function writes the
field lines of the fields of `b` that lie whole in the stream and no later
one, shows nothing of a tail or payload, and ends at the end of the file; and
run from the end of the file it writes hollow lines only. -/
def Trunc {α : Type} (b : List (String × Nat)) (m : Dump α) : Prop :=
  (∀ s, s.rest.length < blockSize b →
    fields (m s).out = wholeFields b s.rest ∧
    (∀ l ∈ (m s).out, l.tailContent = false) ∧ (m s).fin.rest = []) ∧ Dry m

/-! ## Runs under two settings of the options -/

/-- The offset and the signature handed to the `switch` of `ZipDumpFile` in
the turn whose scan left the stream `t`: none when the signature cannot be
read. -/
def dispatchOf (w : Walker) (t : Stream) : List (Nat × Nat) :=
  if (Read32 w.signature t).val.1 then [(t.pos, (Read32 w.signature t).val.2)] else []

/-- The offsets and signatures handed to the `switch` of `ZipDumpFile`, turn
by turn: `offset = _ftelli64(fin)` after `SkipToNextPK` and the `signature`
that `Read32` reads there. -/
def dispatched (cfg : Config) : Nat → Walker → Stream → List (Nat × Nat)
  | 0, _, _ => []
  | fuel + 1, w, s =>
    if (SkipToNextPK cfg s).val then
      dispatchOf w (SkipToNextPK cfg s).fin ++
        (match (ZipDumpFile_turn cfg w s).val with
         | some w1 => dispatched cfg fuel w1 (ZipDumpFile_turn cfg w s).fin
         | none => [])
    else []

/-! ## Runs within the first bytes of a file -/

/-- Two states with the same cursor and end-of-file indicator, over files that
hold the same first `p` bytes. -/
def Agree (p : Nat) (s1 s2 : Stream) : Prop :=
  s1.pos = s2.pos ∧ s1.eof = s2.eof ∧ s1.data.take p = s2.data.take p

/-- The function reads forward only, and a run of it that ends at or before
position `p` of a file longer than `p` bytes has looked at the first `p` bytes
only: run on a file with the same first `p` bytes it returns the same value,
writes the same lines and ends at the same position. -/
def Loc {α : Type} (m : Dump α) : Prop :=
  Keeps m ∧
  ∀ p s1 s2, Agree p s1 s2 → p < s1.data.length → (m s1).fin.pos ≤ p →
    (m s1).val = (m s2).val ∧ (m s1).out = (m s2).out ∧ Agree p (m s1).fin (m s2).fin

/-- The first `j` turns of the loop of `ZipDumpFile` when each of them starts
on a record (an anchor with a whole signature right at the cursor): the
locals, the stream and the lines written after them; `none` when a turn
starts elsewhere. -/
def ZipDumpFile_records (cfg : Config) :
    Nat → Walker → Stream → Option (Walker × Stream × List Line)
  | 0, w, s => some (w, s, [])
  | j + 1, w, s =>
    if s.rest.take 2 = [80, 75] ∧ 4 ≤ s.rest.length then
      match (ZipDumpFile_turn cfg w s).val with
      | some w1 =>
        (ZipDumpFile_records cfg j w1 (ZipDumpFile_turn cfg w s).fin).map
          (fun r => (r.1, r.2.1, (ZipDumpFile_turn cfg w s).out ++ r.2.2))
      | none => none
    else none

/-! ## Sample streams -/

/-- The option settings with every option off. -/
def optionsOff : Config := ⟨false, false, false, 0⟩

/-- A local file header after its signature (cursor at 4): flags with bit 3
set, compressed size 2, a one-byte name, a four-byte extra field holding one
empty chunk of unknown tag, two bytes of data and a data descriptor. -/
def sampleLocal : Stream :=
  ⟨[80, 75, 3, 4, 10, 0, 8, 0, 0, 0, 1, 2, 3, 4, 5, 6, 7, 8, 2, 0, 0, 0, 2, 0, 0, 0, 1, 0, 4, 0,
    97, 153, 153, 0, 0, 120, 121, 1, 0, 0, 0, 2, 0, 0, 0, 2, 0, 0, 0], 4, false⟩

/-- A local file header after its signature (cursor at 4) whose compressed
size is `0xFFFFFFFF` and whose flags have bit 3 set, followed by a one-byte
name, an extra field of 32 bytes holding one Zip64 chunk of 28 bytes, and
further bytes; the extra-field tail ends at 63. -/
def sampleLocal64 : Stream :=
  ⟨[80, 75, 3, 4, 45, 0, 8, 0, 0, 0, 1, 2, 3, 4, 5, 6, 7, 8, 255, 255, 255, 255, 255, 255, 255,
    255, 1, 0, 32, 0, 97, 1, 0, 28, 0, 1, 1, 0, 0, 0, 0, 0, 0, 2, 2, 0, 0, 0, 0, 0, 0,
    0, 0, 0, 0, 0, 0, 0, 0, 0, 0, 0, 0, 120, 121, 1, 0, 0, 0, 2, 0, 0, 0, 2, 0, 0, 0],
    4, false⟩

/-- A local file header after its signature (cursor at 4) with compressed size
`0xFFFFFFFF` and bit 3 of the flags set, a one-byte name and an extra field of
4 bytes whose only chunk, of unknown tag, declares 2 bytes of payload; the
extra-field tail ends at 35. -/
def sampleLocal64Overrun : Stream :=
  ⟨[80, 75, 3, 4, 45, 0, 8, 0, 0, 0, 1, 2, 3, 4, 5, 6, 7, 8, 255, 255, 255, 255, 255, 255, 255,
    255, 1, 0, 4, 0, 97, 153, 153, 2, 0, 170, 187, 9, 9], 4, false⟩

/-- A local file header after its signature (cursor at 4) with compressed size
`0xFFFFFFFF` and bit 3 of the flags set, a one-byte name and an extra field of
20 bytes holding one Zip64 chunk that declares 16 bytes; the extra-field tail
ends at 51 and 14 further bytes follow. -/
def sampleLocal64Zip64 : Stream :=
  ⟨[80, 75, 3, 4, 45, 0, 8, 0, 0, 0, 1, 2, 3, 4, 5, 6, 7, 8, 255, 255, 255, 255, 255, 255, 255,
    255, 1, 0, 20, 0, 97, 1, 0, 16, 0, 1, 1, 0, 0, 0, 0, 0, 0, 2, 2, 0, 0, 0, 0, 0, 0,
    21, 22, 23, 24, 25, 26, 27, 28, 29, 30, 31, 32, 33, 34], 4, false⟩

/-- A local file header after its signature (cursor at 4) with compressed size
`0xFFFFFFFF` that declares a name of 3 bytes and no extra field, in a file
that ends after the first byte of the name. -/
def sampleLocal64Short : Stream :=
  ⟨[80, 75, 3, 4, 45, 0, 8, 0, 0, 0, 1, 2, 3, 4, 5, 6, 7, 8, 255, 255, 255, 255, 255, 255, 255,
    255, 3, 0, 0, 0, 97], 4, false⟩

/-- A central directory header after its signature (cursor at 4) with a
one-byte name, a four-byte extra field holding one empty chunk of unknown tag,
and a two-byte comment. -/
def sampleCentral : Stream :=
  ⟨[80, 75, 1, 2, 20, 0, 10, 0, 0, 0, 0, 0, 1, 2, 3, 4, 5, 6, 7, 8, 3, 0, 0, 0, 3, 0, 0, 0,
    1, 0, 4, 0, 2, 0, 0, 0, 0, 0, 0, 0, 0, 0, 0, 0, 0, 0, 97, 153, 153, 0, 0, 104, 105],
    4, false⟩

/-- A minimal archive: one stored entry named `a` with the three bytes `xyz`
of data, its central directory header and the end of central directory
record. -/
def sampleZip : List Byte :=
  [80, 75, 3, 4, 10, 0, 0, 0, 0, 0, 1, 2, 3, 4, 5, 6, 7, 8, 3, 0, 0, 0, 3, 0, 0, 0, 1, 0, 0, 0,
   97, 120, 121, 122,
   80, 75, 1, 2, 20, 0, 10, 0, 0, 0, 0, 0, 1, 2, 3, 4, 5, 6, 7, 8, 3, 0, 0, 0, 3, 0, 0, 0,
   1, 0, 0, 0, 0, 0, 0, 0, 0, 0, 0, 0, 0, 0, 0, 0, 0, 0, 97,
   80, 75, 5, 6, 0, 0, 0, 0, 1, 0, 1, 0, 47, 0, 0, 0, 34, 0, 0, 0, 0, 0]

/-- A Zip64 end of central directory record after its signature (cursor at 4)
that declares the size 46: the 44 bytes of the fixed fields and a data sector
of 2 bytes; 3 further bytes follow. -/
def sampleZip64End : Stream :=
  ⟨[80, 75, 6, 6, 46, 0, 0, 0, 0, 0, 0, 0, 45, 0, 45, 0, 0, 0, 0, 0, 0, 0, 0, 0,
    1, 0, 0, 0, 0, 0, 0, 0, 1, 0, 0, 0, 0, 0, 0, 0, 47, 0, 0, 0, 0, 0, 0, 0,
    34, 0, 0, 0, 0, 0, 0, 0, 170, 187, 80, 75, 6], 4, false⟩

/-- An extra field of 15 bytes after two bytes of something else (cursor at
2): a chunk of the unknown tag `0x9999` with two bytes of payload and an
extended-timestamp chunk of five bytes with flags 1, followed by two further
bytes. -/
def sampleExtra : Stream :=
  ⟨[7, 7, 0x99, 0x99, 2, 0, 0xAA, 0xBB, 0x55, 0x54, 5, 0, 1, 0x10, 0x20, 0x30, 0x40, 8, 9],
    2, false⟩

/-- A Zip64 extended-information chunk of declared length 16 (tag `0x0001`,
size 16, the two 8-byte sizes), followed by an empty chunk of the unknown tag
`0x9999` and by twelve further bytes. -/
def sampleZip64Extra : Stream :=
  ⟨[1, 0, 16, 0, 1, 1, 0, 0, 0, 0, 0, 0, 2, 2, 0, 0, 0, 0, 0, 0, 0x99, 0x99, 0, 0,
    3, 3, 3, 3, 4, 4, 4, 4, 5, 5, 5, 5], 0, false⟩

/-- An NTFS chunk of the documented shape after its header (cursor at 4):
four reserved bytes, the attribute tag 1 with size 24 and the three times;
after its 32 bytes comes an empty chunk of the unknown tag `0x9999`. -/
def sampleNTFS : Stream :=
  ⟨[0x0a, 0, 32, 0, 0, 0, 0, 0, 1, 0, 24, 0, 1, 0, 0, 0, 0, 0, 0, 0, 2, 0, 0, 0, 0, 0, 0, 0,
    3, 0, 0, 0, 0, 0, 0, 0, 0x99, 0x99, 0, 0], 4, false⟩

/-- An extended-timestamp chunk of declared length 10 after its header (cursor
at 4): flags 5, the modification time, the creation time and one more byte;
two further bytes follow it. -/
def sampleTimestamp : Stream :=
  ⟨[0x55, 0x54, 10, 0, 5, 1, 0, 0, 0, 3, 0, 0, 0, 0xEE, 8, 9], 4, false⟩

/-- A local file header cut short: the signature and the first 24 bytes of the
fixed block, up to the name length (3); the flags have bit 3 set and the
compressed size is 5.  The cursor is after the signature. -/
def sampleTruncated : Stream :=
  ⟨[80, 75, 3, 4, 20, 0, 8, 0, 0, 0, 0, 0, 0, 0, 0, 0, 0, 0, 5, 0, 0, 0, 5, 0, 0, 0, 3, 0],
    4, false⟩

/-- An archive extra data record cut right after the header of an extended
timestamp chunk: signature `PK\x06\x08`, extra field length 9, tag 0x5455,
size 5, end of file. -/
def sampleStaleFlags : Stream :=
  ⟨[80, 75, 6, 8, 9, 0, 0, 0, 85, 84, 5, 0], 0, false⟩

/-- An end of central directory record whose comment is the two bytes `PK`:
signature, 16 zero bytes, comment length 2, comment. -/
def sampleCommentPK : List Byte :=
  [80, 75, 5, 6, 0, 0, 0, 0, 0, 0, 0, 0, 0, 0, 0, 0, 0, 0, 0, 0, 2, 0, 80, 75]

/-- A Zip64 end of central directory record after its signature (cursor at 4)
that declares the size 0: the 8 bytes of the size, the 44 bytes of the fixed
fields, and then a whole end of central directory record of 22 bytes. -/
def sampleZip64Underflow : Stream :=
  ⟨[80, 75, 6, 6, 0, 0, 0, 0, 0, 0, 0, 0, 45, 0, 45, 0, 0, 0, 0, 0, 0, 0, 0, 0,
    1, 0, 0, 0, 0, 0, 0, 0, 1, 0, 0, 0, 0, 0, 0, 0, 47, 0, 0, 0, 0, 0, 0, 0,
    34, 0, 0, 0, 0, 0, 0, 0,
    80, 75, 5, 6, 0, 0, 0, 0, 0, 0, 0, 0, 0, 0, 0, 0, 0, 0, 0, 0, 0, 0], 4, false⟩

/-- A local file header after its signature (cursor at 4) of a streamed
entry: flags with bit 3 set, method 8, the three sizes zero, a one-byte name,
an extra field of 4 bytes holding one empty chunk of unknown tag, then 13
bytes of file data from 35 on. -/
def sampleStreamed : Stream :=
  ⟨[80, 75, 3, 4, 20, 0, 8, 0, 8, 0, 0, 0, 0, 0, 0, 0, 0, 0, 0, 0, 0, 0, 0, 0, 0, 0, 1, 0, 4, 0,
    97, 153, 153, 0, 0, 75, 76, 77, 78, 1, 0, 0, 0, 2, 0, 0, 0, 9], 4, false⟩

/-- A streamed local file header after its signature (cursor at 4): bit 3 of
the flags set, the three size fields zero, a one-byte name and an extra field
of 4 bytes whose only chunk, of unknown tag, declares 2 bytes of payload; the
extra-field tail ends at 35. -/
def sampleStreamedOverrun : Stream :=
  ⟨[80, 75, 3, 4, 20, 0, 8, 0, 8, 0, 0, 0, 0, 0, 0, 0, 0, 0, 0, 0, 0, 0, 0, 0, 0, 0, 1, 0, 4, 0,
    97, 153, 153, 2, 0, 75, 76, 77, 78, 1, 0, 0, 0, 2, 0, 0, 0, 3, 0, 9], 4, false⟩

/-- A streamed local file header after its signature (cursor at 4): bit 3 of
the flags set, the three size fields zero, a one-byte name and an extra field
of 20 bytes holding one Zip64 chunk that declares 16 bytes; the extra-field
tail ends at 51, where the bytes `KLMN`, 1 and 2 stand, and 12 bytes more
follow at 63. -/
def sampleStreamedZip64 : Stream :=
  ⟨[80, 75, 3, 4, 20, 0, 8, 0, 8, 0, 0, 0, 0, 0, 0, 0, 0, 0, 0, 0, 0, 0, 0, 0, 0, 0, 1, 0, 20, 0,
    97, 1, 0, 16, 0, 1, 1, 0, 0, 0, 0, 0, 0, 2, 2, 0, 0, 0, 0, 0, 0,
    75, 76, 77, 78, 1, 0, 0, 0, 2, 0, 0, 0,
    11, 0, 0, 0, 12, 0, 0, 0, 13, 0, 0, 0, 9], 4, false⟩

/-- An end of central directory record that declares a comment of 5 bytes, of
which the file holds two. -/
def sampleShortComment : List Byte :=
  [80, 75, 5, 6, 0, 0, 0, 0, 0, 0, 0, 0, 0, 0, 0, 0, 0, 0, 0, 0, 5, 0, 97, 98]

/-- A file of six records with empty tails: a local file header, a central
file header, a local file header, the unknown signature `PK\x09\x09`, a
central file header and a local file header, at the offsets 0, 30, 76, 106,
110 and 156. -/
def sampleMixedHeaders : List Byte :=
  [80, 75, 3, 4, 0, 0, 0, 0, 0, 0, 0, 0, 0, 0, 0, 0, 0, 0, 0, 0, 0, 0, 0, 0, 0, 0, 0, 0, 0, 0,
   80, 75, 1, 2, 0, 0, 0, 0, 0, 0, 0, 0, 0, 0, 0, 0, 0, 0, 0, 0, 0, 0, 0, 0, 0, 0, 0, 0, 0, 0,
   0, 0, 0, 0, 0, 0, 0, 0, 0, 0, 0, 0, 0, 0, 0, 0, 80, 75, 3, 4, 0, 0, 0, 0, 0, 0, 0, 0, 0, 0,
   0, 0, 0, 0, 0, 0, 0, 0, 0, 0, 0, 0, 0, 0, 0, 0, 80, 75, 9, 9, 80, 75, 1, 2, 0, 0, 0, 0, 0, 0,
   0, 0, 0, 0, 0, 0, 0, 0, 0, 0, 0, 0, 0, 0, 0, 0, 0, 0, 0, 0, 0, 0, 0, 0, 0, 0, 0, 0, 0, 0, 0,
   0, 0, 0, 0, 0, 80, 75, 3, 4, 0, 0, 0, 0, 0, 0, 0, 0, 0, 0, 0, 0, 0, 0, 0, 0, 0, 0, 0, 0, 0,
   0, 0, 0, 0, 0]
/-! ## Basic facts about the stream and the primitives -/

theorem pure_run {α : Type} (a : α) (s : Stream) : (pure a : Dump α) s = ⟨a, [], s⟩ := rfl

theorem bind_run {α β : Type} (m : Dump α) (k : α → Dump β) (s : Stream) :
    (m >>= k) s = ⟨(k (m s).val (m s).fin).val, (m s).out ++ (k (m s).val (m s).fin).out,
      (k (m s).val (m s).fin).fin⟩ := rfl

@[simp] theorem adv_zero (s : Stream) : s.adv 0 = s := rfl

@[simp] theorem adv_adv (s : Stream) (a b : Nat) : (s.adv a).adv b = s.adv (a + b) := by
  simp [Stream.adv, Nat.add_assoc]

@[simp] theorem adv_pos (s : Stream) (n : Nat) : (s.adv n).pos = s.pos + n := rfl
@[simp] theorem adv_data (s : Stream) (n : Nat) : (s.adv n).data = s.data := rfl
@[simp] theorem adv_eof (s : Stream) (n : Nat) : (s.adv n).eof = s.eof := rfl
@[simp] theorem skip_pos (s : Stream) (n : Nat) : (s.skip n).pos = s.pos + n := rfl
@[simp] theorem skip_data (s : Stream) (n : Nat) : (s.skip n).data = s.data := rfl
@[simp] theorem skip_eof (s : Stream) (n : Nat) : (s.skip n).eof = false := rfl

@[simp] theorem rest_adv (s : Stream) (n : Nat) : (s.adv n).rest = s.rest.drop n := by
  simp [Stream.rest, Stream.adv, Nat.add_comm]

@[simp] theorem rest_skip (s : Stream) (n : Nat) : (s.skip n).rest = s.rest.drop n := by
  simp [Stream.rest, Stream.skip, Nat.add_comm]

theorem rest_length (s : Stream) : s.rest.length = s.data.length - s.pos := by
  simp [Stream.rest]

theorem getc_cons (s : Stream) (b : Byte) (t : List Byte) (h : s.rest = b :: t) :
    getc s = ⟨some b.val, [], s.adv 1⟩ := by
  have h1 : s.data[s.pos]? = some b := by
    have := congrArg List.head? h
    simpa [Stream.rest, List.head?_drop] using this
  simp [getc, h1, Stream.adv]

theorem getc_nil (s : Stream) (h : s.rest = []) :
    getc s = ⟨none, [], s.hitEof⟩ := by
  have h1 : s.data[s.pos]? = none := by
    have := congrArg List.head? h
    simpa [Stream.rest, List.head?_drop] using this
  simp [getc, h1, Stream.hitEof, h]

theorem le_lt (l : List Byte) : le l < 256 ^ l.length := by
  induction l with
  | nil => simp [le]
  | cons b t ih =>
    have hb := b.isLt
    simp only [le, List.length_cons, pow_succ]
    omega

theorem le_append (a b : List Byte) : le (a ++ b) = le a + 256 ^ a.length * le b := by
  induction a with
  | nil => simp [le]
  | cons x t ih =>
    show x.val + 256 * le (t ++ b) = (x.val + 256 * le t) + 256 ^ (t.length + 1) * le b
    rw [ih, pow_succ]; ring

theorem Read8_ok (v : Nat) (s : Stream) (h : 1 ≤ s.rest.length) :
    Read8 v s = ⟨(true, le (s.rest.take 1)), [], s.adv 1⟩ := by
  match hr : s.rest with
  | [] => simp [hr] at h
  | b :: t => simp [Read8, bind_run, getc_cons s b t hr, pure_run, le]

theorem Read8_fail (v : Nat) (s : Stream) (h : s.rest.length < 1) :
    Read8 v s = ⟨(false, v), [], s.hitEof⟩ := by
  have hr : s.rest = [] := by
    cases hs : s.rest with
    | nil => rfl
    | cons b t => simp [hs] at h
  simp [Read8, bind_run, getc_nil s hr, pure_run]

theorem hitEof_adv (s : Stream) (n : Nat) (h : n ≤ s.rest.length) :
    (s.adv n).hitEof = s.hitEof := by
  have h1 : (s.adv n).rest.length = s.rest.length - n := by simp
  unfold Stream.hitEof
  rw [h1]
  simp only [Stream.adv, Stream.mk.injEq, and_true, true_and]
  omega

/-- Two little-endian halves of `n` bytes each make the value of `2 * n` bytes,
and the sum does not overflow `2 * n` bytes. -/
theorem le_halves (l : List Byte) (n : Nat) (h : n + n ≤ l.length) :
    ((le ((l.drop n).take n) <<< (8 * n)) + le (l.take n)) % 2 ^ (16 * n)
      = le (l.take (n + n)) := by
  have h1 : l.take (n + n) = l.take n ++ (l.drop n).take n := List.take_add l n n
  have h2 : (l.take n).length = n := by simp; omega
  have h3 := le_lt (l.take (n + n))
  have h4 : (l.take (n + n)).length = n + n := by simp; omega
  have h5 : (256 : Nat) ^ (n + n) = 2 ^ (16 * n) := by
    have : (256 : Nat) = 2 ^ 8 := by norm_num
    rw [this, ← pow_mul]; congr 1; omega
  have h6 : (2 : Nat) ^ (8 * n) = 256 ^ n := by
    have : (256 : Nat) = 2 ^ 8 := by norm_num
    rw [this, ← pow_mul]
  rw [h4, h5] at h3
  rw [h1, le_append, h2] at h3 ⊢
  rw [Nat.shiftLeft_eq, h6, Nat.mul_comm, Nat.add_comm]
  exact Nat.mod_eq_of_lt h3

theorem Read16_ok (v : Nat) (s : Stream) (h : 2 ≤ s.rest.length) :
    Read16 v s = ⟨(true, le (s.rest.take 2)), [], s.adv 2⟩ := by
  have e1 := Read8_ok 0 s (by omega)
  have e2 := Read8_ok 0 (s.adv 1) (by simp; omega)
  have e3 := le_halves s.rest 1 (by omega)
  simp only [rest_adv] at e2
  simp [Read16, bind_run, e1, e2, pure_run]
  simpa using e3

theorem Read16_fail (v : Nat) (s : Stream) (h : s.rest.length < 2) :
    Read16 v s = ⟨(false, v), [], s.hitEof⟩ := by
  by_cases h1 : 1 ≤ s.rest.length
  · have e1 := Read8_ok 0 s h1
    have e2 := Read8_fail 0 (s.adv 1) (by simp; omega)
    rw [hitEof_adv s 1 h1] at e2
    simp [Read16, bind_run, e1, e2, pure_run]
  · have e1 := Read8_fail 0 s (by omega)
    simp [Read16, bind_run, e1, pure_run]

theorem Read32_ok (v : Nat) (s : Stream) (h : 4 ≤ s.rest.length) :
    Read32 v s = ⟨(true, le (s.rest.take 4)), [], s.adv 4⟩ := by
  have e1 := Read16_ok 0 s (by omega)
  have e2 := Read16_ok 0 (s.adv 2) (by simp; omega)
  have e3 := le_halves s.rest 2 (by omega)
  simp only [rest_adv] at e2
  simp [Read32, bind_run, e1, e2, pure_run]
  simpa using e3

theorem Read32_fail (v : Nat) (s : Stream) (h : s.rest.length < 4) :
    Read32 v s = ⟨(false, v), [], s.hitEof⟩ := by
  by_cases h1 : 2 ≤ s.rest.length
  · have e1 := Read16_ok 0 s h1
    have e2 := Read16_fail 0 (s.adv 2) (by simp; omega)
    rw [hitEof_adv s 2 h1] at e2
    simp [Read32, bind_run, e1, e2, pure_run]
  · have e1 := Read16_fail 0 s (by omega)
    simp [Read32, bind_run, e1, pure_run]

theorem Read64_ok (v : Nat) (s : Stream) (h : 8 ≤ s.rest.length) :
    Read64 v s = ⟨(true, le (s.rest.take 8)), [], s.adv 8⟩ := by
  have e1 := Read32_ok 0 s (by omega)
  have e2 := Read32_ok 0 (s.adv 4) (by simp; omega)
  have e3 := le_halves s.rest 4 (by omega)
  simp only [rest_adv] at e2
  simp [Read64, bind_run, e1, e2, pure_run]
  simpa using e3

theorem Read64_fail (v : Nat) (s : Stream) (h : s.rest.length < 8) :
    Read64 v s = ⟨(false, v), [], s.hitEof⟩ := by
  by_cases h1 : 4 ≤ s.rest.length
  · have e1 := Read32_ok 0 s h1
    have e2 := Read32_fail 0 (s.adv 4) (by simp; omega)
    rw [hitEof_adv s 4 h1] at e2
    simp [Read64, bind_run, e1, e2, pure_run]
  · have e1 := Read32_fail 0 s (by omega)
    simp [Read64, bind_run, e1, pure_run]


/-! ## The field helpers -/

theorem say_run (ls : List Line) (s : Stream) : say ls s = ⟨(), ls, s⟩ := rfl

theorem ftell_run (s : Stream) : ftell s = ⟨s.pos, [], s⟩ := rfl

theorem feof_run (s : Stream) : feof s = ⟨s.eof, [], s⟩ := rfl

theorem fseek_fwd (n : Nat) (s : Stream) : fseek (n : Int) s = ⟨(), [], s.skip n⟩ := by
  have h : 0 ≤ (s.pos : Int) + (n : Int) := by omega
  simp only [fseek, h, if_true, Stream.skip]
  congr 2

theorem fseek_back (n : Nat) (s : Stream) (h : n ≤ s.pos) :
    fseek (-(n : Int)) s = ⟨(), [], ⟨s.data, s.pos - n, false⟩⟩ := by
  have h1 : 0 ≤ (s.pos : Int) + -(n : Int) := by omega
  have h2 : ((s.pos : Int) + -(n : Int)).toNat = s.pos - n := by omega
  simp only [fseek, h1, if_true, h2]

theorem DUMP1_ok (lb : String) (v : Nat) (f : Fmt) (s : Stream) (h : 1 ≤ s.rest.length) :
    DUMP1 lb v f s = ⟨le (s.rest.take 1), Print_fmt f lb 1 (le (s.rest.take 1)), s.adv 1⟩ := by
  simp [DUMP1, bind_run, Read8_ok v s h, pure_run, say_run]

theorem DUMP2_ok (lb : String) (v : Nat) (f : Fmt) (s : Stream) (h : 2 ≤ s.rest.length) :
    DUMP2 lb v f s = ⟨le (s.rest.take 2), Print_fmt f lb 2 (le (s.rest.take 2)), s.adv 2⟩ := by
  simp [DUMP2, bind_run, Read16_ok v s h, pure_run, say_run]

theorem DUMP4_ok (lb : String) (v : Nat) (f : Fmt) (s : Stream) (h : 4 ≤ s.rest.length) :
    DUMP4 lb v f s = ⟨le (s.rest.take 4), Print_fmt f lb 4 (le (s.rest.take 4)), s.adv 4⟩ := by
  simp [DUMP4, bind_run, Read32_ok v s h, pure_run, say_run]

theorem DUMP8_ok (lb : String) (v : Nat) (f : Fmt) (s : Stream) (h : 8 ≤ s.rest.length) :
    DUMP8 lb v f s = ⟨le (s.rest.take 8), Print_fmt f lb 8 (le (s.rest.take 8)), s.adv 8⟩ := by
  simp [DUMP8, bind_run, Read64_ok v s h, pure_run, say_run]

theorem DUMP2x_ok (cfg : Config) (lb : String) (v : Nat) (f : Fmt) (d : Nat → List Line)
    (s : Stream) (h : 2 ≤ s.rest.length) :
    DUMP2x cfg lb v f d s = ⟨le (s.rest.take 2),
      Print_fmt f lb 2 (le (s.rest.take 2)) ++
        (if cfg.gQuiet then [] else d (le (s.rest.take 2))), s.adv 2⟩ := by
  cases hq : cfg.gQuiet <;> simp [DUMP2x, bind_run, Read16_ok v s h, pure_run, say_run, hq]

theorem DUMP4x_ok (cfg : Config) (lb : String) (v : Nat) (f : Fmt) (d : Nat → List Line)
    (s : Stream) (h : 4 ≤ s.rest.length) :
    DUMP4x cfg lb v f d s = ⟨le (s.rest.take 4),
      Print_fmt f lb 4 (le (s.rest.take 4)) ++
        (if cfg.gQuiet then [] else d (le (s.rest.take 4))), s.adv 4⟩ := by
  cases hq : cfg.gQuiet <;> simp [DUMP4x, bind_run, Read32_ok v s h, pure_run, say_run, hq]

theorem DUMP8x_ok (cfg : Config) (lb : String) (v : Nat) (f : Fmt) (d : Nat → List Line)
    (s : Stream) (h : 8 ≤ s.rest.length) :
    DUMP8x cfg lb v f d s = ⟨le (s.rest.take 8),
      Print_fmt f lb 8 (le (s.rest.take 8)) ++
        (if cfg.gQuiet then [] else d (le (s.rest.take 8))), s.adv 8⟩ := by
  cases hq : cfg.gQuiet <;> simp [DUMP8x, bind_run, Read64_ok v s h, pure_run, say_run, hq]

theorem DUMP1_fail (lb : String) (v : Nat) (f : Fmt) (s : Stream) (h : s.rest.length < 1) :
    DUMP1 lb v f s = ⟨v, [], s.hitEof⟩ := by
  simp [DUMP1, bind_run, Read8_fail v s h, pure_run]

theorem DUMP2_fail (lb : String) (v : Nat) (f : Fmt) (s : Stream) (h : s.rest.length < 2) :
    DUMP2 lb v f s = ⟨v, [], s.hitEof⟩ := by
  simp [DUMP2, bind_run, Read16_fail v s h, pure_run]

theorem DUMP4_fail (lb : String) (v : Nat) (f : Fmt) (s : Stream) (h : s.rest.length < 4) :
    DUMP4 lb v f s = ⟨v, [], s.hitEof⟩ := by
  simp [DUMP4, bind_run, Read32_fail v s h, pure_run]

theorem DUMP8_fail (lb : String) (v : Nat) (f : Fmt) (s : Stream) (h : s.rest.length < 8) :
    DUMP8 lb v f s = ⟨v, [], s.hitEof⟩ := by
  simp [DUMP8, bind_run, Read64_fail v s h, pure_run]

theorem DUMP2x_fail (cfg : Config) (lb : String) (v : Nat) (f : Fmt) (d : Nat → List Line)
    (s : Stream) (h : s.rest.length < 2) :
    DUMP2x cfg lb v f d s = ⟨v, [], s.hitEof⟩ := by
  simp [DUMP2x, bind_run, Read16_fail v s h, pure_run]

theorem DUMP4x_fail (cfg : Config) (lb : String) (v : Nat) (f : Fmt) (d : Nat → List Line)
    (s : Stream) (h : s.rest.length < 4) :
    DUMP4x cfg lb v f d s = ⟨v, [], s.hitEof⟩ := by
  simp [DUMP4x, bind_run, Read32_fail v s h, pure_run]

theorem DUMP8x_fail (cfg : Config) (lb : String) (v : Nat) (f : Fmt) (d : Nat → List Line)
    (s : Stream) (h : s.rest.length < 8) :
    DUMP8x cfg lb v f d s = ⟨v, [], s.hitEof⟩ := by
  simp [DUMP8x, bind_run, Read64_fail v s h, pure_run]

/-! ## The dump engine -/

theorem rest_cons_of_length (s : Stream) (n : Nat) (h : n + 1 ≤ s.rest.length) :
    ∃ b t, s.rest = b :: t ∧ (s.adv 1).rest = t ∧ n ≤ t.length := by
  match hr : s.rest with
  | [] => simp [hr] at h
  | b :: t =>
    refine ⟨b, t, rfl, ?_, ?_⟩
    · simp [hr]
    · simp [hr] at h; exact h

theorem Dump_string_loop_ok (length : Nat) (s : Stream) (h : length ≤ s.rest.length) :
    Dump_string_loop length s = ⟨visibleText (s.rest.take length), [], s.adv length⟩ := by
  induction length generalizing s with
  | zero => simp [Dump_string_loop, pure_run, visibleText]
  | succ n ih =>
    obtain ⟨b, t, hr, hr1, ht⟩ := rest_cons_of_length s n h
    have e := ih (s.adv 1) (by rw [hr1]; exact ht)
    simp only [Dump_string_loop, bind_run, getc_cons s b t hr, e, pure_run, hr, hr1,
      List.take_succ_cons, visibleText, adv_adv, List.nil_append, List.append_nil]
    rw [Nat.add_comm 1 n]

theorem Dump_string_ok (length : Nat) (s : Stream) (h : length ≤ s.rest.length) :
    Dump_string length s = ⟨(), [Line.text (visibleText (s.rest.take length))], s.adv length⟩ := by
  simp [Dump_string, bind_run, Dump_string_loop_ok length s h, say_run]

theorem Dump_bytes_loop_fin (cfg : Config) (length : Nat) (offset om : Nat)
    (prev current : List Nat) (s : Stream) (h : length ≤ s.rest.length) :
    (Dump_bytes_loop cfg length offset om prev current s).fin = s.adv length := by
  induction length generalizing s offset om prev current with
  | zero => simp [Dump_bytes_loop, pure_run]
  | succ n ih =>
    obtain ⟨b, t, hr, hr1, ht⟩ := rest_cons_of_length s n h
    have h1 : n ≤ (s.adv 1).rest.length := by rw [hr1]; exact ht
    simp only [Dump_bytes_loop, bind_run, getc_cons s b t hr]
    split_ifs <;> simp [bind_run, say_run, pure_run, ih _ _ _ _ _ h1, Nat.add_comm]

/-! ## What a function writes -/

theorem outAll_pure {α : Type} (P : Line → Prop) (a : α) : OutAll P (pure a : Dump α) := by
  intro s l hl; simp [pure_run] at hl

theorem outAll_bind {α β : Type} (P : Line → Prop) (m : Dump α) (k : α → Dump β)
    (h1 : OutAll P m) (h2 : ∀ a, OutAll P (k a)) : OutAll P (m >>= k) := by
  intro s l hl
  simp only [bind_run, List.mem_append] at hl
  rcases hl with hl | hl
  · exact h1 s l hl
  · exact h2 _ _ l hl

theorem outAll_ite {α : Type} (P : Line → Prop) (c : Prop) [Decidable c] (m1 m2 : Dump α)
    (h1 : OutAll P m1) (h2 : OutAll P m2) : OutAll P (if c then m1 else m2) := by
  split <;> assumption

theorem outAll_say (P : Line → Prop) (ls : List Line) (h : ∀ l ∈ ls, P l) : OutAll P (say ls) := by
  intro s l hl; exact h l hl

theorem outAll_say_one (P : Line → Prop) (l : Line) (h : P l) : OutAll P (say [l]) := by
  intro s l1 hl
  simp only [say_run, List.mem_singleton] at hl
  subst hl
  exact h

theorem outAll_getc (P : Line → Prop) : OutAll P getc := by
  intro s l hl
  simp only [getc] at hl
  split at hl <;> simp at hl

theorem outAll_fseek (P : Line → Prop) (off : Int) : OutAll P (fseek off) := by
  intro s l hl
  simp only [fseek] at hl
  split at hl <;> simp at hl

theorem outAll_ftell (P : Line → Prop) : OutAll P ftell := by
  intro s l hl; simp [ftell] at hl

theorem outAll_feof (P : Line → Prop) : OutAll P feof := by
  intro s l hl; simp [feof] at hl

theorem outAll_Dump_bytes_loop (P : Line → Prop) (hP : ∀ l, l.isRow = true → P l)
    (cfg : Config) (length : Nat) (offset om : Nat) (prev current : List Nat) :
    OutAll P (Dump_bytes_loop cfg length offset om prev current) := by
  induction length generalizing offset om prev current with
  | zero => exact outAll_pure P _
  | succ n ih =>
    unfold Dump_bytes_loop
    apply outAll_bind _ _ _ (outAll_getc P)
    intro c
    cases c with
    | none => exact outAll_pure P _
    | some c =>
      dsimp only
      repeat' first
        | with_reducible exact outAll_pure P _
          | with_reducible exact ih _ _ _ _
        | with_reducible exact outAll_getc P
        | with_reducible exact outAll_fseek P _
        | with_reducible apply outAll_say_one
        | with_reducible apply outAll_say
        | with_reducible apply outAll_ite
        | with_reducible apply outAll_bind
        | ((with_reducible apply hP); rfl)
        | (intro (x : Bool × Nat); obtain ⟨a, b⟩ := x; dsimp only)
        | (intro x; try dsimp only)

theorem outAll_Dump_bytes (P : Line → Prop) (hP : ∀ l, l.isRow = true → P l)
    (cfg : Config) (length : Nat) : OutAll P (Dump_bytes cfg length) := by
  unfold Dump_bytes
  apply outAll_bind _ _ _ (outAll_Dump_bytes_loop P hP cfg length 0 0 [] [])
  intro x
  obtain ⟨offset, current⟩ := x
  dsimp only
  apply outAll_ite
  · apply outAll_say_one; exact hP _ rfl
  · exact outAll_pure P _

theorem Dump_bytes_fin (cfg : Config) (length : Nat) (s : Stream) (h : length ≤ s.rest.length) :
    (Dump_bytes cfg length s).fin = s.adv length := by
  have e := Dump_bytes_loop_fin cfg length 0 0 [] [] s h
  simp only [Dump_bytes, bind_run]
  split <;> simp [say_run, pure_run, e]

/-- The stream once `n` bytes were dumped or skipped: read in full-dump mode,
sought over otherwise. -/
theorem Dump_if_fulldump_ok (cfg : Config) (cap : String) (n : Nat) (s : Stream)
    (h : n ≤ s.rest.length) :
    Dump_if_fulldump cfg cap n s =
      ⟨(), if cfg.gIsFullDump then (Dump_bytes cfg n s).out
           else if cfg.gQuiet then [] else [Line.skipNote cap n],
        if cfg.gIsFullDump then s.adv n else s.skip n⟩ := by
  cases hf : cfg.gIsFullDump
  · cases hq : cfg.gQuiet <;>
      simp [Dump_if_fulldump, hf, hq, bind_run, fseek_fwd, say_run, pure_run]
  · have e := Dump_bytes_fin cfg n s h
    simp only [Dump_if_fulldump, hf, if_true]
    rw [← e]

theorem SkipUnknownData_ok (cfg : Config) (n : Nat) (s : Stream) (h : n ≤ s.rest.length) :
    SkipUnknownData cfg n s =
      ⟨(), Line.skipUnknown n :: (if cfg.gIsFullDump then (Dump_bytes cfg n s).out else []),
        if cfg.gIsFullDump then s.adv n else s.skip n⟩ := by
  cases hf : cfg.gIsFullDump
  · simp [SkipUnknownData, hf, bind_run, fseek_fwd, say_run]
  · have e := Dump_bytes_fin cfg n s h
    simp only [SkipUnknownData, hf, if_true, bind_run, say_run]
    rw [e]
    simp

/-! ## The scan for the next anchor -/

theorem byte_val_eq (b : Byte) (n : Nat) (h : n < 256) : b.val = n ↔ b = Fin.ofNat n := by
  constructor
  · intro e; apply Fin.ext; simp [Fin.ofNat, e]; omega
  · intro e; subst e; simp [Fin.ofNat]; omega

theorem PKat_cons (b : Byte) (l : List Byte) (k : Nat) : PKat (b :: l) (k + 1) ↔ PKat l k := by
  simp [PKat]

theorem SkipToNextPK_loop_found (k : Nat) :
    ∀ (l : List Byte) (s : Stream) (prev : Nat) (sk : Int) (fuel : Nat),
      s.rest = l → firstPK l k → ¬ (prev = 80 ∧ l[0]? = some 75) → k + 2 ≤ fuel →
      SkipToNextPK_loop fuel prev sk s = ⟨sk + k, [], ⟨s.data, s.pos + k, false⟩⟩ := by
  induction k with
  | zero =>
    intro l s prev sk fuel hr hf hp hfuel
    obtain ⟨⟨h0, h1⟩, _⟩ := hf
    match l, h0, h1 with
    | b0 :: b1 :: t, h0, h1 =>
      simp at h0 h1
      subst h0 h1
      obtain ⟨f, rfl⟩ : ∃ f, fuel = f + 2 := ⟨fuel - 2, by omega⟩
      have hr1 : (s.adv 1).rest = (75 : Byte) :: t := by simp [hr]
      have hb : fseek (-2) (s.adv (1 + 1)) = ⟨(), [], ⟨s.data, s.pos, false⟩⟩ := by
        have := fseek_back 2 (s.adv (1 + 1)) (by simp)
        simpa using this
      have v80 : ((80 : Byte) : Nat) = 80 := rfl
      have v75 : ((75 : Byte) : Nat) = 75 := rfl
      simp [SkipToNextPK_loop, bind_run, getc_cons s _ _ hr, getc_cons (s.adv 1) _ _ hr1,
        pure_run, hb, v80, v75]
  | succ k ih =>
    intro l s prev sk fuel hr hf hp hfuel
    obtain ⟨hk, hlt⟩ := hf
    match l, hk with
    | [], hk => simp [PKat] at hk
    | b :: l1, hk =>
      obtain ⟨f, rfl⟩ : ∃ f, fuel = f + 1 := ⟨fuel - 1, by omega⟩
      have hr1 : (s.adv 1).rest = l1 := by simp [hr]
      have hf1 : firstPK l1 k :=
        ⟨(PKat_cons b l1 k).1 hk, fun j hj hpk => hlt (j + 1) (by omega) ((PKat_cons b l1 j).2 hpk)⟩
      have hp1 : ¬ (b.val = 80 ∧ l1[0]? = some 75) := by
        intro ⟨hb, hl⟩
        apply hlt 0 (by omega)
        have hb2 : b = 80 := (byte_val_eq b 80 (by omega)).1 hb
        simp [PKat, hb2, hl]
      have hc : ¬ (prev = 80 ∧ b.val = 75) := by
        intro ⟨h1, h2⟩
        apply hp
        have hb2 : b = 75 := (byte_val_eq b 75 (by omega)).1 h2
        simp [h1, hb2]
      have e := ih l1 (s.adv 1) b.val (sk + 1) f hr1 hf1 hp1 (by omega)
      simp only [SkipToNextPK_loop, bind_run, getc_cons s _ _ hr, hc, if_false, e]
      simp [Stream.adv]
      constructor
      · omega
      · omega

theorem SkipToNextPK_loop_none :
    ∀ (l : List Byte) (s : Stream) (prev : Nat) (sk : Int) (fuel : Nat),
      s.rest = l → noPK l → ¬ (prev = 80 ∧ l[0]? = some 75) → l.length < fuel →
      SkipToNextPK_loop fuel prev sk s = ⟨sk + l.length, [], s.hitEof⟩ := by
  intro l
  induction l with
  | nil =>
    intro s prev sk fuel hr _ _ hfuel
    obtain ⟨f, rfl⟩ : ∃ f, fuel = f + 1 := ⟨fuel - 1, by simp at hfuel; omega⟩
    simp [SkipToNextPK_loop, bind_run, getc_nil s hr, pure_run]
  | cons b l1 ih =>
    intro s prev sk fuel hr hn hp hfuel
    obtain ⟨f, rfl⟩ : ∃ f, fuel = f + 1 := ⟨fuel - 1, by simp at hfuel; omega⟩
    have hr1 : (s.adv 1).rest = l1 := by simp [hr]
    have hn1 : noPK l1 := fun j hj hpk =>
      hn (j + 1) (by simp; omega) ((PKat_cons b l1 j).2 hpk)
    have hp1 : ¬ (b.val = 80 ∧ l1[0]? = some 75) := by
      intro ⟨hb, hl⟩
      apply hn 0 (by simp)
      have hb2 : b = 80 := (byte_val_eq b 80 (by omega)).1 hb
      simp [PKat, hb2, hl]
    have hc : ¬ (prev = 80 ∧ b.val = 75) := by
      intro ⟨h1, h2⟩
      apply hp
      have hb2 : b = 75 := (byte_val_eq b 75 (by omega)).1 h2
      simp [h1, hb2]
    have e := ih (s.adv 1) b.val (sk + 1) f hr1 hn1 hp1 (by simp at hfuel; omega)
    have hh : (s.adv 1).hitEof = s.hitEof := hitEof_adv s 1 (by simp [hr])
    simp only [SkipToNextPK_loop, bind_run, getc_cons s _ _ hr, hc, if_false, e, hh]
    simp
    omega

theorem firstPK_length (l : List Byte) (k : Nat) (h : firstPK l k) : k + 2 ≤ l.length := by
  obtain ⟨⟨_, h1⟩, _⟩ := h
  have := List.getElem?_eq_some_iff.1 h1
  obtain ⟨hlt, _⟩ := this
  omega

/-- What `SkipToNextPK` does when an anchor lies ahead: the `k` bytes before the
first anchor are reported by `SkipUnknownData` (run from the cursor, the
end-of-file indicator cleared by the rewind) and the cursor is left on the anchor. -/
theorem SkipToNextPK_found (cfg : Config) (s : Stream) (k : Nat) (h : firstPK s.rest k) :
    SkipToNextPK cfg s =
      ⟨true, if k = 0 then [] else (SkipUnknownData cfg k ⟨s.data, s.pos, false⟩).out,
        ⟨s.data, s.pos + k, false⟩⟩ := by
  have hlen := firstPK_length _ _ h
  have e := SkipToNextPK_loop_found k s.rest s 0 0 (s.rest.length + 1) rfl h (by simp) (by omega)
  by_cases hk : k = 0
  · subst hk
    simp [SkipToNextPK, bind_run, e, pure_run, feof_run]
  · have hpos : ((0 : Int) + (k : Int)) > 0 := by omega
    have hb := fseek_back k ⟨s.data, s.pos + k, false⟩ (by simp)
    have hn : ((0 : Int) + (k : Int)).toNat = k := by omega
    have hneg : -((0 : Int) + (k : Int)) = -(k : Int) := by omega
    have hrest : (⟨s.data, s.pos, false⟩ : Stream).rest = s.rest := rfl
    have hsk := SkipUnknownData_ok cfg k ⟨s.data, s.pos, false⟩ (by rw [hrest]; omega)
    simp only [SkipToNextPK, bind_run, e, hpos, if_true, hneg, hb, hn, Nat.add_sub_cancel,
      feof_run, pure_run, hk, if_false, List.nil_append, List.append_nil]
    rw [hsk]
    cases cfg.gIsFullDump <;> simp [Stream.adv, Stream.skip]

/-! ## The primitive reader -/

/-- C1: for N in 2, 4, 8 and every stream with at least N bytes left at the
cursor, `Read16`, `Read32`, `Read64` succeed, return the little-endian value
`sum b_i * 256 ^ i` of those N bytes, write nothing, and move the cursor
forward by exactly N bytes. -/
theorem C1_read_little_endian (s : Stream) (val : Nat) :
    (2 ≤ s.rest.length → Read16 val s = ⟨(true, le (s.rest.take 2)), [], s.adv 2⟩) ∧
    (4 ≤ s.rest.length → Read32 val s = ⟨(true, le (s.rest.take 4)), [], s.adv 4⟩) ∧
    (8 ≤ s.rest.length → Read64 val s = ⟨(true, le (s.rest.take 8)), [], s.adv 8⟩) :=
  ⟨Read16_ok val s, Read32_ok val s, Read64_ok val s⟩

theorem C1_read_little_endian_witness :
    8 ≤ (Stream.rest ⟨[9, 1, 2, 3, 4, 5, 6, 7, 8, 9], 1, false⟩).length ∧
    Read64 0 ⟨[9, 1, 2, 3, 4, 5, 6, 7, 8, 9], 1, false⟩ =
      ⟨(true, le ((Stream.rest ⟨[9, 1, 2, 3, 4, 5, 6, 7, 8, 9], 1, false⟩).take 8)), [],
        Stream.adv ⟨[9, 1, 2, 3, 4, 5, 6, 7, 8, 9], 1, false⟩ 8⟩ :=
  ⟨by decide, (C1_read_little_endian ⟨[9, 1, 2, 3, 4, 5, 6, 7, 8, 9], 1, false⟩ 0).2.2 (by decide)⟩

/-- C2: for N in 1, 2, 4, 8, `ReadN` reports absence exactly when fewer than N
bytes are left at the cursor, and on absence the destination keeps the value
it had before the call. -/
theorem C2_read_absent (s : Stream) (val : Nat) :
    (((Read8 val s).val.1 = false ↔ s.rest.length < 1) ∧
      ((Read8 val s).val.1 = false → (Read8 val s).val.2 = val)) ∧
    (((Read16 val s).val.1 = false ↔ s.rest.length < 2) ∧
      ((Read16 val s).val.1 = false → (Read16 val s).val.2 = val)) ∧
    (((Read32 val s).val.1 = false ↔ s.rest.length < 4) ∧
      ((Read32 val s).val.1 = false → (Read32 val s).val.2 = val)) ∧
    (((Read64 val s).val.1 = false ↔ s.rest.length < 8) ∧
      ((Read64 val s).val.1 = false → (Read64 val s).val.2 = val)) := by
  refine ⟨?_, ?_, ?_, ?_⟩
  · by_cases h : 1 ≤ s.rest.length
    · rw [Read8_ok val s h]
      exact ⟨⟨fun h1 => by simp at h1, fun h1 => by omega⟩, fun h1 => by simp at h1⟩
    · rw [Read8_fail val s (by omega)]
      exact ⟨⟨fun _ => by omega, fun _ => rfl⟩, fun _ => rfl⟩
  · by_cases h : 2 ≤ s.rest.length
    · rw [Read16_ok val s h]
      exact ⟨⟨fun h1 => by simp at h1, fun h1 => by omega⟩, fun h1 => by simp at h1⟩
    · rw [Read16_fail val s (by omega)]
      exact ⟨⟨fun _ => by omega, fun _ => rfl⟩, fun _ => rfl⟩
  · by_cases h : 4 ≤ s.rest.length
    · rw [Read32_ok val s h]
      exact ⟨⟨fun h1 => by simp at h1, fun h1 => by omega⟩, fun h1 => by simp at h1⟩
    · rw [Read32_fail val s (by omega)]
      exact ⟨⟨fun _ => by omega, fun _ => rfl⟩, fun _ => rfl⟩
  · by_cases h : 8 ≤ s.rest.length
    · rw [Read64_ok val s h]
      exact ⟨⟨fun h1 => by simp at h1, fun h1 => by omega⟩, fun h1 => by simp at h1⟩
    · rw [Read64_fail val s (by omega)]
      exact ⟨⟨fun _ => by omega, fun _ => rfl⟩, fun _ => rfl⟩

theorem C2_read_absent_witness :
    (Read32 7 ⟨[1, 2, 3], 0, false⟩).val.1 = false ∧ (Read32 7 ⟨[1, 2, 3], 0, false⟩).val.2 = 7 :=
  ⟨by decide, (C2_read_absent ⟨[1, 2, 3], 0, false⟩ 7).2.2.1.2 (by decide)⟩

/-! ## The resynchronising scan -/

theorem filter_isSkipUnknown_rows (ls : List Line) (h : ∀ l ∈ ls, l.isRow = true) :
    ls.filter Line.isSkipUnknown = [] := by
  rw [List.filter_eq_nil_iff]
  intro l hl
  have := h l hl
  cases l <;> simp_all [Line.isRow, Line.isSkipUnknown]

/-- C3: if the first adjacent pair `P`, `K` at or after the cursor starts `k`
bytes after the cursor, `SkipToNextPK` returns true, leaves the cursor on that
`P`, and reports exactly one unknown-data event, of `k` bytes, when `k > 0` and
writes nothing at all when `k = 0`; this holds under every option setting
(full dump or skip).  In full-dump mode the event is followed by rows only. -/
theorem C3_SkipToNextPK_accounting (cfg : Config) (s : Stream) (k : Nat)
    (h : firstPK s.rest k) :
    (SkipToNextPK cfg s).val = true ∧
    (SkipToNextPK cfg s).fin.pos = s.pos + k ∧
    (SkipToNextPK cfg s).fin.data = s.data ∧
    (SkipToNextPK cfg s).out.filter Line.isSkipUnknown
      = (if k = 0 then [] else [Line.skipUnknown k]) ∧
    (k = 0 → (SkipToNextPK cfg s).out = []) ∧
    (0 < k → ∃ rows, (SkipToNextPK cfg s).out = Line.skipUnknown k :: rows ∧
      (∀ l ∈ rows, l.isRow = true) ∧ (cfg.gIsFullDump = false → rows = [])) := by
  have hlen := firstPK_length _ _ h
  have e := SkipToNextPK_found cfg s k h
  have hrest : (⟨s.data, s.pos, false⟩ : Stream).rest = s.rest := rfl
  have hsk := SkipUnknownData_ok cfg k ⟨s.data, s.pos, false⟩ (by rw [hrest]; omega)
  have hrows := outAll_Dump_bytes (fun l => l.isRow = true) (fun _ hl => hl) cfg k
    ⟨s.data, s.pos, false⟩
  rw [e, hsk]
  refine ⟨rfl, rfl, rfl, ?_, ?_, ?_⟩
  · by_cases hk : k = 0
    · simp [hk]
    · cases hf : cfg.gIsFullDump
      · simp [hk, Line.isSkipUnknown]
      · simp [hk, Line.isSkipUnknown, List.filter_cons, filter_isSkipUnknown_rows _ hrows]
  · intro hk; simp [hk]
  · intro hk
    have hk0 : k ≠ 0 := by omega
    refine ⟨if cfg.gIsFullDump then (Dump_bytes cfg k ⟨s.data, s.pos, false⟩).out else [],
      by simp [hk0], ?_, ?_⟩
    · cases hf : cfg.gIsFullDump
      · simp
      · simpa using hrows
    · intro hf; simp [hf]

theorem C3_SkipToNextPK_accounting_witness :
    firstPK (Stream.rest ⟨[7, 1, 80, 80, 75, 3, 4], 1, true⟩) 2 ∧
    (SkipToNextPK ⟨true, false, false, 0⟩ ⟨[7, 1, 80, 80, 75, 3, 4], 1, true⟩).fin.pos = 1 + 2 ∧
    (SkipToNextPK ⟨true, false, false, 0⟩ ⟨[7, 1, 80, 80, 75, 3, 4], 1, true⟩).out.filter
      Line.isSkipUnknown = [Line.skipUnknown 2] :=
  ⟨by decide,
    (C3_SkipToNextPK_accounting ⟨true, false, false, 0⟩ ⟨[7, 1, 80, 80, 75, 3, 4], 1, true⟩ 2
      (by decide)).2.1,
    (C3_SkipToNextPK_accounting ⟨true, false, false, 0⟩ ⟨[7, 1, 80, 80, 75, 3, 4], 1, true⟩ 2
      (by decide)).2.2.2.1⟩

/-! ## Running a sequence step by step -/

@[simp] theorem after_val {α : Type} (o : List Line) (r : Res α) : (r.after o).val = r.val := rfl
@[simp] theorem after_out {α : Type} (o : List Line) (r : Res α) :
    (r.after o).out = o ++ r.out := rfl
@[simp] theorem after_fin {α : Type} (o : List Line) (r : Res α) : (r.after o).fin = r.fin := rfl

theorem after_after {α : Type} (o1 o2 : List Line) (r : Res α) :
    (r.after o2).after o1 = r.after (o1 ++ o2) := by
  simp [Res.after]

theorem after_mk {α : Type} (o o1 : List Line) (a : α) (s : Stream) :
    (Res.mk a o1 s).after o = ⟨a, o ++ o1, s⟩ := rfl

theorem bind_after {α β : Type} (m : Dump α) (k : α → Dump β) (s : Stream) :
    (m >>= k) s = (k (m s).val (m s).fin).after (m s).out := rfl

theorem dump_ite {α : Type} (c : Prop) [Decidable c] (m1 m2 : Dump α) (s : Stream) :
    (if c then m1 else m2) s = if c then m1 s else m2 s := by
  split <;> rfl

theorem pure_bind_run {α β : Type} (a : α) (k : α → Dump β) (s : Stream) :
    ((pure a : Dump α) >>= k) s = k a s := by
  simp [bind_run, pure_run]

theorem say_bind (ls : List Line) {β : Type} (k : Unit → Dump β) (s : Stream) :
    (say ls >>= k) s = (k () s).after ls := rfl

theorem ftell_bind {β : Type} (k : Nat → Dump β) (s : Stream) :
    (ftell >>= k) s = k s.pos s := by
  simp [bind_run, ftell_run]

theorem DUMP1_bind {β : Type} (lb : String) (v : Nat) (f : Fmt) (k : Nat → Dump β) (s : Stream)
    (h : 1 ≤ s.rest.length) :
    (DUMP1 lb v f >>= k) s =
      (k (le (s.rest.take 1)) (s.adv 1)).after (Print_fmt f lb 1 (le (s.rest.take 1))) := by
  rw [bind_after, DUMP1_ok lb v f s h]

theorem DUMP2_bind {β : Type} (lb : String) (v : Nat) (f : Fmt) (k : Nat → Dump β) (s : Stream)
    (h : 2 ≤ s.rest.length) :
    (DUMP2 lb v f >>= k) s =
      (k (le (s.rest.take 2)) (s.adv 2)).after (Print_fmt f lb 2 (le (s.rest.take 2))) := by
  rw [bind_after, DUMP2_ok lb v f s h]

theorem DUMP4_bind {β : Type} (lb : String) (v : Nat) (f : Fmt) (k : Nat → Dump β) (s : Stream)
    (h : 4 ≤ s.rest.length) :
    (DUMP4 lb v f >>= k) s =
      (k (le (s.rest.take 4)) (s.adv 4)).after (Print_fmt f lb 4 (le (s.rest.take 4))) := by
  rw [bind_after, DUMP4_ok lb v f s h]

theorem DUMP8_bind {β : Type} (lb : String) (v : Nat) (f : Fmt) (k : Nat → Dump β) (s : Stream)
    (h : 8 ≤ s.rest.length) :
    (DUMP8 lb v f >>= k) s =
      (k (le (s.rest.take 8)) (s.adv 8)).after (Print_fmt f lb 8 (le (s.rest.take 8))) := by
  rw [bind_after, DUMP8_ok lb v f s h]

theorem DUMP2x_bind {β : Type} (cfg : Config) (lb : String) (v : Nat) (f : Fmt)
    (d : Nat → List Line) (k : Nat → Dump β) (s : Stream) (h : 2 ≤ s.rest.length) :
    (DUMP2x cfg lb v f d >>= k) s =
      (k (le (s.rest.take 2)) (s.adv 2)).after (Print_fmt f lb 2 (le (s.rest.take 2)) ++
        (if cfg.gQuiet then [] else d (le (s.rest.take 2)))) := by
  rw [bind_after, DUMP2x_ok cfg lb v f d s h]

theorem DUMP4x_bind {β : Type} (cfg : Config) (lb : String) (v : Nat) (f : Fmt)
    (d : Nat → List Line) (k : Nat → Dump β) (s : Stream) (h : 4 ≤ s.rest.length) :
    (DUMP4x cfg lb v f d >>= k) s =
      (k (le (s.rest.take 4)) (s.adv 4)).after (Print_fmt f lb 4 (le (s.rest.take 4)) ++
        (if cfg.gQuiet then [] else d (le (s.rest.take 4)))) := by
  rw [bind_after, DUMP4x_ok cfg lb v f d s h]

theorem DUMP8x_bind {β : Type} (cfg : Config) (lb : String) (v : Nat) (f : Fmt)
    (d : Nat → List Line) (k : Nat → Dump β) (s : Stream) (h : 8 ≤ s.rest.length) :
    (DUMP8x cfg lb v f d >>= k) s =
      (k (le (s.rest.take 8)) (s.adv 8)).after (Print_fmt f lb 8 (le (s.rest.take 8)) ++
        (if cfg.gQuiet then [] else d (le (s.rest.take 8)))) := by
  rw [bind_after, DUMP8x_ok cfg lb v f d s h]

theorem Dump_string_bind {β : Type} (n : Nat) (k : Unit → Dump β) (s : Stream)
    (h : n ≤ s.rest.length) :
    (Dump_string n >>= k) s =
      (k () (s.adv n)).after [Line.text (visibleText (s.rest.take n))] := by
  rw [bind_after, Dump_string_ok n s h]

/-! ## No decoder of an extra field writes a section line or a text tail -/

theorem forall_mem_ite {α : Type} (P : α → Prop) (c : Prop) [Decidable c] (a b : List α) :
    (∀ l ∈ (if c then a else b), P l) ↔ (if c then (∀ l ∈ a, P l) else (∀ l ∈ b, P l)) := by
  split <;> rfl

theorem Print_fmt_plain (f : Fmt) (lb : String) (w a : Nat) :
    ∀ l ∈ Print_fmt f lb w a, l.plain = true := by
  cases f <;>
    simp [Print_fmt, Print_u, Print_x, Print_ux, Print_uFF, forall_mem_ite, Line.plain]

theorem Print_extra_plain (nm : String) (id len : Nat) :
    ∀ l ∈ Print_extra nm id len, l.plain = true := by
  simp [Print_extra, Print_x, Print_ux, Line.plain]

theorem Print_version_plain (v : Nat) : ∀ l ∈ Print_version v, l.plain = true := by
  simp only [Print_version, os_type_note, Print_note, Printf_note, List.forall_mem_append,
    forall_mem_ite, List.forall_mem_cons, List.forall_mem_nil, Line.plain, and_self, ite_self]
  trivial

theorem Print_general_purpose_bit_flag_plain (f m : Nat) :
    ∀ l ∈ Print_general_purpose_bit_flag f m, l.plain = true := by
  simp only [Print_general_purpose_bit_flag, Print_note, List.forall_mem_append,
    forall_mem_ite, List.forall_mem_cons, List.not_mem_nil, Line.plain,
    and_self, ite_self, implies_true, false_implies, and_true]

theorem Print_internal_file_attributes_plain (a : Nat) :
    ∀ l ∈ Print_internal_file_attributes a, l.plain = true := by
  simp only [Print_internal_file_attributes, Print_note, List.forall_mem_append,
    forall_mem_ite, List.forall_mem_cons, List.not_mem_nil, Line.plain,
    and_self, ite_self, implies_true, false_implies, and_true]

theorem outAll_Read8 (P : Line → Prop) (v : Nat) : OutAll P (Read8 v) := by
  intro s l hl
  by_cases h : 1 ≤ s.rest.length
  · simp [Read8_ok v s h] at hl
  · simp [Read8_fail v s (by omega)] at hl

theorem outAll_Read16 (P : Line → Prop) (v : Nat) : OutAll P (Read16 v) := by
  intro s l hl
  by_cases h : 2 ≤ s.rest.length
  · simp [Read16_ok v s h] at hl
  · simp [Read16_fail v s (by omega)] at hl

theorem outAll_Read32 (P : Line → Prop) (v : Nat) : OutAll P (Read32 v) := by
  intro s l hl
  by_cases h : 4 ≤ s.rest.length
  · simp [Read32_ok v s h] at hl
  · simp [Read32_fail v s (by omega)] at hl

theorem outAll_Read64 (P : Line → Prop) (v : Nat) : OutAll P (Read64 v) := by
  intro s l hl
  by_cases h : 8 ≤ s.rest.length
  · simp [Read64_ok v s h] at hl
  · simp [Read64_fail v s (by omega)] at hl

theorem outAll_DUMP1 (P : Line → Prop) (hP : ∀ l, l.plain = true → P l)
    (lb : String) (v : Nat) (f : Fmt) : OutAll P (DUMP1 lb v f) := by
  intro s l hl
  by_cases h : 1 ≤ s.rest.length
  · rw [DUMP1_ok lb v f s h] at hl; exact hP l (Print_fmt_plain _ _ _ _ l hl)
  · simp [DUMP1_fail lb v f s (by omega)] at hl

theorem outAll_DUMP2 (P : Line → Prop) (hP : ∀ l, l.plain = true → P l)
    (lb : String) (v : Nat) (f : Fmt) : OutAll P (DUMP2 lb v f) := by
  intro s l hl
  by_cases h : 2 ≤ s.rest.length
  · rw [DUMP2_ok lb v f s h] at hl; exact hP l (Print_fmt_plain _ _ _ _ l hl)
  · simp [DUMP2_fail lb v f s (by omega)] at hl

theorem outAll_DUMP4 (P : Line → Prop) (hP : ∀ l, l.plain = true → P l)
    (lb : String) (v : Nat) (f : Fmt) : OutAll P (DUMP4 lb v f) := by
  intro s l hl
  by_cases h : 4 ≤ s.rest.length
  · rw [DUMP4_ok lb v f s h] at hl; exact hP l (Print_fmt_plain _ _ _ _ l hl)
  · simp [DUMP4_fail lb v f s (by omega)] at hl

theorem outAll_DUMP8 (P : Line → Prop) (hP : ∀ l, l.plain = true → P l)
    (lb : String) (v : Nat) (f : Fmt) : OutAll P (DUMP8 lb v f) := by
  intro s l hl
  by_cases h : 8 ≤ s.rest.length
  · rw [DUMP8_ok lb v f s h] at hl; exact hP l (Print_fmt_plain _ _ _ _ l hl)
  · simp [DUMP8_fail lb v f s (by omega)] at hl

theorem outAll_DUMP2x (P : Line → Prop) (hP : ∀ l, l.plain = true → P l)
    (cfg : Config) (lb : String) (v : Nat) (f : Fmt) (d : Nat → List Line)
    (hd : ∀ x, ∀ l ∈ d x, l.plain = true) : OutAll P (DUMP2x cfg lb v f d) := by
  intro s l hl
  by_cases h : 2 ≤ s.rest.length
  · rw [DUMP2x_ok cfg lb v f d s h] at hl
    simp only [List.mem_append] at hl
    rcases hl with hl | hl
    · exact hP l (Print_fmt_plain _ _ _ _ l hl)
    · split at hl
      · simp at hl
      · exact hP l (hd _ l hl)
  · simp [DUMP2x_fail cfg lb v f d s (by omega)] at hl

theorem outAll_DUMP4x (P : Line → Prop) (hP : ∀ l, l.plain = true → P l)
    (cfg : Config) (lb : String) (v : Nat) (f : Fmt) (d : Nat → List Line)
    (hd : ∀ x, ∀ l ∈ d x, l.plain = true) : OutAll P (DUMP4x cfg lb v f d) := by
  intro s l hl
  by_cases h : 4 ≤ s.rest.length
  · rw [DUMP4x_ok cfg lb v f d s h] at hl
    simp only [List.mem_append] at hl
    rcases hl with hl | hl
    · exact hP l (Print_fmt_plain _ _ _ _ l hl)
    · split at hl
      · simp at hl
      · exact hP l (hd _ l hl)
  · simp [DUMP4x_fail cfg lb v f d s (by omega)] at hl

theorem outAll_DUMP8x (P : Line → Prop) (hP : ∀ l, l.plain = true → P l)
    (cfg : Config) (lb : String) (v : Nat) (f : Fmt) (d : Nat → List Line)
    (hd : ∀ x, ∀ l ∈ d x, l.plain = true) : OutAll P (DUMP8x cfg lb v f d) := by
  intro s l hl
  by_cases h : 8 ≤ s.rest.length
  · rw [DUMP8x_ok cfg lb v f d s h] at hl
    simp only [List.mem_append] at hl
    rcases hl with hl | hl
    · exact hP l (Print_fmt_plain _ _ _ _ l hl)
    · split at hl
      · simp at hl
      · exact hP l (hd _ l hl)
  · simp [DUMP8x_fail cfg lb v f d s (by omega)] at hl

theorem Print_UTC_plain : ∀ x, ∀ l ∈ Print_UTC x, l.plain = true := by
  intro x l hl; simp [Print_UTC] at hl; subst hl; rfl

theorem Print_filetime_plain : ∀ x, ∀ l ∈ Print_filetime x, l.plain = true := by
  intro x l hl; simp [Print_filetime] at hl; subst hl; rfl

theorem row_plain (l : Line) (h : l.isRow = true) : l.plain = true := by
  cases l <;> simp_all [Line.isRow, Line.plain]

theorem outAll_Dump_bytes_plain (P : Line → Prop) (hP : ∀ l, l.plain = true → P l)
    (cfg : Config) (n : Nat) : OutAll P (Dump_bytes cfg n) :=
  outAll_Dump_bytes P (fun l hl => hP l (row_plain l hl)) cfg n

theorem outAll_SkipUnknownData (P : Line → Prop) (hP : ∀ l, l.plain = true → P l)
    (cfg : Config) (n : Nat) : OutAll P (SkipUnknownData cfg n) := by
  unfold SkipUnknownData
  apply outAll_bind _ _ _ (outAll_say_one P (Line.skipUnknown n) (hP _ rfl))
  intro _
  apply outAll_ite
  · exact outAll_Dump_bytes_plain P hP _ _
  · exact outAll_fseek P _

theorem outAll_Dump_if_fulldump (P : Line → Prop) (hP : ∀ l, l.plain = true → P l)
    (cfg : Config) (cap : String) (n : Nat) : OutAll P (Dump_if_fulldump cfg cap n) := by
  unfold Dump_if_fulldump
  apply outAll_ite
  · exact outAll_Dump_bytes_plain P hP _ _
  · apply outAll_bind _ _ _ (outAll_fseek P _)
    intro _
    apply outAll_ite
    · exact outAll_say_one P (Line.skipNote cap n) (hP _ rfl)
    · exact outAll_pure P _

/-! ### The decoders of the extra-field chunks -/

theorem outAll_Dump_extra_Zip64_Extended_Info (P : Line → Prop) (hP : ∀ l, l.plain = true → P l)
    (cfg : Config) (n : Nat) : OutAll P (Dump_extra_Zip64_Extended_Info cfg n) := by
  unfold Dump_extra_Zip64_Extended_Info
  repeat' first
    | with_reducible exact outAll_pure P _
    | with_reducible exact outAll_getc P
    | with_reducible exact outAll_fseek P _
    | with_reducible exact outAll_Read16 P _
    | with_reducible exact outAll_DUMP1 P hP _ _ _
    | with_reducible exact outAll_DUMP2 P hP _ _ _
    | with_reducible exact outAll_DUMP4 P hP _ _ _
    | with_reducible exact outAll_DUMP8 P hP _ _ _
    | with_reducible exact outAll_SkipUnknownData P hP _ _
    | with_reducible exact outAll_Dump_if_fulldump P hP _ _ _
    | with_reducible exact outAll_Dump_bytes_plain P hP _ _
    | with_reducible apply outAll_DUMP4x P hP
    | with_reducible apply outAll_DUMP8x P hP
    | with_reducible apply outAll_say_one
    | with_reducible apply outAll_say
    | with_reducible apply outAll_ite
    | with_reducible apply outAll_bind
    | ((with_reducible apply hP); rfl)
    | with_reducible exact fun l hl => hP l (Print_extra_plain _ _ _ l hl)
    | with_reducible exact Print_UTC_plain
    | with_reducible exact Print_filetime_plain
    | (intro (x : Bool × Nat); obtain ⟨a, b⟩ := x; dsimp only)
    | (intro x; try dsimp only)

theorem outAll_Dump_extra_OS2_Extended_Attributes (P : Line → Prop) (hP : ∀ l, l.plain = true → P l)
    (cfg : Config) (n : Nat) : OutAll P (Dump_extra_OS2_Extended_Attributes cfg n) := by
  unfold Dump_extra_OS2_Extended_Attributes
  repeat' first
    | with_reducible exact outAll_pure P _
    | with_reducible exact outAll_getc P
    | with_reducible exact outAll_fseek P _
    | with_reducible exact outAll_Read16 P _
    | with_reducible exact outAll_DUMP1 P hP _ _ _
    | with_reducible exact outAll_DUMP2 P hP _ _ _
    | with_reducible exact outAll_DUMP4 P hP _ _ _
    | with_reducible exact outAll_DUMP8 P hP _ _ _
    | with_reducible exact outAll_SkipUnknownData P hP _ _
    | with_reducible exact outAll_Dump_if_fulldump P hP _ _ _
    | with_reducible exact outAll_Dump_bytes_plain P hP _ _
    | with_reducible apply outAll_DUMP4x P hP
    | with_reducible apply outAll_DUMP8x P hP
    | with_reducible apply outAll_say_one
    | with_reducible apply outAll_say
    | with_reducible apply outAll_ite
    | with_reducible apply outAll_bind
    | ((with_reducible apply hP); rfl)
    | with_reducible exact fun l hl => hP l (Print_extra_plain _ _ _ l hl)
    | with_reducible exact Print_UTC_plain
    | with_reducible exact Print_filetime_plain
    | (intro (x : Bool × Nat); obtain ⟨a, b⟩ := x; dsimp only)
    | (intro x; try dsimp only)

theorem outAll_Dump_extra_WindowsNT_SD (P : Line → Prop) (hP : ∀ l, l.plain = true → P l)
    (cfg : Config) (n : Nat) : OutAll P (Dump_extra_WindowsNT_SD cfg n) := by
  unfold Dump_extra_WindowsNT_SD
  repeat' first
    | with_reducible exact outAll_pure P _
    | with_reducible exact outAll_getc P
    | with_reducible exact outAll_fseek P _
    | with_reducible exact outAll_Read16 P _
    | with_reducible exact outAll_DUMP1 P hP _ _ _
    | with_reducible exact outAll_DUMP2 P hP _ _ _
    | with_reducible exact outAll_DUMP4 P hP _ _ _
    | with_reducible exact outAll_DUMP8 P hP _ _ _
    | with_reducible exact outAll_SkipUnknownData P hP _ _
    | with_reducible exact outAll_Dump_if_fulldump P hP _ _ _
    | with_reducible exact outAll_Dump_bytes_plain P hP _ _
    | with_reducible apply outAll_DUMP4x P hP
    | with_reducible apply outAll_DUMP8x P hP
    | with_reducible apply outAll_say_one
    | with_reducible apply outAll_say
    | with_reducible apply outAll_ite
    | with_reducible apply outAll_bind
    | ((with_reducible apply hP); rfl)
    | with_reducible exact fun l hl => hP l (Print_extra_plain _ _ _ l hl)
    | with_reducible exact Print_UTC_plain
    | with_reducible exact Print_filetime_plain
    | (intro (x : Bool × Nat); obtain ⟨a, b⟩ := x; dsimp only)
    | (intro x; try dsimp only)

theorem outAll_Dump_extra_ExtendedTimestamp (P : Line → Prop) (hP : ∀ l, l.plain = true → P l)
    (cfg : Config) (n : Nat) : OutAll P (Dump_extra_ExtendedTimestamp cfg n) := by
  unfold Dump_extra_ExtendedTimestamp
  repeat' first
    | with_reducible exact outAll_pure P _
    | with_reducible exact outAll_getc P
    | with_reducible exact outAll_fseek P _
    | with_reducible exact outAll_Read16 P _
    | with_reducible exact outAll_DUMP1 P hP _ _ _
    | with_reducible exact outAll_DUMP2 P hP _ _ _
    | with_reducible exact outAll_DUMP4 P hP _ _ _
    | with_reducible exact outAll_DUMP8 P hP _ _ _
    | with_reducible exact outAll_SkipUnknownData P hP _ _
    | with_reducible exact outAll_Dump_if_fulldump P hP _ _ _
    | with_reducible exact outAll_Dump_bytes_plain P hP _ _
    | with_reducible apply outAll_DUMP4x P hP
    | with_reducible apply outAll_DUMP8x P hP
    | with_reducible apply outAll_say_one
    | with_reducible apply outAll_say
    | with_reducible apply outAll_ite
    | with_reducible apply outAll_bind
    | ((with_reducible apply hP); rfl)
    | with_reducible exact fun l hl => hP l (Print_extra_plain _ _ _ l hl)
    | with_reducible exact Print_UTC_plain
    | with_reducible exact Print_filetime_plain
    | (intro (x : Bool × Nat); obtain ⟨a, b⟩ := x; dsimp only)
    | (intro x; try dsimp only)

theorem outAll_Dump_extra_UnicodeComment (P : Line → Prop) (hP : ∀ l, l.plain = true → P l)
    (cfg : Config) (n : Nat) : OutAll P (Dump_extra_UnicodeComment cfg n) := by
  unfold Dump_extra_UnicodeComment
  repeat' first
    | with_reducible exact outAll_pure P _
    | with_reducible exact outAll_getc P
    | with_reducible exact outAll_fseek P _
    | with_reducible exact outAll_Read16 P _
    | with_reducible exact outAll_DUMP1 P hP _ _ _
    | with_reducible exact outAll_DUMP2 P hP _ _ _
    | with_reducible exact outAll_DUMP4 P hP _ _ _
    | with_reducible exact outAll_DUMP8 P hP _ _ _
    | with_reducible exact outAll_SkipUnknownData P hP _ _
    | with_reducible exact outAll_Dump_if_fulldump P hP _ _ _
    | with_reducible exact outAll_Dump_bytes_plain P hP _ _
    | with_reducible apply outAll_DUMP4x P hP
    | with_reducible apply outAll_DUMP8x P hP
    | with_reducible apply outAll_say_one
    | with_reducible apply outAll_say
    | with_reducible apply outAll_ite
    | with_reducible apply outAll_bind
    | ((with_reducible apply hP); rfl)
    | with_reducible exact fun l hl => hP l (Print_extra_plain _ _ _ l hl)
    | with_reducible exact Print_UTC_plain
    | with_reducible exact Print_filetime_plain
    | (intro (x : Bool × Nat); obtain ⟨a, b⟩ := x; dsimp only)
    | (intro x; try dsimp only)

theorem outAll_Dump_extra_UnicodePath (P : Line → Prop) (hP : ∀ l, l.plain = true → P l)
    (cfg : Config) (n : Nat) : OutAll P (Dump_extra_UnicodePath cfg n) := by
  unfold Dump_extra_UnicodePath
  repeat' first
    | with_reducible exact outAll_pure P _
    | with_reducible exact outAll_getc P
    | with_reducible exact outAll_fseek P _
    | with_reducible exact outAll_Read16 P _
    | with_reducible exact outAll_DUMP1 P hP _ _ _
    | with_reducible exact outAll_DUMP2 P hP _ _ _
    | with_reducible exact outAll_DUMP4 P hP _ _ _
    | with_reducible exact outAll_DUMP8 P hP _ _ _
    | with_reducible exact outAll_SkipUnknownData P hP _ _
    | with_reducible exact outAll_Dump_if_fulldump P hP _ _ _
    | with_reducible exact outAll_Dump_bytes_plain P hP _ _
    | with_reducible apply outAll_DUMP4x P hP
    | with_reducible apply outAll_DUMP8x P hP
    | with_reducible apply outAll_say_one
    | with_reducible apply outAll_say
    | with_reducible apply outAll_ite
    | with_reducible apply outAll_bind
    | ((with_reducible apply hP); rfl)
    | with_reducible exact fun l hl => hP l (Print_extra_plain _ _ _ l hl)
    | with_reducible exact Print_UTC_plain
    | with_reducible exact Print_filetime_plain
    | (intro (x : Bool × Nat); obtain ⟨a, b⟩ := x; dsimp only)
    | (intro x; try dsimp only)

theorem outAll_Dump_extra_NTFS_loop (P : Line → Prop) (hP : ∀ l, l.plain = true → P l)
    (cfg : Config) (fuel : Nat) : ∀ eo, OutAll P (Dump_extra_NTFS_loop cfg fuel eo) := by
  induction fuel with
  | zero => intro eo; exact outAll_pure P _
  | succ n ih =>
    intro eo
    unfold Dump_extra_NTFS_loop
    repeat' first
      | with_reducible exact outAll_pure P _
      | with_reducible exact ih _
      | with_reducible exact outAll_getc P
      | with_reducible exact outAll_fseek P _
      | with_reducible exact outAll_Read16 P _
      | with_reducible exact outAll_DUMP1 P hP _ _ _
      | with_reducible exact outAll_DUMP2 P hP _ _ _
      | with_reducible exact outAll_DUMP4 P hP _ _ _
      | with_reducible exact outAll_DUMP8 P hP _ _ _
      | with_reducible exact outAll_SkipUnknownData P hP _ _
      | with_reducible exact outAll_Dump_if_fulldump P hP _ _ _
      | with_reducible exact outAll_Dump_bytes_plain P hP _ _
      | with_reducible apply outAll_DUMP4x P hP
      | with_reducible apply outAll_DUMP8x P hP
      | with_reducible apply outAll_say_one
      | with_reducible apply outAll_say
      | with_reducible apply outAll_ite
      | with_reducible apply outAll_bind
      | ((with_reducible apply hP); rfl)
      | with_reducible exact fun l hl => hP l (Print_extra_plain _ _ _ l hl)
      | with_reducible exact Print_UTC_plain
      | with_reducible exact Print_filetime_plain
      | (intro (x : Bool × Nat); obtain ⟨a, b⟩ := x; dsimp only)
      | (intro x; try dsimp only)

theorem outAll_Dump_extra_NTFS (P : Line → Prop) (hP : ∀ l, l.plain = true → P l)
    (cfg : Config) (n : Nat) : OutAll P (Dump_extra_NTFS cfg n) := by
  unfold Dump_extra_NTFS
  apply outAll_bind _ _ _ (outAll_DUMP4 P hP _ _ _)
  intro _
  apply outAll_bind
  · intro s l hl
    exact outAll_Dump_extra_NTFS_loop P hP cfg _ 4 s l hl
  · intro eo
    apply outAll_ite
    · exact outAll_SkipUnknownData P hP _ _
    · exact outAll_pure P _

theorem outAll_Dump_extra_chunk (P : Line → Prop) (hP : ∀ l, l.plain = true → P l)
    (cfg : Config) (id size : Nat) : OutAll P (Dump_extra_chunk cfg id size) := by
  unfold Dump_extra_chunk
  repeat' first
    | with_reducible exact outAll_Dump_extra_Zip64_Extended_Info P hP _ _
    | with_reducible exact outAll_Dump_extra_OS2_Extended_Attributes P hP _ _
    | with_reducible exact outAll_Dump_extra_NTFS P hP _ _
    | with_reducible exact outAll_Dump_extra_WindowsNT_SD P hP _ _
    | with_reducible exact outAll_Dump_extra_ExtendedTimestamp P hP _ _
    | with_reducible exact outAll_Dump_extra_UnicodeComment P hP _ _
    | with_reducible exact outAll_Dump_extra_UnicodePath P hP _ _
    | with_reducible exact outAll_Dump_bytes_plain P hP _ _
    | with_reducible apply outAll_say
    | with_reducible apply outAll_ite
    | with_reducible apply outAll_bind
    | with_reducible exact fun l hl => hP l (Print_extra_plain _ _ _ l hl)
    | intro _

theorem outAll_Dump_extra_field_loop (P : Line → Prop) (hP : ∀ l, l.plain = true → P l)
    (cfg : Config) (length fuel : Nat) :
    ∀ off, OutAll P (Dump_extra_field_loop cfg length fuel off) := by
  induction fuel with
  | zero => intro off; exact outAll_pure P _
  | succ n ih =>
    intro off
    unfold Dump_extra_field_loop
    repeat' first
      | with_reducible exact outAll_pure P _
      | with_reducible exact ih _
      | with_reducible exact outAll_Read16 P _
      | with_reducible exact outAll_Dump_extra_chunk P hP _ _ _
      | with_reducible apply outAll_ite
      | with_reducible apply outAll_bind
      | (intro (x : Bool × Nat); obtain ⟨a, b⟩ := x; dsimp only)
      | (intro x; try dsimp only)

theorem outAll_Dump_extra_field (P : Line → Prop) (hP : ∀ l, l.plain = true → P l)
    (cfg : Config) (length : Nat) : OutAll P (Dump_extra_field cfg length) := by
  intro s l hl
  exact outAll_Dump_extra_field_loop P hP cfg length _ 0 s l hl

theorem Dump_string_loop_out (k : Nat) : ∀ s, (Dump_string_loop k s).out = [] := by
  induction k with
  | zero => intro s; rfl
  | succ k ih =>
    intro s
    match hr : s.rest with
    | [] => simp [Dump_string_loop, bind_run, getc_nil s hr, pure_run]
    | b :: t => simp [Dump_string_loop, bind_run, getc_cons s b t hr, pure_run, ih]


/-! ## No function changes the file or moves the cursor backwards -/

theorem keeps_pure {α : Type} (a : α) : Keeps (pure a : Dump α) := by
  intro s; exact ⟨rfl, Nat.le_refl _⟩

theorem keeps_bind {α β : Type} (m : Dump α) (k : α → Dump β)
    (h1 : Keeps m) (h2 : ∀ a, Keeps (k a)) : Keeps (m >>= k) := by
  intro s
  have a := h1 s
  have b := h2 (m s).val (m s).fin
  simp only [bind_run]
  exact ⟨b.1.trans a.1, Nat.le_trans a.2 b.2⟩

theorem keeps_ite {α : Type} (c : Prop) [Decidable c] (m1 m2 : Dump α)
    (h1 : Keeps m1) (h2 : Keeps m2) : Keeps (if c then m1 else m2) := by
  split <;> assumption

theorem keeps_say (ls : List Line) : Keeps (say ls) := by
  intro s; exact ⟨rfl, Nat.le_refl _⟩

theorem keeps_ftell : Keeps ftell := by
  intro s; exact ⟨rfl, Nat.le_refl _⟩

theorem keeps_feof : Keeps feof := by
  intro s; exact ⟨rfl, Nat.le_refl _⟩

theorem keeps_getc : Keeps getc := by
  intro s
  simp only [getc]
  split <;> simp

theorem keeps_fseek_nat (n : Nat) : Keeps (fseek (n : Int)) := by
  intro s
  rw [fseek_fwd]
  simp

theorem keeps_Read8 (v : Nat) : Keeps (Read8 v) := by
  unfold Read8
  apply keeps_bind _ _ keeps_getc
  intro x
  cases x <;> exact keeps_pure _

theorem keeps_Read16 (v : Nat) : Keeps (Read16 v) := by
  unfold Read16
  repeat' first
    | with_reducible exact keeps_pure _
    | with_reducible exact keeps_Read8 _
    | with_reducible apply keeps_ite
    | with_reducible apply keeps_bind
    | (intro (x : Bool × Nat); obtain ⟨a, b⟩ := x; dsimp only)

theorem keeps_Read32 (v : Nat) : Keeps (Read32 v) := by
  unfold Read32
  repeat' first
    | with_reducible exact keeps_pure _
    | with_reducible exact keeps_Read16 _
    | with_reducible apply keeps_ite
    | with_reducible apply keeps_bind
    | (intro (x : Bool × Nat); obtain ⟨a, b⟩ := x; dsimp only)

theorem keeps_Read64 (v : Nat) : Keeps (Read64 v) := by
  unfold Read64
  repeat' first
    | with_reducible exact keeps_pure _
    | with_reducible exact keeps_Read32 _
    | with_reducible apply keeps_ite
    | with_reducible apply keeps_bind
    | (intro (x : Bool × Nat); obtain ⟨a, b⟩ := x; dsimp only)

theorem keeps_DUMP1 (lb : String) (v : Nat) (f : Fmt) : Keeps (DUMP1 lb v f) := by
  unfold DUMP1
  repeat' first
    | with_reducible exact keeps_pure _
    | with_reducible exact keeps_say _
    | with_reducible exact keeps_Read8 _
    | with_reducible apply keeps_ite
    | with_reducible apply keeps_bind
    | (intro (x : Bool × Nat); obtain ⟨a, b⟩ := x; dsimp only)
    | (intro x; try dsimp only)

theorem keeps_DUMP2 (lb : String) (v : Nat) (f : Fmt) : Keeps (DUMP2 lb v f) := by
  unfold DUMP2
  repeat' first
    | with_reducible exact keeps_pure _
    | with_reducible exact keeps_say _
    | with_reducible exact keeps_Read16 _
    | with_reducible apply keeps_ite
    | with_reducible apply keeps_bind
    | (intro (x : Bool × Nat); obtain ⟨a, b⟩ := x; dsimp only)
    | (intro x; try dsimp only)

theorem keeps_DUMP2x (cfg : Config) (lb : String) (v : Nat) (f : Fmt) (d : Nat → List Line) :
    Keeps (DUMP2x cfg lb v f d) := by
  unfold DUMP2x
  repeat' first
    | with_reducible exact keeps_pure _
    | with_reducible exact keeps_say _
    | with_reducible exact keeps_Read16 _
    | with_reducible apply keeps_ite
    | with_reducible apply keeps_bind
    | (intro (x : Bool × Nat); obtain ⟨a, b⟩ := x; dsimp only)
    | (intro x; try dsimp only)

theorem keeps_DUMP4 (lb : String) (v : Nat) (f : Fmt) : Keeps (DUMP4 lb v f) := by
  unfold DUMP4
  repeat' first
    | with_reducible exact keeps_pure _
    | with_reducible exact keeps_say _
    | with_reducible exact keeps_Read32 _
    | with_reducible apply keeps_ite
    | with_reducible apply keeps_bind
    | (intro (x : Bool × Nat); obtain ⟨a, b⟩ := x; dsimp only)
    | (intro x; try dsimp only)

theorem keeps_DUMP4x (cfg : Config) (lb : String) (v : Nat) (f : Fmt) (d : Nat → List Line) :
    Keeps (DUMP4x cfg lb v f d) := by
  unfold DUMP4x
  repeat' first
    | with_reducible exact keeps_pure _
    | with_reducible exact keeps_say _
    | with_reducible exact keeps_Read32 _
    | with_reducible apply keeps_ite
    | with_reducible apply keeps_bind
    | (intro (x : Bool × Nat); obtain ⟨a, b⟩ := x; dsimp only)
    | (intro x; try dsimp only)

theorem keeps_DUMP8 (lb : String) (v : Nat) (f : Fmt) : Keeps (DUMP8 lb v f) := by
  unfold DUMP8
  repeat' first
    | with_reducible exact keeps_pure _
    | with_reducible exact keeps_say _
    | with_reducible exact keeps_Read64 _
    | with_reducible apply keeps_ite
    | with_reducible apply keeps_bind
    | (intro (x : Bool × Nat); obtain ⟨a, b⟩ := x; dsimp only)
    | (intro x; try dsimp only)

theorem keeps_DUMP8x (cfg : Config) (lb : String) (v : Nat) (f : Fmt) (d : Nat → List Line) :
    Keeps (DUMP8x cfg lb v f d) := by
  unfold DUMP8x
  repeat' first
    | with_reducible exact keeps_pure _
    | with_reducible exact keeps_say _
    | with_reducible exact keeps_Read64 _
    | with_reducible apply keeps_ite
    | with_reducible apply keeps_bind
    | (intro (x : Bool × Nat); obtain ⟨a, b⟩ := x; dsimp only)
    | (intro x; try dsimp only)

theorem keeps_Dump_string_loop (n : Nat) : Keeps (Dump_string_loop n) := by
  induction n with
  | zero => exact keeps_pure _
  | succ n ih =>
    unfold Dump_string_loop
    apply keeps_bind _ _ keeps_getc
    intro x
    cases x with
    | none => exact keeps_pure _
    | some c =>
      dsimp only
      apply keeps_bind _ _ ih
      intro _
      exact keeps_pure _

theorem keeps_Dump_string (n : Nat) : Keeps (Dump_string n) := by
  unfold Dump_string
  apply keeps_bind _ _ (keeps_Dump_string_loop n)
  intro _
  exact keeps_say _

theorem keeps_Dump_bytes_loop (cfg : Config) (n : Nat) :
    ∀ offset om prev current, Keeps (Dump_bytes_loop cfg n offset om prev current) := by
  induction n with
  | zero => intro _ _ _ _; exact keeps_pure _
  | succ n ih =>
    intro offset om prev current
    unfold Dump_bytes_loop
    apply keeps_bind _ _ keeps_getc
    intro x
    cases x with
    | none => exact keeps_pure _
    | some c =>
      dsimp only
      repeat' first
        | with_reducible exact keeps_pure _
        | with_reducible exact ih _
        | with_reducible exact ih _ _ _ _
        | with_reducible exact keeps_getc
        | with_reducible exact keeps_ftell
        | with_reducible exact keeps_fseek_nat _
        | with_reducible exact keeps_say _
        | with_reducible apply keeps_ite
        | with_reducible apply keeps_bind
        | (intro (x : Bool × Nat); obtain ⟨a, b⟩ := x; dsimp only)
        | (intro (x : Nat × Nat); obtain ⟨a, b⟩ := x; dsimp only)
        | (intro (x : Nat × List Nat); obtain ⟨a, b⟩ := x; dsimp only)
        | (intro x; try dsimp only)

theorem keeps_Dump_bytes (cfg : Config) (n : Nat) : Keeps (Dump_bytes cfg n) := by
  unfold Dump_bytes
  apply keeps_bind _ _ (keeps_Dump_bytes_loop cfg n 0 0 [] [])
  intro x
  obtain ⟨a, b⟩ := x
  dsimp only
  apply keeps_ite
  · exact keeps_say _
  · exact keeps_pure _

theorem keeps_SkipUnknownData (cfg : Config) (n : Nat) : Keeps (SkipUnknownData cfg n) := by
  unfold SkipUnknownData
  repeat' first
    | with_reducible exact keeps_pure _
    | with_reducible exact ih _
    | with_reducible exact ih _ _ _ _
    | with_reducible exact keeps_getc
    | with_reducible exact keeps_ftell
    | with_reducible exact keeps_fseek_nat _
    | with_reducible exact keeps_say _
    | with_reducible exact keeps_Dump_bytes _ _
    | with_reducible apply keeps_ite
    | with_reducible apply keeps_bind
    | (intro (x : Bool × Nat); obtain ⟨a, b⟩ := x; dsimp only)
    | (intro (x : Nat × Nat); obtain ⟨a, b⟩ := x; dsimp only)
    | (intro (x : Nat × List Nat); obtain ⟨a, b⟩ := x; dsimp only)
    | (intro x; try dsimp only)

theorem keeps_Dump_if_fulldump (cfg : Config) (cap : String) (n : Nat) :
    Keeps (Dump_if_fulldump cfg cap n) := by
  unfold Dump_if_fulldump
  repeat' first
    | with_reducible exact keeps_pure _
    | with_reducible exact ih _
    | with_reducible exact ih _ _ _ _
    | with_reducible exact keeps_getc
    | with_reducible exact keeps_ftell
    | with_reducible exact keeps_fseek_nat _
    | with_reducible exact keeps_say _
    | with_reducible exact keeps_Dump_bytes _ _
    | with_reducible apply keeps_ite
    | with_reducible apply keeps_bind
    | (intro (x : Bool × Nat); obtain ⟨a, b⟩ := x; dsimp only)
    | (intro (x : Nat × Nat); obtain ⟨a, b⟩ := x; dsimp only)
    | (intro (x : Nat × List Nat); obtain ⟨a, b⟩ := x; dsimp only)
    | (intro x; try dsimp only)

theorem keeps_Dump_extra_Zip64_Extended_Info (cfg : Config) (n : Nat) : Keeps (Dump_extra_Zip64_Extended_Info cfg n) := by
  unfold Dump_extra_Zip64_Extended_Info
  repeat' first
    | with_reducible exact keeps_pure _
    | with_reducible exact keeps_getc
    | with_reducible exact keeps_ftell
    | with_reducible exact keeps_fseek_nat _
    | with_reducible exact keeps_say _
    | with_reducible exact keeps_Read16 _
    | with_reducible exact keeps_DUMP1 _ _ _
    | with_reducible exact keeps_DUMP2 _ _ _
    | with_reducible exact keeps_DUMP4 _ _ _
    | with_reducible exact keeps_DUMP8 _ _ _
    | with_reducible exact keeps_DUMP2x _ _ _ _ _
    | with_reducible exact keeps_DUMP4x _ _ _ _ _
    | with_reducible exact keeps_DUMP8x _ _ _ _ _
    | with_reducible exact keeps_Dump_string _
    | with_reducible exact keeps_SkipUnknownData _ _
    | with_reducible exact keeps_Dump_if_fulldump _ _ _
    | with_reducible exact keeps_Dump_bytes _ _
    | with_reducible apply keeps_ite
    | with_reducible apply keeps_bind
    | (intro (x : Bool × Nat); obtain ⟨a, b⟩ := x; dsimp only)
    | (intro (x : Nat × Nat); obtain ⟨a, b⟩ := x; dsimp only)
    | (intro (x : Nat × List Nat); obtain ⟨a, b⟩ := x; dsimp only)
    | (intro x; try dsimp only)

theorem keeps_Dump_extra_OS2_Extended_Attributes (cfg : Config) (n : Nat) : Keeps (Dump_extra_OS2_Extended_Attributes cfg n) := by
  unfold Dump_extra_OS2_Extended_Attributes
  repeat' first
    | with_reducible exact keeps_pure _
    | with_reducible exact keeps_getc
    | with_reducible exact keeps_ftell
    | with_reducible exact keeps_fseek_nat _
    | with_reducible exact keeps_say _
    | with_reducible exact keeps_Read16 _
    | with_reducible exact keeps_DUMP1 _ _ _
    | with_reducible exact keeps_DUMP2 _ _ _
    | with_reducible exact keeps_DUMP4 _ _ _
    | with_reducible exact keeps_DUMP8 _ _ _
    | with_reducible exact keeps_DUMP2x _ _ _ _ _
    | with_reducible exact keeps_DUMP4x _ _ _ _ _
    | with_reducible exact keeps_DUMP8x _ _ _ _ _
    | with_reducible exact keeps_Dump_string _
    | with_reducible exact keeps_SkipUnknownData _ _
    | with_reducible exact keeps_Dump_if_fulldump _ _ _
    | with_reducible exact keeps_Dump_bytes _ _
    | with_reducible apply keeps_ite
    | with_reducible apply keeps_bind
    | (intro (x : Bool × Nat); obtain ⟨a, b⟩ := x; dsimp only)
    | (intro (x : Nat × Nat); obtain ⟨a, b⟩ := x; dsimp only)
    | (intro (x : Nat × List Nat); obtain ⟨a, b⟩ := x; dsimp only)
    | (intro x; try dsimp only)

theorem keeps_Dump_extra_WindowsNT_SD (cfg : Config) (n : Nat) : Keeps (Dump_extra_WindowsNT_SD cfg n) := by
  unfold Dump_extra_WindowsNT_SD
  repeat' first
    | with_reducible exact keeps_pure _
    | with_reducible exact keeps_getc
    | with_reducible exact keeps_ftell
    | with_reducible exact keeps_fseek_nat _
    | with_reducible exact keeps_say _
    | with_reducible exact keeps_Read16 _
    | with_reducible exact keeps_DUMP1 _ _ _
    | with_reducible exact keeps_DUMP2 _ _ _
    | with_reducible exact keeps_DUMP4 _ _ _
    | with_reducible exact keeps_DUMP8 _ _ _
    | with_reducible exact keeps_DUMP2x _ _ _ _ _
    | with_reducible exact keeps_DUMP4x _ _ _ _ _
    | with_reducible exact keeps_DUMP8x _ _ _ _ _
    | with_reducible exact keeps_Dump_string _
    | with_reducible exact keeps_SkipUnknownData _ _
    | with_reducible exact keeps_Dump_if_fulldump _ _ _
    | with_reducible exact keeps_Dump_bytes _ _
    | with_reducible apply keeps_ite
    | with_reducible apply keeps_bind
    | (intro (x : Bool × Nat); obtain ⟨a, b⟩ := x; dsimp only)
    | (intro (x : Nat × Nat); obtain ⟨a, b⟩ := x; dsimp only)
    | (intro (x : Nat × List Nat); obtain ⟨a, b⟩ := x; dsimp only)
    | (intro x; try dsimp only)

theorem keeps_Dump_extra_ExtendedTimestamp (cfg : Config) (n : Nat) : Keeps (Dump_extra_ExtendedTimestamp cfg n) := by
  unfold Dump_extra_ExtendedTimestamp
  repeat' first
    | with_reducible exact keeps_pure _
    | with_reducible exact keeps_getc
    | with_reducible exact keeps_ftell
    | with_reducible exact keeps_fseek_nat _
    | with_reducible exact keeps_say _
    | with_reducible exact keeps_Read16 _
    | with_reducible exact keeps_DUMP1 _ _ _
    | with_reducible exact keeps_DUMP2 _ _ _
    | with_reducible exact keeps_DUMP4 _ _ _
    | with_reducible exact keeps_DUMP8 _ _ _
    | with_reducible exact keeps_DUMP2x _ _ _ _ _
    | with_reducible exact keeps_DUMP4x _ _ _ _ _
    | with_reducible exact keeps_DUMP8x _ _ _ _ _
    | with_reducible exact keeps_Dump_string _
    | with_reducible exact keeps_SkipUnknownData _ _
    | with_reducible exact keeps_Dump_if_fulldump _ _ _
    | with_reducible exact keeps_Dump_bytes _ _
    | with_reducible apply keeps_ite
    | with_reducible apply keeps_bind
    | (intro (x : Bool × Nat); obtain ⟨a, b⟩ := x; dsimp only)
    | (intro (x : Nat × Nat); obtain ⟨a, b⟩ := x; dsimp only)
    | (intro (x : Nat × List Nat); obtain ⟨a, b⟩ := x; dsimp only)
    | (intro x; try dsimp only)

theorem keeps_Dump_extra_UnicodeComment (cfg : Config) (n : Nat) : Keeps (Dump_extra_UnicodeComment cfg n) := by
  unfold Dump_extra_UnicodeComment
  repeat' first
    | with_reducible exact keeps_pure _
    | with_reducible exact keeps_getc
    | with_reducible exact keeps_ftell
    | with_reducible exact keeps_fseek_nat _
    | with_reducible exact keeps_say _
    | with_reducible exact keeps_Read16 _
    | with_reducible exact keeps_DUMP1 _ _ _
    | with_reducible exact keeps_DUMP2 _ _ _
    | with_reducible exact keeps_DUMP4 _ _ _
    | with_reducible exact keeps_DUMP8 _ _ _
    | with_reducible exact keeps_DUMP2x _ _ _ _ _
    | with_reducible exact keeps_DUMP4x _ _ _ _ _
    | with_reducible exact keeps_DUMP8x _ _ _ _ _
    | with_reducible exact keeps_Dump_string _
    | with_reducible exact keeps_SkipUnknownData _ _
    | with_reducible exact keeps_Dump_if_fulldump _ _ _
    | with_reducible exact keeps_Dump_bytes _ _
    | with_reducible apply keeps_ite
    | with_reducible apply keeps_bind
    | (intro (x : Bool × Nat); obtain ⟨a, b⟩ := x; dsimp only)
    | (intro (x : Nat × Nat); obtain ⟨a, b⟩ := x; dsimp only)
    | (intro (x : Nat × List Nat); obtain ⟨a, b⟩ := x; dsimp only)
    | (intro x; try dsimp only)

theorem keeps_Dump_extra_UnicodePath (cfg : Config) (n : Nat) : Keeps (Dump_extra_UnicodePath cfg n) := by
  unfold Dump_extra_UnicodePath
  repeat' first
    | with_reducible exact keeps_pure _
    | with_reducible exact keeps_getc
    | with_reducible exact keeps_ftell
    | with_reducible exact keeps_fseek_nat _
    | with_reducible exact keeps_say _
    | with_reducible exact keeps_Read16 _
    | with_reducible exact keeps_DUMP1 _ _ _
    | with_reducible exact keeps_DUMP2 _ _ _
    | with_reducible exact keeps_DUMP4 _ _ _
    | with_reducible exact keeps_DUMP8 _ _ _
    | with_reducible exact keeps_DUMP2x _ _ _ _ _
    | with_reducible exact keeps_DUMP4x _ _ _ _ _
    | with_reducible exact keeps_DUMP8x _ _ _ _ _
    | with_reducible exact keeps_Dump_string _
    | with_reducible exact keeps_SkipUnknownData _ _
    | with_reducible exact keeps_Dump_if_fulldump _ _ _
    | with_reducible exact keeps_Dump_bytes _ _
    | with_reducible apply keeps_ite
    | with_reducible apply keeps_bind
    | (intro (x : Bool × Nat); obtain ⟨a, b⟩ := x; dsimp only)
    | (intro (x : Nat × Nat); obtain ⟨a, b⟩ := x; dsimp only)
    | (intro (x : Nat × List Nat); obtain ⟨a, b⟩ := x; dsimp only)
    | (intro x; try dsimp only)

theorem keeps_Dump_extra_NTFS_loop (cfg : Config) (fuel : Nat) :
    ∀ eo, Keeps (Dump_extra_NTFS_loop cfg fuel eo) := by
  induction fuel with
  | zero => intro eo; exact keeps_pure _
  | succ n ih =>
    intro eo
    unfold Dump_extra_NTFS_loop
    repeat' first
      | with_reducible exact keeps_pure _
      | with_reducible exact ih _
      | with_reducible exact ih _ _ _ _
      | with_reducible exact keeps_getc
      | with_reducible exact keeps_ftell
      | with_reducible exact keeps_fseek_nat _
      | with_reducible exact keeps_say _
      | with_reducible exact keeps_Read16 _
      | with_reducible exact keeps_DUMP1 _ _ _
      | with_reducible exact keeps_DUMP2 _ _ _
      | with_reducible exact keeps_DUMP4 _ _ _
      | with_reducible exact keeps_DUMP8 _ _ _
      | with_reducible exact keeps_DUMP2x _ _ _ _ _
      | with_reducible exact keeps_DUMP4x _ _ _ _ _
      | with_reducible exact keeps_DUMP8x _ _ _ _ _
      | with_reducible exact keeps_Dump_string _
      | with_reducible exact keeps_SkipUnknownData _ _
      | with_reducible exact keeps_Dump_if_fulldump _ _ _
      | with_reducible exact keeps_Dump_bytes _ _
      | with_reducible apply keeps_ite
      | with_reducible apply keeps_bind
      | (intro (x : Bool × Nat); obtain ⟨a, b⟩ := x; dsimp only)
      | (intro (x : Nat × Nat); obtain ⟨a, b⟩ := x; dsimp only)
      | (intro (x : Nat × List Nat); obtain ⟨a, b⟩ := x; dsimp only)
      | (intro x; try dsimp only)

theorem keeps_Dump_extra_NTFS (cfg : Config) (n : Nat) : Keeps (Dump_extra_NTFS cfg n) := by
  unfold Dump_extra_NTFS
  apply keeps_bind _ _ (keeps_DUMP4 _ _ _)
  intro _
  apply keeps_bind
  · intro s
    exact keeps_Dump_extra_NTFS_loop cfg _ 4 s
  · intro eo
    apply keeps_ite
    · exact keeps_SkipUnknownData _ _
    · exact keeps_pure _

theorem keeps_Dump_extra_chunk (cfg : Config) (id size : Nat) :
    Keeps (Dump_extra_chunk cfg id size) := by
  unfold Dump_extra_chunk
  repeat' first
    | with_reducible exact keeps_Dump_extra_Zip64_Extended_Info _ _
    | with_reducible exact keeps_Dump_extra_OS2_Extended_Attributes _ _
    | with_reducible exact keeps_Dump_extra_NTFS _ _
    | with_reducible exact keeps_Dump_extra_WindowsNT_SD _ _
    | with_reducible exact keeps_Dump_extra_ExtendedTimestamp _ _
    | with_reducible exact keeps_Dump_extra_UnicodeComment _ _
    | with_reducible exact keeps_Dump_extra_UnicodePath _ _
    | with_reducible exact keeps_Dump_bytes _ _
    | with_reducible exact keeps_say _
    | with_reducible apply keeps_ite
    | with_reducible apply keeps_bind
    | intro _

theorem keeps_Dump_extra_field_loop (cfg : Config) (length fuel : Nat) :
    ∀ off, Keeps (Dump_extra_field_loop cfg length fuel off) := by
  induction fuel with
  | zero => intro off; exact keeps_pure _
  | succ n ih =>
    intro off
    unfold Dump_extra_field_loop
    repeat' first
      | with_reducible exact keeps_pure _
      | with_reducible exact ih _
      | with_reducible exact keeps_Read16 _
      | with_reducible exact keeps_Dump_extra_chunk _ _ _
      | with_reducible apply keeps_ite
      | with_reducible apply keeps_bind
      | (intro (x : Bool × Nat); obtain ⟨a, b⟩ := x; dsimp only)
      | (intro x; try dsimp only)

theorem keeps_Dump_extra_field (cfg : Config) (length : Nat) :
    Keeps (Dump_extra_field cfg length) := by
  intro s
  exact keeps_Dump_extra_field_loop cfg length _ 0 s

theorem keeps_Dump_Data_descriptor : Keeps Dump_Data_descriptor := by
  unfold Dump_Data_descriptor
  repeat' first
    | with_reducible exact keeps_pure _
    | with_reducible exact keeps_getc
    | with_reducible exact keeps_ftell
    | with_reducible exact keeps_fseek_nat _
    | with_reducible exact keeps_say _
    | with_reducible exact keeps_Read16 _
    | with_reducible exact keeps_DUMP1 _ _ _
    | with_reducible exact keeps_DUMP2 _ _ _
    | with_reducible exact keeps_DUMP4 _ _ _
    | with_reducible exact keeps_DUMP8 _ _ _
    | with_reducible exact keeps_DUMP2x _ _ _ _ _
    | with_reducible exact keeps_DUMP4x _ _ _ _ _
    | with_reducible exact keeps_DUMP8x _ _ _ _ _
    | with_reducible exact keeps_Dump_string _
    | with_reducible exact keeps_SkipUnknownData _ _
    | with_reducible exact keeps_Dump_if_fulldump _ _ _
    | with_reducible exact keeps_Dump_bytes _ _
    | with_reducible exact keeps_Dump_extra_field _ _
    | with_reducible apply keeps_ite
    | with_reducible apply keeps_bind
    | (intro (x : Bool × Nat); obtain ⟨a, b⟩ := x; dsimp only)
    | (intro (x : Nat × Nat); obtain ⟨a, b⟩ := x; dsimp only)
    | (intro (x : Nat × List Nat); obtain ⟨a, b⟩ := x; dsimp only)
    | (intro x; try dsimp only)

theorem keeps_Dump_Local_file_tails (cfg : Config) (n : Int) (a b : Nat) :
    Keeps (Dump_Local_file_tails cfg n a b) := by
  unfold Dump_Local_file_tails
  repeat' first
    | with_reducible exact keeps_pure _
    | with_reducible exact keeps_getc
    | with_reducible exact keeps_ftell
    | with_reducible exact keeps_fseek_nat _
    | with_reducible exact keeps_say _
    | with_reducible exact keeps_Read16 _
    | with_reducible exact keeps_DUMP1 _ _ _
    | with_reducible exact keeps_DUMP2 _ _ _
    | with_reducible exact keeps_DUMP4 _ _ _
    | with_reducible exact keeps_DUMP8 _ _ _
    | with_reducible exact keeps_DUMP2x _ _ _ _ _
    | with_reducible exact keeps_DUMP4x _ _ _ _ _
    | with_reducible exact keeps_DUMP8x _ _ _ _ _
    | with_reducible exact keeps_Dump_string _
    | with_reducible exact keeps_SkipUnknownData _ _
    | with_reducible exact keeps_Dump_if_fulldump _ _ _
    | with_reducible exact keeps_Dump_bytes _ _
    | with_reducible exact keeps_Dump_extra_field _ _
    | with_reducible exact keeps_Dump_Data_descriptor
    | with_reducible apply keeps_ite
    | with_reducible apply keeps_bind
    | (intro (x : Bool × Nat); obtain ⟨a, b⟩ := x; dsimp only)
    | (intro (x : Nat × Nat); obtain ⟨a, b⟩ := x; dsimp only)
    | (intro (x : Nat × List Nat); obtain ⟨a, b⟩ := x; dsimp only)
    | (intro x; try dsimp only)

theorem keeps_Dump_Local_file_data (cfg : Config) (n : Int) (a b : Nat) :
    Keeps (Dump_Local_file_data cfg n a b) := by
  unfold Dump_Local_file_data
  repeat' first
    | with_reducible exact keeps_pure _
    | with_reducible exact keeps_getc
    | with_reducible exact keeps_ftell
    | with_reducible exact keeps_fseek_nat _
    | with_reducible exact keeps_say _
    | with_reducible exact keeps_Read16 _
    | with_reducible exact keeps_DUMP1 _ _ _
    | with_reducible exact keeps_DUMP2 _ _ _
    | with_reducible exact keeps_DUMP4 _ _ _
    | with_reducible exact keeps_DUMP8 _ _ _
    | with_reducible exact keeps_DUMP2x _ _ _ _ _
    | with_reducible exact keeps_DUMP4x _ _ _ _ _
    | with_reducible exact keeps_DUMP8x _ _ _ _ _
    | with_reducible exact keeps_Dump_string _
    | with_reducible exact keeps_SkipUnknownData _ _
    | with_reducible exact keeps_Dump_if_fulldump _ _ _
    | with_reducible exact keeps_Dump_bytes _ _
    | with_reducible exact keeps_Dump_extra_field _ _
    | with_reducible exact keeps_Dump_Data_descriptor
    | with_reducible apply keeps_ite
    | with_reducible apply keeps_bind
    | (intro (x : Bool × Nat); obtain ⟨a, b⟩ := x; dsimp only)
    | (intro (x : Nat × Nat); obtain ⟨a, b⟩ := x; dsimp only)
    | (intro (x : Nat × List Nat); obtain ⟨a, b⟩ := x; dsimp only)
    | (intro x; try dsimp only)

theorem keeps_Dump_Local_file (cfg : Config) (n : Int) :
    Keeps (Dump_Local_file cfg n) := by
  unfold Dump_Local_file
  repeat' first
    | with_reducible exact keeps_pure _
    | with_reducible exact keeps_getc
    | with_reducible exact keeps_ftell
    | with_reducible exact keeps_fseek_nat _
    | with_reducible exact keeps_say _
    | with_reducible exact keeps_Read16 _
    | with_reducible exact keeps_DUMP1 _ _ _
    | with_reducible exact keeps_DUMP2 _ _ _
    | with_reducible exact keeps_DUMP4 _ _ _
    | with_reducible exact keeps_DUMP8 _ _ _
    | with_reducible exact keeps_DUMP2x _ _ _ _ _
    | with_reducible exact keeps_DUMP4x _ _ _ _ _
    | with_reducible exact keeps_DUMP8x _ _ _ _ _
    | with_reducible exact keeps_Dump_string _
    | with_reducible exact keeps_SkipUnknownData _ _
    | with_reducible exact keeps_Dump_if_fulldump _ _ _
    | with_reducible exact keeps_Dump_bytes _ _
    | with_reducible exact keeps_Dump_extra_field _ _
    | with_reducible exact keeps_Dump_Data_descriptor
    | with_reducible exact keeps_Dump_Local_file_tails _ _ _ _
    | with_reducible exact keeps_Dump_Local_file_data _ _ _ _
    | with_reducible apply keeps_ite
    | with_reducible apply keeps_bind
    | (intro (x : Bool × Nat); obtain ⟨a, b⟩ := x; dsimp only)
    | (intro (x : Nat × Nat); obtain ⟨a, b⟩ := x; dsimp only)
    | (intro (x : Nat × List Nat); obtain ⟨a, b⟩ := x; dsimp only)
    | (intro x; try dsimp only)

theorem keeps_Dump_Central_directory_tails (cfg : Config) (n : Int) (a b c : Nat) :
    Keeps (Dump_Central_directory_tails cfg n a b c) := by
  unfold Dump_Central_directory_tails
  repeat' first
    | with_reducible exact keeps_pure _
    | with_reducible exact keeps_getc
    | with_reducible exact keeps_ftell
    | with_reducible exact keeps_fseek_nat _
    | with_reducible exact keeps_say _
    | with_reducible exact keeps_Read16 _
    | with_reducible exact keeps_DUMP1 _ _ _
    | with_reducible exact keeps_DUMP2 _ _ _
    | with_reducible exact keeps_DUMP4 _ _ _
    | with_reducible exact keeps_DUMP8 _ _ _
    | with_reducible exact keeps_DUMP2x _ _ _ _ _
    | with_reducible exact keeps_DUMP4x _ _ _ _ _
    | with_reducible exact keeps_DUMP8x _ _ _ _ _
    | with_reducible exact keeps_Dump_string _
    | with_reducible exact keeps_SkipUnknownData _ _
    | with_reducible exact keeps_Dump_if_fulldump _ _ _
    | with_reducible exact keeps_Dump_bytes _ _
    | with_reducible exact keeps_Dump_extra_field _ _
    | with_reducible exact keeps_Dump_Data_descriptor
    | with_reducible apply keeps_ite
    | with_reducible apply keeps_bind
    | (intro (x : Bool × Nat); obtain ⟨a, b⟩ := x; dsimp only)
    | (intro (x : Nat × Nat); obtain ⟨a, b⟩ := x; dsimp only)
    | (intro (x : Nat × List Nat); obtain ⟨a, b⟩ := x; dsimp only)
    | (intro x; try dsimp only)

theorem keeps_Dump_Archive_extra_data_record (cfg : Config) : Keeps (Dump_Archive_extra_data_record cfg) := by
  unfold Dump_Archive_extra_data_record
  repeat' first
    | with_reducible exact keeps_pure _
    | with_reducible exact keeps_getc
    | with_reducible exact keeps_ftell
    | with_reducible exact keeps_fseek_nat _
    | with_reducible exact keeps_say _
    | with_reducible exact keeps_Read16 _
    | with_reducible exact keeps_DUMP1 _ _ _
    | with_reducible exact keeps_DUMP2 _ _ _
    | with_reducible exact keeps_DUMP4 _ _ _
    | with_reducible exact keeps_DUMP8 _ _ _
    | with_reducible exact keeps_DUMP2x _ _ _ _ _
    | with_reducible exact keeps_DUMP4x _ _ _ _ _
    | with_reducible exact keeps_DUMP8x _ _ _ _ _
    | with_reducible exact keeps_Dump_string _
    | with_reducible exact keeps_SkipUnknownData _ _
    | with_reducible exact keeps_Dump_if_fulldump _ _ _
    | with_reducible exact keeps_Dump_bytes _ _
    | with_reducible exact keeps_Dump_extra_field _ _
    | with_reducible exact keeps_Dump_Data_descriptor
    | with_reducible apply keeps_ite
    | with_reducible apply keeps_bind
    | (intro (x : Bool × Nat); obtain ⟨a, b⟩ := x; dsimp only)
    | (intro (x : Nat × Nat); obtain ⟨a, b⟩ := x; dsimp only)
    | (intro (x : Nat × List Nat); obtain ⟨a, b⟩ := x; dsimp only)
    | (intro x; try dsimp only)

theorem keeps_Dump_Central_directory_file_header (cfg : Config) (n : Int) : Keeps (Dump_Central_directory_file_header cfg n) := by
  unfold Dump_Central_directory_file_header
  repeat' first
    | with_reducible exact keeps_Dump_Central_directory_tails _ _ _ _ _
    | with_reducible exact keeps_pure _
    | with_reducible exact keeps_getc
    | with_reducible exact keeps_ftell
    | with_reducible exact keeps_fseek_nat _
    | with_reducible exact keeps_say _
    | with_reducible exact keeps_Read16 _
    | with_reducible exact keeps_DUMP1 _ _ _
    | with_reducible exact keeps_DUMP2 _ _ _
    | with_reducible exact keeps_DUMP4 _ _ _
    | with_reducible exact keeps_DUMP8 _ _ _
    | with_reducible exact keeps_DUMP2x _ _ _ _ _
    | with_reducible exact keeps_DUMP4x _ _ _ _ _
    | with_reducible exact keeps_DUMP8x _ _ _ _ _
    | with_reducible exact keeps_Dump_string _
    | with_reducible exact keeps_SkipUnknownData _ _
    | with_reducible exact keeps_Dump_if_fulldump _ _ _
    | with_reducible exact keeps_Dump_bytes _ _
    | with_reducible exact keeps_Dump_extra_field _ _
    | with_reducible exact keeps_Dump_Data_descriptor
    | with_reducible apply keeps_ite
    | with_reducible apply keeps_bind
    | (intro (x : Bool × Nat); obtain ⟨a, b⟩ := x; dsimp only)
    | (intro (x : Nat × Nat); obtain ⟨a, b⟩ := x; dsimp only)
    | (intro (x : Nat × List Nat); obtain ⟨a, b⟩ := x; dsimp only)
    | (intro x; try dsimp only)

theorem keeps_Dump_Central_directory_digital_signature (cfg : Config) : Keeps (Dump_Central_directory_digital_signature cfg) := by
  unfold Dump_Central_directory_digital_signature
  repeat' first
    | with_reducible exact keeps_pure _
    | with_reducible exact keeps_getc
    | with_reducible exact keeps_ftell
    | with_reducible exact keeps_fseek_nat _
    | with_reducible exact keeps_say _
    | with_reducible exact keeps_Read16 _
    | with_reducible exact keeps_DUMP1 _ _ _
    | with_reducible exact keeps_DUMP2 _ _ _
    | with_reducible exact keeps_DUMP4 _ _ _
    | with_reducible exact keeps_DUMP8 _ _ _
    | with_reducible exact keeps_DUMP2x _ _ _ _ _
    | with_reducible exact keeps_DUMP4x _ _ _ _ _
    | with_reducible exact keeps_DUMP8x _ _ _ _ _
    | with_reducible exact keeps_Dump_string _
    | with_reducible exact keeps_SkipUnknownData _ _
    | with_reducible exact keeps_Dump_if_fulldump _ _ _
    | with_reducible exact keeps_Dump_bytes _ _
    | with_reducible exact keeps_Dump_extra_field _ _
    | with_reducible exact keeps_Dump_Data_descriptor
    | with_reducible apply keeps_ite
    | with_reducible apply keeps_bind
    | (intro (x : Bool × Nat); obtain ⟨a, b⟩ := x; dsimp only)
    | (intro (x : Nat × Nat); obtain ⟨a, b⟩ := x; dsimp only)
    | (intro (x : Nat × List Nat); obtain ⟨a, b⟩ := x; dsimp only)
    | (intro x; try dsimp only)

theorem keeps_Dump_Zip64_end_of_central_directory_record (cfg : Config) : Keeps (Dump_Zip64_end_of_central_directory_record cfg) := by
  unfold Dump_Zip64_end_of_central_directory_record
  repeat' first
    | with_reducible exact keeps_pure _
    | with_reducible exact keeps_getc
    | with_reducible exact keeps_ftell
    | with_reducible exact keeps_fseek_nat _
    | with_reducible exact keeps_say _
    | with_reducible exact keeps_Read16 _
    | with_reducible exact keeps_DUMP1 _ _ _
    | with_reducible exact keeps_DUMP2 _ _ _
    | with_reducible exact keeps_DUMP4 _ _ _
    | with_reducible exact keeps_DUMP8 _ _ _
    | with_reducible exact keeps_DUMP2x _ _ _ _ _
    | with_reducible exact keeps_DUMP4x _ _ _ _ _
    | with_reducible exact keeps_DUMP8x _ _ _ _ _
    | with_reducible exact keeps_Dump_string _
    | with_reducible exact keeps_SkipUnknownData _ _
    | with_reducible exact keeps_Dump_if_fulldump _ _ _
    | with_reducible exact keeps_Dump_bytes _ _
    | with_reducible exact keeps_Dump_extra_field _ _
    | with_reducible exact keeps_Dump_Data_descriptor
    | with_reducible apply keeps_ite
    | with_reducible apply keeps_bind
    | (intro (x : Bool × Nat); obtain ⟨a, b⟩ := x; dsimp only)
    | (intro (x : Nat × Nat); obtain ⟨a, b⟩ := x; dsimp only)
    | (intro (x : Nat × List Nat); obtain ⟨a, b⟩ := x; dsimp only)
    | (intro x; try dsimp only)

theorem keeps_Dump_Zip64_end_of_central_directory_locator  : Keeps (Dump_Zip64_end_of_central_directory_locator ) := by
  unfold Dump_Zip64_end_of_central_directory_locator
  repeat' first
    | with_reducible exact keeps_pure _
    | with_reducible exact keeps_getc
    | with_reducible exact keeps_ftell
    | with_reducible exact keeps_fseek_nat _
    | with_reducible exact keeps_say _
    | with_reducible exact keeps_Read16 _
    | with_reducible exact keeps_DUMP1 _ _ _
    | with_reducible exact keeps_DUMP2 _ _ _
    | with_reducible exact keeps_DUMP4 _ _ _
    | with_reducible exact keeps_DUMP8 _ _ _
    | with_reducible exact keeps_DUMP2x _ _ _ _ _
    | with_reducible exact keeps_DUMP4x _ _ _ _ _
    | with_reducible exact keeps_DUMP8x _ _ _ _ _
    | with_reducible exact keeps_Dump_string _
    | with_reducible exact keeps_SkipUnknownData _ _
    | with_reducible exact keeps_Dump_if_fulldump _ _ _
    | with_reducible exact keeps_Dump_bytes _ _
    | with_reducible exact keeps_Dump_extra_field _ _
    | with_reducible exact keeps_Dump_Data_descriptor
    | with_reducible apply keeps_ite
    | with_reducible apply keeps_bind
    | (intro (x : Bool × Nat); obtain ⟨a, b⟩ := x; dsimp only)
    | (intro (x : Nat × Nat); obtain ⟨a, b⟩ := x; dsimp only)
    | (intro (x : Nat × List Nat); obtain ⟨a, b⟩ := x; dsimp only)
    | (intro x; try dsimp only)

theorem keeps_Dump_End_of_central_directory_record (cfg : Config) : Keeps (Dump_End_of_central_directory_record cfg) := by
  unfold Dump_End_of_central_directory_record
  repeat' first
    | with_reducible exact keeps_pure _
    | with_reducible exact keeps_getc
    | with_reducible exact keeps_ftell
    | with_reducible exact keeps_fseek_nat _
    | with_reducible exact keeps_say _
    | with_reducible exact keeps_Read16 _
    | with_reducible exact keeps_DUMP1 _ _ _
    | with_reducible exact keeps_DUMP2 _ _ _
    | with_reducible exact keeps_DUMP4 _ _ _
    | with_reducible exact keeps_DUMP8 _ _ _
    | with_reducible exact keeps_DUMP2x _ _ _ _ _
    | with_reducible exact keeps_DUMP4x _ _ _ _ _
    | with_reducible exact keeps_DUMP8x _ _ _ _ _
    | with_reducible exact keeps_Dump_string _
    | with_reducible exact keeps_SkipUnknownData _ _
    | with_reducible exact keeps_Dump_if_fulldump _ _ _
    | with_reducible exact keeps_Dump_bytes _ _
    | with_reducible exact keeps_Dump_extra_field _ _
    | with_reducible exact keeps_Dump_Data_descriptor
    | with_reducible apply keeps_ite
    | with_reducible apply keeps_bind
    | (intro (x : Bool × Nat); obtain ⟨a, b⟩ := x; dsimp only)
    | (intro (x : Nat × Nat); obtain ⟨a, b⟩ := x; dsimp only)
    | (intro (x : Nat × List Nat); obtain ⟨a, b⟩ := x; dsimp only)
    | (intro x; try dsimp only)

/-! ## The stream after a tail of known length -/

@[simp] theorem withEof_pos (s : Stream) (e : Bool) : (s.withEof e).pos = s.pos := rfl
@[simp] theorem withEof_data (s : Stream) (e : Bool) : (s.withEof e).data = s.data := rfl
@[simp] theorem withEof_rest (s : Stream) (e : Bool) : (s.withEof e).rest = s.rest := rfl
@[simp] theorem withEof_adv (s : Stream) (e : Bool) (n : Nat) :
    (s.withEof e).adv n = (s.adv n).withEof e := rfl
@[simp] theorem withEof_skip (s : Stream) (e : Bool) (n : Nat) :
    (s.withEof e).skip n = s.skip n := rfl
@[simp] theorem withEof_withEof (s : Stream) (e1 e2 : Bool) :
    (s.withEof e1).withEof e2 = s.withEof e2 := rfl
@[simp] theorem adv_skip (s : Stream) (a b : Nat) : (s.adv a).skip b = s.skip (a + b) := by
  simp [Stream.adv, Stream.skip, Nat.add_assoc]
@[simp] theorem skip_adv (s : Stream) (a b : Nat) : (s.skip a).adv b = s.skip (a + b) := by
  simp [Stream.adv, Stream.skip, Nat.add_assoc]
theorem skip_eq (s : Stream) (n : Nat) : s.skip n = (s.adv n).withEof false := rfl

/-- A function that keeps the file and leaves the cursor `m` bytes further
leaves the stream advanced by `m`, up to the end-of-file indicator. -/
theorem fin_of_pos {α : Type} (f : Dump α) (hk : Keeps f) (s : Stream) (m : Nat)
    (hp : (f s).fin.pos = s.pos + m) :
    (f s).fin = (s.adv m).withEof (f s).fin.eof := by
  have hd := (hk s).1
  cases hfs : (f s).fin with
  | mk d p e =>
    rw [hfs] at hd hp
    simp only at hd hp
    subst hd hp
    rfl

theorem Dump_extra_field_fin (cfg : Config) (m : Nat) (s : Stream)
    (hp : (Dump_extra_field cfg m s).fin.pos = s.pos + m) :
    (Dump_extra_field cfg m s).fin = (s.adv m).withEof (Dump_extra_field cfg m s).fin.eof :=
  fin_of_pos _ (keeps_Dump_extra_field cfg m) s m hp

theorem Dump_extra_field_bind {β : Type} (cfg : Config) (m : Nat) (k : Unit → Dump β)
    (s : Stream) (hp : (Dump_extra_field cfg m s).fin.pos = s.pos + m) :
    (Dump_extra_field cfg m >>= k) s =
      (k () ((s.adv m).withEof (Dump_extra_field cfg m s).fin.eof)).after
        (Dump_extra_field cfg m s).out := by
  rw [bind_after, ← Dump_extra_field_fin cfg m s hp]

/-! ## Reading sections, fields and text tails off the output -/

theorem sections_append (a b : List Line) : sections (a ++ b) = sections a ++ sections b := by
  simp [sections, List.filterMap_append]

theorem fields_append (a b : List Line) : fields (a ++ b) = fields a ++ fields b := by
  simp [fields, List.filterMap_append]

theorem texts_append (a b : List Line) : texts (a ++ b) = texts a ++ texts b := by
  simp [texts, List.filterMap_append]

theorem skips_append (a b : List Line) : skips (a ++ b) = skips a ++ skips b := by
  simp [skips, List.filterMap_append]

@[simp] theorem skips_nil : skips [] = [] := rfl
@[simp] theorem sections_nil : sections [] = [] := rfl
@[simp] theorem fields_nil : fields [] = [] := rfl
@[simp] theorem texts_nil : texts [] = [] := rfl

theorem sections_plain (ls : List Line) (h : ∀ l ∈ ls, l.plain = true) : sections ls = [] := by
  unfold sections
  rw [List.filterMap_eq_nil_iff]
  intro l hl
  have hp := h l hl
  cases l <;> first | rfl | (simp [Line.plain] at hp)

theorem texts_plain (ls : List Line) (h : ∀ l ∈ ls, l.plain = true) : texts ls = [] := by
  unfold texts
  rw [List.filterMap_eq_nil_iff]
  intro l hl
  have hp := h l hl
  cases l <;> first | rfl | (simp [Line.plain] at hp)

theorem fields_note (ls : List Line) (h : ∀ l ∈ ls, l.isNote = true) : fields ls = [] := by
  unfold fields
  rw [List.filterMap_eq_nil_iff]
  intro l hl
  have hp := h l hl
  cases l <;> first | rfl | (simp [Line.isNote] at hp)

theorem fields_rows (ls : List Line) (h : ∀ l ∈ ls, l.isRow = true) : fields ls = [] := by
  unfold fields
  rw [List.filterMap_eq_nil_iff]
  intro l hl
  have hp := h l hl
  cases l <;> first | rfl | (simp [Line.isRow] at hp)

theorem skips_note (ls : List Line) (h : ∀ l ∈ ls, l.isNote = true) : skips ls = [] := by
  rw [skips, List.filterMap_eq_nil_iff]
  intro l hl
  have hp := h l hl
  cases l <;> first | rfl | (simp [Line.isNote] at hp)

theorem skips_rows (ls : List Line) (h : ∀ l ∈ ls, l.isRow = true) : skips ls = [] := by
  rw [skips, List.filterMap_eq_nil_iff]
  intro l hl
  have hp := h l hl
  cases l <;> first | rfl | (simp [Line.isRow] at hp)

theorem note_plain (l : Line) (h : l.isNote = true) : l.plain = true := by
  cases l <;> simp_all [Line.isNote, Line.plain]

theorem Print_version_note (v : Nat) : ∀ l ∈ Print_version v, l.isNote = true := by
  simp only [Print_version, os_type_note, Print_note, Printf_note, List.forall_mem_append,
    forall_mem_ite, List.forall_mem_cons, List.forall_mem_nil, Line.isNote, and_self, ite_self]
  trivial

theorem Print_general_purpose_bit_flag_note (f m : Nat) :
    ∀ l ∈ Print_general_purpose_bit_flag f m, l.isNote = true := by
  simp only [Print_general_purpose_bit_flag, Print_note, List.forall_mem_append,
    forall_mem_ite, List.forall_mem_cons, List.not_mem_nil, Line.isNote,
    and_self, ite_self, implies_true, false_implies, and_true]

theorem Print_internal_file_attributes_note (a : Nat) :
    ∀ l ∈ Print_internal_file_attributes a, l.isNote = true := by
  simp only [Print_internal_file_attributes, Print_note, List.forall_mem_append,
    forall_mem_ite, List.forall_mem_cons, List.not_mem_nil, Line.isNote,
    and_self, ite_self, implies_true, false_implies, and_true]

theorem Print_date_and_time_note (t d : Nat) :
    ∀ l ∈ Print_date_and_time t d, l.isNote = true := by
  simp [Print_date_and_time, Line.isNote]

theorem ite_nil_note (q : Bool) (ls : List Line) (h : ∀ l ∈ ls, l.isNote = true) :
    ∀ l ∈ (if q = true then [] else ls), l.isNote = true := by
  cases q
  · simpa using h
  · simp

@[simp] theorem fields_Print_fmt (f : Fmt) (lb : String) (w a : Nat) :
    fields (Print_fmt f lb w a) = [(lb, w, a)] := by
  cases f
  · simp [Print_fmt, Print_u, fields]
  · simp [Print_fmt, Print_x, fields]
  · simp [Print_fmt, Print_ux, fields]
  · simp only [Print_fmt, Print_uFF, Print_u, Print_x]
    split_ifs <;> simp [fields]

@[simp] theorem skips_Print_fmt (f : Fmt) (lb : String) (w a : Nat) :
    skips (Print_fmt f lb w a) = [] := by
  cases f
  · simp [Print_fmt, Print_u, skips]
  · simp [Print_fmt, Print_x, skips]
  · simp [Print_fmt, Print_ux, skips]
  · simp only [Print_fmt, Print_uFF, Print_u, Print_x]
    split_ifs <;> simp [skips]

@[simp] theorem sections_Print_fmt (f : Fmt) (lb : String) (w a : Nat) :
    sections (Print_fmt f lb w a) = [] :=
  sections_plain _ (Print_fmt_plain f lb w a)

@[simp] theorem texts_Print_fmt (f : Fmt) (lb : String) (w a : Nat) :
    texts (Print_fmt f lb w a) = [] :=
  texts_plain _ (Print_fmt_plain f lb w a)

@[simp] theorem sections_Print_section (cfg : Config) (nm : String) (o : Nat) (n : Int) :
    sections (Print_section cfg nm o n) = [nm] := rfl

@[simp] theorem fields_Print_section (cfg : Config) (nm : String) (o : Nat) (n : Int) :
    fields (Print_section cfg nm o n) = [] := rfl

@[simp] theorem texts_Print_section (cfg : Config) (nm : String) (o : Nat) (n : Int) :
    texts (Print_section cfg nm o n) = [] := rfl

@[simp] theorem skips_Print_section (cfg : Config) (nm : String) (o : Nat) (n : Int) :
    skips (Print_section cfg nm o n) = [] := rfl

@[simp] theorem skips_text (cs : List Nat) : skips [Line.text cs] = [] := rfl
@[simp] theorem sections_text (cs : List Nat) : sections [Line.text cs] = [] := rfl
@[simp] theorem fields_text (cs : List Nat) : fields [Line.text cs] = [] := rfl
@[simp] theorem texts_text (cs : List Nat) : texts [Line.text cs] = [cs] := rfl

theorem Dump_string_out (n : Nat) (s : Stream) :
    (Dump_string n s).out = [Line.text (Dump_string_loop n s).val] := by
  simp [Dump_string, bind_run, Dump_string_loop_out, say_run]

/-! ## The end of central directory record -/

/-- The record decoded from a stream with the 18 bytes of its fixed block:
the seven field lines, then the comment tail run from 18 bytes further. -/
theorem EOCD_run (cfg : Config) (s : Stream) (h18 : 18 ≤ s.rest.length) :
    Dump_End_of_central_directory_record cfg s =
      (if le ((s.rest.drop 16).take 2) ≠ 0 then
        (Dump_string (le ((s.rest.drop 16).take 2)) (s.adv 18)).after
          (Print_section cfg ".ZIP file comment" (s.pos + 18) (-1))
       else ⟨(), [], s.adv 18⟩).after
      (Print_fmt Fmt.uFF "number of this disk" 2 (le (s.rest.take 2)) ++
        (Print_fmt Fmt.uFF "disk of starting directory" 2 (le ((s.rest.drop 2).take 2)) ++
        (Print_fmt Fmt.uFF "directory-entries on this disk" 2 (le ((s.rest.drop 4).take 2)) ++
        (Print_fmt Fmt.uFF "directory-entries in all disks" 2 (le ((s.rest.drop 6).take 2)) ++
        (Print_fmt Fmt.ux "size of the directory" 4 (le ((s.rest.drop 8).take 4)) ++
        (Print_fmt Fmt.ux "offset of starting directory" 4 (le ((s.rest.drop 12).take 4)) ++
        Print_fmt Fmt.ux ".ZIP file comment length" 2 (le ((s.rest.drop 16).take 2)))))))) := by
  unfold Dump_End_of_central_directory_record
  simp (disch := ((try simp only [rest_adv, List.length_drop, Nat.reduceAdd]); omega)) only
    [DUMP2_bind, DUMP4_bind, adv_adv, rest_adv, say_bind, ftell_bind, pure_run,
     adv_pos, dump_ite, Nat.reduceAdd, List.drop_drop, after_after, List.append_assoc]

/-- C10: for every end of central directory record with at least 18 bytes
after the signature, `Dump_End_of_central_directory_record` prints fields of
widths 2, 2, 2, 2, 4, 4, 2 in that order, each value the little-endian decoding
of its own byte range; when the comment-length bytes that follow are available,
it then dumps a text tail of exactly that many bytes (none when the length is
zero) and leaves the cursor 18 + comment length further. -/
theorem C10_end_of_central_directory_layout (cfg : Config) (s : Stream)
    (h18 : 18 ≤ s.rest.length) :
    fields (Dump_End_of_central_directory_record cfg s).out =
      [("number of this disk", 2, le (s.rest.take 2)),
       ("disk of starting directory", 2, le ((s.rest.drop 2).take 2)),
       ("directory-entries on this disk", 2, le ((s.rest.drop 4).take 2)),
       ("directory-entries in all disks", 2, le ((s.rest.drop 6).take 2)),
       ("size of the directory", 4, le ((s.rest.drop 8).take 4)),
       ("offset of starting directory", 4, le ((s.rest.drop 12).take 4)),
       (".ZIP file comment length", 2, le ((s.rest.drop 16).take 2))] ∧
    (18 + le ((s.rest.drop 16).take 2) ≤ s.rest.length →
      (Dump_End_of_central_directory_record cfg s).fin.pos
        = s.pos + 18 + le ((s.rest.drop 16).take 2) ∧
      texts (Dump_End_of_central_directory_record cfg s).out =
        (if le ((s.rest.drop 16).take 2) ≠ 0 then
          [visibleText ((s.rest.drop 18).take (le ((s.rest.drop 16).take 2)))] else []) ∧
      sections (Dump_End_of_central_directory_record cfg s).out =
        (if le ((s.rest.drop 16).take 2) ≠ 0 then [".ZIP file comment"] else [])) := by
  rw [EOCD_run cfg s h18]
  generalize le ((s.rest.drop 16).take 2) = k
  constructor
  · by_cases hk : k = 0
    · simp [hk, fields_append]
    · simp [hk, fields_append, Dump_string_out]
  · intro htot
    by_cases hk : k = 0
    · simp [hk, fields_append, texts_append, sections_append]
    · have e := Dump_string_ok k (s.adv 18) (by simp; omega)
      simp [hk, e, fields_append, texts_append, sections_append]
      omega

theorem C10_end_of_central_directory_layout_witness :
    18 ≤ (Stream.rest ⟨[80, 75, 5, 6, 0, 0, 0, 0, 1, 0, 1, 0, 47, 0, 0, 0, 34, 0, 0, 0, 2, 0,
      104, 105], 4, false⟩).length ∧
    fields (Dump_End_of_central_directory_record ⟨false, false, false, 0⟩
      ⟨[80, 75, 5, 6, 0, 0, 0, 0, 1, 0, 1, 0, 47, 0, 0, 0, 34, 0, 0, 0, 2, 0, 104, 105], 4,
        false⟩).out =
      [("number of this disk", 2, 0), ("disk of starting directory", 2, 0),
       ("directory-entries on this disk", 2, 1), ("directory-entries in all disks", 2, 1),
       ("size of the directory", 4, 47), ("offset of starting directory", 4, 34),
       (".ZIP file comment length", 2, 2)] ∧
    (Dump_End_of_central_directory_record ⟨false, false, false, 0⟩
      ⟨[80, 75, 5, 6, 0, 0, 0, 0, 1, 0, 1, 0, 47, 0, 0, 0, 34, 0, 0, 0, 2, 0, 104, 105], 4,
        false⟩).fin.pos = 4 + 18 + 2 :=
  ⟨by decide,
    (C10_end_of_central_directory_layout ⟨false, false, false, 0⟩
      ⟨[80, 75, 5, 6, 0, 0, 0, 0, 1, 0, 1, 0, 47, 0, 0, 0, 34, 0, 0, 0, 2, 0, 104, 105], 4,
        false⟩ (by decide)).1,
    ((C10_end_of_central_directory_layout ⟨false, false, false, 0⟩
      ⟨[80, 75, 5, 6, 0, 0, 0, 0, 1, 0, 1, 0, 47, 0, 0, 0, 34, 0, 0, 0, 2, 0, 104, 105], 4,
        false⟩ (by decide)).2 (by decide)).1⟩

/-! ## Projections of the interpretive notes -/

@[simp] theorem fields_quiet_Print_version (q : Bool) (v : Nat) :
    fields (if q = true then [] else Print_version v) = [] :=
  fields_note _ (ite_nil_note q _ (Print_version_note v))

@[simp] theorem sections_quiet_Print_version (q : Bool) (v : Nat) :
    sections (if q = true then [] else Print_version v) = [] :=
  sections_plain _ (fun l hl => note_plain l (ite_nil_note q _ (Print_version_note v) l hl))

@[simp] theorem texts_quiet_Print_version (q : Bool) (v : Nat) :
    texts (if q = true then [] else Print_version v) = [] :=
  texts_plain _ (fun l hl => note_plain l (ite_nil_note q _ (Print_version_note v) l hl))

@[simp] theorem fields_quiet_Print_general_purpose_bit_flag (q : Bool) (f m : Nat) :
    fields (if q = true then [] else Print_general_purpose_bit_flag f m) = [] :=
  fields_note _ (ite_nil_note q _ (Print_general_purpose_bit_flag_note f m))

@[simp] theorem sections_quiet_Print_general_purpose_bit_flag (q : Bool) (f m : Nat) :
    sections (if q = true then [] else Print_general_purpose_bit_flag f m) = [] :=
  sections_plain _ (fun l hl => note_plain l (ite_nil_note q _ (Print_general_purpose_bit_flag_note f m) l hl))

@[simp] theorem texts_quiet_Print_general_purpose_bit_flag (q : Bool) (f m : Nat) :
    texts (if q = true then [] else Print_general_purpose_bit_flag f m) = [] :=
  texts_plain _ (fun l hl => note_plain l (ite_nil_note q _ (Print_general_purpose_bit_flag_note f m) l hl))

@[simp] theorem fields_quiet_Print_date_and_time (q : Bool) (t d : Nat) :
    fields (if q = true then [] else Print_date_and_time t d) = [] :=
  fields_note _ (ite_nil_note q _ (Print_date_and_time_note t d))

@[simp] theorem sections_quiet_Print_date_and_time (q : Bool) (t d : Nat) :
    sections (if q = true then [] else Print_date_and_time t d) = [] :=
  sections_plain _ (fun l hl => note_plain l (ite_nil_note q _ (Print_date_and_time_note t d) l hl))

@[simp] theorem texts_quiet_Print_date_and_time (q : Bool) (t d : Nat) :
    texts (if q = true then [] else Print_date_and_time t d) = [] :=
  texts_plain _ (fun l hl => note_plain l (ite_nil_note q _ (Print_date_and_time_note t d) l hl))

@[simp] theorem fields_quiet_Print_internal_file_attributes (q : Bool) (a : Nat) :
    fields (if q = true then [] else Print_internal_file_attributes a) = [] :=
  fields_note _ (ite_nil_note q _ (Print_internal_file_attributes_note a))

@[simp] theorem sections_quiet_Print_internal_file_attributes (q : Bool) (a : Nat) :
    sections (if q = true then [] else Print_internal_file_attributes a) = [] :=
  sections_plain _ (fun l hl => note_plain l (ite_nil_note q _ (Print_internal_file_attributes_note a) l hl))

@[simp] theorem texts_quiet_Print_internal_file_attributes (q : Bool) (a : Nat) :
    texts (if q = true then [] else Print_internal_file_attributes a) = [] :=
  texts_plain _ (fun l hl => note_plain l (ite_nil_note q _ (Print_internal_file_attributes_note a) l hl))

@[simp] theorem fields_quiet_Print_external_file_attributes (q : Bool) (a : Nat) :
    fields (if q = true then [] else Print_external_file_attributes a) = [] := by
  cases q <;> rfl

@[simp] theorem sections_quiet_Print_external_file_attributes (q : Bool) (a : Nat) :
    sections (if q = true then [] else Print_external_file_attributes a) = [] := by
  cases q <;> rfl

@[simp] theorem texts_quiet_Print_external_file_attributes (q : Bool) (a : Nat) :
    texts (if q = true then [] else Print_external_file_attributes a) = [] := by
  cases q <;> rfl

@[simp] theorem skips_quiet_Print_version (q : Bool) (v : Nat) :
    skips (if q = true then [] else Print_version v) = [] :=
  skips_note _ (ite_nil_note q _ (Print_version_note v))

@[simp] theorem skips_quiet_Print_general_purpose_bit_flag (q : Bool) (f m : Nat) :
    skips (if q = true then [] else Print_general_purpose_bit_flag f m) = [] :=
  skips_note _ (ite_nil_note q _ (Print_general_purpose_bit_flag_note f m))

@[simp] theorem skips_quiet_Print_date_and_time (q : Bool) (t d : Nat) :
    skips (if q = true then [] else Print_date_and_time t d) = [] :=
  skips_note _ (ite_nil_note q _ (Print_date_and_time_note t d))

@[simp] theorem skips_quiet_Print_internal_file_attributes (q : Bool) (a : Nat) :
    skips (if q = true then [] else Print_internal_file_attributes a) = [] :=
  skips_note _ (ite_nil_note q _ (Print_internal_file_attributes_note a))

@[simp] theorem skips_quiet_Print_external_file_attributes (q : Bool) (a : Nat) :
    skips (if q = true then [] else Print_external_file_attributes a) = [] := by
  cases q <;> rfl

/-! ## The tails of the central directory header -/

theorem withEof_self (s : Stream) : s.withEof s.eof = s := rfl

theorem Dump_Central_directory_tails_run (cfg : Config) (n : Int) (nl ml kl : Nat) (s : Stream)
    (htot : nl + ml + kl ≤ s.rest.length)
    (hE : ml ≠ 0 → (Dump_extra_field cfg ml (s.adv nl)).fin.pos = s.pos + nl + ml) :
    Dump_Central_directory_tails cfg n nl ml kl s =
      ⟨(),
        (if nl ≠ 0 then
          Print_section cfg "file name" s.pos n ++ [Line.text (visibleText (s.rest.take nl))]
         else []) ++
        ((if ml ≠ 0 then
          Print_section cfg "extra field" (s.pos + nl) n ++
            (Dump_extra_field cfg ml (s.adv nl)).out
         else []) ++
        (if kl ≠ 0 then
          Print_section cfg "file comment" (s.pos + nl + ml) n ++
            [Line.text (visibleText ((s.rest.drop (nl + ml)).take kl))]
         else [])),
        (s.adv (nl + ml + kl)).withEof
          (if ml ≠ 0 then (Dump_extra_field cfg ml (s.adv nl)).fin.eof else s.eof)⟩ := by
  unfold Dump_Central_directory_tails
  by_cases h1 : nl = 0 <;> by_cases h2 : ml = 0 <;> by_cases h3 : kl = 0 <;>
    (try have hE1 := hE h2) <;>
    (try simp only [h1, Nat.add_zero, adv_zero] at hE1) <;>
    simp (disch := ((try simp only [rest_adv, withEof_rest, adv_pos, List.length_drop,
        Nat.reduceAdd]); omega)) only
      [h1, h2, h3, ne_eq, not_true_eq_false, not_false_eq_true, if_true, if_false, ite_true,
       ite_false, ftell_bind, say_bind, Dump_string_bind, Dump_string_ok, pure_bind_run, pure_run,
       Dump_extra_field_bind, withEof_adv, withEof_pos, withEof_rest,
       adv_adv, rest_adv, adv_pos, Nat.add_zero, Nat.zero_add, adv_zero, after_mk, after_after,
       List.append_nil, List.nil_append, List.append_assoc, List.drop_drop,
       List.drop_zero, withEof_withEof] <;>
    first | rfl | simp only [Nat.add_assoc]

/-! ## The central directory header -/

/-- The header decoded from a stream with the 42 bytes of its fixed block:
sixteen field lines with their notes in between, then the tails run from 42
bytes further with the three lengths read. -/
theorem Dump_Central_directory_file_header_fixed (cfg : Config) (n : Int) (s : Stream)
    (h42 : 42 ≤ s.rest.length) :
    ∃ fixed : List Line,
      Dump_Central_directory_file_header cfg n s =
        (Dump_Central_directory_tails cfg n (le ((s.rest.drop 24).take 2))
          (le ((s.rest.drop 26).take 2)) (le ((s.rest.drop 28).take 2)) (s.adv 42)).after fixed ∧
      sections fixed = [] ∧ texts fixed = [] ∧ skips fixed = [] ∧
      fields fixed =
        [("version made by", 2, le (s.rest.take 2)),
         ("version needed to extract", 2, le ((s.rest.drop 2).take 2)),
         ("general purpose bit flag", 2, le ((s.rest.drop 4).take 2)),
         ("compression method", 2, le ((s.rest.drop 6).take 2)),
         ("last mod file time", 2, le ((s.rest.drop 8).take 2)),
         ("last mod file date", 2, le ((s.rest.drop 10).take 2)),
         ("crc-32", 4, le ((s.rest.drop 12).take 4)),
         ("compressed size", 4, le ((s.rest.drop 16).take 4)),
         ("uncompressed size", 4, le ((s.rest.drop 20).take 4)),
         ("file name length", 2, le ((s.rest.drop 24).take 2)),
         ("extra field length", 2, le ((s.rest.drop 26).take 2)),
         ("file comment length", 2, le ((s.rest.drop 28).take 2)),
         ("disk number start", 2, le ((s.rest.drop 30).take 2)),
         ("internal file attributes", 2, le ((s.rest.drop 32).take 2)),
         ("external file attributes", 4, le ((s.rest.drop 34).take 4)),
         ("relative offset of local header", 4, le ((s.rest.drop 38).take 4))] := by
  have key : Dump_Central_directory_file_header cfg n s
      = Dump_Central_directory_file_header cfg n s := rfl
  conv at key =>
    rhs
    unfold Dump_Central_directory_file_header
    simp -zeta (disch := ((try simp only [rest_adv, List.length_drop, Nat.reduceAdd]); omega)) only
      [DUMP2_bind, DUMP4_bind, DUMP2x_bind, DUMP4x_bind, adv_adv, rest_adv,
       Nat.reduceAdd, List.drop_drop, after_after, List.append_assoc]
  refine ⟨_, key, ?_, ?_, ?_, ?_⟩ <;>
  simp only [sections_append, texts_append, fields_append, skips_append, skips_Print_fmt,
    skips_quiet_Print_version, skips_quiet_Print_general_purpose_bit_flag,
    skips_quiet_Print_date_and_time, skips_quiet_Print_internal_file_attributes,
    skips_quiet_Print_external_file_attributes,
    fields_Print_fmt, sections_Print_fmt, texts_Print_fmt,
    fields_quiet_Print_version, sections_quiet_Print_version, texts_quiet_Print_version,
    fields_quiet_Print_general_purpose_bit_flag, sections_quiet_Print_general_purpose_bit_flag,
    texts_quiet_Print_general_purpose_bit_flag,
    fields_quiet_Print_date_and_time, sections_quiet_Print_date_and_time,
    texts_quiet_Print_date_and_time,
    fields_quiet_Print_internal_file_attributes, sections_quiet_Print_internal_file_attributes,
    texts_quiet_Print_internal_file_attributes,
    fields_quiet_Print_external_file_attributes, sections_quiet_Print_external_file_attributes,
    texts_quiet_Print_external_file_attributes, List.nil_append, List.append_nil,
    List.cons_append, List.singleton_append]

/-- C9: for every central directory header whose 42-byte fixed block is present
(field widths 2,2,2,2,2,2,4,4,4,2,2,2,2,2,4,4 in that order, each value the
little-endian decoding of its own bytes), with name length `n`, extra length
`m` whose area `Dump_extra_field` consumes exactly, and comment length `k`, all
available, `Dump_Central_directory_file_header` emits the tails in the order
file name, extra field, file comment, each only when its length is not zero,
the two texts being exactly the name bytes and the comment bytes, and leaves
the cursor exactly `42 + n + m + k` bytes further. -/
theorem C9_central_directory_header_layout (cfg : Config) (n : Int) (s : Stream)
    (h42 : 42 ≤ s.rest.length)
    (htot : 42 + le ((s.rest.drop 24).take 2) + le ((s.rest.drop 26).take 2)
              + le ((s.rest.drop 28).take 2) ≤ s.rest.length)
    (hE : le ((s.rest.drop 26).take 2) ≠ 0 →
      (Dump_extra_field cfg (le ((s.rest.drop 26).take 2))
        (s.adv (42 + le ((s.rest.drop 24).take 2)))).fin.pos
        = s.pos + 42 + le ((s.rest.drop 24).take 2) + le ((s.rest.drop 26).take 2)) :
    (Dump_Central_directory_file_header cfg n s).fin.pos
      = s.pos + 42 + le ((s.rest.drop 24).take 2) + le ((s.rest.drop 26).take 2)
              + le ((s.rest.drop 28).take 2) ∧
    sections (Dump_Central_directory_file_header cfg n s).out =
      (if le ((s.rest.drop 24).take 2) ≠ 0 then ["file name"] else []) ++
      (if le ((s.rest.drop 26).take 2) ≠ 0 then ["extra field"] else []) ++
      (if le ((s.rest.drop 28).take 2) ≠ 0 then ["file comment"] else []) ∧
    texts (Dump_Central_directory_file_header cfg n s).out =
      (if le ((s.rest.drop 24).take 2) ≠ 0 then
        [visibleText ((s.rest.drop 42).take (le ((s.rest.drop 24).take 2)))] else []) ++
      (if le ((s.rest.drop 28).take 2) ≠ 0 then
        [visibleText ((s.rest.drop (42 + le ((s.rest.drop 24).take 2)
          + le ((s.rest.drop 26).take 2))).take (le ((s.rest.drop 28).take 2)))] else []) ∧
    fields (Dump_Central_directory_file_header cfg n s).out =
      [("version made by", 2, le (s.rest.take 2)),
       ("version needed to extract", 2, le ((s.rest.drop 2).take 2)),
       ("general purpose bit flag", 2, le ((s.rest.drop 4).take 2)),
       ("compression method", 2, le ((s.rest.drop 6).take 2)),
       ("last mod file time", 2, le ((s.rest.drop 8).take 2)),
       ("last mod file date", 2, le ((s.rest.drop 10).take 2)),
       ("crc-32", 4, le ((s.rest.drop 12).take 4)),
       ("compressed size", 4, le ((s.rest.drop 16).take 4)),
       ("uncompressed size", 4, le ((s.rest.drop 20).take 4)),
       ("file name length", 2, le ((s.rest.drop 24).take 2)),
       ("extra field length", 2, le ((s.rest.drop 26).take 2)),
       ("file comment length", 2, le ((s.rest.drop 28).take 2)),
       ("disk number start", 2, le ((s.rest.drop 30).take 2)),
       ("internal file attributes", 2, le ((s.rest.drop 32).take 2)),
       ("external file attributes", 4, le ((s.rest.drop 34).take 4)),
       ("relative offset of local header", 4, le ((s.rest.drop 38).take 4))] ++
      fields (if le ((s.rest.drop 26).take 2) ≠ 0 then
        (Dump_extra_field cfg (le ((s.rest.drop 26).take 2))
          (s.adv (42 + le ((s.rest.drop 24).take 2)))).out else []) := by
  obtain ⟨fixed, hrun, hs, ht, hk, hf⟩ := Dump_Central_directory_file_header_fixed cfg n s h42
  rw [hrun, ← hf]
  clear hrun hf
  generalize le ((s.rest.drop 24).take 2) = nl at *
  generalize le ((s.rest.drop 26).take 2) = ml at *
  generalize le ((s.rest.drop 28).take 2) = kl at *
  have hE1 : ml ≠ 0 → (Dump_extra_field cfg ml ((s.adv 42).adv nl)).fin.pos
      = (s.adv 42).pos + nl + ml := by
    intro h
    simpa [Nat.add_assoc] using hE h
  have hsx : ∀ s1, sections (Dump_extra_field cfg ml s1).out = [] := fun s1 =>
    sections_plain _ (outAll_Dump_extra_field (fun l => l.plain = true) (fun _ h => h) cfg ml s1)
  have htx : ∀ s1, texts (Dump_extra_field cfg ml s1).out = [] := fun s1 =>
    texts_plain _ (outAll_Dump_extra_field (fun l => l.plain = true) (fun _ h => h) cfg ml s1)
  rw [Dump_Central_directory_tails_run cfg n nl ml kl (s.adv 42)
    (by simp only [rest_adv, List.length_drop]; omega) hE1]
  simp only [after_mk, adv_adv, adv_pos, withEof_pos, sections_append, texts_append,
    fields_append, hs, ht, List.nil_append, rest_adv, List.drop_drop]
  refine ⟨by omega, ?_, ?_, ?_⟩
  · by_cases h1 : nl = 0 <;> by_cases h2 : ml = 0 <;> by_cases h3 : kl = 0 <;>
      simp [h1, h2, h3, sections_append, hsx]
  · by_cases h1 : nl = 0 <;> by_cases h2 : ml = 0 <;> by_cases h3 : kl = 0 <;>
      simp [h1, h2, h3, texts_append, htx, Nat.add_assoc]
  · by_cases h1 : nl = 0 <;> by_cases h2 : ml = 0 <;> by_cases h3 : kl = 0 <;>
      simp [h1, h2, h3, fields_append]

theorem C9_central_directory_header_layout_witness :
    42 ≤ sampleCentral.rest.length ∧
    (Dump_Central_directory_file_header optionsOff 1 sampleCentral).fin.pos = 4 + 42 + 1 + 4 + 2 ∧
    sections (Dump_Central_directory_file_header optionsOff 1 sampleCentral).out =
      ["file name", "extra field", "file comment"] ∧
    texts (Dump_Central_directory_file_header optionsOff 1 sampleCentral).out =
      [[97], [104, 105]] :=
  ⟨by decide,
    (C9_central_directory_header_layout optionsOff 1 sampleCentral (by decide) (by decide)
      (by decide)).1,
    (C9_central_directory_header_layout optionsOff 1 sampleCentral (by decide) (by decide)
      (by decide)).2.1,
    (C9_central_directory_header_layout optionsOff 1 sampleCentral (by decide) (by decide)
      (by decide)).2.2.1⟩

/-! ## The local file header -/

theorem Dump_if_fulldump_run (cfg : Config) (cap : String) (c : Nat) (s : Stream)
    (h : c ≤ s.rest.length) :
    Dump_if_fulldump cfg cap c s =
      ⟨(), (Dump_if_fulldump cfg cap c s).out,
        (s.adv c).withEof (if cfg.gIsFullDump then s.eof else false)⟩ := by
  have e := Dump_if_fulldump_ok cfg cap c s h
  cases hf : cfg.gIsFullDump
  · rw [e]; simp [hf, skip_eq]
  · rw [e]; simp [hf]; rfl

theorem Dump_if_fulldump_bind {β : Type} (cfg : Config) (cap : String) (c : Nat)
    (k : Unit → Dump β) (s : Stream) (h : c ≤ s.rest.length) :
    (Dump_if_fulldump cfg cap c >>= k) s =
      (k () ((s.adv c).withEof (if cfg.gIsFullDump then s.eof else false))).after
        (Dump_if_fulldump cfg cap c s).out := by
  rw [bind_after]
  have e := Dump_if_fulldump_run cfg cap c s h
  have e1 : (Dump_if_fulldump cfg cap c s).fin
      = (s.adv c).withEof (if cfg.gIsFullDump then s.eof else false) := by
    rw [e]
  rw [e1]

theorem Dump_if_fulldump_lines (cfg : Config) (cap : String) (c : Nat) (s : Stream) :
    sections (Dump_if_fulldump cfg cap c s).out = [] ∧
    texts (Dump_if_fulldump cfg cap c s).out = [] ∧
    fields (Dump_if_fulldump cfg cap c s).out = [] ∧
    skips (Dump_if_fulldump cfg cap c s).out = [] := by
  have hp := outAll_Dump_if_fulldump (fun l => l.plain = true) (fun _ h => h) cfg cap c s
  refine ⟨sections_plain _ hp, texts_plain _ hp, ?_⟩
  cases hf : cfg.gIsFullDump
  · have e : (Dump_if_fulldump cfg cap c s).out
        = if cfg.gQuiet then [] else [Line.skipNote cap c] := by
      cases hq : cfg.gQuiet <;>
        simp [Dump_if_fulldump, hf, hq, bind_run, fseek_fwd, say_run, pure_run]
    rw [e]
    cases cfg.gQuiet <;> exact ⟨rfl, rfl⟩
  · have e : (Dump_if_fulldump cfg cap c s).out = (Dump_bytes cfg c s).out := by
      simp [Dump_if_fulldump, hf]
    rw [e]
    exact ⟨fields_rows _ (outAll_Dump_bytes (fun l => l.isRow = true) (fun _ h => h) cfg c s),
      skips_rows _ (outAll_Dump_bytes (fun l => l.isRow = true) (fun _ h => h) cfg c s)⟩

theorem Dump_Data_descriptor_run (s : Stream) (h : 12 ≤ s.rest.length) :
    Dump_Data_descriptor s =
      ⟨(), Print_fmt Fmt.x "crc-32" 4 (le (s.rest.take 4)) ++
        (Print_fmt Fmt.ux "compressed size" 4 (le ((s.rest.drop 4).take 4)) ++
         Print_fmt Fmt.ux "uncompressed size" 4 (le ((s.rest.drop 8).take 4))),
        s.adv 12⟩ := by
  unfold Dump_Data_descriptor
  simp (disch := ((try simp only [rest_adv, List.length_drop, Nat.reduceAdd]); omega)) only
    [DUMP4_bind, adv_adv, rest_adv, Nat.reduceAdd, List.drop_drop, pure_run, after_mk,
     List.append_nil]

/-- The data part run from the end of the extra field: the file data when
the size is not zero, then the data descriptor when bit 3 is set. -/
theorem Dump_Local_file_data_run (cfg : Config) (n : Int) (f c : Nat) (s : Stream)
    (hc : c ≠ 0xFFFFFFFF) (h : c + 12 ≤ s.rest.length) :
    Dump_Local_file_data cfg n f c s =
      ⟨(),
        (if c ≠ 0 then
          Print_section cfg "File data" s.pos n ++ (Dump_if_fulldump cfg "file data" c s).out
         else []) ++
        (if f &&& 8 ≠ 0 then
          Print_section cfg "Data descriptor" (s.pos + c) n ++
            (Print_fmt Fmt.x "crc-32" 4 (le ((s.rest.drop c).take 4)) ++
            (Print_fmt Fmt.ux "compressed size" 4 (le ((s.rest.drop (c + 4)).take 4)) ++
             Print_fmt Fmt.ux "uncompressed size" 4 (le ((s.rest.drop (c + 8)).take 4))))
         else []),
        (s.adv (c + (if f &&& 8 ≠ 0 then 12 else 0))).withEof
          (if c ≠ 0 then (if cfg.gIsFullDump then s.eof else false) else s.eof)⟩ := by
  unfold Dump_Local_file_data
  have h0 : ¬ ((0 : Nat) = 4294967295) := by decide
  by_cases h1 : c = 0 <;> by_cases h2 : f &&& 8 = 0 <;>
    simp (disch := ((try simp only [rest_adv, withEof_rest, adv_pos, List.length_drop,
        Nat.reduceAdd]); omega)) only
      [hc, h0, h1, h2, ne_eq, not_true_eq_false, not_false_eq_true, if_true, if_false, ite_true,
       ite_false, ftell_bind, say_bind, pure_bind_run, pure_run, Dump_if_fulldump_bind,
       Dump_Data_descriptor_run, withEof_adv, withEof_pos, withEof_rest,
       adv_adv, rest_adv, adv_pos, Nat.add_zero, Nat.zero_add, adv_zero, after_mk, after_after,
       List.append_nil, List.nil_append, List.append_assoc, List.drop_drop,
       List.drop_zero, withEof_withEof, OfNat.ofNat_ne_zero] <;>
    first | rfl | simp only [Nat.add_comm]

theorem after_Dump_extra_field (cfg : Config) (m : Nat) (s : Stream) (ls : List Line)
    (hp : (Dump_extra_field cfg m s).fin.pos = s.pos + m) :
    (Dump_extra_field cfg m s).after ls =
      ⟨(), ls ++ (Dump_extra_field cfg m s).out,
        (s.adv m).withEof (Dump_extra_field cfg m s).fin.eof⟩ := by
  rw [← Dump_extra_field_fin cfg m s hp]
  rfl

theorem Dump_Local_file_tails_run (cfg : Config) (n : Int) (nl ml : Nat) (s : Stream)
    (htot : nl + ml ≤ s.rest.length)
    (hE : ml ≠ 0 → (Dump_extra_field cfg ml (s.adv nl)).fin.pos = s.pos + nl + ml) :
    Dump_Local_file_tails cfg n nl ml s =
      ⟨(),
        (if nl ≠ 0 then
          Print_section cfg "Local file name" s.pos n ++
            [Line.text (visibleText (s.rest.take nl))]
         else []) ++
        (if ml ≠ 0 then
          Print_section cfg "Local extra field" (s.pos + nl) n ++
            (Dump_extra_field cfg ml (s.adv nl)).out
         else []),
        (s.adv (nl + ml)).withEof
          (if ml ≠ 0 then (Dump_extra_field cfg ml (s.adv nl)).fin.eof else s.eof)⟩ := by
  unfold Dump_Local_file_tails
  by_cases h1 : nl = 0 <;> by_cases h2 : ml = 0 <;>
    (try have hE1 := hE h2) <;>
    (try simp only [h1, Nat.add_zero, adv_zero] at hE1) <;>
    simp (disch := ((try simp only [rest_adv, withEof_rest, adv_pos, List.length_drop,
        Nat.reduceAdd]); omega)) only
      [h1, h2, ne_eq, not_true_eq_false, not_false_eq_true, if_true, if_false, ite_true,
       ite_false, ftell_bind, say_bind, Dump_string_bind, Dump_string_ok, pure_bind_run, pure_run,
       Dump_extra_field_bind, after_Dump_extra_field, withEof_adv, withEof_pos, withEof_rest,
       adv_adv, rest_adv, adv_pos, Nat.add_zero, Nat.zero_add, adv_zero, after_mk, after_after,
       List.append_nil, List.nil_append, List.append_assoc, List.drop_drop,
       List.drop_zero, withEof_withEof] <;>
    first | rfl | simp only [Nat.add_assoc]

/-- The local file header decoded from a stream with the 26 bytes of its fixed
block: ten field lines with their notes in between, then the tails and the data
part run from 26 bytes further with the values read. -/
theorem Dump_Local_file_fixed (cfg : Config) (n : Int) (s : Stream)
    (h26 : 26 ≤ s.rest.length) :
    ∃ fixed : List Line,
      Dump_Local_file cfg n s =
        ((Dump_Local_file_tails cfg n (le ((s.rest.drop 22).take 2))
            (le ((s.rest.drop 24).take 2)) >>= fun _ =>
          Dump_Local_file_data cfg n (le ((s.rest.drop 2).take 2))
            (le ((s.rest.drop 14).take 4))) (s.adv 26)).after fixed ∧
      sections fixed = [] ∧ texts fixed = [] ∧ skips fixed = [] ∧
      fields fixed =
        [("version needed to extract", 2, le (s.rest.take 2)),
         ("general purpose bit flag", 2, le ((s.rest.drop 2).take 2)),
         ("compression method", 2, le ((s.rest.drop 4).take 2)),
         ("last mod file time", 2, le ((s.rest.drop 6).take 2)),
         ("last mod file date", 2, le ((s.rest.drop 8).take 2)),
         ("crc-32", 4, le ((s.rest.drop 10).take 4)),
         ("compressed size", 4, le ((s.rest.drop 14).take 4)),
         ("uncompressed size", 4, le ((s.rest.drop 18).take 4)),
         ("file name length", 2, le ((s.rest.drop 22).take 2)),
         ("extra field length", 2, le ((s.rest.drop 24).take 2))] := by
  have key : Dump_Local_file cfg n s = Dump_Local_file cfg n s := rfl
  conv at key =>
    rhs
    unfold Dump_Local_file
    simp -zeta (disch := ((try simp only [rest_adv, List.length_drop, Nat.reduceAdd]); omega)) only
      [DUMP2_bind, DUMP4_bind, DUMP2x_bind, DUMP4x_bind, adv_adv, rest_adv,
       Nat.reduceAdd, List.drop_drop, after_after, List.append_assoc]
  refine ⟨_, key, ?_, ?_, ?_, ?_⟩ <;>
  simp only [sections_append, texts_append, fields_append, skips_append, skips_Print_fmt,
    skips_quiet_Print_version, skips_quiet_Print_general_purpose_bit_flag,
    skips_quiet_Print_date_and_time, skips_quiet_Print_internal_file_attributes,
    skips_quiet_Print_external_file_attributes,
    fields_Print_fmt, sections_Print_fmt, texts_Print_fmt,
    fields_quiet_Print_version, sections_quiet_Print_version, texts_quiet_Print_version,
    fields_quiet_Print_general_purpose_bit_flag, sections_quiet_Print_general_purpose_bit_flag,
    texts_quiet_Print_general_purpose_bit_flag,
    fields_quiet_Print_date_and_time, sections_quiet_Print_date_and_time,
    texts_quiet_Print_date_and_time, List.nil_append, List.append_nil,
    List.cons_append, List.singleton_append]

/-- C8: for every local file header whose 26-byte fixed block is present, with
name length `n`, extra length `m` whose area `Dump_extra_field` consumes
exactly, compressed size `c` other than `0xFFFFFFFF`, flags `f`, and at least
`n + m + c + 12` further bytes, `Dump_Local_file` emits a File data section iff
`c` is not zero, emits a Data descriptor section iff bit 3 of `f` is set, after
the payload, decoding the 12 bytes that follow the payload, and leaves the
cursor exactly `26 + n + m + c + (12 if bit 3 is set, else 0)` bytes further. -/
theorem C8_local_file_header_state_machine (cfg : Config) (n : Int) (s : Stream)
    (h26 : 26 ≤ s.rest.length)
    (hc : le ((s.rest.drop 14).take 4) ≠ 0xFFFFFFFF)
    (htot : 26 + le ((s.rest.drop 22).take 2) + le ((s.rest.drop 24).take 2)
              + le ((s.rest.drop 14).take 4) + 12 ≤ s.rest.length)
    (hE : le ((s.rest.drop 24).take 2) ≠ 0 →
      (Dump_extra_field cfg (le ((s.rest.drop 24).take 2))
        (s.adv (26 + le ((s.rest.drop 22).take 2)))).fin.pos
        = s.pos + 26 + le ((s.rest.drop 22).take 2) + le ((s.rest.drop 24).take 2)) :
    (Dump_Local_file cfg n s).fin.pos
      = s.pos + 26 + le ((s.rest.drop 22).take 2) + le ((s.rest.drop 24).take 2)
          + le ((s.rest.drop 14).take 4)
          + (if le ((s.rest.drop 2).take 2) &&& 8 ≠ 0 then 12 else 0) ∧
    sections (Dump_Local_file cfg n s).out =
      (if le ((s.rest.drop 22).take 2) ≠ 0 then ["Local file name"] else []) ++
      (if le ((s.rest.drop 24).take 2) ≠ 0 then ["Local extra field"] else []) ++
      (if le ((s.rest.drop 14).take 4) ≠ 0 then ["File data"] else []) ++
      (if le ((s.rest.drop 2).take 2) &&& 8 ≠ 0 then ["Data descriptor"] else []) ∧
    fields (Dump_Local_file cfg n s).out =
      [("version needed to extract", 2, le (s.rest.take 2)),
       ("general purpose bit flag", 2, le ((s.rest.drop 2).take 2)),
       ("compression method", 2, le ((s.rest.drop 4).take 2)),
       ("last mod file time", 2, le ((s.rest.drop 6).take 2)),
       ("last mod file date", 2, le ((s.rest.drop 8).take 2)),
       ("crc-32", 4, le ((s.rest.drop 10).take 4)),
       ("compressed size", 4, le ((s.rest.drop 14).take 4)),
       ("uncompressed size", 4, le ((s.rest.drop 18).take 4)),
       ("file name length", 2, le ((s.rest.drop 22).take 2)),
       ("extra field length", 2, le ((s.rest.drop 24).take 2))] ++
      fields (if le ((s.rest.drop 24).take 2) ≠ 0 then
        (Dump_extra_field cfg (le ((s.rest.drop 24).take 2))
          (s.adv (26 + le ((s.rest.drop 22).take 2)))).out else []) ++
      (if le ((s.rest.drop 2).take 2) &&& 8 ≠ 0 then
        [("crc-32", 4, le ((s.rest.drop (26 + le ((s.rest.drop 22).take 2)
            + le ((s.rest.drop 24).take 2) + le ((s.rest.drop 14).take 4))).take 4)),
         ("compressed size", 4, le ((s.rest.drop (26 + le ((s.rest.drop 22).take 2)
            + le ((s.rest.drop 24).take 2) + le ((s.rest.drop 14).take 4) + 4)).take 4)),
         ("uncompressed size", 4, le ((s.rest.drop (26 + le ((s.rest.drop 22).take 2)
            + le ((s.rest.drop 24).take 2) + le ((s.rest.drop 14).take 4) + 8)).take 4))]
       else []) := by
  obtain ⟨fixed, hrun, hs, ht, hk, hf⟩ := Dump_Local_file_fixed cfg n s h26
  rw [hrun, ← hf]
  clear hrun hf
  generalize le ((s.rest.drop 22).take 2) = nl at *
  generalize le ((s.rest.drop 24).take 2) = ml at *
  generalize le ((s.rest.drop 14).take 4) = c at *
  generalize le ((s.rest.drop 2).take 2) = f at *
  have hE1 : ml ≠ 0 → (Dump_extra_field cfg ml ((s.adv 26).adv nl)).fin.pos
      = (s.adv 26).pos + nl + ml := by
    intro h
    simpa [Nat.add_assoc] using hE h
  have hsx : ∀ s1, sections (Dump_extra_field cfg ml s1).out = [] := fun s1 =>
    sections_plain _ (outAll_Dump_extra_field (fun l => l.plain = true) (fun _ h => h) cfg ml s1)
  have hd := Dump_if_fulldump_lines cfg "file data" c
  rw [bind_after, Dump_Local_file_tails_run cfg n nl ml (s.adv 26)
    (by simp only [rest_adv, List.length_drop]; omega) hE1]
  simp only []
  rw [Dump_Local_file_data_run cfg n f c _ hc
    (by simp only [withEof_rest, rest_adv, List.length_drop, List.drop_drop]; omega)]
  simp only [after_mk, adv_adv, adv_pos, withEof_pos, withEof_rest, sections_append,
    fields_append, hs, List.nil_append, rest_adv, List.drop_drop]
  refine ⟨?_, ?_, ?_⟩
  · split <;> omega
  · by_cases h1 : nl = 0 <;> by_cases h2 : ml = 0 <;> by_cases h3 : c = 0 <;>
      by_cases h4 : f &&& 8 = 0 <;>
      simp [h1, h2, h3, h4, sections_append, hsx, (hd _).1]
  · by_cases h1 : nl = 0 <;> by_cases h2 : ml = 0 <;> by_cases h3 : c = 0 <;>
      by_cases h4 : f &&& 8 = 0 <;>
      simp [h1, h2, h3, h4, fields_append, (hd _).2.2.1, Nat.add_assoc, Nat.add_comm,
        Nat.add_left_comm]

theorem C8_local_file_header_state_machine_witness :
    26 ≤ sampleLocal.rest.length ∧
    le ((sampleLocal.rest.drop 14).take 4) ≠ 0xFFFFFFFF ∧
    (Dump_Local_file optionsOff 1 sampleLocal).fin.pos = 4 + 26 + 1 + 4 + 2 + 12 ∧
    sections (Dump_Local_file optionsOff 1 sampleLocal).out =
      ["Local file name", "Local extra field", "File data", "Data descriptor"] :=
  ⟨by decide, by decide,
    (C8_local_file_header_state_machine optionsOff 1 sampleLocal (by decide) (by decide)
      (by decide) (by decide)).1,
    (C8_local_file_header_state_machine optionsOff 1 sampleLocal (by decide) (by decide)
      (by decide) (by decide)).2.1⟩

/-! ## The sentinel compressed size -/

theorem not_isSect_of_sections (ls : List Line) (nm : String) (h : nm ∉ sections ls) :
    ∀ l ∈ ls, l.isSect nm = false := by
  intro l hl
  cases l with
  | sect nm1 k o =>
    by_cases he : nm1 = nm
    · exfalso
      apply h
      simp only [sections, List.mem_filterMap]
      exact ⟨Line.sect nm1 k o, hl, by simp [he]⟩
    · simp [Line.isSect, he]
  | _ => rfl

theorem plain_not_isSect (nm : String) (l : Line) (h : l.plain = true) : l.isSect nm = false := by
  cases l <;> first | rfl | simp [Line.plain] at h

theorem outAll_Dump_string_text (P : Line → Prop) (hP : ∀ cs, P (Line.text cs)) (n : Nat) :
    OutAll P (Dump_string n) := by
  intro s l hl
  rw [Dump_string_out] at hl
  simp only [List.mem_singleton] at hl
  subst hl
  exact hP _

theorem outAll_Dump_Local_file_tails_noData (cfg : Config) (n : Int) (nl ml : Nat) :
    OutAll (fun l => l.isSect "File data" = false ∧ l.isSect "Data descriptor" = false)
      (Dump_Local_file_tails cfg n nl ml) := by
  have hP : ∀ l : Line, l.plain = true →
      (l.isSect "File data" = false ∧ l.isSect "Data descriptor" = false) :=
    fun l h => ⟨plain_not_isSect _ l h, plain_not_isSect _ l h⟩
  have hT : ∀ cs : List Nat, (Line.text cs).isSect "File data" = false ∧
      (Line.text cs).isSect "Data descriptor" = false := fun _ => ⟨rfl, rfl⟩
  have hS : ∀ (nm : String) (o : Nat), nm ≠ "File data" → nm ≠ "Data descriptor" →
      ∀ l ∈ Print_section cfg nm o n,
        l.isSect "File data" = false ∧ l.isSect "Data descriptor" = false := by
    intro nm o h1 h2 l hl
    simp only [Print_section, List.mem_singleton] at hl
    subst hl
    simp [Line.isSect, h1, h2]
  have hN1 : ("Local file name" : String) ≠ "File data" := by decide
  have hN2 : ("Local file name" : String) ≠ "Data descriptor" := by decide
  have hN3 : ("Local extra field" : String) ≠ "File data" := by decide
  have hN4 : ("Local extra field" : String) ≠ "Data descriptor" := by decide
  unfold Dump_Local_file_tails
  repeat' first
    | with_reducible exact outAll_pure _ _
    | with_reducible exact outAll_ftell _
    | with_reducible exact outAll_Dump_string_text _ hT _
    | with_reducible exact outAll_Dump_extra_field _ hP _ _
    | with_reducible exact hS _ _ hN1 hN2
    | with_reducible exact hS _ _ hN3 hN4
    | with_reducible apply outAll_say
    | with_reducible apply outAll_ite
    | with_reducible apply outAll_bind
    | (intro x; try dsimp only)

/-- C6, amended: for every local file header whose compressed-size field is
`0xFFFFFFFF`, whatever its flags (bit 3 included) and whatever bytes follow its
26-byte fixed block, `Dump_Local_file` writes no File data section and no Data
descriptor section, and returns with the stream as the two tails (file name,
then extra field) leave it; when the bytes of the two tails are there and
`Dump_extra_field` consumes its area exactly, that is with the cursor
`26 + n + m` bytes further, immediately after the extra-field tail. -/
theorem C6_sentinel_compressed_size (cfg : Config) (n : Int) (s : Stream)
    (h26 : 26 ≤ s.rest.length)
    (hc : le ((s.rest.drop 14).take 4) = 0xFFFFFFFF) :
    (∀ l ∈ (Dump_Local_file cfg n s).out,
      l.isSect "File data" = false ∧ l.isSect "Data descriptor" = false) ∧
    (Dump_Local_file cfg n s).fin =
      (Dump_Local_file_tails cfg n (le ((s.rest.drop 22).take 2))
        (le ((s.rest.drop 24).take 2)) (s.adv 26)).fin ∧
    (26 + le ((s.rest.drop 22).take 2) + le ((s.rest.drop 24).take 2) ≤ s.rest.length →
      (le ((s.rest.drop 24).take 2) ≠ 0 →
        (Dump_extra_field cfg (le ((s.rest.drop 24).take 2))
          (s.adv (26 + le ((s.rest.drop 22).take 2)))).fin.pos
          = s.pos + 26 + le ((s.rest.drop 22).take 2) + le ((s.rest.drop 24).take 2)) →
      (Dump_Local_file cfg n s).fin.pos
        = s.pos + 26 + le ((s.rest.drop 22).take 2) + le ((s.rest.drop 24).take 2)) := by
  obtain ⟨fixed, hrun, hs, _, _, _⟩ := Dump_Local_file_fixed cfg n s h26
  have hdata : ∀ f s1, Dump_Local_file_data cfg n f (le ((s.rest.drop 14).take 4)) s1
      = ⟨(), [], s1⟩ := by
    intro f s1
    simp [Dump_Local_file_data, hc, pure_run]
  rw [hrun, bind_after, hdata]
  refine ⟨?_, rfl, ?_⟩
  · intro l hl
    simp only [after_out, List.mem_append, List.append_nil] at hl
    rcases hl with hl | hl
    · exact ⟨not_isSect_of_sections fixed _ (by simp [hs]) l hl,
        not_isSect_of_sections fixed _ (by simp [hs]) l hl⟩
    · exact outAll_Dump_Local_file_tails_noData cfg n _ _ _ l hl
  · intro htot hE
    have hE1 : le ((s.rest.drop 24).take 2) ≠ 0 →
        (Dump_extra_field cfg (le ((s.rest.drop 24).take 2))
          ((s.adv 26).adv (le ((s.rest.drop 22).take 2)))).fin.pos
        = (s.adv 26).pos + le ((s.rest.drop 22).take 2) + le ((s.rest.drop 24).take 2) := by
      intro h
      simpa [Nat.add_assoc] using hE h
    rw [Dump_Local_file_tails_run cfg n _ _ (s.adv 26)
      (by simp only [rest_adv, List.length_drop]; omega) hE1]
    simp only [after_fin, withEof_pos, adv_pos]
    omega

set_option maxRecDepth 100000 in
/-- C6 witness: a header with compressed size `0xFFFFFFFF` and bit 3 set, a
one-byte name and an extra field of 32 bytes holding one Zip64 chunk of 28
bytes, which its decoder consumes exactly: no File data and no Data descriptor
section, and the cursor is left at 63, where the extra-field tail ends. -/
theorem C6_sentinel_compressed_size_witness :
    26 ≤ sampleLocal64.rest.length ∧
    le ((sampleLocal64.rest.drop 14).take 4) = 0xFFFFFFFF ∧
    le ((sampleLocal64.rest.drop 2).take 2) &&& 8 ≠ 0 ∧
    26 + le ((sampleLocal64.rest.drop 22).take 2) + le ((sampleLocal64.rest.drop 24).take 2)
      ≤ sampleLocal64.rest.length ∧
    (Dump_extra_field optionsOff 32 (sampleLocal64.adv (26 + 1))).fin.pos =
      sampleLocal64.pos + 26 + 1 + 32 ∧
    (∀ l ∈ (Dump_Local_file optionsOff 1 sampleLocal64).out,
      l.isSect "File data" = false ∧ l.isSect "Data descriptor" = false) ∧
    (Dump_Local_file optionsOff 1 sampleLocal64).fin.pos = 4 + 26 + 1 + 32 :=
  ⟨by decide, by decide, by decide, by decide, by decide,
    (C6_sentinel_compressed_size optionsOff 1 sampleLocal64 (by decide) (by decide)).1,
    (C6_sentinel_compressed_size optionsOff 1 sampleLocal64 (by decide) (by decide)).2.2
      (by decide) (fun _ => by decide)⟩

set_option maxRecDepth 100000 in
/-- C6 as stated fails in its last part: the cursor is left where the two
tails leave it, which need not be the end of the extra-field tail.  Three
headers with compressed size `0xFFFFFFFF`.  A one-byte name and an extra field
of 4 bytes whose chunk of unknown tag declares 2 bytes of payload: the tail
ends at 35, the chunk is decoded whole and the cursor is left at 37.  A name
declared 3 bytes long in a file that ends after its first byte: the tail would
end at 33 and the cursor is left at 31, the end of the file.  A one-byte name
and an extra field of 20 bytes holding a Zip64 chunk that declares 16 bytes:
the tail ends at 51, the Zip64 decoder reads 28 bytes and the cursor is left at
63.  No File data or Data descriptor section is written in any of them. -/
theorem C6_extra_field_overrun_counterexample :
    (le ((sampleLocal64Overrun.rest.drop 14).take 4) = 0xFFFFFFFF ∧
     sampleLocal64Overrun.pos + 26 + le ((sampleLocal64Overrun.rest.drop 22).take 2) +
       le ((sampleLocal64Overrun.rest.drop 24).take 2) = 35 ∧
     (Dump_Local_file optionsOff 1 sampleLocal64Overrun).fin.pos = 37 ∧
     sections (Dump_Local_file optionsOff 1 sampleLocal64Overrun).out =
       ["Local file name", "Local extra field"]) ∧
    (le ((sampleLocal64Short.rest.drop 14).take 4) = 0xFFFFFFFF ∧
     sampleLocal64Short.pos + 26 + le ((sampleLocal64Short.rest.drop 22).take 2) +
       le ((sampleLocal64Short.rest.drop 24).take 2) = 33 ∧
     (Dump_Local_file optionsOff 1 sampleLocal64Short).fin.pos = 31 ∧
     sections (Dump_Local_file optionsOff 1 sampleLocal64Short).out = ["Local file name"]) ∧
    (le ((sampleLocal64Zip64.rest.drop 14).take 4) = 0xFFFFFFFF ∧
     sampleLocal64Zip64.pos + 26 + le ((sampleLocal64Zip64.rest.drop 22).take 2) +
       le ((sampleLocal64Zip64.rest.drop 24).take 2) = 51 ∧
     (Dump_Local_file optionsOff 1 sampleLocal64Zip64).fin.pos = 63 ∧
     sections (Dump_Local_file optionsOff 1 sampleLocal64Zip64).out =
       ["Local file name", "Local extra field"]) := by
  decide

/-! ## The walker -/

theorem rest_at (s : Stream) (k : Nat) (e : Bool) :
    (⟨s.data, s.pos + k, e⟩ : Stream).rest = s.rest.drop k := by
  simp [Stream.rest, Nat.add_comm]

theorem ZipDumpFile_switch_unknown (cfg : Config) (sig o : Nat) (fc dc : Int)
    (hu : ¬ knownSignature sig) (s : Stream) :
    ZipDumpFile_switch cfg sig o fc dc s =
      ⟨⟨sig, fc, dc⟩, Print_header cfg "!! Unknown record" sig o (-1), s⟩ := by
  simp only [knownSignature, not_or] at hu
  obtain ⟨h1, h2, h3, h4, h5, h6, h7, h8⟩ := hu
  simp [ZipDumpFile_switch, h1, h2, h3, h4, h5, h6, h7, h8, bind_run, say_run, pure_run]

/-- One turn of the walker from a stream in which the first anchor lies `k`
bytes ahead and four bytes are left from it: the skipped bytes are reported,
the signature is read and the switch is run with the offset of the anchor. -/
theorem ZipDumpFile_turn_anchor (cfg : Config) (w : Walker) (s : Stream) (k : Nat)
    (h : firstPK s.rest k) (h4 : k + 4 ≤ s.rest.length) :
    ZipDumpFile_turn cfg w s =
      ⟨some (ZipDumpFile_switch cfg (le ((s.rest.drop k).take 4)) (s.pos + k)
          w.file_count w.dir_count ⟨s.data, s.pos + k + 4, false⟩).val,
        (SkipToNextPK cfg s).out ++
          (ZipDumpFile_switch cfg (le ((s.rest.drop k).take 4)) (s.pos + k)
            w.file_count w.dir_count ⟨s.data, s.pos + k + 4, false⟩).out,
        (ZipDumpFile_switch cfg (le ((s.rest.drop k).take 4)) (s.pos + k)
          w.file_count w.dir_count ⟨s.data, s.pos + k + 4, false⟩).fin⟩ := by
  have e := SkipToNextPK_found cfg s k h
  have hr := rest_at s k false
  have e2 := Read32_ok w.signature ⟨s.data, s.pos + k, false⟩
    (by rw [hr]; simp only [List.length_drop]; omega)
  rw [hr] at e2
  have hadv : (⟨s.data, s.pos + k, false⟩ : Stream).adv 4 = ⟨s.data, s.pos + k + 4, false⟩ := rfl
  rw [hadv] at e2
  have eo : (SkipToNextPK cfg s).out
      = (if k = 0 then [] else (SkipUnknownData cfg k ⟨s.data, s.pos, false⟩).out) := by
    rw [e]
  rw [eo]
  simp only [ZipDumpFile_turn, ZipDumpFile_body, bind_run, e, if_true, ftell_run, e2, pure_run,
    List.nil_append,
    List.append_nil]

/-- C4: when the walker stands before a 4-byte value that begins with `P`, `K`
and is none of the eight known signatures (the first anchor ahead, `k` bytes
from the cursor, `k = 0` when the cursor is on it), the turn emits, after the
report of the `k` skipped bytes, one unknown-record header that carries the
signature value and the offset of the anchor (the offset is shown unless the
quiet option is on), consumes exactly those 4 bytes and no payload, changes
no counter, and the next turn resumes the anchor scan at offset + 4. -/
theorem C4_unknown_signature (cfg : Config) (w : Walker) (s : Stream) (k : Nat)
    (h : firstPK s.rest k) (h4 : k + 4 ≤ s.rest.length)
    (hu : ¬ knownSignature (le ((s.rest.drop k).take 4))) :
    ZipDumpFile_turn cfg w s =
      ⟨some ⟨le ((s.rest.drop k).take 4), w.file_count, w.dir_count⟩,
        (SkipToNextPK cfg s).out ++
          [Line.sect "!! Unknown record" none (if cfg.gQuiet then none else some (s.pos + k)),
           Line.field "header signature" 4 (le ((s.rest.drop k).take 4)) Shown.hex],
        ⟨s.data, s.pos + k + 4, false⟩⟩ ∧
    ∀ fuel, ZipDumpFile_loop cfg (fuel + 1) w s =
      (ZipDumpFile_loop cfg fuel ⟨le ((s.rest.drop k).take 4), w.file_count, w.dir_count⟩
        ⟨s.data, s.pos + k + 4, false⟩).after
        ((SkipToNextPK cfg s).out ++
          [Line.sect "!! Unknown record" none (if cfg.gQuiet then none else some (s.pos + k)),
           Line.field "header signature" 4 (le ((s.rest.drop k).take 4)) Shown.hex]) := by
  have e := ZipDumpFile_turn_anchor cfg w s k h h4
  rw [ZipDumpFile_switch_unknown cfg _ _ _ _ hu] at e
  have hh : Print_header cfg "!! Unknown record" (le ((s.rest.drop k).take 4)) (s.pos + k) (-1)
      = [Line.sect "!! Unknown record" none (if cfg.gQuiet then none else some (s.pos + k)),
         Line.field "header signature" 4 (le ((s.rest.drop k).take 4)) Shown.hex] := by
    cases hq : cfg.gQuiet <;> simp [Print_header, Print_section, Print_x, hq]
  simp only [hh] at e
  refine ⟨e, ?_⟩
  intro fuel
  simp only [ZipDumpFile_loop, bind_run, e]
  rfl

theorem C4_unknown_signature_witness :
    firstPK (Stream.rest ⟨[1, 80, 75, 9, 9, 80, 75], 0, false⟩) 1 ∧
    ¬ knownSignature (le (((Stream.rest ⟨[1, 80, 75, 9, 9, 80, 75], 0, false⟩).drop 1).take 4)) ∧
    (ZipDumpFile_turn optionsOff ⟨0, 0, 0⟩ ⟨[1, 80, 75, 9, 9, 80, 75], 0, false⟩).fin
      = ⟨[1, 80, 75, 9, 9, 80, 75], 0 + 1 + 4, false⟩ :=
  ⟨by decide, by decide,
    congrArg Res.fin (C4_unknown_signature optionsOff ⟨0, 0, 0⟩
      ⟨[1, 80, 75, 9, 9, 80, 75], 0, false⟩ 1 (by decide) (by decide) (by decide)).1⟩

/-! ## The walker on a minimal archive -/

theorem fieldAt_drop (z : List Byte) (o a w : Nat) :
    fieldAt (z.drop o) a w = fieldAt z (o + a) w := by
  simp [fieldAt, List.drop_drop, Nat.add_comm]

theorem signature_facts (l : List Byte) (b2 b3 : Byte) (h : l.take 4 = [80, 75, b2, b3]) :
    firstPK l 0 ∧ 0 + 4 ≤ l.length ∧ (l.drop 0).take 4 = [80, 75, b2, b3] := by
  rcases l with _ | ⟨a0, _ | ⟨a1, _ | ⟨a2, _ | ⟨a3, t⟩⟩⟩⟩ <;> simp at h
  obtain ⟨h0, h1, h2, h3⟩ := h
  subst h0 h1 h2 h3
  refine ⟨⟨⟨rfl, rfl⟩, fun j hj => absurd hj (Nat.not_lt_zero j)⟩, ?_, rfl⟩
  simp

theorem ZipDumpFile_switch_local (cfg : Config) (o : Nat) (fc dc : Int) (s : Stream) :
    ZipDumpFile_switch cfg 0x04034b50 o fc dc s =
      ⟨⟨0x04034b50, fc + 1, dc⟩,
        Print_header cfg "Local file header" 0x04034b50 o (fc + 1) ++
          (Dump_Local_file cfg (fc + 1) s).out,
        (Dump_Local_file cfg (fc + 1) s).fin⟩ := by
  unfold ZipDumpFile_switch
  rw [if_pos rfl]
  simp only [bind_run, say_run, pure_run, List.append_nil]

theorem ZipDumpFile_switch_central (cfg : Config) (o : Nat) (fc dc : Int) (s : Stream) :
    ZipDumpFile_switch cfg 0x02014b50 o fc dc s =
      ⟨⟨0x02014b50, fc, dc + 1⟩,
        Print_header cfg "Central file header" 0x02014b50 o (dc + 1) ++
          (Dump_Central_directory_file_header cfg (dc + 1) s).out,
        (Dump_Central_directory_file_header cfg (dc + 1) s).fin⟩ := by
  have h1 : ¬ ((0x02014b50 : Nat) = 0x04034b50) := by decide
  have h2 : ¬ ((0x02014b50 : Nat) = 0x08074b50) := by decide
  have h3 : ¬ ((0x02014b50 : Nat) = 0x08064b50) := by decide
  unfold ZipDumpFile_switch
  rw [if_neg h1, if_neg h2, if_neg h3, if_pos rfl]
  simp only [bind_run, say_run, pure_run, List.append_nil]

theorem ZipDumpFile_switch_end (cfg : Config) (o : Nat) (fc dc : Int) (s : Stream) :
    ZipDumpFile_switch cfg 0x06054b50 o fc dc s =
      ⟨⟨0x06054b50, fc, dc⟩,
        Print_header cfg "End of central directory record" 0x06054b50 o (-1) ++
          (Dump_End_of_central_directory_record cfg s).out,
        (Dump_End_of_central_directory_record cfg s).fin⟩ := by
  have h1 : ¬ ((0x06054b50 : Nat) = 0x04034b50) := by decide
  have h2 : ¬ ((0x06054b50 : Nat) = 0x08074b50) := by decide
  have h3 : ¬ ((0x06054b50 : Nat) = 0x08064b50) := by decide
  have h4 : ¬ ((0x06054b50 : Nat) = 0x02014b50) := by decide
  have h5 : ¬ ((0x06054b50 : Nat) = 0x05054b50) := by decide
  have h6 : ¬ ((0x06054b50 : Nat) = 0x06064b50) := by decide
  have h7 : ¬ ((0x06054b50 : Nat) = 0x07064b50) := by decide
  unfold ZipDumpFile_switch
  rw [if_neg h1, if_neg h2, if_neg h3, if_neg h4, if_neg h5, if_neg h6, if_neg h7, if_pos rfl]
  simp only [bind_run, say_run, pure_run, List.append_nil]

theorem SkipToNextPK_end (cfg : Config) (s : Stream) (h : s.rest = []) :
    SkipToNextPK cfg s = ⟨false, [], s.hitEof⟩ := by
  have e := SkipToNextPK_loop_none [] s 0 0 (s.rest.length + 1) h
    (fun j hj => absurd hj (Nat.not_lt_zero j)) (by simp) (by simp)
  simp [SkipToNextPK, bind_run, e, pure_run, feof_run, Stream.hitEof]

theorem ZipDumpFile_turn_end (cfg : Config) (w : Walker) (s : Stream) (h : s.rest = []) :
    ZipDumpFile_turn cfg w s = ⟨none, [], s.hitEof⟩ := by
  simp [ZipDumpFile_turn, bind_run, SkipToNextPK_end cfg s h, pure_run]

theorem ZipDumpFile_loop_step (cfg : Config) (fuel : Nat) (w w1 : Walker) (s : Stream)
    (h : (ZipDumpFile_turn cfg w s).val = some w1) :
    ZipDumpFile_loop cfg (fuel + 1) w s =
      (ZipDumpFile_loop cfg fuel w1 (ZipDumpFile_turn cfg w s).fin).after
        (ZipDumpFile_turn cfg w s).out := by
  simp only [ZipDumpFile_loop, bind_run, h]
  rfl

theorem ZipDumpFile_loop_stop (cfg : Config) (fuel : Nat) (w : Walker) (s : Stream)
    (h : (ZipDumpFile_turn cfg w s).val = none) :
    ZipDumpFile_loop cfg (fuel + 1) w s =
      ⟨true, (ZipDumpFile_turn cfg w s).out, (ZipDumpFile_turn cfg w s).fin⟩ := by
  simp only [ZipDumpFile_loop, bind_run, h, pure_run, List.append_nil]

/-- A local file header with no extra field, flags with bit 3 clear and a
compressed size that is neither zero nor `0xFFFFFFFF`. -/
theorem Dump_Local_file_entry (cfg : Config) (n : Int) (s : Stream) (nl c f : Nat)
    (hnl : fieldAt s.rest 22 2 = nl) (hcs : fieldAt s.rest 14 4 = c)
    (hfl : fieldAt s.rest 2 2 = f) (hml : fieldAt s.rest 24 2 = 0)
    (hf : f &&& 8 = 0) (hc0 : c ≠ 0) (hc : c ≠ 0xFFFFFFFF)
    (htot : 26 + nl + c + 12 ≤ s.rest.length) :
    (Dump_Local_file cfg n s).fin.data = s.data ∧
    (Dump_Local_file cfg n s).fin.pos = s.pos + 26 + nl + c ∧
    sections (Dump_Local_file cfg n s).out =
      (if nl ≠ 0 then ["Local file name"] else []) ++ ["File data"] ∧
    skips (Dump_Local_file cfg n s).out = [] ∧
    fields (Dump_Local_file cfg n s).out =
      [("version needed to extract", 2, fieldAt s.rest 0 2),
       ("general purpose bit flag", 2, fieldAt s.rest 2 2),
       ("compression method", 2, fieldAt s.rest 4 2),
       ("last mod file time", 2, fieldAt s.rest 6 2),
       ("last mod file date", 2, fieldAt s.rest 8 2),
       ("crc-32", 4, fieldAt s.rest 10 4),
       ("compressed size", 4, fieldAt s.rest 14 4),
       ("uncompressed size", 4, fieldAt s.rest 18 4),
       ("file name length", 2, fieldAt s.rest 22 2),
       ("extra field length", 2, fieldAt s.rest 24 2)] := by
  refine ⟨(keeps_Dump_Local_file cfg n s).1, ?_⟩
  have h26 : 26 ≤ s.rest.length := by omega
  obtain ⟨fixed, hrun, hs, ht, hk, hfd⟩ := Dump_Local_file_fixed cfg n s h26
  have hfd1 : fields fixed =
      [("version needed to extract", 2, fieldAt s.rest 0 2),
       ("general purpose bit flag", 2, fieldAt s.rest 2 2),
       ("compression method", 2, fieldAt s.rest 4 2),
       ("last mod file time", 2, fieldAt s.rest 6 2),
       ("last mod file date", 2, fieldAt s.rest 8 2),
       ("crc-32", 4, fieldAt s.rest 10 4),
       ("compressed size", 4, fieldAt s.rest 14 4),
       ("uncompressed size", 4, fieldAt s.rest 18 4),
       ("file name length", 2, fieldAt s.rest 22 2),
       ("extra field length", 2, fieldAt s.rest 24 2)] := hfd
  rw [← hfd1]
  simp only [fieldAt] at hnl hcs hfl hml
  rw [hnl, hcs, hfl, hml] at hrun
  rw [hrun]
  clear hrun hfd hfd1
  have hd := Dump_if_fulldump_lines cfg "file data" c
  rw [bind_after, Dump_Local_file_tails_run cfg n nl 0 (s.adv 26)
    (by simp only [rest_adv, List.length_drop]; omega) (fun h => absurd rfl h)]
  simp only []
  rw [Dump_Local_file_data_run cfg n f c _ hc
    (by simp only [withEof_rest, rest_adv, List.length_drop, List.drop_drop]; omega)]
  simp only [after_mk, adv_adv, adv_pos, withEof_pos, withEof_rest, sections_append,
    fields_append, skips_append, hs, hk, List.nil_append, rest_adv, List.drop_drop]
  refine ⟨?_, ?_, ?_, ?_⟩
  · simp only [hf, ne_eq, not_true_eq_false, if_false]
    omega
  · by_cases h1 : nl = 0 <;> simp [h1, hc0, hf, sections_append, (hd _).1]
  · by_cases h1 : nl = 0 <;> simp [h1, hc0, hf, skips_append, (hd _).2.2.2]
  · by_cases h1 : nl = 0 <;> simp [h1, hc0, hf, fields_append, (hd _).2.2.1]

/-- A central directory header with no extra field. -/
theorem Dump_Central_directory_file_header_entry (cfg : Config) (n : Int) (s : Stream)
    (nl kl : Nat) (hnl : fieldAt s.rest 24 2 = nl)
    (hml : fieldAt s.rest 26 2 = 0) (hkl : fieldAt s.rest 28 2 = kl)
    (htot : 42 + nl + kl ≤ s.rest.length) :
    (Dump_Central_directory_file_header cfg n s).fin.data = s.data ∧
    (Dump_Central_directory_file_header cfg n s).fin.pos = s.pos + 42 + nl + kl ∧
    sections (Dump_Central_directory_file_header cfg n s).out =
      (if nl ≠ 0 then ["file name"] else []) ++ (if kl ≠ 0 then ["file comment"] else []) ∧
    skips (Dump_Central_directory_file_header cfg n s).out = [] ∧
    fields (Dump_Central_directory_file_header cfg n s).out =
      [("version made by", 2, fieldAt s.rest 0 2),
       ("version needed to extract", 2, fieldAt s.rest 2 2),
       ("general purpose bit flag", 2, fieldAt s.rest 4 2),
       ("compression method", 2, fieldAt s.rest 6 2),
       ("last mod file time", 2, fieldAt s.rest 8 2),
       ("last mod file date", 2, fieldAt s.rest 10 2),
       ("crc-32", 4, fieldAt s.rest 12 4),
       ("compressed size", 4, fieldAt s.rest 16 4),
       ("uncompressed size", 4, fieldAt s.rest 20 4),
       ("file name length", 2, fieldAt s.rest 24 2),
       ("extra field length", 2, fieldAt s.rest 26 2),
       ("file comment length", 2, fieldAt s.rest 28 2),
       ("disk number start", 2, fieldAt s.rest 30 2),
       ("internal file attributes", 2, fieldAt s.rest 32 2),
       ("external file attributes", 4, fieldAt s.rest 34 4),
       ("relative offset of local header", 4, fieldAt s.rest 38 4)] := by
  refine ⟨(keeps_Dump_Central_directory_file_header cfg n s).1, ?_⟩
  have h42 : 42 ≤ s.rest.length := by omega
  obtain ⟨fixed, hrun, hs, ht, hk, hfd⟩ := Dump_Central_directory_file_header_fixed cfg n s h42
  have hfd1 : fields fixed =
      [("version made by", 2, fieldAt s.rest 0 2),
       ("version needed to extract", 2, fieldAt s.rest 2 2),
       ("general purpose bit flag", 2, fieldAt s.rest 4 2),
       ("compression method", 2, fieldAt s.rest 6 2),
       ("last mod file time", 2, fieldAt s.rest 8 2),
       ("last mod file date", 2, fieldAt s.rest 10 2),
       ("crc-32", 4, fieldAt s.rest 12 4),
       ("compressed size", 4, fieldAt s.rest 16 4),
       ("uncompressed size", 4, fieldAt s.rest 20 4),
       ("file name length", 2, fieldAt s.rest 24 2),
       ("extra field length", 2, fieldAt s.rest 26 2),
       ("file comment length", 2, fieldAt s.rest 28 2),
       ("disk number start", 2, fieldAt s.rest 30 2),
       ("internal file attributes", 2, fieldAt s.rest 32 2),
       ("external file attributes", 4, fieldAt s.rest 34 4),
       ("relative offset of local header", 4, fieldAt s.rest 38 4)] := hfd
  rw [← hfd1]
  simp only [fieldAt] at hnl hml hkl
  rw [hnl, hml, hkl] at hrun
  rw [hrun]
  clear hrun hfd hfd1
  rw [Dump_Central_directory_tails_run cfg n nl 0 kl (s.adv 42)
    (by simp only [rest_adv, List.length_drop]; omega) (fun h => absurd rfl h)]
  simp only [after_mk, adv_adv, adv_pos, withEof_pos, withEof_rest, sections_append,
    fields_append, skips_append, hs, hk, List.nil_append, rest_adv, List.drop_drop]
  refine ⟨?_, ?_, ?_, ?_⟩
  · omega
  · by_cases h1 : nl = 0 <;> by_cases h2 : kl = 0 <;> simp [h1, h2, sections_append]
  · by_cases h1 : nl = 0 <;> by_cases h2 : kl = 0 <;> simp [h1, h2, skips_append]
  · by_cases h1 : nl = 0 <;> by_cases h2 : kl = 0 <;> simp [h1, h2, fields_append]

/-- An end of central directory record with its comment. -/
theorem Dump_End_of_central_directory_record_entry (cfg : Config) (s : Stream) (kl : Nat)
    (hkl : fieldAt s.rest 16 2 = kl) (h18 : 18 + kl ≤ s.rest.length) :
    (Dump_End_of_central_directory_record cfg s).fin.data = s.data ∧
    (Dump_End_of_central_directory_record cfg s).fin.pos = s.pos + 18 + kl ∧
    sections (Dump_End_of_central_directory_record cfg s).out =
      (if kl ≠ 0 then [".ZIP file comment"] else []) ∧
    skips (Dump_End_of_central_directory_record cfg s).out = [] ∧
    fields (Dump_End_of_central_directory_record cfg s).out =
      [("number of this disk", 2, fieldAt s.rest 0 2),
       ("disk of starting directory", 2, fieldAt s.rest 2 2),
       ("directory-entries on this disk", 2, fieldAt s.rest 4 2),
       ("directory-entries in all disks", 2, fieldAt s.rest 6 2),
       ("size of the directory", 4, fieldAt s.rest 8 4),
       ("offset of starting directory", 4, fieldAt s.rest 12 4),
       (".ZIP file comment length", 2, fieldAt s.rest 16 2)] := by
  refine ⟨(keeps_Dump_End_of_central_directory_record cfg s).1, ?_⟩
  have hrun := EOCD_run cfg s (by omega)
  simp only [fieldAt, List.drop_zero] at hkl ⊢
  rw [hkl] at hrun ⊢
  rw [hrun]
  by_cases hk : kl = 0
  · simp [sections_append, fields_append, skips_append, hk]
  · have hs := Dump_string_ok kl (s.adv 18) (by simp only [rest_adv, List.length_drop]; omega)
    simp [sections_append, fields_append, skips_append, hk, hs, Dump_string_out,
      Res.after, Nat.add_assoc]

/-- One turn of the walker from a cursor that stands on an anchor with four
bytes left: nothing is skipped and the switch is run on the signature. -/
theorem ZipDumpFile_turn_here (cfg : Config) (w : Walker) (s : Stream) (b2 b3 : Byte)
    (h : s.rest.take 4 = [80, 75, b2, b3]) :
    ZipDumpFile_turn cfg w s =
      ⟨some (ZipDumpFile_switch cfg (le [80, 75, b2, b3]) s.pos
          w.file_count w.dir_count ⟨s.data, s.pos + 4, false⟩).val,
        (ZipDumpFile_switch cfg (le [80, 75, b2, b3]) s.pos
            w.file_count w.dir_count ⟨s.data, s.pos + 4, false⟩).out,
        (ZipDumpFile_switch cfg (le [80, 75, b2, b3]) s.pos
          w.file_count w.dir_count ⟨s.data, s.pos + 4, false⟩).fin⟩ := by
  obtain ⟨hp, h4, hs⟩ := signature_facts s.rest b2 b3 h
  have e := ZipDumpFile_turn_anchor cfg w s 0 hp h4
  have eo : (SkipToNextPK cfg s).out = [] := by
    rw [SkipToNextPK_found cfg s 0 hp]
    rfl
  rw [eo, hs] at e
  simpa only [Nat.add_zero, List.nil_append] using e

theorem rest_mk (z : List Byte) (p : Nat) (e : Bool) :
    (⟨z, p, e⟩ : Stream).rest = z.drop p := rfl

/-- The turn of the walker at a local file header that starts at offset `p`,
with no extra field, no data descriptor and a payload of known size. -/
theorem ZipDumpFile_turn_local (cfg : Config) (w : Walker) (z : List Byte) (p : Nat) (e : Bool)
    (nl c : Nat) (hsig : (z.drop p).take 4 = [80, 75, 3, 4])
    (hnl : fieldAt z (p + 26) 2 = nl) (hcs : fieldAt z (p + 18) 4 = c)
    (hf : fieldAt z (p + 6) 2 &&& 8 = 0) (hml : fieldAt z (p + 28) 2 = 0)
    (hc0 : c ≠ 0) (hc : c ≠ 0xFFFFFFFF) (htot : p + 30 + nl + c + 12 ≤ z.length) :
    (ZipDumpFile_turn cfg w ⟨z, p, e⟩).val
      = some ⟨0x04034b50, w.file_count + 1, w.dir_count⟩ ∧
    (ZipDumpFile_turn cfg w ⟨z, p, e⟩).fin.data = z ∧
    (ZipDumpFile_turn cfg w ⟨z, p, e⟩).fin.pos = p + 30 + nl + c ∧
    sections (ZipDumpFile_turn cfg w ⟨z, p, e⟩).out =
      ["Local file header"] ++ (if nl ≠ 0 then ["Local file name"] else []) ++ ["File data"] ∧
    skips (ZipDumpFile_turn cfg w ⟨z, p, e⟩).out = [] ∧
    fields (ZipDumpFile_turn cfg w ⟨z, p, e⟩).out =
      [("header signature", 4, fieldAt z p 4),
       ("version needed to extract", 2, fieldAt z (p + 4) 2),
       ("general purpose bit flag", 2, fieldAt z (p + 6) 2),
       ("compression method", 2, fieldAt z (p + 8) 2),
       ("last mod file time", 2, fieldAt z (p + 10) 2),
       ("last mod file date", 2, fieldAt z (p + 12) 2),
       ("crc-32", 4, fieldAt z (p + 14) 4),
       ("compressed size", 4, fieldAt z (p + 18) 4),
       ("uncompressed size", 4, fieldAt z (p + 22) 4),
       ("file name length", 2, fieldAt z (p + 26) 2),
       ("extra field length", 2, fieldAt z (p + 28) 2)] := by
  have hv : le [80, 75, 3, 4] = 0x04034b50 := by decide
  have hsg : fieldAt z p 4 = 0x04034b50 := by rw [fieldAt, hsig, hv]
  rw [ZipDumpFile_turn_here cfg w ⟨z, p, e⟩ 3 4 hsig, hv, ZipDumpFile_switch_local]
  have hr : (⟨z, p + 4, false⟩ : Stream).rest = z.drop (p + 4) := rfl
  have d := Dump_Local_file_entry cfg (w.file_count + 1) ⟨z, p + 4, false⟩ nl c
    (fieldAt z (p + 6) 2)
    (by rw [hr, fieldAt_drop]; exact hnl) (by rw [hr, fieldAt_drop]; exact hcs)
    (by rw [hr, fieldAt_drop]) (by rw [hr, fieldAt_drop]; exact hml) hf hc0 hc
    (by rw [hr, List.length_drop]; omega)
  simp only [hr, fieldAt_drop, Nat.add_assoc, Nat.reduceAdd] at d
  obtain ⟨d1, d2, d3, d4, d5⟩ := d
  dsimp only
  refine ⟨Eq.refl _, ?_, ?_, ?_, ?_, ?_⟩
  · with_reducible exact d1
  · rw [d2]; omega
  · simp only [sections_append, d3, Print_header, sections_Print_section]
    rfl
  · simp only [skips_append, d4, Print_header, skips_Print_section]
    rfl
  · simp only [fields_append, d5, Print_header, fields_Print_section, hsg]
    rfl

/-- The turn of the walker at a central directory header that starts at
offset `p`, with no extra field. -/
theorem ZipDumpFile_turn_central (cfg : Config) (w : Walker) (z : List Byte) (p : Nat)
    (e : Bool) (nl kl : Nat) (hsig : (z.drop p).take 4 = [80, 75, 1, 2])
    (hnl : fieldAt z (p + 28) 2 = nl) (hml : fieldAt z (p + 30) 2 = 0)
    (hkl : fieldAt z (p + 32) 2 = kl) (htot : p + 46 + nl + kl ≤ z.length) :
    (ZipDumpFile_turn cfg w ⟨z, p, e⟩).val
      = some ⟨0x02014b50, w.file_count, w.dir_count + 1⟩ ∧
    (ZipDumpFile_turn cfg w ⟨z, p, e⟩).fin.data = z ∧
    (ZipDumpFile_turn cfg w ⟨z, p, e⟩).fin.pos = p + 46 + nl + kl ∧
    sections (ZipDumpFile_turn cfg w ⟨z, p, e⟩).out =
      ["Central file header"] ++ (if nl ≠ 0 then ["file name"] else []) ++
        (if kl ≠ 0 then ["file comment"] else []) ∧
    skips (ZipDumpFile_turn cfg w ⟨z, p, e⟩).out = [] ∧
    fields (ZipDumpFile_turn cfg w ⟨z, p, e⟩).out =
      [("header signature", 4, fieldAt z p 4),
       ("version made by", 2, fieldAt z (p + 4) 2),
       ("version needed to extract", 2, fieldAt z (p + 6) 2),
       ("general purpose bit flag", 2, fieldAt z (p + 8) 2),
       ("compression method", 2, fieldAt z (p + 10) 2),
       ("last mod file time", 2, fieldAt z (p + 12) 2),
       ("last mod file date", 2, fieldAt z (p + 14) 2),
       ("crc-32", 4, fieldAt z (p + 16) 4),
       ("compressed size", 4, fieldAt z (p + 20) 4),
       ("uncompressed size", 4, fieldAt z (p + 24) 4),
       ("file name length", 2, fieldAt z (p + 28) 2),
       ("extra field length", 2, fieldAt z (p + 30) 2),
       ("file comment length", 2, fieldAt z (p + 32) 2),
       ("disk number start", 2, fieldAt z (p + 34) 2),
       ("internal file attributes", 2, fieldAt z (p + 36) 2),
       ("external file attributes", 4, fieldAt z (p + 38) 4),
       ("relative offset of local header", 4, fieldAt z (p + 42) 4)] := by
  have hv : le [80, 75, 1, 2] = 0x02014b50 := by decide
  have hsg : fieldAt z p 4 = 0x02014b50 := by rw [fieldAt, hsig, hv]
  rw [ZipDumpFile_turn_here cfg w ⟨z, p, e⟩ 1 2 hsig, hv, ZipDumpFile_switch_central]
  have hr : (⟨z, p + 4, false⟩ : Stream).rest = z.drop (p + 4) := rfl
  have d := Dump_Central_directory_file_header_entry cfg (w.dir_count + 1) ⟨z, p + 4, false⟩
    nl kl (by rw [hr, fieldAt_drop]; exact hnl) (by rw [hr, fieldAt_drop]; exact hml)
    (by rw [hr, fieldAt_drop]; exact hkl) (by rw [hr, List.length_drop]; omega)
  simp only [hr, fieldAt_drop, Nat.add_assoc, Nat.reduceAdd] at d
  obtain ⟨d1, d2, d3, d4, d5⟩ := d
  dsimp only
  refine ⟨Eq.refl _, ?_, ?_, ?_, ?_, ?_⟩
  · with_reducible exact d1
  · rw [d2]; omega
  · simp only [sections_append, d3, Print_header, sections_Print_section]
    rfl
  · simp only [skips_append, d4, Print_header, skips_Print_section]
    rfl
  · simp only [fields_append, d5, Print_header, fields_Print_section, hsg]
    rfl

/-- The turn of the walker at an end of central directory record that starts
at offset `p`. -/
theorem ZipDumpFile_turn_last (cfg : Config) (w : Walker) (z : List Byte) (p : Nat)
    (e : Bool) (kl : Nat) (hsig : (z.drop p).take 4 = [80, 75, 5, 6])
    (hkl : fieldAt z (p + 20) 2 = kl) (htot : p + 22 + kl ≤ z.length) :
    (ZipDumpFile_turn cfg w ⟨z, p, e⟩).val
      = some ⟨0x06054b50, w.file_count, w.dir_count⟩ ∧
    (ZipDumpFile_turn cfg w ⟨z, p, e⟩).fin.data = z ∧
    (ZipDumpFile_turn cfg w ⟨z, p, e⟩).fin.pos = p + 22 + kl ∧
    sections (ZipDumpFile_turn cfg w ⟨z, p, e⟩).out =
      ["End of central directory record"] ++
        (if kl ≠ 0 then [".ZIP file comment"] else []) ∧
    skips (ZipDumpFile_turn cfg w ⟨z, p, e⟩).out = [] ∧
    fields (ZipDumpFile_turn cfg w ⟨z, p, e⟩).out =
      [("header signature", 4, fieldAt z p 4),
       ("number of this disk", 2, fieldAt z (p + 4) 2),
       ("disk of starting directory", 2, fieldAt z (p + 6) 2),
       ("directory-entries on this disk", 2, fieldAt z (p + 8) 2),
       ("directory-entries in all disks", 2, fieldAt z (p + 10) 2),
       ("size of the directory", 4, fieldAt z (p + 12) 4),
       ("offset of starting directory", 4, fieldAt z (p + 16) 4),
       (".ZIP file comment length", 2, fieldAt z (p + 20) 2)] := by
  have hv : le [80, 75, 5, 6] = 0x06054b50 := by decide
  have hsg : fieldAt z p 4 = 0x06054b50 := by rw [fieldAt, hsig, hv]
  rw [ZipDumpFile_turn_here cfg w ⟨z, p, e⟩ 5 6 hsig, hv, ZipDumpFile_switch_end]
  have hr : (⟨z, p + 4, false⟩ : Stream).rest = z.drop (p + 4) := rfl
  have d := Dump_End_of_central_directory_record_entry cfg ⟨z, p + 4, false⟩ kl
    (by rw [hr, fieldAt_drop]; exact hkl) (by rw [hr, List.length_drop]; omega)
  simp only [hr, fieldAt_drop, Nat.add_assoc, Nat.reduceAdd] at d
  obtain ⟨d1, d2, d3, d4, d5⟩ := d
  dsimp only
  refine ⟨Eq.refl _, ?_, ?_, ?_, ?_, ?_⟩
  · with_reducible exact d1
  · rw [d2]; omega
  · simp only [sections_append, d3, Print_header, sections_Print_section]
    rfl
  · simp only [skips_append, d4, Print_header, skips_Print_section]
    rfl
  · simp only [fields_append, d5, Print_header, fields_Print_section, hsg]
    rfl

theorem stream_eta (s : Stream) (z : List Byte) (p : Nat) (hd : s.data = z) (hp : s.pos = p) :
    s = ⟨z, p, s.eof⟩ := by
  cases s
  simp only [Stream.mk.injEq, and_true] at *
  exact ⟨hd, hp⟩

theorem rest_end (z : List Byte) (p : Nat) (e : Bool) (h : z.length ≤ p) :
    (⟨z, p, e⟩ : Stream).rest = [] := by
  simp [Stream.rest, h]

/-- C5: for every archive laid out as a minimal ZIP (a local file header with no
extra field and no data descriptor, its name, its non-empty data, directly
followed by the central directory header and the end of central directory
record, with which the file ends), `ZipDumpFile` ends its loop and emits the
sections Local file header, File data, Central file header and End of central
directory record in this order (with the name and comment tails that are
present between them), reports no unknown data and no unknown record, and every
field line carries the little-endian value of the bytes of the archive at the
offset of that field. -/
theorem C5_minimal_zip (cfg : Config) (z : List Byte) (h : minimalZip z) :
    (ZipDumpFile cfg ⟨z, 0, false⟩).val = true ∧
    sections (ZipDumpFile cfg ⟨z, 0, false⟩).out =
      ["Local file header"] ++ (if fieldAt z 26 2 ≠ 0 then ["Local file name"] else []) ++
      ["File data"] ++
      (["Central file header"] ++ (if fieldAt z (cdhAt z + 28) 2 ≠ 0 then ["file name"] else []) ++
        (if fieldAt z (cdhAt z + 32) 2 ≠ 0 then ["file comment"] else [])) ++
      (["End of central directory record"] ++
        (if fieldAt z (eocdAt z + 20) 2 ≠ 0 then [".ZIP file comment"] else [])) ∧
    "!! Unknown record" ∉ sections (ZipDumpFile cfg ⟨z, 0, false⟩).out ∧
    skips (ZipDumpFile cfg ⟨z, 0, false⟩).out = [] ∧
    fields (ZipDumpFile cfg ⟨z, 0, false⟩).out =
      [("header signature", 4, fieldAt z 0 4),
       ("version needed to extract", 2, fieldAt z 4 2),
       ("general purpose bit flag", 2, fieldAt z 6 2),
       ("compression method", 2, fieldAt z 8 2),
       ("last mod file time", 2, fieldAt z 10 2),
       ("last mod file date", 2, fieldAt z 12 2),
       ("crc-32", 4, fieldAt z 14 4),
       ("compressed size", 4, fieldAt z 18 4),
       ("uncompressed size", 4, fieldAt z 22 4),
       ("file name length", 2, fieldAt z 26 2),
       ("extra field length", 2, fieldAt z 28 2),
       ("header signature", 4, fieldAt z (cdhAt z) 4),
       ("version made by", 2, fieldAt z (cdhAt z + 4) 2),
       ("version needed to extract", 2, fieldAt z (cdhAt z + 6) 2),
       ("general purpose bit flag", 2, fieldAt z (cdhAt z + 8) 2),
       ("compression method", 2, fieldAt z (cdhAt z + 10) 2),
       ("last mod file time", 2, fieldAt z (cdhAt z + 12) 2),
       ("last mod file date", 2, fieldAt z (cdhAt z + 14) 2),
       ("crc-32", 4, fieldAt z (cdhAt z + 16) 4),
       ("compressed size", 4, fieldAt z (cdhAt z + 20) 4),
       ("uncompressed size", 4, fieldAt z (cdhAt z + 24) 4),
       ("file name length", 2, fieldAt z (cdhAt z + 28) 2),
       ("extra field length", 2, fieldAt z (cdhAt z + 30) 2),
       ("file comment length", 2, fieldAt z (cdhAt z + 32) 2),
       ("disk number start", 2, fieldAt z (cdhAt z + 34) 2),
       ("internal file attributes", 2, fieldAt z (cdhAt z + 36) 2),
       ("external file attributes", 4, fieldAt z (cdhAt z + 38) 4),
       ("relative offset of local header", 4, fieldAt z (cdhAt z + 42) 4),
       ("header signature", 4, fieldAt z (eocdAt z) 4),
       ("number of this disk", 2, fieldAt z (eocdAt z + 4) 2),
       ("disk of starting directory", 2, fieldAt z (eocdAt z + 6) 2),
       ("directory-entries on this disk", 2, fieldAt z (eocdAt z + 8) 2),
       ("directory-entries in all disks", 2, fieldAt z (eocdAt z + 10) 2),
       ("size of the directory", 4, fieldAt z (eocdAt z + 12) 4),
       ("offset of starting directory", 4, fieldAt z (eocdAt z + 16) 4),
       (".ZIP file comment length", 2, fieldAt z (eocdAt z + 20) 2)] := by
  obtain ⟨h1, hf, hc0, hc, hml, h2, hml2, h3, hlen⟩ := h
  have hcd : cdhAt z = 0 + 30 + fieldAt z 26 2 + fieldAt z 18 4 := by
    rw [cdhAt, Nat.zero_add]
  have heo : eocdAt z
      = cdhAt z + 46 + fieldAt z (cdhAt z + 28) 2 + fieldAt z (cdhAt z + 32) 2 := rfl
  -- the local file header
  have t1 := ZipDumpFile_turn_local cfg ⟨0, 0, 0⟩ z 0 false (fieldAt z 26 2) (fieldAt z 18 4)
    h1 rfl rfl hf hml hc0 hc (by omega)
  rw [← hcd] at t1
  simp only [Nat.zero_add] at t1
  obtain ⟨v1, a1, p1, x1, k1, f1⟩ := t1
  have s1 := stream_eta _ z (cdhAt z) a1 p1
  have e1 := ZipDumpFile_loop_step cfg (z.length - 3 + 1 + 1 + 1) _ _ _ v1
  rw [s1] at e1
  -- the central directory header
  have t2 := ZipDumpFile_turn_central cfg ⟨0x04034b50, 0 + 1, 0⟩ z (cdhAt z)
    (ZipDumpFile_turn cfg ⟨0, 0, 0⟩ ⟨z, 0, false⟩).fin.eof
    (fieldAt z (cdhAt z + 28) 2) (fieldAt z (cdhAt z + 32) 2) h2 rfl hml2 rfl (by omega)
  rw [← heo] at t2
  obtain ⟨v2, a2, p2, x2, k2, f2⟩ := t2
  have s2 := stream_eta _ z (eocdAt z) a2 p2
  have e2 := ZipDumpFile_loop_step cfg (z.length - 3 + 1 + 1) _ _ _ v2
  rw [s2] at e2
  -- the end of central directory record
  have t3 := ZipDumpFile_turn_last cfg ⟨0x02014b50, 0 + 1, 0 + 1⟩ z (eocdAt z)
    (ZipDumpFile_turn cfg ⟨0x04034b50, 0 + 1, 0⟩
      ⟨z, cdhAt z, (ZipDumpFile_turn cfg ⟨0, 0, 0⟩ ⟨z, 0, false⟩).fin.eof⟩).fin.eof
    (fieldAt z (eocdAt z + 20) 2) h3 rfl (by omega)
  obtain ⟨v3, a3, p3, x3, k3, f3⟩ := t3
  have s3 := stream_eta _ z _ a3 p3
  have e3 := ZipDumpFile_loop_step cfg (z.length - 3 + 1) _ _ _ v3
  rw [s3] at e3
  -- the end of the file
  have t4 := ZipDumpFile_turn_end cfg ⟨0x06054b50, 0 + 1, 0 + 1⟩ _
    (rest_end z (eocdAt z + 22 + fieldAt z (eocdAt z + 20) 2)
      (ZipDumpFile_turn cfg ⟨0x02014b50, 0 + 1, 0 + 1⟩
        ⟨z, eocdAt z, (ZipDumpFile_turn cfg ⟨0x04034b50, 0 + 1, 0⟩
          ⟨z, cdhAt z, (ZipDumpFile_turn cfg ⟨0, 0, 0⟩ ⟨z, 0, false⟩).fin.eof⟩).fin.eof⟩).fin.eof
      (by omega))
  have e4 := ZipDumpFile_loop_stop cfg (z.length - 3) _ _ (congrArg Res.val t4)
  rw [t4] at e4
  have hfuel : z.length + 1 = z.length - 3 + 1 + 1 + 1 + 1 := by omega
  have hrun : ZipDumpFile cfg ⟨z, 0, false⟩
      = ZipDumpFile_loop cfg (z.length - 3 + 1 + 1 + 1 + 1) ⟨0, 0, 0⟩ ⟨z, 0, false⟩ := by
    rw [← hfuel]
    rfl
  rw [hrun, e1, e2, e3, e4]
  simp only [after_val, after_out, List.append_nil, sections_append, skips_append,
    fields_append, x1, x2, x3, k1, k2, k3, f1, f2, f3]
  refine ⟨trivial, ?_, ?_, trivial, ?_⟩
  · simp only [List.append_assoc]
  · split_ifs <;> simp
  · rfl

set_option maxRecDepth 100000 in
theorem C5_minimal_zip_witness :
    minimalZip sampleZip ∧
    (ZipDumpFile optionsOff ⟨sampleZip, 0, false⟩).val = true ∧
    sections (ZipDumpFile optionsOff ⟨sampleZip, 0, false⟩).out =
      ["Local file header", "Local file name", "File data", "Central file header",
       "file name", "End of central directory record"] ∧
    skips (ZipDumpFile optionsOff ⟨sampleZip, 0, false⟩).out = [] :=
  ⟨by decide, (C5_minimal_zip optionsOff sampleZip (by decide)).1,
    (C5_minimal_zip optionsOff sampleZip (by decide)).2.1.trans (by decide),
    (C5_minimal_zip optionsOff sampleZip (by decide)).2.2.2.1⟩

/-! ## The same bytes further on in the file are decoded the same way -/

theorem shift_plain (d : Nat) (l : Line) (h : l.plain = true) : l.shift d = l := by
  cases l <;> first | rfl | (simp [Line.plain] at h)

theorem map_shift_plain (d : Nat) (ls : List Line) (h : ∀ l ∈ ls, l.plain = true) :
    ls.map (Line.shift d) = ls := by
  induction ls with
  | nil => rfl
  | cons a t ih =>
    rw [List.map_cons, shift_plain d a (h a (List.mem_cons_self a t)),
      ih (fun l hl => h l (List.mem_cons_of_mem a hl))]

theorem map_shift_Print_section (d : Nat) (cfg : Config) (nm : String) (o : Nat) (n : Int) :
    (Print_section cfg nm o n).map (Line.shift d) = Print_section cfg nm (o + d) n := by
  cases hq : cfg.gQuiet <;> simp [Print_section, hq, Line.shift]

theorem ahead_refl (s : Stream) : Ahead 0 s s := ⟨rfl, rfl, rfl⟩

theorem sim_pure (d : Nat) {α : Type} (a : α) : Sim d (pure a : Dump α) (pure a) := by
  intro s1 s2 h
  exact ⟨rfl, rfl, h⟩

theorem sim_bind (d : Nat) {α β : Type} (m1 m2 : Dump α) (k1 k2 : α → Dump β)
    (h1 : Sim d m1 m2) (h2 : ∀ a, Sim d (k1 a) (k2 a)) : Sim d (m1 >>= k1) (m2 >>= k2) := by
  intro s1 s2 h
  obtain ⟨a1, a2, a3⟩ := h1 s1 s2 h
  have b := h2 (m1 s1).val (m1 s1).fin (m2 s2).fin a3
  simp only [bind_run]
  rw [← a1]
  exact ⟨b.1, by rw [a2, b.2.1, List.map_append], b.2.2⟩

theorem sim_ite (d : Nat) {α : Type} (c : Prop) [Decidable c] (a1 a2 b1 b2 : Dump α)
    (h1 : Sim d a1 a2) (h2 : Sim d b1 b2) :
    Sim d (if c then a1 else b1) (if c then a2 else b2) := by
  split <;> assumption

theorem sim_say (d : Nat) (ls : List Line) (h : ∀ l ∈ ls, l.plain = true) :
    Sim d (say ls) (say ls) := by
  intro s1 s2 hs
  exact ⟨rfl, (map_shift_plain d ls h).symm, hs⟩

theorem sim_say_one (d : Nat) (l : Line) (h : l.plain = true) : Sim d (say [l]) (say [l]) :=
  sim_say d [l] (by intro x hx; simp at hx; subst hx; exact h)

theorem sim_say_text (d : Nat) (cs : List Nat) : Sim d (say [Line.text cs]) (say [Line.text cs]) := by
  intro s1 s2 hs
  exact ⟨rfl, rfl, hs⟩

theorem sim_say_section (d : Nat) (cfg : Config) (nm : String) (o : Nat) (n : Int) :
    Sim d (say (Print_section cfg nm (o + d) n)) (say (Print_section cfg nm o n)) := by
  intro s1 s2 hs
  exact ⟨rfl, (map_shift_Print_section d cfg nm o n).symm, hs⟩

theorem sim_ftell_bind (d : Nat) {β : Type} (k1 k2 : Nat → Dump β)
    (h : ∀ o, Sim d (k1 (o + d)) (k2 o)) : Sim d (ftell >>= k1) (ftell >>= k2) := by
  intro s1 s2 hs
  have a := h s2.pos s1 s2 hs
  simp only [bind_run, ftell_run, List.nil_append, hs.2.2]
  exact a

theorem sim_feof (d : Nat) : Sim d feof feof := by
  intro s1 s2 hs
  exact ⟨hs.2.1, rfl, hs⟩

theorem sim_fseek_nat (d : Nat) (n : Nat) : Sim d (fseek (n : Int)) (fseek (n : Int)) := by
  intro s1 s2 hs
  rw [fseek_fwd, fseek_fwd]
  refine ⟨rfl, rfl, ?_, rfl, ?_⟩
  · rw [rest_skip, rest_skip, hs.1]
  · simp only [skip_pos, hs.2.2]; omega

theorem sim_getc (d : Nat) : Sim d getc getc := by
  intro s1 s2 hs
  obtain ⟨h1, h2, h3⟩ := hs
  cases hr : s2.rest with
  | nil =>
    have e1 : s1.hitEof = ⟨s1.data, s1.pos, true⟩ := by simp [Stream.hitEof, h1.trans hr]
    have e2 : s2.hitEof = ⟨s2.data, s2.pos, true⟩ := by simp [Stream.hitEof, hr]
    rw [getc_nil s1 (h1.trans hr), getc_nil s2 hr, e1, e2]
    exact ⟨rfl, rfl, h1, rfl, h3⟩
  | cons b t =>
    rw [getc_cons s1 b t (h1.trans hr), getc_cons s2 b t hr]
    refine ⟨rfl, rfl, ?_, h2, ?_⟩
    · rw [rest_adv, rest_adv, h1]
    · simp only [adv_pos, h3]; omega

theorem sim_fuel (d : Nat) {α : Type} (f : Nat → Dump α) (h : ∀ n, Sim d (f n) (f n)) :
    Sim d (fun s => f (s.rest.length + 1) s) (fun s => f (s.rest.length + 1) s) := by
  intro s1 s2 hs
  have e := h (s2.rest.length + 1) s1 s2 hs
  dsimp only
  rw [hs.1]
  exact e

theorem Print_external_file_attributes_plain :
    ∀ x, ∀ l ∈ Print_external_file_attributes x, l.plain = true := by
  intro x l hl; simp [Print_external_file_attributes] at hl

theorem Print_date_and_time_plain (t : Nat) :
    ∀ x, ∀ l ∈ Print_date_and_time t x, l.plain = true := by
  intro x l hl; simp [Print_date_and_time] at hl; subst hl; rfl

theorem sim_Read8 (d : Nat) (v : Nat) : Sim d (Read8 v) (Read8 v) := by
  unfold Read8
  apply sim_bind d _ _ _ _ (sim_getc d)
  intro x
  cases x <;> exact sim_pure d _

theorem sim_Read16 (d : Nat) (v : Nat) :
    Sim d (Read16 v) (Read16 v) := by
  unfold Read16
  repeat' first
    | with_reducible exact sim_pure d _
    | with_reducible exact sim_getc d
    | with_reducible exact sim_feof d
    | with_reducible exact sim_fseek_nat d _
    | with_reducible exact sim_say_section d _ _ _ _
    | with_reducible exact sim_say_text d _
    | with_reducible exact sim_say d _ (Print_fmt_plain _ _ _ _)
    | with_reducible exact sim_say d _ (Print_extra_plain _ _ _)
    | with_reducible exact sim_Read8 d _
    | ((with_reducible apply sim_say_one); rfl)
    | with_reducible apply sim_ite
    | with_reducible apply sim_ftell_bind
    | with_reducible apply sim_bind
    | with_reducible exact Print_version_plain
    | with_reducible exact Print_UTC_plain
    | with_reducible exact Print_filetime_plain
    | with_reducible exact Print_internal_file_attributes_plain
    | with_reducible exact Print_external_file_attributes_plain
    | with_reducible exact fun x => Print_general_purpose_bit_flag_plain _ x
    | with_reducible exact fun x => Print_date_and_time_plain _ x
    | (intro (x : Bool × Nat); obtain ⟨a, b⟩ := x; dsimp only)
    | (intro (x : Nat × List Nat); obtain ⟨a, b⟩ := x; dsimp only)
    | (intro x; try dsimp only)

theorem sim_Read32 (d : Nat) (v : Nat) :
    Sim d (Read32 v) (Read32 v) := by
  unfold Read32
  repeat' first
    | with_reducible exact sim_pure d _
    | with_reducible exact sim_getc d
    | with_reducible exact sim_feof d
    | with_reducible exact sim_fseek_nat d _
    | with_reducible exact sim_say_section d _ _ _ _
    | with_reducible exact sim_say_text d _
    | with_reducible exact sim_say d _ (Print_fmt_plain _ _ _ _)
    | with_reducible exact sim_say d _ (Print_extra_plain _ _ _)
    | with_reducible exact sim_Read8 d _
    | with_reducible exact sim_Read16 d _
    | ((with_reducible apply sim_say_one); rfl)
    | with_reducible apply sim_ite
    | with_reducible apply sim_ftell_bind
    | with_reducible apply sim_bind
    | with_reducible exact Print_version_plain
    | with_reducible exact Print_UTC_plain
    | with_reducible exact Print_filetime_plain
    | with_reducible exact Print_internal_file_attributes_plain
    | with_reducible exact Print_external_file_attributes_plain
    | with_reducible exact fun x => Print_general_purpose_bit_flag_plain _ x
    | with_reducible exact fun x => Print_date_and_time_plain _ x
    | (intro (x : Bool × Nat); obtain ⟨a, b⟩ := x; dsimp only)
    | (intro (x : Nat × List Nat); obtain ⟨a, b⟩ := x; dsimp only)
    | (intro x; try dsimp only)

theorem sim_Read64 (d : Nat) (v : Nat) :
    Sim d (Read64 v) (Read64 v) := by
  unfold Read64
  repeat' first
    | with_reducible exact sim_pure d _
    | with_reducible exact sim_getc d
    | with_reducible exact sim_feof d
    | with_reducible exact sim_fseek_nat d _
    | with_reducible exact sim_say_section d _ _ _ _
    | with_reducible exact sim_say_text d _
    | with_reducible exact sim_say d _ (Print_fmt_plain _ _ _ _)
    | with_reducible exact sim_say d _ (Print_extra_plain _ _ _)
    | with_reducible exact sim_Read8 d _
    | with_reducible exact sim_Read16 d _
    | with_reducible exact sim_Read32 d _
    | ((with_reducible apply sim_say_one); rfl)
    | with_reducible apply sim_ite
    | with_reducible apply sim_ftell_bind
    | with_reducible apply sim_bind
    | with_reducible exact Print_version_plain
    | with_reducible exact Print_UTC_plain
    | with_reducible exact Print_filetime_plain
    | with_reducible exact Print_internal_file_attributes_plain
    | with_reducible exact Print_external_file_attributes_plain
    | with_reducible exact fun x => Print_general_purpose_bit_flag_plain _ x
    | with_reducible exact fun x => Print_date_and_time_plain _ x
    | (intro (x : Bool × Nat); obtain ⟨a, b⟩ := x; dsimp only)
    | (intro (x : Nat × List Nat); obtain ⟨a, b⟩ := x; dsimp only)
    | (intro x; try dsimp only)

theorem sim_DUMP1 (d : Nat) (lb : String) (v : Nat) (f : Fmt) :
    Sim d (DUMP1 lb v f) (DUMP1 lb v f) := by
  unfold DUMP1
  repeat' first
    | with_reducible exact sim_pure d _
    | with_reducible exact sim_getc d
    | with_reducible exact sim_feof d
    | with_reducible exact sim_fseek_nat d _
    | with_reducible exact sim_say_section d _ _ _ _
    | with_reducible exact sim_say_text d _
    | with_reducible exact sim_say d _ (Print_fmt_plain _ _ _ _)
    | with_reducible exact sim_say d _ (Print_extra_plain _ _ _)
    | with_reducible exact sim_Read8 d _
    | with_reducible exact sim_Read16 d _
    | with_reducible exact sim_Read32 d _
    | with_reducible exact sim_Read64 d _
    | ((with_reducible apply sim_say_one); rfl)
    | with_reducible apply sim_ite
    | with_reducible apply sim_ftell_bind
    | with_reducible apply sim_bind
    | with_reducible exact Print_version_plain
    | with_reducible exact Print_UTC_plain
    | with_reducible exact Print_filetime_plain
    | with_reducible exact Print_internal_file_attributes_plain
    | with_reducible exact Print_external_file_attributes_plain
    | with_reducible exact fun x => Print_general_purpose_bit_flag_plain _ x
    | with_reducible exact fun x => Print_date_and_time_plain _ x
    | (intro (x : Bool × Nat); obtain ⟨a, b⟩ := x; dsimp only)
    | (intro (x : Nat × List Nat); obtain ⟨a, b⟩ := x; dsimp only)
    | (intro x; try dsimp only)

theorem sim_DUMP2 (d : Nat) (lb : String) (v : Nat) (f : Fmt) :
    Sim d (DUMP2 lb v f) (DUMP2 lb v f) := by
  unfold DUMP2
  repeat' first
    | with_reducible exact sim_pure d _
    | with_reducible exact sim_getc d
    | with_reducible exact sim_feof d
    | with_reducible exact sim_fseek_nat d _
    | with_reducible exact sim_say_section d _ _ _ _
    | with_reducible exact sim_say_text d _
    | with_reducible exact sim_say d _ (Print_fmt_plain _ _ _ _)
    | with_reducible exact sim_say d _ (Print_extra_plain _ _ _)
    | with_reducible exact sim_Read8 d _
    | with_reducible exact sim_Read16 d _
    | with_reducible exact sim_Read32 d _
    | with_reducible exact sim_Read64 d _
    | ((with_reducible apply sim_say_one); rfl)
    | with_reducible apply sim_ite
    | with_reducible apply sim_ftell_bind
    | with_reducible apply sim_bind
    | with_reducible exact Print_version_plain
    | with_reducible exact Print_UTC_plain
    | with_reducible exact Print_filetime_plain
    | with_reducible exact Print_internal_file_attributes_plain
    | with_reducible exact Print_external_file_attributes_plain
    | with_reducible exact fun x => Print_general_purpose_bit_flag_plain _ x
    | with_reducible exact fun x => Print_date_and_time_plain _ x
    | (intro (x : Bool × Nat); obtain ⟨a, b⟩ := x; dsimp only)
    | (intro (x : Nat × List Nat); obtain ⟨a, b⟩ := x; dsimp only)
    | (intro x; try dsimp only)

theorem sim_DUMP4 (d : Nat) (lb : String) (v : Nat) (f : Fmt) :
    Sim d (DUMP4 lb v f) (DUMP4 lb v f) := by
  unfold DUMP4
  repeat' first
    | with_reducible exact sim_pure d _
    | with_reducible exact sim_getc d
    | with_reducible exact sim_feof d
    | with_reducible exact sim_fseek_nat d _
    | with_reducible exact sim_say_section d _ _ _ _
    | with_reducible exact sim_say_text d _
    | with_reducible exact sim_say d _ (Print_fmt_plain _ _ _ _)
    | with_reducible exact sim_say d _ (Print_extra_plain _ _ _)
    | with_reducible exact sim_Read8 d _
    | with_reducible exact sim_Read16 d _
    | with_reducible exact sim_Read32 d _
    | with_reducible exact sim_Read64 d _
    | ((with_reducible apply sim_say_one); rfl)
    | with_reducible apply sim_ite
    | with_reducible apply sim_ftell_bind
    | with_reducible apply sim_bind
    | with_reducible exact Print_version_plain
    | with_reducible exact Print_UTC_plain
    | with_reducible exact Print_filetime_plain
    | with_reducible exact Print_internal_file_attributes_plain
    | with_reducible exact Print_external_file_attributes_plain
    | with_reducible exact fun x => Print_general_purpose_bit_flag_plain _ x
    | with_reducible exact fun x => Print_date_and_time_plain _ x
    | (intro (x : Bool × Nat); obtain ⟨a, b⟩ := x; dsimp only)
    | (intro (x : Nat × List Nat); obtain ⟨a, b⟩ := x; dsimp only)
    | (intro x; try dsimp only)

theorem sim_DUMP8 (d : Nat) (lb : String) (v : Nat) (f : Fmt) :
    Sim d (DUMP8 lb v f) (DUMP8 lb v f) := by
  unfold DUMP8
  repeat' first
    | with_reducible exact sim_pure d _
    | with_reducible exact sim_getc d
    | with_reducible exact sim_feof d
    | with_reducible exact sim_fseek_nat d _
    | with_reducible exact sim_say_section d _ _ _ _
    | with_reducible exact sim_say_text d _
    | with_reducible exact sim_say d _ (Print_fmt_plain _ _ _ _)
    | with_reducible exact sim_say d _ (Print_extra_plain _ _ _)
    | with_reducible exact sim_Read8 d _
    | with_reducible exact sim_Read16 d _
    | with_reducible exact sim_Read32 d _
    | with_reducible exact sim_Read64 d _
    | ((with_reducible apply sim_say_one); rfl)
    | with_reducible apply sim_ite
    | with_reducible apply sim_ftell_bind
    | with_reducible apply sim_bind
    | with_reducible exact Print_version_plain
    | with_reducible exact Print_UTC_plain
    | with_reducible exact Print_filetime_plain
    | with_reducible exact Print_internal_file_attributes_plain
    | with_reducible exact Print_external_file_attributes_plain
    | with_reducible exact fun x => Print_general_purpose_bit_flag_plain _ x
    | with_reducible exact fun x => Print_date_and_time_plain _ x
    | (intro (x : Bool × Nat); obtain ⟨a, b⟩ := x; dsimp only)
    | (intro (x : Nat × List Nat); obtain ⟨a, b⟩ := x; dsimp only)
    | (intro x; try dsimp only)

theorem sim_DUMP2x (d : Nat) (cfg : Config) (lb : String) (v : Nat) (f : Fmt)
    (dd : Nat → List Line) (hd : ∀ x, ∀ l ∈ dd x, l.plain = true) :
    Sim d (DUMP2x cfg lb v f dd) (DUMP2x cfg lb v f dd) := by
  unfold DUMP2x
  repeat' first
    | with_reducible exact sim_pure d _
    | with_reducible exact sim_getc d
    | with_reducible exact sim_feof d
    | with_reducible exact sim_fseek_nat d _
    | with_reducible exact sim_say_section d _ _ _ _
    | with_reducible exact sim_say_text d _
    | with_reducible exact sim_say d _ (Print_fmt_plain _ _ _ _)
    | with_reducible exact sim_say d _ (Print_extra_plain _ _ _)
    | with_reducible exact sim_Read8 d _
    | with_reducible exact sim_Read16 d _
    | with_reducible exact sim_Read32 d _
    | with_reducible exact sim_Read64 d _
    | with_reducible exact sim_say d _ (hd _)
    | ((with_reducible apply sim_say_one); rfl)
    | with_reducible apply sim_ite
    | with_reducible apply sim_ftell_bind
    | with_reducible apply sim_bind
    | with_reducible exact Print_version_plain
    | with_reducible exact Print_UTC_plain
    | with_reducible exact Print_filetime_plain
    | with_reducible exact Print_internal_file_attributes_plain
    | with_reducible exact Print_external_file_attributes_plain
    | with_reducible exact fun x => Print_general_purpose_bit_flag_plain _ x
    | with_reducible exact fun x => Print_date_and_time_plain _ x
    | (intro (x : Bool × Nat); obtain ⟨a, b⟩ := x; dsimp only)
    | (intro (x : Nat × List Nat); obtain ⟨a, b⟩ := x; dsimp only)
    | (intro x; try dsimp only)

theorem sim_DUMP4x (d : Nat) (cfg : Config) (lb : String) (v : Nat) (f : Fmt)
    (dd : Nat → List Line) (hd : ∀ x, ∀ l ∈ dd x, l.plain = true) :
    Sim d (DUMP4x cfg lb v f dd) (DUMP4x cfg lb v f dd) := by
  unfold DUMP4x
  repeat' first
    | with_reducible exact sim_pure d _
    | with_reducible exact sim_getc d
    | with_reducible exact sim_feof d
    | with_reducible exact sim_fseek_nat d _
    | with_reducible exact sim_say_section d _ _ _ _
    | with_reducible exact sim_say_text d _
    | with_reducible exact sim_say d _ (Print_fmt_plain _ _ _ _)
    | with_reducible exact sim_say d _ (Print_extra_plain _ _ _)
    | with_reducible exact sim_Read8 d _
    | with_reducible exact sim_Read16 d _
    | with_reducible exact sim_Read32 d _
    | with_reducible exact sim_Read64 d _
    | with_reducible exact sim_say d _ (hd _)
    | ((with_reducible apply sim_say_one); rfl)
    | with_reducible apply sim_ite
    | with_reducible apply sim_ftell_bind
    | with_reducible apply sim_bind
    | with_reducible exact Print_version_plain
    | with_reducible exact Print_UTC_plain
    | with_reducible exact Print_filetime_plain
    | with_reducible exact Print_internal_file_attributes_plain
    | with_reducible exact Print_external_file_attributes_plain
    | with_reducible exact fun x => Print_general_purpose_bit_flag_plain _ x
    | with_reducible exact fun x => Print_date_and_time_plain _ x
    | (intro (x : Bool × Nat); obtain ⟨a, b⟩ := x; dsimp only)
    | (intro (x : Nat × List Nat); obtain ⟨a, b⟩ := x; dsimp only)
    | (intro x; try dsimp only)

theorem sim_DUMP8x (d : Nat) (cfg : Config) (lb : String) (v : Nat) (f : Fmt)
    (dd : Nat → List Line) (hd : ∀ x, ∀ l ∈ dd x, l.plain = true) :
    Sim d (DUMP8x cfg lb v f dd) (DUMP8x cfg lb v f dd) := by
  unfold DUMP8x
  repeat' first
    | with_reducible exact sim_pure d _
    | with_reducible exact sim_getc d
    | with_reducible exact sim_feof d
    | with_reducible exact sim_fseek_nat d _
    | with_reducible exact sim_say_section d _ _ _ _
    | with_reducible exact sim_say_text d _
    | with_reducible exact sim_say d _ (Print_fmt_plain _ _ _ _)
    | with_reducible exact sim_say d _ (Print_extra_plain _ _ _)
    | with_reducible exact sim_Read8 d _
    | with_reducible exact sim_Read16 d _
    | with_reducible exact sim_Read32 d _
    | with_reducible exact sim_Read64 d _
    | with_reducible exact sim_say d _ (hd _)
    | ((with_reducible apply sim_say_one); rfl)
    | with_reducible apply sim_ite
    | with_reducible apply sim_ftell_bind
    | with_reducible apply sim_bind
    | with_reducible exact Print_version_plain
    | with_reducible exact Print_UTC_plain
    | with_reducible exact Print_filetime_plain
    | with_reducible exact Print_internal_file_attributes_plain
    | with_reducible exact Print_external_file_attributes_plain
    | with_reducible exact fun x => Print_general_purpose_bit_flag_plain _ x
    | with_reducible exact fun x => Print_date_and_time_plain _ x
    | (intro (x : Bool × Nat); obtain ⟨a, b⟩ := x; dsimp only)
    | (intro (x : Nat × List Nat); obtain ⟨a, b⟩ := x; dsimp only)
    | (intro x; try dsimp only)

theorem sim_Dump_string_loop (d : Nat) (n : Nat) :
    Sim d (Dump_string_loop n) (Dump_string_loop n) := by
  induction n with
  | zero => exact sim_pure d _
  | succ n ih =>
    unfold Dump_string_loop
    apply sim_bind d _ _ _ _ (sim_getc d)
    intro x
    cases x with
    | none => exact sim_pure d _
    | some c =>
      dsimp only
      apply sim_bind d _ _ _ _ ih
      intro _
      exact sim_pure d _

theorem sim_Dump_string (d : Nat) (n : Nat) :
    Sim d (Dump_string n) (Dump_string n) := by
  unfold Dump_string
  repeat' first
    | with_reducible exact sim_pure d _
    | with_reducible exact sim_getc d
    | with_reducible exact sim_feof d
    | with_reducible exact sim_fseek_nat d _
    | with_reducible exact sim_say_section d _ _ _ _
    | with_reducible exact sim_say_text d _
    | with_reducible exact sim_say d _ (Print_fmt_plain _ _ _ _)
    | with_reducible exact sim_say d _ (Print_extra_plain _ _ _)
    | with_reducible exact sim_Dump_string_loop d _
    | ((with_reducible apply sim_say_one); rfl)
    | with_reducible apply sim_ite
    | with_reducible apply sim_ftell_bind
    | with_reducible apply sim_bind
    | with_reducible exact Print_version_plain
    | with_reducible exact Print_UTC_plain
    | with_reducible exact Print_filetime_plain
    | with_reducible exact Print_internal_file_attributes_plain
    | with_reducible exact Print_external_file_attributes_plain
    | with_reducible exact fun x => Print_general_purpose_bit_flag_plain _ x
    | with_reducible exact fun x => Print_date_and_time_plain _ x
    | (intro (x : Bool × Nat); obtain ⟨a, b⟩ := x; dsimp only)
    | (intro (x : Nat × List Nat); obtain ⟨a, b⟩ := x; dsimp only)
    | (intro x; try dsimp only)

theorem sim_Dump_bytes_loop (d : Nat) (cfg : Config) (n : Nat) :
    ∀ offset om prev current, Sim d (Dump_bytes_loop cfg n offset om prev current)
      (Dump_bytes_loop cfg n offset om prev current) := by
  induction n with
  | zero => intro _ _ _ _; exact sim_pure d _
  | succ n ih =>
    intro offset om prev current
    unfold Dump_bytes_loop
    apply sim_bind d _ _ _ _ (sim_getc d)
    intro x
    cases x with
    | none => exact sim_pure d _
    | some c =>
      dsimp only
      repeat' first
        | with_reducible exact sim_pure d _
        | with_reducible exact sim_getc d
        | with_reducible exact sim_feof d
        | with_reducible exact sim_fseek_nat d _
        | with_reducible exact sim_say_section d _ _ _ _
        | with_reducible exact sim_say_text d _
        | with_reducible exact sim_say d _ (Print_fmt_plain _ _ _ _)
        | with_reducible exact sim_say d _ (Print_extra_plain _ _ _)
        | with_reducible exact ih _ _ _ _
        | ((with_reducible apply sim_say_one); rfl)
        | with_reducible apply sim_ite
        | with_reducible apply sim_ftell_bind
        | with_reducible apply sim_bind
        | with_reducible exact Print_version_plain
        | with_reducible exact Print_UTC_plain
        | with_reducible exact Print_filetime_plain
        | with_reducible exact Print_internal_file_attributes_plain
        | with_reducible exact Print_external_file_attributes_plain
        | with_reducible exact fun x => Print_general_purpose_bit_flag_plain _ x
        | with_reducible exact fun x => Print_date_and_time_plain _ x
        | (intro (x : Bool × Nat); obtain ⟨a, b⟩ := x; dsimp only)
        | (intro (x : Nat × List Nat); obtain ⟨a, b⟩ := x; dsimp only)
        | (intro x; try dsimp only)

theorem sim_Dump_bytes (d : Nat) (cfg : Config) (n : Nat) :
    Sim d (Dump_bytes cfg n) (Dump_bytes cfg n) := by
  unfold Dump_bytes
  repeat' first
    | with_reducible exact sim_pure d _
    | with_reducible exact sim_getc d
    | with_reducible exact sim_feof d
    | with_reducible exact sim_fseek_nat d _
    | with_reducible exact sim_say_section d _ _ _ _
    | with_reducible exact sim_say_text d _
    | with_reducible exact sim_say d _ (Print_fmt_plain _ _ _ _)
    | with_reducible exact sim_say d _ (Print_extra_plain _ _ _)
    | with_reducible exact sim_Dump_bytes_loop d _ _ _ _ _ _
    | ((with_reducible apply sim_say_one); rfl)
    | with_reducible apply sim_ite
    | with_reducible apply sim_ftell_bind
    | with_reducible apply sim_bind
    | with_reducible exact Print_version_plain
    | with_reducible exact Print_UTC_plain
    | with_reducible exact Print_filetime_plain
    | with_reducible exact Print_internal_file_attributes_plain
    | with_reducible exact Print_external_file_attributes_plain
    | with_reducible exact fun x => Print_general_purpose_bit_flag_plain _ x
    | with_reducible exact fun x => Print_date_and_time_plain _ x
    | (intro (x : Bool × Nat); obtain ⟨a, b⟩ := x; dsimp only)
    | (intro (x : Nat × List Nat); obtain ⟨a, b⟩ := x; dsimp only)
    | (intro x; try dsimp only)

theorem sim_SkipUnknownData (d : Nat) (cfg : Config) (n : Nat) :
    Sim d (SkipUnknownData cfg n) (SkipUnknownData cfg n) := by
  unfold SkipUnknownData
  repeat' first
    | with_reducible exact sim_pure d _
    | with_reducible exact sim_getc d
    | with_reducible exact sim_feof d
    | with_reducible exact sim_fseek_nat d _
    | with_reducible exact sim_say_section d _ _ _ _
    | with_reducible exact sim_say_text d _
    | with_reducible exact sim_say d _ (Print_fmt_plain _ _ _ _)
    | with_reducible exact sim_say d _ (Print_extra_plain _ _ _)
    | with_reducible exact sim_Dump_bytes d _ _
    | ((with_reducible apply sim_say_one); rfl)
    | with_reducible apply sim_ite
    | with_reducible apply sim_ftell_bind
    | with_reducible apply sim_bind
    | with_reducible exact Print_version_plain
    | with_reducible exact Print_UTC_plain
    | with_reducible exact Print_filetime_plain
    | with_reducible exact Print_internal_file_attributes_plain
    | with_reducible exact Print_external_file_attributes_plain
    | with_reducible exact fun x => Print_general_purpose_bit_flag_plain _ x
    | with_reducible exact fun x => Print_date_and_time_plain _ x
    | (intro (x : Bool × Nat); obtain ⟨a, b⟩ := x; dsimp only)
    | (intro (x : Nat × List Nat); obtain ⟨a, b⟩ := x; dsimp only)
    | (intro x; try dsimp only)

theorem sim_Dump_if_fulldump (d : Nat) (cfg : Config) (cap : String) (n : Nat) :
    Sim d (Dump_if_fulldump cfg cap n) (Dump_if_fulldump cfg cap n) := by
  unfold Dump_if_fulldump
  repeat' first
    | with_reducible exact sim_pure d _
    | with_reducible exact sim_getc d
    | with_reducible exact sim_feof d
    | with_reducible exact sim_fseek_nat d _
    | with_reducible exact sim_say_section d _ _ _ _
    | with_reducible exact sim_say_text d _
    | with_reducible exact sim_say d _ (Print_fmt_plain _ _ _ _)
    | with_reducible exact sim_say d _ (Print_extra_plain _ _ _)
    | with_reducible exact sim_Dump_bytes d _ _
    | ((with_reducible apply sim_say_one); rfl)
    | with_reducible apply sim_ite
    | with_reducible apply sim_ftell_bind
    | with_reducible apply sim_bind
    | with_reducible exact Print_version_plain
    | with_reducible exact Print_UTC_plain
    | with_reducible exact Print_filetime_plain
    | with_reducible exact Print_internal_file_attributes_plain
    | with_reducible exact Print_external_file_attributes_plain
    | with_reducible exact fun x => Print_general_purpose_bit_flag_plain _ x
    | with_reducible exact fun x => Print_date_and_time_plain _ x
    | (intro (x : Bool × Nat); obtain ⟨a, b⟩ := x; dsimp only)
    | (intro (x : Nat × List Nat); obtain ⟨a, b⟩ := x; dsimp only)
    | (intro x; try dsimp only)

theorem sim_Dump_extra_Zip64_Extended_Info (d : Nat) (cfg : Config) (n : Nat) :
    Sim d (Dump_extra_Zip64_Extended_Info cfg n) (Dump_extra_Zip64_Extended_Info cfg n) := by
  unfold Dump_extra_Zip64_Extended_Info
  repeat' first
    | with_reducible exact sim_pure d _
    | with_reducible exact sim_getc d
    | with_reducible exact sim_feof d
    | with_reducible exact sim_fseek_nat d _
    | with_reducible exact sim_say_section d _ _ _ _
    | with_reducible exact sim_say_text d _
    | with_reducible exact sim_say d _ (Print_fmt_plain _ _ _ _)
    | with_reducible exact sim_say d _ (Print_extra_plain _ _ _)
    | with_reducible exact sim_Read8 d _
    | with_reducible exact sim_Read16 d _
    | with_reducible exact sim_Read32 d _
    | with_reducible exact sim_Read64 d _
    | with_reducible exact sim_DUMP1 d _ _ _
    | with_reducible exact sim_DUMP2 d _ _ _
    | with_reducible exact sim_DUMP4 d _ _ _
    | with_reducible exact sim_DUMP8 d _ _ _
    | with_reducible apply sim_DUMP2x d
    | with_reducible apply sim_DUMP4x d
    | with_reducible apply sim_DUMP8x d
    | with_reducible exact sim_Dump_string d _
    | with_reducible exact sim_Dump_bytes d _ _
    | with_reducible exact sim_SkipUnknownData d _ _
    | with_reducible exact sim_Dump_if_fulldump d _ _ _
    | ((with_reducible apply sim_say_one); rfl)
    | with_reducible apply sim_ite
    | with_reducible apply sim_ftell_bind
    | with_reducible apply sim_bind
    | with_reducible exact Print_version_plain
    | with_reducible exact Print_UTC_plain
    | with_reducible exact Print_filetime_plain
    | with_reducible exact Print_internal_file_attributes_plain
    | with_reducible exact Print_external_file_attributes_plain
    | with_reducible exact fun x => Print_general_purpose_bit_flag_plain _ x
    | with_reducible exact fun x => Print_date_and_time_plain _ x
    | (intro (x : Bool × Nat); obtain ⟨a, b⟩ := x; dsimp only)
    | (intro (x : Nat × List Nat); obtain ⟨a, b⟩ := x; dsimp only)
    | (intro x; try dsimp only)

theorem sim_Dump_extra_OS2_Extended_Attributes (d : Nat) (cfg : Config) (n : Nat) :
    Sim d (Dump_extra_OS2_Extended_Attributes cfg n) (Dump_extra_OS2_Extended_Attributes cfg n) := by
  unfold Dump_extra_OS2_Extended_Attributes
  repeat' first
    | with_reducible exact sim_pure d _
    | with_reducible exact sim_getc d
    | with_reducible exact sim_feof d
    | with_reducible exact sim_fseek_nat d _
    | with_reducible exact sim_say_section d _ _ _ _
    | with_reducible exact sim_say_text d _
    | with_reducible exact sim_say d _ (Print_fmt_plain _ _ _ _)
    | with_reducible exact sim_say d _ (Print_extra_plain _ _ _)
    | with_reducible exact sim_Read8 d _
    | with_reducible exact sim_Read16 d _
    | with_reducible exact sim_Read32 d _
    | with_reducible exact sim_Read64 d _
    | with_reducible exact sim_DUMP1 d _ _ _
    | with_reducible exact sim_DUMP2 d _ _ _
    | with_reducible exact sim_DUMP4 d _ _ _
    | with_reducible exact sim_DUMP8 d _ _ _
    | with_reducible apply sim_DUMP2x d
    | with_reducible apply sim_DUMP4x d
    | with_reducible apply sim_DUMP8x d
    | with_reducible exact sim_Dump_string d _
    | with_reducible exact sim_Dump_bytes d _ _
    | with_reducible exact sim_SkipUnknownData d _ _
    | with_reducible exact sim_Dump_if_fulldump d _ _ _
    | ((with_reducible apply sim_say_one); rfl)
    | with_reducible apply sim_ite
    | with_reducible apply sim_ftell_bind
    | with_reducible apply sim_bind
    | with_reducible exact Print_version_plain
    | with_reducible exact Print_UTC_plain
    | with_reducible exact Print_filetime_plain
    | with_reducible exact Print_internal_file_attributes_plain
    | with_reducible exact Print_external_file_attributes_plain
    | with_reducible exact fun x => Print_general_purpose_bit_flag_plain _ x
    | with_reducible exact fun x => Print_date_and_time_plain _ x
    | (intro (x : Bool × Nat); obtain ⟨a, b⟩ := x; dsimp only)
    | (intro (x : Nat × List Nat); obtain ⟨a, b⟩ := x; dsimp only)
    | (intro x; try dsimp only)

theorem sim_Dump_extra_WindowsNT_SD (d : Nat) (cfg : Config) (n : Nat) :
    Sim d (Dump_extra_WindowsNT_SD cfg n) (Dump_extra_WindowsNT_SD cfg n) := by
  unfold Dump_extra_WindowsNT_SD
  repeat' first
    | with_reducible exact sim_pure d _
    | with_reducible exact sim_getc d
    | with_reducible exact sim_feof d
    | with_reducible exact sim_fseek_nat d _
    | with_reducible exact sim_say_section d _ _ _ _
    | with_reducible exact sim_say_text d _
    | with_reducible exact sim_say d _ (Print_fmt_plain _ _ _ _)
    | with_reducible exact sim_say d _ (Print_extra_plain _ _ _)
    | with_reducible exact sim_Read8 d _
    | with_reducible exact sim_Read16 d _
    | with_reducible exact sim_Read32 d _
    | with_reducible exact sim_Read64 d _
    | with_reducible exact sim_DUMP1 d _ _ _
    | with_reducible exact sim_DUMP2 d _ _ _
    | with_reducible exact sim_DUMP4 d _ _ _
    | with_reducible exact sim_DUMP8 d _ _ _
    | with_reducible apply sim_DUMP2x d
    | with_reducible apply sim_DUMP4x d
    | with_reducible apply sim_DUMP8x d
    | with_reducible exact sim_Dump_string d _
    | with_reducible exact sim_Dump_bytes d _ _
    | with_reducible exact sim_SkipUnknownData d _ _
    | with_reducible exact sim_Dump_if_fulldump d _ _ _
    | ((with_reducible apply sim_say_one); rfl)
    | with_reducible apply sim_ite
    | with_reducible apply sim_ftell_bind
    | with_reducible apply sim_bind
    | with_reducible exact Print_version_plain
    | with_reducible exact Print_UTC_plain
    | with_reducible exact Print_filetime_plain
    | with_reducible exact Print_internal_file_attributes_plain
    | with_reducible exact Print_external_file_attributes_plain
    | with_reducible exact fun x => Print_general_purpose_bit_flag_plain _ x
    | with_reducible exact fun x => Print_date_and_time_plain _ x
    | (intro (x : Bool × Nat); obtain ⟨a, b⟩ := x; dsimp only)
    | (intro (x : Nat × List Nat); obtain ⟨a, b⟩ := x; dsimp only)
    | (intro x; try dsimp only)

theorem sim_Dump_extra_ExtendedTimestamp (d : Nat) (cfg : Config) (n : Nat) :
    Sim d (Dump_extra_ExtendedTimestamp cfg n) (Dump_extra_ExtendedTimestamp cfg n) := by
  unfold Dump_extra_ExtendedTimestamp
  repeat' first
    | with_reducible exact sim_pure d _
    | with_reducible exact sim_getc d
    | with_reducible exact sim_feof d
    | with_reducible exact sim_fseek_nat d _
    | with_reducible exact sim_say_section d _ _ _ _
    | with_reducible exact sim_say_text d _
    | with_reducible exact sim_say d _ (Print_fmt_plain _ _ _ _)
    | with_reducible exact sim_say d _ (Print_extra_plain _ _ _)
    | with_reducible exact sim_Read8 d _
    | with_reducible exact sim_Read16 d _
    | with_reducible exact sim_Read32 d _
    | with_reducible exact sim_Read64 d _
    | with_reducible exact sim_DUMP1 d _ _ _
    | with_reducible exact sim_DUMP2 d _ _ _
    | with_reducible exact sim_DUMP4 d _ _ _
    | with_reducible exact sim_DUMP8 d _ _ _
    | with_reducible apply sim_DUMP2x d
    | with_reducible apply sim_DUMP4x d
    | with_reducible apply sim_DUMP8x d
    | with_reducible exact sim_Dump_string d _
    | with_reducible exact sim_Dump_bytes d _ _
    | with_reducible exact sim_SkipUnknownData d _ _
    | with_reducible exact sim_Dump_if_fulldump d _ _ _
    | ((with_reducible apply sim_say_one); rfl)
    | with_reducible apply sim_ite
    | with_reducible apply sim_ftell_bind
    | with_reducible apply sim_bind
    | with_reducible exact Print_version_plain
    | with_reducible exact Print_UTC_plain
    | with_reducible exact Print_filetime_plain
    | with_reducible exact Print_internal_file_attributes_plain
    | with_reducible exact Print_external_file_attributes_plain
    | with_reducible exact fun x => Print_general_purpose_bit_flag_plain _ x
    | with_reducible exact fun x => Print_date_and_time_plain _ x
    | (intro (x : Bool × Nat); obtain ⟨a, b⟩ := x; dsimp only)
    | (intro (x : Nat × List Nat); obtain ⟨a, b⟩ := x; dsimp only)
    | (intro x; try dsimp only)

theorem sim_Dump_extra_UnicodeComment (d : Nat) (cfg : Config) (n : Nat) :
    Sim d (Dump_extra_UnicodeComment cfg n) (Dump_extra_UnicodeComment cfg n) := by
  unfold Dump_extra_UnicodeComment
  repeat' first
    | with_reducible exact sim_pure d _
    | with_reducible exact sim_getc d
    | with_reducible exact sim_feof d
    | with_reducible exact sim_fseek_nat d _
    | with_reducible exact sim_say_section d _ _ _ _
    | with_reducible exact sim_say_text d _
    | with_reducible exact sim_say d _ (Print_fmt_plain _ _ _ _)
    | with_reducible exact sim_say d _ (Print_extra_plain _ _ _)
    | with_reducible exact sim_Read8 d _
    | with_reducible exact sim_Read16 d _
    | with_reducible exact sim_Read32 d _
    | with_reducible exact sim_Read64 d _
    | with_reducible exact sim_DUMP1 d _ _ _
    | with_reducible exact sim_DUMP2 d _ _ _
    | with_reducible exact sim_DUMP4 d _ _ _
    | with_reducible exact sim_DUMP8 d _ _ _
    | with_reducible apply sim_DUMP2x d
    | with_reducible apply sim_DUMP4x d
    | with_reducible apply sim_DUMP8x d
    | with_reducible exact sim_Dump_string d _
    | with_reducible exact sim_Dump_bytes d _ _
    | with_reducible exact sim_SkipUnknownData d _ _
    | with_reducible exact sim_Dump_if_fulldump d _ _ _
    | ((with_reducible apply sim_say_one); rfl)
    | with_reducible apply sim_ite
    | with_reducible apply sim_ftell_bind
    | with_reducible apply sim_bind
    | with_reducible exact Print_version_plain
    | with_reducible exact Print_UTC_plain
    | with_reducible exact Print_filetime_plain
    | with_reducible exact Print_internal_file_attributes_plain
    | with_reducible exact Print_external_file_attributes_plain
    | with_reducible exact fun x => Print_general_purpose_bit_flag_plain _ x
    | with_reducible exact fun x => Print_date_and_time_plain _ x
    | (intro (x : Bool × Nat); obtain ⟨a, b⟩ := x; dsimp only)
    | (intro (x : Nat × List Nat); obtain ⟨a, b⟩ := x; dsimp only)
    | (intro x; try dsimp only)

theorem sim_Dump_extra_UnicodePath (d : Nat) (cfg : Config) (n : Nat) :
    Sim d (Dump_extra_UnicodePath cfg n) (Dump_extra_UnicodePath cfg n) := by
  unfold Dump_extra_UnicodePath
  repeat' first
    | with_reducible exact sim_pure d _
    | with_reducible exact sim_getc d
    | with_reducible exact sim_feof d
    | with_reducible exact sim_fseek_nat d _
    | with_reducible exact sim_say_section d _ _ _ _
    | with_reducible exact sim_say_text d _
    | with_reducible exact sim_say d _ (Print_fmt_plain _ _ _ _)
    | with_reducible exact sim_say d _ (Print_extra_plain _ _ _)
    | with_reducible exact sim_Read8 d _
    | with_reducible exact sim_Read16 d _
    | with_reducible exact sim_Read32 d _
    | with_reducible exact sim_Read64 d _
    | with_reducible exact sim_DUMP1 d _ _ _
    | with_reducible exact sim_DUMP2 d _ _ _
    | with_reducible exact sim_DUMP4 d _ _ _
    | with_reducible exact sim_DUMP8 d _ _ _
    | with_reducible apply sim_DUMP2x d
    | with_reducible apply sim_DUMP4x d
    | with_reducible apply sim_DUMP8x d
    | with_reducible exact sim_Dump_string d _
    | with_reducible exact sim_Dump_bytes d _ _
    | with_reducible exact sim_SkipUnknownData d _ _
    | with_reducible exact sim_Dump_if_fulldump d _ _ _
    | ((with_reducible apply sim_say_one); rfl)
    | with_reducible apply sim_ite
    | with_reducible apply sim_ftell_bind
    | with_reducible apply sim_bind
    | with_reducible exact Print_version_plain
    | with_reducible exact Print_UTC_plain
    | with_reducible exact Print_filetime_plain
    | with_reducible exact Print_internal_file_attributes_plain
    | with_reducible exact Print_external_file_attributes_plain
    | with_reducible exact fun x => Print_general_purpose_bit_flag_plain _ x
    | with_reducible exact fun x => Print_date_and_time_plain _ x
    | (intro (x : Bool × Nat); obtain ⟨a, b⟩ := x; dsimp only)
    | (intro (x : Nat × List Nat); obtain ⟨a, b⟩ := x; dsimp only)
    | (intro x; try dsimp only)

theorem sim_Dump_extra_NTFS_loop (d : Nat) (cfg : Config) (fuel : Nat) :
    ∀ eo, Sim d (Dump_extra_NTFS_loop cfg fuel eo) (Dump_extra_NTFS_loop cfg fuel eo) := by
  induction fuel with
  | zero => intro eo; exact sim_pure d _
  | succ n ih =>
    intro eo
    unfold Dump_extra_NTFS_loop
    repeat' first
      | with_reducible exact sim_pure d _
      | with_reducible exact sim_getc d
      | with_reducible exact sim_feof d
      | with_reducible exact sim_fseek_nat d _
      | with_reducible exact sim_say_section d _ _ _ _
      | with_reducible exact sim_say_text d _
      | with_reducible exact sim_say d _ (Print_fmt_plain _ _ _ _)
      | with_reducible exact sim_say d _ (Print_extra_plain _ _ _)
      | with_reducible exact ih _
      | with_reducible exact sim_Read8 d _
      | with_reducible exact sim_Read16 d _
      | with_reducible exact sim_Read32 d _
      | with_reducible exact sim_Read64 d _
      | with_reducible exact sim_DUMP1 d _ _ _
      | with_reducible exact sim_DUMP2 d _ _ _
      | with_reducible exact sim_DUMP4 d _ _ _
      | with_reducible exact sim_DUMP8 d _ _ _
      | with_reducible apply sim_DUMP2x d
      | with_reducible apply sim_DUMP4x d
      | with_reducible apply sim_DUMP8x d
      | with_reducible exact sim_Dump_string d _
      | with_reducible exact sim_Dump_bytes d _ _
      | with_reducible exact sim_SkipUnknownData d _ _
      | with_reducible exact sim_Dump_if_fulldump d _ _ _
      | ((with_reducible apply sim_say_one); rfl)
      | with_reducible apply sim_ite
      | with_reducible apply sim_ftell_bind
      | with_reducible apply sim_bind
      | with_reducible exact Print_version_plain
      | with_reducible exact Print_UTC_plain
      | with_reducible exact Print_filetime_plain
      | with_reducible exact Print_internal_file_attributes_plain
      | with_reducible exact Print_external_file_attributes_plain
      | with_reducible exact fun x => Print_general_purpose_bit_flag_plain _ x
      | with_reducible exact fun x => Print_date_and_time_plain _ x
      | (intro (x : Bool × Nat); obtain ⟨a, b⟩ := x; dsimp only)
      | (intro (x : Nat × List Nat); obtain ⟨a, b⟩ := x; dsimp only)
      | (intro x; try dsimp only)

theorem sim_Dump_extra_NTFS (d : Nat) (cfg : Config) (n : Nat) :
    Sim d (Dump_extra_NTFS cfg n) (Dump_extra_NTFS cfg n) := by
  unfold Dump_extra_NTFS
  apply sim_bind d _ _ _ _ (sim_DUMP4 d _ _ _)
  intro _
  apply sim_bind
  · exact sim_fuel d (fun k => Dump_extra_NTFS_loop cfg k 4)
      (fun k => sim_Dump_extra_NTFS_loop d cfg k 4)
  · intro eo
    apply sim_ite
    · exact sim_SkipUnknownData d _ _
    · exact sim_pure d _

theorem sim_Dump_extra_chunk (d : Nat) (cfg : Config) (id size : Nat) :
    Sim d (Dump_extra_chunk cfg id size) (Dump_extra_chunk cfg id size) := by
  unfold Dump_extra_chunk
  repeat' first
    | with_reducible exact sim_pure d _
    | with_reducible exact sim_getc d
    | with_reducible exact sim_feof d
    | with_reducible exact sim_fseek_nat d _
    | with_reducible exact sim_say_section d _ _ _ _
    | with_reducible exact sim_say_text d _
    | with_reducible exact sim_say d _ (Print_fmt_plain _ _ _ _)
    | with_reducible exact sim_say d _ (Print_extra_plain _ _ _)
    | with_reducible exact sim_Dump_extra_Zip64_Extended_Info d _ _
    | with_reducible exact sim_Dump_extra_OS2_Extended_Attributes d _ _
    | with_reducible exact sim_Dump_extra_NTFS d _ _
    | with_reducible exact sim_Dump_extra_WindowsNT_SD d _ _
    | with_reducible exact sim_Dump_extra_ExtendedTimestamp d _ _
    | with_reducible exact sim_Dump_extra_UnicodeComment d _ _
    | with_reducible exact sim_Dump_extra_UnicodePath d _ _
    | with_reducible exact sim_Dump_string d _
    | with_reducible exact sim_Dump_bytes d _ _
    | with_reducible exact sim_SkipUnknownData d _ _
    | with_reducible exact sim_Dump_if_fulldump d _ _ _
    | ((with_reducible apply sim_say_one); rfl)
    | with_reducible apply sim_ite
    | with_reducible apply sim_ftell_bind
    | with_reducible apply sim_bind
    | with_reducible exact Print_version_plain
    | with_reducible exact Print_UTC_plain
    | with_reducible exact Print_filetime_plain
    | with_reducible exact Print_internal_file_attributes_plain
    | with_reducible exact Print_external_file_attributes_plain
    | with_reducible exact fun x => Print_general_purpose_bit_flag_plain _ x
    | with_reducible exact fun x => Print_date_and_time_plain _ x
    | (intro (x : Bool × Nat); obtain ⟨a, b⟩ := x; dsimp only)
    | (intro (x : Nat × List Nat); obtain ⟨a, b⟩ := x; dsimp only)
    | (intro x; try dsimp only)

theorem sim_Dump_extra_field_loop (d : Nat) (cfg : Config) (length fuel : Nat) :
    ∀ off, Sim d (Dump_extra_field_loop cfg length fuel off)
      (Dump_extra_field_loop cfg length fuel off) := by
  induction fuel with
  | zero => intro off; exact sim_pure d _
  | succ n ih =>
    intro off
    unfold Dump_extra_field_loop
    repeat' first
      | with_reducible exact sim_pure d _
      | with_reducible exact sim_getc d
      | with_reducible exact sim_feof d
      | with_reducible exact sim_fseek_nat d _
      | with_reducible exact sim_say_section d _ _ _ _
      | with_reducible exact sim_say_text d _
      | with_reducible exact sim_say d _ (Print_fmt_plain _ _ _ _)
      | with_reducible exact sim_say d _ (Print_extra_plain _ _ _)
      | with_reducible exact ih _
      | with_reducible exact sim_Dump_extra_chunk d _ _ _
      | with_reducible exact sim_Read8 d _
      | with_reducible exact sim_Read16 d _
      | with_reducible exact sim_Read32 d _
      | with_reducible exact sim_Read64 d _
      | ((with_reducible apply sim_say_one); rfl)
      | with_reducible apply sim_ite
      | with_reducible apply sim_ftell_bind
      | with_reducible apply sim_bind
      | with_reducible exact Print_version_plain
      | with_reducible exact Print_UTC_plain
      | with_reducible exact Print_filetime_plain
      | with_reducible exact Print_internal_file_attributes_plain
      | with_reducible exact Print_external_file_attributes_plain
      | with_reducible exact fun x => Print_general_purpose_bit_flag_plain _ x
      | with_reducible exact fun x => Print_date_and_time_plain _ x
      | (intro (x : Bool × Nat); obtain ⟨a, b⟩ := x; dsimp only)
      | (intro (x : Nat × List Nat); obtain ⟨a, b⟩ := x; dsimp only)
      | (intro x; try dsimp only)

theorem sim_Dump_extra_field (d : Nat) (cfg : Config) (length : Nat) :
    Sim d (Dump_extra_field cfg length) (Dump_extra_field cfg length) :=
  sim_fuel d (fun k => Dump_extra_field_loop cfg length k 0)
    (fun k => sim_Dump_extra_field_loop d cfg length k 0)

theorem sim_Dump_Data_descriptor (d : Nat) :
    Sim d (Dump_Data_descriptor) (Dump_Data_descriptor) := by
  unfold Dump_Data_descriptor
  repeat' first
    | with_reducible exact sim_pure d _
    | with_reducible exact sim_getc d
    | with_reducible exact sim_feof d
    | with_reducible exact sim_fseek_nat d _
    | with_reducible exact sim_say_section d _ _ _ _
    | with_reducible exact sim_say_text d _
    | with_reducible exact sim_say d _ (Print_fmt_plain _ _ _ _)
    | with_reducible exact sim_say d _ (Print_extra_plain _ _ _)
    | with_reducible exact sim_Read8 d _
    | with_reducible exact sim_Read16 d _
    | with_reducible exact sim_Read32 d _
    | with_reducible exact sim_Read64 d _
    | with_reducible exact sim_DUMP1 d _ _ _
    | with_reducible exact sim_DUMP2 d _ _ _
    | with_reducible exact sim_DUMP4 d _ _ _
    | with_reducible exact sim_DUMP8 d _ _ _
    | with_reducible apply sim_DUMP2x d
    | with_reducible apply sim_DUMP4x d
    | with_reducible apply sim_DUMP8x d
    | with_reducible exact sim_Dump_string d _
    | with_reducible exact sim_Dump_bytes d _ _
    | with_reducible exact sim_SkipUnknownData d _ _
    | with_reducible exact sim_Dump_if_fulldump d _ _ _
    | with_reducible exact sim_Dump_extra_field d _ _
    | ((with_reducible apply sim_say_one); rfl)
    | with_reducible apply sim_ite
    | with_reducible apply sim_ftell_bind
    | with_reducible apply sim_bind
    | with_reducible exact Print_version_plain
    | with_reducible exact Print_UTC_plain
    | with_reducible exact Print_filetime_plain
    | with_reducible exact Print_internal_file_attributes_plain
    | with_reducible exact Print_external_file_attributes_plain
    | with_reducible exact fun x => Print_general_purpose_bit_flag_plain _ x
    | with_reducible exact fun x => Print_date_and_time_plain _ x
    | (intro (x : Bool × Nat); obtain ⟨a, b⟩ := x; dsimp only)
    | (intro (x : Nat × List Nat); obtain ⟨a, b⟩ := x; dsimp only)
    | (intro x; try dsimp only)

theorem sim_Dump_Local_file_tails (d : Nat) (cfg : Config) (n : Int) (a b : Nat) :
    Sim d (Dump_Local_file_tails cfg n a b) (Dump_Local_file_tails cfg n a b) := by
  unfold Dump_Local_file_tails
  repeat' first
    | with_reducible exact sim_pure d _
    | with_reducible exact sim_getc d
    | with_reducible exact sim_feof d
    | with_reducible exact sim_fseek_nat d _
    | with_reducible exact sim_say_section d _ _ _ _
    | with_reducible exact sim_say_text d _
    | with_reducible exact sim_say d _ (Print_fmt_plain _ _ _ _)
    | with_reducible exact sim_say d _ (Print_extra_plain _ _ _)
    | with_reducible exact sim_Read8 d _
    | with_reducible exact sim_Read16 d _
    | with_reducible exact sim_Read32 d _
    | with_reducible exact sim_Read64 d _
    | with_reducible exact sim_DUMP1 d _ _ _
    | with_reducible exact sim_DUMP2 d _ _ _
    | with_reducible exact sim_DUMP4 d _ _ _
    | with_reducible exact sim_DUMP8 d _ _ _
    | with_reducible apply sim_DUMP2x d
    | with_reducible apply sim_DUMP4x d
    | with_reducible apply sim_DUMP8x d
    | with_reducible exact sim_Dump_string d _
    | with_reducible exact sim_Dump_bytes d _ _
    | with_reducible exact sim_SkipUnknownData d _ _
    | with_reducible exact sim_Dump_if_fulldump d _ _ _
    | with_reducible exact sim_Dump_extra_field d _ _
    | with_reducible exact sim_Dump_Data_descriptor d
    | ((with_reducible apply sim_say_one); rfl)
    | with_reducible apply sim_ite
    | with_reducible apply sim_ftell_bind
    | with_reducible apply sim_bind
    | with_reducible exact Print_version_plain
    | with_reducible exact Print_UTC_plain
    | with_reducible exact Print_filetime_plain
    | with_reducible exact Print_internal_file_attributes_plain
    | with_reducible exact Print_external_file_attributes_plain
    | with_reducible exact fun x => Print_general_purpose_bit_flag_plain _ x
    | with_reducible exact fun x => Print_date_and_time_plain _ x
    | (intro (x : Bool × Nat); obtain ⟨a, b⟩ := x; dsimp only)
    | (intro (x : Nat × List Nat); obtain ⟨a, b⟩ := x; dsimp only)
    | (intro x; try dsimp only)

theorem sim_Dump_Local_file_data (d : Nat) (cfg : Config) (n : Int) (a b : Nat) :
    Sim d (Dump_Local_file_data cfg n a b) (Dump_Local_file_data cfg n a b) := by
  unfold Dump_Local_file_data
  repeat' first
    | with_reducible exact sim_pure d _
    | with_reducible exact sim_getc d
    | with_reducible exact sim_feof d
    | with_reducible exact sim_fseek_nat d _
    | with_reducible exact sim_say_section d _ _ _ _
    | with_reducible exact sim_say_text d _
    | with_reducible exact sim_say d _ (Print_fmt_plain _ _ _ _)
    | with_reducible exact sim_say d _ (Print_extra_plain _ _ _)
    | with_reducible exact sim_Read8 d _
    | with_reducible exact sim_Read16 d _
    | with_reducible exact sim_Read32 d _
    | with_reducible exact sim_Read64 d _
    | with_reducible exact sim_DUMP1 d _ _ _
    | with_reducible exact sim_DUMP2 d _ _ _
    | with_reducible exact sim_DUMP4 d _ _ _
    | with_reducible exact sim_DUMP8 d _ _ _
    | with_reducible apply sim_DUMP2x d
    | with_reducible apply sim_DUMP4x d
    | with_reducible apply sim_DUMP8x d
    | with_reducible exact sim_Dump_string d _
    | with_reducible exact sim_Dump_bytes d _ _
    | with_reducible exact sim_SkipUnknownData d _ _
    | with_reducible exact sim_Dump_if_fulldump d _ _ _
    | with_reducible exact sim_Dump_extra_field d _ _
    | with_reducible exact sim_Dump_Data_descriptor d
    | ((with_reducible apply sim_say_one); rfl)
    | with_reducible apply sim_ite
    | with_reducible apply sim_ftell_bind
    | with_reducible apply sim_bind
    | with_reducible exact Print_version_plain
    | with_reducible exact Print_UTC_plain
    | with_reducible exact Print_filetime_plain
    | with_reducible exact Print_internal_file_attributes_plain
    | with_reducible exact Print_external_file_attributes_plain
    | with_reducible exact fun x => Print_general_purpose_bit_flag_plain _ x
    | with_reducible exact fun x => Print_date_and_time_plain _ x
    | (intro (x : Bool × Nat); obtain ⟨a, b⟩ := x; dsimp only)
    | (intro (x : Nat × List Nat); obtain ⟨a, b⟩ := x; dsimp only)
    | (intro x; try dsimp only)

theorem sim_Dump_Local_file (d : Nat) (cfg : Config) (n : Int) :
    Sim d (Dump_Local_file cfg n) (Dump_Local_file cfg n) := by
  unfold Dump_Local_file
  repeat' first
    | with_reducible exact sim_pure d _
    | with_reducible exact sim_getc d
    | with_reducible exact sim_feof d
    | with_reducible exact sim_fseek_nat d _
    | with_reducible exact sim_say_section d _ _ _ _
    | with_reducible exact sim_say_text d _
    | with_reducible exact sim_say d _ (Print_fmt_plain _ _ _ _)
    | with_reducible exact sim_say d _ (Print_extra_plain _ _ _)
    | with_reducible exact sim_Read8 d _
    | with_reducible exact sim_Read16 d _
    | with_reducible exact sim_Read32 d _
    | with_reducible exact sim_Read64 d _
    | with_reducible exact sim_DUMP1 d _ _ _
    | with_reducible exact sim_DUMP2 d _ _ _
    | with_reducible exact sim_DUMP4 d _ _ _
    | with_reducible exact sim_DUMP8 d _ _ _
    | with_reducible apply sim_DUMP2x d
    | with_reducible apply sim_DUMP4x d
    | with_reducible apply sim_DUMP8x d
    | with_reducible exact sim_Dump_string d _
    | with_reducible exact sim_Dump_bytes d _ _
    | with_reducible exact sim_SkipUnknownData d _ _
    | with_reducible exact sim_Dump_if_fulldump d _ _ _
    | with_reducible exact sim_Dump_extra_field d _ _
    | with_reducible exact sim_Dump_Data_descriptor d
    | with_reducible exact sim_Dump_Local_file_tails d _ _ _ _
    | with_reducible exact sim_Dump_Local_file_data d _ _ _ _
    | ((with_reducible apply sim_say_one); rfl)
    | with_reducible apply sim_ite
    | with_reducible apply sim_ftell_bind
    | with_reducible apply sim_bind
    | with_reducible exact Print_version_plain
    | with_reducible exact Print_UTC_plain
    | with_reducible exact Print_filetime_plain
    | with_reducible exact Print_internal_file_attributes_plain
    | with_reducible exact Print_external_file_attributes_plain
    | with_reducible exact fun x => Print_general_purpose_bit_flag_plain _ x
    | with_reducible exact fun x => Print_date_and_time_plain _ x
    | (intro (x : Bool × Nat); obtain ⟨a, b⟩ := x; dsimp only)
    | (intro (x : Nat × List Nat); obtain ⟨a, b⟩ := x; dsimp only)
    | (intro x; try dsimp only)

theorem sim_Dump_Archive_extra_data_record (d : Nat) (cfg : Config) :
    Sim d (Dump_Archive_extra_data_record cfg) (Dump_Archive_extra_data_record cfg) := by
  unfold Dump_Archive_extra_data_record
  repeat' first
    | with_reducible exact sim_pure d _
    | with_reducible exact sim_getc d
    | with_reducible exact sim_feof d
    | with_reducible exact sim_fseek_nat d _
    | with_reducible exact sim_say_section d _ _ _ _
    | with_reducible exact sim_say_text d _
    | with_reducible exact sim_say d _ (Print_fmt_plain _ _ _ _)
    | with_reducible exact sim_say d _ (Print_extra_plain _ _ _)
    | with_reducible exact sim_Read8 d _
    | with_reducible exact sim_Read16 d _
    | with_reducible exact sim_Read32 d _
    | with_reducible exact sim_Read64 d _
    | with_reducible exact sim_DUMP1 d _ _ _
    | with_reducible exact sim_DUMP2 d _ _ _
    | with_reducible exact sim_DUMP4 d _ _ _
    | with_reducible exact sim_DUMP8 d _ _ _
    | with_reducible apply sim_DUMP2x d
    | with_reducible apply sim_DUMP4x d
    | with_reducible apply sim_DUMP8x d
    | with_reducible exact sim_Dump_string d _
    | with_reducible exact sim_Dump_bytes d _ _
    | with_reducible exact sim_SkipUnknownData d _ _
    | with_reducible exact sim_Dump_if_fulldump d _ _ _
    | with_reducible exact sim_Dump_extra_field d _ _
    | with_reducible exact sim_Dump_Data_descriptor d
    | ((with_reducible apply sim_say_one); rfl)
    | with_reducible apply sim_ite
    | with_reducible apply sim_ftell_bind
    | with_reducible apply sim_bind
    | with_reducible exact Print_version_plain
    | with_reducible exact Print_UTC_plain
    | with_reducible exact Print_filetime_plain
    | with_reducible exact Print_internal_file_attributes_plain
    | with_reducible exact Print_external_file_attributes_plain
    | with_reducible exact fun x => Print_general_purpose_bit_flag_plain _ x
    | with_reducible exact fun x => Print_date_and_time_plain _ x
    | (intro (x : Bool × Nat); obtain ⟨a, b⟩ := x; dsimp only)
    | (intro (x : Nat × List Nat); obtain ⟨a, b⟩ := x; dsimp only)
    | (intro x; try dsimp only)

theorem sim_Dump_Central_directory_tails (d : Nat) (cfg : Config) (n : Int) (a b c : Nat) :
    Sim d (Dump_Central_directory_tails cfg n a b c) (Dump_Central_directory_tails cfg n a b c) := by
  unfold Dump_Central_directory_tails
  repeat' first
    | with_reducible exact sim_pure d _
    | with_reducible exact sim_getc d
    | with_reducible exact sim_feof d
    | with_reducible exact sim_fseek_nat d _
    | with_reducible exact sim_say_section d _ _ _ _
    | with_reducible exact sim_say_text d _
    | with_reducible exact sim_say d _ (Print_fmt_plain _ _ _ _)
    | with_reducible exact sim_say d _ (Print_extra_plain _ _ _)
    | with_reducible exact sim_Read8 d _
    | with_reducible exact sim_Read16 d _
    | with_reducible exact sim_Read32 d _
    | with_reducible exact sim_Read64 d _
    | with_reducible exact sim_DUMP1 d _ _ _
    | with_reducible exact sim_DUMP2 d _ _ _
    | with_reducible exact sim_DUMP4 d _ _ _
    | with_reducible exact sim_DUMP8 d _ _ _
    | with_reducible apply sim_DUMP2x d
    | with_reducible apply sim_DUMP4x d
    | with_reducible apply sim_DUMP8x d
    | with_reducible exact sim_Dump_string d _
    | with_reducible exact sim_Dump_bytes d _ _
    | with_reducible exact sim_SkipUnknownData d _ _
    | with_reducible exact sim_Dump_if_fulldump d _ _ _
    | with_reducible exact sim_Dump_extra_field d _ _
    | with_reducible exact sim_Dump_Data_descriptor d
    | ((with_reducible apply sim_say_one); rfl)
    | with_reducible apply sim_ite
    | with_reducible apply sim_ftell_bind
    | with_reducible apply sim_bind
    | with_reducible exact Print_version_plain
    | with_reducible exact Print_UTC_plain
    | with_reducible exact Print_filetime_plain
    | with_reducible exact Print_internal_file_attributes_plain
    | with_reducible exact Print_external_file_attributes_plain
    | with_reducible exact fun x => Print_general_purpose_bit_flag_plain _ x
    | with_reducible exact fun x => Print_date_and_time_plain _ x
    | (intro (x : Bool × Nat); obtain ⟨a, b⟩ := x; dsimp only)
    | (intro (x : Nat × List Nat); obtain ⟨a, b⟩ := x; dsimp only)
    | (intro x; try dsimp only)

theorem sim_Dump_Central_directory_file_header (d : Nat) (cfg : Config) (n : Int) :
    Sim d (Dump_Central_directory_file_header cfg n) (Dump_Central_directory_file_header cfg n) := by
  unfold Dump_Central_directory_file_header
  repeat' first
    | with_reducible exact sim_pure d _
    | with_reducible exact sim_getc d
    | with_reducible exact sim_feof d
    | with_reducible exact sim_fseek_nat d _
    | with_reducible exact sim_say_section d _ _ _ _
    | with_reducible exact sim_say_text d _
    | with_reducible exact sim_say d _ (Print_fmt_plain _ _ _ _)
    | with_reducible exact sim_say d _ (Print_extra_plain _ _ _)
    | with_reducible exact sim_Read8 d _
    | with_reducible exact sim_Read16 d _
    | with_reducible exact sim_Read32 d _
    | with_reducible exact sim_Read64 d _
    | with_reducible exact sim_DUMP1 d _ _ _
    | with_reducible exact sim_DUMP2 d _ _ _
    | with_reducible exact sim_DUMP4 d _ _ _
    | with_reducible exact sim_DUMP8 d _ _ _
    | with_reducible apply sim_DUMP2x d
    | with_reducible apply sim_DUMP4x d
    | with_reducible apply sim_DUMP8x d
    | with_reducible exact sim_Dump_string d _
    | with_reducible exact sim_Dump_bytes d _ _
    | with_reducible exact sim_SkipUnknownData d _ _
    | with_reducible exact sim_Dump_if_fulldump d _ _ _
    | with_reducible exact sim_Dump_extra_field d _ _
    | with_reducible exact sim_Dump_Data_descriptor d
    | with_reducible exact sim_Dump_Central_directory_tails d _ _ _ _ _
    | ((with_reducible apply sim_say_one); rfl)
    | with_reducible apply sim_ite
    | with_reducible apply sim_ftell_bind
    | with_reducible apply sim_bind
    | with_reducible exact Print_version_plain
    | with_reducible exact Print_UTC_plain
    | with_reducible exact Print_filetime_plain
    | with_reducible exact Print_internal_file_attributes_plain
    | with_reducible exact Print_external_file_attributes_plain
    | with_reducible exact fun x => Print_general_purpose_bit_flag_plain _ x
    | with_reducible exact fun x => Print_date_and_time_plain _ x
    | (intro (x : Bool × Nat); obtain ⟨a, b⟩ := x; dsimp only)
    | (intro (x : Nat × List Nat); obtain ⟨a, b⟩ := x; dsimp only)
    | (intro x; try dsimp only)

theorem sim_Dump_Central_directory_digital_signature (d : Nat) (cfg : Config) :
    Sim d (Dump_Central_directory_digital_signature cfg) (Dump_Central_directory_digital_signature cfg) := by
  unfold Dump_Central_directory_digital_signature
  repeat' first
    | with_reducible exact sim_pure d _
    | with_reducible exact sim_getc d
    | with_reducible exact sim_feof d
    | with_reducible exact sim_fseek_nat d _
    | with_reducible exact sim_say_section d _ _ _ _
    | with_reducible exact sim_say_text d _
    | with_reducible exact sim_say d _ (Print_fmt_plain _ _ _ _)
    | with_reducible exact sim_say d _ (Print_extra_plain _ _ _)
    | with_reducible exact sim_Read8 d _
    | with_reducible exact sim_Read16 d _
    | with_reducible exact sim_Read32 d _
    | with_reducible exact sim_Read64 d _
    | with_reducible exact sim_DUMP1 d _ _ _
    | with_reducible exact sim_DUMP2 d _ _ _
    | with_reducible exact sim_DUMP4 d _ _ _
    | with_reducible exact sim_DUMP8 d _ _ _
    | with_reducible apply sim_DUMP2x d
    | with_reducible apply sim_DUMP4x d
    | with_reducible apply sim_DUMP8x d
    | with_reducible exact sim_Dump_string d _
    | with_reducible exact sim_Dump_bytes d _ _
    | with_reducible exact sim_SkipUnknownData d _ _
    | with_reducible exact sim_Dump_if_fulldump d _ _ _
    | with_reducible exact sim_Dump_extra_field d _ _
    | with_reducible exact sim_Dump_Data_descriptor d
    | ((with_reducible apply sim_say_one); rfl)
    | with_reducible apply sim_ite
    | with_reducible apply sim_ftell_bind
    | with_reducible apply sim_bind
    | with_reducible exact Print_version_plain
    | with_reducible exact Print_UTC_plain
    | with_reducible exact Print_filetime_plain
    | with_reducible exact Print_internal_file_attributes_plain
    | with_reducible exact Print_external_file_attributes_plain
    | with_reducible exact fun x => Print_general_purpose_bit_flag_plain _ x
    | with_reducible exact fun x => Print_date_and_time_plain _ x
    | (intro (x : Bool × Nat); obtain ⟨a, b⟩ := x; dsimp only)
    | (intro (x : Nat × List Nat); obtain ⟨a, b⟩ := x; dsimp only)
    | (intro x; try dsimp only)

theorem sim_Dump_Zip64_end_of_central_directory_record (d : Nat) (cfg : Config) :
    Sim d (Dump_Zip64_end_of_central_directory_record cfg) (Dump_Zip64_end_of_central_directory_record cfg) := by
  unfold Dump_Zip64_end_of_central_directory_record
  repeat' first
    | with_reducible exact sim_pure d _
    | with_reducible exact sim_getc d
    | with_reducible exact sim_feof d
    | with_reducible exact sim_fseek_nat d _
    | with_reducible exact sim_say_section d _ _ _ _
    | with_reducible exact sim_say_text d _
    | with_reducible exact sim_say d _ (Print_fmt_plain _ _ _ _)
    | with_reducible exact sim_say d _ (Print_extra_plain _ _ _)
    | with_reducible exact sim_Read8 d _
    | with_reducible exact sim_Read16 d _
    | with_reducible exact sim_Read32 d _
    | with_reducible exact sim_Read64 d _
    | with_reducible exact sim_DUMP1 d _ _ _
    | with_reducible exact sim_DUMP2 d _ _ _
    | with_reducible exact sim_DUMP4 d _ _ _
    | with_reducible exact sim_DUMP8 d _ _ _
    | with_reducible apply sim_DUMP2x d
    | with_reducible apply sim_DUMP4x d
    | with_reducible apply sim_DUMP8x d
    | with_reducible exact sim_Dump_string d _
    | with_reducible exact sim_Dump_bytes d _ _
    | with_reducible exact sim_SkipUnknownData d _ _
    | with_reducible exact sim_Dump_if_fulldump d _ _ _
    | with_reducible exact sim_Dump_extra_field d _ _
    | with_reducible exact sim_Dump_Data_descriptor d
    | ((with_reducible apply sim_say_one); rfl)
    | with_reducible apply sim_ite
    | with_reducible apply sim_ftell_bind
    | with_reducible apply sim_bind
    | with_reducible exact Print_version_plain
    | with_reducible exact Print_UTC_plain
    | with_reducible exact Print_filetime_plain
    | with_reducible exact Print_internal_file_attributes_plain
    | with_reducible exact Print_external_file_attributes_plain
    | with_reducible exact fun x => Print_general_purpose_bit_flag_plain _ x
    | with_reducible exact fun x => Print_date_and_time_plain _ x
    | (intro (x : Bool × Nat); obtain ⟨a, b⟩ := x; dsimp only)
    | (intro (x : Nat × List Nat); obtain ⟨a, b⟩ := x; dsimp only)
    | (intro x; try dsimp only)

theorem sim_Dump_Zip64_end_of_central_directory_locator (d : Nat) :
    Sim d (Dump_Zip64_end_of_central_directory_locator) (Dump_Zip64_end_of_central_directory_locator) := by
  unfold Dump_Zip64_end_of_central_directory_locator
  repeat' first
    | with_reducible exact sim_pure d _
    | with_reducible exact sim_getc d
    | with_reducible exact sim_feof d
    | with_reducible exact sim_fseek_nat d _
    | with_reducible exact sim_say_section d _ _ _ _
    | with_reducible exact sim_say_text d _
    | with_reducible exact sim_say d _ (Print_fmt_plain _ _ _ _)
    | with_reducible exact sim_say d _ (Print_extra_plain _ _ _)
    | with_reducible exact sim_Read8 d _
    | with_reducible exact sim_Read16 d _
    | with_reducible exact sim_Read32 d _
    | with_reducible exact sim_Read64 d _
    | with_reducible exact sim_DUMP1 d _ _ _
    | with_reducible exact sim_DUMP2 d _ _ _
    | with_reducible exact sim_DUMP4 d _ _ _
    | with_reducible exact sim_DUMP8 d _ _ _
    | with_reducible apply sim_DUMP2x d
    | with_reducible apply sim_DUMP4x d
    | with_reducible apply sim_DUMP8x d
    | with_reducible exact sim_Dump_string d _
    | with_reducible exact sim_Dump_bytes d _ _
    | with_reducible exact sim_SkipUnknownData d _ _
    | with_reducible exact sim_Dump_if_fulldump d _ _ _
    | with_reducible exact sim_Dump_extra_field d _ _
    | with_reducible exact sim_Dump_Data_descriptor d
    | ((with_reducible apply sim_say_one); rfl)
    | with_reducible apply sim_ite
    | with_reducible apply sim_ftell_bind
    | with_reducible apply sim_bind
    | with_reducible exact Print_version_plain
    | with_reducible exact Print_UTC_plain
    | with_reducible exact Print_filetime_plain
    | with_reducible exact Print_internal_file_attributes_plain
    | with_reducible exact Print_external_file_attributes_plain
    | with_reducible exact fun x => Print_general_purpose_bit_flag_plain _ x
    | with_reducible exact fun x => Print_date_and_time_plain _ x
    | (intro (x : Bool × Nat); obtain ⟨a, b⟩ := x; dsimp only)
    | (intro (x : Nat × List Nat); obtain ⟨a, b⟩ := x; dsimp only)
    | (intro x; try dsimp only)

theorem sim_Dump_End_of_central_directory_record (d : Nat) (cfg : Config) :
    Sim d (Dump_End_of_central_directory_record cfg) (Dump_End_of_central_directory_record cfg) := by
  unfold Dump_End_of_central_directory_record
  repeat' first
    | with_reducible exact sim_pure d _
    | with_reducible exact sim_getc d
    | with_reducible exact sim_feof d
    | with_reducible exact sim_fseek_nat d _
    | with_reducible exact sim_say_section d _ _ _ _
    | with_reducible exact sim_say_text d _
    | with_reducible exact sim_say d _ (Print_fmt_plain _ _ _ _)
    | with_reducible exact sim_say d _ (Print_extra_plain _ _ _)
    | with_reducible exact sim_Read8 d _
    | with_reducible exact sim_Read16 d _
    | with_reducible exact sim_Read32 d _
    | with_reducible exact sim_Read64 d _
    | with_reducible exact sim_DUMP1 d _ _ _
    | with_reducible exact sim_DUMP2 d _ _ _
    | with_reducible exact sim_DUMP4 d _ _ _
    | with_reducible exact sim_DUMP8 d _ _ _
    | with_reducible apply sim_DUMP2x d
    | with_reducible apply sim_DUMP4x d
    | with_reducible apply sim_DUMP8x d
    | with_reducible exact sim_Dump_string d _
    | with_reducible exact sim_Dump_bytes d _ _
    | with_reducible exact sim_SkipUnknownData d _ _
    | with_reducible exact sim_Dump_if_fulldump d _ _ _
    | with_reducible exact sim_Dump_extra_field d _ _
    | with_reducible exact sim_Dump_Data_descriptor d
    | ((with_reducible apply sim_say_one); rfl)
    | with_reducible apply sim_ite
    | with_reducible apply sim_ftell_bind
    | with_reducible apply sim_bind
    | with_reducible exact Print_version_plain
    | with_reducible exact Print_UTC_plain
    | with_reducible exact Print_filetime_plain
    | with_reducible exact Print_internal_file_attributes_plain
    | with_reducible exact Print_external_file_attributes_plain
    | with_reducible exact fun x => Print_general_purpose_bit_flag_plain _ x
    | with_reducible exact fun x => Print_date_and_time_plain _ x
    | (intro (x : Bool × Nat); obtain ⟨a, b⟩ := x; dsimp only)
    | (intro (x : Nat × List Nat); obtain ⟨a, b⟩ := x; dsimp only)
    | (intro x; try dsimp only)

/-! ## The walker further on in the file -/

theorem firstPK_or_noPK (l : List Byte) : (∃ k, firstPK l k) ∨ noPK l := by
  by_cases h : ∃ j, PKat l j
  · exact Or.inl ⟨Nat.find h, Nat.find_spec h, fun j hj => Nat.find_min h hj⟩
  · exact Or.inr (fun j _ hp => h ⟨j, hp⟩)

/-- What `SkipToNextPK` does when bytes are left and no anchor lies ahead: all
of them are reported by `SkipUnknownData` and the cursor is left at the end. -/
theorem SkipToNextPK_none (cfg : Config) (s : Stream) (hne : s.rest ≠ []) (hn : noPK s.rest) :
    SkipToNextPK cfg s =
      ⟨true, (SkipUnknownData cfg s.rest.length ⟨s.data, s.pos, false⟩).out,
        ⟨s.data, s.pos + s.rest.length, false⟩⟩ := by
  have hlen : 0 < s.rest.length := List.length_pos.2 hne
  have e := SkipToNextPK_loop_none s.rest s 0 0 (s.rest.length + 1) rfl hn (by simp) (by omega)
  generalize hk : s.rest.length = k at *
  have hpos : ((0 : Int) + (k : Int)) > 0 := by omega
  have hh : s.hitEof = ⟨s.data, s.pos + k, true⟩ := by simp [Stream.hitEof, hk]
  have hb := fseek_back k ⟨s.data, s.pos + k, true⟩ (by simp)
  have hn : ((0 : Int) + (k : Int)).toNat = k := by omega
  have hneg : -((0 : Int) + (k : Int)) = -(k : Int) := by omega
  have hrest : (⟨s.data, s.pos, false⟩ : Stream).rest = s.rest := rfl
  have hsk := SkipUnknownData_ok cfg k ⟨s.data, s.pos, false⟩ (by rw [hrest]; omega)
  simp only [SkipToNextPK, bind_run, hk, e, hh, hpos, if_true, hneg, hb, hn, Nat.add_sub_cancel,
    feof_run, pure_run, List.nil_append, List.append_nil]
  rw [hsk]
  cases cfg.gIsFullDump <;> simp [Stream.adv, Stream.skip]

theorem hitEof_nil (s : Stream) (h : s.rest = []) : s.hitEof = ⟨s.data, s.pos, true⟩ := by
  simp [Stream.hitEof, h]

theorem ahead_at (d : Nat) (s1 s2 : Stream) (h : Ahead d s1 s2) (k : Nat) (e : Bool) :
    Ahead d ⟨s1.data, s1.pos + k, e⟩ ⟨s2.data, s2.pos + k, e⟩ := by
  refine ⟨?_, rfl, ?_⟩
  · rw [rest_at s1 k e, rest_at s2 k e, h.1]
  · show s1.pos + k = s2.pos + k + d
    rw [h.2.2]; omega

theorem sim_SkipToNextPK (d : Nat) (cfg : Config) :
    Sim d (SkipToNextPK cfg) (SkipToNextPK cfg) := by
  intro s1 s2 hs
  have hA : Ahead d ⟨s1.data, s1.pos, false⟩ ⟨s2.data, s2.pos, false⟩ := ⟨hs.1, rfl, hs.2.2⟩
  rcases firstPK_or_noPK s2.rest with ⟨k, hk⟩ | hn
  · rw [SkipToNextPK_found cfg s1 k (hs.1 ▸ hk), SkipToNextPK_found cfg s2 k hk]
    refine ⟨rfl, ?_, ahead_at d s1 s2 hs k false⟩
    by_cases h0 : k = 0
    · simp [h0]
    · simp only [h0, if_false]
      exact (sim_SkipUnknownData d cfg k _ _ hA).2.1
  · by_cases hne : s2.rest = []
    · rw [SkipToNextPK_end cfg s1 (hs.1.trans hne), SkipToNextPK_end cfg s2 hne,
        hitEof_nil s1 (hs.1.trans hne), hitEof_nil s2 hne]
      exact ⟨rfl, rfl, hs.1, rfl, hs.2.2⟩
    · rw [SkipToNextPK_none cfg s1 (hs.1 ▸ hne) (hs.1 ▸ hn), SkipToNextPK_none cfg s2 hne hn,
        hs.1]
      exact ⟨rfl, (sim_SkipUnknownData d cfg _ _ _ hA).2.1, ahead_at d s1 s2 hs _ false⟩

theorem Print_x_plain (lb : String) (w a : Nat) : ∀ l ∈ Print_x lb w a, l.plain = true := by
  intro l hl; simp [Print_x] at hl; subst hl; rfl

theorem sim_say_header (d : Nat) (cfg : Config) (nm : String) (sig o : Nat) (n : Int) :
    Sim d (say (Print_header cfg nm sig (o + d) n)) (say (Print_header cfg nm sig o n)) := by
  intro s1 s2 hs
  refine ⟨rfl, ?_, hs⟩
  show Print_header cfg nm sig (o + d) n = (Print_header cfg nm sig o n).map (Line.shift d)
  rw [Print_header, Print_header, List.map_append, map_shift_Print_section,
    map_shift_plain d _ (Print_x_plain _ _ _)]

theorem sim_ZipDumpFile_switch (d : Nat) (cfg : Config) (sig o : Nat) (fc dc : Int) :
    Sim d (ZipDumpFile_switch cfg sig (o + d) fc dc) (ZipDumpFile_switch cfg sig o fc dc) := by
  unfold ZipDumpFile_switch
  repeat' first
    | with_reducible exact sim_pure d _
    | with_reducible exact sim_getc d
    | with_reducible exact sim_feof d
    | with_reducible exact sim_fseek_nat d _
    | with_reducible exact sim_say_section d _ _ _ _
    | with_reducible exact sim_say_text d _
    | with_reducible exact sim_say d _ (Print_fmt_plain _ _ _ _)
    | with_reducible exact sim_say d _ (Print_extra_plain _ _ _)
    | with_reducible exact sim_Dump_Local_file d _ _
    | with_reducible exact sim_Dump_Data_descriptor d
    | with_reducible exact sim_Dump_Archive_extra_data_record d _
    | with_reducible exact sim_Dump_Central_directory_file_header d _ _
    | with_reducible exact sim_Dump_Central_directory_digital_signature d _
    | with_reducible exact sim_Dump_Zip64_end_of_central_directory_record d _
    | with_reducible exact sim_Dump_Zip64_end_of_central_directory_locator d
    | with_reducible exact sim_Dump_End_of_central_directory_record d _
    | with_reducible exact sim_say_header d _ _ _ _ _
    | ((with_reducible apply sim_say_one); rfl)
    | with_reducible apply sim_ite
    | with_reducible apply sim_ftell_bind
    | with_reducible apply sim_bind
    | with_reducible exact Print_version_plain
    | with_reducible exact Print_UTC_plain
    | with_reducible exact Print_filetime_plain
    | with_reducible exact Print_internal_file_attributes_plain
    | with_reducible exact Print_external_file_attributes_plain
    | with_reducible exact fun x => Print_general_purpose_bit_flag_plain _ x
    | with_reducible exact fun x => Print_date_and_time_plain _ x
    | (intro (x : Bool × Nat); obtain ⟨a, b⟩ := x; dsimp only)
    | (intro (x : Nat × List Nat); obtain ⟨a, b⟩ := x; dsimp only)
    | (intro x; try dsimp only)

theorem sim_ZipDumpFile_body (d : Nat) (cfg : Config) (w : Walker) :
    Sim d (ZipDumpFile_body cfg w) (ZipDumpFile_body cfg w) := by
  unfold ZipDumpFile_body
  repeat' first
    | with_reducible exact sim_pure d _
    | with_reducible exact sim_getc d
    | with_reducible exact sim_feof d
    | with_reducible exact sim_fseek_nat d _
    | with_reducible exact sim_say_section d _ _ _ _
    | with_reducible exact sim_say_text d _
    | with_reducible exact sim_say d _ (Print_fmt_plain _ _ _ _)
    | with_reducible exact sim_say d _ (Print_extra_plain _ _ _)
    | with_reducible exact sim_Read8 d _
    | with_reducible exact sim_Read16 d _
    | with_reducible exact sim_Read32 d _
    | with_reducible exact sim_Read64 d _
    | with_reducible exact sim_ZipDumpFile_switch d _ _ _ _ _
    | ((with_reducible apply sim_say_one); rfl)
    | with_reducible apply sim_ite
    | with_reducible apply sim_ftell_bind
    | with_reducible apply sim_bind
    | with_reducible exact Print_version_plain
    | with_reducible exact Print_UTC_plain
    | with_reducible exact Print_filetime_plain
    | with_reducible exact Print_internal_file_attributes_plain
    | with_reducible exact Print_external_file_attributes_plain
    | with_reducible exact fun x => Print_general_purpose_bit_flag_plain _ x
    | with_reducible exact fun x => Print_date_and_time_plain _ x
    | (intro (x : Bool × Nat); obtain ⟨a, b⟩ := x; dsimp only)
    | (intro (x : Nat × List Nat); obtain ⟨a, b⟩ := x; dsimp only)
    | (intro x; try dsimp only)

theorem sim_ZipDumpFile_turn (d : Nat) (cfg : Config) (w : Walker) :
    Sim d (ZipDumpFile_turn cfg w) (ZipDumpFile_turn cfg w) := by
  unfold ZipDumpFile_turn
  repeat' first
    | with_reducible exact sim_pure d _
    | with_reducible exact sim_getc d
    | with_reducible exact sim_feof d
    | with_reducible exact sim_fseek_nat d _
    | with_reducible exact sim_say_section d _ _ _ _
    | with_reducible exact sim_say_text d _
    | with_reducible exact sim_say d _ (Print_fmt_plain _ _ _ _)
    | with_reducible exact sim_say d _ (Print_extra_plain _ _ _)
    | with_reducible exact sim_SkipToNextPK d _
    | with_reducible exact sim_ZipDumpFile_body d _ _
    | ((with_reducible apply sim_say_one); rfl)
    | with_reducible apply sim_ite
    | with_reducible apply sim_ftell_bind
    | with_reducible apply sim_bind
    | with_reducible exact Print_version_plain
    | with_reducible exact Print_UTC_plain
    | with_reducible exact Print_filetime_plain
    | with_reducible exact Print_internal_file_attributes_plain
    | with_reducible exact Print_external_file_attributes_plain
    | with_reducible exact fun x => Print_general_purpose_bit_flag_plain _ x
    | with_reducible exact fun x => Print_date_and_time_plain _ x
    | (intro (x : Bool × Nat); obtain ⟨a, b⟩ := x; dsimp only)
    | (intro (x : Nat × List Nat); obtain ⟨a, b⟩ := x; dsimp only)
    | (intro x; try dsimp only)

theorem sim_ZipDumpFile_loop (d : Nat) (cfg : Config) (fuel : Nat) :
    ∀ w, Sim d (ZipDumpFile_loop cfg fuel w) (ZipDumpFile_loop cfg fuel w) := by
  induction fuel with
  | zero => intro w; exact sim_pure d _
  | succ n ih =>
    intro w
    unfold ZipDumpFile_loop
    apply sim_bind d _ _ _ _ (sim_ZipDumpFile_turn d cfg w)
    intro x
    cases x with
    | none => exact sim_pure d _
    | some w1 => exact ih w1

theorem ZipDumpFile_loop_mono (cfg : Config) (f : Nat) :
    ∀ (w : Walker) (s : Stream), (ZipDumpFile_loop cfg f w s).val = true →
      ∀ g, ZipDumpFile_loop cfg (f + g) w s = ZipDumpFile_loop cfg f w s := by
  induction f with
  | zero =>
    intro w s h
    exact absurd h (by simp [ZipDumpFile_loop, pure_run])
  | succ n ih =>
    intro w s h g
    have hg : n + 1 + g = (n + g) + 1 := by omega
    rw [hg]
    cases hv : (ZipDumpFile_turn cfg w s).val with
    | none => rw [ZipDumpFile_loop_stop cfg _ w s hv, ZipDumpFile_loop_stop cfg _ w s hv]
    | some w1 =>
      rw [ZipDumpFile_loop_step cfg _ w w1 s hv] at h ⊢
      rw [ZipDumpFile_loop_step cfg _ w w1 s hv, ih w1 _ (by simpa using h) g]

/-- A turn of the walker for which `SkipToNextPK` returns true. -/
theorem ZipDumpFile_turn_go (cfg : Config) (w : Walker) (s : Stream) (o : List Line)
    (t : Stream) (h : SkipToNextPK cfg s = ⟨true, o, t⟩) :
    ZipDumpFile_turn cfg w s =
      ⟨some (ZipDumpFile_body cfg w t).val, o ++ (ZipDumpFile_body cfg w t).out,
        (ZipDumpFile_body cfg w t).fin⟩ := by
  simp only [ZipDumpFile_turn, bind_run, h, if_true, pure_run, List.append_nil]

/-- The loop run from two streams that `SkipToNextPK` leaves on the same bytes,
those of the first `d` bytes further on in their file: the runs differ by what
`SkipToNextPK` reports and by the offsets shown. -/
theorem ZipDumpFile_loop_resume (cfg : Config) (w : Walker) (d : Nat) (s1 s2 t1 t2 : Stream)
    (o1 : List Line) (h1 : SkipToNextPK cfg s1 = ⟨true, o1, t1⟩)
    (h2 : SkipToNextPK cfg s2 = ⟨true, [], t2⟩) (hA : Ahead d t1 t2) (f : Nat) :
    (ZipDumpFile_loop cfg (f + 1) w s1).val = (ZipDumpFile_loop cfg (f + 1) w s2).val ∧
    (ZipDumpFile_loop cfg (f + 1) w s1).out =
      o1 ++ (ZipDumpFile_loop cfg (f + 1) w s2).out.map (Line.shift d) := by
  have e1 := ZipDumpFile_turn_go cfg w s1 o1 t1 h1
  have e2 := ZipDumpFile_turn_go cfg w s2 [] t2 h2
  obtain ⟨b1, b2, b3⟩ := sim_ZipDumpFile_body d cfg w t1 t2 hA
  rw [ZipDumpFile_loop_step cfg f w _ s1 (congrArg Res.val e1),
    ZipDumpFile_loop_step cfg f w _ s2 (congrArg Res.val e2), e1, e2]
  simp only [after_val, after_out, List.nil_append, List.map_append, List.append_assoc]
  rw [b1]
  obtain ⟨c1, c2, _⟩ := sim_ZipDumpFile_loop d cfg f (ZipDumpFile_body cfg w t2).val _ _ b3
  rw [c1, c2, b2]
  exact ⟨rfl, rfl⟩

theorem firstPK_append (J R : List Byte) (hJ : noPK J) (hR : R.take 2 = [80, 75]) :
    firstPK (J ++ R) J.length := by
  rcases R with _ | ⟨r0, _ | ⟨r1, t⟩⟩ <;> simp at hR
  obtain ⟨h0, h1⟩ := hR
  subst h0 h1
  have q0 : (J ++ (80 : Byte) :: 75 :: t)[J.length]? = some 80 := by
    rw [List.getElem?_append_right (Nat.le_refl _)]
    simp
  have q1 : (J ++ (80 : Byte) :: 75 :: t)[J.length + 1]? = some 75 := by
    rw [List.getElem?_append_right (Nat.le_add_right _ _)]
    simp
  refine ⟨⟨q0, q1⟩, ?_⟩
  intro j hj hp
  by_cases hj1 : j + 1 < J.length
  · apply hJ j hj
    obtain ⟨p0, p1⟩ := hp
    rw [List.getElem?_append_left hj] at p0
    rw [List.getElem?_append_left hj1] at p1
    exact ⟨p0, p1⟩
  · have hj2 : j + 1 = J.length := by omega
    obtain ⟨_, p1⟩ := hp
    rw [hj2, List.getElem?_append_right (Nat.le_refl _)] at p1
    simp at p1

theorem rest_insertAt (S J : List Byte) (p : Nat) (e : Bool) (hp : p ≤ S.length) :
    (⟨insertAt S p J, p, e⟩ : Stream).rest = J ++ S.drop p := by
  have hl : (S.take p).length = p := by simp [hp]
  show (S.take p ++ J ++ S.drop p).drop p = J ++ S.drop p
  rw [List.append_assoc, List.drop_left' hl]

/-! ## The loop of the walker ends -/

theorem keeps_ZipDumpFile_switch (cfg : Config) (sig o : Nat) (fc dc : Int) :
    Keeps (ZipDumpFile_switch cfg sig o fc dc) := by
  unfold ZipDumpFile_switch
  repeat' first
    | with_reducible exact keeps_Dump_Local_file _ _
    | with_reducible exact keeps_Dump_Data_descriptor
    | with_reducible exact keeps_Dump_Archive_extra_data_record _
    | with_reducible exact keeps_Dump_Central_directory_file_header _ _
    | with_reducible exact keeps_Dump_Central_directory_digital_signature _
    | with_reducible exact keeps_Dump_Zip64_end_of_central_directory_record _
    | with_reducible exact keeps_Dump_Zip64_end_of_central_directory_locator
    | with_reducible exact keeps_Dump_End_of_central_directory_record _
    | with_reducible exact keeps_pure _
    | with_reducible exact keeps_getc
    | with_reducible exact keeps_ftell
    | with_reducible exact keeps_fseek_nat _
    | with_reducible exact keeps_say _
    | with_reducible exact keeps_Read16 _
    | with_reducible exact keeps_DUMP1 _ _ _
    | with_reducible exact keeps_DUMP2 _ _ _
    | with_reducible exact keeps_DUMP4 _ _ _
    | with_reducible exact keeps_DUMP8 _ _ _
    | with_reducible exact keeps_DUMP2x _ _ _ _ _
    | with_reducible exact keeps_DUMP4x _ _ _ _ _
    | with_reducible exact keeps_DUMP8x _ _ _ _ _
    | with_reducible exact keeps_Dump_string _
    | with_reducible exact keeps_SkipUnknownData _ _
    | with_reducible exact keeps_Dump_if_fulldump _ _ _
    | with_reducible exact keeps_Dump_bytes _ _
    | with_reducible exact keeps_Dump_extra_field _ _
    | with_reducible exact keeps_Dump_Data_descriptor
    | with_reducible apply keeps_ite
    | with_reducible apply keeps_bind
    | (intro (x : Bool × Nat); obtain ⟨a, b⟩ := x; dsimp only)
    | (intro (x : Nat × Nat); obtain ⟨a, b⟩ := x; dsimp only)
    | (intro (x : Nat × List Nat); obtain ⟨a, b⟩ := x; dsimp only)
    | (intro x; try dsimp only)

theorem rest_hitEof (s : Stream) : s.hitEof.rest = [] := by
  simp [Stream.hitEof, Stream.rest]
  omega

theorem rest_length_le (s t : Stream) (hd : t.data = s.data) (hp : s.pos ≤ t.pos) :
    t.rest.length + (t.pos - s.pos) ≤ s.rest.length ∨ t.rest = [] := by
  by_cases h : t.pos ≤ t.data.length
  · left
    rw [rest_length, rest_length, hd]
    rw [hd] at h
    omega
  · right
    simp [Stream.rest]
    omega

/-- The body of the loop leaves at least four bytes fewer than it finds, or none. -/
theorem ZipDumpFile_body_less (cfg : Config) (w : Walker) (s : Stream) :
    (ZipDumpFile_body cfg w s).fin.rest.length + 4 ≤ s.rest.length ∨
      (ZipDumpFile_body cfg w s).fin.rest = [] := by
  by_cases h : 4 ≤ s.rest.length
  · have e := Read32_ok w.signature s h
    have hb : ZipDumpFile_body cfg w s =
        (ZipDumpFile_switch cfg (le (s.rest.take 4)) s.pos w.file_count w.dir_count
          (s.adv 4)) := by
      simp only [ZipDumpFile_body, bind_run, ftell_run, e, pure_run, if_true, List.nil_append]
    rw [hb]
    have k := keeps_ZipDumpFile_switch cfg (le (s.rest.take 4)) s.pos w.file_count w.dir_count
      (s.adv 4)
    rcases rest_length_le (s.adv 4) _ k.1 k.2 with h1 | h1
    · left
      have : (s.adv 4).rest.length = s.rest.length - 4 := by simp
      omega
    · exact Or.inr h1
  · right
    have e := Read32_fail w.signature s (by omega)
    have hb : ZipDumpFile_body cfg w s = ⟨⟨w.signature, w.file_count, w.dir_count⟩, [],
        s.hitEof⟩ := by
      simp only [ZipDumpFile_body, bind_run, ftell_run, e, pure_run, List.append_nil]
      rfl
    rw [hb]
    exact rest_hitEof s

/-- Where `SkipToNextPK` returns true, bytes were left, and it leaves no more of
them than it found. -/
theorem SkipToNextPK_less (cfg : Config) (s : Stream) (h : (SkipToNextPK cfg s).val = true) :
    s.rest ≠ [] ∧ (SkipToNextPK cfg s).fin.rest.length ≤ s.rest.length := by
  rcases firstPK_or_noPK s.rest with ⟨k, hk⟩ | hn
  · have hl := firstPK_length _ _ hk
    rw [SkipToNextPK_found cfg s k hk]
    refine ⟨fun h0 => by rw [h0] at hl; simp at hl, ?_⟩
    rw [rest_at s k false]
    simp
  · by_cases hne : s.rest = []
    · rw [SkipToNextPK_end cfg s hne] at h
      exact absurd h (by simp)
    · rw [SkipToNextPK_none cfg s hne hn]
      refine ⟨hne, ?_⟩
      rw [rest_at s _ false]
      simp

/-- The loop of the walker ends within as many turns as bytes are left, plus one. -/
theorem ZipDumpFile_loop_ends (cfg : Config) :
    ∀ (n : Nat) (w : Walker) (s : Stream), s.rest.length ≤ n →
      (ZipDumpFile_loop cfg (n + 1) w s).val = true := by
  intro n
  induction n using Nat.strong_induction_on with
  | _ n ih =>
    intro w s hn
    cases hv : (SkipToNextPK cfg s).val with
    | false =>
      have ht : (ZipDumpFile_turn cfg w s).val = none := by
        simp only [ZipDumpFile_turn, bind_run, hv, pure_run]
        rfl
      rw [ZipDumpFile_loop_stop cfg n w s ht]
    | true =>
      obtain ⟨hne, hle⟩ := SkipToNextPK_less cfg s hv
      have hpos : 0 < s.rest.length := List.length_pos.2 hne
      have hq : SkipToNextPK cfg s = ⟨true, (SkipToNextPK cfg s).out, (SkipToNextPK cfg s).fin⟩ := by
        rw [← hv]
      have ht := ZipDumpFile_turn_go cfg w s _ _ hq
      rw [ZipDumpFile_loop_step cfg n w _ s (congrArg Res.val ht), ht, after_val]
      obtain ⟨m, rfl⟩ : ∃ m, n = m + 1 := ⟨n - 1, by omega⟩
      dsimp only
      rcases ZipDumpFile_body_less cfg w (SkipToNextPK cfg s).fin with hb | hb
      · exact ih m (by omega) _ _ (by omega)
      · exact ih m (by omega) _ _ (by rw [hb]; simp)

/-- `ZipDumpFile` ends on every file. -/
theorem ZipDumpFile_ends (cfg : Config) (s : Stream) : (ZipDumpFile cfg s).val = true := by
  have hl : s.rest.length ≤ s.data.length := by rw [rest_length]; omega
  exact ZipDumpFile_loop_ends cfg s.data.length ⟨0, 0, 0⟩ s hl

theorem skips_map_shift (d : Nat) (ls : List Line) : skips (ls.map (Line.shift d)) = skips ls := by
  induction ls with
  | nil => rfl
  | cons a t ih =>
    have e : ∀ x : List Line, skips (a.shift d :: x) = skips [a] ++ skips x := by
      intro x
      cases a <;> first | rfl | (rename_i nm n o; cases o <;> rfl)
    rw [List.map_cons, e, ih]
    exact (skips_append [a] t).symm

theorem skips_Dump_bytes (cfg : Config) (n : Nat) (s : Stream) :
    skips (Dump_bytes cfg n s).out = [] :=
  skips_rows _ (outAll_Dump_bytes (fun l => l.isRow = true) (fun _ h => h) cfg n s)

/-- The body of the loop at the end of the file: the signature cannot be read
and the locals stay as they are. -/
theorem ZipDumpFile_body_end (cfg : Config) (w : Walker) (s : Stream) (h : s.rest = []) :
    ZipDumpFile_body cfg w s = ⟨w, [], s.hitEof⟩ := by
  have e := Read32_fail w.signature s (by simp [h])
  simp only [ZipDumpFile_body, bind_run, ftell_run, e, pure_run, List.append_nil]
  rfl

set_option maxRecDepth 100000 in
/-- C7 as stated fails inside a record: the byte `0`, which holds no anchor,
inserted at position 4 of the minimal archive `sampleZip`, right after the
signature of its local file header, is decoded as part of the header.  No
unknown-data event is reported and the run ends after the file data, while
the run on `sampleZip` itself goes on to the central directory header and the
end of central directory record. -/
theorem C7_resync_counterexample :
    minimalZip sampleZip ∧ noPK [0] ∧
    skips (ZipDumpFile optionsOff ⟨insertAt sampleZip 4 [0], 0, false⟩).out = [] ∧
    sections (ZipDumpFile optionsOff ⟨insertAt sampleZip 4 [0], 0, false⟩).out =
      ["Local file header", "Local file name", "File data"] ∧
    sections (ZipDumpFile optionsOff ⟨sampleZip, 0, false⟩).out =
      ["Local file header", "Local file name", "File data", "Central file header",
       "file name", "End of central directory record"] := by
  decide

/-- C7, amended to a record boundary: for all bytes `S`, every state `w` of the
walker and every cursor position `p` at which the bytes of `S` left are none or
begin with `P`, `K`, and every `J` of at least one byte that holds no `P`, `K`
anchor: the loop of the walker run from `p` on `S` ends within any number `f`
of turns above the number of bytes left, run from `p` on `S` with `J` inserted
at `p` it ends within any `g > f` turns, and what it then writes is one
unknown-data line for the `J.length` bytes (with the hex rows of `J` in
full-dump mode) followed by the lines of the run on `S`, every offset shown
being `J.length` further; so its unknown-data reports are those of the run on
`S` preceded by exactly one, of `J.length` bytes.  With `p = 0`, the initial
locals, `f = S.length + 1` and `g = (J ++ S).length + 1` the two runs are
`ZipDumpFile` on `S` and on `J ++ S`. -/
theorem C7_resync_at_boundary (cfg : Config) (w : Walker) (S J : List Byte) (p : Nat)
    (e : Bool) (f g : Nat) (hp : p ≤ S.length) (hJ : J ≠ []) (hno : noPK J)
    (hb : S.drop p = [] ∨ (S.drop p).take 2 = [80, 75])
    (hf : (S.drop p).length + 1 ≤ f) (hg : f + 1 ≤ g) :
    (ZipDumpFile_loop cfg f w ⟨S, p, e⟩).val = true ∧
    (ZipDumpFile_loop cfg g w ⟨insertAt S p J, p, e⟩).val = true ∧
    (ZipDumpFile_loop cfg g w ⟨insertAt S p J, p, e⟩).out =
      Line.skipUnknown J.length ::
        ((if cfg.gIsFullDump then (Dump_bytes cfg J.length ⟨insertAt S p J, p, false⟩).out
          else []) ++
          (ZipDumpFile_loop cfg f w ⟨S, p, e⟩).out.map (Line.shift J.length)) ∧
    skips (ZipDumpFile_loop cfg g w ⟨insertAt S p J, p, e⟩).out =
      J.length :: skips (ZipDumpFile_loop cfg f w ⟨S, p, e⟩).out := by
  have hk : 0 < J.length := List.length_pos.2 hJ
  have hr1 : (⟨insertAt S p J, p, e⟩ : Stream).rest = J ++ S.drop p := rest_insertAt S J p e hp
  have hr0 : (⟨insertAt S p J, p, false⟩ : Stream).rest = J ++ S.drop p :=
    rest_insertAt S J p false hp
  have hr2 : (⟨S, p, e⟩ : Stream).rest = S.drop p := rfl
  have hsk := SkipUnknownData_ok cfg J.length ⟨insertAt S p J, p, false⟩
    (by rw [hr0]; simp)
  have hso : (SkipUnknownData cfg J.length ⟨insertAt S p J, p, false⟩).out
      = Line.skipUnknown J.length ::
        (if cfg.gIsFullDump then (Dump_bytes cfg J.length ⟨insertAt S p J, p, false⟩).out
          else []) := by
    rw [hsk]
  obtain ⟨f0, rfl⟩ : ∃ f0, f = f0 + 1 := ⟨f - 1, by omega⟩
  have hend : (ZipDumpFile_loop cfg (f0 + 1) w ⟨S, p, e⟩).val = true :=
    ZipDumpFile_loop_ends cfg f0 w ⟨S, p, e⟩ (by rw [hr2]; omega)
  obtain ⟨g0, rfl⟩ : ∃ g0, g = f0 + g0 + 1 + 1 := ⟨g - (f0 + 2), by omega⟩
  have main : (ZipDumpFile_loop cfg (f0 + g0 + 1 + 1) w ⟨insertAt S p J, p, e⟩).val = true ∧
      (ZipDumpFile_loop cfg (f0 + g0 + 1 + 1) w ⟨insertAt S p J, p, e⟩).out =
        (SkipUnknownData cfg J.length ⟨insertAt S p J, p, false⟩).out ++
          (ZipDumpFile_loop cfg (f0 + 1) w ⟨S, p, e⟩).out.map (Line.shift J.length) := by
    rcases hb with hR | hR
    · -- the end of the file
      have t0 := ZipDumpFile_turn_end cfg w ⟨S, p, e⟩ (hr2.trans hR)
      have l0 := ZipDumpFile_loop_stop cfg f0 w ⟨S, p, e⟩ (congrArg Res.val t0)
      have hJr : (⟨insertAt S p J, p, e⟩ : Stream).rest = J := by rw [hr1, hR, List.append_nil]
      have h1 := SkipToNextPK_none cfg ⟨insertAt S p J, p, e⟩ (by rw [hJr]; exact hJ)
        (by rw [hJr]; exact hno)
      rw [hJr] at h1
      have hre : (⟨insertAt S p J, p + J.length, false⟩ : Stream).rest = [] := by
        have := rest_at ⟨insertAt S p J, p, e⟩ J.length false
        rw [hJr] at this
        simpa using this
      have t1 := ZipDumpFile_turn_go cfg w _ _ _ h1
      rw [ZipDumpFile_body_end cfg w _ hre] at t1
      have hre2 : (Stream.hitEof ⟨insertAt S p J, p + J.length, false⟩).rest = [] := by
        rw [hitEof_nil _ hre]
        exact hre
      have t2 := ZipDumpFile_turn_end cfg w _ hre2
      have l2 := ZipDumpFile_loop_stop cfg (f0 + g0) w _ (congrArg Res.val t2)
      rw [ZipDumpFile_loop_step cfg (f0 + g0 + 1) w w _ (congrArg Res.val t1), t1, l2, l0, t0, t2]
      simp [Res.after]
    · -- a record starts at `p`
      have hf1 : firstPK (⟨insertAt S p J, p, e⟩ : Stream).rest J.length := by
        rw [hr1]
        exact firstPK_append J _ hno hR
      have hf2 : firstPK (⟨S, p, e⟩ : Stream).rest 0 := by
        have := firstPK_append [] (S.drop p) (fun j hj => absurd hj (Nat.not_lt_zero j)) hR
        simpa using this
      have h1 := SkipToNextPK_found cfg ⟨insertAt S p J, p, e⟩ J.length hf1
      have h2 := SkipToNextPK_found cfg ⟨S, p, e⟩ 0 hf2
      simp only [Nat.pos_iff_ne_zero.1 hk, if_false] at h1
      simp only [if_true, Nat.add_zero] at h2
      have hA : Ahead J.length ⟨insertAt S p J, p + J.length, false⟩ ⟨S, p, false⟩ := by
        refine ⟨?_, rfl, rfl⟩
        have := rest_at ⟨insertAt S p J, p, e⟩ J.length false
        rw [hr1, List.drop_left] at this
        exact this
      have r := ZipDumpFile_loop_resume cfg w J.length _ _ _ _ _ h1 h2 hA (f0 + g0 + 1)
      have m := ZipDumpFile_loop_mono cfg (f0 + 1) w ⟨S, p, e⟩ hend (g0 + 1)
      have hfg : f0 + 1 + (g0 + 1) = f0 + g0 + 1 + 1 := by omega
      rw [hfg] at m
      rw [m] at r
      exact ⟨r.1.trans hend, r.2⟩
  refine ⟨hend, main.1, ?_, ?_⟩
  · rw [main.2, hso]
    rfl
  · rw [main.2, hso, skips_append, skips_map_shift]
    cases cfg.gIsFullDump
    · rfl
    · simp only [if_true]
      show skips ([Line.skipUnknown J.length] ++ _) ++ _ = _
      rw [skips_append, skips_Dump_bytes]
      rfl

set_option maxRecDepth 100000 in
theorem C7_resync_at_boundary_witness :
    34 ≤ sampleZip.length ∧ noPK [1, 2, 3] ∧ (sampleZip.drop 34).take 2 = [80, 75] ∧
    (sampleZip.drop 34).length + 1 ≤ 70 ∧
    skips (ZipDumpFile_loop optionsOff 71 ⟨0x04034b50, 1, 0⟩
      ⟨insertAt sampleZip 34 [1, 2, 3], 34, false⟩).out =
      [1, 2, 3].length ::
        skips (ZipDumpFile_loop optionsOff 70 ⟨0x04034b50, 1, 0⟩ ⟨sampleZip, 34, false⟩).out :=
  ⟨by decide, by decide, by decide, by decide,
    (C7_resync_at_boundary optionsOff ⟨0x04034b50, 1, 0⟩ sampleZip [1, 2, 3] 34 false 70 71
      (by decide) (by decide) (by decide) (Or.inr (by decide)) (by decide) (by decide)).2.2.2⟩

/-! ## The Zip64 end of central directory record -/

theorem Dump_bytes_loop_mode (cfg cfg2 : Config)
    (h : cfg.gOmitSameHexDumpLine = cfg2.gOmitSameHexDumpLine) (n : Nat) :
    ∀ offset om prev current,
      Dump_bytes_loop cfg n offset om prev current = Dump_bytes_loop cfg2 n offset om prev current := by
  induction n with
  | zero => intro _ _ _ _; rfl
  | succ n ih =>
    intro offset om prev current
    simp only [Dump_bytes_loop, h, ih]

/-- `Dump_bytes` looks at no option but the one that omits repeated rows. -/
theorem Dump_bytes_mode (cfg cfg2 : Config)
    (h : cfg.gOmitSameHexDumpLine = cfg2.gOmitSameHexDumpLine) (n : Nat) :
    Dump_bytes cfg n = Dump_bytes cfg2 n := by
  simp only [Dump_bytes, Dump_bytes_loop_mode cfg cfg2 h]

/-- The fixed block of the Zip64 end of central directory record, followed
by any function `K` of the record size: from a stream with the 52 bytes of the
block, the nine field lines with their notes and the section line of the data
sector are written and `K` is run from 52 bytes further. -/
theorem Zip64_EOCD_with (cfg : Config) (K : Nat → Dump Unit) (s : Stream)
    (h52 : 52 ≤ s.rest.length) :
    (do
      let size ← DUMP8 "size of this record" 0 Fmt.ux
      let _ ← DUMP2x cfg "version made by" 0 Fmt.x Print_version
      let _ ← DUMP2x cfg "version needed to extract" 0 Fmt.x Print_version
      let _ ← DUMP4 "number of this disk" 0 Fmt.u
      let _ ← DUMP4 "disk of starting directory" 0 Fmt.u
      let _ ← DUMP8 "directory-entries on this disk" 0 Fmt.u
      let _ ← DUMP8 "directory-entries in all disks" 0 Fmt.u
      let _ ← DUMP8 "size of the directory" 0 Fmt.ux
      let _ ← DUMP8 "offset of starting directory" 0 Fmt.ux
      say (Print_section cfg "zip64 extensible data sector" (← ftell) (-1))
      K size : Dump Unit) s =
    (K (le (s.rest.take 8)) (s.adv 52)).after
      (Print_fmt Fmt.ux "size of this record" 8 (le (s.rest.take 8)) ++
        (Print_fmt Fmt.x "version made by" 2 (le ((s.rest.drop 8).take 2)) ++
        ((if cfg.gQuiet = true then [] else Print_version (le ((s.rest.drop 8).take 2))) ++
        (Print_fmt Fmt.x "version needed to extract" 2 (le ((s.rest.drop 10).take 2)) ++
        ((if cfg.gQuiet = true then [] else Print_version (le ((s.rest.drop 10).take 2))) ++
        (Print_fmt Fmt.u "number of this disk" 4 (le ((s.rest.drop 12).take 4)) ++
        (Print_fmt Fmt.u "disk of starting directory" 4 (le ((s.rest.drop 16).take 4)) ++
        (Print_fmt Fmt.u "directory-entries on this disk" 8 (le ((s.rest.drop 20).take 8)) ++
        (Print_fmt Fmt.u "directory-entries in all disks" 8 (le ((s.rest.drop 28).take 8)) ++
        (Print_fmt Fmt.ux "size of the directory" 8 (le ((s.rest.drop 36).take 8)) ++
        (Print_fmt Fmt.ux "offset of starting directory" 8 (le ((s.rest.drop 44).take 8)) ++
          Print_section cfg "zip64 extensible data sector" (s.pos + 52) (-1)))))))))))) := by
  simp -zeta (disch := ((try simp only [rest_adv, List.length_drop, Nat.reduceAdd]); omega)) only
    [DUMP2_bind, DUMP4_bind, DUMP8_bind, DUMP2x_bind, DUMP4x_bind, adv_adv, rest_adv,
     ftell_bind, say_bind, adv_pos,
     Nat.reduceAdd, List.drop_drop, after_after, List.append_assoc]

theorem Zip64_EOCD_unfold (cfg : Config) :
    Dump_Zip64_end_of_central_directory_record cfg =
    (do
      let size ← DUMP8 "size of this record" 0 Fmt.ux
      let _ ← DUMP2x cfg "version made by" 0 Fmt.x Print_version
      let _ ← DUMP2x cfg "version needed to extract" 0 Fmt.x Print_version
      let _ ← DUMP4 "number of this disk" 0 Fmt.u
      let _ ← DUMP4 "disk of starting directory" 0 Fmt.u
      let _ ← DUMP8 "directory-entries on this disk" 0 Fmt.u
      let _ ← DUMP8 "directory-entries in all disks" 0 Fmt.u
      let _ ← DUMP8 "size of the directory" 0 Fmt.ux
      let _ ← DUMP8 "offset of starting directory" 0 Fmt.ux
      say (Print_section cfg "zip64 extensible data sector" (← ftell) (-1))
      (fun n => Dump_bytes cfg ((n + 2 ^ 64 - 44) % 2 ^ 64)) size : Dump Unit) := rfl

theorem filter_isRow_Print_fmt (f : Fmt) (lb : String) (w a : Nat) :
    (Print_fmt f lb w a).filter Line.isRow = [] := by
  cases f
  · simp [Print_fmt, Print_u, Line.isRow]
  · simp [Print_fmt, Print_x, Line.isRow]
  · simp [Print_fmt, Print_ux, Line.isRow]
  · simp only [Print_fmt, Print_uFF, Print_u, Print_x]
    split_ifs <;> simp [Line.isRow]

theorem filter_isRow_note (ls : List Line) (h : ∀ l ∈ ls, l.isNote = true) :
    ls.filter Line.isRow = [] := by
  rw [List.filter_eq_nil_iff]
  intro l hl
  have hp := h l hl
  cases l <;> simp_all [Line.isNote, Line.isRow]

theorem filter_isRow_quiet_Print_version (q : Bool) (v : Nat) :
    (if q = true then [] else Print_version v).filter Line.isRow = [] :=
  filter_isRow_note _ (ite_nil_note q _ (Print_version_note v))

theorem filter_isRow_Print_section (cfg : Config) (nm : String) (o : Nat) (n : Int) :
    (Print_section cfg nm o n).filter Line.isRow = [] := rfl

theorem filter_isRow_rows (ls : List Line) (h : ∀ l ∈ ls, l.isRow = true) :
    ls.filter Line.isRow = ls :=
  List.filter_eq_self.2 h

theorem sub64 (a : Nat) (ha : a < 2 ^ 64) (h : 44 ≤ a) : (a + 2 ^ 64 - 44) % 2 ^ 64 = a - 44 := by
  omega

/-- The Zip64 end of central directory record whose declared size is at least
44, decoded from a stream that holds the 52 bytes of the fixed block. -/
theorem Zip64_EOCD_run (cfg : Config) (s : Stream) (h52 : 52 ≤ s.rest.length)
    (h44 : 44 ≤ le (s.rest.take 8)) :
    ∃ fixed : List Line,
      Dump_Zip64_end_of_central_directory_record cfg s =
        (Dump_bytes cfg (le (s.rest.take 8) - 44) (s.adv 52)).after fixed ∧
      sections fixed = ["zip64 extensible data sector"] ∧
      fixed.filter Line.isRow = [] ∧
      fields fixed =
        [("size of this record", 8, le (s.rest.take 8)),
         ("version made by", 2, le ((s.rest.drop 8).take 2)),
         ("version needed to extract", 2, le ((s.rest.drop 10).take 2)),
         ("number of this disk", 4, le ((s.rest.drop 12).take 4)),
         ("disk of starting directory", 4, le ((s.rest.drop 16).take 4)),
         ("directory-entries on this disk", 8, le ((s.rest.drop 20).take 8)),
         ("directory-entries in all disks", 8, le ((s.rest.drop 28).take 8)),
         ("size of the directory", 8, le ((s.rest.drop 36).take 8)),
         ("offset of starting directory", 8, le ((s.rest.drop 44).take 8))] := by
  have hlt : le (s.rest.take 8) < 2 ^ 64 := by
    have := le_lt (s.rest.take 8)
    have hl : (s.rest.take 8).length = 8 := by simp; omega
    rw [hl] at this
    calc le (s.rest.take 8) < 256 ^ 8 := this
      _ = 2 ^ 64 := by norm_num
  have e1 := congrFun (Zip64_EOCD_unfold cfg) s
  have e2 := Zip64_EOCD_with cfg (fun n => Dump_bytes cfg ((n + 2 ^ 64 - 44) % 2 ^ 64)) s h52
  have e3 := e1.trans e2
  have e4 : (fun n => Dump_bytes cfg ((n + 2 ^ 64 - 44) % 2 ^ 64)) (le (s.rest.take 8))
      = Dump_bytes cfg (le (s.rest.take 8) - 44) :=
    congrArg (Dump_bytes cfg) (sub64 _ hlt h44)
  rw [e4] at e3
  refine ⟨_, e3, ?_, ?_, ?_⟩
  · simp only [sections_append, sections_Print_fmt, sections_quiet_Print_version,
      sections_Print_section, List.nil_append]
  · simp only [List.filter_append, filter_isRow_Print_fmt, filter_isRow_quiet_Print_version,
      filter_isRow_Print_section, List.append_nil]
  · simp only [fields_append, fields_Print_fmt, fields_quiet_Print_version,
      fields_Print_section, List.nil_append, List.append_nil, List.cons_append,
      List.singleton_append]

theorem DUMP2x_mode (cfg : Config) (b : Bool) (lb : String) (v : Nat) (f : Fmt)
    (d : Nat → List Line) :
    DUMP2x { cfg with gIsFullDump := b } lb v f d = DUMP2x cfg lb v f d := rfl

theorem Print_section_mode (cfg : Config) (b : Bool) (nm : String) (o : Nat) (n : Int) :
    Print_section { cfg with gIsFullDump := b } nm o n = Print_section cfg nm o n := rfl

/-- The record is decoded the same way whether the full-dump option is on or off. -/
theorem Zip64_EOCD_mode (cfg : Config) (b : Bool) :
    Dump_Zip64_end_of_central_directory_record { cfg with gIsFullDump := b } =
      Dump_Zip64_end_of_central_directory_record cfg := by
  rw [Zip64_EOCD_unfold, Zip64_EOCD_unfold]
  simp only [Dump_bytes_mode { cfg with gIsFullDump := b } cfg rfl, DUMP2x_mode,
    Print_section_mode]

/-- C11: for every Zip64 end of central directory record whose declared size
`s` is at least 44, with at least `s` bytes after the 8-byte size field,
`Dump_Zip64_end_of_central_directory_record` writes the nine field lines and
the section line of the extensible data sector and then dumps the sector with
`Dump_bytes` over exactly `s - 44` bytes (the rows written are those of that
dump), whether the full-dump option is on or off, and leaves the cursor
exactly `8 + s` bytes after the signature. -/
theorem C11_zip64_extensible_data_sector (cfg : Config) (s : Stream)
    (h44 : 44 ≤ le (s.rest.take 8))
    (hlen : 8 + le (s.rest.take 8) ≤ s.rest.length) :
    (Dump_Zip64_end_of_central_directory_record cfg s).fin = s.adv (8 + le (s.rest.take 8)) ∧
    (Dump_bytes cfg (le (s.rest.take 8) - 44) (s.adv 52)).fin
      = (s.adv 52).adv (le (s.rest.take 8) - 44) ∧
    (Dump_Zip64_end_of_central_directory_record cfg s).out.filter Line.isRow
      = (Dump_bytes cfg (le (s.rest.take 8) - 44) (s.adv 52)).out ∧
    sections (Dump_Zip64_end_of_central_directory_record cfg s).out
      = ["zip64 extensible data sector"] ∧
    fields (Dump_Zip64_end_of_central_directory_record cfg s).out =
      [("size of this record", 8, le (s.rest.take 8)),
       ("version made by", 2, le ((s.rest.drop 8).take 2)),
       ("version needed to extract", 2, le ((s.rest.drop 10).take 2)),
       ("number of this disk", 4, le ((s.rest.drop 12).take 4)),
       ("disk of starting directory", 4, le ((s.rest.drop 16).take 4)),
       ("directory-entries on this disk", 8, le ((s.rest.drop 20).take 8)),
       ("directory-entries in all disks", 8, le ((s.rest.drop 28).take 8)),
       ("size of the directory", 8, le ((s.rest.drop 36).take 8)),
       ("offset of starting directory", 8, le ((s.rest.drop 44).take 8))] ∧
    (∀ b : Bool, Dump_Zip64_end_of_central_directory_record { cfg with gIsFullDump := b } s =
      Dump_Zip64_end_of_central_directory_record cfg s) := by
  obtain ⟨fixed, hrun, hs, hr, hf⟩ := Zip64_EOCD_run cfg s (by omega) h44
  have hfin := Dump_bytes_fin cfg (le (s.rest.take 8) - 44) (s.adv 52)
    (by simp only [rest_adv, List.length_drop]; omega)
  have hrows := outAll_Dump_bytes (fun l => l.isRow = true) (fun _ h => h) cfg
    (le (s.rest.take 8) - 44) (s.adv 52)
  rw [hrun]
  refine ⟨?_, hfin, ?_, ?_, ?_, ?_⟩
  · rw [after_fin, hfin, adv_adv]
    congr 1
    omega
  · rw [after_out, List.filter_append, hr, List.nil_append, filter_isRow_rows _ hrows]
  · rw [after_out, sections_append, hs,
      sections_plain _ (fun l hl => row_plain l (hrows l hl))]
    rfl
  · rw [after_out, fields_append, hf, fields_rows _ hrows, List.append_nil]
  · intro b
    rw [Zip64_EOCD_mode, hrun]

theorem C11_zip64_extensible_data_sector_witness :
    44 ≤ le (sampleZip64End.rest.take 8) ∧
    8 + le (sampleZip64End.rest.take 8) ≤ sampleZip64End.rest.length ∧
    (Dump_Zip64_end_of_central_directory_record optionsOff sampleZip64End).fin
      = sampleZip64End.adv (8 + 46) ∧
    (Dump_Zip64_end_of_central_directory_record optionsOff sampleZip64End).out.filter
      Line.isRow = [Line.hexrow 0 [170, 187]] :=
  ⟨by decide, by decide,
    (C11_zip64_extensible_data_sector optionsOff sampleZip64End (by decide) (by decide)).1,
    (C11_zip64_extensible_data_sector optionsOff sampleZip64End (by decide)
      (by decide)).2.2.1.trans (by decide)⟩

/-! ## Dumping at the end of the file -/

theorem Dump_bytes_loop_short (cfg : Config) (length offset om : Nat) (prev current : List Nat)
    (s : Stream) (h : s.rest.length < length) :
    (Dump_bytes_loop cfg length offset om prev current s).fin = s.hitEof := by
  induction length generalizing s offset om prev current with
  | zero => omega
  | succ n ih =>
    cases hr : s.rest with
    | nil => simp [Dump_bytes_loop, bind_run, getc_nil s hr, pure_run]
    | cons b t =>
      have h1 : (s.adv 1).rest.length < n := by
        rw [rest_adv, hr]; rw [hr] at h; simp at h ⊢; omega
      have hh : (s.adv 1).hitEof = s.hitEof := hitEof_adv s 1 (by simp [hr])
      simp only [Dump_bytes_loop, bind_run, getc_cons s b t hr]
      split_ifs <;> simp [bind_run, say_run, pure_run, ih _ _ _ _ _ h1, hh]

theorem Dump_bytes_short (cfg : Config) (length : Nat) (s : Stream) (h : s.rest.length < length) :
    (Dump_bytes cfg length s).fin = s.hitEof := by
  have e := Dump_bytes_loop_short cfg length 0 0 [] [] s h
  simp only [Dump_bytes, bind_run]
  split <;> simp [say_run, pure_run, e]

theorem Dump_bytes_pos (cfg : Config) (length : Nat) (s : Stream) :
    (Dump_bytes cfg length s).fin.pos = s.pos + min length s.rest.length := by
  rcases Nat.lt_or_ge s.rest.length length with h | h
  · rw [Dump_bytes_short cfg length s h, Nat.min_eq_right (Nat.le_of_lt h)]
    rfl
  · rw [Dump_bytes_fin cfg length s h, Nat.min_eq_left h]
    rfl

/-! ## The rows of a hex dump -/

theorem Dump_bytes_loop_rows (cfg : Config) (length offset om : Nat) (prev current : List Nat)
    (s : Stream) :
    (Dump_bytes_loop cfg length offset om prev current s).out =
      (rowsLoop cfg.gOmitSameHexDumpLine ((s.rest.take length).map Fin.val)
        offset om prev current).1 ∧
    (Dump_bytes_loop cfg length offset om prev current s).val =
      (rowsLoop cfg.gOmitSameHexDumpLine ((s.rest.take length).map Fin.val)
        offset om prev current).2 := by
  induction length generalizing s offset om prev current with
  | zero => simp [Dump_bytes_loop, rowsLoop, pure_run]
  | succ n ih =>
    cases hr : s.rest with
    | nil => simp [Dump_bytes_loop, rowsLoop, bind_run, getc_nil s hr, pure_run]
    | cons b t =>
      have hr1 : (s.adv 1).rest = t := by rw [rest_adv, hr]; rfl
      have e := fun offset om prev current => ih offset om prev current (s.adv 1)
      simp only [hr1] at e
      simp only [Dump_bytes_loop, bind_run, getc_cons s b t hr, List.take_succ_cons,
        List.map_cons, rowsLoop]
      split_ifs <;> simp [bind_run, say_run, pure_run, e]

theorem rowsLoop_fill (elide : Bool) (pre bs : List Nat) (offset om : Nat)
    (prev current : List Nat) (h : current.length + pre.length < 16) :
    rowsLoop elide (pre ++ bs) offset om prev current =
      rowsLoop elide bs (offset + pre.length) om prev (current ++ pre) := by
  induction pre generalizing offset current with
  | nil => simp
  | cons c t ih =>
    simp only [List.length_cons] at h
    have h1 : ¬ ((current ++ [c]).length ≥ 16) := by
      simp only [List.length_append, List.length_singleton]; omega
    have h2 : (current ++ [c]).length + t.length < 16 := by
      simp only [List.length_append, List.length_singleton]; omega
    have e := ih (offset + 1) (current ++ [c]) h2
    simp only [List.cons_append, rowsLoop, h1, if_false]
    show rowsLoop elide (t ++ bs) (offset + 1) om prev (current ++ [c]) = _
    rw [e]
    simp [Nat.add_assoc, Nat.add_comm 1]

theorem rowsLoop_tail (elide : Bool) (pre : List Nat) (offset om : Nat) (prev : List Nat)
    (h : pre.length < 16) :
    rowsLoop elide pre offset om prev [] = ([], offset + pre.length, pre) := by
  have e := rowsLoop_fill elide pre [] offset om prev [] (by simpa using h)
  simpa [rowsLoop] using e

theorem rowsLoop_row (elide : Bool) (row bs : List Nat) (offset om : Nat) (prev : List Nat)
    (h : row.length = 16) :
    rowsLoop elide (row ++ bs) offset om prev [] =
      if elide && decide (offset + 16 > 16) && decide (prev = row) then
        ((if om + 1 = 1 then [Line.omitMark] else []) ++
            (rowsLoop elide bs (offset + 16) (om + 1) row []).1,
          (rowsLoop elide bs (offset + 16) (om + 1) row []).2)
      else
        (Line.hexrow offset row :: (rowsLoop elide bs (offset + 16) 0 row []).1,
          (rowsLoop elide bs (offset + 16) 0 row []).2) := by
  have hne : row ≠ [] := by intro e; rw [e] at h; simp at h
  obtain ⟨init, c, rfl⟩ : ∃ init c, row = init ++ [c] :=
    ⟨row.dropLast, row.getLast hne, (List.dropLast_append_getLast hne).symm⟩
  have hi : init.length = 15 := by simpa using h
  rw [List.append_assoc, rowsLoop_fill elide init ([c] ++ bs) offset om prev [] (by simp [hi])]
  have h1 : (init ++ [c]).length ≥ 16 := by simp [hi]
  simp only [List.nil_append, List.singleton_append, rowsLoop, h1, if_true, hi]
  have e1 : offset + 15 + 1 = offset + 16 := by omega
  have e2 : offset + 15 + 1 - 16 = offset := by omega
  rw [e1]
  simp only [Nat.add_sub_cancel]
  rfl

theorem rowAt_length (bytes : List Nat) (k : Nat) :
    (rowAt bytes k).length = min 16 (bytes.length - 16 * k) := by
  simp [rowAt]

theorem drop_rowAt (bytes : List Nat) (k : Nat) :
    bytes.drop (16 * k) = rowAt bytes k ++ bytes.drop (16 * (k + 1)) := by
  have e : bytes.drop (16 * (k + 1)) = (bytes.drop (16 * k)).drop 16 := by
    rw [List.drop_drop]; congr 1
  rw [e]
  exact (List.take_append_drop 16 _).symm

theorem Dump_bytes_rows (cfg : Config) (length : Nat) (s : Stream) :
    (Dump_bytes cfg length s).out =
      (rowsLoop cfg.gOmitSameHexDumpLine ((s.rest.take length).map Fin.val) 0 0 [] []).1 ++
        lastRow (rowsLoop cfg.gOmitSameHexDumpLine ((s.rest.take length).map Fin.val) 0 0 [] []).2 := by
  obtain ⟨e1, e2⟩ := Dump_bytes_loop_rows cfg length 0 0 [] [] s
  simp only [Dump_bytes, bind_run, e1, e2, lastRow]
  split <;> simp [say_run, pure_run]

theorem rowsLoop_from (elide : Bool) (bytes : List Nat) (m : Nat) :
    ∀ (k om : Nat) (prev : List Nat), 16 * k ≤ bytes.length → bytes.length ≤ 16 * k + 16 * m →
      (1 ≤ k → prev = rowAt bytes (k - 1)) →
      (om = 0 ↔ (elide && repeatsRow bytes (k - 1)) = false) →
      (rowsLoop elide (bytes.drop (16 * k)) (16 * k) om prev []).1 ++
          lastRow (rowsLoop elide (bytes.drop (16 * k)) (16 * k) om prev []).2 =
        (List.range' k (rowCount bytes.length - k)).flatMap (expectedRow elide bytes) := by
  induction m with
  | zero =>
    intro k om prev hk hm _ _
    have hl : bytes.length = 16 * k := by omega
    have hd : bytes.drop (16 * k) = [] := List.drop_eq_nil_of_le (by omega)
    have hc : rowCount bytes.length - k = 0 := by unfold rowCount; omega
    simp [hd, hc, rowsLoop, lastRow]
  | succ m ih =>
    intro k om prev hk hm hprev hom
    rcases Nat.lt_or_ge bytes.length (16 * k + 16) with hlt | hge
    · have hl : (bytes.drop (16 * k)).length < 16 := by
        simp only [List.length_drop]; omega
      rw [rowsLoop_tail elide _ _ _ _ hl]
      rcases Nat.eq_zero_or_pos (bytes.drop (16 * k)).length with h0 | h0
      · have hl0 : bytes.length = 16 * k := by
          simp only [List.length_drop] at h0; omega
        have hc : rowCount bytes.length - k = 0 := by unfold rowCount; omega
        simp [lastRow, h0, hc]
      · have hc : rowCount bytes.length - k = 1 := by
          simp only [List.length_drop] at h0
          unfold rowCount; omega
        have hrow : rowAt bytes k = bytes.drop (16 * k) := by
          unfold rowAt; exact List.take_of_length_le (by omega)
        have hrep : repeatsRow bytes k = false := by
          unfold repeatsRow
          rw [hrow]
          have h16 : decide ((bytes.drop (16 * k)).length = 16) = false := by
            apply decide_eq_false; omega
          rw [h16]; simp
        have hne : (bytes.drop (16 * k)).length ≠ 0 := by omega
        simp only [lastRow, hc, List.range'_one, List.flatMap_cons, List.flatMap_nil,
          expectedRow, hrep, Bool.and_false, hrow, List.nil_append, List.append_nil, hne,
          ne_eq, not_false_eq_true, if_true, Nat.add_sub_cancel]
        simp
    · have hlen : (rowAt bytes k).length = 16 := by rw [rowAt_length]; omega
      have hc : rowCount bytes.length - k = (rowCount bytes.length - (k + 1)) + 1 := by
        unfold rowCount; omega
      have hcond : (elide && decide (16 * k + 16 > 16) && decide (prev = rowAt bytes k)) =
          (elide && repeatsRow bytes k) := by
        rcases Nat.eq_zero_or_pos k with h0 | h0
        · subst h0; simp [repeatsRow]
        · have hp := hprev h0
          have e1 : decide (16 * k + 16 > 16) = true := by apply decide_eq_true; omega
          have e2 : decide (1 ≤ k) = true := by apply decide_eq_true; omega
          have e3 : decide (prev = rowAt bytes k) = decide (rowAt bytes k = rowAt bytes (k - 1)) := by
            rw [hp]; exact decide_eq_decide.mpr eq_comm
          have e4 : decide ((rowAt bytes k).length = 16) = true := decide_eq_true hlen
          unfold repeatsRow
          rw [e1, e2, e3, e4]; simp
      rw [drop_rowAt bytes k, rowsLoop_row elide _ _ _ _ _ hlen, hcond, hc, List.range'_succ,
        List.flatMap_cons]
      have hk1 : 16 * (k + 1) ≤ bytes.length := by omega
      have hm1 : bytes.length ≤ 16 * (k + 1) + 16 * m := by omega
      have hp1 : 1 ≤ k + 1 → rowAt bytes k = rowAt bytes (k + 1 - 1) := fun _ => rfl
      have e16 : 16 * k + 16 = 16 * (k + 1) := by omega
      cases hb : (elide && repeatsRow bytes k)
      · have hom1 : (0 : Nat) = 0 ↔ (elide && repeatsRow bytes (k + 1 - 1)) = false := by
          simp only [Nat.add_sub_cancel, hb]
        have e := ih (k + 1) 0 (rowAt bytes k) hk1 hm1 hp1 hom1
        simp only [Bool.false_eq_true, if_false, e16, expectedRow, hb]
        rw [← e]
        simp
      · have hom1 : om + 1 = 0 ↔ (elide && repeatsRow bytes (k + 1 - 1)) = false := by
          simp only [Nat.add_sub_cancel, hb]; simp
        have e := ih (k + 1) (om + 1) (rowAt bytes k) hk1 hm1 hp1 hom1
        have hel : elide = true := by
          cases elide
          · simp at hb
          · rfl
        have hom2 : om = 0 ↔ repeatsRow bytes (k - 1) = false := by
          rw [hom, hel]; simp
        simp only [if_true, e16, expectedRow, hb]
        rw [← e]
        by_cases h0 : om = 0
        · have := hom2.mp h0
          simp [h0, this]
        · have : repeatsRow bytes (k - 1) = true := by
            cases hr : repeatsRow bytes (k - 1)
            · exact absurd (hom2.mpr hr) h0
            · rfl
          simp [h0, this]

/-- The lines of `Dump_bytes` are those expected for the bytes it reads. -/
theorem Dump_bytes_expected (cfg : Config) (length : Nat) (s : Stream) :
    (Dump_bytes cfg length s).out =
      expectedRows cfg.gOmitSameHexDumpLine ((s.rest.take length).map Fin.val) := by
  rw [Dump_bytes_rows]
  have e := rowsLoop_from cfg.gOmitSameHexDumpLine ((s.rest.take length).map Fin.val)
    ((s.rest.take length).map Fin.val).length 0 0 [] (by omega) (by omega) (by omega)
    (by simp [repeatsRow])
  simp only [Nat.mul_zero, List.drop_zero, Nat.sub_zero] at e
  rw [e, expectedRows, List.range_eq_range']

/-! ## Rows left out of a hex dump -/

theorem repeatsRow_zero (bytes : List Nat) : repeatsRow bytes 0 = false := by
  simp [repeatsRow]

theorem expectedRow_cases (bytes : List Nat) (r : Nat) :
    (repeatsRow bytes r = false ∧
      expectedRow true bytes r = [Line.hexrow (16 * r) (rowAt bytes r)]) ∨
    (repeatsRow bytes r = true ∧ repeatsRow bytes (r - 1) = false ∧
      expectedRow true bytes r = [Line.omitMark]) ∨
    (repeatsRow bytes r = true ∧ repeatsRow bytes (r - 1) = true ∧
      expectedRow true bytes r = []) := by
  unfold expectedRow
  cases h1 : repeatsRow bytes r <;> cases h2 : repeatsRow bytes (r - 1) <;> simp

theorem mem_expectedRows (bytes : List Nat) (r : Nat) (hr : r < rowCount bytes.length) :
    Line.hexrow (16 * r) (rowAt bytes r) ∈ expectedRows true bytes ↔
      repeatsRow bytes r = false := by
  unfold expectedRows
  rw [List.mem_flatMap]
  constructor
  · rintro ⟨q, _, hq⟩
    rcases expectedRow_cases bytes q with ⟨h1, h2⟩ | ⟨_, _, h2⟩ | ⟨_, _, h2⟩
    · rw [h2, List.mem_singleton] at hq
      have e : 16 * r = 16 * q := (Line.hexrow.inj hq).1
      have : r = q := by omega
      rw [this]; exact h1
    · rw [h2, List.mem_singleton] at hq; cases hq
    · rw [h2] at hq; cases hq
  · intro h
    refine ⟨r, List.mem_range.mpr hr, ?_⟩
    rcases expectedRow_cases bytes r with ⟨_, h2⟩ | ⟨h1, _, _⟩ | ⟨h1, _, _⟩
    · rw [h2]; exact List.mem_singleton.mpr rfl
    · rw [h] at h1; cases h1
    · rw [h] at h1; cases h1

theorem count_marks (bytes : List Nat) (l : List Nat) :
    (l.flatMap (expectedRow true bytes)).count Line.omitMark =
      (l.filter (fun r => repeatsRow bytes r && !repeatsRow bytes (r - 1))).length := by
  induction l with
  | nil => rfl
  | cons r t ih =>
    rw [List.flatMap_cons, List.count_append, ih]
    rcases expectedRow_cases bytes r with ⟨h1, h2⟩ | ⟨h1, h3, h2⟩ | ⟨h1, h3, h2⟩
    · simp [h1, h2, List.filter_cons]
    · simp [h1, h2, h3, List.filter_cons, Nat.add_comm]
    · simp [h1, h2, h3, List.filter_cons]

theorem marks_apart (bytes : List Nat) (c : Nat) :
    ∀ k, noTwoMarks ((List.range' k c).flatMap (expectedRow true bytes)) ∧
      (repeatsRow bytes (k - 1) = true →
        ((List.range' k c).flatMap (expectedRow true bytes)).head? ≠ some Line.omitMark) := by
  induction c with
  | zero => intro k; simp [noTwoMarks]
  | succ c ih =>
    intro k
    obtain ⟨i1, i2⟩ := ih (k + 1)
    rw [Nat.add_sub_cancel] at i2
    rw [List.range'_succ, List.flatMap_cons]
    rcases expectedRow_cases bytes k with ⟨h1, h2⟩ | ⟨h1, h3, h2⟩ | ⟨h1, h3, h2⟩
    · rw [h2]
      refine ⟨?_, fun _ => by simp⟩
      unfold noTwoMarks at i1 ⊢
      rw [List.singleton_append, List.chain'_cons']
      exact ⟨fun b _ h => Line.noConfusion h.1, i1⟩
    · rw [h2]
      refine ⟨?_, fun h => by rw [h3] at h; cases h⟩
      unfold noTwoMarks at i1 ⊢
      rw [List.singleton_append, List.chain'_cons']
      refine ⟨fun b hb h => ?_, i1⟩
      apply i2 h1
      have hm : b = Line.omitMark := h.2
      rw [← hm]
      exact Option.mem_def.mp hb
    · rw [h2, List.nil_append]
      exact ⟨i1, fun _ => i2 h1⟩

theorem head_expectedRows (bytes : List Nat) (h : 0 < bytes.length) :
    (expectedRows true bytes).head? = some (Line.hexrow 0 (rowAt bytes 0)) := by
  have hc : rowCount bytes.length = (rowCount bytes.length - 1) + 1 := by
    unfold rowCount; omega
  unfold expectedRows
  rw [List.range_eq_range', hc, List.range'_succ, List.flatMap_cons]
  rcases expectedRow_cases bytes 0 with ⟨_, h2⟩ | ⟨h1, _, _⟩ | ⟨h1, _, _⟩
  · rw [h2]; rfl
  · rw [repeatsRow_zero] at h1; cases h1
  · rw [repeatsRow_zero] at h1; cases h1

theorem rowsLoop_three (row : List Nat) (h : row.length = 16) :
    (rowsLoop true (row ++ row ++ row) 0 0 [] []).1 ++
        lastRow (rowsLoop true (row ++ row ++ row) 0 0 [] []).2 =
      [Line.hexrow 0 row, Line.omitMark] := by
  have e : row ++ row ++ row = row ++ (row ++ (row ++ [])) := by simp
  have c1 : (true && decide (0 + 16 > 16) && decide (([] : List Nat) = row)) = false := by simp
  have c2 : (true && decide (0 + 16 + 16 > 16) && decide (row = row)) = true := by simp
  have c3 : (true && decide (0 + 16 + 16 + 16 > 16) && decide (row = row)) = true := by simp
  rw [e, rowsLoop_row true _ _ _ _ _ h, c1]
  simp only [Bool.false_eq_true, if_false]
  rw [rowsLoop_row true _ _ _ _ _ h, c2]
  simp only [if_true]
  rw [rowsLoop_row true _ _ _ _ _ h, c3]
  simp [rowsLoop, lastRow]

/-! ## C18: the cursor after a dump or a skip -/

/-- C18 as stated fails on a stream that ends early: with one byte left and
`length = 2` the loop of `Dump_bytes` stops at the end of the file, so the
full-dump path leaves the cursor 1 byte further and not 2, with the
end-of-file indicator set; the skip path seeks 2 bytes further. -/
theorem C18_short_stream_counterexample :
    (Dump_bytes optionsOff 2 ⟨[7], 0, false⟩).fin = ⟨[7], 1, true⟩ ∧
    (Dump_if_fulldump ⟨true, false, false, 0⟩ "file data" 2 ⟨[7], 0, false⟩).fin = ⟨[7], 1, true⟩ ∧
    (Dump_if_fulldump optionsOff "file data" 2 ⟨[7], 0, false⟩).fin = ⟨[7], 2, false⟩ := by
  decide

/-- C18, amended for a stream that ends early: for every stream and every
`length` below `2 ^ 63`, the range of the offset of a seek, `Dump_bytes`
advances the cursor by `length` bytes when that many are left and by the
number of bytes left otherwise, stopping at the end of the file;
`Dump_if_fulldump` does the same in full-dump mode, and in skip mode it
advances the cursor by exactly `length` bytes whatever the stream holds. -/
theorem C18_dump_and_skip_advance (cfg : Config) (caption : String) (length : Nat) (s : Stream)
    (h63 : length < 2 ^ 63) :
    (Dump_bytes cfg length s).fin.pos = s.pos + min length s.rest.length ∧
    (Dump_if_fulldump cfg caption length s).fin.pos =
      s.pos + (if cfg.gIsFullDump then min length s.rest.length else length) := by
  refine ⟨Dump_bytes_pos cfg length s, ?_⟩
  cases hf : cfg.gIsFullDump
  · cases hq : cfg.gQuiet <;>
      simp [Dump_if_fulldump, hf, hq, bind_run, fseek_fwd, say_run, pure_run]
  · simp only [Dump_if_fulldump, hf, if_true]
    exact Dump_bytes_pos cfg length s

theorem C18_dump_and_skip_advance_witness :
    (2 : Nat) < 2 ^ 63 ∧
    (Dump_bytes optionsOff 2 ⟨[7, 8, 9], 0, false⟩).fin.pos = 2 ∧
    (Dump_if_fulldump optionsOff "file data" 2 ⟨[7, 8, 9], 0, false⟩).fin.pos = 2 :=
  ⟨by decide, C18_dump_and_skip_advance optionsOff "file data" 2 ⟨[7, 8, 9], 0, false⟩ (by decide)⟩

/-! ## C19: repeated rows left out -/

/-- C19: with the omit option on, `Dump_bytes` asked for `length` bytes writes,
for the bytes it reads, row by row: nothing but the row in full with its offset
for a row that does not repeat the row before it, and for a row that does (a
full row of 16 bytes, byte-identical to the row immediately before it) no row
line, and one omit mark if the row before it was itself no repeat, that is
at the first row of each run of repeats.  So a row is shown in full exactly if
it is no repeat; the marks are as many as the runs of repeats; no two marks are
adjacent; the first row is always shown in full; and 48 bytes forming three
identical rows give the first row followed by a single mark. -/
theorem C19_omit_repeated_rows (cfg : Config) (length : Nat) (s : Stream) (bytes : List Nat)
    (hon : cfg.gOmitSameHexDumpLine = true)
    (hb : bytes = (s.rest.take length).map Fin.val) :
    (Dump_bytes cfg length s).out =
      (List.range ((bytes.length + 15) / 16)).flatMap (fun r =>
        if repeatsRow bytes r then (if repeatsRow bytes (r - 1) then [] else [Line.omitMark])
        else [Line.hexrow (16 * r) (rowAt bytes r)]) ∧
    (∀ r, r < (bytes.length + 15) / 16 →
      (Line.hexrow (16 * r) (rowAt bytes r) ∈ (Dump_bytes cfg length s).out ↔
        repeatsRow bytes r = false)) ∧
    (Dump_bytes cfg length s).out.count Line.omitMark =
      ((List.range ((bytes.length + 15) / 16)).filter
        (fun r => repeatsRow bytes r && !repeatsRow bytes (r - 1))).length ∧
    noTwoMarks (Dump_bytes cfg length s).out ∧
    (0 < bytes.length →
      (Dump_bytes cfg length s).out.head? = some (Line.hexrow 0 (rowAt bytes 0))) ∧
    (∀ row : List Nat, row.length = 16 → bytes = row ++ row ++ row →
      (Dump_bytes cfg length s).out = [Line.hexrow 0 row, Line.omitMark]) := by
  have e := Dump_bytes_expected cfg length s
  rw [hon, ← hb] at e
  refine ⟨?_, ?_, ?_, ?_, ?_, ?_⟩
  · rw [e]
    unfold expectedRows rowCount
    congr 1
  · intro r hr
    rw [e]
    exact mem_expectedRows bytes r hr
  · rw [e]
    exact count_marks bytes _
  · rw [e]
    have h := (marks_apart bytes (rowCount bytes.length) 0).1
    rw [← List.range_eq_range'] at h
    exact h
  · intro h0
    rw [e]
    exact head_expectedRows bytes h0
  · intro row hrow h3
    have e2 := Dump_bytes_rows cfg length s
    rw [hon, ← hb, h3] at e2
    rw [e2]
    exact rowsLoop_three row hrow

set_option maxRecDepth 100000 in
theorem C19_omit_repeated_rows_witness :
    (Config.mk true false true 0).gOmitSameHexDumpLine = true ∧
    (Dump_bytes ⟨true, false, true, 0⟩ 48
      ⟨[1, 2, 3, 4, 5, 6, 7, 8, 9, 10, 11, 12, 13, 14, 15, 16,
          1, 2, 3, 4, 5, 6, 7, 8, 9, 10, 11, 12, 13, 14, 15, 16,
          1, 2, 3, 4, 5, 6, 7, 8, 9, 10, 11, 12, 13, 14, 15, 16], 0, false⟩).out =
      [Line.hexrow 0 [1, 2, 3, 4, 5, 6, 7, 8, 9, 10, 11, 12, 13, 14, 15, 16], Line.omitMark] :=
  ⟨rfl,
   (C19_omit_repeated_rows ⟨true, false, true, 0⟩ 48
      ⟨[1, 2, 3, 4, 5, 6, 7, 8, 9, 10, 11, 12, 13, 14, 15, 16,
          1, 2, 3, 4, 5, 6, 7, 8, 9, 10, 11, 12, 13, 14, 15, 16,
          1, 2, 3, 4, 5, 6, 7, 8, 9, 10, 11, 12, 13, 14, 15, 16], 0, false⟩
      [1, 2, 3, 4, 5, 6, 7, 8, 9, 10, 11, 12, 13, 14, 15, 16,
          1, 2, 3, 4, 5, 6, 7, 8, 9, 10, 11, 12, 13, 14, 15, 16,
          1, 2, 3, 4, 5, 6, 7, 8, 9, 10, 11, 12, 13, 14, 15, 16] rfl (by decide)).2.2.2.2.2
      [1, 2, 3, 4, 5, 6, 7, 8, 9, 10, 11, 12, 13, 14, 15, 16] rfl (by decide)⟩

/-! ## C20: the rows hold the bytes read -/

theorem flatMap_rowAt (bytes : List Nat) (m : Nat) :
    ∀ k, 16 * k ≤ bytes.length → bytes.length ≤ 16 * k + 16 * m →
      (List.range' k (rowCount bytes.length - k)).flatMap (rowAt bytes) = bytes.drop (16 * k) := by
  induction m with
  | zero =>
    intro k hk hm
    have hd : bytes.drop (16 * k) = [] := List.drop_eq_nil_of_le (by omega)
    have hc : rowCount bytes.length - k = 0 := by unfold rowCount; omega
    simp [hd, hc]
  | succ m ih =>
    intro k hk hm
    rcases Nat.lt_or_ge bytes.length (16 * k + 16) with hlt | hge
    · rcases Nat.eq_or_lt_of_le hk with h0 | h0
      · have hd : bytes.drop (16 * k) = [] := List.drop_eq_nil_of_le (by omega)
        have hc : rowCount bytes.length - k = 0 := by unfold rowCount; omega
        simp [hd, hc]
      · have hc : rowCount bytes.length - k = 1 := by unfold rowCount; omega
        have hrow : rowAt bytes k = bytes.drop (16 * k) := by
          unfold rowAt; exact List.take_of_length_le (by simp only [List.length_drop]; omega)
        simp [hc, hrow]
    · have hc : rowCount bytes.length - k = (rowCount bytes.length - (k + 1)) + 1 := by
        unfold rowCount; omega
      rw [hc, List.range'_succ, List.flatMap_cons, ih (k + 1) (by omega) (by omega)]
      exact (drop_rowAt bytes k).symm

theorem flatMap_one {α β : Type} (f : α → β) (l : List α) :
    l.flatMap (fun r => [f r]) = l.map f := by
  induction l with
  | nil => rfl
  | cons a t ih => simp [List.flatMap_cons, ih]

theorem expectedRows_all (bytes : List Nat) :
    expectedRows false bytes =
      (List.range (rowCount bytes.length)).map (fun r => Line.hexrow (16 * r) (rowAt bytes r)) := by
  unfold expectedRows
  rw [← flatMap_one]
  congr 1

theorem rowBytes_expectedRows (bytes : List Nat) :
    (expectedRows false bytes).flatMap Line.rowBytes = bytes := by
  rw [expectedRows_all, List.flatMap_def, List.map_map]
  have e := flatMap_rowAt bytes bytes.length 0 (by omega) (by omega)
  simp only [Nat.sub_zero, Nat.mul_zero, List.drop_zero, ← List.range_eq_range'] at e
  rw [List.flatMap_def] at e
  exact e

/-- C20: with the omit option off, `Dump_bytes` asked for `length` bytes reads
the `n = min length (bytes left)` bytes at the cursor and writes exactly
`⌈n / 16⌉` lines, all of them rows; row number `r`, counted from 0, shows the
offset `16 r` and the bytes `16 r` to `16 r + 15` of those read (fewer in the
last row), so that the byte values of the rows, read in order, are exactly the
`n` bytes consumed.  A row line records the offset and the byte values that
the code formats with `+%08I64X` and, byte by byte, with `%02X` and the
separator `-` after the 8th value and a blank after the others. -/
theorem C20_hex_dump_lossless (cfg : Config) (length : Nat) (s : Stream)
    (hoff : cfg.gOmitSameHexDumpLine = false) :
    (Dump_bytes cfg length s).fin.pos = s.pos + (s.rest.take length).length ∧
    (Dump_bytes cfg length s).out.length = ((s.rest.take length).length + 15) / 16 ∧
    (Dump_bytes cfg length s).out =
      (List.range (((s.rest.take length).length + 15) / 16)).map
        (fun r => Line.hexrow (16 * r)
          ((((s.rest.take length).map Fin.val).drop (16 * r)).take 16)) ∧
    (Dump_bytes cfg length s).out.flatMap Line.rowBytes = (s.rest.take length).map Fin.val := by
  have e := Dump_bytes_expected cfg length s
  rw [hoff] at e
  have e1 := expectedRows_all ((s.rest.take length).map Fin.val)
  have e2 := rowBytes_expectedRows ((s.rest.take length).map Fin.val)
  simp only [List.length_map, rowCount, rowAt] at e1
  refine ⟨?_, ?_, ?_, ?_⟩
  · rw [Dump_bytes_pos, List.length_take]
  · rw [e, e1, List.length_map, List.length_range]
  · rw [e, e1]
  · rw [e, e2]

set_option maxRecDepth 100000 in
theorem C20_hex_dump_lossless_witness :
    optionsOff.gOmitSameHexDumpLine = false ∧
    (Dump_bytes optionsOff 18
        ⟨[9, 9, 0, 1, 2, 3, 4, 5, 6, 7, 8, 9, 10, 11, 12, 13, 14, 15, 255, 254, 7], 2, false⟩).out =
      [Line.hexrow 0 [0, 1, 2, 3, 4, 5, 6, 7, 8, 9, 10, 11, 12, 13, 14, 15],
       Line.hexrow 16 [255, 254]] ∧
    (Dump_bytes optionsOff 18
        ⟨[9, 9, 0, 1, 2, 3, 4, 5, 6, 7, 8, 9, 10, 11, 12, 13, 14, 15, 255, 254, 7], 2,
          false⟩).out.flatMap Line.rowBytes =
      [0, 1, 2, 3, 4, 5, 6, 7, 8, 9, 10, 11, 12, 13, 14, 15, 255, 254] :=
  ⟨rfl,
   (C20_hex_dump_lossless optionsOff 18
      ⟨[9, 9, 0, 1, 2, 3, 4, 5, 6, 7, 8, 9, 10, 11, 12, 13, 14, 15, 255, 254, 7], 2, false⟩
      rfl).2.2.1,
   (C20_hex_dump_lossless optionsOff 18
      ⟨[9, 9, 0, 1, 2, 3, 4, 5, 6, 7, 8, 9, 10, 11, 12, 13, 14, 15, 255, 254, 7], 2, false⟩
      rfl).2.2.2⟩

/-! ## The loop over the chunks of an extra field -/

theorem Dump_extra_field_loop_done (cfg : Config) (L fuel offset : Nat) (s : Stream)
    (h : L ≤ offset) : Dump_extra_field_loop cfg L fuel offset s = ⟨(), [], s⟩ := by
  cases fuel with
  | zero => rfl
  | succ f =>
    have h1 : ¬ (offset < L) := by omega
    unfold Dump_extra_field_loop
    rw [if_neg h1]
    rfl

theorem Dump_extra_field_loop_turn (cfg : Config) (L fuel offset : Nat) (s : Stream)
    (ho : offset < L) (h4 : 4 ≤ s.rest.length) :
    Dump_extra_field_loop cfg L (fuel + 1) offset s =
      (Dump_extra_field_loop cfg L fuel
          ((offset + (le ((s.rest.drop 2).take 2) + 4)) % SIZE_T)
          (Dump_extra_chunk cfg (le (s.rest.take 2)) (le ((s.rest.drop 2).take 2))
            (s.adv 4)).fin).after
        (Dump_extra_chunk cfg (le (s.rest.take 2)) (le ((s.rest.drop 2).take 2))
          (s.adv 4)).out := by
  have e1 := Read16_ok 0 s (by omega)
  have e2 := Read16_ok 0 (s.adv 2) (by simp only [rest_adv, List.length_drop]; omega)
  simp only [rest_adv] at e2
  conv_lhs => unfold Dump_extra_field_loop
  rw [if_pos ho]
  simp only [bind_run, e1, e2, if_true, adv_adv, List.nil_append, Res.after, Nat.reduceAdd]

theorem decodeChunks_cons (cfg : Config) (c : Nat × Nat) (cs : List (Nat × Nat)) (s : Stream)
    (h4 : 4 ≤ s.rest.length) :
    decodeChunks cfg (c :: cs) s =
      (decodeChunks cfg cs (Dump_extra_chunk cfg c.1 c.2 (s.adv 4)).fin).after
        (Dump_extra_chunk cfg c.1 c.2 (s.adv 4)).out := by
  have e1 := Read16_ok 0 s (by omega)
  have e2 := Read16_ok 0 (s.adv 2) (by simp only [rest_adv, List.length_drop]; omega)
  conv_lhs => unfold decodeChunks
  simp only [bind_run, e1, e2, adv_adv, List.nil_append, Res.after, Nat.reduceAdd]

theorem chunksLength_cons (c : Nat × Nat) (cs : List (Nat × Nat)) :
    chunksLength (c :: cs) = 4 + c.2 + chunksLength cs := by
  simp [chunksLength]

theorem chunksLength_dropLast (cs : List (Nat × Nat)) (h : cs ≠ []) :
    chunksLength cs.dropLast + 4 ≤ chunksLength cs := by
  induction cs with
  | nil => exact absurd rfl h
  | cons c t ih =>
    cases t with
    | nil => simp [chunksLength]
    | cons d u =>
      have := ih (by simp)
      rw [List.dropLast_cons₂, chunksLength_cons, chunksLength_cons c]
      omega

/-- The loop decodes whole chunks as long as the bytes accounted for stay
below the length of the area. -/
theorem Dump_extra_field_loop_chunks (cfg : Config) (L : Nat) (cs : List (Nat × Nat)) :
    ∀ (fuel offset : Nat) (s : Stream), chunksAt cfg cs s → cs.length ≤ fuel →
      (cs ≠ [] → offset + chunksLength cs.dropLast < L) →
      L ≤ offset + chunksLength cs → offset + chunksLength cs < SIZE_T →
      Dump_extra_field_loop cfg L fuel offset s = decodeChunks cfg cs s := by
  induction cs with
  | nil =>
    intro fuel offset s _ _ _ hL _
    rw [Dump_extra_field_loop_done cfg L fuel offset s (by simpa [chunksLength] using hL)]
    rfl
  | cons c t ih =>
    intro fuel offset s hc hf h1 hL hS
    obtain ⟨h4, hid, hsz, _, hrest⟩ := hc
    have ho : offset < L := by
      have := h1 (by simp)
      omega
    obtain ⟨f, rfl⟩ : ∃ f, fuel = f + 1 := ⟨fuel - 1, by simp at hf; omega⟩
    rw [Dump_extra_field_loop_turn cfg L f offset s ho h4, decodeChunks_cons cfg c t s h4,
      hid, hsz]
    rw [chunksLength_cons] at hL hS
    have hmod : (offset + (c.2 + 4)) % SIZE_T = offset + (c.2 + 4) :=
      Nat.mod_eq_of_lt (by omega)
    rw [hmod]
    rw [ih f (offset + (c.2 + 4)) _ hrest (by simpa using hf) ?_ (by omega) (by omega)]
    intro hne
    have h2 := h1 (by simp)
    obtain ⟨d, u, rfl⟩ : ∃ d u, t = d :: u := by
      cases t with
      | nil => exact absurd rfl hne
      | cons d u => exact ⟨d, u, rfl⟩
    rw [List.dropLast_cons₂, chunksLength_cons] at h2
    omega

theorem chunksAt_pos (cfg : Config) (cs : List (Nat × Nat)) :
    ∀ s, chunksAt cfg cs s →
      (decodeChunks cfg cs s).fin.pos = s.pos + chunksLength cs ∧
      (decodeChunks cfg cs s).fin.data = s.data ∧
      s.pos + 4 * cs.length ≤ (decodeChunks cfg cs s).fin.pos := by
  induction cs with
  | nil => intro s _; simp [decodeChunks, pure_run, chunksLength]
  | cons c t ih =>
    intro s hc
    obtain ⟨h4, _, _, hp, hrest⟩ := hc
    obtain ⟨i1, i2, i3⟩ := ih _ hrest
    have hk := (keeps_Dump_extra_chunk cfg c.1 c.2 (s.adv 4)).1
    rw [decodeChunks_cons cfg c t s h4]
    simp only [Res.after, i1, i2, hp, hk, chunksLength_cons, adv_data, List.length_cons]
    rw [hp] at i3
    refine ⟨by omega, trivial, by omega⟩

theorem chunksAt_fuel (cfg : Config) (cs : List (Nat × Nat)) :
    ∀ s, chunksAt cfg cs s → 4 * cs.length ≤ s.rest.length := by
  induction cs with
  | nil => intro s _; simp
  | cons c t ih =>
    intro s h
    obtain ⟨h4, _, _, hp, hrest⟩ := h
    have hk := (keeps_Dump_extra_chunk cfg c.1 c.2 (s.adv 4)).1
    have i1 := ih _ hrest
    rw [rest_length, hk, hp, adv_data] at i1
    rw [rest_length] at h4 ⊢
    simp only [List.length_cons]
    omega

/-! ## A chunk of unknown tag -/

theorem Dump_extra_chunk_unknown (cfg : Config) (id size : Nat) (s : Stream)
    (h : knownTag id = false) :
    Dump_extra_chunk cfg id size s =
      (Dump_bytes cfg size s).after (Print_extra "!! Unknown Extra Field" id size) := by
  simp only [knownTag, Bool.or_eq_false_iff, beq_eq_false_iff_ne, ne_eq] at h
  obtain ⟨⟨⟨⟨⟨⟨h1, h2⟩, h3⟩, h4⟩, h5⟩, h6⟩, h7⟩ := h
  unfold Dump_extra_chunk
  rw [if_neg h1, if_neg h2, if_neg h3, if_neg h4, if_neg h5, if_neg h6, if_neg h7]
  rfl

theorem unknownChunks_chunksAt (cfg : Config) (cs : List (Nat × Nat)) :
    ∀ s : Stream, unknownChunks cs s.rest → chunksAt cfg cs s := by
  induction cs with
  | nil => intro s _; trivial
  | cons c t ih =>
    intro s h
    obtain ⟨h4, hid, hsz, hk, hrest⟩ := h
    have hb : c.2 ≤ (s.adv 4).rest.length := by
      simp only [rest_adv, List.length_drop]; omega
    have hfin : (Dump_extra_chunk cfg c.1 c.2 (s.adv 4)).fin = s.adv (4 + c.2) := by
      rw [Dump_extra_chunk_unknown cfg c.1 c.2 _ hk]
      simp only [Res.after, Dump_bytes_fin cfg c.2 _ hb, adv_adv]
    refine ⟨by omega, hid, hsz, ?_, ?_⟩
    · rw [hfin]; simp only [adv_pos]; omega
    · rw [hfin]
      apply ih
      rw [rest_adv]
      exact hrest

/-! ## The NTFS chunk -/

theorem after_nil {α : Type} (r : Res α) : r.after [] = r := by
  cases r; rfl

theorem Read16_bind {β : Type} (v : Nat) (k : Bool × Nat → Dump β) (s : Stream)
    (h : 2 ≤ s.rest.length) :
    (Read16 v >>= k) s = k (true, le (s.rest.take 2)) (s.adv 2) := by
  rw [bind_after, Read16_ok v s h]
  exact after_nil _

theorem Read16_pos (v : Nat) (s : Stream) (h : 1 ≤ s.rest.length) :
    s.pos + 1 ≤ (Read16 v s).fin.pos := by
  rcases Nat.lt_or_ge s.rest.length 2 with h2 | h2
  · rw [Read16_fail v s h2]
    simp only [Stream.hitEof]
    omega
  · rw [Read16_ok v s h2]
    simp only [adv_pos]
    omega

theorem bind_pos_le {α β : Type} (m : Dump α) (k : α → Dump β) (hk : ∀ a, Keeps (k a))
    (s : Stream) : (m s).fin.pos ≤ ((m >>= k) s).fin.pos :=
  (hk (m s).val (m s).fin).2

/-- A turn of the loop that finds the time attribute, tag 1 with its 24 bytes:
the three times are printed and the loop goes on 28 bytes further, with 24
more bytes accounted for. -/
theorem NTFS_loop_time (cfg : Config) (fuel eo : Nat) (s : Stream) (h28 : 28 ≤ s.rest.length)
    (htag : le (s.rest.take 2) = 1) (hsize : le ((s.rest.drop 2).take 2) = 24) :
    Dump_extra_NTFS_loop cfg (fuel + 1) eo s =
      (Dump_extra_NTFS_loop cfg fuel ((eo + 24) % SIZE_T) (s.adv 28)).after
        (Print_extra "NTFS file time" 1 24 ++
          (Print_fmt Fmt.x "last mod time" 8 (le ((s.rest.drop 4).take 8)) ++
            (if cfg.gQuiet then [] else Print_filetime (le ((s.rest.drop 4).take 8))) ++
          (Print_fmt Fmt.x "last access time" 8 (le ((s.rest.drop 12).take 8)) ++
            (if cfg.gQuiet then [] else Print_filetime (le ((s.rest.drop 12).take 8))) ++
          (Print_fmt Fmt.x "last creation time" 8 (le ((s.rest.drop 20).take 8)) ++
            (if cfg.gQuiet then [] else Print_filetime (le ((s.rest.drop 20).take 8))))))) := by
  have h1 : ¬ (24 > 24) := by omega
  conv_lhs => unfold Dump_extra_NTFS_loop
  simp (disch := ((try simp only [rest_adv, List.length_drop, Nat.reduceAdd]); omega)) only
    [Read16_bind, adv_adv, rest_adv, htag, hsize, if_true, Nat.reduceAdd]
  simp (disch := ((try simp only [rest_adv, List.length_drop, Nat.reduceAdd]); omega)) only
    [DUMP8x_bind, say_bind, pure_bind_run, adv_adv, rest_adv, h1, if_false, Nat.reduceAdd,
     List.drop_drop, after_after, List.append_assoc]

theorem NTFS_loop_first_read (cfg : Config) (fuel eo : Nat) (s : Stream) :
    (Read16 0 s).fin.pos ≤ (Dump_extra_NTFS_loop cfg (fuel + 1) eo s).fin.pos := by
  conv_rhs => unfold Dump_extra_NTFS_loop
  apply bind_pos_le
  intro x
  obtain ⟨ok1, tag⟩ := x
  dsimp only
  repeat' first
    | with_reducible exact keeps_pure _
    | with_reducible exact keeps_Dump_extra_NTFS_loop _ _ _
    | with_reducible exact keeps_say _
    | with_reducible exact keeps_Read16 _
    | with_reducible exact keeps_DUMP8x _ _ _ _ _
    | with_reducible exact keeps_SkipUnknownData _ _
    | with_reducible exact keeps_Dump_bytes _ _
    | with_reducible apply keeps_ite
    | with_reducible apply keeps_bind
    | (intro (x : Bool × Nat); obtain ⟨a, b⟩ := x; dsimp only)
    | (intro x; try dsimp only)

theorem NTFS_loop_end (cfg : Config) (fuel eo : Nat) (s : Stream) (h : s.rest.length < 2) :
    Dump_extra_NTFS_loop cfg (fuel + 1) eo s = ⟨eo, [], s.hitEof⟩ := by
  have e := Read16_fail 0 s h
  conv_lhs => unfold Dump_extra_NTFS_loop
  simp only [bind_run, e, Bool.false_eq_true, if_false, pure_run, List.append_nil]

/-- The decoder run on a chunk of the documented shape: the reserved field and
the three times are printed, the loop goes on from 32 bytes further with 28
bytes accounted for, and the end of the function compares the declared length
with what the loop accounts for. -/
theorem Dump_extra_NTFS_documented (cfg : Config) (length : Nat) (s : Stream)
    (h32 : 32 ≤ s.rest.length) (htag : le ((s.rest.drop 4).take 2) = 1)
    (hsize : le ((s.rest.drop 6).take 2) = 24) :
    Dump_extra_NTFS cfg length s =
      (((if length > (Dump_extra_NTFS_loop cfg (s.rest.length - 4) 28 (s.adv 32)).val then
          SkipUnknownData cfg
            (length - (Dump_extra_NTFS_loop cfg (s.rest.length - 4) 28 (s.adv 32)).val)
        else pure ())
          (Dump_extra_NTFS_loop cfg (s.rest.length - 4) 28 (s.adv 32)).fin).after
        (Dump_extra_NTFS_loop cfg (s.rest.length - 4) 28 (s.adv 32)).out).after
      (Print_fmt Fmt.x "reserved" 4 (le (s.rest.take 4)) ++
        (Print_extra "NTFS file time" 1 24 ++
          (Print_fmt Fmt.x "last mod time" 8 (le ((s.rest.drop 8).take 8)) ++
            (if cfg.gQuiet then [] else Print_filetime (le ((s.rest.drop 8).take 8))) ++
          (Print_fmt Fmt.x "last access time" 8 (le ((s.rest.drop 16).take 8)) ++
            (if cfg.gQuiet then [] else Print_filetime (le ((s.rest.drop 16).take 8))) ++
          (Print_fmt Fmt.x "last creation time" 8 (le ((s.rest.drop 24).take 8)) ++
            (if cfg.gQuiet then []
              else Print_filetime (le ((s.rest.drop 24).take 8)))))))) := by
  have hl : (s.adv 4).rest.length = s.rest.length - 4 := by
    simp only [rest_adv, List.length_drop]
  have e := NTFS_loop_time cfg (s.rest.length - 4) 4 (s.adv 4)
    (by rw [hl]; omega) (by rw [rest_adv]; exact htag)
    (by rw [rest_adv, List.drop_drop]; exact hsize)
  have hmod : (4 + 24) % SIZE_T = 28 := by decide
  simp only [rest_adv, List.drop_drop, adv_adv, Nat.reduceAdd, hmod] at e
  unfold Dump_extra_NTFS
  rw [DUMP4_bind _ _ _ _ _ (by omega), bind_after, hl, e]
  simp only [after_val, after_out, after_fin, after_after, List.append_assoc]

theorem fields_Print_extra (nm : String) (id len : Nat) :
    fields (Print_extra nm id len) = [("extra tag", 2, id), ("extra size", 2, len)] := by
  simp [Print_extra, Print_x, Print_ux, fields]

theorem skips_Print_extra (nm : String) (id len : Nat) :
    skips (Print_extra nm id len) = [] := by
  simp [Print_extra, Print_x, Print_ux, skips]

theorem fields_quiet_filetime (q : Bool) (x : Nat) :
    fields (if q = true then [] else Print_filetime x) = [] := by
  cases q <;> rfl

theorem skips_quiet_filetime (q : Bool) (x : Nat) :
    skips (if q = true then [] else Print_filetime x) = [] := by
  cases q <;> rfl

theorem SkipUnknownData_skips (cfg : Config) (n : Nat) (s : Stream) :
    skips (SkipUnknownData cfg n s).out = [n] := by
  unfold SkipUnknownData
  rw [say_bind, after_out, skips_append]
  cases cfg.gIsFullDump
  · simp [fseek_fwd, skips]
  · simp only [if_true, skips_Dump_bytes, List.append_nil]
    rfl

theorem SkipUnknownData_seek (cfg : Config) (n : Nat) (s : Stream)
    (h : cfg.gIsFullDump = false) : (SkipUnknownData cfg n s).fin = s.skip n := by
  unfold SkipUnknownData
  rw [say_bind, after_fin, h]
  simp [fseek_fwd]

theorem fields_quiet_UTC (q : Bool) (x : Nat) :
    fields (if q = true then [] else Print_UTC x) = [] := by
  cases q <;> rfl

theorem skips_quiet_UTC (q : Bool) (x : Nat) :
    skips (if q = true then [] else Print_UTC x) = [] := by
  cases q <;> rfl

theorem SkipUnknownData_pos (cfg : Config) (n : Nat) (s : Stream) (h : n ≤ s.rest.length) :
    (SkipUnknownData cfg n s).fin.pos = s.pos + n := by
  rw [SkipUnknownData_ok cfg n s h]
  cases cfg.gIsFullDump <;> rfl

theorem SkipUnknownData_fields (cfg : Config) (n : Nat) (s : Stream) :
    fields (SkipUnknownData cfg n s).out = [] := by
  unfold SkipUnknownData
  rw [say_bind, after_out, fields_append]
  cases cfg.gIsFullDump
  · simp [fseek_fwd, fields]
  · simp only [if_true, List.append_nil]
    rw [fields_rows _ (outAll_Dump_bytes _ (fun l hl => hl) cfg _ _)]
    rfl


/-! ## C12 and C13: the chunks of an extra field -/

/-- C12: for every list `cs` of chunk tags and sizes whose chunks lie one
after the other from the cursor, the decoder of each consuming exactly the
size its header declares (as is the case for every list of whole chunks of
unknown tag), `Dump_extra_field` called with the length
`L = Σ (4 + size_i)` does what decoding the chunks one by one in stream
order, each once, does, and leaves the cursor exactly `L` bytes further. -/
theorem C12_extra_field_composition (cfg : Config) (cs : List (Nat × Nat)) (s : Stream)
    (L : Nat) (hc : chunksAt cfg cs s ∨ unknownChunks cs s.rest)
    (hL : L = chunksLength cs) (hS : L < SIZE_T) :
    Dump_extra_field cfg L s = decodeChunks cfg cs s ∧
    (Dump_extra_field cfg L s).fin.pos = s.pos + L := by
  have hc1 : chunksAt cfg cs s := hc.elim id (unknownChunks_chunksAt cfg cs s)
  have hf := chunksAt_fuel cfg cs s hc1
  have e : Dump_extra_field cfg L s = decodeChunks cfg cs s := by
    unfold Dump_extra_field
    apply Dump_extra_field_loop_chunks cfg L cs _ 0 s hc1 (by omega)
    · intro hne
      have := chunksLength_dropLast cs hne
      omega
    · omega
    · omega
  refine ⟨e, ?_⟩
  rw [e, (chunksAt_pos cfg cs s hc1).1, hL]

set_option maxRecDepth 100000 in
theorem C12_extra_field_composition_witness :
    chunksAt optionsOff [(0x9999, 2), (0x5455, 5)] sampleExtra ∧
    (15 : Nat) = chunksLength [(0x9999, 2), (0x5455, 5)] ∧
    Dump_extra_field optionsOff 15 sampleExtra =
      decodeChunks optionsOff [(0x9999, 2), (0x5455, 5)] sampleExtra ∧
    (Dump_extra_field optionsOff 15 sampleExtra).fin.pos = 17 :=
  ⟨by decide, by decide,
    C12_extra_field_composition optionsOff [(0x9999, 2), (0x5455, 5)] sampleExtra 15
      (Or.inl (by decide)) (by decide) (by decide)⟩

set_option maxRecDepth 100000 in
/-- C13 as stated fails both ways.  An area of length 4 whose only chunk
declares 2 bytes of payload: the chunk is decoded whole, both bytes are dumped
and the cursor ends 6 bytes further, not 4.  An area of length 6 holding one
empty chunk and two more bytes: the two bytes and the two bytes after the area
are read as the header of a further chunk of tag `0xBBAA` and size 1, whose
payload is dumped; the cursor ends 9 bytes further, not 6, and nothing is
reported as skipped. -/
theorem C13_length_mismatch_counterexample :
    (Dump_extra_field optionsOff 4 ⟨[0x99, 0x99, 2, 0, 1, 2, 3, 4], 0, false⟩).fin.pos = 6 ∧
    (Dump_extra_field optionsOff 4 ⟨[0x99, 0x99, 2, 0, 1, 2, 3, 4], 0, false⟩).out =
      Print_extra "!! Unknown Extra Field" 0x9999 2 ++ [Line.hexrow 0 [1, 2]] ∧
    (Dump_extra_field optionsOff 6
      ⟨[0x99, 0x99, 0, 0, 0xAA, 0xBB, 1, 0, 7, 8], 0, false⟩).fin.pos = 9 ∧
    (Dump_extra_field optionsOff 6 ⟨[0x99, 0x99, 0, 0, 0xAA, 0xBB, 1, 0, 7, 8], 0, false⟩).out =
      Print_extra "!! Unknown Extra Field" 0x9999 0 ++
        Print_extra "!! Unknown Extra Field" 0xBBAA 1 ++ [Line.hexrow 0 [7]] := by
  decide

/-- C13, amended to what the loop does with whole chunks: for every area
length `L` and every list `cs` of chunk tags and sizes whose chunks lie one
after the other from the cursor, the decoder of each consuming exactly the
size its header declares, if the header of the last chunk lies within the
first `L` bytes (the chunks before it take at most `L - 4` bytes) and all
chunks together take at least `L` bytes, then `Dump_extra_field` decodes
exactly these chunks, each whole, and leaves the cursor as many bytes further
as they take: `L` bytes when the last chunk ends at the end of the area, and
more than `L` when it overruns it, the chunk being decoded in full beyond the
end of the area. -/
theorem C13_extra_field_whole_chunks (cfg : Config) (cs : List (Nat × Nat)) (s : Stream)
    (L : Nat) (hc : chunksAt cfg cs s)
    (h1 : cs ≠ [] → chunksLength cs.dropLast + 4 ≤ L) (h2 : L ≤ chunksLength cs)
    (hS : chunksLength cs < SIZE_T) :
    Dump_extra_field cfg L s = decodeChunks cfg cs s ∧
    (Dump_extra_field cfg L s).fin.pos = s.pos + chunksLength cs ∧
    ((Dump_extra_field cfg L s).fin.pos = s.pos + L ↔ chunksLength cs = L) := by
  have hf := chunksAt_fuel cfg cs s hc
  have e : Dump_extra_field cfg L s = decodeChunks cfg cs s := by
    unfold Dump_extra_field
    apply Dump_extra_field_loop_chunks cfg L cs _ 0 s hc (by omega)
    · intro hne
      have := h1 hne
      omega
    · omega
    · omega
  have hp := (chunksAt_pos cfg cs s hc).1
  refine ⟨e, by rw [e, hp], ?_⟩
  rw [e, hp]
  omega

set_option maxRecDepth 100000 in
theorem C13_extra_field_whole_chunks_witness :
    chunksAt optionsOff [(0x9999, 2), (0x5455, 5)] sampleExtra ∧
    chunksLength [(0x9999, 2)] + 4 ≤ 14 ∧ 14 ≤ chunksLength [(0x9999, 2), (0x5455, 5)] ∧
    Dump_extra_field optionsOff 14 sampleExtra =
      decodeChunks optionsOff [(0x9999, 2), (0x5455, 5)] sampleExtra ∧
    (Dump_extra_field optionsOff 14 sampleExtra).fin.pos = 2 + 15 :=
  ⟨by decide, by decide, by decide,
    (C13_extra_field_whole_chunks optionsOff [(0x9999, 2), (0x5455, 5)] sampleExtra 14
      (by decide) (fun _ => by decide) (by decide) (by decide)).1,
    (C13_extra_field_whole_chunks optionsOff [(0x9999, 2), (0x5455, 5)] sampleExtra 14
      (by decide) (fun _ => by decide) (by decide) (by decide)).2.1⟩

/-! ## C14: the Zip64 extended-information chunk -/

/-- The decoder run from a stream with 28 bytes left: the four field lines,
whatever the declared length, then the bytes of the chunk beyond the 28th
reported as unknown. -/
theorem Zip64_Extended_Info_run (cfg : Config) (length : Nat) (s : Stream)
    (h28 : 28 ≤ s.rest.length) :
    Dump_extra_Zip64_Extended_Info cfg length s =
      (if length > 28 then SkipUnknownData cfg (length - 28) (s.adv 28)
        else ⟨(), [], s.adv 28⟩).after
      (Print_fmt Fmt.ux "Original Size" 8 (le (s.rest.take 8)) ++
        (Print_fmt Fmt.ux "Compressed Size" 8 (le ((s.rest.drop 8).take 8)) ++
        (Print_fmt Fmt.ux "Relative Header Offset" 8 (le ((s.rest.drop 16).take 8)) ++
        Print_fmt Fmt.u "Disk Start Number" 4 (le ((s.rest.drop 24).take 4))))) := by
  unfold Dump_extra_Zip64_Extended_Info
  simp (disch := ((try simp only [rest_adv, List.length_drop, Nat.reduceAdd]); omega)) only
    [DUMP8_bind, DUMP4_bind, adv_adv, rest_adv, pure_run,
     adv_pos, dump_ite, Nat.reduceAdd, List.drop_drop, after_after, List.append_assoc]

/-- C14 on the code: from a stream with at least 28 bytes left, and the
declared `length` of them, `Dump_extra_Zip64_Extended_Info` reads and prints
all four fields, 28 bytes, whatever `length` is; it leaves the cursor
`max length 28` bytes further, so the chunk is consumed exactly only if
`length ≥ 28`: with a declared length of 8, 16 or 24 the cursor ends 20, 12 or
4 bytes beyond the chunk. -/
theorem C14_zip64_extended_info_reads_all_fields (cfg : Config) (length : Nat) (s : Stream)
    (h28 : 28 ≤ s.rest.length) (hlen : length ≤ s.rest.length) :
    (Dump_extra_Zip64_Extended_Info cfg length s).fin.pos = s.pos + max length 28 ∧
    fields (Dump_extra_Zip64_Extended_Info cfg length s).out =
      [("Original Size", 8, le (s.rest.take 8)),
       ("Compressed Size", 8, le ((s.rest.drop 8).take 8)),
       ("Relative Header Offset", 8, le ((s.rest.drop 16).take 8)),
       ("Disk Start Number", 4, le ((s.rest.drop 24).take 4))] ∧
    ((Dump_extra_Zip64_Extended_Info cfg length s).fin.pos = s.pos + length ↔ 28 ≤ length) := by
  rw [Zip64_Extended_Info_run cfg length s h28]
  by_cases h : length > 28
  · have hb : length - 28 ≤ (s.adv 28).rest.length := by
      simp only [rest_adv, List.length_drop]; omega
    have hm : max length 28 = length := Nat.max_eq_left (by omega)
    rw [if_pos h, SkipUnknownData_ok cfg _ _ hb, hm]
    have hrows : fields (if cfg.gIsFullDump = true then
        (Dump_bytes cfg (length - 28) (s.adv 28)).out else []) = [] := by
      split
      · exact fields_rows _ (outAll_Dump_bytes _ (fun l hl => hl) cfg _ _)
      · rfl
    refine ⟨?_, ?_, ?_⟩
    · cases cfg.gIsFullDump <;> simp <;> omega
    · have hsk : fields (Line.skipUnknown (length - 28) ::
          (if cfg.gIsFullDump = true then
            (Dump_bytes cfg (length - 28) (s.adv 28)).out else [])) = [] := by
        rw [← List.singleton_append, fields_append, hrows]
        rfl
      simp only [after_mk, fields_append, fields_Print_fmt, List.cons_append, List.nil_append,
        hsk, List.append_nil]
    · cases cfg.gIsFullDump <;> simp <;> omega
  · have hm : max length 28 = 28 := Nat.max_eq_right (by omega)
    rw [if_neg h, hm]
    refine ⟨rfl, ?_, ?_⟩
    · simp [fields_append]
    · simp only [after_fin, adv_pos]; omega

set_option maxRecDepth 100000 in
theorem C14_zip64_extended_info_reads_all_fields_witness :
    28 ≤ (sampleZip64Extra.adv 4).rest.length ∧ 16 ≤ (sampleZip64Extra.adv 4).rest.length ∧
    (Dump_extra_Zip64_Extended_Info optionsOff 16 (sampleZip64Extra.adv 4)).fin.pos = 4 + 28 ∧
    fields (Dump_extra_Zip64_Extended_Info optionsOff 16 (sampleZip64Extra.adv 4)).out =
      [("Original Size", 8, 0x0101), ("Compressed Size", 8, 0x0202),
       ("Relative Header Offset", 8, 0x0303030300009999),
       ("Disk Start Number", 4, 0x04040404)] ∧
    fields (Dump_extra_field optionsOff 24 sampleZip64Extra).out =
      [("extra tag", 2, 1), ("extra size", 2, 16), ("Original Size", 8, 0x0101),
       ("Compressed Size", 8, 0x0202), ("Relative Header Offset", 8, 0x0303030300009999),
       ("Disk Start Number", 4, 0x04040404), ("extra tag", 2, 0x0505),
       ("extra size", 2, 0x0505)] ∧
    (Dump_extra_field optionsOff 24 sampleZip64Extra).fin.pos = 36 :=
  ⟨by decide, by decide,
    (C14_zip64_extended_info_reads_all_fields optionsOff 16 (sampleZip64Extra.adv 4)
      (by decide) (by decide)).1,
    (C14_zip64_extended_info_reads_all_fields optionsOff 16 (sampleZip64Extra.adv 4)
      (by decide) (by decide)).2.1.trans (by decide),
    by decide, by decide⟩

/-! ## C15: the NTFS chunk -/

/-- C15 on the code: on every NTFS chunk of the documented shape (4 reserved
bytes, attribute tag 1, size 24, three times) `Dump_extra_NTFS`, called with
the declared length 32, prints the reserved field and the three 8-byte
times; but its loop has no bound, so when any byte follows the chunk it reads
on, and the cursor ends beyond the first byte after the chunk; and the loop
does not count the four bytes of the attribute header, so when the file ends
with the chunk, four bytes are reported as unknown data and, in skip mode,
sought over, 36 bytes from the start. -/
theorem C15_ntfs_reads_past_chunk (cfg : Config) (s : Stream)
    (h32 : 32 ≤ s.rest.length) (htag : le ((s.rest.drop 4).take 2) = 1)
    (hsize : le ((s.rest.drop 6).take 2) = 24) :
    (∃ more, fields (Dump_extra_NTFS cfg 32 s).out =
      [("reserved", 4, le (s.rest.take 4)), ("extra tag", 2, 1), ("extra size", 2, 24),
       ("last mod time", 8, le ((s.rest.drop 8).take 8)),
       ("last access time", 8, le ((s.rest.drop 16).take 8)),
       ("last creation time", 8, le ((s.rest.drop 24).take 8))] ++ more) ∧
    (32 < s.rest.length → s.pos + 32 < (Dump_extra_NTFS cfg 32 s).fin.pos) ∧
    (s.rest.length = 32 →
      skips (Dump_extra_NTFS cfg 32 s).out = [4] ∧
      (cfg.gIsFullDump = false → (Dump_extra_NTFS cfg 32 s).fin.pos = s.pos + 36)) := by
  rw [Dump_extra_NTFS_documented cfg 32 s h32 htag hsize]
  refine ⟨?_, ?_, ?_⟩
  · simp only [after_out, fields_append, fields_Print_fmt, fields_Print_extra,
      fields_quiet_filetime, List.append_nil, List.cons_append, List.nil_append]
    exact ⟨_, rfl⟩
  · intro hmore
    obtain ⟨f, hf⟩ : ∃ f, s.rest.length - 4 = f + 1 := ⟨s.rest.length - 5, by omega⟩
    have h1 := NTFS_loop_first_read cfg f 28 (s.adv 32)
    have h2 := Read16_pos 0 (s.adv 32) (by simp only [rest_adv, List.length_drop]; omega)
    have hk : Keeps (if 32 > (Dump_extra_NTFS_loop cfg (s.rest.length - 4) 28 (s.adv 32)).val
        then SkipUnknownData cfg
          (32 - (Dump_extra_NTFS_loop cfg (s.rest.length - 4) 28 (s.adv 32)).val)
        else pure ()) :=
      keeps_ite _ _ _ (keeps_SkipUnknownData _ _) (keeps_pure _)
    have h3 := (hk (Dump_extra_NTFS_loop cfg (s.rest.length - 4) 28 (s.adv 32)).fin).2
    rw [← hf] at h1
    simp only [after_fin, adv_pos] at h2 ⊢
    omega
  · intro h
    have hr : (s.adv 32).rest.length < 2 := by
      simp only [rest_adv, List.length_drop]; omega
    have hf : s.rest.length - 4 = 27 + 1 := by omega
    have hp : (s.adv 32).hitEof.pos = s.pos + 32 := by
      simp only [Stream.hitEof, rest_adv, List.length_drop, adv_pos]; omega
    rw [hf, NTFS_loop_end cfg 27 28 (s.adv 32) hr]
    have h28 : (32 : Nat) > 28 := by omega
    simp only [if_pos h28, after_out, after_fin, skips_append, skips_Print_fmt,
      skips_Print_extra, skips_quiet_filetime, SkipUnknownData_skips, List.nil_append]
    refine ⟨trivial, fun hskip => ?_⟩
    rw [SkipUnknownData_seek cfg _ _ hskip, skip_pos, hp]

set_option maxRecDepth 100000 in
theorem C15_ntfs_reads_past_chunk_witness :
    32 ≤ sampleNTFS.rest.length ∧ le ((sampleNTFS.rest.drop 4).take 2) = 1 ∧
    le ((sampleNTFS.rest.drop 6).take 2) = 24 ∧ 32 < sampleNTFS.rest.length ∧
    sampleNTFS.pos + 32 < (Dump_extra_NTFS optionsOff 32 sampleNTFS).fin.pos ∧
    (Dump_extra_NTFS optionsOff 32 sampleNTFS).fin.pos = 4 + 32 + 8 ∧
    fields (Dump_extra_NTFS optionsOff 32 sampleNTFS).out =
      [("reserved", 4, 0), ("extra tag", 2, 1), ("extra size", 2, 24),
       ("last mod time", 8, 1), ("last access time", 8, 2), ("last creation time", 8, 3),
       ("extra tag", 2, 0x9999), ("extra size", 2, 0)] ∧
    skips (Dump_extra_NTFS optionsOff 32 sampleNTFS).out = [4] ∧
    (Dump_extra_field optionsOff 36 ⟨sampleNTFS.data, 0, false⟩).fin.pos = 36 + 8 :=
  ⟨by decide, by decide, by decide, by decide,
    (C15_ntfs_reads_past_chunk optionsOff sampleNTFS (by decide) (by decide) (by decide)).2.1
      (by decide),
    by decide, by decide, by decide, by decide⟩

/-! ## C16: the extended-timestamp chunk -/

/-- C16: for every flag byte `f` and every declared length
`L ≥ 1 + 4 * popcount (f & 7)` with at least `L` bytes left,
`Dump_extra_ExtendedTimestamp` prints the flags and then one 4-byte time for
each bit set among the bits 0, 1, 2 of `f` and none for a clear bit, in the
order modification, access, creation, each read from the bytes right after
the one before; it reports the `L - 1 - 4 * popcount (f & 7)` bytes that
remain, if any, as skipped unknown data, and leaves the cursor exactly `L`
bytes further. -/
theorem C16_extended_timestamp (cfg : Config) (L : Nat) (s : Stream) (f : Nat)
    (hf : le (s.rest.take 1) = f) (hL : 1 + 4 * timeBits f ≤ L) (hlen : L ≤ s.rest.length) :
    fields (Dump_extra_ExtendedTimestamp cfg L s).out =
      [("Flags", 1, f)] ++
      (if f &&& 1 ≠ 0 then [("last mod time", 4, le ((s.rest.drop 1).take 4))] else []) ++
      (if f &&& 2 ≠ 0 then
        [("last access time", 4,
          le ((s.rest.drop (1 + 4 * (if f &&& 1 ≠ 0 then 1 else 0))).take 4))] else []) ++
      (if f &&& 4 ≠ 0 then
        [("last create time", 4,
          le ((s.rest.drop (1 + 4 * ((if f &&& 1 ≠ 0 then 1 else 0) +
            (if f &&& 2 ≠ 0 then 1 else 0)))).take 4))] else []) ∧
    (Dump_extra_ExtendedTimestamp cfg L s).fin.pos = s.pos + L ∧
    skips (Dump_extra_ExtendedTimestamp cfg L s).out =
      (if L > 1 + 4 * timeBits f then [L - (1 + 4 * timeBits f)] else []) := by
  unfold timeBits at hL ⊢
  unfold Dump_extra_ExtendedTimestamp
  rw [DUMP1_bind _ _ _ _ _ (by omega), hf]
  by_cases h0 : f &&& 1 = 0 <;> by_cases h1 : f &&& 2 = 0 <;> by_cases h2 : f &&& 4 = 0
  all_goals
    simp only [ne_eq, h0, h1, h2, if_true, if_false, not_false_eq_true, not_true_eq_false,
      Nat.reduceAdd, Nat.reduceMul, Nat.add_zero, Nat.mul_zero, Nat.mul_one, Nat.zero_add,
      true_and, false_and] at hL ⊢
  all_goals
    simp (disch := ((try simp only [rest_adv, List.length_drop, Nat.reduceAdd]); omega)) only
      [dump_ite, DUMP4x_bind, pure_bind_run, if_pos, if_neg, gt_iff_lt, adv_adv, rest_adv,
       Nat.reduceAdd, List.drop_drop, after_after, after_out, after_fin, List.append_assoc]
  all_goals
    simp only [fields_append, skips_append, fields_Print_fmt, skips_Print_fmt, fields_quiet_UTC,
      skips_quiet_UTC, List.nil_append, List.append_nil, List.cons_append, List.singleton_append]
  all_goals
    split_ifs with hk
  all_goals
    first
      | (rw [SkipUnknownData_pos cfg _ _
            (by simp only [rest_adv, List.length_drop]; omega)]
         simp only [SkipUnknownData_fields, SkipUnknownData_skips, List.append_nil, adv_pos,
           true_and, and_true]
         omega)
      | (simp only [pure_run, fields, skips, List.filterMap_nil, List.append_nil, adv_pos,
           true_and, and_true]
         omega)

set_option maxRecDepth 100000 in
theorem C16_extended_timestamp_witness :
    le (sampleTimestamp.rest.take 1) = 5 ∧ 1 + 4 * timeBits 5 ≤ 10 ∧
    10 ≤ sampleTimestamp.rest.length ∧
    fields (Dump_extra_ExtendedTimestamp optionsOff 10 sampleTimestamp).out =
      [("Flags", 1, 5), ("last mod time", 4, 1), ("last create time", 4, 3)] ∧
    (Dump_extra_ExtendedTimestamp optionsOff 10 sampleTimestamp).fin.pos = 4 + 10 ∧
    skips (Dump_extra_ExtendedTimestamp optionsOff 10 sampleTimestamp).out = [1] :=
  ⟨by decide, by decide, by decide,
    (C16_extended_timestamp optionsOff 10 sampleTimestamp 5 (by decide) (by decide)
      (by decide)).1.trans (by decide),
    (C16_extended_timestamp optionsOff 10 sampleTimestamp 5 (by decide) (by decide)
      (by decide)).2.1,
    (C16_extended_timestamp optionsOff 10 sampleTimestamp 5 (by decide) (by decide)
      (by decide)).2.2.trans (by decide)⟩

/-! ## C17: a chunk of unknown tag -/

/-- C17: for every chunk whose tag `id` is none of `0x0001`, `0x0009`,
`0x000A`, `0x4453`, `0x5455`, `0x6375`, `0x7075`, with its declared `size`
bytes of payload all there, a turn of the loop of `Dump_extra_field`, at
whatever offset below the length `L` of the area, writes the lines of the
unknown-field marker with the tag and the size, then the rows of a hex dump of
exactly the `size` bytes of the payload, and goes on `4 + size` bytes further
with `size + 4` more bytes accounted for.  With the omit option off the byte
values of the rows are exactly the payload.  The full-dump option plays no
part: an area holding just this chunk gives the same result with the option on
and off. -/
theorem C17_unknown_extra_field_tag (cfg : Config) (L fuel offset : Nat) (s : Stream)
    (id size : Nat) (hid : le (s.rest.take 2) = id) (hsize : le ((s.rest.drop 2).take 2) = size)
    (hk : knownTag id = false) (hlen : 4 + size ≤ s.rest.length) (ho : offset < L) :
    Dump_extra_field_loop cfg L (fuel + 1) offset s =
      (Dump_extra_field_loop cfg L fuel ((offset + (size + 4)) % SIZE_T)
          (s.adv (4 + size))).after
        (Print_extra "!! Unknown Extra Field" id size ++
          expectedRows cfg.gOmitSameHexDumpLine (((s.rest.drop 4).take size).map Fin.val)) ∧
    (cfg.gOmitSameHexDumpLine = false →
      (expectedRows cfg.gOmitSameHexDumpLine
        (((s.rest.drop 4).take size).map Fin.val)).flatMap Line.rowBytes =
          ((s.rest.drop 4).take size).map Fin.val) ∧
    (∀ b : Bool, Dump_extra_field { cfg with gIsFullDump := b } (4 + size) s =
      ⟨(), Print_extra "!! Unknown Extra Field" id size ++
          expectedRows cfg.gOmitSameHexDumpLine (((s.rest.drop 4).take size).map Fin.val),
        s.adv (4 + size)⟩) := by
  have hb : size ≤ (s.adv 4).rest.length := by
    simp only [rest_adv, List.length_drop]; omega
  have turn : ∀ (c : Config) (L f o : Nat), o < L →
      c.gOmitSameHexDumpLine = cfg.gOmitSameHexDumpLine →
      Dump_extra_field_loop c L (f + 1) o s =
        (Dump_extra_field_loop c L f ((o + (size + 4)) % SIZE_T) (s.adv (4 + size))).after
          (Print_extra "!! Unknown Extra Field" id size ++
            expectedRows cfg.gOmitSameHexDumpLine
              (((s.rest.drop 4).take size).map Fin.val)) := by
    intro c L f o hoL hc
    have e := Dump_bytes_expected c size (s.adv 4)
    rw [rest_adv, hc] at e
    rw [Dump_extra_field_loop_turn c L f o s hoL (by omega), hid, hsize,
      Dump_extra_chunk_unknown c id size _ hk]
    simp only [Res.after, Dump_bytes_fin c size _ hb, adv_adv, e]
  refine ⟨turn cfg L fuel offset ho rfl, ?_, ?_⟩
  · intro hoff
    rw [hoff]
    exact rowBytes_expectedRows _
  · intro b
    have hs : size < 256 ^ 2 := by
      rw [← hsize]
      refine Nat.lt_of_lt_of_le (le_lt _) (Nat.pow_le_pow_right (by omega) ?_)
      simp only [List.length_take]; omega
    have hmod : (0 + (size + 4)) % SIZE_T = size + 4 := by
      rw [Nat.zero_add]
      exact Nat.mod_eq_of_lt (by unfold SIZE_T; omega)
    unfold Dump_extra_field
    rw [turn { cfg with gIsFullDump := b } (4 + size) s.rest.length 0 (by omega) rfl, hmod,
      Dump_extra_field_loop_done _ _ _ _ _ (by omega)]
    simp [Res.after]

set_option maxRecDepth 100000 in
theorem C17_unknown_extra_field_tag_witness :
    knownTag 0x9999 = false ∧
    Dump_extra_field optionsOff 6 sampleExtra =
      ⟨(), Print_extra "!! Unknown Extra Field" 0x9999 2 ++ [Line.hexrow 0 [0xAA, 0xBB]],
        sampleExtra.adv 6⟩ ∧
    Dump_extra_field ⟨true, false, false, 0⟩ 6 sampleExtra =
      ⟨(), Print_extra "!! Unknown Extra Field" 0x9999 2 ++ [Line.hexrow 0 [0xAA, 0xBB]],
        sampleExtra.adv 6⟩ :=
  ⟨by decide,
    (C17_unknown_extra_field_tag optionsOff 6 0 0 sampleExtra 0x9999 2 (by decide) (by decide)
      (by decide) (by decide) (by decide)).2.2 false,
    (C17_unknown_extra_field_tag optionsOff 6 0 0 sampleExtra 0x9999 2 (by decide) (by decide)
      (by decide) (by decide) (by decide)).2.2 true⟩

/-! ## C25: decimal unless the value is all ones -/

/-- C25: for every value `v` of a 16-bit field `Print_uFF` prints the hex
form, the line of `Print_x`, if and only if `v = 0xFFFF`, and the decimal
form, the line of `Print_u`, otherwise; for every value `v` of a 32-bit field
it prints the hex form if and only if `v = 0xFFFFFFFF` and the decimal form
otherwise.  The `DUMPn` helpers reach it through the format `uFF`. -/
theorem C25_Print_uFF_policy (label : String) (v : Nat) :
    Print_uFF label 2 v =
      [Line.field label 2 v (if v = 0xFFFF then Shown.hex else Shown.dec)] ∧
    (Print_uFF label 2 v = Print_x label 2 v ↔ v = 0xFFFF) ∧
    (Print_uFF label 2 v = Print_u label 2 v ↔ v ≠ 0xFFFF) ∧
    Print_uFF label 4 v =
      [Line.field label 4 v (if v = 0xFFFFFFFF then Shown.hex else Shown.dec)] ∧
    (Print_uFF label 4 v = Print_x label 4 v ↔ v = 0xFFFFFFFF) ∧
    (Print_uFF label 4 v = Print_u label 4 v ↔ v ≠ 0xFFFFFFFF) ∧
    Print_fmt Fmt.uFF label 2 v = Print_uFF label 2 v ∧
    Print_fmt Fmt.uFF label 4 v = Print_uFF label 4 v := by
  have h42 : ¬ ((4 : Nat) = 2) := by decide
  refine ⟨?_, ?_, ?_, ?_, ?_, ?_, rfl, rfl⟩
  · by_cases h : v = 0xFFFF <;> simp [Print_uFF, Print_u, Print_x, h]
  · by_cases h : v = 0xFFFF <;> simp [Print_uFF, Print_u, Print_x, h]
  · by_cases h : v = 0xFFFF <;> simp [Print_uFF, Print_u, Print_x, h]
  · by_cases h : v = 0xFFFFFFFF <;> simp [Print_uFF, Print_u, Print_x, h]
  · by_cases h : v = 0xFFFFFFFF <;> simp [Print_uFF, Print_u, Print_x, h]
  · by_cases h : v = 0xFFFFFFFF <;> simp [Print_uFF, Print_u, Print_x, h]

/-! ## C28: the summary line of skip mode -/

/-- C28 as stated fails when the quiet option is on: in skip mode
`Dump_if_fulldump` then writes no line at all, the summary line being written
only `if (!gQuiet)`; the cursor is moved all the same. -/
theorem C28_quiet_counterexample :
    (Dump_if_fulldump ⟨false, true, false, 0⟩ "file data" 3 ⟨[1, 2, 3, 4], 0, false⟩).out = [] ∧
    (Dump_if_fulldump ⟨false, true, false, 0⟩ "file data" 3 ⟨[1, 2, 3, 4], 0, false⟩).fin =
      ⟨[1, 2, 3, 4], 3, false⟩ ∧
    (Dump_if_fulldump ⟨false, false, false, 0⟩ "file data" 3 ⟨[1, 2, 3, 4], 0, false⟩).out =
      [Line.skipNote "file data" 3] := by
  decide

/-- C28, amended for the quiet option: whenever full-dump mode is off, for
every caption, every length below `2 ^ 63`, the range of the offset of a seek,
every setting of the omit option and every stream, `Dump_if_fulldump` reads
no byte and prints none: it moves the cursor `length` bytes further by a seek,
and writes exactly one line, the summary with the caption and the byte count,
when the quiet option is off, and no line when it is on. -/
theorem C28_skip_mode_summary (cfg : Config) (caption : String) (length : Nat) (s : Stream)
    (hf : cfg.gIsFullDump = false) (h63 : length < 2 ^ 63) :
    Dump_if_fulldump cfg caption length s =
      ⟨(), if cfg.gQuiet then [] else [Line.skipNote caption length], s.skip length⟩ := by
  cases hq : cfg.gQuiet <;>
    simp [Dump_if_fulldump, hf, hq, bind_run, fseek_fwd, say_run, pure_run]

theorem C28_skip_mode_summary_witness :
    optionsOff.gIsFullDump = false ∧ (3 : Nat) < 2 ^ 63 ∧
    Dump_if_fulldump optionsOff "file data" 3 ⟨[1, 2, 3, 4], 0, false⟩ =
      ⟨(), [Line.skipNote "file data" 3], ⟨[1, 2, 3, 4], 3, false⟩⟩ :=
  ⟨rfl, by decide,
    C28_skip_mode_summary optionsOff "file data" 3 ⟨[1, 2, 3, 4], 0, false⟩ rfl (by decide)⟩

/-! ## C27: how the fields of the central directory header are shown -/

theorem shownFields_append (a b : List Line) :
    shownFields (a ++ b) = shownFields a ++ shownFields b := by
  simp [shownFields, List.filterMap_append]

theorem shownFields_note (ls : List Line) (h : ∀ l ∈ ls, l.isNote = true) :
    shownFields ls = [] := by
  unfold shownFields
  rw [List.filterMap_eq_nil_iff]
  intro l hl
  have hp := h l hl
  cases l <;> first | rfl | (simp [Line.isNote] at hp)

theorem shownFields_x (lb : String) (w a : Nat) :
    shownFields (Print_fmt Fmt.x lb w a) = [(lb, w, a, Shown.hex)] := rfl

theorem shownFields_ux (lb : String) (w a : Nat) :
    shownFields (Print_fmt Fmt.ux lb w a) = [(lb, w, a, Shown.dechex)] := rfl

theorem shownFields_uFF2 (lb : String) (a : Nat) :
    shownFields (Print_fmt Fmt.uFF lb 2 a) =
      [(lb, 2, a, if a = 0xFFFF then Shown.hex else Shown.dec)] := by
  by_cases h : a = 0xFFFF <;> simp [Print_fmt, Print_uFF, Print_u, Print_x, shownFields, h]

theorem shownFields_quiet_external (q : Bool) (a : Nat) :
    shownFields (if q = true then [] else Print_external_file_attributes a) = [] := by
  cases q <;> rfl

theorem shownFields_quiet (q : Bool) (ls : List Line) (h : ∀ l ∈ ls, l.isNote = true) :
    shownFields (if q = true then [] else ls) = [] :=
  shownFields_note _ (ite_nil_note q _ h)

set_option maxRecDepth 100000 in
/-- C27 as stated fails: the relative offset of the local header is printed
with `Print_ux`, decimal and hex, and not with `Print_uFF`.  In the header of
`sampleCentral` the value 0 is shown in both forms, while the disk number
start, 0, is shown in decimal only. -/
theorem C27_offset_shown_counterexample :
    (shownFields (Dump_Central_directory_file_header optionsOff 1 sampleCentral).out).filter
        (fun f => f.1 = "relative offset of local header" ∨ f.1 = "disk number start") =
      [("disk number start", 2, 0, Shown.dec),
       ("relative offset of local header", 4, 0, Shown.dechex)] := by
  decide

/-- C27, amended to the policy of the code: from a stream with the 42 bytes
of the fixed block of a central directory header, the sixteen fields are shown
as follows: the relative offset of the local header in decimal and hex,
whatever its value, `0xFFFFFFFF` included, like the sizes and the lengths; the
disk number start in decimal only, and in hex only when it is `0xFFFF`; the
other fields in hex.  The field lines of the tails follow. -/
theorem C27_central_header_shown (cfg : Config) (n : Int) (s : Stream)
    (h42 : 42 ≤ s.rest.length) :
    shownFields (Dump_Central_directory_file_header cfg n s).out =
        [("version made by", 2, le (s.rest.take 2), Shown.hex),
         ("version needed to extract", 2, le ((s.rest.drop 2).take 2), Shown.hex),
         ("general purpose bit flag", 2, le ((s.rest.drop 4).take 2), Shown.hex),
         ("compression method", 2, le ((s.rest.drop 6).take 2), Shown.hex),
         ("last mod file time", 2, le ((s.rest.drop 8).take 2), Shown.hex),
         ("last mod file date", 2, le ((s.rest.drop 10).take 2), Shown.hex),
         ("crc-32", 4, le ((s.rest.drop 12).take 4), Shown.hex),
         ("compressed size", 4, le ((s.rest.drop 16).take 4), Shown.dechex),
         ("uncompressed size", 4, le ((s.rest.drop 20).take 4), Shown.dechex),
         ("file name length", 2, le ((s.rest.drop 24).take 2), Shown.dechex),
         ("extra field length", 2, le ((s.rest.drop 26).take 2), Shown.dechex),
         ("file comment length", 2, le ((s.rest.drop 28).take 2), Shown.dechex),
         ("disk number start", 2, le ((s.rest.drop 30).take 2),
           if le ((s.rest.drop 30).take 2) = 0xFFFF then Shown.hex else Shown.dec),
         ("internal file attributes", 2, le ((s.rest.drop 32).take 2), Shown.hex),
         ("external file attributes", 4, le ((s.rest.drop 34).take 4), Shown.hex),
         ("relative offset of local header", 4, le ((s.rest.drop 38).take 4),
           Shown.dechex)] ++
        shownFields (Dump_Central_directory_tails cfg n (le ((s.rest.drop 24).take 2))
          (le ((s.rest.drop 26).take 2)) (le ((s.rest.drop 28).take 2)) (s.adv 42)).out := by
  have key : Dump_Central_directory_file_header cfg n s
      = Dump_Central_directory_file_header cfg n s := rfl
  conv at key =>
    rhs
    unfold Dump_Central_directory_file_header
    simp -zeta (disch := ((try simp only [rest_adv, List.length_drop, Nat.reduceAdd]); omega)) only
      [DUMP2_bind, DUMP4_bind, DUMP2x_bind, DUMP4x_bind, adv_adv, rest_adv,
       Nat.reduceAdd, List.drop_drop, after_after, List.append_assoc]
  rw [key, after_out]
  simp only [shownFields_append, shownFields_x, shownFields_ux, shownFields_uFF2,
    shownFields_quiet _ _ (Print_version_note _),
    shownFields_quiet _ _ (Print_general_purpose_bit_flag_note _ _),
    shownFields_quiet _ _ (Print_date_and_time_note _ _),
    shownFields_quiet _ _ (Print_internal_file_attributes_note _),
    shownFields_quiet_external,
    List.nil_append, List.append_nil, List.cons_append, List.singleton_append]

set_option maxRecDepth 100000 in
theorem C27_central_header_shown_witness :
    42 ≤ sampleCentral.rest.length ∧
    (shownFields (Dump_Central_directory_file_header optionsOff 1 sampleCentral).out).take 16 =
        [("version made by", 2, 20, Shown.hex),
         ("version needed to extract", 2, 10, Shown.hex),
         ("general purpose bit flag", 2, 0, Shown.hex),
         ("compression method", 2, 0, Shown.hex),
         ("last mod file time", 2, 0x0201, Shown.hex),
         ("last mod file date", 2, 0x0403, Shown.hex),
         ("crc-32", 4, 0x08070605, Shown.hex),
         ("compressed size", 4, 3, Shown.dechex),
         ("uncompressed size", 4, 3, Shown.dechex),
         ("file name length", 2, 1, Shown.dechex),
         ("extra field length", 2, 4, Shown.dechex),
         ("file comment length", 2, 2, Shown.dechex),
         ("disk number start", 2, 0, Shown.dec),
         ("internal file attributes", 2, 0, Shown.hex),
         ("external file attributes", 4, 0, Shown.hex),
         ("relative offset of local header", 4, 0, Shown.dechex)] :=
  ⟨by decide,
    (congrArg (List.take 16)
      (C27_central_header_shown optionsOff 1 sampleCentral (by decide))).trans (by decide)⟩

/-! ## C26: the decimal and hex forms of an 8-byte field -/

/-- C26 on the code: the overload of `Print_ux` for 8-byte fields has the
format `"%u(0x%016I64X)"`, whose `%u` takes an `unsigned int`.  For every
64-bit value `v` the decimal number on its line is `v mod 2 ^ 32`, which is
`v` only if `v < 2 ^ 32`; and in the argument area of the Win32 build the hex
conversion then takes the high word of `v` and the low word of the second
copy, so that the hex number is `v / 2 ^ 32 + 2 ^ 32 * (v mod 2 ^ 32)`.  Both
numbers are `v` only for `v = 0`.  The overloads of `Print_u` and `Print_x`
for 8-byte fields, `"%I64u"` and `"0x%016I64X"`, show `v`, and `Print_ux`
for a 4-byte field shows its value twice. -/
theorem C26_Print_ux_64 (label : String) (v : Nat) (hv : v < 2 ^ 64) :
    (Print_ux label 8 v).map Line.shownNumbers =
      [[v % 2 ^ 32, v / 2 ^ 32 + 2 ^ 32 * (v % 2 ^ 32)]] ∧
    (v % 2 ^ 32 = v ↔ v < 2 ^ 32) ∧
    ((Print_ux label 8 v).map Line.shownNumbers = [[v, v]] ↔ v = 0) ∧
    (Print_u label 8 v).map Line.shownNumbers = [[v]] ∧
    (Print_x label 8 v).map Line.shownNumbers = [[v]] ∧
    (v < 2 ^ 32 → (Print_ux label 4 v).map Line.shownNumbers = [[v, v]]) := by
  have hd : v / 2 ^ 32 % 2 ^ 32 = v / 2 ^ 32 := Nat.mod_eq_of_lt (by omega)
  have hq : v / 4294967296 < 4294967296 := by omega
  have e1 : (Print_ux label 8 v).map Line.shownNumbers =
      [[v % 2 ^ 32, v / 2 ^ 32 + 2 ^ 32 * (v % 2 ^ 32)]] := by
    simp [Print_ux, Line.shownNumbers, convSizes, argWords, readArgs, hd, hq]
  refine ⟨e1, ?_, ?_, ?_, ?_, ?_⟩
  · constructor
    · intro h; omega
    · intro h; exact Nat.mod_eq_of_lt h
  · rw [e1]
    constructor
    · intro h
      simp only [List.cons.injEq, and_true] at h
      omega
    · intro h; subst h; rfl
  · simp [Print_u, Line.shownNumbers, convSizes, argWords, readArgs, hd]
    omega
  · simp [Print_x, Line.shownNumbers, convSizes, argWords, readArgs, hd]
    omega
  · intro h
    have hm : v % 2 ^ 32 = v := Nat.mod_eq_of_lt h
    have h4 : v < 4294967296 := by omega
    simp [Print_ux, Line.shownNumbers, convSizes, argWords, readArgs, hm, h4]

theorem C26_Print_ux_64_witness :
    (2 ^ 32 : Nat) < 2 ^ 64 ∧
    (Print_ux "Original Size" 8 (2 ^ 32)).map Line.shownNumbers = [[0, 1]] ∧
    (Print_u "Original Size" 8 (2 ^ 32)).map Line.shownNumbers = [[2 ^ 32]] :=
  ⟨by decide, (C26_Print_ux_64 "Original Size" (2 ^ 32) (by decide)).1,
    (C26_Print_ux_64 "Original Size" (2 ^ 32) (by decide)).2.2.2.1⟩

/-! ## C23: a file without an anchor -/

/-- The loop of the walker on bytes that hold no anchor: the first turn
reports all of them as unknown data and cannot read a signature, the second
finds the end of the file. -/
theorem ZipDumpFile_loop_gap (cfg : Config) (f : Nat) (w : Walker) (s : Stream)
    (hne : s.rest ≠ []) (hn : noPK s.rest) :
    (ZipDumpFile_loop cfg (f + 2) w s).val = true ∧
    (ZipDumpFile_loop cfg (f + 2) w s).out =
      (SkipUnknownData cfg s.rest.length ⟨s.data, s.pos, false⟩).out := by
  have h1 := SkipToNextPK_none cfg s hne hn
  have hr : (⟨s.data, s.pos + s.rest.length, false⟩ : Stream).rest = [] := by
    rw [rest_at s _ false]; simp
  have e1 := ZipDumpFile_turn_go cfg w s _ _ h1
  rw [ZipDumpFile_body_end cfg w _ hr] at e1
  have hv : (ZipDumpFile_turn cfg w s).val = some w := by rw [e1]
  rw [show f + 2 = (f + 1) + 1 from rfl, ZipDumpFile_loop_step cfg (f + 1) w w s hv, e1]
  have e2 := ZipDumpFile_turn_end cfg w
    (Stream.hitEof ⟨s.data, s.pos + s.rest.length, false⟩) (rest_hitEof _)
  have hv2 : (ZipDumpFile_turn cfg w
      (Stream.hitEof ⟨s.data, s.pos + s.rest.length, false⟩)).val = none := by rw [e2]
  rw [ZipDumpFile_loop_stop cfg f w _ hv2, e2]
  simp [Res.after]

/-- C23: for every file of `n` bytes that holds no adjacent pair `P`, `K`, a
pass of `ZipDumpFile` ends, writes no section line, and writes nothing at all
when `n = 0`; when `n > 0` it reports unknown data exactly once, `n` bytes:
the line of `SkipUnknownData`, followed in full-dump mode by the rows of the
`n` bytes and by nothing otherwise. -/
theorem C23_unparseable_gap (cfg : Config) (data : List Byte) (hn : noPK data) :
    (ZipDumpFile cfg ⟨data, 0, false⟩).val = true ∧
    (ZipDumpFile cfg ⟨data, 0, false⟩).out =
      (if data.length > 0 then
        Line.skipUnknown data.length ::
          (if cfg.gIsFullDump then (Dump_bytes cfg data.length ⟨data, 0, false⟩).out else [])
       else []) ∧
    sections (ZipDumpFile cfg ⟨data, 0, false⟩).out = [] ∧
    skips (ZipDumpFile cfg ⟨data, 0, false⟩).out =
      (if data.length > 0 then [data.length] else []) := by
  have hrest : (⟨data, 0, false⟩ : Stream).rest = data := rfl
  by_cases h0 : data = []
  · subst h0
    have e := ZipDumpFile_turn_end cfg ⟨0, 0, 0⟩ ⟨[], 0, false⟩ rfl
    have hv : (ZipDumpFile_turn cfg ⟨0, 0, 0⟩ ⟨[], 0, false⟩).val = none := by rw [e]
    have hz : ZipDumpFile cfg ⟨[], 0, false⟩ =
        ZipDumpFile_loop cfg (0 + 1) ⟨0, 0, 0⟩ ⟨[], 0, false⟩ := rfl
    rw [hz, ZipDumpFile_loop_stop cfg 0 _ _ hv, e]
    simp [sections, skips]
  · have hpos : 0 < data.length := List.length_pos.2 h0
    obtain ⟨f, hf⟩ : ∃ f, data.length + 1 = f + 2 := ⟨data.length - 1, by omega⟩
    have hz : ZipDumpFile cfg ⟨data, 0, false⟩ =
        ZipDumpFile_loop cfg (f + 2) ⟨0, 0, 0⟩ ⟨data, 0, false⟩ := by
      rw [← hf]; rfl
    obtain ⟨g1, g2⟩ := ZipDumpFile_loop_gap cfg f ⟨0, 0, 0⟩ ⟨data, 0, false⟩
      (by rw [hrest]; exact h0) (by rw [hrest]; exact hn)
    rw [hrest] at g2
    have hsk := SkipUnknownData_ok cfg data.length ⟨data, 0, false⟩ (by rw [hrest])
    rw [hz, g1, g2, hsk, if_pos hpos, if_pos hpos]
    refine ⟨rfl, rfl, ?_, ?_⟩
    · cases cfg.gIsFullDump
      · rfl
      · simp only [if_true]
        rw [← List.singleton_append, sections_append,
          sections_plain _ (outAll_Dump_bytes _ (fun l hl => row_plain l hl) cfg _ _)]
        rfl
    · cases cfg.gIsFullDump
      · rfl
      · simp only [if_true]
        rw [← List.singleton_append, skips_append, skips_Dump_bytes]
        rfl

set_option maxRecDepth 100000 in
theorem C23_unparseable_gap_witness :
    noPK [80, 80, 0, 75, 7] ∧
    (ZipDumpFile optionsOff ⟨[80, 80, 0, 75, 7], 0, false⟩).out = [Line.skipUnknown 5] ∧
    (ZipDumpFile ⟨true, false, false, 0⟩ ⟨[80, 80, 0, 75, 7], 0, false⟩).out =
      [Line.skipUnknown 5, Line.hexrow 0 [80, 80, 0, 75, 7]] :=
  ⟨by decide, (C23_unparseable_gap optionsOff [80, 80, 0, 75, 7] (by decide)).2.1.trans (by decide),
    (C23_unparseable_gap ⟨true, false, false, 0⟩ [80, 80, 0, 75, 7]
      (by decide)).2.1.trans (by decide)⟩

/-! ## C24: the pass ends, and no loop of it uses up its turns -/

/-- The scan of `SkipToNextPK` ends by its own condition within as many turns
as bytes are left, plus one: more turns change nothing. -/
theorem SkipToNextPK_loop_fuel (s : Stream) (g : Nat) :
    SkipToNextPK_loop (s.rest.length + 1 + g) 0 0 s =
      SkipToNextPK_loop (s.rest.length + 1) 0 0 s := by
  rcases firstPK_or_noPK s.rest with ⟨k, hk⟩ | hn
  · have hl := firstPK_length _ _ hk
    rw [SkipToNextPK_loop_found k s.rest s 0 0 _ rfl hk (by simp) (by omega),
      SkipToNextPK_loop_found k s.rest s 0 0 _ rfl hk (by simp) (by omega)]
  · rw [SkipToNextPK_loop_none s.rest s 0 0 _ rfl hn (by simp) (by omega),
      SkipToNextPK_loop_none s.rest s 0 0 _ rfl hn (by simp) (by omega)]

theorem Dump_extra_field_loop_short (cfg : Config) (L fuel offset : Nat) (s : Stream)
    (ho : offset < L) (h4 : s.rest.length < 4) :
    Dump_extra_field_loop cfg L (fuel + 1) offset s = ⟨(), [], s.hitEof⟩ := by
  conv_lhs => unfold Dump_extra_field_loop
  rw [if_pos ho]
  by_cases h2 : 2 ≤ s.rest.length
  · have e1 := Read16_ok 0 s h2
    have e2 := Read16_fail 0 (s.adv 2) (by simp only [rest_adv, List.length_drop]; omega)
    rw [hitEof_adv s 2 h2] at e2
    simp only [bind_run, e1, e2, if_true, Bool.false_eq_true, if_false, pure_run,
      List.append_nil]
  · have e1 := Read16_fail 0 s (by omega)
    simp only [bind_run, e1, Bool.false_eq_true, if_false, pure_run, List.append_nil]

/-- A stream that keeps the bytes of `s` and stands at least four bytes
further has at least four bytes fewer left, or `s` had fewer than four. -/
theorem rest_length_four (s t : Stream) (hd : t.data = s.data) (hp : s.pos + 4 ≤ t.pos)
    (h4 : 4 ≤ s.rest.length) : t.rest.length + 4 ≤ s.rest.length := by
  rcases rest_length_le s t hd (by omega) with h | h
  · omega
  · rw [h]; simpa using h4

/-- The loop of `Dump_extra_field` ends by its own condition within as many
turns as bytes are left, plus one: more turns change nothing. -/
theorem Dump_extra_field_loop_fuel (cfg : Config) (L : Nat) :
    ∀ (fuel offset : Nat) (s : Stream), s.rest.length < fuel → ∀ g,
      Dump_extra_field_loop cfg L (fuel + g) offset s =
        Dump_extra_field_loop cfg L fuel offset s := by
  intro fuel
  induction fuel with
  | zero => intro _ s h; exact absurd h (Nat.not_lt_zero _)
  | succ f ih =>
    intro offset s h g
    have hg : f + 1 + g = (f + g) + 1 := by omega
    rw [hg]
    by_cases ho : offset < L
    · by_cases h4 : 4 ≤ s.rest.length
      · rw [Dump_extra_field_loop_turn cfg L (f + g) offset s ho h4,
          Dump_extra_field_loop_turn cfg L f offset s ho h4]
        have k := keeps_Dump_extra_chunk cfg (le (s.rest.take 2)) (le ((s.rest.drop 2).take 2))
          (s.adv 4)
        have hl := rest_length_four s _ (k.1.trans rfl)
          (Nat.le_trans (by simp only [adv_pos]; omega) k.2) h4
        rw [ih _ _ (by omega) g]
      · rw [Dump_extra_field_loop_short cfg L (f + g) offset s ho (by omega),
          Dump_extra_field_loop_short cfg L f offset s ho (by omega)]
    · rw [Dump_extra_field_loop_done cfg L _ offset s (by omega),
        Dump_extra_field_loop_done cfg L _ offset s (by omega)]

theorem NTFS_loop_short (cfg : Config) (fuel eo : Nat) (s : Stream) (h4 : s.rest.length < 4) :
    Dump_extra_NTFS_loop cfg (fuel + 1) eo s = ⟨eo, [], s.hitEof⟩ := by
  by_cases h2 : 2 ≤ s.rest.length
  · have e1 := Read16_ok 0 s h2
    have e2 := Read16_fail 0 (s.adv 2) (by simp only [rest_adv, List.length_drop]; omega)
    rw [hitEof_adv s 2 h2] at e2
    conv_lhs => unfold Dump_extra_NTFS_loop
    simp only [bind_run, e1, e2, if_true, Bool.false_eq_true, if_false, pure_run,
      List.append_nil]
  · exact NTFS_loop_end cfg fuel eo s (by omega)

/-- A turn of the loop of `Dump_extra_NTFS` that reads a tag and a size: what it
writes and where it leaves the cursor, at least four bytes further, do not
depend on the turns that are left. -/
theorem NTFS_loop_turn (cfg : Config) (eo : Nat) (s : Stream) (h4 : 4 ≤ s.rest.length) :
    ∃ (O : List Line) (T : Stream) (eo1 : Nat), T.data = s.data ∧ s.pos + 4 ≤ T.pos ∧
      ∀ fuel, Dump_extra_NTFS_loop cfg (fuel + 1) eo s =
        (Dump_extra_NTFS_loop cfg fuel eo1 T).after O := by
  obtain ⟨M, hM⟩ : ∃ M : Dump Unit, M = (do
      let tag_offset ←
        if le (s.rest.take 2) = 1 then do
          say (Print_extra "NTFS file time" (le (s.rest.take 2)) (le ((s.rest.drop 2).take 2)))
          let _ ← DUMP8x cfg "last mod time" 0 Fmt.x Print_filetime
          let _ ← DUMP8x cfg "last access time" 0 Fmt.x Print_filetime
          let _ ← DUMP8x cfg "last creation time" 0 Fmt.x Print_filetime
          pure 24
        else do
          say (Print_extra "!! Unknown NTFS Extra Field" (le (s.rest.take 2))
            (le ((s.rest.drop 2).take 2)))
          Dump_bytes cfg (le ((s.rest.drop 2).take 2))
          pure (le ((s.rest.drop 2).take 2))
      if le ((s.rest.drop 2).take 2) > tag_offset then
        SkipUnknownData cfg (le ((s.rest.drop 2).take 2) - tag_offset)) := ⟨_, rfl⟩
  have hk : Keeps M := by
    rw [hM]
    repeat' first
      | with_reducible exact keeps_pure _
      | with_reducible exact keeps_say _
      | with_reducible exact keeps_DUMP8x _ _ _ _ _
      | with_reducible exact keeps_SkipUnknownData _ _
      | with_reducible exact keeps_Dump_bytes _ _
      | with_reducible apply keeps_ite
      | with_reducible apply keeps_bind
      | (intro (x : Bool × Nat); obtain ⟨a, b⟩ := x; dsimp only)
      | (intro x; try dsimp only)
  refine ⟨(M (s.adv 4)).out, (M (s.adv 4)).fin, (eo + le ((s.rest.drop 2).take 2)) % SIZE_T,
    (hk (s.adv 4)).1, Nat.le_trans (by simp only [adv_pos]; omega) (hk (s.adv 4)).2, ?_⟩
  intro fuel
  conv_lhs => unfold Dump_extra_NTFS_loop
  simp (disch := ((try simp only [rest_adv, List.length_drop, Nat.reduceAdd]); omega)) only
    [Read16_bind, adv_adv, rest_adv, if_true, Nat.reduceAdd]
  rw [hM]
  by_cases htag : le (s.rest.take 2) = 1
  · by_cases hs : le ((s.rest.drop 2).take 2) > 24
    · simp only [bind_run, pure_run, if_pos htag, if_pos hs, Res.after, List.append_assoc, List.nil_append,
        List.append_nil]
    · simp only [bind_run, pure_run, if_pos htag, if_neg hs, Res.after, List.append_assoc, List.nil_append,
        List.append_nil]
  · have hs : ¬ (le ((s.rest.drop 2).take 2) > le ((s.rest.drop 2).take 2)) := by omega
    simp only [bind_run, pure_run, if_neg htag, if_neg hs, Res.after, List.append_assoc, List.nil_append,
      List.append_nil]

/-- The loop of `Dump_extra_NTFS` ends by its own condition within as many
turns as bytes are left, plus one: more turns change nothing. -/
theorem Dump_extra_NTFS_loop_fuel (cfg : Config) :
    ∀ (fuel eo : Nat) (s : Stream), s.rest.length < fuel → ∀ g,
      Dump_extra_NTFS_loop cfg (fuel + g) eo s = Dump_extra_NTFS_loop cfg fuel eo s := by
  intro fuel
  induction fuel with
  | zero => intro _ s h; exact absurd h (Nat.not_lt_zero _)
  | succ f ih =>
    intro eo s h g
    have hg : f + 1 + g = (f + g) + 1 := by omega
    rw [hg]
    by_cases h4 : 4 ≤ s.rest.length
    · obtain ⟨O, T, eo1, hd, hp, ht⟩ := NTFS_loop_turn cfg eo s h4
      have hl := rest_length_four s T hd hp h4
      rw [ht (f + g), ht f, ih eo1 T (by omega) g]
    · rw [NTFS_loop_short cfg (f + g) eo s (by omega), NTFS_loop_short cfg f eo s (by omega)]

/-- A turn of the walker that reads a signature: an anchor lies ahead with at
least four bytes from it on, and the turn leaves the cursor at least four
bytes further than it found it. -/
theorem ZipDumpFile_turn_progress (cfg : Config) (w : Walker) (s : Stream)
    (hv : (SkipToNextPK cfg s).val = true)
    (hr : (Read32 w.signature (SkipToNextPK cfg s).fin).val.1 = true) :
    s.pos + 4 ≤ (ZipDumpFile_turn cfg w s).fin.pos ∧
    (ZipDumpFile_turn cfg w s).fin.data = s.data ∧
    (ZipDumpFile_turn cfg w s).fin.rest.length + 4 ≤ s.rest.length := by
  rcases firstPK_or_noPK s.rest with ⟨k, hk⟩ | hn
  · have hl := firstPK_length _ _ hk
    have e := SkipToNextPK_found cfg s k hk
    rw [e] at hr
    have h4 : k + 4 ≤ s.rest.length := by
      by_contra hc
      rw [Read32_fail w.signature _ (by rw [rest_at s k false]; simp only [List.length_drop]; omega)]
        at hr
      exact absurd hr (by simp)
    rw [ZipDumpFile_turn_anchor cfg w s k hk h4]
    have kp := keeps_ZipDumpFile_switch cfg (le ((s.rest.drop k).take 4)) (s.pos + k)
      w.file_count w.dir_count ⟨s.data, s.pos + k + 4, false⟩
    have hp : s.pos + 4 ≤ (ZipDumpFile_switch cfg (le ((s.rest.drop k).take 4)) (s.pos + k)
        w.file_count w.dir_count ⟨s.data, s.pos + k + 4, false⟩).fin.pos :=
      Nat.le_trans (by show s.pos + 4 ≤ s.pos + k + 4; omega) kp.2
    exact ⟨hp, kp.1, rest_length_four s _ kp.1 hp (by omega)⟩
  · by_cases hne : s.rest = []
    · rw [SkipToNextPK_end cfg s hne] at hv
      exact absurd hv (by simp)
    · rw [SkipToNextPK_none cfg s hne hn] at hr
      rw [Read32_fail w.signature _ (by rw [rest_at s _ false]; simp)] at hr
      exact absurd hr (by simp)

/-- C24: `ZipDumpFile` ends on every stream (any bytes, any cursor) under
every setting of the options: the loop of the walker ends by `SkipToNextPK`
returning false within the turns the model allows, and allowing more turns
changes nothing of the run; a turn that reads a signature leaves the cursor at
least four bytes further than it found it, on the same bytes, with at least
four bytes fewer left; and the inner loops (the scan of `SkipToNextPK`, the
loops of `Dump_extra_field` and `Dump_extra_NTFS`) end by their own conditions,
more turns changing nothing. -/
theorem C24_ZipDumpFile_terminates (cfg : Config) (s : Stream) :
    (ZipDumpFile cfg s).val = true ∧
    (∀ g, ZipDumpFile_loop cfg (s.data.length + 1 + g) ⟨0, 0, 0⟩ s = ZipDumpFile cfg s) ∧
    (∀ w, (SkipToNextPK cfg s).val = true →
      (Read32 w.signature (SkipToNextPK cfg s).fin).val.1 = true →
      s.pos + 4 ≤ (ZipDumpFile_turn cfg w s).fin.pos ∧
      (ZipDumpFile_turn cfg w s).fin.data = s.data ∧
      (ZipDumpFile_turn cfg w s).fin.rest.length + 4 ≤ s.rest.length) ∧
    (∀ g, SkipToNextPK_loop (s.rest.length + 1 + g) 0 0 s =
      SkipToNextPK_loop (s.rest.length + 1) 0 0 s) ∧
    (∀ L g, Dump_extra_field_loop cfg L (s.rest.length + 1 + g) 0 s = Dump_extra_field cfg L s) ∧
    (∀ g, Dump_extra_NTFS_loop cfg (s.rest.length + 1 + g) 4 s =
      Dump_extra_NTFS_loop cfg (s.rest.length + 1) 4 s) :=
  ⟨ZipDumpFile_ends cfg s,
    fun g => ZipDumpFile_loop_mono cfg (s.data.length + 1) ⟨0, 0, 0⟩ s (ZipDumpFile_ends cfg s) g,
    fun w hv hr => ZipDumpFile_turn_progress cfg w s hv hr,
    fun g => SkipToNextPK_loop_fuel s g,
    fun L g => Dump_extra_field_loop_fuel cfg L _ 0 s (Nat.lt_succ_self _) g,
    fun g => Dump_extra_NTFS_loop_fuel cfg _ 4 s (Nat.lt_succ_self _) g⟩

set_option maxRecDepth 100000 in
theorem C24_ZipDumpFile_terminates_witness :
    (SkipToNextPK optionsOff ⟨[1, 80, 75, 9, 9, 80, 75], 0, false⟩).val = true ∧
    (Read32 0 (SkipToNextPK optionsOff ⟨[1, 80, 75, 9, 9, 80, 75], 0, false⟩).fin).val.1 = true ∧
    0 + 4 ≤ (ZipDumpFile_turn optionsOff ⟨0, 0, 0⟩ ⟨[1, 80, 75, 9, 9, 80, 75], 0, false⟩).fin.pos ∧
    (ZipDumpFile optionsOff ⟨[1, 80, 75, 9, 9, 80, 75], 0, false⟩).val = true :=
  ⟨by decide, by decide,
    ((C24_ZipDumpFile_terminates optionsOff ⟨[1, 80, 75, 9, 9, 80, 75], 0, false⟩).2.2.1
      ⟨0, 0, 0⟩ (by decide) (by decide)).1,
    (C24_ZipDumpFile_terminates optionsOff ⟨[1, 80, 75, 9, 9, 80, 75], 0, false⟩).1⟩

/-! ## Decoders run from the end of the file -/

theorem hitEof_hitEof (s : Stream) : s.hitEof.hitEof = s.hitEof := by
  rw [hitEof_nil s.hitEof (rest_hitEof s)]
  rfl

theorem DUMP2_dry {β : Type} (lb : String) (v : Nat) (f : Fmt) (k : Nat → Dump β) (s : Stream)
    (h : s.rest = []) : (DUMP2 lb v f >>= k) s = k v s.hitEof := by
  rw [bind_after, DUMP2_fail lb v f s (by rw [h]; exact Nat.zero_lt_succ _)]
  exact after_nil _

theorem DUMP4_dry {β : Type} (lb : String) (v : Nat) (f : Fmt) (k : Nat → Dump β) (s : Stream)
    (h : s.rest = []) : (DUMP4 lb v f >>= k) s = k v s.hitEof := by
  rw [bind_after, DUMP4_fail lb v f s (by rw [h]; exact Nat.zero_lt_succ _)]
  exact after_nil _

theorem DUMP8_dry {β : Type} (lb : String) (v : Nat) (f : Fmt) (k : Nat → Dump β) (s : Stream)
    (h : s.rest = []) : (DUMP8 lb v f >>= k) s = k v s.hitEof := by
  rw [bind_after, DUMP8_fail lb v f s (by rw [h]; exact Nat.zero_lt_succ _)]
  exact after_nil _

theorem DUMP2x_dry {β : Type} (cfg : Config) (lb : String) (v : Nat) (f : Fmt)
    (d : Nat → List Line) (k : Nat → Dump β) (s : Stream) (h : s.rest = []) :
    (DUMP2x cfg lb v f d >>= k) s = k v s.hitEof := by
  rw [bind_after, DUMP2x_fail cfg lb v f d s (by rw [h]; exact Nat.zero_lt_succ _)]
  exact after_nil _

theorem DUMP4x_dry {β : Type} (cfg : Config) (lb : String) (v : Nat) (f : Fmt)
    (d : Nat → List Line) (k : Nat → Dump β) (s : Stream) (h : s.rest = []) :
    (DUMP4x cfg lb v f d >>= k) s = k v s.hitEof := by
  rw [bind_after, DUMP4x_fail cfg lb v f d s (by rw [h]; exact Nat.zero_lt_succ _)]
  exact after_nil _

theorem Dump_bytes_dry (cfg : Config) (n : Nat) (s : Stream) (h : s.rest = []) (hn : n ≠ 0) :
    Dump_bytes cfg n s = ⟨(), [], s.hitEof⟩ := by
  obtain ⟨m, rfl⟩ : ∃ m, n = m + 1 := ⟨n - 1, by omega⟩
  have e : Dump_bytes_loop cfg (m + 1) 0 0 [] [] s = ⟨(0, []), [], s.hitEof⟩ := by
    conv_lhs => unfold Dump_bytes_loop
    simp only [bind_run, getc_nil s h, pure_run, List.append_nil]
  simp only [Dump_bytes, bind_run, e, List.length_nil, ne_eq, not_true_eq_false, if_false,
    pure_run, List.append_nil]

theorem Dump_Local_file_dry (cfg : Config) (n : Int) (s : Stream) (h : s.rest = []) :
    Dump_Local_file cfg n s = ⟨(), [], s.hitEof⟩ := by
  unfold Dump_Local_file
  simp (disch := first | exact h | exact rest_hitEof _) only
    [DUMP2_dry, DUMP4_dry, DUMP2x_dry, hitEof_hitEof]
  simp [Dump_Local_file_tails, Dump_Local_file_data, bind_run, pure_run]

theorem Dump_Data_descriptor_dry (s : Stream) (h : s.rest = []) :
    Dump_Data_descriptor s = ⟨(), [], s.hitEof⟩ := by
  unfold Dump_Data_descriptor
  simp (disch := first | exact h | exact rest_hitEof _) only
    [DUMP2_dry, DUMP4_dry, DUMP2x_dry, hitEof_hitEof, pure_run]

theorem Dump_Archive_extra_data_record_dry (cfg : Config) (s : Stream) (h : s.rest = []) :
    Dump_Archive_extra_data_record cfg s = ⟨(), [], s.hitEof⟩ := by
  unfold Dump_Archive_extra_data_record
  simp (disch := first | exact h | exact rest_hitEof _) only
    [DUMP2_dry, DUMP4_dry, DUMP2x_dry, hitEof_hitEof]
  simp [pure_run]

theorem Dump_Central_directory_file_header_dry (cfg : Config) (n : Int) (s : Stream)
    (h : s.rest = []) :
    Dump_Central_directory_file_header cfg n s = ⟨(), [], s.hitEof⟩ := by
  unfold Dump_Central_directory_file_header
  simp (disch := first | exact h | exact rest_hitEof _) only
    [DUMP2_dry, DUMP4_dry, DUMP2x_dry, DUMP4x_dry, hitEof_hitEof]
  simp [Dump_Central_directory_tails, bind_run, pure_run]

theorem Dump_Central_directory_digital_signature_dry (cfg : Config) (s : Stream)
    (h : s.rest = []) :
    Dump_Central_directory_digital_signature cfg s = ⟨(), [], s.hitEof⟩ := by
  unfold Dump_Central_directory_digital_signature
  simp (disch := first | exact h | exact rest_hitEof _) only
    [DUMP2_dry, DUMP4_dry, DUMP2x_dry, hitEof_hitEof]
  simp [pure_run]

/-- The fixed block of the Zip64 end of central directory record from the end
of the file, followed by any function `K` of the record size: no field is
read, the size stays 0, the section line of the data sector is written and
`K 0` is run. -/
theorem Zip64_EOCD_dry_with (cfg : Config) (K : Nat → Dump Unit) (s : Stream)
    (h : s.rest = []) :
    (do
      let size ← DUMP8 "size of this record" 0 Fmt.ux
      let _ ← DUMP2x cfg "version made by" 0 Fmt.x Print_version
      let _ ← DUMP2x cfg "version needed to extract" 0 Fmt.x Print_version
      let _ ← DUMP4 "number of this disk" 0 Fmt.u
      let _ ← DUMP4 "disk of starting directory" 0 Fmt.u
      let _ ← DUMP8 "directory-entries on this disk" 0 Fmt.u
      let _ ← DUMP8 "directory-entries in all disks" 0 Fmt.u
      let _ ← DUMP8 "size of the directory" 0 Fmt.ux
      let _ ← DUMP8 "offset of starting directory" 0 Fmt.ux
      say (Print_section cfg "zip64 extensible data sector" (← ftell) (-1))
      K size : Dump Unit) s =
    (K 0 s.hitEof).after (Print_section cfg "zip64 extensible data sector" s.hitEof.pos (-1)) := by
  simp (disch := first | exact h | exact rest_hitEof _) only
    [DUMP2_dry, DUMP4_dry, DUMP8_dry, DUMP2x_dry, hitEof_hitEof, ftell_bind, say_bind]

theorem Dump_Zip64_end_of_central_directory_record_dry (cfg : Config) (s : Stream)
    (h : s.rest = []) :
    Dump_Zip64_end_of_central_directory_record cfg s =
      ⟨(), Print_section cfg "zip64 extensible data sector" s.hitEof.pos (-1), s.hitEof⟩ := by
  have e1 := congrFun (Zip64_EOCD_unfold cfg) s
  have e2 := Zip64_EOCD_dry_with cfg (fun n => Dump_bytes cfg ((n + 2 ^ 64 - 44) % 2 ^ 64)) s h
  have e3 := e1.trans e2
  have e4 : (fun n => Dump_bytes cfg ((n + 2 ^ 64 - 44) % 2 ^ 64)) 0 s.hitEof =
      ⟨(), [], s.hitEof⟩ := by
    have := Dump_bytes_dry cfg ((0 + 2 ^ 64 - 44) % 2 ^ 64) s.hitEof (rest_hitEof s)
      (by norm_num)
    rw [hitEof_hitEof] at this
    exact this
  rw [e4] at e3
  rw [e3]
  simp [Res.after]

theorem Dump_Zip64_end_of_central_directory_locator_dry (s : Stream) (h : s.rest = []) :
    Dump_Zip64_end_of_central_directory_locator s = ⟨(), [], s.hitEof⟩ := by
  unfold Dump_Zip64_end_of_central_directory_locator
  simp (disch := first | exact h | exact rest_hitEof _) only
    [DUMP2_dry, DUMP4_dry, DUMP8_dry, DUMP2x_dry, hitEof_hitEof, pure_run]

theorem Dump_End_of_central_directory_record_dry (cfg : Config) (s : Stream) (h : s.rest = []) :
    Dump_End_of_central_directory_record cfg s = ⟨(), [], s.hitEof⟩ := by
  unfold Dump_End_of_central_directory_record
  simp (disch := first | exact h | exact rest_hitEof _) only
    [DUMP2_dry, DUMP4_dry, DUMP2x_dry, hitEof_hitEof]
  simp [pure_run]

/-! ## C22: a stream that ends right after a signature -/

/-- The pass over a file of four bytes that begin with `P`, `K`: one turn,
which runs the `switch` on the signature from the end of the file, and a
second turn that ends the loop. -/
theorem ZipDumpFile_single (cfg : Config) (b2 b3 : Byte) :
    (ZipDumpFile cfg ⟨[80, 75, b2, b3], 0, false⟩).val = true ∧
    (ZipDumpFile cfg ⟨[80, 75, b2, b3], 0, false⟩).out =
      (ZipDumpFile_switch cfg (le [80, 75, b2, b3]) 0 0 0 ⟨[80, 75, b2, b3], 4, false⟩).out := by
  have hf := signature_facts [80, 75, b2, b3] b2 b3 rfl
  have e1 := ZipDumpFile_turn_anchor cfg ⟨0, 0, 0⟩ ⟨[80, 75, b2, b3], 0, false⟩ 0 hf.1 hf.2.1
  have e0 : SkipToNextPK cfg ⟨[80, 75, b2, b3], 0, false⟩ = ⟨true, [], ⟨[80, 75, b2, b3], 0, false⟩⟩ :=
    SkipToNextPK_found cfg ⟨[80, 75, b2, b3], 0, false⟩ 0 hf.1
  rw [e0] at e1
  have hsw : ZipDumpFile_switch cfg (le (((Stream.rest ⟨[80, 75, b2, b3], 0, false⟩).drop 0).take 4))
      (0 + 0) 0 0 ⟨[80, 75, b2, b3], 0 + 0 + 4, false⟩ =
      ZipDumpFile_switch cfg (le [80, 75, b2, b3]) 0 0 0 ⟨[80, 75, b2, b3], 4, false⟩ := rfl
  have hw : Walker.file_count ⟨0, 0, 0⟩ = 0 := rfl
  have hd : Walker.dir_count ⟨0, 0, 0⟩ = 0 := rfl
  rw [hw, hd, hsw] at e1
  have kp := keeps_ZipDumpFile_switch cfg (le [80, 75, b2, b3]) 0 0 0 ⟨[80, 75, b2, b3], 4, false⟩
  have hr : (ZipDumpFile_switch cfg (le [80, 75, b2, b3]) 0 0 0
      ⟨[80, 75, b2, b3], 4, false⟩).fin.rest = [] := by
    rcases rest_length_le ⟨[80, 75, b2, b3], 4, false⟩ _ kp.1 kp.2 with h | h
    · have h0 : (Stream.rest ⟨[80, 75, b2, b3], 4, false⟩).length = 0 := rfl
      exact List.length_eq_zero.1 (by omega)
    · exact h
  have hv : (ZipDumpFile_turn cfg ⟨0, 0, 0⟩ ⟨[80, 75, b2, b3], 0, false⟩).val =
      some (ZipDumpFile_switch cfg (le [80, 75, b2, b3]) 0 0 0 ⟨[80, 75, b2, b3], 4, false⟩).val := by
    rw [e1]
  have hz : ZipDumpFile cfg ⟨[80, 75, b2, b3], 0, false⟩ =
      ZipDumpFile_loop cfg (3 + 1 + 1) ⟨0, 0, 0⟩ ⟨[80, 75, b2, b3], 0, false⟩ := rfl
  have e2 := ZipDumpFile_turn_end cfg
    (ZipDumpFile_switch cfg (le [80, 75, b2, b3]) 0 0 0 ⟨[80, 75, b2, b3], 4, false⟩).val _ hr
  have hv2 := congrArg Res.val e2
  rw [hz, ZipDumpFile_loop_step cfg (3 + 1) _ _ _ hv, e1,
    ZipDumpFile_loop_stop cfg 3 _ _ hv2, e2]
  simp [Res.after]

/-- What the pass writes for a file that holds one signature and nothing
else: the lines of the `switch` case run from the end of the file. -/
theorem ZipDumpFile_single_local (cfg : Config) :
    (ZipDumpFile cfg ⟨[80, 75, 3, 4], 0, false⟩).val = true ∧
    (ZipDumpFile cfg ⟨[80, 75, 3, 4], 0, false⟩).out =
      [Line.sect "Local file header" (some 1) (if !cfg.gQuiet then some 0 else none),
       Line.field "header signature" 4 0x04034b50 Shown.hex] := by
  obtain ⟨g1, g2⟩ := ZipDumpFile_single cfg 3 4
  refine ⟨g1, ?_⟩
  have hle : le ([80, 75, 3, 4] : List Byte) = 0x04034b50 := by decide
  rw [g2, hle]
  unfold ZipDumpFile_switch
  rw [if_pos rfl]
  simp only [bind_run, say_run, pure_run, List.append_nil]
  rw [Dump_Local_file_dry cfg (0 + 1) ⟨[80, 75, 3, 4], 4, false⟩ rfl]
  rfl


theorem ZipDumpFile_single_descriptor (cfg : Config) :
    (ZipDumpFile cfg ⟨[80, 75, 7, 8], 0, false⟩).val = true ∧
    (ZipDumpFile cfg ⟨[80, 75, 7, 8], 0, false⟩).out =
      [Line.sect "Data descriptor header" (some 0) (if !cfg.gQuiet then some 0 else none),
       Line.field "header signature" 4 0x08074b50 Shown.hex] := by
  obtain ⟨g1, g2⟩ := ZipDumpFile_single cfg 7 8
  refine ⟨g1, ?_⟩
  have hle : le ([80, 75, 7, 8] : List Byte) = 0x08074b50 := by decide
  rw [g2, hle]
  have h1 : ¬ ((0x08074b50 : Nat) = 0x04034b50) := by decide
  unfold ZipDumpFile_switch
  rw [if_neg h1, if_pos rfl]
  simp only [bind_run, say_run, pure_run, List.append_nil]
  rw [Dump_Data_descriptor_dry ⟨[80, 75, 7, 8], 4, false⟩ rfl]
  rfl


theorem ZipDumpFile_single_archive (cfg : Config) :
    (ZipDumpFile cfg ⟨[80, 75, 6, 8], 0, false⟩).val = true ∧
    (ZipDumpFile cfg ⟨[80, 75, 6, 8], 0, false⟩).out =
      [Line.sect "Archive extra data record" (none) (if !cfg.gQuiet then some 0 else none),
       Line.field "header signature" 4 0x08064b50 Shown.hex] := by
  obtain ⟨g1, g2⟩ := ZipDumpFile_single cfg 6 8
  refine ⟨g1, ?_⟩
  have hle : le ([80, 75, 6, 8] : List Byte) = 0x08064b50 := by decide
  rw [g2, hle]
  have h1 : ¬ ((0x08064b50 : Nat) = 0x04034b50) := by decide
  have h2 : ¬ ((0x08064b50 : Nat) = 0x08074b50) := by decide
  unfold ZipDumpFile_switch
  rw [if_neg h1, if_neg h2, if_pos rfl]
  simp only [bind_run, say_run, pure_run, List.append_nil]
  rw [Dump_Archive_extra_data_record_dry cfg ⟨[80, 75, 6, 8], 4, false⟩ rfl]
  rfl


theorem ZipDumpFile_single_central (cfg : Config) :
    (ZipDumpFile cfg ⟨[80, 75, 1, 2], 0, false⟩).val = true ∧
    (ZipDumpFile cfg ⟨[80, 75, 1, 2], 0, false⟩).out =
      [Line.sect "Central file header" (some 1) (if !cfg.gQuiet then some 0 else none),
       Line.field "header signature" 4 0x02014b50 Shown.hex] := by
  obtain ⟨g1, g2⟩ := ZipDumpFile_single cfg 1 2
  refine ⟨g1, ?_⟩
  have hle : le ([80, 75, 1, 2] : List Byte) = 0x02014b50 := by decide
  rw [g2, hle]
  have h1 : ¬ ((0x02014b50 : Nat) = 0x04034b50) := by decide
  have h2 : ¬ ((0x02014b50 : Nat) = 0x08074b50) := by decide
  have h3 : ¬ ((0x02014b50 : Nat) = 0x08064b50) := by decide
  unfold ZipDumpFile_switch
  rw [if_neg h1, if_neg h2, if_neg h3, if_pos rfl]
  simp only [bind_run, say_run, pure_run, List.append_nil]
  rw [Dump_Central_directory_file_header_dry cfg (0 + 1) ⟨[80, 75, 1, 2], 4, false⟩ rfl]
  rfl


theorem ZipDumpFile_single_signature (cfg : Config) :
    (ZipDumpFile cfg ⟨[80, 75, 5, 5], 0, false⟩).val = true ∧
    (ZipDumpFile cfg ⟨[80, 75, 5, 5], 0, false⟩).out =
      [Line.sect "Digital signature" (none) (if !cfg.gQuiet then some 0 else none),
       Line.field "header signature" 4 0x05054b50 Shown.hex] := by
  obtain ⟨g1, g2⟩ := ZipDumpFile_single cfg 5 5
  refine ⟨g1, ?_⟩
  have hle : le ([80, 75, 5, 5] : List Byte) = 0x05054b50 := by decide
  rw [g2, hle]
  have h1 : ¬ ((0x05054b50 : Nat) = 0x04034b50) := by decide
  have h2 : ¬ ((0x05054b50 : Nat) = 0x08074b50) := by decide
  have h3 : ¬ ((0x05054b50 : Nat) = 0x08064b50) := by decide
  have h4 : ¬ ((0x05054b50 : Nat) = 0x02014b50) := by decide
  unfold ZipDumpFile_switch
  rw [if_neg h1, if_neg h2, if_neg h3, if_neg h4, if_pos rfl]
  simp only [bind_run, say_run, pure_run, List.append_nil]
  rw [Dump_Central_directory_digital_signature_dry cfg ⟨[80, 75, 5, 5], 4, false⟩ rfl]
  rfl


theorem ZipDumpFile_single_zip64 (cfg : Config) :
    (ZipDumpFile cfg ⟨[80, 75, 6, 6], 0, false⟩).val = true ∧
    (ZipDumpFile cfg ⟨[80, 75, 6, 6], 0, false⟩).out =
      [Line.sect "Zip64 end of central directory record" (none) (if !cfg.gQuiet then some 0 else none),
       Line.field "header signature" 4 0x06064b50 Shown.hex,
       Line.sect "zip64 extensible data sector" none (if !cfg.gQuiet then some 4 else none)] := by
  obtain ⟨g1, g2⟩ := ZipDumpFile_single cfg 6 6
  refine ⟨g1, ?_⟩
  have hle : le ([80, 75, 6, 6] : List Byte) = 0x06064b50 := by decide
  rw [g2, hle]
  have h1 : ¬ ((0x06064b50 : Nat) = 0x04034b50) := by decide
  have h2 : ¬ ((0x06064b50 : Nat) = 0x08074b50) := by decide
  have h3 : ¬ ((0x06064b50 : Nat) = 0x08064b50) := by decide
  have h4 : ¬ ((0x06064b50 : Nat) = 0x02014b50) := by decide
  have h5 : ¬ ((0x06064b50 : Nat) = 0x05054b50) := by decide
  unfold ZipDumpFile_switch
  rw [if_neg h1, if_neg h2, if_neg h3, if_neg h4, if_neg h5, if_pos rfl]
  simp only [bind_run, say_run, pure_run, List.append_nil]
  rw [Dump_Zip64_end_of_central_directory_record_dry cfg ⟨[80, 75, 6, 6], 4, false⟩ rfl]
  rfl


theorem ZipDumpFile_single_locator (cfg : Config) :
    (ZipDumpFile cfg ⟨[80, 75, 6, 7], 0, false⟩).val = true ∧
    (ZipDumpFile cfg ⟨[80, 75, 6, 7], 0, false⟩).out =
      [Line.sect "Zip64 end of central directory locator" (none) (if !cfg.gQuiet then some 0 else none),
       Line.field "header signature" 4 0x07064b50 Shown.hex] := by
  obtain ⟨g1, g2⟩ := ZipDumpFile_single cfg 6 7
  refine ⟨g1, ?_⟩
  have hle : le ([80, 75, 6, 7] : List Byte) = 0x07064b50 := by decide
  rw [g2, hle]
  have h1 : ¬ ((0x07064b50 : Nat) = 0x04034b50) := by decide
  have h2 : ¬ ((0x07064b50 : Nat) = 0x08074b50) := by decide
  have h3 : ¬ ((0x07064b50 : Nat) = 0x08064b50) := by decide
  have h4 : ¬ ((0x07064b50 : Nat) = 0x02014b50) := by decide
  have h5 : ¬ ((0x07064b50 : Nat) = 0x05054b50) := by decide
  have h6 : ¬ ((0x07064b50 : Nat) = 0x06064b50) := by decide
  unfold ZipDumpFile_switch
  rw [if_neg h1, if_neg h2, if_neg h3, if_neg h4, if_neg h5, if_neg h6, if_pos rfl]
  simp only [bind_run, say_run, pure_run, List.append_nil]
  rw [Dump_Zip64_end_of_central_directory_locator_dry ⟨[80, 75, 6, 7], 4, false⟩ rfl]
  rfl


theorem ZipDumpFile_single_end (cfg : Config) :
    (ZipDumpFile cfg ⟨[80, 75, 5, 6], 0, false⟩).val = true ∧
    (ZipDumpFile cfg ⟨[80, 75, 5, 6], 0, false⟩).out =
      [Line.sect "End of central directory record" (none) (if !cfg.gQuiet then some 0 else none),
       Line.field "header signature" 4 0x06054b50 Shown.hex] := by
  obtain ⟨g1, g2⟩ := ZipDumpFile_single cfg 5 6
  refine ⟨g1, ?_⟩
  have hle : le ([80, 75, 5, 6] : List Byte) = 0x06054b50 := by decide
  rw [g2, hle]
  have h1 : ¬ ((0x06054b50 : Nat) = 0x04034b50) := by decide
  have h2 : ¬ ((0x06054b50 : Nat) = 0x08074b50) := by decide
  have h3 : ¬ ((0x06054b50 : Nat) = 0x08064b50) := by decide
  have h4 : ¬ ((0x06054b50 : Nat) = 0x02014b50) := by decide
  have h5 : ¬ ((0x06054b50 : Nat) = 0x05054b50) := by decide
  have h6 : ¬ ((0x06054b50 : Nat) = 0x06064b50) := by decide
  have h7 : ¬ ((0x06054b50 : Nat) = 0x07064b50) := by decide
  unfold ZipDumpFile_switch
  rw [if_neg h1, if_neg h2, if_neg h3, if_neg h4, if_neg h5, if_neg h6, if_neg h7, if_pos rfl]
  simp only [bind_run, say_run, pure_run, List.append_nil]
  rw [Dump_End_of_central_directory_record_dry cfg ⟨[80, 75, 5, 6], 4, false⟩ rfl]
  rfl

/-- C22: for each of the eight known signatures, on the file that holds the
four bytes of the signature and nothing else, under every setting of the
options, `ZipDumpFile` ends and writes the header section line of the record
kind of the signature (labelled #1 for a local or central file header, #0 for
a data descriptor header, without label otherwise, with offset 0 unless
quiet), the line of the signature, and no field line of the fixed block; the
Zip64 end of central directory record writes in addition the section line of
its data sector, and no other line is written. -/
theorem C22_signature_only (cfg : Config) :
    ((ZipDumpFile cfg ⟨[80, 75, 3, 4], 0, false⟩).val = true ∧
      (ZipDumpFile cfg ⟨[80, 75, 3, 4], 0, false⟩).out =
        [Line.sect "Local file header" (some 1) (if !cfg.gQuiet then some 0 else none),
         Line.field "header signature" 4 0x04034b50 Shown.hex]) ∧
    ((ZipDumpFile cfg ⟨[80, 75, 7, 8], 0, false⟩).val = true ∧
      (ZipDumpFile cfg ⟨[80, 75, 7, 8], 0, false⟩).out =
        [Line.sect "Data descriptor header" (some 0) (if !cfg.gQuiet then some 0 else none),
         Line.field "header signature" 4 0x08074b50 Shown.hex]) ∧
    ((ZipDumpFile cfg ⟨[80, 75, 6, 8], 0, false⟩).val = true ∧
      (ZipDumpFile cfg ⟨[80, 75, 6, 8], 0, false⟩).out =
        [Line.sect "Archive extra data record" (none) (if !cfg.gQuiet then some 0 else none),
         Line.field "header signature" 4 0x08064b50 Shown.hex]) ∧
    ((ZipDumpFile cfg ⟨[80, 75, 1, 2], 0, false⟩).val = true ∧
      (ZipDumpFile cfg ⟨[80, 75, 1, 2], 0, false⟩).out =
        [Line.sect "Central file header" (some 1) (if !cfg.gQuiet then some 0 else none),
         Line.field "header signature" 4 0x02014b50 Shown.hex]) ∧
    ((ZipDumpFile cfg ⟨[80, 75, 5, 5], 0, false⟩).val = true ∧
      (ZipDumpFile cfg ⟨[80, 75, 5, 5], 0, false⟩).out =
        [Line.sect "Digital signature" (none) (if !cfg.gQuiet then some 0 else none),
         Line.field "header signature" 4 0x05054b50 Shown.hex]) ∧
    ((ZipDumpFile cfg ⟨[80, 75, 6, 6], 0, false⟩).val = true ∧
      (ZipDumpFile cfg ⟨[80, 75, 6, 6], 0, false⟩).out =
        [Line.sect "Zip64 end of central directory record" (none) (if !cfg.gQuiet then some 0 else none),
         Line.field "header signature" 4 0x06064b50 Shown.hex,
         Line.sect "zip64 extensible data sector" none (if !cfg.gQuiet then some 4 else none)]) ∧
    ((ZipDumpFile cfg ⟨[80, 75, 6, 7], 0, false⟩).val = true ∧
      (ZipDumpFile cfg ⟨[80, 75, 6, 7], 0, false⟩).out =
        [Line.sect "Zip64 end of central directory locator" (none) (if !cfg.gQuiet then some 0 else none),
         Line.field "header signature" 4 0x07064b50 Shown.hex]) ∧
    ((ZipDumpFile cfg ⟨[80, 75, 5, 6], 0, false⟩).val = true ∧
      (ZipDumpFile cfg ⟨[80, 75, 5, 6], 0, false⟩).out =
        [Line.sect "End of central directory record" (none) (if !cfg.gQuiet then some 0 else none),
         Line.field "header signature" 4 0x06054b50 Shown.hex]) :=
  ⟨ZipDumpFile_single_local cfg,
    ZipDumpFile_single_descriptor cfg,
    ZipDumpFile_single_archive cfg,
    ZipDumpFile_single_central cfg,
    ZipDumpFile_single_signature cfg,
    ZipDumpFile_single_zip64 cfg,
    ZipDumpFile_single_locator cfg,
    ZipDumpFile_single_end cfg⟩

/-! ## What the record decoders write: plain lines, runs of text, and section
lines with the names of `tailNames` -/

theorem outAll_say_tail (P : Line → Prop) (hS : ∀ nm n o, nm ∈ tailNames → P (Line.sect nm n o))
    (cfg : Config) (nm : String) (o : Nat) (n : Int) (h : nm ∈ tailNames) :
    OutAll P (say (Print_section cfg nm o n)) := by
  apply outAll_say
  intro l hl
  simp only [Print_section, List.mem_singleton] at hl
  subst hl
  exact hS _ _ _ h

theorem outAll_Dump_Data_descriptor (P : Line → Prop) (hP : ∀ l, l.plain = true → P l)
    (hT : ∀ cs, P (Line.text cs))
    (hS : ∀ nm n o, nm ∈ tailNames → P (Line.sect nm n o)) :
    OutAll P (Dump_Data_descriptor) := by
  unfold Dump_Data_descriptor
  repeat' first
    | with_reducible exact outAll_pure _ _
    | with_reducible exact outAll_ftell _
    | with_reducible exact outAll_DUMP2 _ hP _ _ _
    | with_reducible exact outAll_DUMP4 _ hP _ _ _
    | with_reducible exact outAll_DUMP8 _ hP _ _ _
    | with_reducible exact outAll_DUMP2x _ hP _ _ _ _ _ Print_version_plain
    | with_reducible exact outAll_DUMP2x _ hP _ _ _ _ _ Print_internal_file_attributes_plain
    | with_reducible exact outAll_DUMP2x _ hP _ _ _ _ _ (fun x => Print_general_purpose_bit_flag_plain _ x)
    | with_reducible exact outAll_DUMP2x _ hP _ _ _ _ _ (fun x => Print_date_and_time_plain _ x)
    | with_reducible exact outAll_DUMP4x _ hP _ _ _ _ _ Print_external_file_attributes_plain
    | with_reducible exact outAll_Dump_string_text _ hT _
    | with_reducible exact outAll_Dump_extra_field _ hP _ _
    | with_reducible exact outAll_Dump_bytes_plain _ hP _ _
    | with_reducible exact outAll_Dump_if_fulldump _ hP _ _ _
    | with_reducible exact outAll_Dump_Data_descriptor _ hP hT hS
    | with_reducible exact outAll_Dump_Local_file_tails _ hP hT hS _ _ _ _
    | with_reducible exact outAll_Dump_Local_file_data _ hP hT hS _ _ _ _
    | with_reducible exact outAll_Dump_Central_directory_tails _ hP hT hS _ _ _ _ _
    | with_reducible exact outAll_say_tail _ hS _ _ _ _ (by decide)
    | with_reducible apply outAll_ite
    | with_reducible apply outAll_bind
    | (intro x; try dsimp only)

theorem outAll_Dump_Local_file_tails (P : Line → Prop) (hP : ∀ l, l.plain = true → P l)
    (hT : ∀ cs, P (Line.text cs))
    (hS : ∀ nm n o, nm ∈ tailNames → P (Line.sect nm n o)) (cfg : Config) (n : Int) (a b : Nat) :
    OutAll P (Dump_Local_file_tails cfg n a b) := by
  unfold Dump_Local_file_tails
  repeat' first
    | with_reducible exact outAll_pure _ _
    | with_reducible exact outAll_ftell _
    | with_reducible exact outAll_DUMP2 _ hP _ _ _
    | with_reducible exact outAll_DUMP4 _ hP _ _ _
    | with_reducible exact outAll_DUMP8 _ hP _ _ _
    | with_reducible exact outAll_DUMP2x _ hP _ _ _ _ _ Print_version_plain
    | with_reducible exact outAll_DUMP2x _ hP _ _ _ _ _ Print_internal_file_attributes_plain
    | with_reducible exact outAll_DUMP2x _ hP _ _ _ _ _ (fun x => Print_general_purpose_bit_flag_plain _ x)
    | with_reducible exact outAll_DUMP2x _ hP _ _ _ _ _ (fun x => Print_date_and_time_plain _ x)
    | with_reducible exact outAll_DUMP4x _ hP _ _ _ _ _ Print_external_file_attributes_plain
    | with_reducible exact outAll_Dump_string_text _ hT _
    | with_reducible exact outAll_Dump_extra_field _ hP _ _
    | with_reducible exact outAll_Dump_bytes_plain _ hP _ _
    | with_reducible exact outAll_Dump_if_fulldump _ hP _ _ _
    | with_reducible exact outAll_Dump_Data_descriptor _ hP hT hS
    | with_reducible exact outAll_Dump_Local_file_tails _ hP hT hS _ _ _ _
    | with_reducible exact outAll_Dump_Local_file_data _ hP hT hS _ _ _ _
    | with_reducible exact outAll_Dump_Central_directory_tails _ hP hT hS _ _ _ _ _
    | with_reducible exact outAll_say_tail _ hS _ _ _ _ (by decide)
    | with_reducible apply outAll_ite
    | with_reducible apply outAll_bind
    | (intro x; try dsimp only)

theorem outAll_Dump_Local_file_data (P : Line → Prop) (hP : ∀ l, l.plain = true → P l)
    (hT : ∀ cs, P (Line.text cs))
    (hS : ∀ nm n o, nm ∈ tailNames → P (Line.sect nm n o)) (cfg : Config) (n : Int) (a b : Nat) :
    OutAll P (Dump_Local_file_data cfg n a b) := by
  unfold Dump_Local_file_data
  repeat' first
    | with_reducible exact outAll_pure _ _
    | with_reducible exact outAll_ftell _
    | with_reducible exact outAll_DUMP2 _ hP _ _ _
    | with_reducible exact outAll_DUMP4 _ hP _ _ _
    | with_reducible exact outAll_DUMP8 _ hP _ _ _
    | with_reducible exact outAll_DUMP2x _ hP _ _ _ _ _ Print_version_plain
    | with_reducible exact outAll_DUMP2x _ hP _ _ _ _ _ Print_internal_file_attributes_plain
    | with_reducible exact outAll_DUMP2x _ hP _ _ _ _ _ (fun x => Print_general_purpose_bit_flag_plain _ x)
    | with_reducible exact outAll_DUMP2x _ hP _ _ _ _ _ (fun x => Print_date_and_time_plain _ x)
    | with_reducible exact outAll_DUMP4x _ hP _ _ _ _ _ Print_external_file_attributes_plain
    | with_reducible exact outAll_Dump_string_text _ hT _
    | with_reducible exact outAll_Dump_extra_field _ hP _ _
    | with_reducible exact outAll_Dump_bytes_plain _ hP _ _
    | with_reducible exact outAll_Dump_if_fulldump _ hP _ _ _
    | with_reducible exact outAll_Dump_Data_descriptor _ hP hT hS
    | with_reducible exact outAll_Dump_Local_file_tails _ hP hT hS _ _ _ _
    | with_reducible exact outAll_Dump_Local_file_data _ hP hT hS _ _ _ _
    | with_reducible exact outAll_Dump_Central_directory_tails _ hP hT hS _ _ _ _ _
    | with_reducible exact outAll_say_tail _ hS _ _ _ _ (by decide)
    | with_reducible apply outAll_ite
    | with_reducible apply outAll_bind
    | (intro x; try dsimp only)

theorem outAll_Dump_Local_file (P : Line → Prop) (hP : ∀ l, l.plain = true → P l)
    (hT : ∀ cs, P (Line.text cs))
    (hS : ∀ nm n o, nm ∈ tailNames → P (Line.sect nm n o)) (cfg : Config) (n : Int) :
    OutAll P (Dump_Local_file cfg n) := by
  unfold Dump_Local_file
  repeat' first
    | with_reducible exact outAll_pure _ _
    | with_reducible exact outAll_ftell _
    | with_reducible exact outAll_DUMP2 _ hP _ _ _
    | with_reducible exact outAll_DUMP4 _ hP _ _ _
    | with_reducible exact outAll_DUMP8 _ hP _ _ _
    | with_reducible exact outAll_DUMP2x _ hP _ _ _ _ _ Print_version_plain
    | with_reducible exact outAll_DUMP2x _ hP _ _ _ _ _ Print_internal_file_attributes_plain
    | with_reducible exact outAll_DUMP2x _ hP _ _ _ _ _ (fun x => Print_general_purpose_bit_flag_plain _ x)
    | with_reducible exact outAll_DUMP2x _ hP _ _ _ _ _ (fun x => Print_date_and_time_plain _ x)
    | with_reducible exact outAll_DUMP4x _ hP _ _ _ _ _ Print_external_file_attributes_plain
    | with_reducible exact outAll_Dump_string_text _ hT _
    | with_reducible exact outAll_Dump_extra_field _ hP _ _
    | with_reducible exact outAll_Dump_bytes_plain _ hP _ _
    | with_reducible exact outAll_Dump_if_fulldump _ hP _ _ _
    | with_reducible exact outAll_Dump_Data_descriptor _ hP hT hS
    | with_reducible exact outAll_Dump_Local_file_tails _ hP hT hS _ _ _ _
    | with_reducible exact outAll_Dump_Local_file_data _ hP hT hS _ _ _ _
    | with_reducible exact outAll_Dump_Central_directory_tails _ hP hT hS _ _ _ _ _
    | with_reducible exact outAll_say_tail _ hS _ _ _ _ (by decide)
    | with_reducible apply outAll_ite
    | with_reducible apply outAll_bind
    | (intro x; try dsimp only)

theorem outAll_Dump_Archive_extra_data_record (P : Line → Prop) (hP : ∀ l, l.plain = true → P l)
    (hT : ∀ cs, P (Line.text cs))
    (hS : ∀ nm n o, nm ∈ tailNames → P (Line.sect nm n o)) (cfg : Config) :
    OutAll P (Dump_Archive_extra_data_record cfg) := by
  unfold Dump_Archive_extra_data_record
  repeat' first
    | with_reducible exact outAll_pure _ _
    | with_reducible exact outAll_ftell _
    | with_reducible exact outAll_DUMP2 _ hP _ _ _
    | with_reducible exact outAll_DUMP4 _ hP _ _ _
    | with_reducible exact outAll_DUMP8 _ hP _ _ _
    | with_reducible exact outAll_DUMP2x _ hP _ _ _ _ _ Print_version_plain
    | with_reducible exact outAll_DUMP2x _ hP _ _ _ _ _ Print_internal_file_attributes_plain
    | with_reducible exact outAll_DUMP2x _ hP _ _ _ _ _ (fun x => Print_general_purpose_bit_flag_plain _ x)
    | with_reducible exact outAll_DUMP2x _ hP _ _ _ _ _ (fun x => Print_date_and_time_plain _ x)
    | with_reducible exact outAll_DUMP4x _ hP _ _ _ _ _ Print_external_file_attributes_plain
    | with_reducible exact outAll_Dump_string_text _ hT _
    | with_reducible exact outAll_Dump_extra_field _ hP _ _
    | with_reducible exact outAll_Dump_bytes_plain _ hP _ _
    | with_reducible exact outAll_Dump_if_fulldump _ hP _ _ _
    | with_reducible exact outAll_Dump_Data_descriptor _ hP hT hS
    | with_reducible exact outAll_Dump_Local_file_tails _ hP hT hS _ _ _ _
    | with_reducible exact outAll_Dump_Local_file_data _ hP hT hS _ _ _ _
    | with_reducible exact outAll_Dump_Central_directory_tails _ hP hT hS _ _ _ _ _
    | with_reducible exact outAll_say_tail _ hS _ _ _ _ (by decide)
    | with_reducible apply outAll_ite
    | with_reducible apply outAll_bind
    | (intro x; try dsimp only)

theorem outAll_Dump_Central_directory_tails (P : Line → Prop) (hP : ∀ l, l.plain = true → P l)
    (hT : ∀ cs, P (Line.text cs))
    (hS : ∀ nm n o, nm ∈ tailNames → P (Line.sect nm n o)) (cfg : Config) (n : Int) (a b c : Nat) :
    OutAll P (Dump_Central_directory_tails cfg n a b c) := by
  unfold Dump_Central_directory_tails
  repeat' first
    | with_reducible exact outAll_pure _ _
    | with_reducible exact outAll_ftell _
    | with_reducible exact outAll_DUMP2 _ hP _ _ _
    | with_reducible exact outAll_DUMP4 _ hP _ _ _
    | with_reducible exact outAll_DUMP8 _ hP _ _ _
    | with_reducible exact outAll_DUMP2x _ hP _ _ _ _ _ Print_version_plain
    | with_reducible exact outAll_DUMP2x _ hP _ _ _ _ _ Print_internal_file_attributes_plain
    | with_reducible exact outAll_DUMP2x _ hP _ _ _ _ _ (fun x => Print_general_purpose_bit_flag_plain _ x)
    | with_reducible exact outAll_DUMP2x _ hP _ _ _ _ _ (fun x => Print_date_and_time_plain _ x)
    | with_reducible exact outAll_DUMP4x _ hP _ _ _ _ _ Print_external_file_attributes_plain
    | with_reducible exact outAll_Dump_string_text _ hT _
    | with_reducible exact outAll_Dump_extra_field _ hP _ _
    | with_reducible exact outAll_Dump_bytes_plain _ hP _ _
    | with_reducible exact outAll_Dump_if_fulldump _ hP _ _ _
    | with_reducible exact outAll_Dump_Data_descriptor _ hP hT hS
    | with_reducible exact outAll_Dump_Local_file_tails _ hP hT hS _ _ _ _
    | with_reducible exact outAll_Dump_Local_file_data _ hP hT hS _ _ _ _
    | with_reducible exact outAll_Dump_Central_directory_tails _ hP hT hS _ _ _ _ _
    | with_reducible exact outAll_say_tail _ hS _ _ _ _ (by decide)
    | with_reducible apply outAll_ite
    | with_reducible apply outAll_bind
    | (intro x; try dsimp only)

theorem outAll_Dump_Central_directory_file_header (P : Line → Prop) (hP : ∀ l, l.plain = true → P l)
    (hT : ∀ cs, P (Line.text cs))
    (hS : ∀ nm n o, nm ∈ tailNames → P (Line.sect nm n o)) (cfg : Config) (n : Int) :
    OutAll P (Dump_Central_directory_file_header cfg n) := by
  unfold Dump_Central_directory_file_header
  repeat' first
    | with_reducible exact outAll_pure _ _
    | with_reducible exact outAll_ftell _
    | with_reducible exact outAll_DUMP2 _ hP _ _ _
    | with_reducible exact outAll_DUMP4 _ hP _ _ _
    | with_reducible exact outAll_DUMP8 _ hP _ _ _
    | with_reducible exact outAll_DUMP2x _ hP _ _ _ _ _ Print_version_plain
    | with_reducible exact outAll_DUMP2x _ hP _ _ _ _ _ Print_internal_file_attributes_plain
    | with_reducible exact outAll_DUMP2x _ hP _ _ _ _ _ (fun x => Print_general_purpose_bit_flag_plain _ x)
    | with_reducible exact outAll_DUMP2x _ hP _ _ _ _ _ (fun x => Print_date_and_time_plain _ x)
    | with_reducible exact outAll_DUMP4x _ hP _ _ _ _ _ Print_external_file_attributes_plain
    | with_reducible exact outAll_Dump_string_text _ hT _
    | with_reducible exact outAll_Dump_extra_field _ hP _ _
    | with_reducible exact outAll_Dump_bytes_plain _ hP _ _
    | with_reducible exact outAll_Dump_if_fulldump _ hP _ _ _
    | with_reducible exact outAll_Dump_Data_descriptor _ hP hT hS
    | with_reducible exact outAll_Dump_Local_file_tails _ hP hT hS _ _ _ _
    | with_reducible exact outAll_Dump_Local_file_data _ hP hT hS _ _ _ _
    | with_reducible exact outAll_Dump_Central_directory_tails _ hP hT hS _ _ _ _ _
    | with_reducible exact outAll_say_tail _ hS _ _ _ _ (by decide)
    | with_reducible apply outAll_ite
    | with_reducible apply outAll_bind
    | (intro x; try dsimp only)

theorem outAll_Dump_Central_directory_digital_signature (P : Line → Prop) (hP : ∀ l, l.plain = true → P l)
    (hT : ∀ cs, P (Line.text cs))
    (hS : ∀ nm n o, nm ∈ tailNames → P (Line.sect nm n o)) (cfg : Config) :
    OutAll P (Dump_Central_directory_digital_signature cfg) := by
  unfold Dump_Central_directory_digital_signature
  repeat' first
    | with_reducible exact outAll_pure _ _
    | with_reducible exact outAll_ftell _
    | with_reducible exact outAll_DUMP2 _ hP _ _ _
    | with_reducible exact outAll_DUMP4 _ hP _ _ _
    | with_reducible exact outAll_DUMP8 _ hP _ _ _
    | with_reducible exact outAll_DUMP2x _ hP _ _ _ _ _ Print_version_plain
    | with_reducible exact outAll_DUMP2x _ hP _ _ _ _ _ Print_internal_file_attributes_plain
    | with_reducible exact outAll_DUMP2x _ hP _ _ _ _ _ (fun x => Print_general_purpose_bit_flag_plain _ x)
    | with_reducible exact outAll_DUMP2x _ hP _ _ _ _ _ (fun x => Print_date_and_time_plain _ x)
    | with_reducible exact outAll_DUMP4x _ hP _ _ _ _ _ Print_external_file_attributes_plain
    | with_reducible exact outAll_Dump_string_text _ hT _
    | with_reducible exact outAll_Dump_extra_field _ hP _ _
    | with_reducible exact outAll_Dump_bytes_plain _ hP _ _
    | with_reducible exact outAll_Dump_if_fulldump _ hP _ _ _
    | with_reducible exact outAll_Dump_Data_descriptor _ hP hT hS
    | with_reducible exact outAll_Dump_Local_file_tails _ hP hT hS _ _ _ _
    | with_reducible exact outAll_Dump_Local_file_data _ hP hT hS _ _ _ _
    | with_reducible exact outAll_Dump_Central_directory_tails _ hP hT hS _ _ _ _ _
    | with_reducible exact outAll_say_tail _ hS _ _ _ _ (by decide)
    | with_reducible apply outAll_ite
    | with_reducible apply outAll_bind
    | (intro x; try dsimp only)

theorem outAll_Dump_Zip64_end_of_central_directory_record (P : Line → Prop) (hP : ∀ l, l.plain = true → P l)
    (hT : ∀ cs, P (Line.text cs))
    (hS : ∀ nm n o, nm ∈ tailNames → P (Line.sect nm n o)) (cfg : Config) :
    OutAll P (Dump_Zip64_end_of_central_directory_record cfg) := by
  unfold Dump_Zip64_end_of_central_directory_record
  repeat' first
    | with_reducible exact outAll_pure _ _
    | with_reducible exact outAll_ftell _
    | with_reducible exact outAll_DUMP2 _ hP _ _ _
    | with_reducible exact outAll_DUMP4 _ hP _ _ _
    | with_reducible exact outAll_DUMP8 _ hP _ _ _
    | with_reducible exact outAll_DUMP2x _ hP _ _ _ _ _ Print_version_plain
    | with_reducible exact outAll_DUMP2x _ hP _ _ _ _ _ Print_internal_file_attributes_plain
    | with_reducible exact outAll_DUMP2x _ hP _ _ _ _ _ (fun x => Print_general_purpose_bit_flag_plain _ x)
    | with_reducible exact outAll_DUMP2x _ hP _ _ _ _ _ (fun x => Print_date_and_time_plain _ x)
    | with_reducible exact outAll_DUMP4x _ hP _ _ _ _ _ Print_external_file_attributes_plain
    | with_reducible exact outAll_Dump_string_text _ hT _
    | with_reducible exact outAll_Dump_extra_field _ hP _ _
    | with_reducible exact outAll_Dump_bytes_plain _ hP _ _
    | with_reducible exact outAll_Dump_if_fulldump _ hP _ _ _
    | with_reducible exact outAll_Dump_Data_descriptor _ hP hT hS
    | with_reducible exact outAll_Dump_Local_file_tails _ hP hT hS _ _ _ _
    | with_reducible exact outAll_Dump_Local_file_data _ hP hT hS _ _ _ _
    | with_reducible exact outAll_Dump_Central_directory_tails _ hP hT hS _ _ _ _ _
    | with_reducible exact outAll_say_tail _ hS _ _ _ _ (by decide)
    | with_reducible apply outAll_ite
    | with_reducible apply outAll_bind
    | (intro x; try dsimp only)

theorem outAll_Dump_Zip64_end_of_central_directory_locator (P : Line → Prop) (hP : ∀ l, l.plain = true → P l)
    (hT : ∀ cs, P (Line.text cs))
    (hS : ∀ nm n o, nm ∈ tailNames → P (Line.sect nm n o)) :
    OutAll P (Dump_Zip64_end_of_central_directory_locator) := by
  unfold Dump_Zip64_end_of_central_directory_locator
  repeat' first
    | with_reducible exact outAll_pure _ _
    | with_reducible exact outAll_ftell _
    | with_reducible exact outAll_DUMP2 _ hP _ _ _
    | with_reducible exact outAll_DUMP4 _ hP _ _ _
    | with_reducible exact outAll_DUMP8 _ hP _ _ _
    | with_reducible exact outAll_DUMP2x _ hP _ _ _ _ _ Print_version_plain
    | with_reducible exact outAll_DUMP2x _ hP _ _ _ _ _ Print_internal_file_attributes_plain
    | with_reducible exact outAll_DUMP2x _ hP _ _ _ _ _ (fun x => Print_general_purpose_bit_flag_plain _ x)
    | with_reducible exact outAll_DUMP2x _ hP _ _ _ _ _ (fun x => Print_date_and_time_plain _ x)
    | with_reducible exact outAll_DUMP4x _ hP _ _ _ _ _ Print_external_file_attributes_plain
    | with_reducible exact outAll_Dump_string_text _ hT _
    | with_reducible exact outAll_Dump_extra_field _ hP _ _
    | with_reducible exact outAll_Dump_bytes_plain _ hP _ _
    | with_reducible exact outAll_Dump_if_fulldump _ hP _ _ _
    | with_reducible exact outAll_Dump_Data_descriptor _ hP hT hS
    | with_reducible exact outAll_Dump_Local_file_tails _ hP hT hS _ _ _ _
    | with_reducible exact outAll_Dump_Local_file_data _ hP hT hS _ _ _ _
    | with_reducible exact outAll_Dump_Central_directory_tails _ hP hT hS _ _ _ _ _
    | with_reducible exact outAll_say_tail _ hS _ _ _ _ (by decide)
    | with_reducible apply outAll_ite
    | with_reducible apply outAll_bind
    | (intro x; try dsimp only)

theorem outAll_Dump_End_of_central_directory_record (P : Line → Prop) (hP : ∀ l, l.plain = true → P l)
    (hT : ∀ cs, P (Line.text cs))
    (hS : ∀ nm n o, nm ∈ tailNames → P (Line.sect nm n o)) (cfg : Config) :
    OutAll P (Dump_End_of_central_directory_record cfg) := by
  unfold Dump_End_of_central_directory_record
  repeat' first
    | with_reducible exact outAll_pure _ _
    | with_reducible exact outAll_ftell _
    | with_reducible exact outAll_DUMP2 _ hP _ _ _
    | with_reducible exact outAll_DUMP4 _ hP _ _ _
    | with_reducible exact outAll_DUMP8 _ hP _ _ _
    | with_reducible exact outAll_DUMP2x _ hP _ _ _ _ _ Print_version_plain
    | with_reducible exact outAll_DUMP2x _ hP _ _ _ _ _ Print_internal_file_attributes_plain
    | with_reducible exact outAll_DUMP2x _ hP _ _ _ _ _ (fun x => Print_general_purpose_bit_flag_plain _ x)
    | with_reducible exact outAll_DUMP2x _ hP _ _ _ _ _ (fun x => Print_date_and_time_plain _ x)
    | with_reducible exact outAll_DUMP4x _ hP _ _ _ _ _ Print_external_file_attributes_plain
    | with_reducible exact outAll_Dump_string_text _ hT _
    | with_reducible exact outAll_Dump_extra_field _ hP _ _
    | with_reducible exact outAll_Dump_bytes_plain _ hP _ _
    | with_reducible exact outAll_Dump_if_fulldump _ hP _ _ _
    | with_reducible exact outAll_Dump_Data_descriptor _ hP hT hS
    | with_reducible exact outAll_Dump_Local_file_tails _ hP hT hS _ _ _ _
    | with_reducible exact outAll_Dump_Local_file_data _ hP hT hS _ _ _ _
    | with_reducible exact outAll_Dump_Central_directory_tails _ hP hT hS _ _ _ _ _
    | with_reducible exact outAll_say_tail _ hS _ _ _ _ (by decide)
    | with_reducible apply outAll_ite
    | with_reducible apply outAll_bind
    | (intro x; try dsimp only)

/-! ## C29: the sequence labels of the record headers -/

theorem labels_append (nm : String) (a b : List Line) :
    labels nm (a ++ b) = labels nm a ++ labels nm b := by
  simp [labels, List.filterMap_append]

theorem labels_not_isSect (nm : String) (ls : List Line) (h : ∀ l ∈ ls, l.isSect nm = false) :
    labels nm ls = [] := by
  unfold labels
  rw [List.filterMap_eq_nil_iff]
  intro l hl
  have hp := h l hl
  cases l <;> simp_all [Line.isSect]

theorem labels_outAll {α : Type} (nm : String) (m : Dump α)
    (h : OutAll (fun l => l.isSect nm = false) m) (s : Stream) : labels nm (m s).out = [] :=
  labels_not_isSect nm _ (h s)

theorem tail_not_isSect (nm : String) (h : nm ∉ tailNames) (nm1 : String) (n : Option Int)
    (o : Option Nat) (h1 : nm1 ∈ tailNames) : (Line.sect nm1 n o).isSect nm = false := by
  have hne : nm1 ≠ nm := fun e => h (e ▸ h1)
  simp [Line.isSect, hne]

theorem labels_Print_header_same (cfg : Config) (nm : String) (sig o : Nat) (n : Int)
    (hn : 0 ≤ n) : labels nm (Print_header cfg nm sig o n) = [some n] := by
  have h : ¬ n < 0 := by omega
  simp [labels, Print_header, Print_section, Print_x, h]

theorem labels_Print_header_other (cfg : Config) (nm nm1 : String) (sig o : Nat) (n : Int)
    (hne : nm1 ≠ nm) : labels nm (Print_header cfg nm1 sig o n) = [] := by
  simp [labels, Print_header, Print_section, Print_x, hne]

/-- The counters the `switch` leaves: the file counter is one more after a
local file header, the directory counter one more after a central file
header, and every other case, the unknown signature included, leaves both as
they were. -/
theorem ZipDumpFile_switch_val (cfg : Config) (sig o : Nat) (fc dc : Int) (t : Stream) :
    (ZipDumpFile_switch cfg sig o fc dc t).val =
      ⟨sig, if sig = 0x04034b50 then fc + 1 else fc, if sig = 0x02014b50 then dc + 1 else dc⟩ := by
  unfold ZipDumpFile_switch
  by_cases h1 : sig = 0x04034b50
  · subst h1
    rfl
  · rw [if_neg h1]
    rw [if_neg h1]
    by_cases h2 : sig = 0x08074b50
    · subst h2
      rfl
    · rw [if_neg h2]
      by_cases h3 : sig = 0x08064b50
      · subst h3
        rfl
      · rw [if_neg h3]
        by_cases h4 : sig = 0x02014b50
        · subst h4
          rfl
        · rw [if_neg h4]
          rw [if_neg h4]
          by_cases h5 : sig = 0x05054b50
          · subst h5
            rfl
          · rw [if_neg h5]
            by_cases h6 : sig = 0x06064b50
            · subst h6
              rfl
            · rw [if_neg h6]
              by_cases h7 : sig = 0x07064b50
              · subst h7
                rfl
              · rw [if_neg h7]
                by_cases h8 : sig = 0x06054b50
                · subst h8
                  rfl
                · rw [if_neg h8]
                  rfl

/-- The labelled header lines the `switch` writes for a name that no decoder
uses: one line, from `Print_header`, when the case of the signature has that
name, and none otherwise. -/
theorem ZipDumpFile_switch_labels (cfg : Config) (nm : String) (hnm : nm ∉ tailNames)
    (sig o : Nat) (fc dc : Int) (t : Stream) (hfc : 0 ≤ fc) (hdc : 0 ≤ dc) :
    labels nm (ZipDumpFile_switch cfg sig o fc dc t).out =
      (if sig = 0x04034b50 then labels nm (Print_header cfg "Local file header" sig o (fc + 1))
       else if sig = 0x08074b50 then
         labels nm (Print_header cfg "Data descriptor header" sig o fc)
       else if sig = 0x08064b50 then
         labels nm (Print_header cfg "Archive extra data record" sig o (-1))
       else if sig = 0x02014b50 then
         labels nm (Print_header cfg "Central file header" sig o (dc + 1))
       else if sig = 0x05054b50 then labels nm (Print_header cfg "Digital signature" sig o (-1))
       else if sig = 0x06064b50 then
         labels nm (Print_header cfg "Zip64 end of central directory record" sig o (-1))
       else if sig = 0x07064b50 then
         labels nm (Print_header cfg "Zip64 end of central directory locator" sig o (-1))
       else if sig = 0x06054b50 then
         labels nm (Print_header cfg "End of central directory record" sig o (-1))
       else labels nm (Print_header cfg "!! Unknown record" sig o (-1))) := by
  have hP : ∀ l : Line, l.plain = true → l.isSect nm = false := fun l h => plain_not_isSect _ l h
  have hT : ∀ cs : List Nat, (Line.text cs).isSect nm = false := fun _ => rfl
  have hS := tail_not_isSect nm hnm
  unfold ZipDumpFile_switch
  by_cases h1 : sig = 0x04034b50
  · rw [if_pos h1, if_pos h1]
    simp only [bind_run, say_run, pure_run, List.append_nil, labels_append,
      labels_outAll nm _ (outAll_Dump_Local_file _ hP hT hS _ _)]
  · rw [if_neg h1, if_neg h1]
    by_cases h2 : sig = 0x08074b50
    · rw [if_pos h2, if_pos h2]
      simp only [bind_run, say_run, pure_run, List.append_nil, labels_append,
        labels_outAll nm _ (outAll_Dump_Data_descriptor _ hP hT hS)]
    · rw [if_neg h2, if_neg h2]
      by_cases h3 : sig = 0x08064b50
      · rw [if_pos h3, if_pos h3]
        simp only [bind_run, say_run, pure_run, List.append_nil, labels_append,
          labels_outAll nm _ (outAll_Dump_Archive_extra_data_record _ hP hT hS _)]
      · rw [if_neg h3, if_neg h3]
        by_cases h4 : sig = 0x02014b50
        · rw [if_pos h4, if_pos h4]
          simp only [bind_run, say_run, pure_run, List.append_nil, labels_append,
            labels_outAll nm _ (outAll_Dump_Central_directory_file_header _ hP hT hS _ _)]
        · rw [if_neg h4, if_neg h4]
          by_cases h5 : sig = 0x05054b50
          · rw [if_pos h5, if_pos h5]
            simp only [bind_run, say_run, pure_run, List.append_nil, labels_append,
              labels_outAll nm _ (outAll_Dump_Central_directory_digital_signature _ hP hT hS _)]
          · rw [if_neg h5, if_neg h5]
            by_cases h6 : sig = 0x06064b50
            · rw [if_pos h6, if_pos h6]
              simp only [bind_run, say_run, pure_run, List.append_nil, labels_append,
                labels_outAll nm _ (outAll_Dump_Zip64_end_of_central_directory_record _ hP hT hS _)]
            · rw [if_neg h6, if_neg h6]
              by_cases h7 : sig = 0x07064b50
              · rw [if_pos h7, if_pos h7]
                simp only [bind_run, say_run, pure_run, List.append_nil, labels_append,
                  labels_outAll nm _ (outAll_Dump_Zip64_end_of_central_directory_locator _ hP hT hS)]
              · rw [if_neg h7, if_neg h7]
                by_cases h8 : sig = 0x06054b50
                · rw [if_pos h8, if_pos h8]
                  simp only [bind_run, say_run, pure_run, List.append_nil, labels_append,
                    labels_outAll nm _ (outAll_Dump_End_of_central_directory_record _ hP hT hS _)]
                · rw [if_neg h8, if_neg h8]
                  simp only [bind_run, say_run, pure_run, List.append_nil]

theorem labels_switch_local (cfg : Config) (sig o : Nat) (fc dc : Int) (t : Stream)
    (hfc : 0 ≤ fc) (hdc : 0 ≤ dc) :
    labels "Local file header" (ZipDumpFile_switch cfg sig o fc dc t).out =
      if sig = 0x04034b50 then [some (fc + 1)] else [] := by
  rw [ZipDumpFile_switch_labels cfg _ (by decide) sig o fc dc t hfc hdc]
  split_ifs
  · exact labels_Print_header_same cfg _ sig o _ (by omega)
  all_goals exact labels_Print_header_other cfg _ _ sig o _ (by decide)

theorem labels_switch_central (cfg : Config) (sig o : Nat) (fc dc : Int) (t : Stream)
    (hfc : 0 ≤ fc) (hdc : 0 ≤ dc) :
    labels "Central file header" (ZipDumpFile_switch cfg sig o fc dc t).out =
      if sig = 0x02014b50 then [some (dc + 1)] else [] := by
  rw [ZipDumpFile_switch_labels cfg _ (by decide) sig o fc dc t hfc hdc]
  by_cases h4 : sig = 0x02014b50
  · subst h4
    rw [if_neg (by decide), if_neg (by decide), if_neg (by decide), if_pos rfl, if_pos rfl]
    exact labels_Print_header_same cfg _ _ o _ (by omega)
  · rw [if_neg h4]
    split_ifs
    all_goals exact labels_Print_header_other cfg _ _ sig o _ (by decide)

theorem labels_SkipToNextPK (cfg : Config) (nm : String) (s : Stream) :
    labels nm (SkipToNextPK cfg s).out = [] := by
  have hP : ∀ l : Line, l.plain = true → l.isSect nm = false := fun l h => plain_not_isSect _ l h
  have hu : ∀ k t, labels nm (SkipUnknownData cfg k t).out = [] := fun k t =>
    labels_outAll nm _ (outAll_SkipUnknownData _ hP cfg k) t
  rcases firstPK_or_noPK s.rest with ⟨k, hk⟩ | hn
  · rw [SkipToNextPK_found cfg s k hk]
    by_cases h0 : k = 0
    · simp [h0, labels]
    · simp only [if_neg h0]
      exact hu _ _
  · by_cases hne : s.rest = []
    · rw [SkipToNextPK_end cfg s hne]
      rfl
    · rw [SkipToNextPK_none cfg s hne hn]
      exact hu _ _

theorem ZipDumpFile_body_short (cfg : Config) (w : Walker) (s : Stream) (h : s.rest.length < 4) :
    ZipDumpFile_body cfg w s = ⟨⟨w.signature, w.file_count, w.dir_count⟩, [], s.hitEof⟩ := by
  have e := Read32_fail w.signature s h
  simp only [ZipDumpFile_body, bind_run, ftell_run, e, pure_run, List.append_nil]
  rfl

/-- One turn of the walker, for the two counters: either the loop ends and no
header line is written, or the turn writes at most one header line of the two
kinds, labelled with the counter of its kind plus one, which the counter then
holds, and a turn that writes one leaves at least four bytes fewer. -/
theorem ZipDumpFile_turn_labels (cfg : Config) (w : Walker) (s : Stream)
    (hfc : 0 ≤ w.file_count) (hdc : 0 ≤ w.dir_count) :
    ((ZipDumpFile_turn cfg w s).val = none ∧
      labels "Local file header" (ZipDumpFile_turn cfg w s).out = [] ∧
      labels "Central file header" (ZipDumpFile_turn cfg w s).out = []) ∨
    ∃ (w1 : Walker) (a b : Nat), (ZipDumpFile_turn cfg w s).val = some w1 ∧
      w1.file_count = w.file_count + a ∧ w1.dir_count = w.dir_count + b ∧
      labels "Local file header" (ZipDumpFile_turn cfg w s).out =
        (if a = 0 then [] else [some (w.file_count + 1)]) ∧
      labels "Central file header" (ZipDumpFile_turn cfg w s).out =
        (if b = 0 then [] else [some (w.dir_count + 1)]) ∧
      a ≤ 1 ∧ b ≤ 1 ∧
      4 * (a + b) + (ZipDumpFile_turn cfg w s).fin.rest.length ≤ s.rest.length := by
  rcases firstPK_or_noPK s.rest with ⟨k, hk⟩ | hn
  · have hl := firstPK_length _ _ hk
    right
    by_cases h4 : k + 4 ≤ s.rest.length
    · have e := ZipDumpFile_turn_anchor cfg w s k hk h4
      have kp := keeps_ZipDumpFile_switch cfg (le ((s.rest.drop k).take 4)) (s.pos + k)
        w.file_count w.dir_count ⟨s.data, s.pos + k + 4, false⟩
      have hp : s.pos + 4 ≤ (ZipDumpFile_switch cfg (le ((s.rest.drop k).take 4)) (s.pos + k)
          w.file_count w.dir_count ⟨s.data, s.pos + k + 4, false⟩).fin.pos :=
        Nat.le_trans (by show s.pos + 4 ≤ s.pos + k + 4; omega) kp.2
      have hr := rest_length_four s _ kp.1 hp (by omega)
      have hv := ZipDumpFile_switch_val cfg (le ((s.rest.drop k).take 4)) (s.pos + k)
        w.file_count w.dir_count ⟨s.data, s.pos + k + 4, false⟩
      have hL := labels_switch_local cfg (le ((s.rest.drop k).take 4)) (s.pos + k)
        w.file_count w.dir_count ⟨s.data, s.pos + k + 4, false⟩ hfc hdc
      have hC := labels_switch_central cfg (le ((s.rest.drop k).take 4)) (s.pos + k)
        w.file_count w.dir_count ⟨s.data, s.pos + k + 4, false⟩ hfc hdc
      rw [e]
      simp only [labels_append, labels_SkipToNextPK, List.nil_append, hL, hC, hv]
      by_cases c1 : le ((s.rest.drop k).take 4) = 0x04034b50
      · have c2 : ¬ le ((s.rest.drop k).take 4) = 0x02014b50 := by rw [c1]; decide
        refine ⟨_, 1, 0, rfl, ?_, ?_, ?_, ?_, by omega, by omega, by omega⟩
        · simp [c1]
        · simp [c2]
        · simp [c1]
        · simp [c2]
      · by_cases c2 : le ((s.rest.drop k).take 4) = 0x02014b50
        · refine ⟨_, 0, 1, rfl, ?_, ?_, ?_, ?_, by omega, by omega, by omega⟩
          · simp [c1]
          · simp [c2]
          · simp [c1]
          · simp [c2]
        · refine ⟨_, 0, 0, rfl, ?_, ?_, ?_, ?_, by omega, by omega, by omega⟩
          · simp [c1]
          · simp [c2]
          · simp [c1]
          · simp [c2]
    · have e0 := SkipToNextPK_found cfg s k hk
      have e := ZipDumpFile_turn_go cfg w s _ _ e0
      rw [ZipDumpFile_body_short cfg w _
        (by rw [rest_at s k false]; simp only [List.length_drop]; omega)] at e
      have hsk := labels_SkipToNextPK cfg "Local file header" s
      have hsk2 := labels_SkipToNextPK cfg "Central file header" s
      rw [e0] at hsk hsk2
      rw [e]
      refine ⟨_, 0, 0, rfl, by simp, by simp, ?_, ?_, by omega, by omega, ?_⟩
      · simpa using hsk
      · simpa using hsk2
      · simp [rest_hitEof]
  · by_cases hne : s.rest = []
    · left
      rw [ZipDumpFile_turn_end cfg w s hne]
      exact ⟨rfl, rfl, rfl⟩
    · right
      have e0 := SkipToNextPK_none cfg s hne hn
      have e := ZipDumpFile_turn_go cfg w s _ _ e0
      rw [ZipDumpFile_body_end cfg w _ (by rw [rest_at s _ false]; simp)] at e
      have hsk := labels_SkipToNextPK cfg "Local file header" s
      have hsk2 := labels_SkipToNextPK cfg "Central file header" s
      rw [e0] at hsk hsk2
      rw [e]
      refine ⟨_, 0, 0, rfl, by simp, by simp, ?_, ?_, by omega, by omega, ?_⟩
      · simpa using hsk
      · simpa using hsk2
      · simp [rest_hitEof]

theorem labelRun_cons (c : Int) (k : Nat) :
    some (c + 1) :: (List.range k).map (fun (i : Nat) => some (c + 1 + ((i : Int) + 1))) =
      (List.range (k + 1)).map (fun (i : Nat) => some (c + ((i : Int) + 1))) := by
  rw [List.range_succ_eq_map, List.map_cons, List.map_map]
  congr 1
  · simp
    intro a _
    omega

/-- The loop of the walker from counters `w`: the header lines of each of the
two kinds carry, in order, the labels that follow the counter of the kind. -/
theorem ZipDumpFile_loop_labels (cfg : Config) :
    ∀ (fuel : Nat) (w : Walker) (s : Stream), 0 ≤ w.file_count → 0 ≤ w.dir_count →
      ∃ k j : Nat,
        labels "Local file header" (ZipDumpFile_loop cfg fuel w s).out =
          (List.range k).map (fun (i : Nat) => some (w.file_count + ((i : Int) + 1))) ∧
        labels "Central file header" (ZipDumpFile_loop cfg fuel w s).out =
          (List.range j).map (fun (i : Nat) => some (w.dir_count + ((i : Int) + 1))) ∧
        4 * (k + j) ≤ s.rest.length := by
  intro fuel
  induction fuel with
  | zero =>
    intro w s _ _
    exact ⟨0, 0, rfl, rfl, Nat.zero_le _⟩
  | succ f ih =>
    intro w s hfc hdc
    rcases ZipDumpFile_turn_labels cfg w s hfc hdc with ⟨hv, hL, hC⟩ |
      ⟨w1, a, b, hv, h1, h2, hL, hC, ha, hb, hr⟩
    · rw [ZipDumpFile_loop_stop cfg f w s hv]
      exact ⟨0, 0, hL, hC, Nat.zero_le _⟩
    · obtain ⟨k, j, iL, iC, ir⟩ := ih w1 (ZipDumpFile_turn cfg w s).fin (by omega) (by omega)
      rw [ZipDumpFile_loop_step cfg f w w1 s hv]
      simp only [Res.after, labels_append, hL, hC, iL, iC, h1, h2]
      refine ⟨a + k, b + j, ?_, ?_, by omega⟩
      · rcases Nat.eq_zero_or_pos a with h0 | h0
        · subst h0
          simp
        · obtain rfl : a = 1 := by omega
          rw [if_neg (by decide), Nat.add_comm 1 k, ← labelRun_cons]
          simp
      · rcases Nat.eq_zero_or_pos b with h0 | h0
        · subst h0
          simp
        · obtain rfl : b = 1 := by omega
          rw [if_neg (by decide), Nat.add_comm 1 j, ← labelRun_cons]
          simp

/-! ## The labels and the signatures handed to the switch -/

/-- One turn of the walker, for the two counters and the signature handed to
the `switch`: either the scan finds no byte and the loop ends, or the turn
goes on with the counters raised by the number of local file header
signatures (`x`) and of central file header signatures (`y`) handed to the
`switch` in it, and writes a header line of a kind, labelled with the counter
of the kind plus one, exactly when the signature of the kind is handed over. -/
theorem ZipDumpFile_turn_dispatch (cfg : Config) (sg a b : Nat) (s : Stream) :
    ((SkipToNextPK cfg s).val = false ∧ (ZipDumpFile_turn cfg ⟨sg, a, b⟩ s).val = none ∧
      labels "Local file header" (ZipDumpFile_turn cfg ⟨sg, a, b⟩ s).out = [] ∧
      labels "Central file header" (ZipDumpFile_turn cfg ⟨sg, a, b⟩ s).out = []) ∨
    ((SkipToNextPK cfg s).val = true ∧
      ∃ (sg1 x y : Nat),
        (ZipDumpFile_turn cfg ⟨sg, a, b⟩ s).val = some ⟨sg1, ((a + x : Nat) : Int), ((b + y : Nat) : Int)⟩ ∧
        (dispatchOf ⟨sg, a, b⟩ (SkipToNextPK cfg s).fin).countP
          (fun d => decide (d.2 = 0x04034b50)) = x ∧
        (dispatchOf ⟨sg, a, b⟩ (SkipToNextPK cfg s).fin).countP
          (fun d => decide (d.2 = 0x02014b50)) = y ∧
        labels "Local file header" (ZipDumpFile_turn cfg ⟨sg, a, b⟩ s).out =
          (if x = 0 then [] else [some ((a : Int) + 1)]) ∧
        labels "Central file header" (ZipDumpFile_turn cfg ⟨sg, a, b⟩ s).out =
          (if y = 0 then [] else [some ((b : Int) + 1)]) ∧
        x ≤ 1 ∧ y ≤ 1) := by
  have hfc : (0 : Int) ≤ (Walker.mk sg a b).file_count := Int.ofNat_nonneg a
  have hdc : (0 : Int) ≤ (Walker.mk sg a b).dir_count := Int.ofNat_nonneg b
  have quiet : ∀ (o : List Line) (t : Stream), SkipToNextPK cfg s = ⟨true, o, t⟩ →
      t.rest.length < 4 →
      ((SkipToNextPK cfg s).val = true ∧
      ∃ (sg1 x y : Nat),
        (ZipDumpFile_turn cfg ⟨sg, a, b⟩ s).val =
          some ⟨sg1, ((a + x : Nat) : Int), ((b + y : Nat) : Int)⟩ ∧
        (dispatchOf ⟨sg, a, b⟩ (SkipToNextPK cfg s).fin).countP
          (fun d => decide (d.2 = 0x04034b50)) = x ∧
        (dispatchOf ⟨sg, a, b⟩ (SkipToNextPK cfg s).fin).countP
          (fun d => decide (d.2 = 0x02014b50)) = y ∧
        labels "Local file header" (ZipDumpFile_turn cfg ⟨sg, a, b⟩ s).out =
          (if x = 0 then [] else [some ((a : Int) + 1)]) ∧
        labels "Central file header" (ZipDumpFile_turn cfg ⟨sg, a, b⟩ s).out =
          (if y = 0 then [] else [some ((b : Int) + 1)]) ∧
        x ≤ 1 ∧ y ≤ 1) := by
    intro o t e0 ht
    have e := ZipDumpFile_turn_go cfg ⟨sg, a, b⟩ s _ _ e0
    rw [ZipDumpFile_body_short cfg _ t ht] at e
    have hsk := labels_SkipToNextPK cfg "Local file header" s
    have hsk2 := labels_SkipToNextPK cfg "Central file header" s
    have hd : dispatchOf ⟨sg, a, b⟩ t = [] := by
      unfold dispatchOf
      rw [Read32_fail _ t ht]
      rfl
    rw [e0] at hsk hsk2
    rw [e, e0]
    refine ⟨rfl, sg, 0, 0, rfl, ?_, ?_, ?_, ?_, Nat.zero_le _, Nat.zero_le _⟩
    · show (dispatchOf ⟨sg, a, b⟩ t).countP _ = 0
      rw [hd]; rfl
    · show (dispatchOf ⟨sg, a, b⟩ t).countP _ = 0
      rw [hd]; rfl
    · simpa using hsk
    · simpa using hsk2
  rcases firstPK_or_noPK s.rest with ⟨k, hk⟩ | hn
  · have hl := firstPK_length _ _ hk
    right
    have e0 := SkipToNextPK_found cfg s k hk
    by_cases h4 : k + 4 ≤ s.rest.length
    · have e := ZipDumpFile_turn_anchor cfg ⟨sg, a, b⟩ s k hk h4
      have hv := ZipDumpFile_switch_val cfg (le ((s.rest.drop k).take 4)) (s.pos + k)
        a b ⟨s.data, s.pos + k + 4, false⟩
      have hL := labels_switch_local cfg (le ((s.rest.drop k).take 4)) (s.pos + k)
        a b ⟨s.data, s.pos + k + 4, false⟩ hfc hdc
      have hC := labels_switch_central cfg (le ((s.rest.drop k).take 4)) (s.pos + k)
        a b ⟨s.data, s.pos + k + 4, false⟩ hfc hdc
      have hr := rest_at s k false
      have hd : dispatchOf ⟨sg, a, b⟩ (SkipToNextPK cfg s).fin =
          [(s.pos + k, le ((s.rest.drop k).take 4))] := by
        rw [e0]
        unfold dispatchOf
        rw [Read32_ok _ ⟨s.data, s.pos + k, false⟩
          (by rw [hr]; simp only [List.length_drop]; omega), hr]
        rfl
      rw [e, hd]
      simp only [labels_append, labels_SkipToNextPK, List.nil_append, hL, hC, hv]
      refine ⟨by rw [e0], ?_⟩
      by_cases c1 : le ((s.rest.drop k).take 4) = 0x04034b50
      · have c2 : ¬ le ((s.rest.drop k).take 4) = 0x02014b50 := by rw [c1]; decide
        exact ⟨0x04034b50, 1, 0, by simp [c1, c2], by simp [c1], by simp [c2], by simp [c1],
          by simp [c2], by omega, by omega⟩
      · by_cases c2 : le ((s.rest.drop k).take 4) = 0x02014b50
        · exact ⟨0x02014b50, 0, 1, by simp [c1, c2], by simp [c1], by simp [c2], by simp [c1],
            by simp [c2], by omega, by omega⟩
        · exact ⟨le ((s.rest.drop k).take 4), 0, 0, by simp [c1, c2], by simp [c1], by simp [c2], by simp [c1],
            by simp [c2], by omega, by omega⟩
    · exact quiet _ _ e0 (by rw [rest_at s k false]; simp only [List.length_drop]; omega)
  · by_cases hne : s.rest = []
    · left
      rw [ZipDumpFile_turn_end cfg _ s hne, SkipToNextPK_end cfg s hne]
      exact ⟨rfl, rfl, rfl, rfl⟩
    · right
      exact quiet _ _ (SkipToNextPK_none cfg s hne hn) (by rw [rest_at s _ false]; simp)

/-- The loop of the walker from counters `a` and `b`: the header lines of each
of the two kinds carry, in order, the labels that follow the counter of the
kind, and there are as many of them as signatures of the kind are handed to
the `switch`. -/
theorem ZipDumpFile_loop_dispatch (cfg : Config) :
    ∀ (fuel : Nat) (sg a b : Nat) (s : Stream),
      labels "Local file header" (ZipDumpFile_loop cfg fuel ⟨sg, a, b⟩ s).out =
        (List.range ((dispatched cfg fuel ⟨sg, a, b⟩ s).countP
          (fun d => decide (d.2 = 0x04034b50)))).map
            (fun (i : Nat) => some ((a : Int) + ((i : Int) + 1))) ∧
      labels "Central file header" (ZipDumpFile_loop cfg fuel ⟨sg, a, b⟩ s).out =
        (List.range ((dispatched cfg fuel ⟨sg, a, b⟩ s).countP
          (fun d => decide (d.2 = 0x02014b50)))).map
            (fun (i : Nat) => some ((b : Int) + ((i : Int) + 1))) := by
  intro fuel
  induction fuel with
  | zero =>
    intro sg a b s
    exact ⟨rfl, rfl⟩
  | succ f ih =>
    intro sg a b s
    rcases ZipDumpFile_turn_dispatch cfg sg a b s with ⟨hs, hv, hL, hC⟩ |
      ⟨hs, sg1, x, y, hv, hx, hy, hL, hC, hx1, hy1⟩
    · rw [ZipDumpFile_loop_stop cfg f _ s hv]
      simp only [dispatched, hs, Bool.false_eq_true, if_false, List.countP_nil, List.range_zero,
        List.map_nil]
      exact ⟨hL, hC⟩
    · obtain ⟨iL, iC⟩ := ih sg1 (a + x) (b + y) (ZipDumpFile_turn cfg ⟨sg, a, b⟩ s).fin
      rw [ZipDumpFile_loop_step cfg f _ _ s hv]
      simp only [dispatched, hs, if_true, hv, List.countP_append, hx, hy, Res.after,
        labels_append, hL, hC, iL, iC]
      constructor
      · rcases Nat.eq_zero_or_pos x with h0 | h0
        · subst h0
          simp
        · obtain rfl : x = 1 := by omega
          rw [if_neg (by decide), Nat.add_comm 1, ← labelRun_cons]
          simp [Int.add_assoc]
      · rcases Nat.eq_zero_or_pos y with h0 | h0
        · subst h0
          simp
        · obtain rfl : y = 1 := by omega
          rw [if_neg (by decide), Nat.add_comm 1, ← labelRun_cons]
          simp [Int.add_assoc]

/-- C29: in every pass of `ZipDumpFile`, let `D` be the signatures handed to
the `switch`, in order.  The section lines named Local file header are as
many as the local file header signatures in `D` and carry, in order, the
labels 1, 2, ...; those named Central file header are as many as the central
file header signatures in `D` and carry the labels 1, 2, ..., each sequence
counted on its own.  Turn by turn, from any state of the counters: a header
line of a kind is written exactly when the signature of the kind is handed to
the `switch`, it is labelled with the counter of the kind plus one, which the
counter then holds, and every other signature, known or unknown, writes no
header line of the two kinds and leaves both counters as they are.  No more
than one header of the two kinds per four bytes of the file is handed over. -/
theorem C29_sequence_counters (cfg : Config) (s : Stream) :
    labels "Local file header" (ZipDumpFile cfg s).out =
      (List.range ((dispatched cfg (s.data.length + 1) ⟨0, 0, 0⟩ s).countP
        (fun d => decide (d.2 = 0x04034b50)))).map (fun (i : Nat) => some ((i : Int) + 1)) ∧
    labels "Central file header" (ZipDumpFile cfg s).out =
      (List.range ((dispatched cfg (s.data.length + 1) ⟨0, 0, 0⟩ s).countP
        (fun d => decide (d.2 = 0x02014b50)))).map (fun (i : Nat) => some ((i : Int) + 1)) ∧
    (∀ (sg o : Nat) (a b : Nat) (t : Stream),
      (ZipDumpFile_switch cfg sg o a b t).val =
        ⟨sg, if sg = 0x04034b50 then (a : Int) + 1 else a,
          if sg = 0x02014b50 then (b : Int) + 1 else b⟩ ∧
      labels "Local file header" (ZipDumpFile_switch cfg sg o a b t).out =
        (if sg = 0x04034b50 then [some ((a : Int) + 1)] else []) ∧
      labels "Central file header" (ZipDumpFile_switch cfg sg o a b t).out =
        (if sg = 0x02014b50 then [some ((b : Int) + 1)] else [])) ∧
    (∀ (sg a b : Nat) (t : Stream),
      labels "Local file header" (ZipDumpFile_turn cfg ⟨sg, a, b⟩ t).out =
        ((if (SkipToNextPK cfg t).val then dispatchOf ⟨sg, a, b⟩ (SkipToNextPK cfg t).fin
          else []).filter (fun d => decide (d.2 = 0x04034b50))).map
            (fun _ => some ((a : Int) + 1)) ∧
      labels "Central file header" (ZipDumpFile_turn cfg ⟨sg, a, b⟩ t).out =
        ((if (SkipToNextPK cfg t).val then dispatchOf ⟨sg, a, b⟩ (SkipToNextPK cfg t).fin
          else []).filter (fun d => decide (d.2 = 0x02014b50))).map
            (fun _ => some ((b : Int) + 1))) ∧
    4 * ((dispatched cfg (s.data.length + 1) ⟨0, 0, 0⟩ s).countP
          (fun d => decide (d.2 = 0x04034b50)) +
        (dispatched cfg (s.data.length + 1) ⟨0, 0, 0⟩ s).countP
          (fun d => decide (d.2 = 0x02014b50))) ≤ s.rest.length := by
  obtain ⟨h1, h2⟩ := ZipDumpFile_loop_dispatch cfg (s.data.length + 1) 0 0 0 s
  refine ⟨?_, ?_, ?_, ?_, ?_⟩
  rotate_right
  · obtain ⟨k, j, g1, g2, g3⟩ := ZipDumpFile_loop_labels cfg (s.data.length + 1) ⟨0, 0, 0⟩ s
      (Int.le_refl _) (Int.le_refl _)
    have e1 := congrArg List.length (g1.symm.trans h1)
    have e2 := congrArg List.length (g2.symm.trans h2)
    simp only [List.length_map, List.length_range, Nat.cast_zero] at e1 e2
    rw [← e1, ← e2]
    exact g3
  · have : (ZipDumpFile cfg s).out = (ZipDumpFile_loop cfg (s.data.length + 1) ⟨0, 0, 0⟩ s).out :=
      rfl
    rw [this]
    simpa using h1
  · have : (ZipDumpFile cfg s).out = (ZipDumpFile_loop cfg (s.data.length + 1) ⟨0, 0, 0⟩ s).out :=
      rfl
    rw [this]
    simpa using h2
  · intro sg o a b t
    exact ⟨ZipDumpFile_switch_val cfg sg o a b t,
      labels_switch_local cfg sg o a b t (Int.ofNat_nonneg a) (Int.ofNat_nonneg b),
      labels_switch_central cfg sg o a b t (Int.ofNat_nonneg a) (Int.ofNat_nonneg b)⟩
  · intro sg a b t
    rcases ZipDumpFile_turn_dispatch cfg sg a b t with ⟨hs, hv, hL, hC⟩ |
      ⟨hs, sg1, x, y, hv, hx, hy, hL, hC, hx1, hy1⟩
    · rw [hs, hL, hC]
      exact ⟨rfl, rfl⟩
    · rw [hs, hL, hC]
      simp only [if_true]
      have key : ∀ (p : Nat × Nat → Bool) (c : Option Int) (n : Nat),
          (dispatchOf ⟨sg, a, b⟩ (SkipToNextPK cfg t).fin).countP p = n → n ≤ 1 →
          ((dispatchOf ⟨sg, a, b⟩ (SkipToNextPK cfg t).fin).filter p).map (fun _ => c) =
            if n = 0 then [] else [c] := by
        intro p c n hn hn1
        rw [List.countP_eq_length_filter] at hn
        rcases Nat.eq_zero_or_pos n with h0 | h0
        · subst h0
          rw [List.length_eq_zero] at hn
          rw [hn]; rfl
        · obtain rfl : n = 1 := by omega
          rw [List.length_eq_one] at hn
          obtain ⟨d, hd⟩ := hn
          rw [hd]; rfl
      exact ⟨(key _ _ x hx hx1).symm, (key _ _ y hy hy1).symm⟩

set_option maxRecDepth 100000 in
/-- The signatures handed to the `switch` in the pass over `sampleMixedHeaders`,
with their offsets. -/
theorem dispatched_sampleMixedHeaders :
    dispatched optionsOff ((Stream.mk sampleMixedHeaders 0 false).data.length + 1) ⟨0, 0, 0⟩
        ⟨sampleMixedHeaders, 0, false⟩ =
      [(0, 0x04034b50), (30, 0x02014b50), (76, 0x04034b50), (106, 0x09094b50),
       (110, 0x02014b50), (156, 0x04034b50)] := by
  decide

/-- C29 on a file of six records: the signatures handed to the `switch` are
local, central, local, unknown, central, local; the three local file headers
are labelled 1, 2, 3 and the two central file headers 1, 2. -/
theorem C29_sequence_counters_witness :
    dispatched optionsOff ((Stream.mk sampleMixedHeaders 0 false).data.length + 1) ⟨0, 0, 0⟩
        ⟨sampleMixedHeaders, 0, false⟩ =
      [(0, 0x04034b50), (30, 0x02014b50), (76, 0x04034b50), (106, 0x09094b50),
       (110, 0x02014b50), (156, 0x04034b50)] ∧
    labels "Local file header" (ZipDumpFile optionsOff ⟨sampleMixedHeaders, 0, false⟩).out =
      [some 1, some 2, some 3] ∧
    labels "Central file header" (ZipDumpFile optionsOff ⟨sampleMixedHeaders, 0, false⟩).out =
      [some 1, some 2] :=
  ⟨dispatched_sampleMixedHeaders,
   (C29_sequence_counters optionsOff ⟨sampleMixedHeaders, 0, false⟩).1.trans
     (by rw [dispatched_sampleMixedHeaders]; decide),
   (C29_sequence_counters optionsOff ⟨sampleMixedHeaders, 0, false⟩).2.1.trans
     (by rw [dispatched_sampleMixedHeaders]; decide)⟩

/-! ## C30: the run with the quiet option on and the run with it off -/

theorem quieted_append (a b : List Line) : quieted (a ++ b) = quieted a ++ quieted b := by
  simp [quieted, List.filterMap_append]

theorem quieted_steady (ls : List Line) (h : ∀ l ∈ ls, l.quiet = some l) : quieted ls = ls := by
  induction ls with
  | nil => rfl
  | cons a t ih =>
    have ha := h a (List.mem_cons_self _ _)
    have ht := ih (fun l hl => h l (List.mem_cons_of_mem _ hl))
    unfold quieted at ht ⊢
    rw [List.filterMap_cons, ha, ht]

theorem quieted_note (ls : List Line) (h : ∀ l ∈ ls, l.isNote = true) : quieted ls = [] := by
  unfold quieted
  rw [List.filterMap_eq_nil_iff]
  intro l hl
  have hp := h l hl
  cases l <;> simp_all [Line.isNote, Line.quiet]

theorem qsim_pure {α : Type} (a : α) : QSim (pure a : Dump α) (pure a) := by
  intro s; exact ⟨rfl, rfl, rfl⟩

theorem qsim_bind {α β : Type} (m1 m2 : Dump α) (k1 k2 : α → Dump β)
    (h1 : QSim m1 m2) (h2 : ∀ a, QSim (k1 a) (k2 a)) : QSim (m1 >>= k1) (m2 >>= k2) := by
  intro s
  obtain ⟨a1, a2, a3⟩ := h1 s
  have b := h2 (m2 s).val (m2 s).fin
  simp only [bind_run, a1, a2, a3, quieted_append]
  exact ⟨(b).1, (b).2.1, by rw [(b).2.2]⟩

theorem qsim_ite {α : Type} (c : Prop) [Decidable c] (a1 a2 b1 b2 : Dump α)
    (ha : QSim a1 a2) (hb : QSim b1 b2) :
    QSim (if c then a1 else b1) (if c then a2 else b2) := by
  split <;> assumption

/-- A function whose lines the quiet option leaves as they are. -/
theorem qsim_steady {α : Type} (m : Dump α) (h : OutAll (fun l => l.quiet = some l) m) :
    QSim m m := by
  intro s
  exact ⟨rfl, rfl, (quieted_steady _ (h s)).symm⟩

theorem qsim_say (ls : List Line) (h : ∀ l ∈ ls, l.quiet = some l) : QSim (say ls) (say ls) :=
  qsim_steady _ (outAll_say _ ls h)

theorem qsim_say_one (l : Line) (h : l.quiet = some l) : QSim (say [l]) (say [l]) :=
  qsim_say [l] (by intro x hx; simp only [List.mem_singleton] at hx; subst hx; exact h)

theorem qsim_getc : QSim getc getc := qsim_steady _ (outAll_getc _)

theorem qsim_feof : QSim feof feof := qsim_steady _ (outAll_feof _)

theorem qsim_ftell : QSim ftell ftell := qsim_steady _ (outAll_ftell _)

theorem qsim_fseek (off : Int) : QSim (fseek off) (fseek off) := qsim_steady _ (outAll_fseek _ off)

theorem qsim_fuel {α : Type} (f g : Nat → Dump α) (h : ∀ n, QSim (f n) (g n)) :
    QSim (fun s => f (s.rest.length + 1) s) (fun s => g (s.rest.length + 1) s) := by
  intro s
  exact h _ s

theorem qsim_Read8 (v : Nat) : QSim (Read8 v) (Read8 v) := qsim_steady _ (outAll_Read8 _ v)

theorem qsim_Read16 (v : Nat) : QSim (Read16 v) (Read16 v) := qsim_steady _ (outAll_Read16 _ v)

theorem qsim_Read32 (v : Nat) : QSim (Read32 v) (Read32 v) := qsim_steady _ (outAll_Read32 _ v)

theorem qsim_Read64 (v : Nat) : QSim (Read64 v) (Read64 v) := qsim_steady _ (outAll_Read64 _ v)

theorem Print_fmt_steady (f : Fmt) (lb : String) (w a : Nat) :
    ∀ l ∈ Print_fmt f lb w a, l.quiet = some l := by
  cases f <;>
    simp [Print_fmt, Print_u, Print_x, Print_ux, Print_uFF, forall_mem_ite, Line.quiet]

theorem Print_extra_steady (nm : String) (id len : Nat) :
    ∀ l ∈ Print_extra nm id len, l.quiet = some l := by
  simp [Print_extra, Print_x, Print_ux, Line.quiet]

theorem Print_UTC_note : ∀ x, ∀ l ∈ Print_UTC x, l.isNote = true := by
  intro x l hl; simp [Print_UTC] at hl; subst hl; rfl

theorem Print_filetime_note : ∀ x, ∀ l ∈ Print_filetime x, l.isNote = true := by
  intro x l hl; simp [Print_filetime] at hl; subst hl; rfl

theorem Print_external_file_attributes_note :
    ∀ x, ∀ l ∈ Print_external_file_attributes x, l.isNote = true := by
  intro x l hl; simp [Print_external_file_attributes] at hl

theorem qsim_say_section (fd om : Bool) (u : Nat) (nm : String) (o : Nat) (n : Int) :
    QSim (say (Print_section ⟨fd, true, om, u⟩ nm o n))
      (say (Print_section ⟨fd, false, om, u⟩ nm o n)) := by
  intro s; exact ⟨rfl, rfl, rfl⟩

theorem qsim_say_header (fd om : Bool) (u : Nat) (nm : String) (sig o : Nat) (n : Int) :
    QSim (say (Print_header ⟨fd, true, om, u⟩ nm sig o n))
      (say (Print_header ⟨fd, false, om, u⟩ nm sig o n)) := by
  intro s; exact ⟨rfl, rfl, rfl⟩

theorem qsim_DUMP1 (lb : String) (v : Nat) (f : Fmt) : QSim (DUMP1 lb v f) (DUMP1 lb v f) := by
  unfold DUMP1
  repeat' first
    | with_reducible exact qsim_pure _
    | with_reducible exact qsim_Read8 _
    | with_reducible exact qsim_say _ (Print_fmt_steady _ _ _ _)
    | with_reducible apply qsim_ite
    | with_reducible apply qsim_bind
    | (intro (x : Bool × Nat); obtain ⟨a, b⟩ := x; dsimp only)
    | (intro x; try dsimp only)

theorem qsim_DUMP2 (lb : String) (v : Nat) (f : Fmt) : QSim (DUMP2 lb v f) (DUMP2 lb v f) := by
  unfold DUMP2
  repeat' first
    | with_reducible exact qsim_pure _
    | with_reducible exact qsim_Read16 _
    | with_reducible exact qsim_say _ (Print_fmt_steady _ _ _ _)
    | with_reducible apply qsim_ite
    | with_reducible apply qsim_bind
    | (intro (x : Bool × Nat); obtain ⟨a, b⟩ := x; dsimp only)
    | (intro x; try dsimp only)

theorem qsim_DUMP4 (lb : String) (v : Nat) (f : Fmt) : QSim (DUMP4 lb v f) (DUMP4 lb v f) := by
  unfold DUMP4
  repeat' first
    | with_reducible exact qsim_pure _
    | with_reducible exact qsim_Read32 _
    | with_reducible exact qsim_say _ (Print_fmt_steady _ _ _ _)
    | with_reducible apply qsim_ite
    | with_reducible apply qsim_bind
    | (intro (x : Bool × Nat); obtain ⟨a, b⟩ := x; dsimp only)
    | (intro x; try dsimp only)

theorem qsim_DUMP8 (lb : String) (v : Nat) (f : Fmt) : QSim (DUMP8 lb v f) (DUMP8 lb v f) := by
  unfold DUMP8
  repeat' first
    | with_reducible exact qsim_pure _
    | with_reducible exact qsim_Read64 _
    | with_reducible exact qsim_say _ (Print_fmt_steady _ _ _ _)
    | with_reducible apply qsim_ite
    | with_reducible apply qsim_bind
    | (intro (x : Bool × Nat); obtain ⟨a, b⟩ := x; dsimp only)
    | (intro x; try dsimp only)

/-- The branch on the quiet option: the run with the option on takes the
second branch where the run with it off takes the first. -/
theorem qsim_quiet_ite {α : Type} (a1 b1 a2 b2 : Dump α) (h : QSim b1 a2) :
    QSim (if (!true) = true then a1 else b1) (if (!false) = true then a2 else b2) := h

/-- Notes are written with the quiet option off and left out with it on. -/
theorem qsim_notes (ls : List Line) (h : ∀ l ∈ ls, l.isNote = true) :
    QSim (pure PUnit.unit) (say ls) := by
  intro s
  exact ⟨rfl, rfl, (quieted_note ls h).symm⟩

theorem qsim_DUMP2x (fd om : Bool) (u : Nat) (lb : String) (v : Nat) (f : Fmt)
    (dd : Nat → List Line) (hd : ∀ x, ∀ l ∈ dd x, l.isNote = true) :
    QSim (DUMP2x ⟨fd, true, om, u⟩ lb v f dd) (DUMP2x ⟨fd, false, om, u⟩ lb v f dd) := by
  unfold DUMP2x
  dsimp only
  repeat' first
    | with_reducible exact qsim_pure _
    | with_reducible exact qsim_Read16 _
    | with_reducible exact qsim_say _ (Print_fmt_steady _ _ _ _)
    | with_reducible exact qsim_notes _ (hd _)
    | with_reducible apply qsim_quiet_ite
    | with_reducible apply qsim_ite
    | with_reducible apply qsim_bind
    | (intro (x : Bool × Nat); obtain ⟨a, b⟩ := x; dsimp only)
    | (intro x; try dsimp only)

theorem qsim_DUMP4x (fd om : Bool) (u : Nat) (lb : String) (v : Nat) (f : Fmt)
    (dd : Nat → List Line) (hd : ∀ x, ∀ l ∈ dd x, l.isNote = true) :
    QSim (DUMP4x ⟨fd, true, om, u⟩ lb v f dd) (DUMP4x ⟨fd, false, om, u⟩ lb v f dd) := by
  unfold DUMP4x
  dsimp only
  repeat' first
    | with_reducible exact qsim_pure _
    | with_reducible exact qsim_Read32 _
    | with_reducible exact qsim_say _ (Print_fmt_steady _ _ _ _)
    | with_reducible exact qsim_notes _ (hd _)
    | with_reducible apply qsim_quiet_ite
    | with_reducible apply qsim_ite
    | with_reducible apply qsim_bind
    | (intro (x : Bool × Nat); obtain ⟨a, b⟩ := x; dsimp only)
    | (intro x; try dsimp only)

theorem qsim_DUMP8x (fd om : Bool) (u : Nat) (lb : String) (v : Nat) (f : Fmt)
    (dd : Nat → List Line) (hd : ∀ x, ∀ l ∈ dd x, l.isNote = true) :
    QSim (DUMP8x ⟨fd, true, om, u⟩ lb v f dd) (DUMP8x ⟨fd, false, om, u⟩ lb v f dd) := by
  unfold DUMP8x
  dsimp only
  repeat' first
    | with_reducible exact qsim_pure _
    | with_reducible exact qsim_Read64 _
    | with_reducible exact qsim_say _ (Print_fmt_steady _ _ _ _)
    | with_reducible exact qsim_notes _ (hd _)
    | with_reducible apply qsim_quiet_ite
    | with_reducible apply qsim_ite
    | with_reducible apply qsim_bind
    | (intro (x : Bool × Nat); obtain ⟨a, b⟩ := x; dsimp only)
    | (intro x; try dsimp only)

theorem qsim_Dump_string (n : Nat) : QSim (Dump_string n) (Dump_string n) :=
  qsim_steady _ (outAll_Dump_string_text (fun l => l.quiet = some l) (fun _ => rfl) n)

theorem qsim_Dump_bytes (fd om : Bool) (u : Nat) (n : Nat) :
    QSim (Dump_bytes ⟨fd, true, om, u⟩ n) (Dump_bytes ⟨fd, false, om, u⟩ n) := by
  rw [Dump_bytes_mode ⟨fd, true, om, u⟩ ⟨fd, false, om, u⟩ rfl n]
  apply qsim_steady
  apply outAll_Dump_bytes
  intro l hl
  cases l <;> first | rfl | simp [Line.isRow] at hl

theorem qsim_SkipUnknownData (fd om : Bool) (u : Nat) (n : Nat) :
    QSim (SkipUnknownData ⟨fd, true, om, u⟩ n) (SkipUnknownData ⟨fd, false, om, u⟩ n) := by
  unfold SkipUnknownData
  dsimp only
  repeat' first
    | with_reducible exact qsim_pure _
    | with_reducible exact qsim_fseek _
    | with_reducible exact qsim_Dump_bytes _ _ _ _
    | ((with_reducible apply qsim_say_one); rfl)
    | with_reducible apply qsim_ite
    | with_reducible apply qsim_bind
    | (intro x; try dsimp only)

/-- The summary of skipped data is written with the quiet option off and left
out with it on. -/
theorem qsim_skipNote (cap : String) (n : Nat) :
    QSim (pure PUnit.unit) (say [Line.skipNote cap n]) := by
  intro s
  exact ⟨rfl, rfl, rfl⟩

theorem qsim_Dump_if_fulldump (fd om : Bool) (u : Nat) (cap : String) (n : Nat) :
    QSim (Dump_if_fulldump ⟨fd, true, om, u⟩ cap n) (Dump_if_fulldump ⟨fd, false, om, u⟩ cap n) := by
  unfold Dump_if_fulldump
  dsimp only
  repeat' first
    | with_reducible exact qsim_pure _
    | with_reducible exact qsim_fseek _
    | with_reducible exact qsim_Dump_bytes _ _ _ _
    | with_reducible exact qsim_skipNote _ _
    | with_reducible apply qsim_quiet_ite
    | with_reducible apply qsim_ite
    | with_reducible apply qsim_bind
    | (intro x; try dsimp only)

theorem qsim_SkipToNextPK (fd om : Bool) (u : Nat) :
    QSim (SkipToNextPK ⟨fd, true, om, u⟩) (SkipToNextPK ⟨fd, false, om, u⟩) := by
  unfold SkipToNextPK
  apply qsim_bind
  · exact qsim_steady _ (fun s => by
      intro l hl
      rcases firstPK_or_noPK s.rest with ⟨k, hk⟩ | hn
      · have hlen := firstPK_length _ _ hk
        rw [SkipToNextPK_loop_found k s.rest s 0 0 _ rfl hk (by simp) (by omega)] at hl
        simp at hl
      · rw [SkipToNextPK_loop_none s.rest s 0 0 _ rfl hn (by simp) (by omega)] at hl
        simp at hl)
  · intro skipsize
    repeat' first
      | with_reducible exact qsim_pure _
      | with_reducible exact qsim_feof
      | with_reducible exact qsim_fseek _
      | with_reducible exact qsim_SkipUnknownData _ _ _ _
      | with_reducible apply qsim_ite
      | with_reducible apply qsim_bind
      | (intro x; try dsimp only)

theorem qsim_Dump_extra_Zip64_Extended_Info (fd om : Bool) (u : Nat) (n : Nat) :
    QSim (Dump_extra_Zip64_Extended_Info ⟨fd, true, om, u⟩ n) (Dump_extra_Zip64_Extended_Info ⟨fd, false, om, u⟩ n) := by
  unfold Dump_extra_Zip64_Extended_Info
  try dsimp only
  repeat' first
    | with_reducible exact qsim_pure _
    | with_reducible exact qsim_getc
    | with_reducible exact qsim_feof
    | with_reducible exact qsim_ftell
    | with_reducible exact qsim_fseek _
    | with_reducible exact qsim_say_section _ _ _ _ _ _
    | with_reducible exact qsim_say_header _ _ _ _ _ _ _
    | with_reducible exact qsim_say _ (Print_fmt_steady _ _ _ _)
    | with_reducible exact qsim_say _ (Print_extra_steady _ _ _)
    | with_reducible exact qsim_Read8 _
    | with_reducible exact qsim_Read16 _
    | with_reducible exact qsim_Read32 _
    | with_reducible exact qsim_Read64 _
    | with_reducible exact qsim_DUMP1 _ _ _
    | with_reducible exact qsim_DUMP2 _ _ _
    | with_reducible exact qsim_DUMP4 _ _ _
    | with_reducible exact qsim_DUMP8 _ _ _
    | with_reducible apply qsim_DUMP2x
    | with_reducible apply qsim_DUMP4x
    | with_reducible apply qsim_DUMP8x
    | with_reducible exact qsim_Dump_string _
    | with_reducible exact qsim_Dump_bytes _ _ _ _
    | with_reducible exact qsim_SkipUnknownData _ _ _ _
    | with_reducible exact qsim_Dump_if_fulldump _ _ _ _ _
    | ((with_reducible apply qsim_say_one); rfl)
    | with_reducible apply qsim_ite
    | with_reducible apply qsim_bind
    | with_reducible exact Print_version_note
    | with_reducible exact Print_UTC_note
    | with_reducible exact Print_filetime_note
    | with_reducible exact Print_internal_file_attributes_note
    | with_reducible exact Print_external_file_attributes_note
    | with_reducible exact fun x => Print_general_purpose_bit_flag_note _ x
    | with_reducible exact fun x => Print_date_and_time_note _ x
    | (intro (x : Bool × Nat); obtain ⟨a, b⟩ := x; dsimp only)
    | (intro (x : Nat × List Nat); obtain ⟨a, b⟩ := x; dsimp only)
    | (intro x; try dsimp only)

theorem qsim_Dump_extra_OS2_Extended_Attributes (fd om : Bool) (u : Nat) (n : Nat) :
    QSim (Dump_extra_OS2_Extended_Attributes ⟨fd, true, om, u⟩ n) (Dump_extra_OS2_Extended_Attributes ⟨fd, false, om, u⟩ n) := by
  unfold Dump_extra_OS2_Extended_Attributes
  try dsimp only
  repeat' first
    | with_reducible exact qsim_pure _
    | with_reducible exact qsim_getc
    | with_reducible exact qsim_feof
    | with_reducible exact qsim_ftell
    | with_reducible exact qsim_fseek _
    | with_reducible exact qsim_say_section _ _ _ _ _ _
    | with_reducible exact qsim_say_header _ _ _ _ _ _ _
    | with_reducible exact qsim_say _ (Print_fmt_steady _ _ _ _)
    | with_reducible exact qsim_say _ (Print_extra_steady _ _ _)
    | with_reducible exact qsim_Read8 _
    | with_reducible exact qsim_Read16 _
    | with_reducible exact qsim_Read32 _
    | with_reducible exact qsim_Read64 _
    | with_reducible exact qsim_DUMP1 _ _ _
    | with_reducible exact qsim_DUMP2 _ _ _
    | with_reducible exact qsim_DUMP4 _ _ _
    | with_reducible exact qsim_DUMP8 _ _ _
    | with_reducible apply qsim_DUMP2x
    | with_reducible apply qsim_DUMP4x
    | with_reducible apply qsim_DUMP8x
    | with_reducible exact qsim_Dump_string _
    | with_reducible exact qsim_Dump_bytes _ _ _ _
    | with_reducible exact qsim_SkipUnknownData _ _ _ _
    | with_reducible exact qsim_Dump_if_fulldump _ _ _ _ _
    | ((with_reducible apply qsim_say_one); rfl)
    | with_reducible apply qsim_ite
    | with_reducible apply qsim_bind
    | with_reducible exact Print_version_note
    | with_reducible exact Print_UTC_note
    | with_reducible exact Print_filetime_note
    | with_reducible exact Print_internal_file_attributes_note
    | with_reducible exact Print_external_file_attributes_note
    | with_reducible exact fun x => Print_general_purpose_bit_flag_note _ x
    | with_reducible exact fun x => Print_date_and_time_note _ x
    | (intro (x : Bool × Nat); obtain ⟨a, b⟩ := x; dsimp only)
    | (intro (x : Nat × List Nat); obtain ⟨a, b⟩ := x; dsimp only)
    | (intro x; try dsimp only)

theorem qsim_Dump_extra_WindowsNT_SD (fd om : Bool) (u : Nat) (n : Nat) :
    QSim (Dump_extra_WindowsNT_SD ⟨fd, true, om, u⟩ n) (Dump_extra_WindowsNT_SD ⟨fd, false, om, u⟩ n) := by
  unfold Dump_extra_WindowsNT_SD
  try dsimp only
  repeat' first
    | with_reducible exact qsim_pure _
    | with_reducible exact qsim_getc
    | with_reducible exact qsim_feof
    | with_reducible exact qsim_ftell
    | with_reducible exact qsim_fseek _
    | with_reducible exact qsim_say_section _ _ _ _ _ _
    | with_reducible exact qsim_say_header _ _ _ _ _ _ _
    | with_reducible exact qsim_say _ (Print_fmt_steady _ _ _ _)
    | with_reducible exact qsim_say _ (Print_extra_steady _ _ _)
    | with_reducible exact qsim_Read8 _
    | with_reducible exact qsim_Read16 _
    | with_reducible exact qsim_Read32 _
    | with_reducible exact qsim_Read64 _
    | with_reducible exact qsim_DUMP1 _ _ _
    | with_reducible exact qsim_DUMP2 _ _ _
    | with_reducible exact qsim_DUMP4 _ _ _
    | with_reducible exact qsim_DUMP8 _ _ _
    | with_reducible apply qsim_DUMP2x
    | with_reducible apply qsim_DUMP4x
    | with_reducible apply qsim_DUMP8x
    | with_reducible exact qsim_Dump_string _
    | with_reducible exact qsim_Dump_bytes _ _ _ _
    | with_reducible exact qsim_SkipUnknownData _ _ _ _
    | with_reducible exact qsim_Dump_if_fulldump _ _ _ _ _
    | ((with_reducible apply qsim_say_one); rfl)
    | with_reducible apply qsim_ite
    | with_reducible apply qsim_bind
    | with_reducible exact Print_version_note
    | with_reducible exact Print_UTC_note
    | with_reducible exact Print_filetime_note
    | with_reducible exact Print_internal_file_attributes_note
    | with_reducible exact Print_external_file_attributes_note
    | with_reducible exact fun x => Print_general_purpose_bit_flag_note _ x
    | with_reducible exact fun x => Print_date_and_time_note _ x
    | (intro (x : Bool × Nat); obtain ⟨a, b⟩ := x; dsimp only)
    | (intro (x : Nat × List Nat); obtain ⟨a, b⟩ := x; dsimp only)
    | (intro x; try dsimp only)

theorem qsim_Dump_extra_ExtendedTimestamp (fd om : Bool) (u : Nat) (n : Nat) :
    QSim (Dump_extra_ExtendedTimestamp ⟨fd, true, om, u⟩ n) (Dump_extra_ExtendedTimestamp ⟨fd, false, om, u⟩ n) := by
  unfold Dump_extra_ExtendedTimestamp
  try dsimp only
  repeat' first
    | with_reducible exact qsim_pure _
    | with_reducible exact qsim_getc
    | with_reducible exact qsim_feof
    | with_reducible exact qsim_ftell
    | with_reducible exact qsim_fseek _
    | with_reducible exact qsim_say_section _ _ _ _ _ _
    | with_reducible exact qsim_say_header _ _ _ _ _ _ _
    | with_reducible exact qsim_say _ (Print_fmt_steady _ _ _ _)
    | with_reducible exact qsim_say _ (Print_extra_steady _ _ _)
    | with_reducible exact qsim_Read8 _
    | with_reducible exact qsim_Read16 _
    | with_reducible exact qsim_Read32 _
    | with_reducible exact qsim_Read64 _
    | with_reducible exact qsim_DUMP1 _ _ _
    | with_reducible exact qsim_DUMP2 _ _ _
    | with_reducible exact qsim_DUMP4 _ _ _
    | with_reducible exact qsim_DUMP8 _ _ _
    | with_reducible apply qsim_DUMP2x
    | with_reducible apply qsim_DUMP4x
    | with_reducible apply qsim_DUMP8x
    | with_reducible exact qsim_Dump_string _
    | with_reducible exact qsim_Dump_bytes _ _ _ _
    | with_reducible exact qsim_SkipUnknownData _ _ _ _
    | with_reducible exact qsim_Dump_if_fulldump _ _ _ _ _
    | ((with_reducible apply qsim_say_one); rfl)
    | with_reducible apply qsim_ite
    | with_reducible apply qsim_bind
    | with_reducible exact Print_version_note
    | with_reducible exact Print_UTC_note
    | with_reducible exact Print_filetime_note
    | with_reducible exact Print_internal_file_attributes_note
    | with_reducible exact Print_external_file_attributes_note
    | with_reducible exact fun x => Print_general_purpose_bit_flag_note _ x
    | with_reducible exact fun x => Print_date_and_time_note _ x
    | (intro (x : Bool × Nat); obtain ⟨a, b⟩ := x; dsimp only)
    | (intro (x : Nat × List Nat); obtain ⟨a, b⟩ := x; dsimp only)
    | (intro x; try dsimp only)

theorem qsim_Dump_extra_UnicodeComment (fd om : Bool) (u : Nat) (n : Nat) :
    QSim (Dump_extra_UnicodeComment ⟨fd, true, om, u⟩ n) (Dump_extra_UnicodeComment ⟨fd, false, om, u⟩ n) := by
  unfold Dump_extra_UnicodeComment
  try dsimp only
  repeat' first
    | with_reducible exact qsim_pure _
    | with_reducible exact qsim_getc
    | with_reducible exact qsim_feof
    | with_reducible exact qsim_ftell
    | with_reducible exact qsim_fseek _
    | with_reducible exact qsim_say_section _ _ _ _ _ _
    | with_reducible exact qsim_say_header _ _ _ _ _ _ _
    | with_reducible exact qsim_say _ (Print_fmt_steady _ _ _ _)
    | with_reducible exact qsim_say _ (Print_extra_steady _ _ _)
    | with_reducible exact qsim_Read8 _
    | with_reducible exact qsim_Read16 _
    | with_reducible exact qsim_Read32 _
    | with_reducible exact qsim_Read64 _
    | with_reducible exact qsim_DUMP1 _ _ _
    | with_reducible exact qsim_DUMP2 _ _ _
    | with_reducible exact qsim_DUMP4 _ _ _
    | with_reducible exact qsim_DUMP8 _ _ _
    | with_reducible apply qsim_DUMP2x
    | with_reducible apply qsim_DUMP4x
    | with_reducible apply qsim_DUMP8x
    | with_reducible exact qsim_Dump_string _
    | with_reducible exact qsim_Dump_bytes _ _ _ _
    | with_reducible exact qsim_SkipUnknownData _ _ _ _
    | with_reducible exact qsim_Dump_if_fulldump _ _ _ _ _
    | ((with_reducible apply qsim_say_one); rfl)
    | with_reducible apply qsim_ite
    | with_reducible apply qsim_bind
    | with_reducible exact Print_version_note
    | with_reducible exact Print_UTC_note
    | with_reducible exact Print_filetime_note
    | with_reducible exact Print_internal_file_attributes_note
    | with_reducible exact Print_external_file_attributes_note
    | with_reducible exact fun x => Print_general_purpose_bit_flag_note _ x
    | with_reducible exact fun x => Print_date_and_time_note _ x
    | (intro (x : Bool × Nat); obtain ⟨a, b⟩ := x; dsimp only)
    | (intro (x : Nat × List Nat); obtain ⟨a, b⟩ := x; dsimp only)
    | (intro x; try dsimp only)

theorem qsim_Dump_extra_UnicodePath (fd om : Bool) (u : Nat) (n : Nat) :
    QSim (Dump_extra_UnicodePath ⟨fd, true, om, u⟩ n) (Dump_extra_UnicodePath ⟨fd, false, om, u⟩ n) := by
  unfold Dump_extra_UnicodePath
  try dsimp only
  repeat' first
    | with_reducible exact qsim_pure _
    | with_reducible exact qsim_getc
    | with_reducible exact qsim_feof
    | with_reducible exact qsim_ftell
    | with_reducible exact qsim_fseek _
    | with_reducible exact qsim_say_section _ _ _ _ _ _
    | with_reducible exact qsim_say_header _ _ _ _ _ _ _
    | with_reducible exact qsim_say _ (Print_fmt_steady _ _ _ _)
    | with_reducible exact qsim_say _ (Print_extra_steady _ _ _)
    | with_reducible exact qsim_Read8 _
    | with_reducible exact qsim_Read16 _
    | with_reducible exact qsim_Read32 _
    | with_reducible exact qsim_Read64 _
    | with_reducible exact qsim_DUMP1 _ _ _
    | with_reducible exact qsim_DUMP2 _ _ _
    | with_reducible exact qsim_DUMP4 _ _ _
    | with_reducible exact qsim_DUMP8 _ _ _
    | with_reducible apply qsim_DUMP2x
    | with_reducible apply qsim_DUMP4x
    | with_reducible apply qsim_DUMP8x
    | with_reducible exact qsim_Dump_string _
    | with_reducible exact qsim_Dump_bytes _ _ _ _
    | with_reducible exact qsim_SkipUnknownData _ _ _ _
    | with_reducible exact qsim_Dump_if_fulldump _ _ _ _ _
    | ((with_reducible apply qsim_say_one); rfl)
    | with_reducible apply qsim_ite
    | with_reducible apply qsim_bind
    | with_reducible exact Print_version_note
    | with_reducible exact Print_UTC_note
    | with_reducible exact Print_filetime_note
    | with_reducible exact Print_internal_file_attributes_note
    | with_reducible exact Print_external_file_attributes_note
    | with_reducible exact fun x => Print_general_purpose_bit_flag_note _ x
    | with_reducible exact fun x => Print_date_and_time_note _ x
    | (intro (x : Bool × Nat); obtain ⟨a, b⟩ := x; dsimp only)
    | (intro (x : Nat × List Nat); obtain ⟨a, b⟩ := x; dsimp only)
    | (intro x; try dsimp only)

theorem qsim_Dump_extra_NTFS_loop (fd om : Bool) (u : Nat) (fuel : Nat) :
    ∀ eo, QSim (Dump_extra_NTFS_loop ⟨fd, true, om, u⟩ fuel eo) (Dump_extra_NTFS_loop ⟨fd, false, om, u⟩ fuel eo) := by
  induction fuel with
  | zero => intro eo; exact qsim_pure _
  | succ n ih =>
    intro eo
    unfold Dump_extra_NTFS_loop
    repeat' first
      | with_reducible exact qsim_pure _
      | with_reducible exact qsim_getc
      | with_reducible exact qsim_feof
      | with_reducible exact qsim_ftell
      | with_reducible exact qsim_fseek _
      | with_reducible exact qsim_say_section _ _ _ _ _ _
      | with_reducible exact qsim_say_header _ _ _ _ _ _ _
      | with_reducible exact qsim_say _ (Print_fmt_steady _ _ _ _)
      | with_reducible exact qsim_say _ (Print_extra_steady _ _ _)
      | with_reducible exact ih _
      | with_reducible exact qsim_Read8 _
      | with_reducible exact qsim_Read16 _
      | with_reducible exact qsim_Read32 _
      | with_reducible exact qsim_Read64 _
      | with_reducible exact qsim_DUMP1 _ _ _
      | with_reducible exact qsim_DUMP2 _ _ _
      | with_reducible exact qsim_DUMP4 _ _ _
      | with_reducible exact qsim_DUMP8 _ _ _
      | with_reducible apply qsim_DUMP2x
      | with_reducible apply qsim_DUMP4x
      | with_reducible apply qsim_DUMP8x
      | with_reducible exact qsim_Dump_string _
      | with_reducible exact qsim_Dump_bytes _ _ _ _
      | with_reducible exact qsim_SkipUnknownData _ _ _ _
      | with_reducible exact qsim_Dump_if_fulldump _ _ _ _ _
      | ((with_reducible apply qsim_say_one); rfl)
      | with_reducible apply qsim_ite
      | with_reducible apply qsim_bind
      | with_reducible exact Print_version_note
      | with_reducible exact Print_UTC_note
      | with_reducible exact Print_filetime_note
      | with_reducible exact Print_internal_file_attributes_note
      | with_reducible exact Print_external_file_attributes_note
      | with_reducible exact fun x => Print_general_purpose_bit_flag_note _ x
      | with_reducible exact fun x => Print_date_and_time_note _ x
      | (intro (x : Bool × Nat); obtain ⟨a, b⟩ := x; dsimp only)
      | (intro (x : Nat × List Nat); obtain ⟨a, b⟩ := x; dsimp only)
      | (intro x; try dsimp only)

theorem qsim_Dump_extra_NTFS (fd om : Bool) (u : Nat) (n : Nat) :
    QSim (Dump_extra_NTFS ⟨fd, true, om, u⟩ n) (Dump_extra_NTFS ⟨fd, false, om, u⟩ n) := by
  unfold Dump_extra_NTFS
  apply qsim_bind _ _ _ _ (qsim_DUMP4 _ _ _)
  intro _
  apply qsim_bind
  · exact qsim_fuel (fun k => Dump_extra_NTFS_loop ⟨fd, true, om, u⟩ k 4) (fun k => Dump_extra_NTFS_loop ⟨fd, false, om, u⟩ k 4)
      (fun k => qsim_Dump_extra_NTFS_loop fd om u k 4)
  · intro eo
    apply qsim_ite
    · exact qsim_SkipUnknownData _ _ _ _
    · exact qsim_pure _

theorem qsim_Dump_extra_chunk (fd om : Bool) (u : Nat) (id size : Nat) :
    QSim (Dump_extra_chunk ⟨fd, true, om, u⟩ id size) (Dump_extra_chunk ⟨fd, false, om, u⟩ id size) := by
  unfold Dump_extra_chunk
  try dsimp only
  repeat' first
    | with_reducible exact qsim_pure _
    | with_reducible exact qsim_getc
    | with_reducible exact qsim_feof
    | with_reducible exact qsim_ftell
    | with_reducible exact qsim_fseek _
    | with_reducible exact qsim_say_section _ _ _ _ _ _
    | with_reducible exact qsim_say_header _ _ _ _ _ _ _
    | with_reducible exact qsim_say _ (Print_fmt_steady _ _ _ _)
    | with_reducible exact qsim_say _ (Print_extra_steady _ _ _)
    | with_reducible exact qsim_Dump_extra_Zip64_Extended_Info _ _ _ _
    | with_reducible exact qsim_Dump_extra_OS2_Extended_Attributes _ _ _ _
    | with_reducible exact qsim_Dump_extra_NTFS _ _ _ _
    | with_reducible exact qsim_Dump_extra_WindowsNT_SD _ _ _ _
    | with_reducible exact qsim_Dump_extra_ExtendedTimestamp _ _ _ _
    | with_reducible exact qsim_Dump_extra_UnicodeComment _ _ _ _
    | with_reducible exact qsim_Dump_extra_UnicodePath _ _ _ _
    | with_reducible exact qsim_Dump_string _
    | with_reducible exact qsim_Dump_bytes _ _ _ _
    | with_reducible exact qsim_SkipUnknownData _ _ _ _
    | with_reducible exact qsim_Dump_if_fulldump _ _ _ _ _
    | ((with_reducible apply qsim_say_one); rfl)
    | with_reducible apply qsim_ite
    | with_reducible apply qsim_bind
    | with_reducible exact Print_version_note
    | with_reducible exact Print_UTC_note
    | with_reducible exact Print_filetime_note
    | with_reducible exact Print_internal_file_attributes_note
    | with_reducible exact Print_external_file_attributes_note
    | with_reducible exact fun x => Print_general_purpose_bit_flag_note _ x
    | with_reducible exact fun x => Print_date_and_time_note _ x
    | (intro (x : Bool × Nat); obtain ⟨a, b⟩ := x; dsimp only)
    | (intro (x : Nat × List Nat); obtain ⟨a, b⟩ := x; dsimp only)
    | (intro x; try dsimp only)

theorem qsim_Dump_extra_field_loop (fd om : Bool) (u : Nat) (length fuel : Nat) :
    ∀ off, QSim (Dump_extra_field_loop ⟨fd, true, om, u⟩ length fuel off)
      (Dump_extra_field_loop ⟨fd, false, om, u⟩ length fuel off) := by
  induction fuel with
  | zero => intro off; exact qsim_pure _
  | succ n ih =>
    intro off
    unfold Dump_extra_field_loop
    repeat' first
      | with_reducible exact qsim_pure _
      | with_reducible exact qsim_getc
      | with_reducible exact qsim_feof
      | with_reducible exact qsim_ftell
      | with_reducible exact qsim_fseek _
      | with_reducible exact qsim_say_section _ _ _ _ _ _
      | with_reducible exact qsim_say_header _ _ _ _ _ _ _
      | with_reducible exact qsim_say _ (Print_fmt_steady _ _ _ _)
      | with_reducible exact qsim_say _ (Print_extra_steady _ _ _)
      | with_reducible exact ih _
      | with_reducible exact qsim_Dump_extra_chunk _ _ _ _ _
      | with_reducible exact qsim_Read8 _
      | with_reducible exact qsim_Read16 _
      | with_reducible exact qsim_Read32 _
      | with_reducible exact qsim_Read64 _
      | ((with_reducible apply qsim_say_one); rfl)
      | with_reducible apply qsim_ite
      | with_reducible apply qsim_bind
      | with_reducible exact Print_version_note
      | with_reducible exact Print_UTC_note
      | with_reducible exact Print_filetime_note
      | with_reducible exact Print_internal_file_attributes_note
      | with_reducible exact Print_external_file_attributes_note
      | with_reducible exact fun x => Print_general_purpose_bit_flag_note _ x
      | with_reducible exact fun x => Print_date_and_time_note _ x
      | (intro (x : Bool × Nat); obtain ⟨a, b⟩ := x; dsimp only)
      | (intro (x : Nat × List Nat); obtain ⟨a, b⟩ := x; dsimp only)
      | (intro x; try dsimp only)

theorem qsim_Dump_extra_field (fd om : Bool) (u : Nat) (length : Nat) :
    QSim (Dump_extra_field ⟨fd, true, om, u⟩ length) (Dump_extra_field ⟨fd, false, om, u⟩ length) :=
  qsim_fuel (fun k => Dump_extra_field_loop ⟨fd, true, om, u⟩ length k 0)
    (fun k => Dump_extra_field_loop ⟨fd, false, om, u⟩ length k 0)
    (fun k => qsim_Dump_extra_field_loop fd om u length k 0)

theorem qsim_Dump_Data_descriptor :
    QSim (Dump_Data_descriptor) (Dump_Data_descriptor) := by
  unfold Dump_Data_descriptor
  repeat' first
    | with_reducible exact qsim_pure _
    | with_reducible exact qsim_getc
    | with_reducible exact qsim_feof
    | with_reducible exact qsim_ftell
    | with_reducible exact qsim_fseek _
    | with_reducible exact qsim_say_section _ _ _ _ _ _
    | with_reducible exact qsim_say_header _ _ _ _ _ _ _
    | with_reducible exact qsim_say _ (Print_fmt_steady _ _ _ _)
    | with_reducible exact qsim_say _ (Print_extra_steady _ _ _)
    | with_reducible exact qsim_Read8 _
    | with_reducible exact qsim_Read16 _
    | with_reducible exact qsim_Read32 _
    | with_reducible exact qsim_Read64 _
    | with_reducible exact qsim_DUMP1 _ _ _
    | with_reducible exact qsim_DUMP2 _ _ _
    | with_reducible exact qsim_DUMP4 _ _ _
    | with_reducible exact qsim_DUMP8 _ _ _
    | with_reducible apply qsim_DUMP2x
    | with_reducible apply qsim_DUMP4x
    | with_reducible apply qsim_DUMP8x
    | with_reducible exact qsim_Dump_string _
    | with_reducible exact qsim_Dump_bytes _ _ _ _
    | with_reducible exact qsim_SkipUnknownData _ _ _ _
    | with_reducible exact qsim_Dump_if_fulldump _ _ _ _ _
    | with_reducible exact qsim_Dump_extra_field _ _ _ _
    | ((with_reducible apply qsim_say_one); rfl)
    | with_reducible apply qsim_ite
    | with_reducible apply qsim_bind
    | with_reducible exact Print_version_note
    | with_reducible exact Print_UTC_note
    | with_reducible exact Print_filetime_note
    | with_reducible exact Print_internal_file_attributes_note
    | with_reducible exact Print_external_file_attributes_note
    | with_reducible exact fun x => Print_general_purpose_bit_flag_note _ x
    | with_reducible exact fun x => Print_date_and_time_note _ x
    | (intro (x : Bool × Nat); obtain ⟨a, b⟩ := x; dsimp only)
    | (intro (x : Nat × List Nat); obtain ⟨a, b⟩ := x; dsimp only)
    | (intro x; try dsimp only)

theorem qsim_Dump_Local_file_tails (fd om : Bool) (u : Nat) (n : Int) (a b : Nat) :
    QSim (Dump_Local_file_tails ⟨fd, true, om, u⟩ n a b) (Dump_Local_file_tails ⟨fd, false, om, u⟩ n a b) := by
  unfold Dump_Local_file_tails
  try dsimp only
  repeat' first
    | with_reducible exact qsim_pure _
    | with_reducible exact qsim_getc
    | with_reducible exact qsim_feof
    | with_reducible exact qsim_ftell
    | with_reducible exact qsim_fseek _
    | with_reducible exact qsim_say_section _ _ _ _ _ _
    | with_reducible exact qsim_say_header _ _ _ _ _ _ _
    | with_reducible exact qsim_say _ (Print_fmt_steady _ _ _ _)
    | with_reducible exact qsim_say _ (Print_extra_steady _ _ _)
    | with_reducible exact qsim_Read8 _
    | with_reducible exact qsim_Read16 _
    | with_reducible exact qsim_Read32 _
    | with_reducible exact qsim_Read64 _
    | with_reducible exact qsim_DUMP1 _ _ _
    | with_reducible exact qsim_DUMP2 _ _ _
    | with_reducible exact qsim_DUMP4 _ _ _
    | with_reducible exact qsim_DUMP8 _ _ _
    | with_reducible apply qsim_DUMP2x
    | with_reducible apply qsim_DUMP4x
    | with_reducible apply qsim_DUMP8x
    | with_reducible exact qsim_Dump_string _
    | with_reducible exact qsim_Dump_bytes _ _ _ _
    | with_reducible exact qsim_SkipUnknownData _ _ _ _
    | with_reducible exact qsim_Dump_if_fulldump _ _ _ _ _
    | with_reducible exact qsim_Dump_extra_field _ _ _ _
    | with_reducible exact qsim_Dump_Data_descriptor
    | ((with_reducible apply qsim_say_one); rfl)
    | with_reducible apply qsim_ite
    | with_reducible apply qsim_bind
    | with_reducible exact Print_version_note
    | with_reducible exact Print_UTC_note
    | with_reducible exact Print_filetime_note
    | with_reducible exact Print_internal_file_attributes_note
    | with_reducible exact Print_external_file_attributes_note
    | with_reducible exact fun x => Print_general_purpose_bit_flag_note _ x
    | with_reducible exact fun x => Print_date_and_time_note _ x
    | (intro (x : Bool × Nat); obtain ⟨a, b⟩ := x; dsimp only)
    | (intro (x : Nat × List Nat); obtain ⟨a, b⟩ := x; dsimp only)
    | (intro x; try dsimp only)

theorem qsim_Dump_Local_file_data (fd om : Bool) (u : Nat) (n : Int) (a b : Nat) :
    QSim (Dump_Local_file_data ⟨fd, true, om, u⟩ n a b) (Dump_Local_file_data ⟨fd, false, om, u⟩ n a b) := by
  unfold Dump_Local_file_data
  try dsimp only
  repeat' first
    | with_reducible exact qsim_pure _
    | with_reducible exact qsim_getc
    | with_reducible exact qsim_feof
    | with_reducible exact qsim_ftell
    | with_reducible exact qsim_fseek _
    | with_reducible exact qsim_say_section _ _ _ _ _ _
    | with_reducible exact qsim_say_header _ _ _ _ _ _ _
    | with_reducible exact qsim_say _ (Print_fmt_steady _ _ _ _)
    | with_reducible exact qsim_say _ (Print_extra_steady _ _ _)
    | with_reducible exact qsim_Read8 _
    | with_reducible exact qsim_Read16 _
    | with_reducible exact qsim_Read32 _
    | with_reducible exact qsim_Read64 _
    | with_reducible exact qsim_DUMP1 _ _ _
    | with_reducible exact qsim_DUMP2 _ _ _
    | with_reducible exact qsim_DUMP4 _ _ _
    | with_reducible exact qsim_DUMP8 _ _ _
    | with_reducible apply qsim_DUMP2x
    | with_reducible apply qsim_DUMP4x
    | with_reducible apply qsim_DUMP8x
    | with_reducible exact qsim_Dump_string _
    | with_reducible exact qsim_Dump_bytes _ _ _ _
    | with_reducible exact qsim_SkipUnknownData _ _ _ _
    | with_reducible exact qsim_Dump_if_fulldump _ _ _ _ _
    | with_reducible exact qsim_Dump_extra_field _ _ _ _
    | with_reducible exact qsim_Dump_Data_descriptor
    | ((with_reducible apply qsim_say_one); rfl)
    | with_reducible apply qsim_ite
    | with_reducible apply qsim_bind
    | with_reducible exact Print_version_note
    | with_reducible exact Print_UTC_note
    | with_reducible exact Print_filetime_note
    | with_reducible exact Print_internal_file_attributes_note
    | with_reducible exact Print_external_file_attributes_note
    | with_reducible exact fun x => Print_general_purpose_bit_flag_note _ x
    | with_reducible exact fun x => Print_date_and_time_note _ x
    | (intro (x : Bool × Nat); obtain ⟨a, b⟩ := x; dsimp only)
    | (intro (x : Nat × List Nat); obtain ⟨a, b⟩ := x; dsimp only)
    | (intro x; try dsimp only)

theorem qsim_Dump_Local_file (fd om : Bool) (u : Nat) (n : Int) :
    QSim (Dump_Local_file ⟨fd, true, om, u⟩ n) (Dump_Local_file ⟨fd, false, om, u⟩ n) := by
  unfold Dump_Local_file
  try dsimp only
  repeat' first
    | with_reducible exact qsim_pure _
    | with_reducible exact qsim_getc
    | with_reducible exact qsim_feof
    | with_reducible exact qsim_ftell
    | with_reducible exact qsim_fseek _
    | with_reducible exact qsim_say_section _ _ _ _ _ _
    | with_reducible exact qsim_say_header _ _ _ _ _ _ _
    | with_reducible exact qsim_say _ (Print_fmt_steady _ _ _ _)
    | with_reducible exact qsim_say _ (Print_extra_steady _ _ _)
    | with_reducible exact qsim_Read8 _
    | with_reducible exact qsim_Read16 _
    | with_reducible exact qsim_Read32 _
    | with_reducible exact qsim_Read64 _
    | with_reducible exact qsim_DUMP1 _ _ _
    | with_reducible exact qsim_DUMP2 _ _ _
    | with_reducible exact qsim_DUMP4 _ _ _
    | with_reducible exact qsim_DUMP8 _ _ _
    | with_reducible apply qsim_DUMP2x
    | with_reducible apply qsim_DUMP4x
    | with_reducible apply qsim_DUMP8x
    | with_reducible exact qsim_Dump_string _
    | with_reducible exact qsim_Dump_bytes _ _ _ _
    | with_reducible exact qsim_SkipUnknownData _ _ _ _
    | with_reducible exact qsim_Dump_if_fulldump _ _ _ _ _
    | with_reducible exact qsim_Dump_extra_field _ _ _ _
    | with_reducible exact qsim_Dump_Data_descriptor
    | with_reducible exact qsim_Dump_Local_file_tails _ _ _ _ _ _
    | with_reducible exact qsim_Dump_Local_file_data _ _ _ _ _ _
    | ((with_reducible apply qsim_say_one); rfl)
    | with_reducible apply qsim_ite
    | with_reducible apply qsim_bind
    | with_reducible exact Print_version_note
    | with_reducible exact Print_UTC_note
    | with_reducible exact Print_filetime_note
    | with_reducible exact Print_internal_file_attributes_note
    | with_reducible exact Print_external_file_attributes_note
    | with_reducible exact fun x => Print_general_purpose_bit_flag_note _ x
    | with_reducible exact fun x => Print_date_and_time_note _ x
    | (intro (x : Bool × Nat); obtain ⟨a, b⟩ := x; dsimp only)
    | (intro (x : Nat × List Nat); obtain ⟨a, b⟩ := x; dsimp only)
    | (intro x; try dsimp only)

theorem qsim_Dump_Archive_extra_data_record (fd om : Bool) (u : Nat) :
    QSim (Dump_Archive_extra_data_record ⟨fd, true, om, u⟩) (Dump_Archive_extra_data_record ⟨fd, false, om, u⟩) := by
  unfold Dump_Archive_extra_data_record
  try dsimp only
  repeat' first
    | with_reducible exact qsim_pure _
    | with_reducible exact qsim_getc
    | with_reducible exact qsim_feof
    | with_reducible exact qsim_ftell
    | with_reducible exact qsim_fseek _
    | with_reducible exact qsim_say_section _ _ _ _ _ _
    | with_reducible exact qsim_say_header _ _ _ _ _ _ _
    | with_reducible exact qsim_say _ (Print_fmt_steady _ _ _ _)
    | with_reducible exact qsim_say _ (Print_extra_steady _ _ _)
    | with_reducible exact qsim_Read8 _
    | with_reducible exact qsim_Read16 _
    | with_reducible exact qsim_Read32 _
    | with_reducible exact qsim_Read64 _
    | with_reducible exact qsim_DUMP1 _ _ _
    | with_reducible exact qsim_DUMP2 _ _ _
    | with_reducible exact qsim_DUMP4 _ _ _
    | with_reducible exact qsim_DUMP8 _ _ _
    | with_reducible apply qsim_DUMP2x
    | with_reducible apply qsim_DUMP4x
    | with_reducible apply qsim_DUMP8x
    | with_reducible exact qsim_Dump_string _
    | with_reducible exact qsim_Dump_bytes _ _ _ _
    | with_reducible exact qsim_SkipUnknownData _ _ _ _
    | with_reducible exact qsim_Dump_if_fulldump _ _ _ _ _
    | with_reducible exact qsim_Dump_extra_field _ _ _ _
    | with_reducible exact qsim_Dump_Data_descriptor
    | ((with_reducible apply qsim_say_one); rfl)
    | with_reducible apply qsim_ite
    | with_reducible apply qsim_bind
    | with_reducible exact Print_version_note
    | with_reducible exact Print_UTC_note
    | with_reducible exact Print_filetime_note
    | with_reducible exact Print_internal_file_attributes_note
    | with_reducible exact Print_external_file_attributes_note
    | with_reducible exact fun x => Print_general_purpose_bit_flag_note _ x
    | with_reducible exact fun x => Print_date_and_time_note _ x
    | (intro (x : Bool × Nat); obtain ⟨a, b⟩ := x; dsimp only)
    | (intro (x : Nat × List Nat); obtain ⟨a, b⟩ := x; dsimp only)
    | (intro x; try dsimp only)

theorem qsim_Dump_Central_directory_tails (fd om : Bool) (u : Nat) (n : Int) (a b c : Nat) :
    QSim (Dump_Central_directory_tails ⟨fd, true, om, u⟩ n a b c) (Dump_Central_directory_tails ⟨fd, false, om, u⟩ n a b c) := by
  unfold Dump_Central_directory_tails
  try dsimp only
  repeat' first
    | with_reducible exact qsim_pure _
    | with_reducible exact qsim_getc
    | with_reducible exact qsim_feof
    | with_reducible exact qsim_ftell
    | with_reducible exact qsim_fseek _
    | with_reducible exact qsim_say_section _ _ _ _ _ _
    | with_reducible exact qsim_say_header _ _ _ _ _ _ _
    | with_reducible exact qsim_say _ (Print_fmt_steady _ _ _ _)
    | with_reducible exact qsim_say _ (Print_extra_steady _ _ _)
    | with_reducible exact qsim_Read8 _
    | with_reducible exact qsim_Read16 _
    | with_reducible exact qsim_Read32 _
    | with_reducible exact qsim_Read64 _
    | with_reducible exact qsim_DUMP1 _ _ _
    | with_reducible exact qsim_DUMP2 _ _ _
    | with_reducible exact qsim_DUMP4 _ _ _
    | with_reducible exact qsim_DUMP8 _ _ _
    | with_reducible apply qsim_DUMP2x
    | with_reducible apply qsim_DUMP4x
    | with_reducible apply qsim_DUMP8x
    | with_reducible exact qsim_Dump_string _
    | with_reducible exact qsim_Dump_bytes _ _ _ _
    | with_reducible exact qsim_SkipUnknownData _ _ _ _
    | with_reducible exact qsim_Dump_if_fulldump _ _ _ _ _
    | with_reducible exact qsim_Dump_extra_field _ _ _ _
    | with_reducible exact qsim_Dump_Data_descriptor
    | ((with_reducible apply qsim_say_one); rfl)
    | with_reducible apply qsim_ite
    | with_reducible apply qsim_bind
    | with_reducible exact Print_version_note
    | with_reducible exact Print_UTC_note
    | with_reducible exact Print_filetime_note
    | with_reducible exact Print_internal_file_attributes_note
    | with_reducible exact Print_external_file_attributes_note
    | with_reducible exact fun x => Print_general_purpose_bit_flag_note _ x
    | with_reducible exact fun x => Print_date_and_time_note _ x
    | (intro (x : Bool × Nat); obtain ⟨a, b⟩ := x; dsimp only)
    | (intro (x : Nat × List Nat); obtain ⟨a, b⟩ := x; dsimp only)
    | (intro x; try dsimp only)

theorem qsim_Dump_Central_directory_file_header (fd om : Bool) (u : Nat) (n : Int) :
    QSim (Dump_Central_directory_file_header ⟨fd, true, om, u⟩ n) (Dump_Central_directory_file_header ⟨fd, false, om, u⟩ n) := by
  unfold Dump_Central_directory_file_header
  try dsimp only
  repeat' first
    | with_reducible exact qsim_pure _
    | with_reducible exact qsim_getc
    | with_reducible exact qsim_feof
    | with_reducible exact qsim_ftell
    | with_reducible exact qsim_fseek _
    | with_reducible exact qsim_say_section _ _ _ _ _ _
    | with_reducible exact qsim_say_header _ _ _ _ _ _ _
    | with_reducible exact qsim_say _ (Print_fmt_steady _ _ _ _)
    | with_reducible exact qsim_say _ (Print_extra_steady _ _ _)
    | with_reducible exact qsim_Read8 _
    | with_reducible exact qsim_Read16 _
    | with_reducible exact qsim_Read32 _
    | with_reducible exact qsim_Read64 _
    | with_reducible exact qsim_DUMP1 _ _ _
    | with_reducible exact qsim_DUMP2 _ _ _
    | with_reducible exact qsim_DUMP4 _ _ _
    | with_reducible exact qsim_DUMP8 _ _ _
    | with_reducible apply qsim_DUMP2x
    | with_reducible apply qsim_DUMP4x
    | with_reducible apply qsim_DUMP8x
    | with_reducible exact qsim_Dump_string _
    | with_reducible exact qsim_Dump_bytes _ _ _ _
    | with_reducible exact qsim_SkipUnknownData _ _ _ _
    | with_reducible exact qsim_Dump_if_fulldump _ _ _ _ _
    | with_reducible exact qsim_Dump_extra_field _ _ _ _
    | with_reducible exact qsim_Dump_Data_descriptor
    | with_reducible exact qsim_Dump_Central_directory_tails _ _ _ _ _ _ _
    | ((with_reducible apply qsim_say_one); rfl)
    | with_reducible apply qsim_ite
    | with_reducible apply qsim_bind
    | with_reducible exact Print_version_note
    | with_reducible exact Print_UTC_note
    | with_reducible exact Print_filetime_note
    | with_reducible exact Print_internal_file_attributes_note
    | with_reducible exact Print_external_file_attributes_note
    | with_reducible exact fun x => Print_general_purpose_bit_flag_note _ x
    | with_reducible exact fun x => Print_date_and_time_note _ x
    | (intro (x : Bool × Nat); obtain ⟨a, b⟩ := x; dsimp only)
    | (intro (x : Nat × List Nat); obtain ⟨a, b⟩ := x; dsimp only)
    | (intro x; try dsimp only)

theorem qsim_Dump_Central_directory_digital_signature (fd om : Bool) (u : Nat) :
    QSim (Dump_Central_directory_digital_signature ⟨fd, true, om, u⟩) (Dump_Central_directory_digital_signature ⟨fd, false, om, u⟩) := by
  unfold Dump_Central_directory_digital_signature
  try dsimp only
  repeat' first
    | with_reducible exact qsim_pure _
    | with_reducible exact qsim_getc
    | with_reducible exact qsim_feof
    | with_reducible exact qsim_ftell
    | with_reducible exact qsim_fseek _
    | with_reducible exact qsim_say_section _ _ _ _ _ _
    | with_reducible exact qsim_say_header _ _ _ _ _ _ _
    | with_reducible exact qsim_say _ (Print_fmt_steady _ _ _ _)
    | with_reducible exact qsim_say _ (Print_extra_steady _ _ _)
    | with_reducible exact qsim_Read8 _
    | with_reducible exact qsim_Read16 _
    | with_reducible exact qsim_Read32 _
    | with_reducible exact qsim_Read64 _
    | with_reducible exact qsim_DUMP1 _ _ _
    | with_reducible exact qsim_DUMP2 _ _ _
    | with_reducible exact qsim_DUMP4 _ _ _
    | with_reducible exact qsim_DUMP8 _ _ _
    | with_reducible apply qsim_DUMP2x
    | with_reducible apply qsim_DUMP4x
    | with_reducible apply qsim_DUMP8x
    | with_reducible exact qsim_Dump_string _
    | with_reducible exact qsim_Dump_bytes _ _ _ _
    | with_reducible exact qsim_SkipUnknownData _ _ _ _
    | with_reducible exact qsim_Dump_if_fulldump _ _ _ _ _
    | with_reducible exact qsim_Dump_extra_field _ _ _ _
    | with_reducible exact qsim_Dump_Data_descriptor
    | ((with_reducible apply qsim_say_one); rfl)
    | with_reducible apply qsim_ite
    | with_reducible apply qsim_bind
    | with_reducible exact Print_version_note
    | with_reducible exact Print_UTC_note
    | with_reducible exact Print_filetime_note
    | with_reducible exact Print_internal_file_attributes_note
    | with_reducible exact Print_external_file_attributes_note
    | with_reducible exact fun x => Print_general_purpose_bit_flag_note _ x
    | with_reducible exact fun x => Print_date_and_time_note _ x
    | (intro (x : Bool × Nat); obtain ⟨a, b⟩ := x; dsimp only)
    | (intro (x : Nat × List Nat); obtain ⟨a, b⟩ := x; dsimp only)
    | (intro x; try dsimp only)

theorem qsim_Dump_Zip64_end_of_central_directory_record (fd om : Bool) (u : Nat) :
    QSim (Dump_Zip64_end_of_central_directory_record ⟨fd, true, om, u⟩) (Dump_Zip64_end_of_central_directory_record ⟨fd, false, om, u⟩) := by
  unfold Dump_Zip64_end_of_central_directory_record
  try dsimp only
  repeat' first
    | with_reducible exact qsim_pure _
    | with_reducible exact qsim_getc
    | with_reducible exact qsim_feof
    | with_reducible exact qsim_ftell
    | with_reducible exact qsim_fseek _
    | with_reducible exact qsim_say_section _ _ _ _ _ _
    | with_reducible exact qsim_say_header _ _ _ _ _ _ _
    | with_reducible exact qsim_say _ (Print_fmt_steady _ _ _ _)
    | with_reducible exact qsim_say _ (Print_extra_steady _ _ _)
    | with_reducible exact qsim_Read8 _
    | with_reducible exact qsim_Read16 _
    | with_reducible exact qsim_Read32 _
    | with_reducible exact qsim_Read64 _
    | with_reducible exact qsim_DUMP1 _ _ _
    | with_reducible exact qsim_DUMP2 _ _ _
    | with_reducible exact qsim_DUMP4 _ _ _
    | with_reducible exact qsim_DUMP8 _ _ _
    | with_reducible apply qsim_DUMP2x
    | with_reducible apply qsim_DUMP4x
    | with_reducible apply qsim_DUMP8x
    | with_reducible exact qsim_Dump_string _
    | with_reducible exact qsim_Dump_bytes _ _ _ _
    | with_reducible exact qsim_SkipUnknownData _ _ _ _
    | with_reducible exact qsim_Dump_if_fulldump _ _ _ _ _
    | with_reducible exact qsim_Dump_extra_field _ _ _ _
    | with_reducible exact qsim_Dump_Data_descriptor
    | ((with_reducible apply qsim_say_one); rfl)
    | with_reducible apply qsim_ite
    | with_reducible apply qsim_bind
    | with_reducible exact Print_version_note
    | with_reducible exact Print_UTC_note
    | with_reducible exact Print_filetime_note
    | with_reducible exact Print_internal_file_attributes_note
    | with_reducible exact Print_external_file_attributes_note
    | with_reducible exact fun x => Print_general_purpose_bit_flag_note _ x
    | with_reducible exact fun x => Print_date_and_time_note _ x
    | (intro (x : Bool × Nat); obtain ⟨a, b⟩ := x; dsimp only)
    | (intro (x : Nat × List Nat); obtain ⟨a, b⟩ := x; dsimp only)
    | (intro x; try dsimp only)

theorem qsim_Dump_Zip64_end_of_central_directory_locator :
    QSim (Dump_Zip64_end_of_central_directory_locator) (Dump_Zip64_end_of_central_directory_locator) := by
  unfold Dump_Zip64_end_of_central_directory_locator
  repeat' first
    | with_reducible exact qsim_pure _
    | with_reducible exact qsim_getc
    | with_reducible exact qsim_feof
    | with_reducible exact qsim_ftell
    | with_reducible exact qsim_fseek _
    | with_reducible exact qsim_say_section _ _ _ _ _ _
    | with_reducible exact qsim_say_header _ _ _ _ _ _ _
    | with_reducible exact qsim_say _ (Print_fmt_steady _ _ _ _)
    | with_reducible exact qsim_say _ (Print_extra_steady _ _ _)
    | with_reducible exact qsim_Read8 _
    | with_reducible exact qsim_Read16 _
    | with_reducible exact qsim_Read32 _
    | with_reducible exact qsim_Read64 _
    | with_reducible exact qsim_DUMP1 _ _ _
    | with_reducible exact qsim_DUMP2 _ _ _
    | with_reducible exact qsim_DUMP4 _ _ _
    | with_reducible exact qsim_DUMP8 _ _ _
    | with_reducible apply qsim_DUMP2x
    | with_reducible apply qsim_DUMP4x
    | with_reducible apply qsim_DUMP8x
    | with_reducible exact qsim_Dump_string _
    | with_reducible exact qsim_Dump_bytes _ _ _ _
    | with_reducible exact qsim_SkipUnknownData _ _ _ _
    | with_reducible exact qsim_Dump_if_fulldump _ _ _ _ _
    | with_reducible exact qsim_Dump_extra_field _ _ _ _
    | with_reducible exact qsim_Dump_Data_descriptor
    | ((with_reducible apply qsim_say_one); rfl)
    | with_reducible apply qsim_ite
    | with_reducible apply qsim_bind
    | with_reducible exact Print_version_note
    | with_reducible exact Print_UTC_note
    | with_reducible exact Print_filetime_note
    | with_reducible exact Print_internal_file_attributes_note
    | with_reducible exact Print_external_file_attributes_note
    | with_reducible exact fun x => Print_general_purpose_bit_flag_note _ x
    | with_reducible exact fun x => Print_date_and_time_note _ x
    | (intro (x : Bool × Nat); obtain ⟨a, b⟩ := x; dsimp only)
    | (intro (x : Nat × List Nat); obtain ⟨a, b⟩ := x; dsimp only)
    | (intro x; try dsimp only)

theorem qsim_Dump_End_of_central_directory_record (fd om : Bool) (u : Nat) :
    QSim (Dump_End_of_central_directory_record ⟨fd, true, om, u⟩) (Dump_End_of_central_directory_record ⟨fd, false, om, u⟩) := by
  unfold Dump_End_of_central_directory_record
  try dsimp only
  repeat' first
    | with_reducible exact qsim_pure _
    | with_reducible exact qsim_getc
    | with_reducible exact qsim_feof
    | with_reducible exact qsim_ftell
    | with_reducible exact qsim_fseek _
    | with_reducible exact qsim_say_section _ _ _ _ _ _
    | with_reducible exact qsim_say_header _ _ _ _ _ _ _
    | with_reducible exact qsim_say _ (Print_fmt_steady _ _ _ _)
    | with_reducible exact qsim_say _ (Print_extra_steady _ _ _)
    | with_reducible exact qsim_Read8 _
    | with_reducible exact qsim_Read16 _
    | with_reducible exact qsim_Read32 _
    | with_reducible exact qsim_Read64 _
    | with_reducible exact qsim_DUMP1 _ _ _
    | with_reducible exact qsim_DUMP2 _ _ _
    | with_reducible exact qsim_DUMP4 _ _ _
    | with_reducible exact qsim_DUMP8 _ _ _
    | with_reducible apply qsim_DUMP2x
    | with_reducible apply qsim_DUMP4x
    | with_reducible apply qsim_DUMP8x
    | with_reducible exact qsim_Dump_string _
    | with_reducible exact qsim_Dump_bytes _ _ _ _
    | with_reducible exact qsim_SkipUnknownData _ _ _ _
    | with_reducible exact qsim_Dump_if_fulldump _ _ _ _ _
    | with_reducible exact qsim_Dump_extra_field _ _ _ _
    | with_reducible exact qsim_Dump_Data_descriptor
    | ((with_reducible apply qsim_say_one); rfl)
    | with_reducible apply qsim_ite
    | with_reducible apply qsim_bind
    | with_reducible exact Print_version_note
    | with_reducible exact Print_UTC_note
    | with_reducible exact Print_filetime_note
    | with_reducible exact Print_internal_file_attributes_note
    | with_reducible exact Print_external_file_attributes_note
    | with_reducible exact fun x => Print_general_purpose_bit_flag_note _ x
    | with_reducible exact fun x => Print_date_and_time_note _ x
    | (intro (x : Bool × Nat); obtain ⟨a, b⟩ := x; dsimp only)
    | (intro (x : Nat × List Nat); obtain ⟨a, b⟩ := x; dsimp only)
    | (intro x; try dsimp only)

theorem qsim_ZipDumpFile_switch (fd om : Bool) (u : Nat) (sig o : Nat) (fc dc : Int) :
    QSim (ZipDumpFile_switch ⟨fd, true, om, u⟩ sig o fc dc) (ZipDumpFile_switch ⟨fd, false, om, u⟩ sig o fc dc) := by
  unfold ZipDumpFile_switch
  try dsimp only
  repeat' first
    | with_reducible exact qsim_pure _
    | with_reducible exact qsim_getc
    | with_reducible exact qsim_feof
    | with_reducible exact qsim_ftell
    | with_reducible exact qsim_fseek _
    | with_reducible exact qsim_say_section _ _ _ _ _ _
    | with_reducible exact qsim_say_header _ _ _ _ _ _ _
    | with_reducible exact qsim_say _ (Print_fmt_steady _ _ _ _)
    | with_reducible exact qsim_say _ (Print_extra_steady _ _ _)
    | with_reducible exact qsim_Dump_Local_file _ _ _ _
    | with_reducible exact qsim_Dump_Data_descriptor
    | with_reducible exact qsim_Dump_Archive_extra_data_record _ _ _
    | with_reducible exact qsim_Dump_Central_directory_file_header _ _ _ _
    | with_reducible exact qsim_Dump_Central_directory_digital_signature _ _ _
    | with_reducible exact qsim_Dump_Zip64_end_of_central_directory_record _ _ _
    | with_reducible exact qsim_Dump_Zip64_end_of_central_directory_locator
    | with_reducible exact qsim_Dump_End_of_central_directory_record _ _ _
    | ((with_reducible apply qsim_say_one); rfl)
    | with_reducible apply qsim_ite
    | with_reducible apply qsim_bind
    | with_reducible exact Print_version_note
    | with_reducible exact Print_UTC_note
    | with_reducible exact Print_filetime_note
    | with_reducible exact Print_internal_file_attributes_note
    | with_reducible exact Print_external_file_attributes_note
    | with_reducible exact fun x => Print_general_purpose_bit_flag_note _ x
    | with_reducible exact fun x => Print_date_and_time_note _ x
    | (intro (x : Bool × Nat); obtain ⟨a, b⟩ := x; dsimp only)
    | (intro (x : Nat × List Nat); obtain ⟨a, b⟩ := x; dsimp only)
    | (intro x; try dsimp only)

theorem qsim_ZipDumpFile_body (fd om : Bool) (u : Nat) (w : Walker) :
    QSim (ZipDumpFile_body ⟨fd, true, om, u⟩ w) (ZipDumpFile_body ⟨fd, false, om, u⟩ w) := by
  unfold ZipDumpFile_body
  try dsimp only
  repeat' first
    | with_reducible exact qsim_pure _
    | with_reducible exact qsim_getc
    | with_reducible exact qsim_feof
    | with_reducible exact qsim_ftell
    | with_reducible exact qsim_fseek _
    | with_reducible exact qsim_say_section _ _ _ _ _ _
    | with_reducible exact qsim_say_header _ _ _ _ _ _ _
    | with_reducible exact qsim_say _ (Print_fmt_steady _ _ _ _)
    | with_reducible exact qsim_say _ (Print_extra_steady _ _ _)
    | with_reducible exact qsim_Read8 _
    | with_reducible exact qsim_Read16 _
    | with_reducible exact qsim_Read32 _
    | with_reducible exact qsim_Read64 _
    | with_reducible exact qsim_ZipDumpFile_switch _ _ _ _ _ _ _
    | ((with_reducible apply qsim_say_one); rfl)
    | with_reducible apply qsim_ite
    | with_reducible apply qsim_bind
    | with_reducible exact Print_version_note
    | with_reducible exact Print_UTC_note
    | with_reducible exact Print_filetime_note
    | with_reducible exact Print_internal_file_attributes_note
    | with_reducible exact Print_external_file_attributes_note
    | with_reducible exact fun x => Print_general_purpose_bit_flag_note _ x
    | with_reducible exact fun x => Print_date_and_time_note _ x
    | (intro (x : Bool × Nat); obtain ⟨a, b⟩ := x; dsimp only)
    | (intro (x : Nat × List Nat); obtain ⟨a, b⟩ := x; dsimp only)
    | (intro x; try dsimp only)

theorem qsim_ZipDumpFile_turn (fd om : Bool) (u : Nat) (w : Walker) :
    QSim (ZipDumpFile_turn ⟨fd, true, om, u⟩ w) (ZipDumpFile_turn ⟨fd, false, om, u⟩ w) := by
  unfold ZipDumpFile_turn
  try dsimp only
  repeat' first
    | with_reducible exact qsim_pure _
    | with_reducible exact qsim_getc
    | with_reducible exact qsim_feof
    | with_reducible exact qsim_ftell
    | with_reducible exact qsim_fseek _
    | with_reducible exact qsim_say_section _ _ _ _ _ _
    | with_reducible exact qsim_say_header _ _ _ _ _ _ _
    | with_reducible exact qsim_say _ (Print_fmt_steady _ _ _ _)
    | with_reducible exact qsim_say _ (Print_extra_steady _ _ _)
    | with_reducible exact qsim_SkipToNextPK _ _ _
    | with_reducible exact qsim_ZipDumpFile_body _ _ _ _
    | ((with_reducible apply qsim_say_one); rfl)
    | with_reducible apply qsim_ite
    | with_reducible apply qsim_bind
    | with_reducible exact Print_version_note
    | with_reducible exact Print_UTC_note
    | with_reducible exact Print_filetime_note
    | with_reducible exact Print_internal_file_attributes_note
    | with_reducible exact Print_external_file_attributes_note
    | with_reducible exact fun x => Print_general_purpose_bit_flag_note _ x
    | with_reducible exact fun x => Print_date_and_time_note _ x
    | (intro (x : Bool × Nat); obtain ⟨a, b⟩ := x; dsimp only)
    | (intro (x : Nat × List Nat); obtain ⟨a, b⟩ := x; dsimp only)
    | (intro x; try dsimp only)

theorem qsim_ZipDumpFile_loop (fd om : Bool) (u : Nat) (fuel : Nat) :
    ∀ w, QSim (ZipDumpFile_loop ⟨fd, true, om, u⟩ fuel w)
      (ZipDumpFile_loop ⟨fd, false, om, u⟩ fuel w) := by
  induction fuel with
  | zero => intro w; exact qsim_pure _
  | succ n ih =>
    intro w
    unfold ZipDumpFile_loop
    apply qsim_bind _ _ _ _ (qsim_ZipDumpFile_turn fd om u w)
    intro x
    cases x with
    | none => exact qsim_pure _
    | some w1 => exact ih w1

theorem quieted_quiet (ls : List Line) :
    ∀ l ∈ quieted ls, l.isNote = false ∧ l.offset = none := by
  intro l hl
  simp only [quieted, List.mem_filterMap] at hl
  obtain ⟨a, _, ha⟩ := hl
  cases a <;> simp [Line.quiet] at ha <;> subst ha <;> exact ⟨rfl, rfl⟩

theorem fields_quieted (ls : List Line) : fields (quieted ls) = fields ls := by
  induction ls with
  | nil => rfl
  | cons a t ih =>
    have e : quieted (a :: t) = quieted [a] ++ quieted t := quieted_append [a] t
    have e2 : fields (a :: t) = fields [a] ++ fields t := fields_append [a] t
    rw [e, fields_append, ih, e2]
    congr 1
    cases a <;> rfl

theorem shownFields_quieted (ls : List Line) : shownFields (quieted ls) = shownFields ls := by
  induction ls with
  | nil => rfl
  | cons a t ih =>
    have e : quieted (a :: t) = quieted [a] ++ quieted t := quieted_append [a] t
    have e2 : shownFields (a :: t) = shownFields [a] ++ shownFields t :=
      shownFields_append [a] t
    rw [e, shownFields_append, ih, e2]
    congr 1
    cases a <;> rfl

/-- C30: for every input and every setting of the other options, the pass
with the quiet option on returns the same value and leaves the same stream as
the pass with it off, and writes what `quieted` leaves of the lines of that
pass: no section line of it carries an offset, it has no interpretive note
line, and its field lines are those of the pass with quiet off, in the same
order, with the same labels, widths, values and rendering. -/
theorem C30_quiet_mode (fd om : Bool) (u : Nat) (s : Stream) :
    (ZipDumpFile ⟨fd, true, om, u⟩ s).out = quieted (ZipDumpFile ⟨fd, false, om, u⟩ s).out ∧
    (∀ l ∈ (ZipDumpFile ⟨fd, true, om, u⟩ s).out, l.isNote = false ∧ l.offset = none) ∧
    fields (ZipDumpFile ⟨fd, true, om, u⟩ s).out = fields (ZipDumpFile ⟨fd, false, om, u⟩ s).out ∧
    shownFields (ZipDumpFile ⟨fd, true, om, u⟩ s).out =
      shownFields (ZipDumpFile ⟨fd, false, om, u⟩ s).out ∧
    (ZipDumpFile ⟨fd, true, om, u⟩ s).val = (ZipDumpFile ⟨fd, false, om, u⟩ s).val ∧
    (ZipDumpFile ⟨fd, true, om, u⟩ s).fin = (ZipDumpFile ⟨fd, false, om, u⟩ s).fin := by
  obtain ⟨h1, h2, h3⟩ := qsim_ZipDumpFile_loop fd om u (s.data.length + 1) ⟨0, 0, 0⟩ s
  have e : (ZipDumpFile ⟨fd, true, om, u⟩ s).out =
      quieted (ZipDumpFile ⟨fd, false, om, u⟩ s).out := h3
  refine ⟨e, ?_, ?_, ?_, h1, h2⟩
  · rw [e]
    exact quieted_quiet _
  · rw [e]
    exact fields_quieted _
  · rw [e]
    exact shownFields_quieted _

/-! ## C21: a stream that ends within the fixed block of a record -/

theorem keeps_rest_nil {α : Type} (m : Dump α) (hk : Keeps m) (s : Stream) (h : s.rest = []) :
    (m s).fin.rest = [] := by
  rcases rest_length_le s _ (hk s).1 (hk s).2 with h1 | h1
  · rw [h] at h1
    simp only [List.length_nil, Nat.le_zero_eq] at h1
    exact List.length_eq_zero.1 (by omega)
  · exact h1

theorem dry_silent {α : Type} (m : Dump α) (hk : Keeps m)
    (ho : ∀ s, s.rest = [] → (m s).out = []) : Dry m := by
  intro s h
  refine ⟨?_, keeps_rest_nil m hk s h⟩
  rw [ho s h]
  intro l hl
  simp at hl

theorem dry_pure {α : Type} (a : α) : Dry (pure a : Dump α) :=
  dry_silent _ (keeps_pure a) (fun _ _ => rfl)

theorem dry_bind {α β : Type} (m : Dump α) (k : α → Dump β) (h1 : Dry m)
    (h2 : ∀ a, Dry (k a)) : Dry (m >>= k) := by
  intro s h
  obtain ⟨a1, a2⟩ := h1 s h
  obtain ⟨b1, b2⟩ := h2 (m s).val (m s).fin a2
  refine ⟨?_, b2⟩
  intro l hl
  simp only [bind_run, List.mem_append] at hl
  rcases hl with hl | hl
  · exact a1 l hl
  · exact b1 l hl

theorem dry_ite {α : Type} (c : Prop) [Decidable c] (m1 m2 : Dump α) (h1 : Dry m1)
    (h2 : Dry m2) : Dry (if c then m1 else m2) := by
  split <;> assumption

theorem dry_ftell : Dry ftell := dry_silent _ keeps_ftell (fun _ _ => rfl)

theorem dry_fseek_nat (n : Nat) : Dry (fseek (n : Int)) :=
  dry_silent _ (keeps_fseek_nat n) (fun s _ => by rw [fseek_fwd])

theorem dry_say_section (cfg : Config) (nm : String) (o : Nat) (n : Int) :
    Dry (say (Print_section cfg nm o n)) := by
  intro s h
  refine ⟨?_, h⟩
  intro l hl
  simp only [say_run, Print_section, List.mem_singleton] at hl
  subst hl
  rfl

theorem dry_say_skipNote (cap : String) (n : Nat) : Dry (say [Line.skipNote cap n]) := by
  intro s h
  refine ⟨?_, h⟩
  intro l hl
  simp only [say_run, List.mem_singleton] at hl
  subst hl
  rfl

theorem dry_DUMP2 (lb : String) (v : Nat) (f : Fmt) : Dry (DUMP2 lb v f) :=
  dry_silent _ (keeps_DUMP2 lb v f) (fun s h => by
    rw [DUMP2_fail lb v f s (by rw [h]; exact Nat.zero_lt_succ _)])

theorem dry_DUMP4 (lb : String) (v : Nat) (f : Fmt) : Dry (DUMP4 lb v f) :=
  dry_silent _ (keeps_DUMP4 lb v f) (fun s h => by
    rw [DUMP4_fail lb v f s (by rw [h]; exact Nat.zero_lt_succ _)])

theorem dry_DUMP8 (lb : String) (v : Nat) (f : Fmt) : Dry (DUMP8 lb v f) :=
  dry_silent _ (keeps_DUMP8 lb v f) (fun s h => by
    rw [DUMP8_fail lb v f s (by rw [h]; exact Nat.zero_lt_succ _)])

theorem dry_DUMP2x (cfg : Config) (lb : String) (v : Nat) (f : Fmt) (d : Nat → List Line) :
    Dry (DUMP2x cfg lb v f d) :=
  dry_silent _ (keeps_DUMP2x cfg lb v f d) (fun s h => by
    rw [DUMP2x_fail cfg lb v f d s (by rw [h]; exact Nat.zero_lt_succ _)])

theorem dry_DUMP4x (cfg : Config) (lb : String) (v : Nat) (f : Fmt) (d : Nat → List Line) :
    Dry (DUMP4x cfg lb v f d) :=
  dry_silent _ (keeps_DUMP4x cfg lb v f d) (fun s h => by
    rw [DUMP4x_fail cfg lb v f d s (by rw [h]; exact Nat.zero_lt_succ _)])

theorem Dump_string_loop_dry (n : Nat) (s : Stream) (h : s.rest = []) :
    (Dump_string_loop n s).val = [] := by
  cases n with
  | zero => rfl
  | succ k =>
    conv_lhs => unfold Dump_string_loop
    simp only [bind_run, getc_nil s h, pure_run]

theorem dry_Dump_string (n : Nat) : Dry (Dump_string n) := by
  intro s h
  refine ⟨?_, keeps_rest_nil _ (keeps_Dump_string n) s h⟩
  rw [Dump_string_out, Dump_string_loop_dry n s h]
  intro l hl
  simp only [List.mem_singleton] at hl
  subst hl
  rfl

theorem dry_Dump_bytes (cfg : Config) (n : Nat) : Dry (Dump_bytes cfg n) :=
  dry_silent _ (keeps_Dump_bytes cfg n) (fun s h => by
    by_cases hn : n = 0
    · subst hn
      rfl
    · rw [Dump_bytes_dry cfg n s h hn])

theorem dry_Dump_extra_field (cfg : Config) (n : Nat) : Dry (Dump_extra_field cfg n) :=
  dry_silent _ (keeps_Dump_extra_field cfg n) (fun s h => by
    have e : Dump_extra_field cfg n s = Dump_extra_field_loop cfg n (0 + 1) 0 s := by
      show Dump_extra_field_loop cfg n (s.rest.length + 1) 0 s = _
      rw [h]
      rfl
    rw [e]
    by_cases hn : 0 < n
    · rw [Dump_extra_field_loop_short cfg n 0 0 s hn (by rw [h]; exact Nat.zero_lt_succ _)]
    · rw [Dump_extra_field_loop_done cfg n _ 0 s (by omega)])

theorem dry_Dump_if_fulldump (cfg : Config) (cap : String) (n : Nat) :
    Dry (Dump_if_fulldump cfg cap n) := by
  unfold Dump_if_fulldump
  repeat' first
    | with_reducible exact dry_pure _
    | with_reducible exact dry_fseek_nat _
    | with_reducible exact dry_Dump_bytes _ _
    | with_reducible exact dry_say_skipNote _ _
    | with_reducible apply dry_ite
    | with_reducible apply dry_bind
    | (intro x; try dsimp only)

theorem hollow_fields (ls : List Line) (h : ∀ l ∈ ls, l.hollow = true) : fields ls = [] := by
  unfold fields
  rw [List.filterMap_eq_nil_iff]
  intro l hl
  have hp := h l hl
  cases l <;> simp_all [Line.hollow]

theorem hollow_tailContent (l : Line) (h : l.hollow = true) : l.tailContent = false := by
  cases l <;> simp_all [Line.hollow, Line.tailContent]

theorem note_tailContent (l : Line) (h : l.isNote = true) : l.tailContent = false := by
  cases l <;> simp_all [Line.isNote, Line.tailContent]

theorem Print_fmt_tailContent (f : Fmt) (lb : String) (w a : Nat) :
    ∀ l ∈ Print_fmt f lb w a, l.tailContent = false := by
  cases f <;>
    simp [Print_fmt, Print_u, Print_x, Print_ux, Print_uFF, forall_mem_ite, Line.tailContent]

theorem fields_Print_fmt_one (f : Fmt) (lb : String) (w a : Nat) :
    fields (Print_fmt f lb w a) = [(lb, w, a)] := by
  cases f <;> simp [Print_fmt, Print_u, Print_x, Print_ux, Print_uFF, fields]
  all_goals split_ifs <;> rfl

/-- A block of no field: what is left of the decoder runs from wherever the
stream stands; from the end of the file it writes hollow lines only. -/
theorem trunc_nil {α : Type} (m : Dump α) (h : Dry m) : Trunc [] m :=
  ⟨fun s hs => absurd hs (Nat.not_lt_zero _), h⟩

/-- One field of `w` bytes read by `m`, which writes the lines `p a` for the
value `a` it reads (a field line and notes), followed by the rest of the decoder. -/
theorem trunc_field {β : Type} (lb : String) (w : Nat) (v : Nat) (m : Dump Nat)
    (p : Nat → List Line) (b : List (String × Nat)) (k : Nat → Dump β)
    (hok : ∀ s, w ≤ s.rest.length → m s = ⟨le (s.rest.take w), p (le (s.rest.take w)), s.adv w⟩)
    (hfail : ∀ s, s.rest.length < w → m s = ⟨v, [], s.hitEof⟩)
    (hp : ∀ a, fields (p a) = [(lb, w, a)] ∧ ∀ l ∈ p a, l.tailContent = false)
    (hw : 0 < w) (hk : ∀ a, Trunc b (k a)) : Trunc ((lb, w) :: b) (m >>= k) := by
  have hdry : Dry (m >>= k) := by
    intro s h
    have e : (m >>= k) s = k v s.hitEof := by
      rw [bind_after, hfail s (by rw [h]; exact hw)]
      exact after_nil _
    rw [e]
    exact (hk v).2 s.hitEof (rest_hitEof s)
  refine ⟨?_, hdry⟩
  intro s hs
  by_cases h : w ≤ s.rest.length
  · have e : (m >>= k) s = (k (le (s.rest.take w)) (s.adv w)).after (p (le (s.rest.take w))) := by
      rw [bind_after, hok s h]
    have hl : (s.adv w).rest.length < blockSize b := by
      simp only [rest_adv, List.length_drop]
      simp only [blockSize] at hs
      omega
    obtain ⟨g1, g2, g3⟩ := (hk (le (s.rest.take w))).1 (s.adv w) hl
    rw [e]
    refine ⟨?_, ?_, g3⟩
    · simp only [Res.after, fields_append, (hp _).1, g1, wholeFields, if_pos h, rest_adv,
        List.singleton_append]
    · intro l hl
      simp only [Res.after, List.mem_append] at hl
      rcases hl with hl | hl
      · exact (hp _).2 l hl
      · exact g2 l hl
  · have e : (m >>= k) s = k v s.hitEof := by
      rw [bind_after, hfail s (by omega)]
      exact after_nil _
    obtain ⟨g1, g2⟩ := (hk v).2 s.hitEof (rest_hitEof s)
    rw [e]
    refine ⟨?_, fun l hl => hollow_tailContent l (g1 l hl), g2⟩
    rw [hollow_fields _ g1]
    simp only [wholeFields, if_neg h]

theorem trunc_DUMP2 {β : Type} (lb : String) (v : Nat) (f : Fmt) (b : List (String × Nat))
    (k : Nat → Dump β) (hk : ∀ a, Trunc b (k a)) : Trunc ((lb, 2) :: b) (DUMP2 lb v f >>= k) :=
  trunc_field lb 2 v _ (fun a => Print_fmt f lb 2 a) b k (DUMP2_ok lb v f) (DUMP2_fail lb v f)
    (fun a => ⟨fields_Print_fmt_one f lb 2 a, Print_fmt_tailContent f lb 2 a⟩) (by decide) hk

theorem trunc_DUMP4 {β : Type} (lb : String) (v : Nat) (f : Fmt) (b : List (String × Nat))
    (k : Nat → Dump β) (hk : ∀ a, Trunc b (k a)) : Trunc ((lb, 4) :: b) (DUMP4 lb v f >>= k) :=
  trunc_field lb 4 v _ (fun a => Print_fmt f lb 4 a) b k (DUMP4_ok lb v f) (DUMP4_fail lb v f)
    (fun a => ⟨fields_Print_fmt_one f lb 4 a, Print_fmt_tailContent f lb 4 a⟩) (by decide) hk

theorem trunc_DUMP8 {β : Type} (lb : String) (v : Nat) (f : Fmt) (b : List (String × Nat))
    (k : Nat → Dump β) (hk : ∀ a, Trunc b (k a)) : Trunc ((lb, 8) :: b) (DUMP8 lb v f >>= k) :=
  trunc_field lb 8 v _ (fun a => Print_fmt f lb 8 a) b k (DUMP8_ok lb v f) (DUMP8_fail lb v f)
    (fun a => ⟨fields_Print_fmt_one f lb 8 a, Print_fmt_tailContent f lb 8 a⟩) (by decide) hk

theorem detail_lines (q : Bool) (f : Fmt) (lb : String) (w a : Nat) (d : List Line)
    (hd : ∀ l ∈ d, l.isNote = true) :
    fields (Print_fmt f lb w a ++ (if q = true then [] else d)) = [(lb, w, a)] ∧
    ∀ l ∈ Print_fmt f lb w a ++ (if q = true then [] else d), l.tailContent = false := by
  have hn : ∀ l ∈ (if q = true then [] else d), l.isNote = true := by
    cases q
    · simpa using hd
    · simp
  refine ⟨?_, ?_⟩
  · rw [fields_append, fields_Print_fmt_one, fields_note _ hn]
    rfl
  · intro l hl
    simp only [List.mem_append] at hl
    rcases hl with hl | hl
    · exact Print_fmt_tailContent f lb w a l hl
    · exact note_tailContent l (hn l hl)

theorem trunc_DUMP2x {β : Type} (cfg : Config) (lb : String) (v : Nat) (f : Fmt)
    (d : Nat → List Line) (b : List (String × Nat)) (k : Nat → Dump β)
    (hd : ∀ x, ∀ l ∈ d x, l.isNote = true) (hk : ∀ a, Trunc b (k a)) :
    Trunc ((lb, 2) :: b) (DUMP2x cfg lb v f d >>= k) :=
  trunc_field lb 2 v _ (fun a => Print_fmt f lb 2 a ++ (if cfg.gQuiet then [] else d a)) b k
    (DUMP2x_ok cfg lb v f d) (DUMP2x_fail cfg lb v f d)
    (fun a => detail_lines cfg.gQuiet f lb 2 a (d a) (hd a)) (by decide) hk

theorem trunc_DUMP4x {β : Type} (cfg : Config) (lb : String) (v : Nat) (f : Fmt)
    (d : Nat → List Line) (b : List (String × Nat)) (k : Nat → Dump β)
    (hd : ∀ x, ∀ l ∈ d x, l.isNote = true) (hk : ∀ a, Trunc b (k a)) :
    Trunc ((lb, 4) :: b) (DUMP4x cfg lb v f d >>= k) :=
  trunc_field lb 4 v _ (fun a => Print_fmt f lb 4 a ++ (if cfg.gQuiet then [] else d a)) b k
    (DUMP4x_ok cfg lb v f d) (DUMP4x_fail cfg lb v f d)
    (fun a => detail_lines cfg.gQuiet f lb 4 a (d a) (hd a)) (by decide) hk

theorem dry_Dump_Data_descriptor : Dry (Dump_Data_descriptor) := by
  unfold Dump_Data_descriptor
  repeat' first
    | with_reducible exact dry_pure _
    | with_reducible exact dry_ftell
    | with_reducible exact dry_say_section _ _ _ _
    | with_reducible exact dry_DUMP4 _ _ _
    | with_reducible exact dry_Dump_string _
    | with_reducible exact dry_Dump_bytes _ _
    | with_reducible exact dry_Dump_extra_field _ _
    | with_reducible exact dry_Dump_if_fulldump _ _ _
    | with_reducible apply dry_ite
    | with_reducible apply dry_bind
    | (intro x; try dsimp only)

theorem dry_Dump_Local_file_tails (cfg : Config) (n : Int) (a b : Nat) : Dry (Dump_Local_file_tails cfg n a b) := by
  unfold Dump_Local_file_tails
  repeat' first
    | with_reducible exact dry_pure _
    | with_reducible exact dry_ftell
    | with_reducible exact dry_say_section _ _ _ _
    | with_reducible exact dry_DUMP4 _ _ _
    | with_reducible exact dry_Dump_string _
    | with_reducible exact dry_Dump_bytes _ _
    | with_reducible exact dry_Dump_extra_field _ _
    | with_reducible exact dry_Dump_if_fulldump _ _ _
    | with_reducible apply dry_ite
    | with_reducible apply dry_bind
    | (intro x; try dsimp only)

theorem dry_Dump_Local_file_data (cfg : Config) (n : Int) (a b : Nat) : Dry (Dump_Local_file_data cfg n a b) := by
  unfold Dump_Local_file_data
  repeat' first
    | with_reducible exact dry_pure _
    | with_reducible exact dry_ftell
    | with_reducible exact dry_say_section _ _ _ _
    | with_reducible exact dry_DUMP4 _ _ _
    | with_reducible exact dry_Dump_string _
    | with_reducible exact dry_Dump_bytes _ _
    | with_reducible exact dry_Dump_extra_field _ _
    | with_reducible exact dry_Dump_if_fulldump _ _ _
    | with_reducible apply dry_ite
    | with_reducible apply dry_bind
    | with_reducible exact dry_Dump_Data_descriptor
    | (intro x; try dsimp only)

theorem dry_Dump_Central_directory_tails (cfg : Config) (n : Int) (a b c : Nat) : Dry (Dump_Central_directory_tails cfg n a b c) := by
  unfold Dump_Central_directory_tails
  repeat' first
    | with_reducible exact dry_pure _
    | with_reducible exact dry_ftell
    | with_reducible exact dry_say_section _ _ _ _
    | with_reducible exact dry_DUMP4 _ _ _
    | with_reducible exact dry_Dump_string _
    | with_reducible exact dry_Dump_bytes _ _
    | with_reducible exact dry_Dump_extra_field _ _
    | with_reducible exact dry_Dump_if_fulldump _ _ _
    | with_reducible apply dry_ite
    | with_reducible apply dry_bind
    | (intro x; try dsimp only)

theorem trunc_Dump_Data_descriptor :
    Trunc (RecordKind.block RecordKind.dataDescriptor) (Dump_Data_descriptor) := by
  unfold Dump_Data_descriptor RecordKind.block
  repeat' first
    | with_reducible apply trunc_DUMP2
    | with_reducible apply trunc_DUMP4
    | with_reducible apply trunc_DUMP8
    | with_reducible apply trunc_DUMP2x
    | with_reducible apply trunc_DUMP4x
    | with_reducible apply trunc_nil
    | with_reducible exact Print_version_note
    | with_reducible exact Print_internal_file_attributes_note
    | with_reducible exact Print_external_file_attributes_note
    | with_reducible exact fun x => Print_general_purpose_bit_flag_note _ x
    | with_reducible exact fun x => Print_date_and_time_note _ x
    | with_reducible exact dry_Dump_Local_file_tails _ _ _ _
    | with_reducible exact dry_Dump_Local_file_data _ _ _ _
    | with_reducible exact dry_Dump_Central_directory_tails _ _ _ _ _
    | with_reducible exact dry_pure _
    | with_reducible exact dry_ftell
    | with_reducible exact dry_say_section _ _ _ _
    | with_reducible exact dry_DUMP4 _ _ _
    | with_reducible exact dry_Dump_string _
    | with_reducible exact dry_Dump_bytes _ _
    | with_reducible exact dry_Dump_extra_field _ _
    | with_reducible exact dry_Dump_if_fulldump _ _ _
    | with_reducible apply dry_ite
    | with_reducible apply dry_bind
    | (intro x; try dsimp only)

theorem trunc_Dump_Local_file (cfg : Config) (n : Int) :
    Trunc (RecordKind.block RecordKind.localFile) (Dump_Local_file cfg n) := by
  unfold Dump_Local_file RecordKind.block
  repeat' first
    | with_reducible apply trunc_DUMP2
    | with_reducible apply trunc_DUMP4
    | with_reducible apply trunc_DUMP8
    | with_reducible apply trunc_DUMP2x
    | with_reducible apply trunc_DUMP4x
    | with_reducible apply trunc_nil
    | with_reducible exact Print_version_note
    | with_reducible exact Print_internal_file_attributes_note
    | with_reducible exact Print_external_file_attributes_note
    | with_reducible exact fun x => Print_general_purpose_bit_flag_note _ x
    | with_reducible exact fun x => Print_date_and_time_note _ x
    | with_reducible exact dry_Dump_Local_file_tails _ _ _ _
    | with_reducible exact dry_Dump_Local_file_data _ _ _ _
    | with_reducible exact dry_Dump_Central_directory_tails _ _ _ _ _
    | with_reducible exact dry_pure _
    | with_reducible exact dry_ftell
    | with_reducible exact dry_say_section _ _ _ _
    | with_reducible exact dry_DUMP4 _ _ _
    | with_reducible exact dry_Dump_string _
    | with_reducible exact dry_Dump_bytes _ _
    | with_reducible exact dry_Dump_extra_field _ _
    | with_reducible exact dry_Dump_if_fulldump _ _ _
    | with_reducible apply dry_ite
    | with_reducible apply dry_bind
    | (intro x; try dsimp only)

theorem trunc_Dump_Archive_extra_data_record (cfg : Config) :
    Trunc (RecordKind.block RecordKind.archiveExtra) (Dump_Archive_extra_data_record cfg) := by
  unfold Dump_Archive_extra_data_record RecordKind.block
  repeat' first
    | with_reducible apply trunc_DUMP2
    | with_reducible apply trunc_DUMP4
    | with_reducible apply trunc_DUMP8
    | with_reducible apply trunc_DUMP2x
    | with_reducible apply trunc_DUMP4x
    | with_reducible apply trunc_nil
    | with_reducible exact Print_version_note
    | with_reducible exact Print_internal_file_attributes_note
    | with_reducible exact Print_external_file_attributes_note
    | with_reducible exact fun x => Print_general_purpose_bit_flag_note _ x
    | with_reducible exact fun x => Print_date_and_time_note _ x
    | with_reducible exact dry_Dump_Local_file_tails _ _ _ _
    | with_reducible exact dry_Dump_Local_file_data _ _ _ _
    | with_reducible exact dry_Dump_Central_directory_tails _ _ _ _ _
    | with_reducible exact dry_pure _
    | with_reducible exact dry_ftell
    | with_reducible exact dry_say_section _ _ _ _
    | with_reducible exact dry_DUMP4 _ _ _
    | with_reducible exact dry_Dump_string _
    | with_reducible exact dry_Dump_bytes _ _
    | with_reducible exact dry_Dump_extra_field _ _
    | with_reducible exact dry_Dump_if_fulldump _ _ _
    | with_reducible apply dry_ite
    | with_reducible apply dry_bind
    | (intro x; try dsimp only)

theorem trunc_Dump_Central_directory_file_header (cfg : Config) (n : Int) :
    Trunc (RecordKind.block RecordKind.centralHeader) (Dump_Central_directory_file_header cfg n) := by
  unfold Dump_Central_directory_file_header RecordKind.block
  repeat' first
    | with_reducible apply trunc_DUMP2
    | with_reducible apply trunc_DUMP4
    | with_reducible apply trunc_DUMP8
    | with_reducible apply trunc_DUMP2x
    | with_reducible apply trunc_DUMP4x
    | with_reducible apply trunc_nil
    | with_reducible exact Print_version_note
    | with_reducible exact Print_internal_file_attributes_note
    | with_reducible exact Print_external_file_attributes_note
    | with_reducible exact fun x => Print_general_purpose_bit_flag_note _ x
    | with_reducible exact fun x => Print_date_and_time_note _ x
    | with_reducible exact dry_Dump_Local_file_tails _ _ _ _
    | with_reducible exact dry_Dump_Local_file_data _ _ _ _
    | with_reducible exact dry_Dump_Central_directory_tails _ _ _ _ _
    | with_reducible exact dry_pure _
    | with_reducible exact dry_ftell
    | with_reducible exact dry_say_section _ _ _ _
    | with_reducible exact dry_DUMP4 _ _ _
    | with_reducible exact dry_Dump_string _
    | with_reducible exact dry_Dump_bytes _ _
    | with_reducible exact dry_Dump_extra_field _ _
    | with_reducible exact dry_Dump_if_fulldump _ _ _
    | with_reducible apply dry_ite
    | with_reducible apply dry_bind
    | (intro x; try dsimp only)

theorem trunc_Dump_Central_directory_digital_signature (cfg : Config) :
    Trunc (RecordKind.block RecordKind.digitalSignature) (Dump_Central_directory_digital_signature cfg) := by
  unfold Dump_Central_directory_digital_signature RecordKind.block
  repeat' first
    | with_reducible apply trunc_DUMP2
    | with_reducible apply trunc_DUMP4
    | with_reducible apply trunc_DUMP8
    | with_reducible apply trunc_DUMP2x
    | with_reducible apply trunc_DUMP4x
    | with_reducible apply trunc_nil
    | with_reducible exact Print_version_note
    | with_reducible exact Print_internal_file_attributes_note
    | with_reducible exact Print_external_file_attributes_note
    | with_reducible exact fun x => Print_general_purpose_bit_flag_note _ x
    | with_reducible exact fun x => Print_date_and_time_note _ x
    | with_reducible exact dry_Dump_Local_file_tails _ _ _ _
    | with_reducible exact dry_Dump_Local_file_data _ _ _ _
    | with_reducible exact dry_Dump_Central_directory_tails _ _ _ _ _
    | with_reducible exact dry_pure _
    | with_reducible exact dry_ftell
    | with_reducible exact dry_say_section _ _ _ _
    | with_reducible exact dry_DUMP4 _ _ _
    | with_reducible exact dry_Dump_string _
    | with_reducible exact dry_Dump_bytes _ _
    | with_reducible exact dry_Dump_extra_field _ _
    | with_reducible exact dry_Dump_if_fulldump _ _ _
    | with_reducible apply dry_ite
    | with_reducible apply dry_bind
    | (intro x; try dsimp only)

theorem trunc_Dump_Zip64_end_of_central_directory_record (cfg : Config) :
    Trunc (RecordKind.block RecordKind.zip64End) (Dump_Zip64_end_of_central_directory_record cfg) := by
  unfold Dump_Zip64_end_of_central_directory_record RecordKind.block
  repeat' first
    | with_reducible apply trunc_DUMP2
    | with_reducible apply trunc_DUMP4
    | with_reducible apply trunc_DUMP8
    | with_reducible apply trunc_DUMP2x
    | with_reducible apply trunc_DUMP4x
    | with_reducible apply trunc_nil
    | with_reducible exact Print_version_note
    | with_reducible exact Print_internal_file_attributes_note
    | with_reducible exact Print_external_file_attributes_note
    | with_reducible exact fun x => Print_general_purpose_bit_flag_note _ x
    | with_reducible exact fun x => Print_date_and_time_note _ x
    | with_reducible exact dry_Dump_Local_file_tails _ _ _ _
    | with_reducible exact dry_Dump_Local_file_data _ _ _ _
    | with_reducible exact dry_Dump_Central_directory_tails _ _ _ _ _
    | with_reducible exact dry_pure _
    | with_reducible exact dry_ftell
    | with_reducible exact dry_say_section _ _ _ _
    | with_reducible exact dry_DUMP4 _ _ _
    | with_reducible exact dry_Dump_string _
    | with_reducible exact dry_Dump_bytes _ _
    | with_reducible exact dry_Dump_extra_field _ _
    | with_reducible exact dry_Dump_if_fulldump _ _ _
    | with_reducible apply dry_ite
    | with_reducible apply dry_bind
    | (intro x; try dsimp only)

theorem trunc_Dump_Zip64_end_of_central_directory_locator :
    Trunc (RecordKind.block RecordKind.zip64Locator) (Dump_Zip64_end_of_central_directory_locator) := by
  unfold Dump_Zip64_end_of_central_directory_locator RecordKind.block
  repeat' first
    | with_reducible apply trunc_DUMP2
    | with_reducible apply trunc_DUMP4
    | with_reducible apply trunc_DUMP8
    | with_reducible apply trunc_DUMP2x
    | with_reducible apply trunc_DUMP4x
    | with_reducible apply trunc_nil
    | with_reducible exact Print_version_note
    | with_reducible exact Print_internal_file_attributes_note
    | with_reducible exact Print_external_file_attributes_note
    | with_reducible exact fun x => Print_general_purpose_bit_flag_note _ x
    | with_reducible exact fun x => Print_date_and_time_note _ x
    | with_reducible exact dry_Dump_Local_file_tails _ _ _ _
    | with_reducible exact dry_Dump_Local_file_data _ _ _ _
    | with_reducible exact dry_Dump_Central_directory_tails _ _ _ _ _
    | with_reducible exact dry_pure _
    | with_reducible exact dry_ftell
    | with_reducible exact dry_say_section _ _ _ _
    | with_reducible exact dry_DUMP4 _ _ _
    | with_reducible exact dry_Dump_string _
    | with_reducible exact dry_Dump_bytes _ _
    | with_reducible exact dry_Dump_extra_field _ _
    | with_reducible exact dry_Dump_if_fulldump _ _ _
    | with_reducible apply dry_ite
    | with_reducible apply dry_bind
    | (intro x; try dsimp only)

theorem trunc_Dump_End_of_central_directory_record (cfg : Config) :
    Trunc (RecordKind.block RecordKind.endOfCentral) (Dump_End_of_central_directory_record cfg) := by
  unfold Dump_End_of_central_directory_record RecordKind.block
  repeat' first
    | with_reducible apply trunc_DUMP2
    | with_reducible apply trunc_DUMP4
    | with_reducible apply trunc_DUMP8
    | with_reducible apply trunc_DUMP2x
    | with_reducible apply trunc_DUMP4x
    | with_reducible apply trunc_nil
    | with_reducible exact Print_version_note
    | with_reducible exact Print_internal_file_attributes_note
    | with_reducible exact Print_external_file_attributes_note
    | with_reducible exact fun x => Print_general_purpose_bit_flag_note _ x
    | with_reducible exact fun x => Print_date_and_time_note _ x
    | with_reducible exact dry_Dump_Local_file_tails _ _ _ _
    | with_reducible exact dry_Dump_Local_file_data _ _ _ _
    | with_reducible exact dry_Dump_Central_directory_tails _ _ _ _ _
    | with_reducible exact dry_pure _
    | with_reducible exact dry_ftell
    | with_reducible exact dry_say_section _ _ _ _
    | with_reducible exact dry_DUMP4 _ _ _
    | with_reducible exact dry_Dump_string _
    | with_reducible exact dry_Dump_bytes _ _
    | with_reducible exact dry_Dump_extra_field _ _
    | with_reducible exact dry_Dump_if_fulldump _ _ _
    | with_reducible apply dry_ite
    | with_reducible apply dry_bind
    | (intro x; try dsimp only)

set_option maxRecDepth 100000 in
/-- C21 as stated fails: a local file header that ends after its "file name
length" field, two bytes short of the 26 bytes of the fixed block, with a name
length of 3, a compressed size of 5 and bit 3 of the flags set.  The decoder
does not stop at the field it cannot read: it goes on to the tails with the
lengths it has read and writes the section lines of the file name, of the file
data and of the data descriptor. -/
theorem C21_truncation_counterexample :
    sampleTruncated.rest.length = 24 ∧
    blockSize (RecordKind.block RecordKind.localFile) = 26 ∧
    sections (Dump_Local_file optionsOff 1 sampleTruncated).out =
      ["Local file name", "File data", "Data descriptor"] := by
  decide

/-- C21, amended: for every record kind, when the stream ends within the fixed
block of the record, the decoder writes the field lines of the fields that lie
whole in the stream, in order, and no later field line; it shows nothing of a
tail, payload, descriptor or data sector (no row of a hex dump, no run of
characters but the empty one, no extra-field line, no report of unknown data);
and it ends at the end of the file.  Section lines of tails may still be
written. -/
theorem C21_truncated_block (cfg : Config) (n : Int) (kind : RecordKind) (s : Stream)
    (h : s.rest.length < blockSize kind.block) :
    fields (kind.decoder cfg n s).out = wholeFields kind.block s.rest ∧
    (∀ l ∈ (kind.decoder cfg n s).out, l.tailContent = false) ∧
    (kind.decoder cfg n s).fin.rest = [] := by
  cases kind
  · exact (trunc_Dump_Local_file cfg n).1 s h
  · exact trunc_Dump_Data_descriptor.1 s h
  · exact (trunc_Dump_Archive_extra_data_record cfg).1 s h
  · exact (trunc_Dump_Central_directory_file_header cfg n).1 s h
  · exact (trunc_Dump_Central_directory_digital_signature cfg).1 s h
  · exact (trunc_Dump_Zip64_end_of_central_directory_record cfg).1 s h
  · exact trunc_Dump_Zip64_end_of_central_directory_locator.1 s h
  · exact (trunc_Dump_End_of_central_directory_record cfg).1 s h

set_option maxRecDepth 100000 in
theorem C21_truncated_block_witness :
    sampleTruncated.rest.length < blockSize (RecordKind.block RecordKind.localFile) ∧
    fields (Dump_Local_file optionsOff 1 sampleTruncated).out =
      [("version needed to extract", 2, 20), ("general purpose bit flag", 2, 8),
       ("compression method", 2, 0), ("last mod file time", 2, 0), ("last mod file date", 2, 0),
       ("crc-32", 4, 0), ("compressed size", 4, 5), ("uncompressed size", 4, 5),
       ("file name length", 2, 3)] :=
  ⟨by decide,
    (C21_truncated_block optionsOff 1 RecordKind.localFile sampleTruncated
      (by decide)).1.trans (by decide)⟩

/-! ## C33: the notes of the general purpose bit flag -/

theorem and_two_pow_ne_zero (f i : Nat) : f &&& 2 ^ i ≠ 0 ↔ f.testBit i = true := by
  rw [Nat.and_two_pow]
  cases f.testBit i <;> simp

theorem note_length (c : Prop) [Decidable c] (t : String) :
    (if c then Print_note t else []).length = if c then 1 else 0 := by
  split <;> rfl

theorem note_isNote (c : Prop) [Decidable c] (t : String) :
    ∀ l ∈ (if c then Print_note t else []), l.isNote = true := by
  intro l hl
  split at hl
  · simp only [Print_note, List.mem_singleton] at hl
    subst hl
    rfl
  · simp at hl

theorem filter_length_cons {α : Type} (p : α → Bool) (a : α) (t : List α) :
    ((a :: t).filter p).length = (if p a = true then 1 else 0) + (t.filter p).length := by
  rw [List.filter_cons]
  split <;> simp [Nat.add_comm]

theorem and3_cases (x : Nat) : x &&& 3 = 0 ∨ x &&& 3 = 1 ∨ x &&& 3 = 2 ∨ x &&& 3 = 3 := by
  have h : x &&& 3 ≤ 3 := Nat.and_le_right
  omega

theorem filter_map_note_cons (p : Nat × String → Bool) (a : Nat × String)
    (t : List (Nat × String)) :
    ((a :: t).filter p).map (fun x => Line.note x.2) =
      (if p a = true then [Line.note a.2] else []) ++
        (t.filter p).map (fun x => Line.note x.2) := by
  rw [List.filter_cons]
  split <;> rfl

/-- C33: for every flags value `f` and method `m` the output of
`Print_general_purpose_bit_flag` is three groups of notes, in this order.
First the note of bit 0, if bit 0 is set.  Then the notes of bits 1 and 2,
selected by the method: for method 6 the notes of the set bits among 1 and 2,
each with its own text; for methods 8 and 9 exactly one note if and only if
`(f >> 1) & 3` is not 0, whose text is chosen by that value (1, 2 or 3); for
method 14 the note of bit 1 if bit 1 is set; for any other method none.  Last
the notes of the set bits among bits 3 to 15, in the order of the bits, each
with the text of its bit.  Every line is a note. -/
theorem C33_bit_flag_notes (f m : Nat) :
    Print_general_purpose_bit_flag f m =
      ([(0, "Bit 0: encrypted")].filter (fun x => f.testBit x.1)).map (fun x => Line.note x.2) ++
      ((if m = 6 then
          ([(1, "Bit 1: Method6: 8K sliding dictionary"),
            (2, "Bit 2: Method6: 3 Shannon-Fano trees")].filter
              (fun x => f.testBit x.1)).map (fun x => Line.note x.2)
        else if m = 8 ∨ m = 9 then
          (if (f >>> 1) &&& 3 = 1 then
            [Line.note "Bit 1-2: Method8/9: Maximum (-exx/-ex) compression"]
           else if (f >>> 1) &&& 3 = 2 then
            [Line.note "Bit 1-2: Method8/9: Fast (-ef) compression"]
           else if (f >>> 1) &&& 3 = 3 then
            [Line.note "Bit 1-2: Method8/9: Super Fast (-es) compression"]
           else [])
        else if m = 14 then
          ([(1, "Bit 1: Method14: end-of-stream marker used to mark the end of the compressed data stream")].filter
              (fun x => f.testBit x.1)).map (fun x => Line.note x.2)
        else []) ++
      ([(3, "Bit 3: crc-32, compressed size and uncompressed size are set to zero"),
        (4, "Bit 4: Reserved for use with method 8, for enhanced deflating"),
        (5, "Bit 5: compressed patched data.  (Note: Requires PKZIP version 2.70 or greater)"),
        (6, "Bit 6: Strong encryption."),
        (7, "Bit 7: Currently unused."),
        (8, "Bit 8: Currently unused."),
        (9, "Bit 9: Currently unused."),
        (10, "Bit 10: Currently unused."),
        (11, "Bit 11: Language encoding flag (EFS). the filename and comment fields for this file must be encoded using UTF-8."),
        (12, "Bit 12: Reserved by PKWARE for enhanced compression."),
        (13, "Bit 13: Used when encrypting the Central Directory to indicate selected data values in the Local Header are masked to hide their actual values."),
        (14, "Bit 14: Reserved by PKWARE."),
        (15, "Bit 15: Reserved by PKWARE.")].filter
          (fun x => f.testBit x.1)).map (fun x => Line.note x.2)) ∧
    (∀ l ∈ Print_general_purpose_bit_flag f m, l.isNote = true) ∧
    ((m = 8 ∨ m = 9) →
      ((if (f >>> 1) &&& 3 = 1 then
          [Line.note "Bit 1-2: Method8/9: Maximum (-exx/-ex) compression"]
        else if (f >>> 1) &&& 3 = 2 then
          [Line.note "Bit 1-2: Method8/9: Fast (-ef) compression"]
        else if (f >>> 1) &&& 3 = 3 then
          [Line.note "Bit 1-2: Method8/9: Super Fast (-es) compression"]
        else [] : List Line).length = if (f >>> 1) &&& 3 ≠ 0 then 1 else 0)) := by
  have e0 : f &&& 0x0001 ≠ 0 ↔ f.testBit 0 = true := and_two_pow_ne_zero f 0
  have e1 : f &&& 0x0002 ≠ 0 ↔ f.testBit 1 = true := and_two_pow_ne_zero f 1
  have e2 : f &&& 0x0004 ≠ 0 ↔ f.testBit 2 = true := and_two_pow_ne_zero f 2
  have e3 : f &&& 0x0008 ≠ 0 ↔ f.testBit 3 = true := and_two_pow_ne_zero f 3
  have e4 : f &&& 0x0010 ≠ 0 ↔ f.testBit 4 = true := and_two_pow_ne_zero f 4
  have e5 : f &&& 0x0020 ≠ 0 ↔ f.testBit 5 = true := and_two_pow_ne_zero f 5
  have e6 : f &&& 0x0040 ≠ 0 ↔ f.testBit 6 = true := and_two_pow_ne_zero f 6
  have e7 : f &&& 0x0080 ≠ 0 ↔ f.testBit 7 = true := and_two_pow_ne_zero f 7
  have e8 : f &&& 0x0100 ≠ 0 ↔ f.testBit 8 = true := and_two_pow_ne_zero f 8
  have e9 : f &&& 0x0200 ≠ 0 ↔ f.testBit 9 = true := and_two_pow_ne_zero f 9
  have e10 : f &&& 0x0400 ≠ 0 ↔ f.testBit 10 = true := and_two_pow_ne_zero f 10
  have e11 : f &&& 0x0800 ≠ 0 ↔ f.testBit 11 = true := and_two_pow_ne_zero f 11
  have e12 : f &&& 0x1000 ≠ 0 ↔ f.testBit 12 = true := and_two_pow_ne_zero f 12
  have e13 : f &&& 0x2000 ≠ 0 ↔ f.testBit 13 = true := and_two_pow_ne_zero f 13
  have e14 : f &&& 0x4000 ≠ 0 ↔ f.testBit 14 = true := and_two_pow_ne_zero f 14
  have e15 : f &&& 0x8000 ≠ 0 ↔ f.testBit 15 = true := and_two_pow_ne_zero f 15
  refine ⟨?_, Print_general_purpose_bit_flag_note f m, ?_⟩
  · unfold Print_general_purpose_bit_flag
    simp only [filter_map_note_cons, List.filter_nil, List.map_nil, List.append_nil,
      List.append_assoc, Print_note, e0, e3, e4, e5, e6, e7, e8, e9, e10, e11, e12, e13, e14, e15]
    congr 1
    congr 1
    by_cases h6 : m = 6
    · simp only [if_pos h6, e1, e2]
    · by_cases h8 : m = 8 ∨ m = 9
      · simp only [if_neg h6, if_pos h8]
        rcases and3_cases (f >>> 1) with h | h | h | h <;> simp [h]
      · by_cases h14 : m = 14
        · simp only [if_neg h6, if_neg h8, if_pos h14, e1]
        · simp only [if_neg h6, if_neg h8, if_neg h14]
  · intro _
    rcases and3_cases (f >>> 1) with h | h | h | h <;> simp [h]

/-- C33 witness: method 8 with the flags 0x0806, bits 1, 2 and 11 set: the
note of the value 3 of bits 1-2 and the note of bit 11; the group of bits 1-2
is the one note of the value 3. -/
theorem C33_bit_flag_notes_witness :
    (8 = 8 ∨ 8 = 9) ∧
    Print_general_purpose_bit_flag 0x0806 8 =
      [Line.note "Bit 1-2: Method8/9: Super Fast (-es) compression",
       Line.note "Bit 11: Language encoding flag (EFS). the filename and comment fields for this file must be encoded using UTF-8."] ∧
    ([Line.note "Bit 1-2: Method8/9: Super Fast (-es) compression"] : List Line).length = 1 :=
  ⟨Or.inl rfl, (C33_bit_flag_notes 0x0806 8).1.trans (by decide),
    (C33_bit_flag_notes 0x0806 8).2.2 (Or.inl rfl)⟩

/-! ## C34: the text of a tail -/

theorem Dump_string_loop_run (n : Nat) :
    ∀ s : Stream, (Dump_string_loop n s).val = visibleText (s.rest.take n) ∧
      (Dump_string_loop n s).out = [] ∧
      (Dump_string_loop n s).fin.pos = s.pos + min n s.rest.length ∧
      (Dump_string_loop n s).fin.data = s.data := by
  induction n with
  | zero =>
    intro s
    simp [Dump_string_loop, pure_run, visibleText]
  | succ n ih =>
    intro s
    cases hr : s.rest with
    | nil =>
      conv => enter [1, 1]; unfold Dump_string_loop
      conv => enter [2, 1, 1]; unfold Dump_string_loop
      conv => enter [2, 2, 1, 1]; unfold Dump_string_loop
      conv => enter [2, 2, 2, 1]; unfold Dump_string_loop
      simp only [bind_run, getc_nil s hr, pure_run, List.take_nil, visibleText, List.length_nil,
        Nat.min_zero, Nat.add_zero, List.append_nil, Stream.hitEof, hr, and_self]
    | cons b t =>
      have hg := getc_cons s b t hr
      obtain ⟨i1, i2, i3, i4⟩ := ih (s.adv 1)
      have hr1 : (s.adv 1).rest = t := by rw [rest_adv, hr]; rfl
      rw [hr1] at i1 i3
      rw [adv_pos] at i3
      conv => enter [1, 1]; unfold Dump_string_loop
      conv => enter [2, 1, 1]; unfold Dump_string_loop
      conv => enter [2, 2, 1, 1]; unfold Dump_string_loop
      conv => enter [2, 2, 2, 1]; unfold Dump_string_loop
      simp only [bind_run, hg, pure_run, i1, i2, i3, i4, List.take_succ_cons, visibleText,
        List.append_nil, List.nil_append, adv_pos, adv_data, List.length_cons, true_and,
        Nat.succ_min_succ, and_true]
      omega

theorem visibleText_clean (bytes : List Byte) : ∀ x ∈ visibleText bytes, iscntrl x = false := by
  induction bytes with
  | nil => intro x hx; simp [visibleText] at hx
  | cons b t ih =>
    intro x hx
    simp only [visibleText, List.mem_append] at hx
    rcases hx with hx | hx
    · have hb := b.isLt
      by_cases hc : iscntrl b.val = true
      · simp only [visible, hc, if_true, List.mem_cons, List.mem_singleton, List.mem_nil_iff,
          or_false] at hx
        simp only [iscntrl, Bool.or_eq_true, decide_eq_true_eq] at hc
        rcases hx with hx | hx <;> subst hx <;> (simp [iscntrl]; try omega)
      · simp only [visible, hc, Bool.false_eq_true, if_false, List.mem_singleton] at hx
        subst hx
        simpa using hc
    · exact ih x hx

/-- C34 on the code: for every declared length and stream `Dump_string`
consumes the smaller of the length and the number of bytes left and writes
one run of characters, ended by one newline, in which each byte stands as
`visible` makes it; a control code below 32 stands as `^` and the character
`c + 64`, which lies in the printable range 64 to 95, and every byte that
`iscntrl` does not hold of stands as it is; but the control code 127 stands as
`^` and the byte 191, which is no ASCII character.  No control code is
written. -/
theorem C34_Dump_string_visible (length : Nat) (s : Stream) :
    (Dump_string length s).out = [Line.text (visibleText (s.rest.take length))] ∧
    (Dump_string length s).fin.pos = s.pos + min length s.rest.length ∧
    (Dump_string length s).fin.data = s.data ∧
    (∀ c, c < 32 → visible c = [94, c + 64] ∧ 64 ≤ c + 64 ∧ c + 64 < 96) ∧
    (∀ c, 32 ≤ c → c ≠ 127 → visible c = [c]) ∧
    visible 127 = [94, 191] ∧
    (∀ x ∈ visibleText (s.rest.take length), iscntrl x = false) := by
  obtain ⟨h1, h2, h3, h4⟩ := Dump_string_loop_run length s
  refine ⟨?_, ?_, ?_, ?_, ?_, rfl, visibleText_clean _⟩
  · rw [Dump_string_out, h1]
  · simp only [Dump_string, bind_run, say_run]
    exact h3
  · simp only [Dump_string, bind_run, say_run]
    exact h4
  · intro c hc
    have : iscntrl c = true := by simp [iscntrl, hc]
    simp only [visible, this, if_true, true_and]
    omega
  · intro c hc h127
    have : iscntrl c = false := by
      simp only [iscntrl, Bool.or_eq_false_iff, decide_eq_false_iff_not]
      omega
    simp [visible, this]

theorem C34_Dump_string_visible_witness :
    (Dump_string 3 ⟨[65, 9, 127], 0, false⟩).out = [Line.text [65, 94, 73, 94, 191]] :=
  (C34_Dump_string_visible 3 ⟨[65, 9, 127], 0, false⟩).1.trans (by decide)

/-! ## C35: the OS/2 and Windows NT security descriptor chunks -/

/-- C35: `Dump_extra_OS2_Extended_Attributes` and `Dump_extra_WindowsNT_SD`
with the declared length 4, from a stream with 4 bytes left, write the line of
the uncompressed size only and leave the cursor 4 bytes further; with a
declared length `L` of at least 10 (OS/2), 11 (Windows NT), from a stream with
`L` bytes left, they write the field lines of the whole header (size,
compression type and CRC, with the version after the size for Windows NT) and
leave the cursor exactly `L` bytes further, whether the full-dump option is on
or off. -/
theorem C35_os2_and_nt_sd (cfg : Config) (L : Nat) (s : Stream) :
    (4 ≤ s.rest.length →
      Dump_extra_OS2_Extended_Attributes cfg 4 s =
        ⟨(), Print_fmt Fmt.ux "uncompressed EA data size" 4 (le (s.rest.take 4)), s.adv 4⟩ ∧
      Dump_extra_WindowsNT_SD cfg 4 s =
        ⟨(), Print_fmt Fmt.ux "uncompressed SD data size" 4 (le (s.rest.take 4)), s.adv 4⟩) ∧
    (10 ≤ L → L ≤ s.rest.length →
      fields (Dump_extra_OS2_Extended_Attributes cfg L s).out =
        [("uncompressed EA data size", 4, le (s.rest.take 4)),
         ("compression type", 2, le ((s.rest.drop 4).take 2)),
         ("CRC", 4, le ((s.rest.drop 6).take 4))] ∧
      (Dump_extra_OS2_Extended_Attributes cfg L s).fin.pos = s.pos + L ∧
      (Dump_extra_OS2_Extended_Attributes cfg L s).fin.data = s.data) ∧
    (11 ≤ L → L ≤ s.rest.length →
      fields (Dump_extra_WindowsNT_SD cfg L s).out =
        [("uncompressed SD data size", 4, le (s.rest.take 4)),
         ("version", 1, le ((s.rest.drop 4).take 1)),
         ("compression type", 2, le ((s.rest.drop 5).take 2)),
         ("crc", 4, le ((s.rest.drop 7).take 4))] ∧
      (Dump_extra_WindowsNT_SD cfg L s).fin.pos = s.pos + L ∧
      (Dump_extra_WindowsNT_SD cfg L s).fin.data = s.data) := by
  refine ⟨?_, ?_, ?_⟩
  · intro h4
    have h : (4 : Nat) ≤ 4 := Nat.le_refl 4
    constructor
    · unfold Dump_extra_OS2_Extended_Attributes
      simp (disch := omega) only [DUMP4_bind, if_pos h, pure_run, Res.after, List.append_nil]
    · unfold Dump_extra_WindowsNT_SD
      simp (disch := omega) only [DUMP4_bind, if_pos h, pure_run, Res.after, List.append_nil]
  · intro h10 hL
    have h1 : ¬ L ≤ 4 := by omega
    have hk := keeps_Dump_extra_OS2_Extended_Attributes cfg L s
    have e : Dump_extra_OS2_Extended_Attributes cfg L s =
        ((if L > 10 then
            (Dump_if_fulldump cfg "compressed EA data" (L - 10) (s.adv 10)).after
              [Line.puts "compressed EA data:"]
          else ⟨(), [], s.adv 10⟩).after
          (Print_fmt Fmt.ux "uncompressed EA data size" 4 (le (s.rest.take 4)) ++
            (Print_fmt Fmt.u "compression type" 2 (le ((s.rest.drop 4).take 2)) ++
              Print_fmt Fmt.x "CRC" 4 (le ((s.rest.drop 6).take 4))))) := by
      unfold Dump_extra_OS2_Extended_Attributes
      simp (disch := ((try simp only [rest_adv, List.length_drop, Nat.reduceAdd]); omega)) only
        [DUMP4_bind, DUMP2_bind, if_neg h1, adv_adv, rest_adv, Nat.reduceAdd, List.drop_drop,
         after_after, dump_ite, say_bind, pure_run]
    have hd := Dump_if_fulldump_run cfg "compressed EA data" (L - 10) (s.adv 10)
      (by simp only [rest_adv, List.length_drop]; omega)
    have hl := Dump_if_fulldump_lines cfg "compressed EA data" (L - 10) (s.adv 10)
    refine ⟨?_, ?_, hk.1⟩
    · rw [e]
      by_cases hg : L > 10
      · have hp : ∀ (t : String) (l : List Line), fields (Line.puts t :: l) = fields l :=
          fun _ _ => rfl
        simp only [if_pos hg, Res.after, fields_append, fields_Print_fmt, hl.2.2.1, hp,
          List.append_nil, List.nil_append, List.cons_append]
      · simp only [if_neg hg, Res.after, fields_append, fields_Print_fmt, fields_nil,
          List.append_nil, List.nil_append, List.cons_append]
    · rw [e]
      by_cases hg : L > 10
      · rw [if_pos hg, hd]
        simp only [Res.after, withEof_pos, adv_pos]
        omega
      · rw [if_neg hg]
        simp only [Res.after, adv_pos]
        omega
  · intro h11 hL
    have h1 : ¬ L ≤ 4 := by omega
    have hk := keeps_Dump_extra_WindowsNT_SD cfg L s
    have e : Dump_extra_WindowsNT_SD cfg L s =
        ((if L > 11 then
            (Dump_if_fulldump cfg "compressed SD data" (L - 11) (s.adv 11)).after
              [Line.puts "compressed SD data:"]
          else ⟨(), [], s.adv 11⟩).after
          (Print_fmt Fmt.ux "uncompressed SD data size" 4 (le (s.rest.take 4)) ++
            (Print_fmt Fmt.u "version" 1 (le ((s.rest.drop 4).take 1)) ++
              (Print_fmt Fmt.u "compression type" 2 (le ((s.rest.drop 5).take 2)) ++
                Print_fmt Fmt.x "crc" 4 (le ((s.rest.drop 7).take 4)))))) := by
      unfold Dump_extra_WindowsNT_SD
      simp (disch := ((try simp only [rest_adv, List.length_drop, Nat.reduceAdd]); omega)) only
        [DUMP4_bind, DUMP2_bind, DUMP1_bind, if_neg h1, adv_adv, rest_adv, Nat.reduceAdd,
         List.drop_drop, after_after, dump_ite, say_bind, pure_run]
    have hd := Dump_if_fulldump_run cfg "compressed SD data" (L - 11) (s.adv 11)
      (by simp only [rest_adv, List.length_drop]; omega)
    have hl := Dump_if_fulldump_lines cfg "compressed SD data" (L - 11) (s.adv 11)
    refine ⟨?_, ?_, hk.1⟩
    · rw [e]
      by_cases hg : L > 11
      · have hp : ∀ (t : String) (l : List Line), fields (Line.puts t :: l) = fields l :=
          fun _ _ => rfl
        simp only [if_pos hg, Res.after, fields_append, fields_Print_fmt, hl.2.2.1, hp,
          List.append_nil, List.nil_append, List.cons_append]
      · simp only [if_neg hg, Res.after, fields_append, fields_Print_fmt, fields_nil,
          List.append_nil, List.nil_append, List.cons_append]
    · rw [e]
      by_cases hg : L > 11
      · rw [if_pos hg, hd]
        simp only [Res.after, withEof_pos, adv_pos]
        omega
      · rw [if_neg hg]
        simp only [Res.after, adv_pos]
        omega

/-- C35 witness: an OS/2 chunk of 10 declared bytes, followed by two more
bytes. -/
theorem C35_os2_and_nt_sd_witness :
    (10 ≤ 10 ∧ 10 ≤ (Stream.rest ⟨[1, 0, 0, 0, 2, 0, 3, 0, 0, 0, 9, 9], 0, false⟩).length) ∧
    (Dump_extra_OS2_Extended_Attributes optionsOff 10
      ⟨[1, 0, 0, 0, 2, 0, 3, 0, 0, 0, 9, 9], 0, false⟩).fin.pos = 10 :=
  ⟨⟨by decide, by decide⟩,
   ((C35_os2_and_nt_sd optionsOff 10 ⟨[1, 0, 0, 0, 2, 0, 3, 0, 0, 0, 9, 9], 0, false⟩).2.1
      (by decide) (by decide)).2.1⟩

/-! ## C31: two passes over the same input -/

set_option maxRecDepth 100000 in
theorem stale_flags_clear (fd q om : Bool) :
    skips (ZipDumpFile ⟨fd, q, om, 0⟩ sampleStaleFlags).out = [4] := by
  cases fd <;> cases q <;> cases om <;> decide

set_option maxRecDepth 100000 in
theorem stale_flags_set (fd q om : Bool) :
    skips (ZipDumpFile ⟨fd, q, om, 1⟩ sampleStaleFlags).out = [] := by
  cases fd <;> cases q <;> cases om <;> decide

theorem SkipUnknownData_stale (fd q om : Bool) (u1 u2 : Nat) :
    SkipUnknownData ⟨fd, q, om, u1⟩ = SkipUnknownData ⟨fd, q, om, u2⟩ := by
  funext n
  unfold SkipUnknownData
  rw [Dump_bytes_mode ⟨fd, q, om, u1⟩ ⟨fd, q, om, u2⟩ rfl]

theorem DUMP4x_stale (fd q om : Bool) (u1 u2 : Nat) :
    DUMP4x ⟨fd, q, om, u1⟩ = DUMP4x ⟨fd, q, om, u2⟩ := rfl

/-- C31: the output of a pass depends on the value the uninitialised local
`flags` of `Dump_extra_ExtendedTimestamp` happens to hold.  When the flags byte
is in the stream the decoder does not look at that value; on the archive extra
data record cut after the header of an extended timestamp chunk of 5 declared
bytes, the pass reports 4 bytes of unknown data when bit 0 of the stale value
is clear and nothing when it is set, for every setting of the options, so two
passes over this input whose stale values differ write different output. -/
theorem C31_stale_flags (fd q om : Bool) (u1 u2 L : Nat) (s : Stream) :
    (1 ≤ s.rest.length →
      Dump_extra_ExtendedTimestamp ⟨fd, q, om, u1⟩ L s =
        Dump_extra_ExtendedTimestamp ⟨fd, q, om, u2⟩ L s) ∧
    skips (ZipDumpFile ⟨fd, q, om, 0⟩ sampleStaleFlags).out = [4] ∧
    skips (ZipDumpFile ⟨fd, q, om, 1⟩ sampleStaleFlags).out = [] ∧
    (ZipDumpFile ⟨fd, q, om, 0⟩ sampleStaleFlags).out ≠
      (ZipDumpFile ⟨fd, q, om, 1⟩ sampleStaleFlags).out := by
  have a := stale_flags_clear fd q om
  have b := stale_flags_set fd q om
  refine ⟨?_, a, b, ?_⟩
  · intro h
    unfold Dump_extra_ExtendedTimestamp
    rw [DUMP1_bind _ _ _ _ _ h, DUMP1_bind _ _ _ _ _ h,
      SkipUnknownData_stale fd q om u1 u2, DUMP4x_stale fd q om u1 u2]
  · intro h
    have c := congrArg skips h
    rw [a, b] at c
    cases c

/-- C31 witness: an extended timestamp chunk whose flags byte is present. -/
theorem C31_stale_flags_witness :
    1 ≤ sampleTimestamp.rest.length ∧
    Dump_extra_ExtendedTimestamp ⟨false, false, false, 0⟩ 10 sampleTimestamp =
      Dump_extra_ExtendedTimestamp ⟨false, false, false, 1⟩ 10 sampleTimestamp :=
  ⟨by decide, (C31_stale_flags false false false 0 1 10 sampleTimestamp).1 (by decide)⟩

/-! ## C40: an anchor with fewer than two bytes after it -/

theorem hitEof_at (s : Stream) (k : Nat) (e : Bool) (hk : k ≤ s.rest.length) :
    Stream.hitEof ⟨s.data, s.pos + k, e⟩ = ⟨s.data, s.pos + s.rest.length, true⟩ := by
  have hr := rest_at s k e
  unfold Stream.hitEof
  rw [hr]
  simp only [List.length_drop, Stream.mk.injEq, true_and, and_true]
  omega

/-- C40: when the turn of the walker starts at a cursor from which the first
anchor `P`, `K` lies `k` bytes further and at most one byte follows it, the
read of the signature fails and takes the 2 or 3 bytes from the anchor on,
the loop ends at the next turn with every byte consumed, and the output is
the report of the `k` bytes before the anchor as unknown data (nothing when
`k = 0`): no section line, no field line, and unknown-data sizes that sum
to `k`, which is 2 or 3 less than the number of bytes consumed. -/
theorem C40_trailing_partial_signature (cfg : Config) (f : Nat) (w : Walker) (s : Stream) (k : Nat)
    (h : firstPK s.rest k) (ht : s.rest.length ≤ k + 3) :
    Read32 w.signature ⟨s.data, s.pos + k, false⟩ =
      ⟨(false, w.signature), [], ⟨s.data, s.pos + s.rest.length, true⟩⟩ ∧
    (ZipDumpFile_loop cfg (f + 2) w s).val = true ∧
    (ZipDumpFile_loop cfg (f + 2) w s).fin = ⟨s.data, s.pos + s.rest.length, true⟩ ∧
    (ZipDumpFile_loop cfg (f + 2) w s).out =
      (if k = 0 then [] else (SkipUnknownData cfg k ⟨s.data, s.pos, false⟩).out) ∧
    sections (ZipDumpFile_loop cfg (f + 2) w s).out = [] ∧
    fields (ZipDumpFile_loop cfg (f + 2) w s).out = [] ∧
    skips (ZipDumpFile_loop cfg (f + 2) w s).out = (if k = 0 then [] else [k]) ∧
    (k + 2 = s.rest.length ∨ k + 3 = s.rest.length) := by
  have hlen : k + 2 ≤ s.rest.length := by
    have h1 := h.1.2
    rcases Nat.lt_or_ge (k + 1) s.rest.length with h2 | h2
    · omega
    · rw [List.getElem?_eq_none h2] at h1
      cases h1
  have h1 := SkipToNextPK_found cfg s k h
  have hr : (⟨s.data, s.pos + k, false⟩ : Stream).rest.length < 4 := by
    rw [rest_at s k false, List.length_drop]; omega
  have hE := hitEof_at s k false (by omega)
  have e1 := ZipDumpFile_turn_go cfg w s _ _ h1
  rw [ZipDumpFile_body_short cfg w _ hr, hE] at e1
  have hv : (ZipDumpFile_turn cfg w s).val = some w := by rw [e1]
  have hn : (⟨s.data, s.pos + s.rest.length, true⟩ : Stream).rest = [] := by
    rw [rest_at s _ true]; simp
  have e2 := ZipDumpFile_turn_end cfg w ⟨s.data, s.pos + s.rest.length, true⟩ hn
  rw [hitEof_nil _ hn] at e2
  have hv2 : (ZipDumpFile_turn cfg w ⟨s.data, s.pos + s.rest.length, true⟩).val = none := by
    rw [e2]
  have eL : ZipDumpFile_loop cfg (f + 2) w s =
      ⟨true, if k = 0 then [] else (SkipUnknownData cfg k ⟨s.data, s.pos, false⟩).out,
        ⟨s.data, s.pos + s.rest.length, true⟩⟩ := by
    rw [show f + 2 = (f + 1) + 1 from rfl, ZipDumpFile_loop_step cfg (f + 1) w w s hv, e1]
    simp only []
    rw [ZipDumpFile_loop_stop cfg f w _ hv2, e2]
    simp [Res.after]
  have hp := outAll_SkipUnknownData (fun l => l.plain = true) (fun _ hl => hl) cfg k
    ⟨s.data, s.pos, false⟩
  refine ⟨?_, ?_, ?_, ?_, ?_, ?_, ?_, by omega⟩
  · rw [Read32_fail _ _ hr, hE]
  · rw [eL]
  · rw [eL]
  · rw [eL]
  · rw [eL]
    by_cases hk : k = 0
    · simp only [if_pos hk, sections_nil]
    · simp only [if_neg hk]
      exact sections_plain _ hp
  · rw [eL]
    by_cases hk : k = 0
    · simp only [if_pos hk, fields_nil]
    · simp only [if_neg hk]
      exact SkipUnknownData_fields cfg k _
  · rw [eL]
    by_cases hk : k = 0
    · simp only [if_pos hk, skips_nil]
    · simp only [if_neg hk]
      exact SkipUnknownData_skips cfg k _

set_option maxRecDepth 100000 in
/-- C40 witness: one byte, an anchor, one more byte. -/
theorem C40_trailing_partial_signature_witness :
    firstPK (Stream.rest ⟨[1, 80, 75, 9], 0, false⟩) 1 ∧
    (ZipDumpFile_loop optionsOff 2 ⟨0, 0, 0⟩ ⟨[1, 80, 75, 9], 0, false⟩).out =
      [Line.skipUnknown 1] ∧
    (ZipDumpFile_loop optionsOff 2 ⟨0, 0, 0⟩ ⟨[1, 80, 75, 9], 0, false⟩).fin =
      ⟨[1, 80, 75, 9], 4, true⟩ :=
  ⟨by decide,
   (C40_trailing_partial_signature optionsOff 0 ⟨0, 0, 0⟩ ⟨[1, 80, 75, 9], 0, false⟩ 1
      (by decide) (by decide)).2.2.2.1.trans (by decide),
   (C40_trailing_partial_signature optionsOff 0 ⟨0, 0, 0⟩ ⟨[1, 80, 75, 9], 0, false⟩ 1
      (by decide) (by decide)).2.2.1⟩

set_option maxRecDepth 100000 in
/-- C40 counterexample: the file of an end of central directory record whose
comment is `PK` ends with an anchor followed by no byte; the pass shows these
two bytes as the text of the comment, the record decoder having consumed them,
and no read of a signature fails on them: the first turn leaves the cursor at
the end of the file with the end-of-file indicator clear.  Likewise the file
`PKPK` ends with an anchor, and its last two bytes are shown in the header of
an unknown record, as the upper half of its signature. -/
theorem C40_comment_counterexample :
    sampleCommentPK.drop 22 = [80, 75] ∧
    sections (ZipDumpFile optionsOff ⟨sampleCommentPK, 0, false⟩).out =
      ["End of central directory record", ".ZIP file comment"] ∧
    texts (ZipDumpFile optionsOff ⟨sampleCommentPK, 0, false⟩).out = [[80, 75]] ∧
    skips (ZipDumpFile optionsOff ⟨sampleCommentPK, 0, false⟩).out = [] ∧
    (ZipDumpFile_turn optionsOff ⟨0, 0, 0⟩ ⟨sampleCommentPK, 0, false⟩).fin =
      ⟨sampleCommentPK, 24, false⟩ ∧
    (ZipDumpFile optionsOff ⟨[80, 75, 80, 75], 0, false⟩).out =
      [Line.sect "!! Unknown record" none (some 0),
       Line.field "header signature" 4 0x4b504b50 Shown.hex] := by
  decide

/-! ## C37: the loop of `Dump_extra_NTFS` runs to the end of the file -/

/-- With fewer than four bytes left, the read of the header of an NTFS
attribute, `Read16(fin, tag) && Read16(fin, size)`, fails. -/
theorem NTFS_header_fails (T : Stream) (h4 : T.rest.length < 4) :
    ((Read16 0 T).val.1 && (Read16 0 (Read16 0 T).fin).val.1) = false := by
  by_cases h2 : 2 ≤ T.rest.length
  · rw [Read16_ok 0 T h2,
      Read16_fail 0 (T.adv 2) (by simp only [rest_adv, List.length_drop]; omega)]
    rfl
  · rw [Read16_fail 0 T (by omega)]
    rfl

/-- The loop of `Dump_extra_NTFS` ends in the state left by a failed read of an
attribute header. -/
theorem NTFS_loop_drains (cfg : Config) :
    ∀ (n eo : Nat) (s : Stream), s.rest.length ≤ n →
      ∃ T : Stream, T.data = s.data ∧ T.rest.length < 4 ∧
        (Dump_extra_NTFS_loop cfg (n + 1) eo s).fin = T.hitEof := by
  intro n
  induction n with
  | zero =>
    intro eo s h
    exact ⟨s, rfl, by omega, by rw [NTFS_loop_short cfg 0 eo s (by omega)]⟩
  | succ m ih =>
    intro eo s h
    by_cases h4 : s.rest.length < 4
    · exact ⟨s, rfl, h4, by rw [NTFS_loop_short cfg (m + 1) eo s h4]⟩
    · obtain ⟨O, T, eo1, hd, hp, hT⟩ := NTFS_loop_turn cfg eo s (by omega)
      have hl := rest_length_four s T hd hp (by omega)
      obtain ⟨T2, g1, g2, g3⟩ := ih eo1 T (by omega)
      refine ⟨T2, g1.trans hd, g2, ?_⟩
      rw [hT (m + 1)]
      exact g3

theorem rest_nil_pos (s : Stream) (h : s.rest = []) : s.data.length ≤ s.pos := by
  unfold Stream.rest at h
  exact List.drop_eq_nil_iff.mp h

/-- From the end of the file a turn of the loop of `Dump_extra_field` reads no
chunk header: the loop writes nothing. -/
theorem Dump_extra_field_loop_dry (cfg : Config) (L fuel offset : Nat) (s : Stream)
    (h : s.rest = []) :
    (Dump_extra_field_loop cfg L fuel offset s).out = [] ∧
    (Dump_extra_field_loop cfg L fuel offset s).fin.rest = [] := by
  cases fuel with
  | zero => exact ⟨rfl, h⟩
  | succ f =>
    by_cases ho : offset < L
    · rw [Dump_extra_field_loop_short cfg L f offset s ho (by simp [h])]
      exact ⟨rfl, rest_hitEof s⟩
    · rw [Dump_extra_field_loop_done cfg L _ offset s (by omega)]
      exact ⟨rfl, h⟩

/-- The decoder `Dump_extra_NTFS` leaves no byte of the stream unread. -/
theorem Dump_extra_NTFS_drains (cfg : Config) (L : Nat) (s : Stream) :
    (Dump_extra_NTFS cfg L s).fin.rest = [] := by
  obtain ⟨T, g1, g2, g3⟩ := NTFS_loop_drains cfg (DUMP4 "reserved" 0 Fmt.x s).fin.rest.length
    4 (DUMP4 "reserved" 0 Fmt.x s).fin (Nat.le_refl _)
  have e : (Dump_extra_NTFS cfg L s).fin =
      (if L > (Dump_extra_NTFS_loop cfg ((DUMP4 "reserved" 0 Fmt.x s).fin.rest.length + 1) 4
          (DUMP4 "reserved" 0 Fmt.x s).fin).val then
        (SkipUnknownData cfg (L - (Dump_extra_NTFS_loop cfg
          ((DUMP4 "reserved" 0 Fmt.x s).fin.rest.length + 1) 4
          (DUMP4 "reserved" 0 Fmt.x s).fin).val) T.hitEof).fin
       else T.hitEof) := by
    unfold Dump_extra_NTFS
    simp only [bind_run]
    rw [g3]
    split_ifs <;> rfl
  rw [e]
  split_ifs
  · exact keeps_rest_nil _ (keeps_SkipUnknownData cfg _) _ (rest_hitEof T)
  · exact rest_hitEof T

/-- C37: for every stream and every declared length, the loop of
`Dump_extra_NTFS` ends in the state left by a failed read of a 4-byte
attribute header (a state `T` with fewer than 4 bytes left, all taken by the
read), so when the function returns no byte of the stream is left unread and
the cursor is at or beyond the end of the stream; and whatever runs between
its return and a later turn of the loop of `Dump_extra_field` or of the walker,
that turn decodes nothing: the loop of `Dump_extra_field` writes no line and
the loop of the walker ends without a line.  The loop of `Dump_extra_NTFS` is
run with one turn more than bytes are left; further turns change nothing. -/
theorem C37_ntfs_runs_to_the_end (cfg : Config) (L : Nat) (s : Stream) :
    (∃ (T : Stream) (eo : Nat), T.data = s.data ∧ T.rest.length < 4 ∧
      ((Read16 0 T).val.1 && (Read16 0 (Read16 0 T).fin).val.1) = false ∧
      (Dump_extra_NTFS cfg L s).fin =
        (if L > eo then (SkipUnknownData cfg (L - eo) T.hitEof).fin else T.hitEof)) ∧
    (Dump_extra_NTFS cfg L s).fin.rest = [] ∧
    (Dump_extra_NTFS cfg L s).fin.data.length ≤ (Dump_extra_NTFS cfg L s).fin.pos ∧
    (∀ (α : Type) (m : Dump α), Keeps m →
      (∀ L2 fuel offset,
        (Dump_extra_field_loop cfg L2 fuel offset (m (Dump_extra_NTFS cfg L s).fin).fin).out
          = []) ∧
      (∀ f w,
        (ZipDumpFile_loop cfg (f + 1) w (m (Dump_extra_NTFS cfg L s).fin).fin).val = true ∧
        (ZipDumpFile_loop cfg (f + 1) w (m (Dump_extra_NTFS cfg L s).fin).fin).out = [])) ∧
    (∀ (t : Stream) (eo g : Nat),
      Dump_extra_NTFS_loop cfg (t.rest.length + 1 + g) eo t =
        Dump_extra_NTFS_loop cfg (t.rest.length + 1) eo t) := by
  have hA : ∃ (T : Stream) (eo : Nat), T.data = s.data ∧ T.rest.length < 4 ∧
      ((Read16 0 T).val.1 && (Read16 0 (Read16 0 T).fin).val.1) = false ∧
      (Dump_extra_NTFS cfg L s).fin =
        (if L > eo then (SkipUnknownData cfg (L - eo) T.hitEof).fin else T.hitEof) := by
    have hk := keeps_DUMP4 "reserved" 0 Fmt.x s
    obtain ⟨T, g1, g2, g3⟩ := NTFS_loop_drains cfg (DUMP4 "reserved" 0 Fmt.x s).fin.rest.length
      4 (DUMP4 "reserved" 0 Fmt.x s).fin (Nat.le_refl _)
    refine ⟨T, (Dump_extra_NTFS_loop cfg ((DUMP4 "reserved" 0 Fmt.x s).fin.rest.length + 1) 4
      (DUMP4 "reserved" 0 Fmt.x s).fin).val, g1.trans hk.1, g2, NTFS_header_fails T g2, ?_⟩
    unfold Dump_extra_NTFS
    simp only [bind_run]
    rw [g3]
    split_ifs <;> rfl
  have hr : (Dump_extra_NTFS cfg L s).fin.rest = [] := by
    obtain ⟨T, eo, _, _, _, g⟩ := hA
    rw [g]
    split_ifs
    · exact keeps_rest_nil _ (keeps_SkipUnknownData cfg _) _ (rest_hitEof T)
    · exact rest_hitEof T
  refine ⟨hA, hr, rest_nil_pos _ hr, ?_,
    fun t eo g => Dump_extra_NTFS_loop_fuel cfg _ eo t (Nat.lt_succ_self _) g⟩
  intro α m hm
  have hr2 := keeps_rest_nil m hm _ hr
  refine ⟨fun L2 fuel offset => (Dump_extra_field_loop_dry cfg L2 fuel offset _ hr2).1, ?_⟩
  intro f w
  have e := ZipDumpFile_turn_end cfg w _ hr2
  have hv : (ZipDumpFile_turn cfg w (m (Dump_extra_NTFS cfg L s).fin).fin).val = none := by
    rw [e]
  rw [ZipDumpFile_loop_stop cfg f w _ hv, e]
  exact ⟨rfl, rfl⟩

/-! ## C38: a Zip64 end of central directory record that declares less than 44 bytes -/

/-- The Zip64 end of central directory record, whatever the stream holds: the
function run on the record size is run with the value of `size` after the
first `DUMP8` (the value read, or the initial 0), from a state of the same
file. -/
theorem Zip64_EOCD_tail (cfg : Config) (K : Nat → Dump Unit) (s : Stream) :
    ∃ (t : Stream) (O : List Line), t.data = s.data ∧
      (52 ≤ s.rest.length → t = s.adv 52) ∧
      (do
        let size ← DUMP8 "size of this record" 0 Fmt.ux
        let _ ← DUMP2x cfg "version made by" 0 Fmt.x Print_version
        let _ ← DUMP2x cfg "version needed to extract" 0 Fmt.x Print_version
        let _ ← DUMP4 "number of this disk" 0 Fmt.u
        let _ ← DUMP4 "disk of starting directory" 0 Fmt.u
        let _ ← DUMP8 "directory-entries on this disk" 0 Fmt.u
        let _ ← DUMP8 "directory-entries in all disks" 0 Fmt.u
        let _ ← DUMP8 "size of the directory" 0 Fmt.ux
        let _ ← DUMP8 "offset of starting directory" 0 Fmt.ux
        say (Print_section cfg "zip64 extensible data sector" (← ftell) (-1))
        K size : Dump Unit) s =
      (K (DUMP8 "size of this record" 0 Fmt.ux s).val t).after O := by
  simp only [bind_after, say_bind, after_after]
  refine ⟨_, _, ?_, ?_, rfl⟩
  · simp only [(keeps_DUMP8 _ _ _ _).1, (keeps_DUMP4 _ _ _ _).1, (keeps_DUMP2x _ _ _ _ _ _).1,
      (keeps_ftell _).1, (keeps_say _ _).1]
  · intro h52
    simp (disch := ((try simp only [rest_adv, List.length_drop, Nat.reduceAdd]); omega)) only
      [DUMP8_ok, DUMP4_ok, DUMP2x_ok, adv_adv, rest_adv, Nat.reduceAdd, ftell_run, say_run]

/-- C38: in a file shorter than `2 ^ 63` bytes, when the value of `size` after
the first `DUMP8` of `Dump_Zip64_end_of_central_directory_record` (the 8 bytes
read, or the initial 0 when fewer than 8 bytes are left) is less than 44, the
length handed to `Dump_bytes`, `(size - 44) mod 2 ^ 64`, is at least
`2 ^ 64 - 44`; `Dump_bytes` is called with it from the state `t` after the
fixed fields (52 bytes further when they are all there), writes the rows of
every byte left in the stream and runs into the end of the file; no byte is
left when the decoder returns, and the loop of the walker then ends without a
further line. -/
theorem C38_zip64_size_underflow (cfg : Config) (s : Stream) (hs : s.data.length < 2 ^ 63)
    (h44 : (DUMP8 "size of this record" 0 Fmt.ux s).val < 44) :
    (8 ≤ s.rest.length →
      (DUMP8 "size of this record" 0 Fmt.ux s).val = le (s.rest.take 8)) ∧
    (s.rest.length < 8 → (DUMP8 "size of this record" 0 Fmt.ux s).val = 0) ∧
    2 ^ 64 - 44 ≤ ((DUMP8 "size of this record" 0 Fmt.ux s).val + 2 ^ 64 - 44) % 2 ^ 64 ∧
    (∃ (t : Stream) (O : List Line), t.data = s.data ∧
      (52 ≤ s.rest.length → t = s.adv 52) ∧
      Dump_Zip64_end_of_central_directory_record cfg s =
        (Dump_bytes cfg
          (((DUMP8 "size of this record" 0 Fmt.ux s).val + 2 ^ 64 - 44) % 2 ^ 64) t).after O ∧
      (Dump_bytes cfg
          (((DUMP8 "size of this record" 0 Fmt.ux s).val + 2 ^ 64 - 44) % 2 ^ 64) t).out =
        expectedRows cfg.gOmitSameHexDumpLine (t.rest.map Fin.val) ∧
      (Dump_bytes cfg
          (((DUMP8 "size of this record" 0 Fmt.ux s).val + 2 ^ 64 - 44) % 2 ^ 64) t).fin =
        t.hitEof) ∧
    (Dump_Zip64_end_of_central_directory_record cfg s).fin.rest = [] ∧
    (∀ f w,
      (ZipDumpFile_loop cfg (f + 1) w
        (Dump_Zip64_end_of_central_directory_record cfg s).fin).val = true ∧
      (ZipDumpFile_loop cfg (f + 1) w
        (Dump_Zip64_end_of_central_directory_record cfg s).fin).out = []) := by
  obtain ⟨n, hn⟩ : ∃ n, n = ((DUMP8 "size of this record" 0 Fmt.ux s).val + 2 ^ 64 - 44) % 2 ^ 64 :=
    ⟨_, rfl⟩
  have hbig : 2 ^ 64 - 44 ≤ n := by omega
  obtain ⟨t, O, hd, h52, hrun⟩ := Zip64_EOCD_tail cfg
    (fun size => Dump_bytes cfg ((size + 2 ^ 64 - 44) % 2 ^ 64)) s
  have hrun2 : Dump_Zip64_end_of_central_directory_record cfg s = (Dump_bytes cfg n t).after O := by
    rw [hn]
    exact (congrFun (Zip64_EOCD_unfold cfg) s).trans hrun
  have hlen : t.rest.length < n := by
    have h1 : t.rest.length ≤ t.data.length := by
      unfold Stream.rest
      rw [List.length_drop]
      omega
    rw [hd] at h1
    omega
  have hfin := Dump_bytes_short cfg n t hlen
  have hout := Dump_bytes_expected cfg n t
  rw [List.take_of_length_le (Nat.le_of_lt hlen)] at hout
  have hr : (Dump_Zip64_end_of_central_directory_record cfg s).fin.rest = [] := by
    rw [hrun2, after_fin, hfin]
    exact rest_hitEof t
  rw [← hn]
  refine ⟨fun h8 => by rw [DUMP8_ok _ _ _ s h8], fun h8 => by rw [DUMP8_fail _ _ _ s h8], hbig,
    ⟨t, O, hd, h52, hrun2, hout, hfin⟩, hr, ?_⟩
  intro f w
  have e := ZipDumpFile_turn_end cfg w _ hr
  have hv : (ZipDumpFile_turn cfg w
      (Dump_Zip64_end_of_central_directory_record cfg s).fin).val = none := by rw [e]
  rw [ZipDumpFile_loop_stop cfg f w _ hv, e]
  exact ⟨rfl, rfl⟩

/-- C38 witness: a record that declares the size 0, followed by a whole end of
central directory record, which is dumped as data sector. -/
theorem C38_zip64_size_underflow_witness :
    sampleZip64Underflow.data.length < 2 ^ 63 ∧
    (DUMP8 "size of this record" 0 Fmt.ux sampleZip64Underflow).val < 44 ∧
    (Dump_Zip64_end_of_central_directory_record optionsOff sampleZip64Underflow).fin.rest = [] :=
  ⟨by decide, by decide,
   (C38_zip64_size_underflow optionsOff sampleZip64Underflow (by decide) (by decide)).2.2.2.2.1⟩

/-! ## C39: where the data descriptor of a local file is read -/

/-- The data descriptor read where the tails leave the stream: for a local file header with the 26 bytes of its fixed block, bit 3
of the flags set and a compressed size `c` other than `0xFFFFFFFF`, let `t` be
the state in which the two tails (file name and extra field) leave the stream.
With `c + 12` bytes left there, `Dump_Local_file` writes the fixed fields, the
tails, the File data section when `c` is not zero, and then the Data descriptor
section at `c` bytes after `t` with the crc-32, the compressed size and the
uncompressed size read from the 12 bytes that start there, whatever they are
(the bytes `PK\x07\x08` are shown as the crc-32 0x08074b50), and leaves the
cursor `c + 12` bytes after `t`.  With `c = 0` no File data section is written
and the 12 bytes are the first 12 after the tails. -/
theorem Dump_Local_file_descriptor_at (cfg : Config) (n : Int) (s t : Stream) (c : Nat)
    (h26 : 26 ≤ s.rest.length)
    (hb : le ((s.rest.drop 2).take 2) &&& 8 ≠ 0)
    (hcs : c = le ((s.rest.drop 14).take 4))
    (hc : c ≠ 0xFFFFFFFF)
    (ht : t = (Dump_Local_file_tails cfg n (le ((s.rest.drop 22).take 2))
      (le ((s.rest.drop 24).take 2)) (s.adv 26)).fin)
    (h12 : c + 12 ≤ t.rest.length) :
    (∃ fixed : List Line,
      (Dump_Local_file cfg n s).out =
        fixed ++
        ((Dump_Local_file_tails cfg n (le ((s.rest.drop 22).take 2))
            (le ((s.rest.drop 24).take 2)) (s.adv 26)).out ++
        ((if c ≠ 0 then
            Print_section cfg "File data" t.pos n ++ (Dump_if_fulldump cfg "file data" c t).out
          else []) ++
         (Print_section cfg "Data descriptor" (t.pos + c) n ++
           (Print_fmt Fmt.x "crc-32" 4 (le ((t.rest.drop c).take 4)) ++
           (Print_fmt Fmt.ux "compressed size" 4 (le ((t.rest.drop (c + 4)).take 4)) ++
            Print_fmt Fmt.ux "uncompressed size" 4 (le ((t.rest.drop (c + 8)).take 4))))))) ∧
      sections fixed = [] ∧
      fields fixed =
        [("version needed to extract", 2, le (s.rest.take 2)),
         ("general purpose bit flag", 2, le ((s.rest.drop 2).take 2)),
         ("compression method", 2, le ((s.rest.drop 4).take 2)),
         ("last mod file time", 2, le ((s.rest.drop 6).take 2)),
         ("last mod file date", 2, le ((s.rest.drop 8).take 2)),
         ("crc-32", 4, le ((s.rest.drop 10).take 4)),
         ("compressed size", 4, le ((s.rest.drop 14).take 4)),
         ("uncompressed size", 4, le ((s.rest.drop 18).take 4)),
         ("file name length", 2, le ((s.rest.drop 22).take 2)),
         ("extra field length", 2, le ((s.rest.drop 24).take 2))]) ∧
    (Dump_Local_file cfg n s).fin.pos = t.pos + c + 12 ∧
    (Dump_Local_file cfg n s).fin.data = s.data ∧
    ((t.rest.drop c).take 4 = [80, 75, 7, 8] → le ((t.rest.drop c).take 4) = 0x08074b50) ∧
    (c = 0 →
      (t.rest.drop c).take 4 = t.rest.take 4 ∧
      (t.rest.drop (c + 4)).take 4 = (t.rest.drop 4).take 4 ∧
      (t.rest.drop (c + 8)).take 4 = (t.rest.drop 8).take 4 ∧
      (Dump_Local_file_data cfg n (le ((s.rest.drop 2).take 2)) c t).out =
        Print_section cfg "Data descriptor" t.pos n ++
          (Print_fmt Fmt.x "crc-32" 4 (le (t.rest.take 4)) ++
          (Print_fmt Fmt.ux "compressed size" 4 (le ((t.rest.drop 4).take 4)) ++
           Print_fmt Fmt.ux "uncompressed size" 4 (le ((t.rest.drop 8).take 4))))) := by
  obtain ⟨fixed, hrun, hs, _, _, hf⟩ := Dump_Local_file_fixed cfg n s h26
  have hd := Dump_Local_file_data_run cfg n (le ((s.rest.drop 2).take 2)) c t hc h12
  rw [if_pos hb, if_pos hb] at hd
  have hrun2 : Dump_Local_file cfg n s =
      ((Dump_Local_file_data cfg n (le ((s.rest.drop 2).take 2)) c t).after
        (Dump_Local_file_tails cfg n (le ((s.rest.drop 22).take 2))
          (le ((s.rest.drop 24).take 2)) (s.adv 26)).out).after fixed := by
    rw [hrun, bind_after, ← ht, ← hcs]
  refine ⟨⟨fixed, ?_, hs, hf⟩, ?_, (keeps_Dump_Local_file cfg n s).1, ?_, ?_⟩
  · rw [hrun2, after_out, after_out, hd]
  · rw [hrun2, after_fin, after_fin, hd]
    simp only [withEof_pos, adv_pos]
    omega
  · intro h
    rw [h]
    decide
  · intro h0
    subst h0
    refine ⟨rfl, by rw [Nat.zero_add], by rw [Nat.zero_add], ?_⟩
    rw [hd]
    have h00 : ¬ ((0 : Nat) ≠ 0) := fun h => h rfl
    simp only [if_neg h00, List.nil_append, Nat.add_zero, Nat.zero_add, List.drop_zero]

/-- C39, amended: for a local file header with the 26 bytes of its fixed
block, bit 3 of the flags set, a compressed size `c` other than `0xFFFFFFFF`,
name length `nl` and extra length `ml`, when the bytes of both tails and
`c + 12` more are in the file and `Dump_extra_field` consumes exactly the `ml`
bytes of its area, `Dump_Local_file` writes the fixed fields, the tails, the
File data section when `c` is not zero, and then the Data descriptor section
at `c` bytes after the end of the extra-field tail, which is `26 + nl + ml`
bytes after the fixed block begins, with the crc-32, the compressed size and
the uncompressed size read from the 12 bytes that start there, whatever they
are (the bytes `PK\x07\x08` are shown as the crc-32 0x08074b50), and leaves
the cursor `c + 12` bytes after the end of the extra-field tail.  With `c = 0`
no File data section is written and the 12 bytes are the first 12 after the
extra-field tail. -/
theorem C39_inline_data_descriptor (cfg : Config) (n : Int) (s : Stream) (c nl ml : Nat)
    (h26 : 26 ≤ s.rest.length)
    (hb : le ((s.rest.drop 2).take 2) &&& 8 ≠ 0)
    (hcs : c = le ((s.rest.drop 14).take 4))
    (hc : c ≠ 0xFFFFFFFF)
    (hnl : nl = le ((s.rest.drop 22).take 2))
    (hml : ml = le ((s.rest.drop 24).take 2))
    (htot : 26 + nl + ml + c + 12 ≤ s.rest.length)
    (hE : ml ≠ 0 → (Dump_extra_field cfg ml (s.adv (26 + nl))).fin.pos = s.pos + 26 + nl + ml) :
    (∃ fixed : List Line,
      (Dump_Local_file cfg n s).out =
        fixed ++
        (((if nl ≠ 0 then
            Print_section cfg "Local file name" (s.pos + 26) n ++
              [Line.text (visibleText ((s.rest.drop 26).take nl))]
           else []) ++
          (if ml ≠ 0 then
            Print_section cfg "Local extra field" (s.pos + 26 + nl) n ++
              (Dump_extra_field cfg ml (s.adv (26 + nl))).out
           else [])) ++
        ((if c ≠ 0 then
            Print_section cfg "File data" (s.pos + 26 + nl + ml) n ++
              (Dump_if_fulldump cfg "file data" c
                (Dump_Local_file_tails cfg n nl ml (s.adv 26)).fin).out
          else []) ++
         (Print_section cfg "Data descriptor" (s.pos + 26 + nl + ml + c) n ++
           (Print_fmt Fmt.x "crc-32" 4 (le (((s.rest.drop (26 + nl + ml)).drop c).take 4)) ++
           (Print_fmt Fmt.ux "compressed size" 4
              (le (((s.rest.drop (26 + nl + ml)).drop (c + 4)).take 4)) ++
            Print_fmt Fmt.ux "uncompressed size" 4
              (le (((s.rest.drop (26 + nl + ml)).drop (c + 8)).take 4))))))) ∧
      sections fixed = [] ∧
      fields fixed =
        [("version needed to extract", 2, le (s.rest.take 2)),
         ("general purpose bit flag", 2, le ((s.rest.drop 2).take 2)),
         ("compression method", 2, le ((s.rest.drop 4).take 2)),
         ("last mod file time", 2, le ((s.rest.drop 6).take 2)),
         ("last mod file date", 2, le ((s.rest.drop 8).take 2)),
         ("crc-32", 4, le ((s.rest.drop 10).take 4)),
         ("compressed size", 4, le ((s.rest.drop 14).take 4)),
         ("uncompressed size", 4, le ((s.rest.drop 18).take 4)),
         ("file name length", 2, le ((s.rest.drop 22).take 2)),
         ("extra field length", 2, le ((s.rest.drop 24).take 2))]) ∧
    (Dump_Local_file_tails cfg n nl ml (s.adv 26)).fin.pos = s.pos + 26 + nl + ml ∧
    (Dump_Local_file cfg n s).fin.pos = s.pos + 26 + nl + ml + c + 12 ∧
    (Dump_Local_file cfg n s).fin.data = s.data ∧
    (((s.rest.drop (26 + nl + ml)).drop c).take 4 = [80, 75, 7, 8] →
      le (((s.rest.drop (26 + nl + ml)).drop c).take 4) = 0x08074b50) ∧
    (c = 0 →
      ((s.rest.drop (26 + nl + ml)).drop c).take 4 = (s.rest.drop (26 + nl + ml)).take 4 ∧
      ((s.rest.drop (26 + nl + ml)).drop (c + 4)).take 4 =
        ((s.rest.drop (26 + nl + ml)).drop 4).take 4 ∧
      ((s.rest.drop (26 + nl + ml)).drop (c + 8)).take 4 =
        ((s.rest.drop (26 + nl + ml)).drop 8).take 4 ∧
      sections (Dump_Local_file cfg n s).out =
        (if nl ≠ 0 then ["Local file name"] else []) ++
        (if ml ≠ 0 then ["Local extra field"] else []) ++ ["Data descriptor"]) := by
  subst hnl hml
  have hE1 : le ((s.rest.drop 24).take 2) ≠ 0 →
      (Dump_extra_field cfg (le ((s.rest.drop 24).take 2))
        ((s.adv 26).adv (le ((s.rest.drop 22).take 2)))).fin.pos
      = (s.adv 26).pos + le ((s.rest.drop 22).take 2) + le ((s.rest.drop 24).take 2) := by
    intro h
    simpa [Nat.add_assoc] using hE h
  have hT := Dump_Local_file_tails_run cfg n (le ((s.rest.drop 22).take 2))
    (le ((s.rest.drop 24).take 2)) (s.adv 26)
    (by simp only [rest_adv, List.length_drop]; omega) hE1
  have hp : (Dump_Local_file_tails cfg n (le ((s.rest.drop 22).take 2))
      (le ((s.rest.drop 24).take 2)) (s.adv 26)).fin.pos =
      s.pos + 26 + le ((s.rest.drop 22).take 2) + le ((s.rest.drop 24).take 2) := by
    rw [hT]
    simp only [withEof_pos, adv_pos]
    omega
  have hr : (Dump_Local_file_tails cfg n (le ((s.rest.drop 22).take 2))
      (le ((s.rest.drop 24).take 2)) (s.adv 26)).fin.rest =
      s.rest.drop (26 + le ((s.rest.drop 22).take 2) + le ((s.rest.drop 24).take 2)) := by
    rw [hT]
    simp only [withEof_rest, rest_adv, List.drop_drop]
    congr 1
    omega
  have ho : (Dump_Local_file_tails cfg n (le ((s.rest.drop 22).take 2))
      (le ((s.rest.drop 24).take 2)) (s.adv 26)).out =
      (if le ((s.rest.drop 22).take 2) ≠ 0 then
          Print_section cfg "Local file name" (s.pos + 26) n ++
            [Line.text (visibleText ((s.rest.drop 26).take (le ((s.rest.drop 22).take 2))))]
         else []) ++
        (if le ((s.rest.drop 24).take 2) ≠ 0 then
          Print_section cfg "Local extra field" (s.pos + 26 + le ((s.rest.drop 22).take 2)) n ++
            (Dump_extra_field cfg (le ((s.rest.drop 24).take 2))
              (s.adv (26 + le ((s.rest.drop 22).take 2)))).out
         else []) := by
    rw [hT]
    simp only [adv_pos, rest_adv, adv_adv]
  obtain ⟨⟨fixed, hout, hs, hf⟩, hpos, hdata, hpk, h0⟩ :=
    Dump_Local_file_descriptor_at cfg n s _ c h26 hb hcs hc rfl
      (by rw [hr]; simp only [List.length_drop]; omega)
  rw [hp, hr] at hout
  rw [hr] at hpk h0
  rw [hp] at hpos
  rw [ho] at hout
  refine ⟨⟨fixed, hout, hs, hf⟩, hp, hpos, hdata, hpk, ?_⟩
  intro hc0
  obtain ⟨a1, a2, a3, _⟩ := h0 hc0
  refine ⟨a1, a2, a3, ?_⟩
  have hsx : ∀ s1, sections (Dump_extra_field cfg (le ((s.rest.drop 24).take 2)) s1).out = [] :=
    fun s1 => sections_plain _
      (outAll_Dump_extra_field (fun l => l.plain = true) (fun _ h => h) cfg _ s1)
  rw [hout]
  have h00 : ¬ (c ≠ 0) := fun h => h hc0
  have sP : ∀ (nm : String) (o : Nat), sections (Print_section cfg nm o n) = [nm] := by
    intro nm o
    simp [sections, Print_section]
  have sF : ∀ (f : Fmt) (lb : String) (k v : Nat), sections (Print_fmt f lb k v) = [] := by
    intro f lb k v
    cases f
    · simp [sections, Print_fmt, Print_u]
    · simp [sections, Print_fmt, Print_x]
    · simp [sections, Print_fmt, Print_ux]
    · simp only [Print_fmt, Print_uFF, Print_u, Print_x]
      split_ifs <;> simp [sections]
  have sT : ∀ cs : List Nat, sections [Line.text cs] = [] := fun _ => rfl
  clear hout hT hE hE1 ho hp hr hpos hf hpk h0 htot a1 a2 a3
  by_cases h1 : le ((s.rest.drop 22).take 2) = 0 <;>
    by_cases h2 : le ((s.rest.drop 24).take 2) = 0 <;>
    simp only [h1, h2, h00, ne_eq, not_true_eq_false, not_false_eq_true, if_true, if_false,
      ite_true, ite_false, sections_append, hs, hsx, sP, sF, sT, List.nil_append, List.append_nil,
      List.append_assoc]

set_option maxRecDepth 100000 in
/-- C39 witness: a streamed entry whose header sizes are zero, with a one-byte
name and an extra field of one empty chunk, which its decoder consumes
exactly; the first 12 bytes of the file data, `KLMN` and the numbers 1 and 2,
are shown as the descriptor, at 35, where the extra-field tail ends. -/
theorem C39_inline_data_descriptor_witness :
    26 ≤ sampleStreamed.rest.length ∧
    le ((sampleStreamed.rest.drop 2).take 2) &&& 8 ≠ 0 ∧
    (0 : Nat) = le ((sampleStreamed.rest.drop 14).take 4) ∧
    (1 : Nat) = le ((sampleStreamed.rest.drop 22).take 2) ∧
    (4 : Nat) = le ((sampleStreamed.rest.drop 24).take 2) ∧
    26 + 1 + 4 + 0 + 12 ≤ sampleStreamed.rest.length ∧
    (Dump_extra_field optionsOff 4 (sampleStreamed.adv (26 + 1))).fin.pos =
      sampleStreamed.pos + 26 + 1 + 4 ∧
    (Dump_Local_file optionsOff 1 sampleStreamed).fin.pos = 4 + 26 + 1 + 4 + 0 + 12 ∧
    sections (Dump_Local_file optionsOff 1 sampleStreamed).out =
      ["Local file name", "Local extra field", "Data descriptor"] ∧
    (Dump_Local_file optionsOff 1 sampleStreamed).out.drop 20 =
      [Line.sect "Data descriptor" (some 1) (some 35),
       Line.field "crc-32" 4 0x4e4d4c4b Shown.hex,
       Line.field "compressed size" 4 1 Shown.dechex,
       Line.field "uncompressed size" 4 2 Shown.dechex] :=
  ⟨by decide, by decide, by decide, by decide, by decide, by decide, by decide,
   (C39_inline_data_descriptor optionsOff 1 sampleStreamed 0 1 4
      (by decide) (by decide) (by decide) (by decide) (by decide) (by decide) (by decide)
      (fun _ => by decide)).2.2.1,
   ((C39_inline_data_descriptor optionsOff 1 sampleStreamed 0 1 4
      (by decide) (by decide) (by decide) (by decide) (by decide) (by decide) (by decide)
      (fun _ => by decide)).2.2.2.2.2 rfl).2.2.2,
   by decide⟩

set_option maxRecDepth 100000 in
/-- C39 as stated fails when the decoder of the extra field does not stop at
the end of its area.  A streamed header (bit 3 set, compressed size 0) with a
one-byte name and an extra field of 4 bytes whose chunk of unknown tag declares
2 bytes of payload: the extra-field tail ends at 35, where the bytes `KLMN`, 1
and 2 stand, but the chunk is decoded whole and the descriptor is read at 37,
as crc-32 0x00014e4d and the sizes 0x00020000 and 0x00030000.  The same header
with an extra field of 20 bytes holding a Zip64 chunk that declares 16 bytes:
the tail ends at 51, the Zip64 decoder reads 28 bytes, and the descriptor is
read at 63 as 11, 12 and 13, not at 51. -/
theorem C39_extra_field_overrun_counterexample :
    (le ((sampleStreamedOverrun.rest.drop 2).take 2) &&& 8 ≠ 0 ∧
     le ((sampleStreamedOverrun.rest.drop 14).take 4) = 0 ∧
     sampleStreamedOverrun.pos + 26 + le ((sampleStreamedOverrun.rest.drop 22).take 2) +
       le ((sampleStreamedOverrun.rest.drop 24).take 2) = 35 ∧
     (sampleStreamedOverrun.data.drop 35).take 12 = [75, 76, 77, 78, 1, 0, 0, 0, 2, 0, 0, 0] ∧
     (Dump_Local_file optionsOff 1 sampleStreamedOverrun).out.drop 21 =
       [Line.sect "Data descriptor" (some 1) (some 37),
        Line.field "crc-32" 4 0x00014e4d Shown.hex,
        Line.field "compressed size" 4 0x00020000 Shown.dechex,
        Line.field "uncompressed size" 4 0x00030000 Shown.dechex] ∧
     (Dump_Local_file optionsOff 1 sampleStreamedOverrun).fin.pos = 49) ∧
    (le ((sampleStreamedZip64.rest.drop 2).take 2) &&& 8 ≠ 0 ∧
     le ((sampleStreamedZip64.rest.drop 14).take 4) = 0 ∧
     sampleStreamedZip64.pos + 26 + le ((sampleStreamedZip64.rest.drop 22).take 2) +
       le ((sampleStreamedZip64.rest.drop 24).take 2) = 51 ∧
     (sampleStreamedZip64.data.drop 51).take 12 = [75, 76, 77, 78, 1, 0, 0, 0, 2, 0, 0, 0] ∧
     (Dump_Local_file optionsOff 1 sampleStreamedZip64).out.drop 24 =
       [Line.sect "Data descriptor" (some 1) (some 63),
        Line.field "crc-32" 4 11 Shown.hex,
        Line.field "compressed size" 4 12 Shown.dechex,
        Line.field "uncompressed size" 4 13 Shown.dechex] ∧
     (Dump_Local_file optionsOff 1 sampleStreamedZip64).fin.pos = 75) := by
  decide

/-! ## The options and the parse: runs under two settings of the options -/

/-- What `dispatchOf` lists is what the turn hands to the `switch`: when the
scan finds an anchor and the signature is read, the turn writes the lines of
the scan and then those of the `switch` run on that signature and offset. -/
theorem dispatchOf_switch (cfg : Config) (w : Walker) (s : Stream) (o sg : Nat)
    (hv : (SkipToNextPK cfg s).val = true)
    (hd : dispatchOf w (SkipToNextPK cfg s).fin = [(o, sg)]) :
    (ZipDumpFile_turn cfg w s).out =
      (SkipToNextPK cfg s).out ++
        (ZipDumpFile_switch cfg sg o w.file_count w.dir_count
          (Read32 w.signature (SkipToNextPK cfg s).fin).fin).out := by
  unfold dispatchOf at hd
  by_cases hr : (Read32 w.signature (SkipToNextPK cfg s).fin).val.1 = true
  · rw [if_pos hr] at hd
    simp only [List.cons.injEq, Prod.mk.injEq, and_true] at hd
    obtain ⟨h1, h2⟩ := hd
    have e := ZipDumpFile_turn_go cfg w s (SkipToNextPK cfg s).out (SkipToNextPK cfg s).fin
      (by rw [← hv])
    rw [e]
    simp only [ZipDumpFile_body, bind_run, ftell_run, List.nil_append]
    cases hx : (Read32 w.signature (SkipToNextPK cfg s).fin).val with
    | mk ok v =>
      rw [hx] at hr h2
      simp only at hr h2
      subst hr h2
      have hout : (Read32 w.signature (SkipToNextPK cfg s).fin).out = [] :=
        List.eq_nil_iff_forall_not_mem.mpr (fun l hl => (outAll_Read32 (fun _ => False) _ _ l hl))
      simp only [if_true, h1, hout, List.nil_append]
  · rw [if_neg hr] at hd
    cases hd

/-! ## Runs that stay within the leading bytes of the file -/

theorem agree_length (p : Nat) (s1 s2 : Stream) (h : Agree p s1 s2) (hp : p ≤ s1.data.length) :
    p ≤ s2.data.length := by
  have h1 := congrArg List.length h.2.2
  simp only [List.length_take] at h1
  omega

theorem agree_getElem (p : Nat) (s1 s2 : Stream) (h : Agree p s1 s2) (q : Nat) (hq : q < p) :
    s1.data[q]? = s2.data[q]? := by
  have h1 := congrArg (fun l => l[q]?) h.2.2
  simp only [List.getElem?_take, hq, if_true] at h1
  exact h1

theorem agree_take (p : Nat) (s1 s2 : Stream) (h : Agree p s1 s2) (n : Nat)
    (hn : s1.pos + n ≤ p) : s1.rest.take n = s2.rest.take n := by
  apply List.ext_getElem?
  intro i
  unfold Stream.rest
  by_cases hi : i < n
  · simp only [List.getElem?_take, hi, if_true, List.getElem?_drop]
    rw [← h.1]
    exact agree_getElem p s1 s2 h _ (by omega)
  · simp only [List.getElem?_take, hi, if_false]

theorem loc_pure {α : Type} (a : α) : Loc (pure a : Dump α) :=
  ⟨keeps_pure a, fun _ _ _ h _ _ => ⟨rfl, rfl, h⟩⟩

theorem loc_bind {α β : Type} (m : Dump α) (k : α → Dump β)
    (h1 : Loc m) (h2 : ∀ a, Loc (k a)) : Loc (m >>= k) := by
  refine ⟨keeps_bind m k h1.1 (fun a => (h2 a).1), ?_⟩
  intro p s1 s2 h hp hf
  simp only [bind_run] at hf ⊢
  have hk := ((h2 (m s1).val).1 (m s1).fin).2
  obtain ⟨a1, a2, a3⟩ := h1.2 p s1 s2 h hp (Nat.le_trans hk hf)
  have hd : (m s1).fin.data = s1.data := (h1.1 s1).1
  rw [← a1, ← a2]
  obtain ⟨b1, b2, b3⟩ := (h2 (m s1).val).2 p (m s1).fin (m s2).fin a3 (by rw [hd]; exact hp) hf
  exact ⟨b1, by rw [b2], b3⟩

theorem loc_ite {α : Type} (c : Prop) [Decidable c] (a b : Dump α)
    (ha : Loc a) (hb : Loc b) : Loc (if c then a else b) := by
  split <;> assumption

theorem loc_say (ls : List Line) : Loc (say ls) :=
  ⟨keeps_say ls, fun _ _ _ h _ _ => ⟨rfl, rfl, h⟩⟩

theorem loc_ftell : Loc ftell :=
  ⟨keeps_ftell, fun _ _ _ h _ _ => ⟨h.1, rfl, h⟩⟩

theorem loc_getc : Loc getc := by
  refine ⟨keeps_getc, ?_⟩
  intro p s1 s2 h hp hf
  have hlt : s1.pos < p := by
    cases hg : s1.data[s1.pos]? with
    | some b =>
      simp only [getc, hg] at hf
      omega
    | none =>
      have := List.getElem?_eq_none_iff.mp hg
      simp only [getc, hg] at hf
      omega
  have he := agree_getElem p s1 s2 h s1.pos hlt
  cases hg : s1.data[s1.pos]? with
  | some b =>
    have hg2 : s2.data[s2.pos]? = some b := by rw [← h.1, ← he]; exact hg
    simp only [getc, hg, hg2]
    exact ⟨trivial, trivial, by simp only [h.1], h.2.1, h.2.2⟩
  | none =>
    have := List.getElem?_eq_none_iff.mp hg
    omega

theorem loc_fseek_nat (n : Nat) : Loc (fseek (n : Int)) := by
  refine ⟨keeps_fseek_nat n, ?_⟩
  intro p s1 s2 h _ _
  rw [fseek_fwd, fseek_fwd]
  exact ⟨rfl, rfl, by simp only [skip_pos, h.1], rfl, h.2.2⟩

theorem loc_Read8 (v : Nat) : Loc (Read8 v) := by
  unfold Read8
  apply loc_bind _ _ loc_getc
  intro x
  cases x <;> exact loc_pure _

theorem loc_Read16 (v : Nat) :
    Loc (Read16 v) := by
  unfold Read16
  repeat' first
    | with_reducible exact loc_pure _
    | with_reducible exact loc_getc
    | with_reducible exact loc_ftell
    | with_reducible exact loc_fseek_nat _
    | with_reducible exact loc_say _
    | with_reducible exact loc_Read8 _
    | with_reducible apply loc_ite
    | with_reducible apply loc_bind
    | (intro (x : Bool × Nat); obtain ⟨a, b⟩ := x; dsimp only)
    | (intro (x : Nat × List Nat); obtain ⟨a, b⟩ := x; dsimp only)
    | (intro x; try dsimp only)

theorem loc_Read32 (v : Nat) :
    Loc (Read32 v) := by
  unfold Read32
  repeat' first
    | with_reducible exact loc_pure _
    | with_reducible exact loc_getc
    | with_reducible exact loc_ftell
    | with_reducible exact loc_fseek_nat _
    | with_reducible exact loc_say _
    | with_reducible exact loc_Read8 _
    | with_reducible exact loc_Read16 _
    | with_reducible apply loc_ite
    | with_reducible apply loc_bind
    | (intro (x : Bool × Nat); obtain ⟨a, b⟩ := x; dsimp only)
    | (intro (x : Nat × List Nat); obtain ⟨a, b⟩ := x; dsimp only)
    | (intro x; try dsimp only)

theorem loc_Read64 (v : Nat) :
    Loc (Read64 v) := by
  unfold Read64
  repeat' first
    | with_reducible exact loc_pure _
    | with_reducible exact loc_getc
    | with_reducible exact loc_ftell
    | with_reducible exact loc_fseek_nat _
    | with_reducible exact loc_say _
    | with_reducible exact loc_Read8 _
    | with_reducible exact loc_Read16 _
    | with_reducible exact loc_Read32 _
    | with_reducible apply loc_ite
    | with_reducible apply loc_bind
    | (intro (x : Bool × Nat); obtain ⟨a, b⟩ := x; dsimp only)
    | (intro (x : Nat × List Nat); obtain ⟨a, b⟩ := x; dsimp only)
    | (intro x; try dsimp only)

theorem loc_DUMP1 (lb : String) (v : Nat) (f : Fmt) :
    Loc (DUMP1 lb v f) := by
  unfold DUMP1
  repeat' first
    | with_reducible exact loc_pure _
    | with_reducible exact loc_getc
    | with_reducible exact loc_ftell
    | with_reducible exact loc_fseek_nat _
    | with_reducible exact loc_say _
    | with_reducible exact loc_Read8 _
    | with_reducible exact loc_Read16 _
    | with_reducible exact loc_Read32 _
    | with_reducible exact loc_Read64 _
    | with_reducible apply loc_ite
    | with_reducible apply loc_bind
    | (intro (x : Bool × Nat); obtain ⟨a, b⟩ := x; dsimp only)
    | (intro (x : Nat × List Nat); obtain ⟨a, b⟩ := x; dsimp only)
    | (intro x; try dsimp only)

theorem loc_DUMP2 (lb : String) (v : Nat) (f : Fmt) :
    Loc (DUMP2 lb v f) := by
  unfold DUMP2
  repeat' first
    | with_reducible exact loc_pure _
    | with_reducible exact loc_getc
    | with_reducible exact loc_ftell
    | with_reducible exact loc_fseek_nat _
    | with_reducible exact loc_say _
    | with_reducible exact loc_Read8 _
    | with_reducible exact loc_Read16 _
    | with_reducible exact loc_Read32 _
    | with_reducible exact loc_Read64 _
    | with_reducible apply loc_ite
    | with_reducible apply loc_bind
    | (intro (x : Bool × Nat); obtain ⟨a, b⟩ := x; dsimp only)
    | (intro (x : Nat × List Nat); obtain ⟨a, b⟩ := x; dsimp only)
    | (intro x; try dsimp only)

theorem loc_DUMP4 (lb : String) (v : Nat) (f : Fmt) :
    Loc (DUMP4 lb v f) := by
  unfold DUMP4
  repeat' first
    | with_reducible exact loc_pure _
    | with_reducible exact loc_getc
    | with_reducible exact loc_ftell
    | with_reducible exact loc_fseek_nat _
    | with_reducible exact loc_say _
    | with_reducible exact loc_Read8 _
    | with_reducible exact loc_Read16 _
    | with_reducible exact loc_Read32 _
    | with_reducible exact loc_Read64 _
    | with_reducible apply loc_ite
    | with_reducible apply loc_bind
    | (intro (x : Bool × Nat); obtain ⟨a, b⟩ := x; dsimp only)
    | (intro (x : Nat × List Nat); obtain ⟨a, b⟩ := x; dsimp only)
    | (intro x; try dsimp only)

theorem loc_DUMP8 (lb : String) (v : Nat) (f : Fmt) :
    Loc (DUMP8 lb v f) := by
  unfold DUMP8
  repeat' first
    | with_reducible exact loc_pure _
    | with_reducible exact loc_getc
    | with_reducible exact loc_ftell
    | with_reducible exact loc_fseek_nat _
    | with_reducible exact loc_say _
    | with_reducible exact loc_Read8 _
    | with_reducible exact loc_Read16 _
    | with_reducible exact loc_Read32 _
    | with_reducible exact loc_Read64 _
    | with_reducible apply loc_ite
    | with_reducible apply loc_bind
    | (intro (x : Bool × Nat); obtain ⟨a, b⟩ := x; dsimp only)
    | (intro (x : Nat × List Nat); obtain ⟨a, b⟩ := x; dsimp only)
    | (intro x; try dsimp only)

theorem loc_DUMP2x (cfg : Config) (lb : String) (v : Nat) (f : Fmt) (dd : Nat → List Line) :
    Loc (DUMP2x cfg lb v f dd) := by
  unfold DUMP2x
  repeat' first
    | with_reducible exact loc_pure _
    | with_reducible exact loc_getc
    | with_reducible exact loc_ftell
    | with_reducible exact loc_fseek_nat _
    | with_reducible exact loc_say _
    | with_reducible exact loc_Read8 _
    | with_reducible exact loc_Read16 _
    | with_reducible exact loc_Read32 _
    | with_reducible exact loc_Read64 _
    | with_reducible apply loc_ite
    | with_reducible apply loc_bind
    | (intro (x : Bool × Nat); obtain ⟨a, b⟩ := x; dsimp only)
    | (intro (x : Nat × List Nat); obtain ⟨a, b⟩ := x; dsimp only)
    | (intro x; try dsimp only)

theorem loc_DUMP4x (cfg : Config) (lb : String) (v : Nat) (f : Fmt) (dd : Nat → List Line) :
    Loc (DUMP4x cfg lb v f dd) := by
  unfold DUMP4x
  repeat' first
    | with_reducible exact loc_pure _
    | with_reducible exact loc_getc
    | with_reducible exact loc_ftell
    | with_reducible exact loc_fseek_nat _
    | with_reducible exact loc_say _
    | with_reducible exact loc_Read8 _
    | with_reducible exact loc_Read16 _
    | with_reducible exact loc_Read32 _
    | with_reducible exact loc_Read64 _
    | with_reducible apply loc_ite
    | with_reducible apply loc_bind
    | (intro (x : Bool × Nat); obtain ⟨a, b⟩ := x; dsimp only)
    | (intro (x : Nat × List Nat); obtain ⟨a, b⟩ := x; dsimp only)
    | (intro x; try dsimp only)

theorem loc_DUMP8x (cfg : Config) (lb : String) (v : Nat) (f : Fmt) (dd : Nat → List Line) :
    Loc (DUMP8x cfg lb v f dd) := by
  unfold DUMP8x
  repeat' first
    | with_reducible exact loc_pure _
    | with_reducible exact loc_getc
    | with_reducible exact loc_ftell
    | with_reducible exact loc_fseek_nat _
    | with_reducible exact loc_say _
    | with_reducible exact loc_Read8 _
    | with_reducible exact loc_Read16 _
    | with_reducible exact loc_Read32 _
    | with_reducible exact loc_Read64 _
    | with_reducible apply loc_ite
    | with_reducible apply loc_bind
    | (intro (x : Bool × Nat); obtain ⟨a, b⟩ := x; dsimp only)
    | (intro (x : Nat × List Nat); obtain ⟨a, b⟩ := x; dsimp only)
    | (intro x; try dsimp only)

theorem loc_Dump_string_loop (n : Nat) : Loc (Dump_string_loop n) := by
  induction n with
  | zero => exact loc_pure _
  | succ n ih =>
    unfold Dump_string_loop
    apply loc_bind _ _ loc_getc
    intro x
    cases x with
    | none => exact loc_pure _
    | some c =>
      dsimp only
      apply loc_bind _ _ ih
      intro _
      exact loc_pure _

theorem loc_Dump_string (n : Nat) :
    Loc (Dump_string n) := by
  unfold Dump_string
  repeat' first
    | with_reducible exact loc_pure _
    | with_reducible exact loc_getc
    | with_reducible exact loc_ftell
    | with_reducible exact loc_fseek_nat _
    | with_reducible exact loc_say _
    | with_reducible exact loc_Dump_string_loop _
    | with_reducible apply loc_ite
    | with_reducible apply loc_bind
    | (intro (x : Bool × Nat); obtain ⟨a, b⟩ := x; dsimp only)
    | (intro (x : Nat × List Nat); obtain ⟨a, b⟩ := x; dsimp only)
    | (intro x; try dsimp only)

theorem loc_Dump_bytes_loop (cfg : Config) (n : Nat) :
    ∀ offset om prev current, Loc (Dump_bytes_loop cfg n offset om prev current) := by
  induction n with
  | zero => intro _ _ _ _; exact loc_pure _
  | succ n ih =>
    intro offset om prev current
    unfold Dump_bytes_loop
    apply loc_bind _ _ loc_getc
    intro x
    cases x with
    | none => exact loc_pure _
    | some c =>
      dsimp only
      repeat' first
        | with_reducible exact loc_pure _
        | with_reducible exact loc_getc
        | with_reducible exact loc_ftell
        | with_reducible exact loc_fseek_nat _
        | with_reducible exact loc_say _
        | with_reducible exact ih _ _ _ _
        | with_reducible apply loc_ite
        | with_reducible apply loc_bind
        | (intro (x : Bool × Nat); obtain ⟨a, b⟩ := x; dsimp only)
        | (intro (x : Nat × List Nat); obtain ⟨a, b⟩ := x; dsimp only)
        | (intro x; try dsimp only)

theorem loc_Dump_bytes (cfg : Config) (n : Nat) :
    Loc (Dump_bytes cfg n) := by
  unfold Dump_bytes
  repeat' first
    | with_reducible exact loc_pure _
    | with_reducible exact loc_getc
    | with_reducible exact loc_ftell
    | with_reducible exact loc_fseek_nat _
    | with_reducible exact loc_say _
    | with_reducible exact loc_Dump_bytes_loop _ _ _ _ _ _
    | with_reducible apply loc_ite
    | with_reducible apply loc_bind
    | (intro (x : Bool × Nat); obtain ⟨a, b⟩ := x; dsimp only)
    | (intro (x : Nat × List Nat); obtain ⟨a, b⟩ := x; dsimp only)
    | (intro x; try dsimp only)

theorem loc_SkipUnknownData (cfg : Config) (n : Nat) :
    Loc (SkipUnknownData cfg n) := by
  unfold SkipUnknownData
  repeat' first
    | with_reducible exact loc_pure _
    | with_reducible exact loc_getc
    | with_reducible exact loc_ftell
    | with_reducible exact loc_fseek_nat _
    | with_reducible exact loc_say _
    | with_reducible exact loc_Dump_bytes _ _
    | with_reducible apply loc_ite
    | with_reducible apply loc_bind
    | (intro (x : Bool × Nat); obtain ⟨a, b⟩ := x; dsimp only)
    | (intro (x : Nat × List Nat); obtain ⟨a, b⟩ := x; dsimp only)
    | (intro x; try dsimp only)

theorem loc_Dump_if_fulldump (cfg : Config) (cap : String) (n : Nat) :
    Loc (Dump_if_fulldump cfg cap n) := by
  unfold Dump_if_fulldump
  repeat' first
    | with_reducible exact loc_pure _
    | with_reducible exact loc_getc
    | with_reducible exact loc_ftell
    | with_reducible exact loc_fseek_nat _
    | with_reducible exact loc_say _
    | with_reducible exact loc_Dump_bytes _ _
    | with_reducible apply loc_ite
    | with_reducible apply loc_bind
    | (intro (x : Bool × Nat); obtain ⟨a, b⟩ := x; dsimp only)
    | (intro (x : Nat × List Nat); obtain ⟨a, b⟩ := x; dsimp only)
    | (intro x; try dsimp only)

theorem loc_Dump_extra_Zip64_Extended_Info (cfg : Config) (n : Nat) :
    Loc (Dump_extra_Zip64_Extended_Info cfg n) := by
  unfold Dump_extra_Zip64_Extended_Info
  repeat' first
    | with_reducible exact loc_pure _
    | with_reducible exact loc_getc
    | with_reducible exact loc_ftell
    | with_reducible exact loc_fseek_nat _
    | with_reducible exact loc_say _
    | with_reducible exact loc_Read8 _
    | with_reducible exact loc_Read16 _
    | with_reducible exact loc_Read32 _
    | with_reducible exact loc_Read64 _
    | with_reducible exact loc_DUMP1 _ _ _
    | with_reducible exact loc_DUMP2 _ _ _
    | with_reducible exact loc_DUMP4 _ _ _
    | with_reducible exact loc_DUMP8 _ _ _
    | with_reducible exact loc_DUMP2x _ _ _ _ _
    | with_reducible exact loc_DUMP4x _ _ _ _ _
    | with_reducible exact loc_DUMP8x _ _ _ _ _
    | with_reducible exact loc_Dump_string _
    | with_reducible exact loc_Dump_bytes _ _
    | with_reducible exact loc_SkipUnknownData _ _
    | with_reducible exact loc_Dump_if_fulldump _ _ _
    | with_reducible apply loc_ite
    | with_reducible apply loc_bind
    | (intro (x : Bool × Nat); obtain ⟨a, b⟩ := x; dsimp only)
    | (intro (x : Nat × List Nat); obtain ⟨a, b⟩ := x; dsimp only)
    | (intro x; try dsimp only)

theorem loc_Dump_extra_OS2_Extended_Attributes (cfg : Config) (n : Nat) :
    Loc (Dump_extra_OS2_Extended_Attributes cfg n) := by
  unfold Dump_extra_OS2_Extended_Attributes
  repeat' first
    | with_reducible exact loc_pure _
    | with_reducible exact loc_getc
    | with_reducible exact loc_ftell
    | with_reducible exact loc_fseek_nat _
    | with_reducible exact loc_say _
    | with_reducible exact loc_Read8 _
    | with_reducible exact loc_Read16 _
    | with_reducible exact loc_Read32 _
    | with_reducible exact loc_Read64 _
    | with_reducible exact loc_DUMP1 _ _ _
    | with_reducible exact loc_DUMP2 _ _ _
    | with_reducible exact loc_DUMP4 _ _ _
    | with_reducible exact loc_DUMP8 _ _ _
    | with_reducible exact loc_DUMP2x _ _ _ _ _
    | with_reducible exact loc_DUMP4x _ _ _ _ _
    | with_reducible exact loc_DUMP8x _ _ _ _ _
    | with_reducible exact loc_Dump_string _
    | with_reducible exact loc_Dump_bytes _ _
    | with_reducible exact loc_SkipUnknownData _ _
    | with_reducible exact loc_Dump_if_fulldump _ _ _
    | with_reducible apply loc_ite
    | with_reducible apply loc_bind
    | (intro (x : Bool × Nat); obtain ⟨a, b⟩ := x; dsimp only)
    | (intro (x : Nat × List Nat); obtain ⟨a, b⟩ := x; dsimp only)
    | (intro x; try dsimp only)

theorem loc_Dump_extra_WindowsNT_SD (cfg : Config) (n : Nat) :
    Loc (Dump_extra_WindowsNT_SD cfg n) := by
  unfold Dump_extra_WindowsNT_SD
  repeat' first
    | with_reducible exact loc_pure _
    | with_reducible exact loc_getc
    | with_reducible exact loc_ftell
    | with_reducible exact loc_fseek_nat _
    | with_reducible exact loc_say _
    | with_reducible exact loc_Read8 _
    | with_reducible exact loc_Read16 _
    | with_reducible exact loc_Read32 _
    | with_reducible exact loc_Read64 _
    | with_reducible exact loc_DUMP1 _ _ _
    | with_reducible exact loc_DUMP2 _ _ _
    | with_reducible exact loc_DUMP4 _ _ _
    | with_reducible exact loc_DUMP8 _ _ _
    | with_reducible exact loc_DUMP2x _ _ _ _ _
    | with_reducible exact loc_DUMP4x _ _ _ _ _
    | with_reducible exact loc_DUMP8x _ _ _ _ _
    | with_reducible exact loc_Dump_string _
    | with_reducible exact loc_Dump_bytes _ _
    | with_reducible exact loc_SkipUnknownData _ _
    | with_reducible exact loc_Dump_if_fulldump _ _ _
    | with_reducible apply loc_ite
    | with_reducible apply loc_bind
    | (intro (x : Bool × Nat); obtain ⟨a, b⟩ := x; dsimp only)
    | (intro (x : Nat × List Nat); obtain ⟨a, b⟩ := x; dsimp only)
    | (intro x; try dsimp only)

theorem loc_Dump_extra_ExtendedTimestamp (cfg : Config) (n : Nat) :
    Loc (Dump_extra_ExtendedTimestamp cfg n) := by
  unfold Dump_extra_ExtendedTimestamp
  repeat' first
    | with_reducible exact loc_pure _
    | with_reducible exact loc_getc
    | with_reducible exact loc_ftell
    | with_reducible exact loc_fseek_nat _
    | with_reducible exact loc_say _
    | with_reducible exact loc_Read8 _
    | with_reducible exact loc_Read16 _
    | with_reducible exact loc_Read32 _
    | with_reducible exact loc_Read64 _
    | with_reducible exact loc_DUMP1 _ _ _
    | with_reducible exact loc_DUMP2 _ _ _
    | with_reducible exact loc_DUMP4 _ _ _
    | with_reducible exact loc_DUMP8 _ _ _
    | with_reducible exact loc_DUMP2x _ _ _ _ _
    | with_reducible exact loc_DUMP4x _ _ _ _ _
    | with_reducible exact loc_DUMP8x _ _ _ _ _
    | with_reducible exact loc_Dump_string _
    | with_reducible exact loc_Dump_bytes _ _
    | with_reducible exact loc_SkipUnknownData _ _
    | with_reducible exact loc_Dump_if_fulldump _ _ _
    | with_reducible apply loc_ite
    | with_reducible apply loc_bind
    | (intro (x : Bool × Nat); obtain ⟨a, b⟩ := x; dsimp only)
    | (intro (x : Nat × List Nat); obtain ⟨a, b⟩ := x; dsimp only)
    | (intro x; try dsimp only)

theorem loc_Dump_extra_UnicodeComment (cfg : Config) (n : Nat) :
    Loc (Dump_extra_UnicodeComment cfg n) := by
  unfold Dump_extra_UnicodeComment
  repeat' first
    | with_reducible exact loc_pure _
    | with_reducible exact loc_getc
    | with_reducible exact loc_ftell
    | with_reducible exact loc_fseek_nat _
    | with_reducible exact loc_say _
    | with_reducible exact loc_Read8 _
    | with_reducible exact loc_Read16 _
    | with_reducible exact loc_Read32 _
    | with_reducible exact loc_Read64 _
    | with_reducible exact loc_DUMP1 _ _ _
    | with_reducible exact loc_DUMP2 _ _ _
    | with_reducible exact loc_DUMP4 _ _ _
    | with_reducible exact loc_DUMP8 _ _ _
    | with_reducible exact loc_DUMP2x _ _ _ _ _
    | with_reducible exact loc_DUMP4x _ _ _ _ _
    | with_reducible exact loc_DUMP8x _ _ _ _ _
    | with_reducible exact loc_Dump_string _
    | with_reducible exact loc_Dump_bytes _ _
    | with_reducible exact loc_SkipUnknownData _ _
    | with_reducible exact loc_Dump_if_fulldump _ _ _
    | with_reducible apply loc_ite
    | with_reducible apply loc_bind
    | (intro (x : Bool × Nat); obtain ⟨a, b⟩ := x; dsimp only)
    | (intro (x : Nat × List Nat); obtain ⟨a, b⟩ := x; dsimp only)
    | (intro x; try dsimp only)

theorem loc_Dump_extra_UnicodePath (cfg : Config) (n : Nat) :
    Loc (Dump_extra_UnicodePath cfg n) := by
  unfold Dump_extra_UnicodePath
  repeat' first
    | with_reducible exact loc_pure _
    | with_reducible exact loc_getc
    | with_reducible exact loc_ftell
    | with_reducible exact loc_fseek_nat _
    | with_reducible exact loc_say _
    | with_reducible exact loc_Read8 _
    | with_reducible exact loc_Read16 _
    | with_reducible exact loc_Read32 _
    | with_reducible exact loc_Read64 _
    | with_reducible exact loc_DUMP1 _ _ _
    | with_reducible exact loc_DUMP2 _ _ _
    | with_reducible exact loc_DUMP4 _ _ _
    | with_reducible exact loc_DUMP8 _ _ _
    | with_reducible exact loc_DUMP2x _ _ _ _ _
    | with_reducible exact loc_DUMP4x _ _ _ _ _
    | with_reducible exact loc_DUMP8x _ _ _ _ _
    | with_reducible exact loc_Dump_string _
    | with_reducible exact loc_Dump_bytes _ _
    | with_reducible exact loc_SkipUnknownData _ _
    | with_reducible exact loc_Dump_if_fulldump _ _ _
    | with_reducible apply loc_ite
    | with_reducible apply loc_bind
    | (intro (x : Bool × Nat); obtain ⟨a, b⟩ := x; dsimp only)
    | (intro (x : Nat × List Nat); obtain ⟨a, b⟩ := x; dsimp only)
    | (intro x; try dsimp only)

/-- The decoder `Dump_extra_NTFS` always runs to the end of the file, so no run of it ends
before the end of the file. -/
theorem loc_Dump_extra_NTFS (cfg : Config) (n : Nat) : Loc (Dump_extra_NTFS cfg n) := by
  refine ⟨keeps_Dump_extra_NTFS cfg n, ?_⟩
  intro p s1 s2 _ hp hf
  have hr := Dump_extra_NTFS_drains cfg n s1
  have hl := rest_nil_pos _ hr
  rw [(keeps_Dump_extra_NTFS cfg n s1).1] at hl
  omega

theorem loc_Dump_extra_chunk (cfg : Config) (id size : Nat) :
    Loc (Dump_extra_chunk cfg id size) := by
  unfold Dump_extra_chunk
  repeat' first
    | with_reducible exact loc_pure _
    | with_reducible exact loc_getc
    | with_reducible exact loc_ftell
    | with_reducible exact loc_fseek_nat _
    | with_reducible exact loc_say _
    | with_reducible exact loc_Dump_extra_Zip64_Extended_Info _ _
    | with_reducible exact loc_Dump_extra_OS2_Extended_Attributes _ _
    | with_reducible exact loc_Dump_extra_NTFS _ _
    | with_reducible exact loc_Dump_extra_WindowsNT_SD _ _
    | with_reducible exact loc_Dump_extra_ExtendedTimestamp _ _
    | with_reducible exact loc_Dump_extra_UnicodeComment _ _
    | with_reducible exact loc_Dump_extra_UnicodePath _ _
    | with_reducible exact loc_Dump_string _
    | with_reducible exact loc_Dump_bytes _ _
    | with_reducible exact loc_SkipUnknownData _ _
    | with_reducible exact loc_Dump_if_fulldump _ _ _
    | with_reducible apply loc_ite
    | with_reducible apply loc_bind
    | (intro (x : Bool × Nat); obtain ⟨a, b⟩ := x; dsimp only)
    | (intro (x : Nat × List Nat); obtain ⟨a, b⟩ := x; dsimp only)
    | (intro x; try dsimp only)

theorem loc_Dump_extra_field_loop (cfg : Config) (length fuel : Nat) :
    ∀ off, Loc (Dump_extra_field_loop cfg length fuel off) := by
  induction fuel with
  | zero => intro off; exact loc_pure _
  | succ n ih =>
    intro off
    unfold Dump_extra_field_loop
    repeat' first
      | with_reducible exact loc_pure _
      | with_reducible exact loc_getc
      | with_reducible exact loc_ftell
      | with_reducible exact loc_fseek_nat _
      | with_reducible exact loc_say _
      | with_reducible exact ih _
      | with_reducible exact loc_Dump_extra_chunk _ _ _
      | with_reducible exact loc_Read8 _
      | with_reducible exact loc_Read16 _
      | with_reducible exact loc_Read32 _
      | with_reducible exact loc_Read64 _
      | with_reducible apply loc_ite
      | with_reducible apply loc_bind
      | (intro (x : Bool × Nat); obtain ⟨a, b⟩ := x; dsimp only)
      | (intro (x : Nat × List Nat); obtain ⟨a, b⟩ := x; dsimp only)
      | (intro x; try dsimp only)

theorem loc_Dump_extra_field (cfg : Config) (length : Nat) :
    Loc (Dump_extra_field cfg length) := by
  refine ⟨keeps_Dump_extra_field cfg length, ?_⟩
  intro p s1 s2 h hp hf
  have e1 : Dump_extra_field cfg length s1 =
      Dump_extra_field_loop cfg length (s1.rest.length + 1 + s2.rest.length) 0 s1 :=
    (Dump_extra_field_loop_fuel cfg length (s1.rest.length + 1) 0 s1 (Nat.lt_succ_self _)
      s2.rest.length).symm
  have e2 : Dump_extra_field cfg length s2 =
      Dump_extra_field_loop cfg length (s1.rest.length + 1 + s2.rest.length) 0 s2 := by
    have e := Dump_extra_field_loop_fuel cfg length (s2.rest.length + 1) 0 s2 (Nat.lt_succ_self _)
      s1.rest.length
    rw [show s2.rest.length + 1 + s1.rest.length = s1.rest.length + 1 + s2.rest.length by omega]
      at e
    exact e.symm
  rw [e1] at hf ⊢
  rw [e2]
  exact (loc_Dump_extra_field_loop cfg length _ 0).2 p s1 s2 h hp hf

theorem loc_Dump_Data_descriptor :
    Loc (Dump_Data_descriptor) := by
  unfold Dump_Data_descriptor
  repeat' first
    | with_reducible exact loc_pure _
    | with_reducible exact loc_getc
    | with_reducible exact loc_ftell
    | with_reducible exact loc_fseek_nat _
    | with_reducible exact loc_say _
    | with_reducible exact loc_Read8 _
    | with_reducible exact loc_Read16 _
    | with_reducible exact loc_Read32 _
    | with_reducible exact loc_Read64 _
    | with_reducible exact loc_DUMP1 _ _ _
    | with_reducible exact loc_DUMP2 _ _ _
    | with_reducible exact loc_DUMP4 _ _ _
    | with_reducible exact loc_DUMP8 _ _ _
    | with_reducible exact loc_DUMP2x _ _ _ _ _
    | with_reducible exact loc_DUMP4x _ _ _ _ _
    | with_reducible exact loc_DUMP8x _ _ _ _ _
    | with_reducible exact loc_Dump_string _
    | with_reducible exact loc_Dump_bytes _ _
    | with_reducible exact loc_SkipUnknownData _ _
    | with_reducible exact loc_Dump_if_fulldump _ _ _
    | with_reducible exact loc_Dump_extra_field _ _
    | with_reducible apply loc_ite
    | with_reducible apply loc_bind
    | (intro (x : Bool × Nat); obtain ⟨a, b⟩ := x; dsimp only)
    | (intro (x : Nat × List Nat); obtain ⟨a, b⟩ := x; dsimp only)
    | (intro x; try dsimp only)

theorem loc_Dump_Local_file_tails (cfg : Config) (n : Int) (a b : Nat) :
    Loc (Dump_Local_file_tails cfg n a b) := by
  unfold Dump_Local_file_tails
  repeat' first
    | with_reducible exact loc_pure _
    | with_reducible exact loc_getc
    | with_reducible exact loc_ftell
    | with_reducible exact loc_fseek_nat _
    | with_reducible exact loc_say _
    | with_reducible exact loc_Read8 _
    | with_reducible exact loc_Read16 _
    | with_reducible exact loc_Read32 _
    | with_reducible exact loc_Read64 _
    | with_reducible exact loc_DUMP1 _ _ _
    | with_reducible exact loc_DUMP2 _ _ _
    | with_reducible exact loc_DUMP4 _ _ _
    | with_reducible exact loc_DUMP8 _ _ _
    | with_reducible exact loc_DUMP2x _ _ _ _ _
    | with_reducible exact loc_DUMP4x _ _ _ _ _
    | with_reducible exact loc_DUMP8x _ _ _ _ _
    | with_reducible exact loc_Dump_string _
    | with_reducible exact loc_Dump_bytes _ _
    | with_reducible exact loc_SkipUnknownData _ _
    | with_reducible exact loc_Dump_if_fulldump _ _ _
    | with_reducible exact loc_Dump_extra_field _ _
    | with_reducible exact loc_Dump_Data_descriptor
    | with_reducible apply loc_ite
    | with_reducible apply loc_bind
    | (intro (x : Bool × Nat); obtain ⟨a, b⟩ := x; dsimp only)
    | (intro (x : Nat × List Nat); obtain ⟨a, b⟩ := x; dsimp only)
    | (intro x; try dsimp only)

theorem loc_Dump_Local_file_data (cfg : Config) (n : Int) (a b : Nat) :
    Loc (Dump_Local_file_data cfg n a b) := by
  unfold Dump_Local_file_data
  repeat' first
    | with_reducible exact loc_pure _
    | with_reducible exact loc_getc
    | with_reducible exact loc_ftell
    | with_reducible exact loc_fseek_nat _
    | with_reducible exact loc_say _
    | with_reducible exact loc_Read8 _
    | with_reducible exact loc_Read16 _
    | with_reducible exact loc_Read32 _
    | with_reducible exact loc_Read64 _
    | with_reducible exact loc_DUMP1 _ _ _
    | with_reducible exact loc_DUMP2 _ _ _
    | with_reducible exact loc_DUMP4 _ _ _
    | with_reducible exact loc_DUMP8 _ _ _
    | with_reducible exact loc_DUMP2x _ _ _ _ _
    | with_reducible exact loc_DUMP4x _ _ _ _ _
    | with_reducible exact loc_DUMP8x _ _ _ _ _
    | with_reducible exact loc_Dump_string _
    | with_reducible exact loc_Dump_bytes _ _
    | with_reducible exact loc_SkipUnknownData _ _
    | with_reducible exact loc_Dump_if_fulldump _ _ _
    | with_reducible exact loc_Dump_extra_field _ _
    | with_reducible exact loc_Dump_Data_descriptor
    | with_reducible apply loc_ite
    | with_reducible apply loc_bind
    | (intro (x : Bool × Nat); obtain ⟨a, b⟩ := x; dsimp only)
    | (intro (x : Nat × List Nat); obtain ⟨a, b⟩ := x; dsimp only)
    | (intro x; try dsimp only)

theorem loc_Dump_Local_file (cfg : Config) (n : Int) :
    Loc (Dump_Local_file cfg n) := by
  unfold Dump_Local_file
  repeat' first
    | with_reducible exact loc_pure _
    | with_reducible exact loc_getc
    | with_reducible exact loc_ftell
    | with_reducible exact loc_fseek_nat _
    | with_reducible exact loc_say _
    | with_reducible exact loc_Read8 _
    | with_reducible exact loc_Read16 _
    | with_reducible exact loc_Read32 _
    | with_reducible exact loc_Read64 _
    | with_reducible exact loc_DUMP1 _ _ _
    | with_reducible exact loc_DUMP2 _ _ _
    | with_reducible exact loc_DUMP4 _ _ _
    | with_reducible exact loc_DUMP8 _ _ _
    | with_reducible exact loc_DUMP2x _ _ _ _ _
    | with_reducible exact loc_DUMP4x _ _ _ _ _
    | with_reducible exact loc_DUMP8x _ _ _ _ _
    | with_reducible exact loc_Dump_string _
    | with_reducible exact loc_Dump_bytes _ _
    | with_reducible exact loc_SkipUnknownData _ _
    | with_reducible exact loc_Dump_if_fulldump _ _ _
    | with_reducible exact loc_Dump_extra_field _ _
    | with_reducible exact loc_Dump_Data_descriptor
    | with_reducible exact loc_Dump_Local_file_tails _ _ _ _
    | with_reducible exact loc_Dump_Local_file_data _ _ _ _
    | with_reducible apply loc_ite
    | with_reducible apply loc_bind
    | (intro (x : Bool × Nat); obtain ⟨a, b⟩ := x; dsimp only)
    | (intro (x : Nat × List Nat); obtain ⟨a, b⟩ := x; dsimp only)
    | (intro x; try dsimp only)

theorem loc_Dump_Archive_extra_data_record (cfg : Config) :
    Loc (Dump_Archive_extra_data_record cfg) := by
  unfold Dump_Archive_extra_data_record
  repeat' first
    | with_reducible exact loc_pure _
    | with_reducible exact loc_getc
    | with_reducible exact loc_ftell
    | with_reducible exact loc_fseek_nat _
    | with_reducible exact loc_say _
    | with_reducible exact loc_Read8 _
    | with_reducible exact loc_Read16 _
    | with_reducible exact loc_Read32 _
    | with_reducible exact loc_Read64 _
    | with_reducible exact loc_DUMP1 _ _ _
    | with_reducible exact loc_DUMP2 _ _ _
    | with_reducible exact loc_DUMP4 _ _ _
    | with_reducible exact loc_DUMP8 _ _ _
    | with_reducible exact loc_DUMP2x _ _ _ _ _
    | with_reducible exact loc_DUMP4x _ _ _ _ _
    | with_reducible exact loc_DUMP8x _ _ _ _ _
    | with_reducible exact loc_Dump_string _
    | with_reducible exact loc_Dump_bytes _ _
    | with_reducible exact loc_SkipUnknownData _ _
    | with_reducible exact loc_Dump_if_fulldump _ _ _
    | with_reducible exact loc_Dump_extra_field _ _
    | with_reducible exact loc_Dump_Data_descriptor
    | with_reducible apply loc_ite
    | with_reducible apply loc_bind
    | (intro (x : Bool × Nat); obtain ⟨a, b⟩ := x; dsimp only)
    | (intro (x : Nat × List Nat); obtain ⟨a, b⟩ := x; dsimp only)
    | (intro x; try dsimp only)

theorem loc_Dump_Central_directory_tails (cfg : Config) (n : Int) (a b c : Nat) :
    Loc (Dump_Central_directory_tails cfg n a b c) := by
  unfold Dump_Central_directory_tails
  repeat' first
    | with_reducible exact loc_pure _
    | with_reducible exact loc_getc
    | with_reducible exact loc_ftell
    | with_reducible exact loc_fseek_nat _
    | with_reducible exact loc_say _
    | with_reducible exact loc_Read8 _
    | with_reducible exact loc_Read16 _
    | with_reducible exact loc_Read32 _
    | with_reducible exact loc_Read64 _
    | with_reducible exact loc_DUMP1 _ _ _
    | with_reducible exact loc_DUMP2 _ _ _
    | with_reducible exact loc_DUMP4 _ _ _
    | with_reducible exact loc_DUMP8 _ _ _
    | with_reducible exact loc_DUMP2x _ _ _ _ _
    | with_reducible exact loc_DUMP4x _ _ _ _ _
    | with_reducible exact loc_DUMP8x _ _ _ _ _
    | with_reducible exact loc_Dump_string _
    | with_reducible exact loc_Dump_bytes _ _
    | with_reducible exact loc_SkipUnknownData _ _
    | with_reducible exact loc_Dump_if_fulldump _ _ _
    | with_reducible exact loc_Dump_extra_field _ _
    | with_reducible exact loc_Dump_Data_descriptor
    | with_reducible apply loc_ite
    | with_reducible apply loc_bind
    | (intro (x : Bool × Nat); obtain ⟨a, b⟩ := x; dsimp only)
    | (intro (x : Nat × List Nat); obtain ⟨a, b⟩ := x; dsimp only)
    | (intro x; try dsimp only)

theorem loc_Dump_Central_directory_file_header (cfg : Config) (n : Int) :
    Loc (Dump_Central_directory_file_header cfg n) := by
  unfold Dump_Central_directory_file_header
  repeat' first
    | with_reducible exact loc_pure _
    | with_reducible exact loc_getc
    | with_reducible exact loc_ftell
    | with_reducible exact loc_fseek_nat _
    | with_reducible exact loc_say _
    | with_reducible exact loc_Read8 _
    | with_reducible exact loc_Read16 _
    | with_reducible exact loc_Read32 _
    | with_reducible exact loc_Read64 _
    | with_reducible exact loc_DUMP1 _ _ _
    | with_reducible exact loc_DUMP2 _ _ _
    | with_reducible exact loc_DUMP4 _ _ _
    | with_reducible exact loc_DUMP8 _ _ _
    | with_reducible exact loc_DUMP2x _ _ _ _ _
    | with_reducible exact loc_DUMP4x _ _ _ _ _
    | with_reducible exact loc_DUMP8x _ _ _ _ _
    | with_reducible exact loc_Dump_string _
    | with_reducible exact loc_Dump_bytes _ _
    | with_reducible exact loc_SkipUnknownData _ _
    | with_reducible exact loc_Dump_if_fulldump _ _ _
    | with_reducible exact loc_Dump_extra_field _ _
    | with_reducible exact loc_Dump_Data_descriptor
    | with_reducible exact loc_Dump_Central_directory_tails _ _ _ _ _
    | with_reducible apply loc_ite
    | with_reducible apply loc_bind
    | (intro (x : Bool × Nat); obtain ⟨a, b⟩ := x; dsimp only)
    | (intro (x : Nat × List Nat); obtain ⟨a, b⟩ := x; dsimp only)
    | (intro x; try dsimp only)

theorem loc_Dump_Central_directory_digital_signature (cfg : Config) :
    Loc (Dump_Central_directory_digital_signature cfg) := by
  unfold Dump_Central_directory_digital_signature
  repeat' first
    | with_reducible exact loc_pure _
    | with_reducible exact loc_getc
    | with_reducible exact loc_ftell
    | with_reducible exact loc_fseek_nat _
    | with_reducible exact loc_say _
    | with_reducible exact loc_Read8 _
    | with_reducible exact loc_Read16 _
    | with_reducible exact loc_Read32 _
    | with_reducible exact loc_Read64 _
    | with_reducible exact loc_DUMP1 _ _ _
    | with_reducible exact loc_DUMP2 _ _ _
    | with_reducible exact loc_DUMP4 _ _ _
    | with_reducible exact loc_DUMP8 _ _ _
    | with_reducible exact loc_DUMP2x _ _ _ _ _
    | with_reducible exact loc_DUMP4x _ _ _ _ _
    | with_reducible exact loc_DUMP8x _ _ _ _ _
    | with_reducible exact loc_Dump_string _
    | with_reducible exact loc_Dump_bytes _ _
    | with_reducible exact loc_SkipUnknownData _ _
    | with_reducible exact loc_Dump_if_fulldump _ _ _
    | with_reducible exact loc_Dump_extra_field _ _
    | with_reducible exact loc_Dump_Data_descriptor
    | with_reducible apply loc_ite
    | with_reducible apply loc_bind
    | (intro (x : Bool × Nat); obtain ⟨a, b⟩ := x; dsimp only)
    | (intro (x : Nat × List Nat); obtain ⟨a, b⟩ := x; dsimp only)
    | (intro x; try dsimp only)

theorem loc_Dump_Zip64_end_of_central_directory_record (cfg : Config) :
    Loc (Dump_Zip64_end_of_central_directory_record cfg) := by
  unfold Dump_Zip64_end_of_central_directory_record
  repeat' first
    | with_reducible exact loc_pure _
    | with_reducible exact loc_getc
    | with_reducible exact loc_ftell
    | with_reducible exact loc_fseek_nat _
    | with_reducible exact loc_say _
    | with_reducible exact loc_Read8 _
    | with_reducible exact loc_Read16 _
    | with_reducible exact loc_Read32 _
    | with_reducible exact loc_Read64 _
    | with_reducible exact loc_DUMP1 _ _ _
    | with_reducible exact loc_DUMP2 _ _ _
    | with_reducible exact loc_DUMP4 _ _ _
    | with_reducible exact loc_DUMP8 _ _ _
    | with_reducible exact loc_DUMP2x _ _ _ _ _
    | with_reducible exact loc_DUMP4x _ _ _ _ _
    | with_reducible exact loc_DUMP8x _ _ _ _ _
    | with_reducible exact loc_Dump_string _
    | with_reducible exact loc_Dump_bytes _ _
    | with_reducible exact loc_SkipUnknownData _ _
    | with_reducible exact loc_Dump_if_fulldump _ _ _
    | with_reducible exact loc_Dump_extra_field _ _
    | with_reducible exact loc_Dump_Data_descriptor
    | with_reducible apply loc_ite
    | with_reducible apply loc_bind
    | (intro (x : Bool × Nat); obtain ⟨a, b⟩ := x; dsimp only)
    | (intro (x : Nat × List Nat); obtain ⟨a, b⟩ := x; dsimp only)
    | (intro x; try dsimp only)

theorem loc_Dump_Zip64_end_of_central_directory_locator :
    Loc (Dump_Zip64_end_of_central_directory_locator) := by
  unfold Dump_Zip64_end_of_central_directory_locator
  repeat' first
    | with_reducible exact loc_pure _
    | with_reducible exact loc_getc
    | with_reducible exact loc_ftell
    | with_reducible exact loc_fseek_nat _
    | with_reducible exact loc_say _
    | with_reducible exact loc_Read8 _
    | with_reducible exact loc_Read16 _
    | with_reducible exact loc_Read32 _
    | with_reducible exact loc_Read64 _
    | with_reducible exact loc_DUMP1 _ _ _
    | with_reducible exact loc_DUMP2 _ _ _
    | with_reducible exact loc_DUMP4 _ _ _
    | with_reducible exact loc_DUMP8 _ _ _
    | with_reducible exact loc_DUMP2x _ _ _ _ _
    | with_reducible exact loc_DUMP4x _ _ _ _ _
    | with_reducible exact loc_DUMP8x _ _ _ _ _
    | with_reducible exact loc_Dump_string _
    | with_reducible exact loc_Dump_bytes _ _
    | with_reducible exact loc_SkipUnknownData _ _
    | with_reducible exact loc_Dump_if_fulldump _ _ _
    | with_reducible exact loc_Dump_extra_field _ _
    | with_reducible exact loc_Dump_Data_descriptor
    | with_reducible apply loc_ite
    | with_reducible apply loc_bind
    | (intro (x : Bool × Nat); obtain ⟨a, b⟩ := x; dsimp only)
    | (intro (x : Nat × List Nat); obtain ⟨a, b⟩ := x; dsimp only)
    | (intro x; try dsimp only)

theorem loc_Dump_End_of_central_directory_record (cfg : Config) :
    Loc (Dump_End_of_central_directory_record cfg) := by
  unfold Dump_End_of_central_directory_record
  repeat' first
    | with_reducible exact loc_pure _
    | with_reducible exact loc_getc
    | with_reducible exact loc_ftell
    | with_reducible exact loc_fseek_nat _
    | with_reducible exact loc_say _
    | with_reducible exact loc_Read8 _
    | with_reducible exact loc_Read16 _
    | with_reducible exact loc_Read32 _
    | with_reducible exact loc_Read64 _
    | with_reducible exact loc_DUMP1 _ _ _
    | with_reducible exact loc_DUMP2 _ _ _
    | with_reducible exact loc_DUMP4 _ _ _
    | with_reducible exact loc_DUMP8 _ _ _
    | with_reducible exact loc_DUMP2x _ _ _ _ _
    | with_reducible exact loc_DUMP4x _ _ _ _ _
    | with_reducible exact loc_DUMP8x _ _ _ _ _
    | with_reducible exact loc_Dump_string _
    | with_reducible exact loc_Dump_bytes _ _
    | with_reducible exact loc_SkipUnknownData _ _
    | with_reducible exact loc_Dump_if_fulldump _ _ _
    | with_reducible exact loc_Dump_extra_field _ _
    | with_reducible exact loc_Dump_Data_descriptor
    | with_reducible apply loc_ite
    | with_reducible apply loc_bind
    | (intro (x : Bool × Nat); obtain ⟨a, b⟩ := x; dsimp only)
    | (intro (x : Nat × List Nat); obtain ⟨a, b⟩ := x; dsimp only)
    | (intro x; try dsimp only)

theorem loc_ZipDumpFile_switch (cfg : Config) (sig o : Nat) (fc dc : Int) :
    Loc (ZipDumpFile_switch cfg sig o fc dc) := by
  unfold ZipDumpFile_switch
  repeat' first
    | with_reducible exact loc_pure _
    | with_reducible exact loc_getc
    | with_reducible exact loc_ftell
    | with_reducible exact loc_fseek_nat _
    | with_reducible exact loc_say _
    | with_reducible exact loc_Dump_Local_file _ _
    | with_reducible exact loc_Dump_Data_descriptor
    | with_reducible exact loc_Dump_Archive_extra_data_record _
    | with_reducible exact loc_Dump_Central_directory_file_header _ _
    | with_reducible exact loc_Dump_Central_directory_digital_signature _
    | with_reducible exact loc_Dump_Zip64_end_of_central_directory_record _
    | with_reducible exact loc_Dump_Zip64_end_of_central_directory_locator
    | with_reducible exact loc_Dump_End_of_central_directory_record _
    | with_reducible apply loc_ite
    | with_reducible apply loc_bind
    | (intro (x : Bool × Nat); obtain ⟨a, b⟩ := x; dsimp only)
    | (intro (x : Nat × List Nat); obtain ⟨a, b⟩ := x; dsimp only)
    | (intro x; try dsimp only)

/-! ## C32: bytes inserted between two records -/

theorem firstPK_zero (l : List Byte) (h : l.take 2 = [80, 75]) : firstPK l 0 := by
  have := firstPK_append [] l (fun j hj => absurd hj (Nat.not_lt_zero j)) h
  simpa using this

/-- A turn of the walker that starts on a record: the signature is handed to
the `switch`, and the turn ends at least four bytes further in the same file. -/
theorem ZipDumpFile_turn_record (cfg : Config) (w : Walker) (s : Stream)
    (ha : s.rest.take 2 = [80, 75]) (h4 : 4 ≤ s.rest.length) :
    ZipDumpFile_turn cfg w s =
      ⟨some (ZipDumpFile_switch cfg (le (s.rest.take 4)) s.pos
          w.file_count w.dir_count ⟨s.data, s.pos + 4, false⟩).val,
        (ZipDumpFile_switch cfg (le (s.rest.take 4)) s.pos
          w.file_count w.dir_count ⟨s.data, s.pos + 4, false⟩).out,
        (ZipDumpFile_switch cfg (le (s.rest.take 4)) s.pos
          w.file_count w.dir_count ⟨s.data, s.pos + 4, false⟩).fin⟩ ∧
    (ZipDumpFile_turn cfg w s).fin.data = s.data ∧
    s.pos + 4 ≤ (ZipDumpFile_turn cfg w s).fin.pos := by
  have hf := firstPK_zero s.rest ha
  have e := ZipDumpFile_turn_anchor cfg w s 0 hf (by omega)
  have eo : (SkipToNextPK cfg s).out = [] := by rw [SkipToNextPK_found cfg s 0 hf]; rfl
  rw [eo] at e
  simp only [List.drop_zero, Nat.add_zero, List.nil_append] at e
  have hk := keeps_ZipDumpFile_switch cfg (le (s.rest.take 4)) s.pos w.file_count w.dir_count
    ⟨s.data, s.pos + 4, false⟩
  refine ⟨e, ?_, ?_⟩
  · rw [e]; exact hk.1
  · rw [e]; exact hk.2

/-- A turn of the walker that starts on a record and ends at or before
position `p` of a file longer than `p` bytes runs the same way on every file
with the same first `p` bytes. -/
theorem ZipDumpFile_turn_within (cfg : Config) (w : Walker) (p : Nat) (s1 s2 : Stream)
    (h : Agree p s1 s2) (hp : p < s1.data.length)
    (ha : s1.rest.take 2 = [80, 75]) (h4 : 4 ≤ s1.rest.length)
    (hf : (ZipDumpFile_turn cfg w s1).fin.pos ≤ p) :
    s2.rest.take 2 = [80, 75] ∧ 4 ≤ s2.rest.length ∧
    (ZipDumpFile_turn cfg w s1).val = (ZipDumpFile_turn cfg w s2).val ∧
    (ZipDumpFile_turn cfg w s1).out = (ZipDumpFile_turn cfg w s2).out ∧
    Agree p (ZipDumpFile_turn cfg w s1).fin (ZipDumpFile_turn cfg w s2).fin := by
  obtain ⟨e1, _, hpos⟩ := ZipDumpFile_turn_record cfg w s1 ha h4
  have ht := agree_take p s1 s2 h 4 (by omega)
  have ha2 : s2.rest.take 2 = [80, 75] := by
    have e : (s2.rest.take 4).take 2 = (s1.rest.take 4).take 2 := by rw [ht]
    simp only [List.take_take] at e
    rw [show min 2 4 = 2 from rfl] at e
    rw [e]; exact ha
  have h42 : 4 ≤ s2.rest.length := by
    have hl := agree_length p s1 s2 h (Nat.le_of_lt hp)
    have := rest_length s2
    have := h.1
    omega
  obtain ⟨e2, _, _⟩ := ZipDumpFile_turn_record cfg w s2 ha2 h42
  have hA : Agree p ⟨s1.data, s1.pos + 4, false⟩ ⟨s2.data, s2.pos + 4, false⟩ :=
    ⟨by simp only [h.1], rfl, h.2.2⟩
  have hf2 : (ZipDumpFile_switch cfg (le (s1.rest.take 4)) s1.pos w.file_count w.dir_count
      ⟨s1.data, s1.pos + 4, false⟩).fin.pos ≤ p := by
    rw [e1] at hf; exact hf
  obtain ⟨b1, b2, b3⟩ := (loc_ZipDumpFile_switch cfg (le (s1.rest.take 4)) s1.pos
    w.file_count w.dir_count).2 p _ _ hA hp hf2
  rw [← ht] at e2
  rw [e1, e2]
  exact ⟨ha2, h42, by rw [b1, h.1], by rw [b2, h.1], by rw [h.1] at b3 ⊢; exact b3⟩

theorem ZipDumpFile_records_keeps (cfg : Config) :
    ∀ (j : Nat) (w : Walker) (s : Stream) (w1 : Walker) (t : Stream) (o : List Line),
      ZipDumpFile_records cfg j w s = some (w1, t, o) →
        t.data = s.data ∧ s.pos + 4 * j ≤ t.pos := by
  intro j
  induction j with
  | zero =>
    intro w s w1 t o h
    simp only [ZipDumpFile_records, Option.some.injEq, Prod.mk.injEq] at h
    obtain ⟨_, h2, _⟩ := h
    subst h2
    exact ⟨rfl, by omega⟩
  | succ n ih =>
    intro w s w1 t o h
    unfold ZipDumpFile_records at h
    by_cases hc : s.rest.take 2 = [80, 75] ∧ 4 ≤ s.rest.length
    · rw [if_pos hc] at h
      obtain ⟨_, hd, hp⟩ := ZipDumpFile_turn_record cfg w s hc.1 hc.2
      cases hv : (ZipDumpFile_turn cfg w s).val with
      | none => rw [hv] at h; cases h
      | some w2 =>
        rw [hv] at h
        simp only [Option.map_eq_some', Prod.mk.injEq] at h
        obtain ⟨⟨a, b, c⟩, hr, _, hb, _⟩ := h
        simp only at hb
        subst hb
        obtain ⟨g1, g2⟩ := ih w2 _ a b c hr
        exact ⟨g1.trans hd, by omega⟩
    · rw [if_neg hc] at h; cases h

/-- Records that are decoded before position `p` of a file longer than `p`
bytes are decoded the same way in every file with the same first `p` bytes. -/
theorem ZipDumpFile_records_within (cfg : Config) (p : Nat) :
    ∀ (j : Nat) (w : Walker) (s1 s2 : Stream) (w1 : Walker) (t1 : Stream) (o : List Line),
      Agree p s1 s2 → p < s1.data.length →
      ZipDumpFile_records cfg j w s1 = some (w1, t1, o) → t1.pos ≤ p →
        ∃ t2, ZipDumpFile_records cfg j w s2 = some (w1, t2, o) ∧ Agree p t1 t2 := by
  intro j
  induction j with
  | zero =>
    intro w s1 s2 w1 t1 o hA _ h _
    simp only [ZipDumpFile_records, Option.some.injEq, Prod.mk.injEq] at h
    obtain ⟨h1, h2, h3⟩ := h
    subst h1 h2 h3
    exact ⟨s2, rfl, hA⟩
  | succ n ih =>
    intro w s1 s2 w1 t1 o hA hp h ht
    unfold ZipDumpFile_records at h ⊢
    by_cases hc : s1.rest.take 2 = [80, 75] ∧ 4 ≤ s1.rest.length
    · rw [if_pos hc] at h
      obtain ⟨_, hd, _⟩ := ZipDumpFile_turn_record cfg w s1 hc.1 hc.2
      cases hv : (ZipDumpFile_turn cfg w s1).val with
      | none => rw [hv] at h; cases h
      | some w2 =>
        rw [hv] at h
        simp only [Option.map_eq_some', Prod.mk.injEq] at h
        obtain ⟨⟨a, b, c⟩, hr, ha, hb, hcc⟩ := h
        simp only at ha hb hcc
        subst ha hb hcc
        have hk := ZipDumpFile_records_keeps cfg n w2 _ a b c hr
        obtain ⟨c1, c2, c3, c4, c5⟩ := ZipDumpFile_turn_within cfg w p s1 s2 hA hp hc.1 hc.2
          (by omega)
        obtain ⟨t2, g1, g2⟩ := ih w2 _ _ a b c c5 (by rw [hd]; exact hp) hr ht
        rw [if_pos ⟨c1, c2⟩, ← c3, hv]
        simp only
        rw [g1, ← c4]
        exact ⟨t2, rfl, g2⟩
    · rw [if_neg hc] at h; cases h

/-- The loop of the walker after the records it starts with. -/
theorem ZipDumpFile_records_loop (cfg : Config) :
    ∀ (j : Nat) (w : Walker) (s : Stream) (w1 : Walker) (t : Stream) (o : List Line),
      ZipDumpFile_records cfg j w s = some (w1, t, o) →
        ∀ f, ZipDumpFile_loop cfg (j + f) w s = (ZipDumpFile_loop cfg f w1 t).after o := by
  intro j
  induction j with
  | zero =>
    intro w s w1 t o h f
    simp only [ZipDumpFile_records, Option.some.injEq, Prod.mk.injEq] at h
    obtain ⟨h1, h2, h3⟩ := h
    subst h1 h2 h3
    rw [Nat.zero_add, after_nil]
  | succ n ih =>
    intro w s w1 t o h f
    unfold ZipDumpFile_records at h
    by_cases hc : s.rest.take 2 = [80, 75] ∧ 4 ≤ s.rest.length
    · rw [if_pos hc] at h
      cases hv : (ZipDumpFile_turn cfg w s).val with
      | none => rw [hv] at h; cases h
      | some w2 =>
        rw [hv] at h
        simp only [Option.map_eq_some', Prod.mk.injEq] at h
        obtain ⟨⟨a, b, c⟩, hr, ha, hb, hcc⟩ := h
        simp only at ha hb hcc
        subst ha hb hcc
        rw [show n + 1 + f = (n + f) + 1 by omega, ZipDumpFile_loop_step cfg (n + f) w w2 s hv,
          ih w2 _ a b c hr f, after_after]
    · rw [if_neg hc] at h; cases h

theorem shift_of_offset_none (d : Nat) (l : Line) (h : l.offset = none) : l.shift d = l := by
  cases l <;> first | rfl | (simp only [Line.offset] at h; subst h; rfl)

/-- In quiet mode no line shows an offset. -/
theorem ZipDumpFile_loop_quiet_shift (fd om : Bool) (u : Nat) (f : Nat) (w : Walker) (s : Stream)
    (d : Nat) :
    (ZipDumpFile_loop ⟨fd, true, om, u⟩ f w s).out.map (Line.shift d) =
      (ZipDumpFile_loop ⟨fd, true, om, u⟩ f w s).out := by
  have e := (qsim_ZipDumpFile_loop fd om u f w s).2.2
  have hq := quieted_quiet (ZipDumpFile_loop ⟨fd, false, om, u⟩ f w s).out
  rw [← e] at hq
  conv_rhs => rw [← List.map_id (ZipDumpFile_loop ⟨fd, true, om, u⟩ f w s).out]
  apply List.map_congr_left
  intro l hl
  exact shift_of_offset_none d l (hq l hl).2

/-- The loop of the walker run from a position `p` at which the bytes left are
none or begin with an anchor, in the file with `J` inserted at `p`: the bytes
of `J` are reported as unknown data, and the run goes on as in the file
itself, `J.length` bytes further. -/
theorem ZipDumpFile_loop_insert (cfg : Config) (w : Walker) (S J : List Byte) (p : Nat)
    (e : Bool) (f0 g0 : Nat) (hp : p ≤ S.length) (hJ : J ≠ []) (hno : noPK J)
    (hb : S.drop p = [] ∨ (S.drop p).take 2 = [80, 75])
    (hf : (S.drop p).length ≤ f0) :
    (ZipDumpFile_loop cfg (f0 + 1) w ⟨S, p, e⟩).val = true ∧
    (ZipDumpFile_loop cfg (f0 + g0 + 1 + 1) w ⟨insertAt S p J, p, e⟩).val = true ∧
    (ZipDumpFile_loop cfg (f0 + g0 + 1 + 1) w ⟨insertAt S p J, p, e⟩).out =
      (SkipUnknownData cfg J.length ⟨insertAt S p J, p, false⟩).out ++
        (ZipDumpFile_loop cfg (f0 + 1) w ⟨S, p, e⟩).out.map (Line.shift J.length) := by
  have hk : 0 < J.length := List.length_pos.2 hJ
  have hr1 : (⟨insertAt S p J, p, e⟩ : Stream).rest = J ++ S.drop p := rest_insertAt S J p e hp
  have hr2 : (⟨S, p, e⟩ : Stream).rest = S.drop p := rfl
  have hend : (ZipDumpFile_loop cfg (f0 + 1) w ⟨S, p, e⟩).val = true :=
    ZipDumpFile_loop_ends cfg f0 w ⟨S, p, e⟩ (by rw [hr2]; omega)
  refine ⟨hend, ?_⟩
  rcases hb with hR | hR
  · have t0 := ZipDumpFile_turn_end cfg w ⟨S, p, e⟩ (hr2.trans hR)
    have l0 := ZipDumpFile_loop_stop cfg f0 w ⟨S, p, e⟩ (congrArg Res.val t0)
    have hJr : (⟨insertAt S p J, p, e⟩ : Stream).rest = J := by rw [hr1, hR, List.append_nil]
    have h1 := SkipToNextPK_none cfg ⟨insertAt S p J, p, e⟩ (by rw [hJr]; exact hJ)
      (by rw [hJr]; exact hno)
    rw [hJr] at h1
    have hre : (⟨insertAt S p J, p + J.length, false⟩ : Stream).rest = [] := by
      have := rest_at ⟨insertAt S p J, p, e⟩ J.length false
      rw [hJr] at this
      simpa using this
    have t1 := ZipDumpFile_turn_go cfg w _ _ _ h1
    rw [ZipDumpFile_body_end cfg w _ hre] at t1
    have hre2 : (Stream.hitEof ⟨insertAt S p J, p + J.length, false⟩).rest = [] := by
      rw [hitEof_nil _ hre]
      exact hre
    have t2 := ZipDumpFile_turn_end cfg w _ hre2
    have l2 := ZipDumpFile_loop_stop cfg (f0 + g0) w _ (congrArg Res.val t2)
    rw [ZipDumpFile_loop_step cfg (f0 + g0 + 1) w w _ (congrArg Res.val t1), t1, l2, l0, t0, t2]
    simp [Res.after]
  · have hf1 : firstPK (⟨insertAt S p J, p, e⟩ : Stream).rest J.length := by
      rw [hr1]
      exact firstPK_append J _ hno hR
    have hf2 : firstPK (⟨S, p, e⟩ : Stream).rest 0 := firstPK_zero _ hR
    have h1 := SkipToNextPK_found cfg ⟨insertAt S p J, p, e⟩ J.length hf1
    have h2 := SkipToNextPK_found cfg ⟨S, p, e⟩ 0 hf2
    simp only [Nat.pos_iff_ne_zero.1 hk, if_false] at h1
    simp only [if_true, Nat.add_zero] at h2
    have hA : Ahead J.length ⟨insertAt S p J, p + J.length, false⟩ ⟨S, p, false⟩ := by
      refine ⟨?_, rfl, rfl⟩
      have := rest_at ⟨insertAt S p J, p, e⟩ J.length false
      rw [hr1, List.drop_left] at this
      exact this
    have r := ZipDumpFile_loop_resume cfg w J.length _ _ _ _ _ h1 h2 hA (f0 + g0 + 1)
    have m := ZipDumpFile_loop_mono cfg (f0 + 1) w ⟨S, p, e⟩ hend (g0 + 1)
    have hfg : f0 + 1 + (g0 + 1) = f0 + g0 + 1 + 1 := by omega
    rw [hfg] at m
    rw [m] at r
    exact ⟨r.1.trans hend, r.2⟩

theorem length_insertAt (S J : List Byte) (p : Nat) :
    (insertAt S p J).length = S.length + J.length := by
  unfold insertAt
  simp only [List.length_append, List.length_take, List.length_drop]
  omega

theorem take_insertAt (S J : List Byte) (p : Nat) (hp : p ≤ S.length) :
    (insertAt S p J).take p = S.take p := by
  unfold insertAt
  rw [List.append_assoc, List.take_append_of_le_length (by simp only [List.length_take]; omega),
    List.take_take, Nat.min_self]

/-- C32, with a proviso for the end of the stream: let the first `j` turns of
the quiet pass over `S` each start on a record, and end at position `p`, where
the bytes left are none or begin with an anchor; let `J` be at least one byte
and hold no anchor; and, when `p` is the end of `S`, let these `j` records be
decoded up to `p` also in the file with `J` inserted.  Then the pass over `S`
and the pass over `S` with `J` inserted at `p` both end, and the second writes
the lines of the first with the report of `J.length` bytes of unknown data
(one line, followed in full-dump mode by the hex rows of `J`) inserted after
the lines of the `j` records, and nothing else changed. -/
theorem C32_resync_between_records (fd om : Bool) (u : Nat) (S J : List Byte) (j p : Nat)
    (w : Walker) (t : Stream) (pre : List Line) (hJ : J ≠ []) (hno : noPK J)
    (hrec : ZipDumpFile_records ⟨fd, true, om, u⟩ j ⟨0, 0, 0⟩ ⟨S, 0, false⟩ = some (w, t, pre))
    (hpos : t.pos = p) (hp : p ≤ S.length)
    (hb : S.drop p = [] ∨ (S.drop p).take 2 = [80, 75])
    (hend : p < S.length ∨
      ∃ w2 t2 pre2, ZipDumpFile_records ⟨fd, true, om, u⟩ j ⟨0, 0, 0⟩
        ⟨insertAt S p J, 0, false⟩ = some (w2, t2, pre2) ∧ t2.pos = p) :
    (ZipDumpFile ⟨fd, true, om, u⟩ ⟨S, 0, false⟩).val = true ∧
    (ZipDumpFile ⟨fd, true, om, u⟩ ⟨insertAt S p J, 0, false⟩).val = true ∧
    (∃ suf : List Line,
      (ZipDumpFile ⟨fd, true, om, u⟩ ⟨S, 0, false⟩).out = pre ++ suf ∧
      (ZipDumpFile ⟨fd, true, om, u⟩ ⟨insertAt S p J, 0, false⟩).out =
        pre ++ ((SkipUnknownData ⟨fd, true, om, u⟩ J.length ⟨insertAt S p J, p, false⟩).out
          ++ suf) ∧
      skips (ZipDumpFile ⟨fd, true, om, u⟩ ⟨insertAt S p J, 0, false⟩).out =
        skips pre ++ J.length :: skips suf) ∧
    skips (SkipUnknownData ⟨fd, true, om, u⟩ J.length ⟨insertAt S p J, p, false⟩).out =
      [J.length] ∧
    (fd = false →
      (SkipUnknownData ⟨fd, true, om, u⟩ J.length ⟨insertAt S p J, p, false⟩).out =
        [Line.skipUnknown J.length]) := by
  have hk : 0 < J.length := List.length_pos.2 hJ
  have hA0 : Agree p ⟨S, 0, false⟩ ⟨insertAt S p J, 0, false⟩ :=
    ⟨rfl, rfl, (take_insertAt S J p hp).symm⟩
  have hl2 : p < (insertAt S p J).length := by rw [length_insertAt]; omega
  -- the records before `p` are decoded alike in the two files
  obtain ⟨t2, hrec2, hA⟩ : ∃ t2, ZipDumpFile_records ⟨fd, true, om, u⟩ j ⟨0, 0, 0⟩
      ⟨insertAt S p J, 0, false⟩ = some (w, t2, pre) ∧ Agree p t t2 := by
    rcases hend with hlt | ⟨w2, t2, pre2, hr2, hp2⟩
    · exact ZipDumpFile_records_within _ p j _ _ _ w t pre hA0 hlt hrec (by omega)
    · obtain ⟨t3, g1, g2⟩ := ZipDumpFile_records_within _ p j ⟨0, 0, 0⟩
        ⟨insertAt S p J, 0, false⟩ ⟨S, 0, false⟩ w2 t2 pre2
        ⟨rfl, rfl, take_insertAt S J p hp⟩ hl2 hr2 (by omega)
      rw [hrec] at g1
      simp only [Option.some.injEq, Prod.mk.injEq] at g1
      obtain ⟨g3, g4, g5⟩ := g1
      subst g3 g4 g5
      exact ⟨t2, hr2, ⟨g2.1.symm, g2.2.1.symm, g2.2.2.symm⟩⟩
  obtain ⟨hd1, hj1⟩ := ZipDumpFile_records_keeps _ j _ _ w t pre hrec
  obtain ⟨hd2, _⟩ := ZipDumpFile_records_keeps _ j _ _ w t2 pre hrec2
  have ht : t = ⟨S, p, t.eof⟩ := by
    cases t with
    | mk d q e => simp only at hd1 hpos; subst hd1 hpos; rfl
  have ht2 : t2 = ⟨insertAt S p J, p, t.eof⟩ := by
    cases t2 with
    | mk d q e =>
      have h1 := hA.1
      have h2 := hA.2.1
      simp only at hd2 h1 h2
      subst hd2
      rw [← h1, hpos, h2]
  simp only [Nat.zero_add] at hj1
  -- the two passes
  obtain ⟨f0, hf0⟩ : ∃ f0, S.length + 1 = j + (f0 + 1) := ⟨S.length - j, by omega⟩
  obtain ⟨g0, hg0⟩ : ∃ g0, J.length = g0 + 1 := ⟨J.length - 1, by omega⟩
  have e1 : ZipDumpFile ⟨fd, true, om, u⟩ ⟨S, 0, false⟩ =
      (ZipDumpFile_loop ⟨fd, true, om, u⟩ (f0 + 1) w ⟨S, p, t.eof⟩).after pre := by
    have := ZipDumpFile_records_loop _ j _ _ w t pre hrec (f0 + 1)
    rw [ht] at this
    unfold ZipDumpFile
    simp only
    rw [hf0]
    exact this
  have e2 : ZipDumpFile ⟨fd, true, om, u⟩ ⟨insertAt S p J, 0, false⟩ =
      (ZipDumpFile_loop ⟨fd, true, om, u⟩ (f0 + g0 + 1 + 1) w
        ⟨insertAt S p J, p, t.eof⟩).after pre := by
    have := ZipDumpFile_records_loop _ j _ _ w t2 pre hrec2 (f0 + g0 + 1 + 1)
    rw [ht2] at this
    unfold ZipDumpFile
    simp only
    rw [length_insertAt, show S.length + J.length + 1 = j + (f0 + g0 + 1 + 1) by omega]
    exact this
  obtain ⟨m1, m2, m3⟩ := ZipDumpFile_loop_insert ⟨fd, true, om, u⟩ w S J p t.eof f0 g0 hp hJ hno
    hb (by rw [List.length_drop]; omega)
  rw [ZipDumpFile_loop_quiet_shift] at m3
  have hsk := SkipUnknownData_skips ⟨fd, true, om, u⟩ J.length ⟨insertAt S p J, p, false⟩
  refine ⟨by rw [e1]; exact m1, by rw [e2]; exact m2, ⟨_, by rw [e1]; rfl, ?_, ?_⟩, hsk, ?_⟩
  · rw [e2, after_out, m3]
  · rw [e2, after_out, m3, skips_append, skips_append, hsk]
    rfl
  · intro hfd
    subst hfd
    simp [SkipUnknownData, bind_run, say_run, fseek_fwd]

set_option maxRecDepth 100000 in
/-- C32 witness: three bytes inserted between the local file of the minimal
archive `sampleZip` and its central directory header, at position 34. -/
theorem C32_resync_between_records_witness :
    noPK [1, 2, 3] ∧
    ZipDumpFile_records ⟨false, true, false, 0⟩ 1 ⟨0, 0, 0⟩ ⟨sampleZip, 0, false⟩ =
      some (⟨0x04034b50, 1, 0⟩, ⟨sampleZip, 34, false⟩,
        (ZipDumpFile_turn ⟨false, true, false, 0⟩ ⟨0, 0, 0⟩ ⟨sampleZip, 0, false⟩).out ++ []) ∧
    (sampleZip.drop 34).take 2 = [80, 75] ∧ 34 < sampleZip.length ∧
    (ZipDumpFile ⟨false, true, false, 0⟩ ⟨insertAt sampleZip 34 [1, 2, 3], 0, false⟩).val = true ∧
    ∃ suf : List Line,
      (ZipDumpFile ⟨false, true, false, 0⟩ ⟨sampleZip, 0, false⟩).out =
        ((ZipDumpFile_turn ⟨false, true, false, 0⟩ ⟨0, 0, 0⟩ ⟨sampleZip, 0, false⟩).out ++ [])
          ++ suf ∧
      (ZipDumpFile ⟨false, true, false, 0⟩ ⟨insertAt sampleZip 34 [1, 2, 3], 0, false⟩).out =
        ((ZipDumpFile_turn ⟨false, true, false, 0⟩ ⟨0, 0, 0⟩ ⟨sampleZip, 0, false⟩).out ++ []) ++
          ((SkipUnknownData ⟨false, true, false, 0⟩ [1, 2, 3].length
            ⟨insertAt sampleZip 34 [1, 2, 3], 34, false⟩).out ++ suf) ∧
      skips (ZipDumpFile ⟨false, true, false, 0⟩
          ⟨insertAt sampleZip 34 [1, 2, 3], 0, false⟩).out =
        skips ((ZipDumpFile_turn ⟨false, true, false, 0⟩ ⟨0, 0, 0⟩
          ⟨sampleZip, 0, false⟩).out ++ []) ++ [1, 2, 3].length :: skips suf :=
  ⟨by decide, by decide, by decide, by decide,
   (C32_resync_between_records false false 0 sampleZip [1, 2, 3] 1 34 ⟨0x04034b50, 1, 0⟩
      ⟨sampleZip, 34, false⟩
      ((ZipDumpFile_turn ⟨false, true, false, 0⟩ ⟨0, 0, 0⟩ ⟨sampleZip, 0, false⟩).out ++ [])
      (by decide) (by decide) (by decide) rfl (by decide)
      (Or.inr (by decide)) (Or.inl (by decide))).2.1,
   (C32_resync_between_records false false 0 sampleZip [1, 2, 3] 1 34 ⟨0x04034b50, 1, 0⟩
      ⟨sampleZip, 34, false⟩
      ((ZipDumpFile_turn ⟨false, true, false, 0⟩ ⟨0, 0, 0⟩ ⟨sampleZip, 0, false⟩).out ++ [])
      (by decide) (by decide) (by decide) rfl (by decide)
      (Or.inr (by decide)) (Or.inl (by decide))).2.2.1⟩

set_option maxRecDepth 100000 in
/-- C32 as stated fails at the end of the stream: the file `sampleShortComment`
is one end of central directory record, which its decoder consumes exactly
(the first turn of the quiet pass starts on the record and ends at position
24, the end of the file) while running into the end of the file, since the
record declares a comment of 5 bytes and holds 2.  With the bytes 1, 2, 3,
which hold no anchor, inserted at the end, the pass reports no unknown data:
the three bytes are shown as part of the comment. -/
theorem C32_end_of_stream_counterexample :
    noPK [1, 2, 3] ∧ sampleShortComment.length = 24 ∧
    (ZipDumpFile_records ⟨false, true, false, 0⟩ 1 ⟨0, 0, 0⟩
      ⟨sampleShortComment, 0, false⟩).map (fun r => r.2.1.pos) = some 24 ∧
    texts (ZipDumpFile ⟨false, true, false, 0⟩ ⟨sampleShortComment, 0, false⟩).out =
      [[97, 98]] ∧
    skips (ZipDumpFile ⟨false, true, false, 0⟩ ⟨sampleShortComment, 0, false⟩).out = [] ∧
    texts (ZipDumpFile ⟨false, true, false, 0⟩
      ⟨insertAt sampleShortComment 24 [1, 2, 3], 0, false⟩).out =
      [[97, 98, 94, 65, 94, 66, 94, 67]] ∧
    skips (ZipDumpFile ⟨false, true, false, 0⟩
      ⟨insertAt sampleShortComment 24 [1, 2, 3], 0, false⟩).out = [] := by
  decide

end ZipDump
